import Mathlib

/-!
# TCG back-end (tcg/tcg.c): temps, op definitions, liveness analysis, register
allocator, label fix-ups

A shallow embedding of the code of `src/tcg/tcg.c`.

* The C structures `TCGTemp`, `TCGOp`, `TCGOpDef`, `TCGArgConstraint`, `TCGLabel`,
  `TCGRelocation` and the part of `TCGContext` used by the code below are Lean
  structures with the same field names.
* Everything that comes from headers and from the host back-end (`tcg-target.c`,
  `tcg-opc.h`, `tcg.h`), none of which is part of the sources, is a field of the
  structure `Config`: the op-definition table, the flag masks, the register
  tables of the host and the emitter functions.
* Arrays are lists.  In the liveness pass an access outside an array
  (undefined in C) reads the default value and writes nothing.  In the register
  allocator such an access is the fault `Fault.oob`.
* `tcg_abort()` is the fault `Fault.abort`, a failed `assert` or
  `tcg_debug_assert` is `Fault.assert`: the code is read as the build with
  `CONFIG_DEBUG_TCG`, the only one in which `tcg.c` leaves `NDEBUG` undefined.
* A bitmap (`TCGTempSet`) is the list of its bits; `set_bit`, `clear_bit` and
  `find_first_bit` of `qemu/bitops.h` are the operations on that list.
* In the set-up of the op definitions (`sort_constraints`,
  `tcg_add_target_add_op_defs`) an access outside `args_ct` or `sorted_args` reads
  the default value and writes nothing, as in the liveness pass.
* Loops that follow `prev`/`next` links carry a fuel argument.
-/

namespace TCG

abbrev TCGArg := Nat
abbrev TCGRegSet := Nat

/-- Opcodes named in `tcg.c`; every other opcode of `tcg-opc.h` is `other n`. -/
inductive TCGOpcode
  | call | insn_start | discard | set_label
  | mov_i32 | mov_i64 | movi_i32 | movi_i64
  | add_i32 | sub_i32 | add_i64 | sub_i64
  | mul_i32 | mul_i64
  | muluh_i32 | mulsh_i32 | muluh_i64 | mulsh_i64
  | add2_i32 | sub2_i32 | add2_i64 | sub2_i64
  | mulu2_i32 | muls2_i32 | mulu2_i64 | muls2_i64
  | other (n : Nat)
  deriving DecidableEq, Repr, Inhabited

inductive TCGType
  | I32 | I64
  deriving DecidableEq, Repr, Inhabited

/-- Values of `TEMP_VAL_*`. -/
inductive TCGTempVal
  | DEAD | REG | MEM | CONST
  deriving DecidableEq, Repr, Inhabited

structure TCGTemp where
  base_type : TCGType
  type : TCGType
  val_type : TCGTempVal
  reg : Nat
  val : Nat
  mem_reg : Nat
  mem_offset : Int
  fixed_reg : Bool
  mem_coherent : Bool
  mem_allocated : Bool
  temp_local : Bool
  temp_allocated : Bool
  deriving DecidableEq, Repr, Inhabited

structure TCGArgConstraint where
  ct : Nat
  alias_index : Nat
  regs : TCGRegSet
  deriving DecidableEq, Repr, Inhabited

structure TCGOpDef where
  nb_oargs : Nat
  nb_iargs : Nat
  nb_cargs : Nat
  flags : Nat
  args_ct : List TCGArgConstraint
  sorted_args : List Nat
  /-- the flag `used` of the build with `CONFIG_DEBUG_TCG` -/
  used : Bool := false
  deriving DecidableEq, Repr, Inhabited

structure TCGOp where
  opc : TCGOpcode
  callo : Nat
  calli : Nat
  args : Int
  prev : Int
  next : Int
  deriving DecidableEq, Repr, Inhabited

structure TCGRelocation where
  type : Nat
  ptr : Nat
  addend : Int
  deriving DecidableEq, Repr, Inhabited

/-- The union `u` of a label: the resolved address or the list of pending
relocations (`first_reloc` with its `next` links). -/
inductive TCGLabelU
  | value (v : Nat)
  | first_reloc (r : List TCGRelocation)
  deriving DecidableEq, Repr, Inhabited

structure TCGLabel where
  has_value : Bool
  u : TCGLabelU
  deriving DecidableEq, Repr, Inhabited

/-- One call of a function of the host back-end, in the order of the calls. -/
inductive HostInsn
  | mov (type : TCGType) (ret arg : Nat)
  | movi (type : TCGType) (ret : Nat) (arg : Nat)
  | ld (type : TCGType) (ret arg1 : Nat) (arg2 : Int)
  | st (type : TCGType) (arg arg1 : Nat) (arg2 : Int)
  | op (opc : TCGOpcode) (args : List (Option TCGArg)) (const_args : List (Option Nat))
  | call (target : Nat)
  | patch_reloc (code_ptr : Nat) (type : Nat) (value : Nat) (addend : Int)
  | tb_init
  | tb_finalize
  deriving DecidableEq, Repr, Inhabited

/-- A relocation requested by the back-end while it emits an op: the host
`tcg_out_op` calls `tcg_out_reloc (code_ptr + ofs) type label addend`. -/
structure RelocReq where
  ofs : Nat
  type : Nat
  label : Nat
  addend : Int
  deriving DecidableEq, Repr, Inhabited

/-- The part of `TCGContext` used by liveness, register allocation and code
generation.  `out` is the sequence of back-end calls made so far. -/
structure TCGContext where
  nb_globals : Nat
  nb_temps : Nat
  temps : List TCGTemp
  gen_op_buf : List TCGOp
  gen_opparam_buf : List TCGArg
  gen_first_op_idx : Int
  gen_last_op_idx : Int
  gen_next_op_idx : Nat
  op_dead_args : List Nat
  op_sync_args : List Nat
  reg_to_temp : List Int
  reserved_regs : TCGRegSet
  frame_reg : Nat
  frame_start : Int
  frame_end : Int
  current_frame_offset : Int
  code_buf : Nat
  code_ptr : Nat
  code_gen_highwater : Nat
  labels : List TCGLabel
  gen_insn_end_off : List Nat
  gen_insn_data : List (List TCGArg)
  out : List HostInsn
  gen_next_parm_idx : Nat := 0
  /-- `free_temps[k].l`, one bitmap of `TCG_MAX_TEMPS` bits for each bucket -/
  free_temps : List (List Bool) := []
  /-- the counter `temps_in_use` of the build with `CONFIG_DEBUG_TCG` -/
  temps_in_use : Int := 0
  deriving DecidableEq, Repr, Inhabited

/-- The fields `flags` and `sizemask` of `TCGHelperInfo`. -/
structure TCGHelperInfo where
  flags : Nat
  sizemask : Nat
  deriving DecidableEq, Repr, Inhabited

/-- One entry of the table handed to `tcg_add_target_add_op_defs`: the opcode and its
constraint strings; a missing string is the `NULL` pointer. -/
structure TCGTargetOpDef where
  op : TCGOpcode
  args_ct_str : List (Option (List Char))
  deriving DecidableEq, Repr, Inhabited

/-- What the headers and the host back-end define. -/
structure Config where
  tcg_op_defs : TCGOpcode → TCGOpDef
  TCG_OPF_BB_END : Nat
  TCG_OPF_CALL_CLOBBER : Nat
  TCG_OPF_SIDE_EFFECTS : Nat
  TCG_OPF_NOT_PRESENT : Nat
  TCG_CALL_NO_READ_GLOBALS : Nat
  TCG_CALL_NO_WRITE_GLOBALS : Nat
  TCG_CALL_NO_SIDE_EFFECTS : Nat
  TCG_CALL_DUMMY_ARG : TCGArg
  TCG_CT_ALIAS : Nat
  TCG_CT_IALIAS : Nat
  TCG_TARGET_HAS_muluh_i32 : Bool
  TCG_TARGET_HAS_mulsh_i32 : Bool
  TCG_TARGET_HAS_muluh_i64 : Bool
  TCG_TARGET_HAS_mulsh_i64 : Bool
  TCG_TARGET_NB_REGS : Nat
  TCG_MAX_OP_ARGS : Nat
  TARGET_INSN_START_WORDS : Nat
  tcg_target_reg_alloc_order : List Nat
  tcg_target_call_iarg_regs : List Nat
  tcg_target_call_oarg_regs : List Nat
  tcg_target_call_clobber_regs : TCGRegSet
  tcg_target_available_regs : TCGType → TCGRegSet
  tcg_target_const_match : Nat → TCGType → TCGArgConstraint → Bool
  sizeof_tcg_target_long : Nat
  TCG_TARGET_STACK_ALIGN : Nat
  TCG_STATIC_CALL_ARGS_SIZE : Nat
  TCG_TARGET_CALL_STACK_OFFSET : Int
  TCG_REG_CALL_STACK : Nat
  TCG_TARGET_STACK_GROWSUP : Bool
  /-- number of bytes a back-end call writes at `code_ptr` -/
  insn_size : HostInsn → Nat
  /-- relocations the host `tcg_out_op` requests for an op -/
  op_relocs : TCGOpcode → List (Option TCGArg) → List RelocReq
  /-- the optimizer (`optimize.c`), run before liveness -/
  tcg_optimize : TCGContext → TCGContext
  /-- `TARGET_LONG_BITS > TCG_TARGET_REG_BITS` -/
  TARGET_LONG_WIDER : Bool
  TCG_MAX_TEMPS : Nat
  TCG_TYPE_COUNT : Nat
  /-- the value of `TCG_TYPE_I32`, `TCG_TYPE_I64` as an `int` -/
  tcg_type_index : TCGType → Nat
  TCG_TARGET_REG_BITS : Nat
  TCG_CT_REG : Nat
  TCG_CT_CONST : Nat
  OPC_BUF_SIZE : Nat
  OPPARAM_BUF_SIZE : Nat
  HOST_WORDS_BIGENDIAN : Bool
  TCG_TARGET_CALL_ALIGN_ARGS : Bool
  /-- number of bits of the bit-field `calli` of `TCGOp` -/
  calli_bits : Nat
  /-- the hash table `s->helpers`, filled from `exec/helper-tcg.h` -/
  helpers : Nat → Option TCGHelperInfo
  /-- `target_parse_constraint` of the host: the constraint and the rest of the
  string, `none` for a negative return value -/
  target_parse_constraint : TCGArgConstraint → List Char → Option (TCGArgConstraint × List Char)
  /-- the opcodes `0 .. tcg_op_defs_max - 1` -/
  all_ops : List TCGOpcode

/-- `x & mask` is non-zero -/
def flag (x mask : Nat) : Bool := (x &&& mask) != 0

/-! ## Liveness analysis -/

/-- Modelled from the spec: the sentinel that `tcg_op_remove` writes over a deleted
op (`memset(op, -1, sizeof(*op))`). The field widths of `TCGOp` come from `tcg.h`,
which is not part of the sources; every link of the sentinel is -1. -/
def TCGOp.poison : TCGOp :=
  { opc := TCGOpcode.other 255, callo := 3, calli := 63, args := -1, prev := -1, next := -1 }

/-- `buf[i].prev = v` -/
def set_prev (buf : List TCGOp) (i : Nat) (v : Int) : List TCGOp :=
  buf.set i { buf.getD i TCGOp.poison with prev := v }

/-- `buf[i].next = v` -/
def set_next (buf : List TCGOp) (i : Nat) (v : Int) : List TCGOp :=
  buf.set i { buf.getD i TCGOp.poison with next := v }

def tcg_op_remove (s : TCGContext) (oi : Nat) : TCGContext :=
  let op := s.gen_op_buf.getD oi TCGOp.poison
  let next := op.next
  let prev := op.prev
  let s1 : TCGContext :=
    if 0 ≤ next then { s with gen_op_buf := set_prev s.gen_op_buf next.toNat prev }
    else { s with gen_last_op_idx := prev }
  let s2 : TCGContext :=
    if 0 ≤ prev then { s1 with gen_op_buf := set_next s1.gen_op_buf prev.toNat next }
    else { s1 with gen_first_op_idx := next }
  { s2 with gen_op_buf := s2.gen_op_buf.set oi TCGOp.poison }

/-- The two arrays of the liveness pass. -/
structure LaState where
  dead_temps : List Bool
  mem_temps : List Bool
  deriving DecidableEq, Repr, Inhabited

/-- The list `l` with `f i` written at every index `i` -/
def overwrite (l : List Bool) (f : Nat → Bool → Bool) : List Bool :=
  (List.range l.length).map (fun i => f i (l.getD i false))

/-- `memset(p, 1, n)` -/
def memset1 (l : List Bool) (n : Nat) : List Bool :=
  overwrite l (fun i b => if i < n then true else b)

def tcg_la_func_end (s : TCGContext) (st : LaState) : LaState :=
  { dead_temps := memset1 st.dead_temps s.nb_temps,
    mem_temps := overwrite st.mem_temps
      (fun i b => if i < s.nb_globals then true else if i < s.nb_temps then false else b) }

def tcg_la_bb_end (s : TCGContext) (st : LaState) : LaState :=
  { dead_temps := memset1 st.dead_temps s.nb_temps,
    mem_temps := overwrite st.mem_temps
      (fun i b => if i < s.nb_globals then true
                  else if i < s.nb_temps then (s.temps.getD i default).temp_local else b) }

/-- Accumulator of the loops that build `dead_args` (uint16_t) and `sync_args` (uint8_t). -/
structure LaAcc where
  dead_args : Nat
  sync_args : Nat
  st : LaState
  deriving DecidableEq, Repr, Inhabited

/-- One iteration of the loop "output args are dead". -/
def la_out_step (args : Nat → TCGArg) (acc : LaAcc) (i : Nat) : LaAcc :=
  let arg := args i
  { dead_args := if acc.st.dead_temps.getD arg false
                 then (acc.dead_args ||| (1 <<< i)) % 65536 else acc.dead_args,
    sync_args := if acc.st.mem_temps.getD arg false
                 then (acc.sync_args ||| (1 <<< i)) % 256 else acc.sync_args,
    st := { dead_temps := acc.st.dead_temps.set arg true,
            mem_temps := acc.st.mem_temps.set arg false } }

def la_outputs (args : Nat → TCGArg) (nb_oargs : Nat) (st : LaState) : LaAcc :=
  (List.range nb_oargs).foldl (la_out_step args) { dead_args := 0, sync_args := 0, st := st }

/-- The loop "input arguments are live for preceding opcodes". -/
def la_inputs_live (args : Nat → TCGArg) (nb_oargs nb_iargs : Nat) (dead : List Bool) :
    List Bool :=
  (List.range' nb_oargs nb_iargs).foldl (fun d i => d.set (args i) false) dead

/-- The test "every output is dead and its memory copy is not needed". -/
def la_all_dead (args : Nat → TCGArg) (nb_oargs : Nat) (st : LaState) : Bool :=
  (List.range nb_oargs).all
    (fun i => st.dead_temps.getD (args i) false && !st.mem_temps.getD (args i) false)

/-- Result of one iteration of the loop of `tcg_liveness_analysis`. -/
inductive LaResult
  /-- `tcg_op_remove` was called -/
  | remove
  /-- no entry of `op_dead_args`/`op_sync_args` written (insn_start, discard) -/
  | skip (st : LaState)
  /-- the op stays with opcode `opc`; `writes` are the stores `args[k] = v` made,
  in order; `dead_args`, `sync_args` are stored at the op's index -/
  | keep (opc : TCGOpcode) (writes : List (Nat × TCGArg)) (dead_args sync_args : Nat)
      (st : LaState)
  deriving DecidableEq, Repr, Inhabited

/-- The code from the label `do_not_remove_call` to the end of the case. -/
def la_do_not_remove_call (cfg : Config) (s : TCGContext) (args : Nat → TCGArg)
    (nb_oargs nb_iargs : Nat) (call_flags : Nat) (st : LaState) : LaAcc :=
  let acc := la_outputs args nb_oargs st
  let mem1 := if !flag call_flags cfg.TCG_CALL_NO_READ_GLOBALS
              then memset1 acc.st.mem_temps s.nb_globals else acc.st.mem_temps
  let dead1 := if !flag call_flags (cfg.TCG_CALL_NO_WRITE_GLOBALS ||| cfg.TCG_CALL_NO_READ_GLOBALS)
               then memset1 acc.st.dead_temps s.nb_globals else acc.st.dead_temps
  let dead_args := (List.range' nb_oargs nb_iargs).foldl
    (fun da i =>
      if args i != cfg.TCG_CALL_DUMMY_ARG && dead1.getD (args i) false
      then (da ||| (1 <<< i)) % 65536 else da) acc.dead_args
  { dead_args := dead_args, sync_args := acc.sync_args,
    st := { dead_temps := la_inputs_live args nb_oargs nb_iargs dead1, mem_temps := mem1 } }

/-- The code from the label `do_not_remove` to the end of the case; `df` is the
`def` of the opcode the iteration started with. -/
def la_do_not_remove (cfg : Config) (s : TCGContext) (df : TCGOpDef) (args : Nat → TCGArg)
    (nb_oargs nb_iargs : Nat) (st : LaState) : LaAcc :=
  let acc := la_outputs args nb_oargs st
  let st1 := if flag df.flags cfg.TCG_OPF_BB_END then tcg_la_bb_end s acc.st
             else if flag df.flags cfg.TCG_OPF_SIDE_EFFECTS
             then { acc.st with mem_temps := memset1 acc.st.mem_temps s.nb_globals }
             else acc.st
  let dead_args := (List.range' nb_oargs nb_iargs).foldl
    (fun da i => if st1.dead_temps.getD (args i) false then (da ||| (1 <<< i)) % 65536 else da)
    acc.dead_args
  { dead_args := dead_args, sync_args := acc.sync_args,
    st := { dead_temps := la_inputs_live args nb_oargs nb_iargs st1.dead_temps,
            mem_temps := st1.mem_temps } }

def la_keep (opc : TCGOpcode) (writes : List (Nat × TCGArg)) (acc : LaAcc) : LaResult :=
  LaResult.keep opc writes acc.dead_args acc.sync_args acc.st

/-- The stores `args[k] = v`, applied to the view `args[.]`. -/
def args_write (args : Nat → TCGArg) (k : Nat) (v : TCGArg) : Nat → TCGArg :=
  fun j => if j = k then v else args j

/-- The label `do_addsub2`. -/
def la_addsub2 (cfg : Config) (s : TCGContext) (df : TCGOpDef) (opc opc_new : TCGOpcode)
    (args : Nat → TCGArg) (st : LaState) : LaResult :=
  if st.dead_temps.getD (args 1) false && !st.mem_temps.getD (args 1) false then
    if st.dead_temps.getD (args 0) false && !st.mem_temps.getD (args 0) false then
      LaResult.remove
    else
      let args1 := args_write args 1 (args 2)
      let args2 := args_write args1 2 (args1 4)
      la_keep opc_new [(1, args 2), (2, args1 4)] (la_do_not_remove cfg s df args2 1 2 st)
  else
    la_keep opc [] (la_do_not_remove cfg s df args 2 4 st)

/-- The label `do_mul2`. -/
def la_mul2 (cfg : Config) (s : TCGContext) (df : TCGOpDef) (opc opc_new opc_new2 : TCGOpcode)
    (have_opc_new2 : Bool) (args : Nat → TCGArg) (st : LaState) : LaResult :=
  if st.dead_temps.getD (args 1) false && !st.mem_temps.getD (args 1) false then
    if st.dead_temps.getD (args 0) false && !st.mem_temps.getD (args 0) false then
      LaResult.remove
    else
      let args1 := args_write args 1 (args 2)
      let args2 := args_write args1 2 (args1 3)
      la_keep opc_new [(1, args 2), (2, args1 3)] (la_do_not_remove cfg s df args2 1 2 st)
  else if have_opc_new2 && st.dead_temps.getD (args 0) false
      && !st.mem_temps.getD (args 0) false then
    let args1 := args_write args 0 (args 1)
    let args2 := args_write args1 1 (args1 2)
    let args3 := args_write args2 2 (args2 3)
    la_keep opc_new2 [(0, args 1), (1, args1 2), (2, args2 3)]
      (la_do_not_remove cfg s df args3 1 2 st)
  else
    la_keep opc [] (la_do_not_remove cfg s df args 2 2 st)

/-- The body of the loop of `tcg_liveness_analysis` for the op `op`, whose
arguments are `args[.]`, in the liveness state `st`. -/
def la_op (cfg : Config) (s : TCGContext) (op : TCGOp) (args : Nat → TCGArg)
    (st : LaState) : LaResult :=
  let df := cfg.tcg_op_defs op.opc
  match op.opc with
  | TCGOpcode.call =>
    let nb_oargs := op.callo
    let nb_iargs := op.calli
    let call_flags := args (nb_oargs + nb_iargs + 1)
    if flag call_flags cfg.TCG_CALL_NO_SIDE_EFFECTS && la_all_dead args nb_oargs st then
      LaResult.remove
    else
      la_keep op.opc [] (la_do_not_remove_call cfg s args nb_oargs nb_iargs call_flags st)
  | TCGOpcode.insn_start => LaResult.skip st
  | TCGOpcode.discard =>
    LaResult.skip { dead_temps := st.dead_temps.set (args 0) true,
                    mem_temps := st.mem_temps.set (args 0) false }
  | TCGOpcode.add2_i32 => la_addsub2 cfg s df op.opc TCGOpcode.add_i32 args st
  | TCGOpcode.sub2_i32 => la_addsub2 cfg s df op.opc TCGOpcode.sub_i32 args st
  | TCGOpcode.add2_i64 => la_addsub2 cfg s df op.opc TCGOpcode.add_i64 args st
  | TCGOpcode.sub2_i64 => la_addsub2 cfg s df op.opc TCGOpcode.sub_i64 args st
  | TCGOpcode.mulu2_i32 =>
    la_mul2 cfg s df op.opc TCGOpcode.mul_i32 TCGOpcode.muluh_i32
      cfg.TCG_TARGET_HAS_muluh_i32 args st
  | TCGOpcode.muls2_i32 =>
    la_mul2 cfg s df op.opc TCGOpcode.mul_i32 TCGOpcode.mulsh_i32
      cfg.TCG_TARGET_HAS_mulsh_i32 args st
  | TCGOpcode.mulu2_i64 =>
    la_mul2 cfg s df op.opc TCGOpcode.mul_i64 TCGOpcode.muluh_i64
      cfg.TCG_TARGET_HAS_muluh_i64 args st
  | TCGOpcode.muls2_i64 =>
    la_mul2 cfg s df op.opc TCGOpcode.mul_i64 TCGOpcode.mulsh_i64
      cfg.TCG_TARGET_HAS_mulsh_i64 args st
  | _ =>
    let nb_iargs := df.nb_iargs
    let nb_oargs := df.nb_oargs
    if !flag df.flags cfg.TCG_OPF_SIDE_EFFECTS && nb_oargs != 0
        && la_all_dead args nb_oargs st then
      LaResult.remove
    else
      la_keep op.opc [] (la_do_not_remove cfg s df args nb_oargs nb_iargs st)

/-- `args[k]` for the pointer `args = &gen_opparam_buf[a]` -/
def op_arg (parm : List TCGArg) (a : Int) (k : Nat) : TCGArg :=
  if 0 ≤ a + k then parm.getD (a + k).toNat 0 else 0

/-- The stores `args[k] = v` of one iteration, done in the parameter buffer. -/
def apply_writes (parm : List TCGArg) (a : Int) (ws : List (Nat × TCGArg)) : List TCGArg :=
  ws.foldl (fun p w => if 0 ≤ a + w.1 then p.set (a + w.1).toNat w.2 else p) parm

/-- One iteration of the loop of `tcg_liveness_analysis`, at op index `oi`. -/
def la_visit (cfg : Config) (s : TCGContext) (st : LaState) (oi : Nat) :
    TCGContext × LaState :=
  let op := s.gen_op_buf.getD oi TCGOp.poison
  match la_op cfg s op (op_arg s.gen_opparam_buf op.args) st with
  | LaResult.remove => (tcg_op_remove s oi, st)
  | LaResult.skip st1 => (s, st1)
  | LaResult.keep opc ws da sa st1 =>
    ({ s with gen_op_buf := s.gen_op_buf.set oi { op with opc := opc },
              gen_opparam_buf := apply_writes s.gen_opparam_buf op.args ws,
              op_dead_args := s.op_dead_args.set oi da,
              op_sync_args := s.op_sync_args.set oi sa }, st1)

/-- The loop `for (oi = s->gen_last_op_idx; oi >= 0; oi = oi_prev)`; `none` when the
fuel runs out before the walk reaches the head of the list. -/
def la_loop (cfg : Config) : Nat → TCGContext → LaState → Int → Option TCGContext
  | 0, s, _, oi => if oi < 0 then some s else none
  | fuel + 1, s, st, oi =>
    if oi < 0 then some s
    else
      let oi_prev := (s.gen_op_buf.getD oi.toNat TCGOp.poison).prev
      let r := la_visit cfg s st oi.toNat
      la_loop cfg fuel r.1 r.2 oi_prev

/-- State of the pass at the end of the function: the two arrays come from
`tcg_malloc` and are then filled by `tcg_la_func_end`. -/
def la_init (s : TCGContext) : LaState :=
  tcg_la_func_end s { dead_temps := List.replicate s.nb_temps false,
                      mem_temps := List.replicate s.nb_temps false }

/-- `tcg_liveness_analysis`.  The arrays `op_dead_args` and `op_sync_args` come from
`tcg_malloc` (not initialised in C); they start at 0 here. -/
def tcg_liveness_analysis (cfg : Config) (s : TCGContext) : Option TCGContext :=
  let nb_ops := s.gen_next_op_idx
  let s1 : TCGContext := { s with op_dead_args := List.replicate nb_ops 0,
                                  op_sync_args := List.replicate nb_ops 0 }
  la_loop cfg s1.gen_op_buf.length s1 (la_init s1) s1.gen_last_op_idx

/-! ## Register allocator -/

inductive Fault
  /-- `tcg_abort()` -/
  | abort
  /-- a failed `assert` / `tcg_debug_assert` -/
  | assert
  /-- an access outside an array, or the read of an array entry never written -/
  | oob
  /-- a walk along `next` links did not end within the op buffer -/
  | fuel
  deriving DecidableEq, Repr, Inhabited

/-- `l[i]` -/
def rd {α : Type} (l : List α) (i : Nat) : Except Fault α :=
  match l[i]? with
  | some x => pure x
  | none => throw Fault.oob

/-- `l[i] = x` -/
def wr {α : Type} (l : List α) (i : Nat) (x : α) : Except Fault (List α) :=
  if i < l.length then pure (l.set i x) else throw Fault.oob

/-- `l[i]` for a signed index -/
def rdi {α : Type} (l : List α) (i : Int) : Except Fault α :=
  if 0 ≤ i then rd l i.toNat else throw Fault.oob

/-- the read of a local array entry, which must have been written -/
def rdo (l : List (Option Nat)) (i : Nat) : Except Fault Nat :=
  match l[i]? with
  | some (some x) => pure x
  | _ => throw Fault.oob

def tcg_regset_test_reg (d : TCGRegSet) (r : Nat) : Bool := d.testBit r

def tcg_regset_set_reg (d : TCGRegSet) (r : Nat) : TCGRegSet := d ||| (1 <<< r)

/-- `a & ~b` -/
def tcg_regset_andnot (a b : TCGRegSet) : TCGRegSet := a ^^^ (a &&& b)

def IS_DEAD_ARG (dead_args : Nat) (n : Nat) : Bool := (dead_args >>> n) &&& 1 != 0

def NEED_SYNC_ARG (sync_args : Nat) (n : Nat) : Bool := (sync_args >>> n) &&& 1 != 0

/-- A call of an emitter of the back-end: the call is recorded and `code_ptr`
advances by the size of what was written. -/
def tcg_out (cfg : Config) (s : TCGContext) (i : HostInsn) : TCGContext :=
  { s with out := s.out ++ [i], code_ptr := s.code_ptr + cfg.insn_size i }

/-- `temps[temp] = ts` -/
def set_temp (s : TCGContext) (temp : Nat) (ts : TCGTemp) : TCGContext :=
  { s with temps := s.temps.set temp ts }

/-- `reg_to_temp[reg] = v` -/
def set_reg_to_temp (s : TCGContext) (reg : Nat) (v : Int) : Except Fault TCGContext := do
  let r ← wr s.reg_to_temp reg v
  pure { s with reg_to_temp := r }

def tcg_reg_alloc_start (cfg : Config) (s : TCGContext) : TCGContext :=
  { s with
    temps := (List.range s.temps.length).map (fun i =>
      let ts := s.temps.getD i default
      if i < s.nb_globals then
        { ts with val_type := if ts.fixed_reg then TCGTempVal.REG else TCGTempVal.MEM }
      else if i < s.nb_temps then
        { ts with val_type := if ts.temp_local then TCGTempVal.MEM else TCGTempVal.DEAD,
                  mem_allocated := false, fixed_reg := false }
      else ts),
    reg_to_temp := List.replicate cfg.TCG_TARGET_NB_REGS (-1) }

/-- `temp_allocate_frame`, not sparc64; `sizeof(tcg_target_long)` is a power of two,
so `x & ~(sizeof - 1)` is `x - x mod sizeof`. -/
def temp_allocate_frame (cfg : Config) (s : TCGContext) (temp : Nat) :
    Except Fault TCGContext := do
  let ts ← rd s.temps temp
  let w : Int := cfg.sizeof_tcg_target_long
  let x := s.current_frame_offset + w - 1
  let off := x - Int.emod x w
  if off + w > s.frame_end then throw Fault.abort
  pure { set_temp s temp { ts with mem_offset := off, mem_reg := s.frame_reg,
                                   mem_allocated := true } with
         current_frame_offset := off + w }

def tcg_reg_sync (cfg : Config) (s : TCGContext) (reg : Nat) : Except Fault TCGContext := do
  let temp ← rd s.reg_to_temp reg
  let ts ← rdi s.temps temp
  if ts.val_type != TCGTempVal.REG then throw Fault.assert
  let s1 ← if !ts.mem_coherent && !ts.fixed_reg then do
      let s0 ← if !ts.mem_allocated then temp_allocate_frame cfg s temp.toNat else pure s
      let ts0 ← rd s0.temps temp.toNat
      pure (tcg_out cfg s0 (HostInsn.st ts0.type reg ts0.mem_reg ts0.mem_offset))
    else pure s
  let ts1 ← rd s1.temps temp.toNat
  pure (set_temp s1 temp.toNat { ts1 with mem_coherent := true })

def tcg_reg_free (cfg : Config) (s : TCGContext) (reg : Nat) : Except Fault TCGContext := do
  let temp ← rd s.reg_to_temp reg
  if temp != -1 then
    let s1 ← tcg_reg_sync cfg s reg
    let ts ← rdi s1.temps temp
    let s2 := set_temp s1 temp.toNat { ts with val_type := TCGTempVal.MEM }
    set_reg_to_temp s2 reg (-1)
  else pure s

/-- The first loop of `tcg_reg_alloc`: the first free register of the order. -/
def reg_alloc_free (s : TCGContext) (reg_ct : TCGRegSet) : List Nat → Except Fault (Option Nat)
  | [] => pure none
  | reg :: rest =>
    if tcg_regset_test_reg reg_ct reg then do
      let t ← rd s.reg_to_temp reg
      if t == -1 then pure (some reg) else reg_alloc_free s reg_ct rest
    else reg_alloc_free s reg_ct rest

/-- The second loop of `tcg_reg_alloc`: the first register of the order in the set. -/
def reg_alloc_spill (reg_ct : TCGRegSet) : List Nat → Option Nat
  | [] => none
  | reg :: rest => if tcg_regset_test_reg reg_ct reg then some reg else reg_alloc_spill reg_ct rest

def tcg_reg_alloc (cfg : Config) (s : TCGContext) (reg1 reg2 : TCGRegSet) :
    Except Fault (TCGContext × Nat) := do
  let reg_ct := tcg_regset_andnot reg1 reg2
  match ← reg_alloc_free s reg_ct cfg.tcg_target_reg_alloc_order with
  | some reg => pure (s, reg)
  | none =>
    match reg_alloc_spill reg_ct cfg.tcg_target_reg_alloc_order with
    | some reg => do
      let s1 ← tcg_reg_free cfg s reg
      pure (s1, reg)
    | none => throw Fault.abort

def temp_dead (s : TCGContext) (temp : Nat) : Except Fault TCGContext := do
  let ts ← rd s.temps temp
  if !ts.fixed_reg then
    let s1 ← if ts.val_type == TCGTempVal.REG then set_reg_to_temp s ts.reg (-1) else pure s
    if temp < s1.nb_globals || ts.temp_local then
      pure (set_temp s1 temp { ts with val_type := TCGTempVal.MEM })
    else
      pure (set_temp s1 temp { ts with val_type := TCGTempVal.DEAD })
  else pure s

def temp_sync (cfg : Config) (s : TCGContext) (temp : Nat) (allocated_regs : TCGRegSet) :
    Except Fault TCGContext := do
  let ts ← rd s.temps temp
  if !ts.fixed_reg then
    match ts.val_type with
    | TCGTempVal.CONST =>
      let (s1, reg) ← tcg_reg_alloc cfg s (cfg.tcg_target_available_regs ts.type) allocated_regs
      let ts1 ← rd s1.temps temp
      let s2 := set_temp s1 temp { ts1 with reg := reg, val_type := TCGTempVal.REG,
                                            mem_coherent := false }
      let s3 ← set_reg_to_temp s2 reg temp
      let s4 := tcg_out cfg s3 (HostInsn.movi ts1.type reg ts1.val)
      tcg_reg_sync cfg s4 reg
    | TCGTempVal.REG => tcg_reg_sync cfg s ts.reg
    | TCGTempVal.DEAD => pure s
    | TCGTempVal.MEM => pure s
  else pure s

/-- `temp_save` with `USE_LIVENESS_ANALYSIS`: only the assertion. -/
def temp_save (s : TCGContext) (temp : Nat) (_allocated_regs : TCGRegSet) :
    Except Fault TCGContext := do
  let ts ← rd s.temps temp
  if !(ts.val_type == TCGTempVal.MEM || ts.fixed_reg) then throw Fault.assert
  pure s

def save_globals (s : TCGContext) (allocated_regs : TCGRegSet) : Except Fault TCGContext :=
  (List.range s.nb_globals).foldlM (fun s i => temp_save s i allocated_regs) s

/-- `sync_globals` with `USE_LIVENESS_ANALYSIS`: only the assertion. -/
def sync_globals (s : TCGContext) (_allocated_regs : TCGRegSet) : Except Fault TCGContext :=
  (List.range s.nb_globals).foldlM (fun s i => do
    let ts ← rd s.temps i
    if !(ts.val_type != TCGTempVal.REG || ts.fixed_reg || ts.mem_coherent) then
      throw Fault.assert
    pure s) s

def tcg_reg_alloc_bb_end (s : TCGContext) (allocated_regs : TCGRegSet) :
    Except Fault TCGContext := do
  let s1 ← (List.range' s.nb_globals (s.nb_temps - s.nb_globals)).foldlM (fun s i => do
    let ts ← rd s.temps i
    if ts.temp_local then temp_save s i allocated_regs
    else
      if ts.val_type != TCGTempVal.DEAD then throw Fault.assert
      pure s) s
  save_globals s1 allocated_regs

def tcg_reg_alloc_movi (cfg : Config) (s : TCGContext) (args : List TCGArg)
    (dead_args sync_args : Nat) : Except Fault TCGContext := do
  let a0 ← rd args 0
  let ots ← rd s.temps a0
  let val ← rd args 1
  let s1 ← if ots.fixed_reg then
      pure (tcg_out cfg s (HostInsn.movi ots.type ots.reg val))
    else do
      let s0 ← if ots.val_type == TCGTempVal.REG then set_reg_to_temp s ots.reg (-1) else pure s
      pure (set_temp s0 a0 { ots with val_type := TCGTempVal.CONST, val := val })
  let s2 ← if NEED_SYNC_ARG sync_args 0 then temp_sync cfg s1 a0 s1.reserved_regs else pure s1
  if IS_DEAD_ARG dead_args 0 then temp_dead s2 a0 else pure s2

def tcg_reg_alloc_mov (cfg : Config) (s : TCGContext) (args : List TCGArg)
    (dead_args sync_args : Nat) : Except Fault TCGContext := do
  let a0 ← rd args 0
  let a1 ← rd args 1
  let allocated_regs := s.reserved_regs
  let ots ← rd s.temps a0
  let ts ← rd s.temps a1
  let otype := ots.type
  let itype := ts.type
  let s1 ← if ((NEED_SYNC_ARG sync_args 0 || ots.fixed_reg) && ts.val_type != TCGTempVal.REG)
      || ts.val_type == TCGTempVal.MEM then do
      let (s0, reg) ← tcg_reg_alloc cfg s (cfg.tcg_target_available_regs itype) allocated_regs
      let ts0 ← rd s0.temps a1
      let ts0 := { ts0 with reg := reg }
      let (s0, ts0) :=
        if ts0.val_type == TCGTempVal.MEM then
          (tcg_out cfg s0 (HostInsn.ld itype ts0.reg ts0.mem_reg ts0.mem_offset),
           { ts0 with mem_coherent := true })
        else if ts0.val_type == TCGTempVal.CONST then
          (tcg_out cfg s0 (HostInsn.movi itype ts0.reg ts0.val),
           { ts0 with mem_coherent := false })
        else (s0, ts0)
      let s0 ← set_reg_to_temp s0 ts0.reg a1
      pure (set_temp s0 a1 { ts0 with val_type := TCGTempVal.REG })
    else pure s
  let ots ← rd s1.temps a0
  let ts ← rd s1.temps a1
  if IS_DEAD_ARG dead_args 0 && !ots.fixed_reg then
    if !NEED_SYNC_ARG sync_args 0 then throw Fault.assert
    if ts.val_type != TCGTempVal.REG then throw Fault.assert
    let s2 ← if !ots.mem_allocated then temp_allocate_frame cfg s1 a0 else pure s1
    let ots ← rd s2.temps a0
    let ts ← rd s2.temps a1
    let s3 := tcg_out cfg s2 (HostInsn.st otype ts.reg ots.mem_reg ots.mem_offset)
    let s4 ← if IS_DEAD_ARG dead_args 1 then temp_dead s3 a1 else pure s3
    temp_dead s4 a0
  else if ts.val_type == TCGTempVal.CONST then
    let s2 ← if ots.val_type == TCGTempVal.REG then set_reg_to_temp s1 ots.reg (-1) else pure s1
    let s3 := set_temp s2 a0 { ots with val_type := TCGTempVal.CONST, val := ts.val }
    if IS_DEAD_ARG dead_args 1 then temp_dead s3 a1 else pure s3
  else
    if ts.val_type != TCGTempVal.REG then throw Fault.assert
    let s2 ← if IS_DEAD_ARG dead_args 1 && !ts.fixed_reg && !ots.fixed_reg then do
        let s0 ← if ots.val_type == TCGTempVal.REG then set_reg_to_temp s1 ots.reg (-1)
                 else pure s1
        let s0 := set_temp s0 a0 { ots with reg := ts.reg }
        temp_dead s0 a1
      else do
        let s0 ← if ots.val_type != TCGTempVal.REG then do
            let allocated_regs := tcg_regset_set_reg allocated_regs ts.reg
            let (s0, reg) ← tcg_reg_alloc cfg s1 (cfg.tcg_target_available_regs otype)
              allocated_regs
            let ots0 ← rd s0.temps a0
            pure (set_temp s0 a0 { ots0 with reg := reg })
          else pure s1
        let ots0 ← rd s0.temps a0
        let ts0 ← rd s0.temps a1
        pure (tcg_out cfg s0 (HostInsn.mov otype ots0.reg ts0.reg))
    let ots ← rd s2.temps a0
    let s3 := set_temp s2 a0 { ots with val_type := TCGTempVal.REG, mem_coherent := false }
    let s4 ← set_reg_to_temp s3 ots.reg a0
    if NEED_SYNC_ARG sync_args 0 then tcg_reg_sync cfg s4 ots.reg else pure s4

/-- The local arrays `new_args`, `const_args` and the set `allocated_regs` of
`tcg_reg_alloc_op`, with the context.  An array entry not written yet is `none`. -/
structure OpAcc where
  s : TCGContext
  new_args : List (Option TCGArg)
  const_args : List (Option Nat)
  allocated_regs : TCGRegSet
  deriving DecidableEq, Repr, Inhabited

/-- The loop over `k2 < k` in the input loop of `tcg_reg_alloc_op`: an earlier
aliased input already has the register `reg`. -/
def ialias_clash (cfg : Config) (df : TCGOpDef) (new_args : List (Option TCGArg))
    (reg : Nat) : List Nat → Except Fault Bool
  | [] => pure false
  | k2 :: rest => do
    let i2 ← rd df.sorted_args (df.nb_oargs + k2)
    let ct2 ← rd df.args_ct i2
    if flag ct2.ct cfg.TCG_CT_IALIAS then
      let r2 ← rdo new_args i2
      if r2 == reg then pure true else ialias_clash cfg df new_args reg rest
    else ialias_clash cfg df new_args reg rest

/-- One iteration of the loop "satisfy input constraints". -/
def alloc_op_input (cfg : Config) (df : TCGOpDef) (args : List TCGArg) (dead_args : Nat)
    (acc : OpAcc) (k : Nat) : Except Fault OpAcc := do
  let i ← rd df.sorted_args (df.nb_oargs + k)
  let arg ← rd args i
  let arg_ct ← rd df.args_ct i
  let ts ← rd acc.s.temps arg
  if ts.val_type == TCGTempVal.CONST && cfg.tcg_target_const_match ts.val ts.type arg_ct then
    let ca ← wr acc.const_args i (some 1)
    let na ← wr acc.new_args i (some ts.val)
    pure { acc with new_args := na, const_args := ca }
  else
    let s1 ← if ts.val_type == TCGTempVal.MEM then do
        let (s0, reg) ← tcg_reg_alloc cfg acc.s arg_ct.regs acc.allocated_regs
        let ts0 ← rd s0.temps arg
        let s0 := tcg_out cfg s0 (HostInsn.ld ts0.type reg ts0.mem_reg ts0.mem_offset)
        let s0 := set_temp s0 arg { ts0 with val_type := TCGTempVal.REG, reg := reg,
                                             mem_coherent := true }
        set_reg_to_temp s0 reg arg
      else if ts.val_type == TCGTempVal.CONST then do
        let (s0, reg) ← tcg_reg_alloc cfg acc.s arg_ct.regs acc.allocated_regs
        let ts0 ← rd s0.temps arg
        let s0 := tcg_out cfg s0 (HostInsn.movi ts0.type reg ts0.val)
        let s0 := set_temp s0 arg { ts0 with val_type := TCGTempVal.REG, reg := reg,
                                             mem_coherent := false }
        set_reg_to_temp s0 reg arg
      else pure acc.s
    let ts ← rd s1.temps arg
    if ts.val_type != TCGTempVal.REG then throw Fault.assert
    let aliased ← if flag arg_ct.ct cfg.TCG_CT_IALIAS then
        if ts.fixed_reg then do
          let other ← rd args arg_ct.alias_index
          pure (arg != other)
        else if !IS_DEAD_ARG dead_args i then pure true
        else ialias_clash cfg df acc.new_args ts.reg (List.range k)
      else pure false
    let (s2, reg) ← if aliased || !tcg_regset_test_reg arg_ct.regs ts.reg then do
        let (s0, reg) ← tcg_reg_alloc cfg s1 arg_ct.regs acc.allocated_regs
        let ts0 ← rd s0.temps arg
        pure (tcg_out cfg s0 (HostInsn.mov ts0.type reg ts0.reg), reg)
      else pure (s1, ts.reg)
    let na ← wr acc.new_args i (some reg)
    let ca ← wr acc.const_args i (some 0)
    pure { s := s2, new_args := na, const_args := ca,
           allocated_regs := tcg_regset_set_reg acc.allocated_regs reg }

/-- One iteration of the loop "satisfy the output constraints". -/
def alloc_op_output (cfg : Config) (df : TCGOpDef) (args : List TCGArg)
    (acc : OpAcc) (k : Nat) : Except Fault OpAcc := do
  let i ← rd df.sorted_args k
  let arg ← rd args i
  let arg_ct ← rd df.args_ct i
  let ts ← rd acc.s.temps arg
  if !flag arg_ct.ct cfg.TCG_CT_ALIAS && ts.fixed_reg
      && tcg_regset_test_reg arg_ct.regs ts.reg then
    let na ← wr acc.new_args i (some ts.reg)
    pure { acc with new_args := na }
  else
    let (s1, reg) ← if flag arg_ct.ct cfg.TCG_CT_ALIAS then do
        let reg ← rdo acc.new_args arg_ct.alias_index
        pure (acc.s, reg)
      else tcg_reg_alloc cfg acc.s arg_ct.regs acc.allocated_regs
    let allocated_regs := tcg_regset_set_reg acc.allocated_regs reg
    let ts ← rd s1.temps arg
    let s2 ← if !ts.fixed_reg then do
        let s0 ← if ts.val_type == TCGTempVal.REG then set_reg_to_temp s1 ts.reg (-1)
                 else pure s1
        let s0 := set_temp s0 arg { ts with val_type := TCGTempVal.REG, reg := reg,
                                            mem_coherent := false }
        set_reg_to_temp s0 reg arg
      else pure s1
    let na ← wr acc.new_args i (some reg)
    pure { acc with s := s2, new_args := na, allocated_regs := allocated_regs }

/-- The loops "mark dead temporaries and free the associated registers". -/
def dead_inputs (s : TCGContext) (args : List TCGArg) (dead_args : Nat)
    (nb_oargs nb_iargs : Nat) : Except Fault TCGContext :=
  (List.range' nb_oargs nb_iargs).foldlM (fun s i =>
    if IS_DEAD_ARG dead_args i then do
      let a ← rd args i
      temp_dead s a
    else pure s) s

/-- The loop "clobber call registers". -/
def clobber_regs (cfg : Config) (s : TCGContext) : Except Fault TCGContext :=
  (List.range cfg.TCG_TARGET_NB_REGS).foldlM (fun s reg =>
    if tcg_regset_test_reg cfg.tcg_target_call_clobber_regs reg then tcg_reg_free cfg s reg
    else pure s) s

/-- `memcpy(new_args + n, args + n, sizeof(TCGArg) * nb_cargs)` -/
def copy_cargs (args : List TCGArg) (new_args : List (Option TCGArg)) (n nb_cargs : Nat) :
    Except Fault (List (Option TCGArg)) :=
  (List.range' n nb_cargs).foldlM (fun na i => do
    let a ← rd args i
    wr na i (some a)) new_args

/-- `tcg_reg_alloc_op` up to the point where `tcg_out_op` is called: the context and
the arrays `new_args` and `const_args` handed to `tcg_out_op`. -/
def tcg_reg_alloc_op_args (cfg : Config) (s : TCGContext) (df : TCGOpDef)
    (args : List TCGArg) (dead_args : Nat) : Except Fault OpAcc := do
  let nb_oargs := df.nb_oargs
  let nb_iargs := df.nb_iargs
  let new_args ← copy_cargs args (List.replicate cfg.TCG_MAX_OP_ARGS none)
    (nb_oargs + nb_iargs) df.nb_cargs
  let acc : OpAcc := { s := s, new_args := new_args,
                       const_args := List.replicate cfg.TCG_MAX_OP_ARGS none,
                       allocated_regs := s.reserved_regs }
  let acc ← (List.range nb_iargs).foldlM (alloc_op_input cfg df args dead_args) acc
  let s1 ← dead_inputs acc.s args dead_args nb_oargs nb_iargs
  if flag df.flags cfg.TCG_OPF_BB_END then
    let s2 ← tcg_reg_alloc_bb_end s1 acc.allocated_regs
    pure { acc with s := s2 }
  else
    let s2 ← if flag df.flags cfg.TCG_OPF_CALL_CLOBBER then clobber_regs cfg s1 else pure s1
    let s3 ← if flag df.flags cfg.TCG_OPF_SIDE_EFFECTS then sync_globals s2 acc.allocated_regs
             else pure s2
    let acc : OpAcc := { acc with s := s3, allocated_regs := s3.reserved_regs }
    (List.range nb_oargs).foldlM (alloc_op_output cfg df args) acc

/-- `tcg_out_reloc` -/
def tcg_out_reloc (s : TCGContext) (code_ptr : Nat) (type : Nat) (l : Nat) (addend : Int) :
    Except Fault TCGContext := do
  let lab ← rd s.labels l
  if lab.has_value then
    match lab.u with
    | TCGLabelU.value v =>
      pure { s with out := s.out ++ [HostInsn.patch_reloc code_ptr type v addend] }
    | TCGLabelU.first_reloc _ => throw Fault.oob
  else
    match lab.u with
    | TCGLabelU.first_reloc rs =>
      let r : TCGRelocation := { type := type, ptr := code_ptr, addend := addend }
      let lab1 : TCGLabel := { lab with u := TCGLabelU.first_reloc (r :: rs) }
      pure { s with labels := s.labels.set l lab1 }
    | TCGLabelU.value _ => throw Fault.oob

/-- `tcg_out_label` -/
def tcg_out_label (s : TCGContext) (l : Nat) (ptr : Nat) : Except Fault TCGContext := do
  let lab ← rd s.labels l
  if lab.has_value then throw Fault.assert
  match lab.u with
  | TCGLabelU.first_reloc rs =>
    let out := rs.foldl (fun o r => o ++ [HostInsn.patch_reloc r.ptr r.type ptr r.addend]) s.out
    let lab1 : TCGLabel := { has_value := true, u := TCGLabelU.value ptr }
    pure { s with out := out, labels := s.labels.set l lab1 }
  | TCGLabelU.value _ => throw Fault.oob

/-- The host `tcg_out_op`: the instruction is written at `code_ptr` and the
relocations it needs are handed to `tcg_out_reloc`. -/
def tcg_out_op (cfg : Config) (s : TCGContext) (opc : TCGOpcode)
    (new_args : List (Option TCGArg)) (const_args : List (Option Nat)) :
    Except Fault TCGContext := do
  let s1 := tcg_out cfg s (HostInsn.op opc new_args const_args)
  (cfg.op_relocs opc new_args).foldlM
    (fun s2 r => tcg_out_reloc s2 (s.code_ptr + r.ofs) r.type r.label r.addend) s1

/-- One iteration of the loop "move the outputs in the correct register if needed". -/
def alloc_op_finish (cfg : Config) (args : List TCGArg) (new_args : List (Option TCGArg))
    (dead_args sync_args : Nat) (s : TCGContext) (i : Nat) : Except Fault TCGContext := do
  let a ← rd args i
  let ts ← rd s.temps a
  let reg ← rdo new_args i
  let s1 := if ts.fixed_reg && ts.reg != reg then tcg_out cfg s (HostInsn.mov ts.type ts.reg reg)
            else s
  let s2 ← if NEED_SYNC_ARG sync_args i then tcg_reg_sync cfg s1 reg else pure s1
  if IS_DEAD_ARG dead_args i then temp_dead s2 a else pure s2

def tcg_reg_alloc_op (cfg : Config) (s : TCGContext) (df : TCGOpDef) (opc : TCGOpcode)
    (args : List TCGArg) (dead_args sync_args : Nat) : Except Fault TCGContext := do
  let acc ← tcg_reg_alloc_op_args cfg s df args dead_args
  let s1 ← tcg_out_op cfg acc.s opc acc.new_args acc.const_args
  (List.range df.nb_oargs).foldlM (alloc_op_finish cfg args acc.new_args dead_args sync_args) s1

/-- One iteration of the loop "assign stack slots first" of `tcg_reg_alloc_call`;
the pair is the context and `stack_offset`. -/
def call_stack_arg (cfg : Config) (args : List TCGArg) (nb_oargs : Nat)
    (p : TCGContext × Int) (i : Nat) : Except Fault (TCGContext × Int) := do
  let s := p.1
  let w : Int := cfg.sizeof_tcg_target_long
  let arg ← rd args (nb_oargs + i)
  let stack_offset := if cfg.TCG_TARGET_STACK_GROWSUP then p.2 - w else p.2
  let s1 ← if arg != cfg.TCG_CALL_DUMMY_ARG then do
      let ts ← rd s.temps arg
      match ts.val_type with
      | TCGTempVal.REG =>
        pure (tcg_out cfg s (HostInsn.st ts.type ts.reg cfg.TCG_REG_CALL_STACK stack_offset))
      | TCGTempVal.MEM =>
        let (s0, reg) ← tcg_reg_alloc cfg s (cfg.tcg_target_available_regs ts.type)
          s.reserved_regs
        let ts0 ← rd s0.temps arg
        let s0 := tcg_out cfg s0 (HostInsn.ld ts0.type reg ts0.mem_reg ts0.mem_offset)
        pure (tcg_out cfg s0 (HostInsn.st ts0.type reg cfg.TCG_REG_CALL_STACK stack_offset))
      | TCGTempVal.CONST =>
        let (s0, reg) ← tcg_reg_alloc cfg s (cfg.tcg_target_available_regs ts.type)
          s.reserved_regs
        let ts0 ← rd s0.temps arg
        let s0 := tcg_out cfg s0 (HostInsn.movi ts0.type reg ts0.val)
        pure (tcg_out cfg s0 (HostInsn.st ts0.type reg cfg.TCG_REG_CALL_STACK stack_offset))
      | TCGTempVal.DEAD => throw Fault.abort
    else pure s
  pure (s1, if cfg.TCG_TARGET_STACK_GROWSUP then stack_offset else stack_offset + w)

/-- One iteration of the loop "assign input registers" of `tcg_reg_alloc_call`;
the pair is the context and `allocated_regs`. -/
def call_reg_arg (cfg : Config) (args : List TCGArg) (nb_oargs : Nat)
    (p : TCGContext × TCGRegSet) (i : Nat) : Except Fault (TCGContext × TCGRegSet) := do
  let arg ← rd args (nb_oargs + i)
  if arg != cfg.TCG_CALL_DUMMY_ARG then
    let reg ← rd cfg.tcg_target_call_iarg_regs i
    let s1 ← tcg_reg_free cfg p.1 reg
    let ts ← rd s1.temps arg
    let s2 ← match ts.val_type with
      | TCGTempVal.REG =>
        pure (if ts.reg != reg then tcg_out cfg s1 (HostInsn.mov ts.type reg ts.reg) else s1)
      | TCGTempVal.MEM =>
        pure (tcg_out cfg s1 (HostInsn.ld ts.type reg ts.mem_reg ts.mem_offset))
      | TCGTempVal.CONST => pure (tcg_out cfg s1 (HostInsn.movi ts.type reg ts.val))
      | TCGTempVal.DEAD => throw Fault.abort
    pure (s2, tcg_regset_set_reg p.2 reg)
  else pure p

/-- The part of `tcg_reg_alloc_call` between the input loops and `tcg_out_call`: dead
inputs are marked, the call-clobbered registers are freed, and the globals are
checked according to the flags of the helper. -/
def call_clobber_globals (cfg : Config) (s : TCGContext) (args : List TCGArg)
    (dead_args : Nat) (nb_oargs nb_iargs : Nat) (flags : Nat) (allocated_regs : TCGRegSet) :
    Except Fault TCGContext := do
  let s1 ← dead_inputs s args dead_args nb_oargs nb_iargs
  let s2 ← clobber_regs cfg s1
  if flag flags cfg.TCG_CALL_NO_READ_GLOBALS then pure s2
  else if flag flags cfg.TCG_CALL_NO_WRITE_GLOBALS then sync_globals s2 allocated_regs
  else save_globals s2 allocated_regs

/-- One iteration of the loop "assign output registers and emit moves if needed". -/
def call_output (cfg : Config) (args : List TCGArg) (dead_args sync_args : Nat)
    (s : TCGContext) (i : Nat) : Except Fault TCGContext := do
  let arg ← rd args i
  let ts ← rd s.temps arg
  let reg ← rd cfg.tcg_target_call_oarg_regs i
  let owner ← rd s.reg_to_temp reg
  if owner != -1 then throw Fault.assert
  if ts.fixed_reg then
    pure (if ts.reg != reg then tcg_out cfg s (HostInsn.mov ts.type ts.reg reg) else s)
  else
    let s1 ← if ts.val_type == TCGTempVal.REG then set_reg_to_temp s ts.reg (-1) else pure s
    let s2 := set_temp s1 arg { ts with val_type := TCGTempVal.REG, reg := reg,
                                        mem_coherent := false }
    let s3 ← set_reg_to_temp s2 reg arg
    let s4 ← if NEED_SYNC_ARG sync_args i then tcg_reg_sync cfg s3 reg else pure s3
    if IS_DEAD_ARG dead_args i then temp_dead s4 arg else pure s4

/-- `tcg_reg_alloc_call` up to the point where `tcg_out_call` is called. -/
def tcg_reg_alloc_call_setup (cfg : Config) (s : TCGContext) (nb_oargs nb_iargs : Nat)
    (args : List TCGArg) (dead_args : Nat) : Except Fault TCGContext := do
  let flags ← rd args (nb_oargs + nb_iargs + 1)
  let nb_regs := if cfg.tcg_target_call_iarg_regs.length > nb_iargs then nb_iargs
                 else cfg.tcg_target_call_iarg_regs.length
  let call_stack_size := (nb_iargs - nb_regs) * cfg.sizeof_tcg_target_long
  let x := call_stack_size + cfg.TCG_TARGET_STACK_ALIGN - 1
  let call_stack_size := x - x % cfg.TCG_TARGET_STACK_ALIGN
  if call_stack_size > cfg.TCG_STATIC_CALL_ARGS_SIZE then throw Fault.abort
  let p ← (List.range' nb_regs (nb_iargs - nb_regs)).foldlM (call_stack_arg cfg args nb_oargs)
    (s, cfg.TCG_TARGET_CALL_STACK_OFFSET)
  let q ← (List.range nb_regs).foldlM (call_reg_arg cfg args nb_oargs) (p.1, p.1.reserved_regs)
  call_clobber_globals cfg q.1 args dead_args nb_oargs nb_iargs flags q.2

def tcg_reg_alloc_call (cfg : Config) (s : TCGContext) (nb_oargs nb_iargs : Nat)
    (args : List TCGArg) (dead_args sync_args : Nat) : Except Fault TCGContext := do
  let func_addr ← rd args (nb_oargs + nb_iargs)
  let s1 ← tcg_reg_alloc_call_setup cfg s nb_oargs nb_iargs args dead_args
  let s2 := tcg_out cfg s1 (HostInsn.call func_addr)
  (List.range nb_oargs).foldlM (call_output cfg args dead_args sync_args) s2

/-- `check_regs` -/
def check_regs (cfg : Config) (s : TCGContext) : Except Fault Unit := do
  (List.range cfg.TCG_TARGET_NB_REGS).forM (fun reg => do
    let k ← rd s.reg_to_temp reg
    if 0 ≤ k then
      let ts ← rdi s.temps k
      if ts.val_type != TCGTempVal.REG || ts.reg != reg then throw Fault.abort)
  (List.range s.nb_temps).forM (fun k => do
    let ts ← rd s.temps k
    if ts.val_type == TCGTempVal.REG && !ts.fixed_reg then
      let t ← rd s.reg_to_temp ts.reg
      if t != (k : Int) then throw Fault.abort)

/-- The case `INDEX_op_insn_start` of `tcg_gen_code`; the pair is the context and
`num_insns`. -/
def gen_insn_start (cfg : Config) (s : TCGContext) (args : List TCGArg) (num_insns : Int) :
    Except Fault (TCGContext × Int) := do
  let s1 ← if 0 ≤ num_insns then do
      let e ← wr s.gen_insn_end_off num_insns.toNat (s.code_ptr - s.code_buf)
      pure { s with gen_insn_end_off := e }
    else pure s
  let num_insns := num_insns + 1
  let s2 ← (List.range cfg.TARGET_INSN_START_WORDS).foldlM (fun (s : TCGContext) i => do
      let a ← if cfg.TARGET_LONG_WIDER then do
          let hi ← rd args (i * 2 + 1)
          let lo ← rd args (i * 2)
          pure ((hi <<< 32) ||| lo)
        else rd args i
      let row ← rdi s.gen_insn_data num_insns
      let row ← wr row i a
      let d ← wr s.gen_insn_data num_insns.toNat row
      pure { s with gen_insn_data := d }) s1
  pure (s2, num_insns)

/-- The `switch (opc)` of the loop of `tcg_gen_code`, followed by `check_regs`. -/
def gen_op (cfg : Config) (s : TCGContext) (num_insns : Int) (oi : Nat) :
    Except Fault (TCGContext × Int) := do
  let op ← rd s.gen_op_buf oi
  let args := if 0 ≤ op.args then s.gen_opparam_buf.drop op.args.toNat else []
  let opc := op.opc
  let df := cfg.tcg_op_defs opc
  let dead_args ← rd s.op_dead_args oi
  let sync_args ← rd s.op_sync_args oi
  let r ← match opc with
    | TCGOpcode.mov_i32 | TCGOpcode.mov_i64 => do
      let s1 ← tcg_reg_alloc_mov cfg s args dead_args sync_args
      pure (s1, num_insns)
    | TCGOpcode.movi_i32 | TCGOpcode.movi_i64 => do
      let s1 ← tcg_reg_alloc_movi cfg s args dead_args sync_args
      pure (s1, num_insns)
    | TCGOpcode.insn_start => gen_insn_start cfg s args num_insns
    | TCGOpcode.discard => do
      let a ← rd args 0
      let s1 ← temp_dead s a
      pure (s1, num_insns)
    | TCGOpcode.set_label => do
      let s1 ← tcg_reg_alloc_bb_end s s.reserved_regs
      let l ← rd args 0
      let s2 ← tcg_out_label s1 l s1.code_ptr
      pure (s2, num_insns)
    | TCGOpcode.call => do
      let s1 ← tcg_reg_alloc_call cfg s op.callo op.calli args dead_args sync_args
      pure (s1, num_insns)
    | _ => do
      if flag df.flags cfg.TCG_OPF_NOT_PRESENT then throw Fault.abort
      let s1 ← tcg_reg_alloc_op cfg s df opc args dead_args sync_args
      pure (s1, num_insns)
  check_regs cfg r.1
  pure r

/-- Result of the loop of `tcg_gen_code`. -/
inductive GenLoop
  /-- `return -1` inside the loop -/
  | overflow (s : TCGContext)
  /-- the walk reached the end of the list -/
  | done (s : TCGContext) (num_insns : Int)
  deriving DecidableEq, Repr, Inhabited

/-- The loop `for (oi = s->gen_first_op_idx; oi >= 0; oi = oi_next)`. -/
def gen_loop (cfg : Config) : Nat → TCGContext → Int → Int → Except Fault GenLoop
  | 0, s, num_insns, oi => if oi < 0 then pure (GenLoop.done s num_insns) else throw Fault.fuel
  | fuel + 1, s, num_insns, oi =>
    if oi < 0 then pure (GenLoop.done s num_insns)
    else do
      let op ← rd s.gen_op_buf oi.toNat
      let oi_next := op.next
      let r ← gen_op cfg s num_insns oi.toNat
      if r.1.code_ptr > r.1.code_gen_highwater then pure (GenLoop.overflow r.1)
      else gen_loop cfg fuel r.1 r.2 oi_next

/-- `tcg_gen_code`: the value returned and the final context. -/
def tcg_gen_code (cfg : Config) (s : TCGContext) (gen_code_buf : Nat) :
    Except Fault (Int × TCGContext) := do
  let s0 := cfg.tcg_optimize s
  let s1 ← match tcg_liveness_analysis cfg s0 with
    | some s1 => pure s1
    | none => throw Fault.fuel
  let s2 := tcg_reg_alloc_start cfg s1
  let s3 : TCGContext := { s2 with code_buf := gen_code_buf, code_ptr := gen_code_buf }
  let s4 := tcg_out cfg s3 HostInsn.tb_init
  match ← gen_loop cfg s4.gen_op_buf.length s4 (-1) s4.gen_first_op_idx with
  | GenLoop.overflow s5 => pure (-1, s5)
  | GenLoop.done s5 num_insns =>
    if num_insns < 0 then throw Fault.assert
    let e ← wr s5.gen_insn_end_off num_insns.toNat (s5.code_ptr - s5.code_buf)
    let s6 : TCGContext := { s5 with gen_insn_end_off := e }
    let s7 := tcg_out cfg s6 HostInsn.tb_finalize
    pure ((s7.code_ptr : Int) - (s7.code_buf : Int), s7)

/-! ## Temps, globals and helper calls -/

def tcg_temp_alloc (cfg : Config) (n : Nat) : Except Fault Unit :=
  if n > cfg.TCG_MAX_TEMPS then throw Fault.abort else pure ()

/-- `tcg_global_reg_new_internal`: the index returned and the new context. -/
def tcg_global_reg_new_internal (cfg : Config) (s : TCGContext) (type : TCGType)
    (reg : Nat) : Except Fault (Nat × TCGContext) := do
  if cfg.TCG_TARGET_REG_BITS == 32 && type != TCGType.I32 then throw Fault.abort
  if tcg_regset_test_reg s.reserved_regs reg then throw Fault.abort
  let idx := s.nb_globals
  tcg_temp_alloc cfg (s.nb_globals + 1)
  let ts ← rd s.temps s.nb_globals
  let temps ← wr s.temps s.nb_globals
    { ts with base_type := type, type := type, fixed_reg := true, reg := reg }
  pure (idx, { s with temps := temps, nb_globals := s.nb_globals + 1,
                      reserved_regs := tcg_regset_set_reg s.reserved_regs reg })

/-- `find_first_bit(l, size)`: the index of the first bit set, `size` if there is none -/
def find_first_bit (l : List Bool) (size : Nat) : Nat :=
  match (List.range size).find? (fun i => l.getD i false) with
  | some i => i
  | none => size

/-- the bucket `type + (temp_local ? TCG_TYPE_COUNT : 0)` of the free temps -/
def temp_bucket (cfg : Config) (type : TCGType) (temp_local : Bool) : Nat :=
  cfg.tcg_type_index type + (if temp_local then cfg.TCG_TYPE_COUNT else 0)

/-- `tcg_temp_new_internal`: the index returned and the new context. -/
def tcg_temp_new_internal (cfg : Config) (s : TCGContext) (type : TCGType)
    (temp_local : Bool) : Except Fault (Nat × TCGContext) := do
  let k := temp_bucket cfg type temp_local
  let bm ← rd s.free_temps k
  let idx := find_first_bit bm cfg.TCG_MAX_TEMPS
  let r ← if idx < cfg.TCG_MAX_TEMPS then do
      let bm1 ← wr bm idx false
      let ft ← wr s.free_temps k bm1
      let ts ← rd s.temps idx
      let temps ← wr s.temps idx { ts with temp_allocated := true }
      if ts.base_type != type then throw Fault.assert
      if ts.temp_local != temp_local then throw Fault.assert
      pure (idx, { s with free_temps := ft, temps := temps })
    else if cfg.TCG_TARGET_REG_BITS == 32 && type == TCGType.I64 then do
      tcg_temp_alloc cfg (s.nb_temps + 2)
      let ts ← rd s.temps s.nb_temps
      let temps ← wr s.temps s.nb_temps
        { ts with base_type := type, type := TCGType.I32, temp_allocated := true,
                  temp_local := temp_local }
      let ts2 ← rd temps (s.nb_temps + 1)
      let temps ← wr temps (s.nb_temps + 1)
        { ts2 with base_type := type, type := TCGType.I32, temp_allocated := true,
                   temp_local := temp_local }
      pure (s.nb_temps, { s with temps := temps, nb_temps := s.nb_temps + 2 })
    else do
      tcg_temp_alloc cfg (s.nb_temps + 1)
      let ts ← rd s.temps s.nb_temps
      let temps ← wr s.temps s.nb_temps
        { ts with base_type := type, type := type, temp_allocated := true,
                  temp_local := temp_local }
      pure (s.nb_temps, { s with temps := temps, nb_temps := s.nb_temps + 1 })
  pure (r.1, { r.2 with temps_in_use := r.2.temps_in_use + 1 })

def tcg_temp_free_internal (cfg : Config) (s : TCGContext) (idx : Int) :
    Except Fault TCGContext := do
  let s : TCGContext := { s with temps_in_use := s.temps_in_use - 1 }
  if !(decide ((s.nb_globals : Int) ≤ idx) && decide (idx < (s.nb_temps : Int))) then
    throw Fault.assert
  let ts ← rdi s.temps idx
  if !ts.temp_allocated then throw Fault.assert
  let temps ← wr s.temps idx.toNat { ts with temp_allocated := false }
  let k := temp_bucket cfg ts.base_type ts.temp_local
  let bm ← rd s.free_temps k
  let bm1 ← wr bm idx.toNat true
  let ft ← wr s.free_temps k bm1
  pure { s with temps := temps, free_temps := ft }

/-- The state of the loops of `tcg_gen_callN` that fill the parameter buffer. -/
structure CallAcc where
  buf : List TCGArg
  pi : Nat
  real_args : Nat
  deriving DecidableEq, Repr, Inhabited

/-- `s->gen_opparam_buf[pi++] = v` -/
def call_push (a : CallAcc) (v : TCGArg) : Except Fault CallAcc := do
  let buf ← wr a.buf a.pi v
  pure { a with buf := buf, pi := a.pi + 1 }

/-- One iteration of the loop over the arguments of `tcg_gen_callN`. -/
def call_arg (cfg : Config) (sizemask : Nat) (args : List TCGArg) (a : CallAcc) (i : Nat) :
    Except Fault CallAcc := do
  let is_64bit := sizemask &&& (1 <<< ((i + 1) * 2)) != 0
  let arg ← rd args i
  if cfg.TCG_TARGET_REG_BITS < 64 && is_64bit then
    let a ← if cfg.TCG_TARGET_CALL_ALIGN_ARGS && a.real_args &&& 1 != 0 then do
        let a ← call_push a cfg.TCG_CALL_DUMMY_ARG
        pure { a with real_args := a.real_args + 1 }
      else pure a
    let a ← if cfg.HOST_WORDS_BIGENDIAN != cfg.TCG_TARGET_STACK_GROWSUP then do
        let a ← call_push a (arg + 1)
        call_push a arg
      else do
        let a ← call_push a arg
        call_push a (arg + 1)
    pure { a with real_args := a.real_args + 2 }
  else
    let a ← call_push a arg
    pure { a with real_args := a.real_args + 1 }

/-- `tcg_gen_callN` for a host that is neither 32-bit sparc nor one with
`TCG_TARGET_EXTEND_ARGS`. -/
def tcg_gen_callN (cfg : Config) (s : TCGContext) (func : Nat) (ret : TCGArg)
    (nargs : Nat) (args : List TCGArg) : Except Fault TCGContext := do
  let info ← match cfg.helpers func with
    | some info => pure info
    | none => throw Fault.oob
  let flags := info.flags
  let sizemask := info.sizemask
  let pi_first := s.gen_next_parm_idx
  let a0 : CallAcc := { buf := s.gen_opparam_buf, pi := pi_first, real_args := 0 }
  let (a, nb_rets) ← if ret != cfg.TCG_CALL_DUMMY_ARG then
      if cfg.TCG_TARGET_REG_BITS < 64 && sizemask &&& 1 != 0 then
        if cfg.HOST_WORDS_BIGENDIAN then do
          let a ← call_push a0 (ret + 1)
          let a ← call_push a ret
          pure (a, 2)
        else do
          let a ← call_push a0 ret
          let a ← call_push a (ret + 1)
          pure (a, 2)
      else do
        let a ← call_push a0 ret
        pure (a, 1)
    else pure (a0, 0)
  let a ← (List.range nargs).foldlM (call_arg cfg sizemask args) a
  let a ← call_push a func
  let a ← call_push a flags
  let i := s.gen_next_op_idx
  if !(decide (i < cfg.OPC_BUF_SIZE)) then throw Fault.assert
  if !(decide (a.pi ≤ cfg.OPPARAM_BUF_SIZE)) then throw Fault.assert
  let op : TCGOp := { opc := TCGOpcode.call, callo := nb_rets,
                      calli := a.real_args % 2 ^ cfg.calli_bits,
                      args := (pi_first : Int), prev := (i : Int) - 1, next := (i : Int) + 1 }
  let ops ← wr s.gen_op_buf i op
  if op.calli != a.real_args then throw Fault.assert
  pure { s with gen_opparam_buf := a.buf, gen_op_buf := ops,
                gen_last_op_idx := (i : Int), gen_next_op_idx := i + 1,
                gen_next_parm_idx := a.pi }

/-! ## Op definitions -/

/-- the number of registers `i < TCG_TARGET_NB_REGS` of the set -/
def count_regs (cfg : Config) (regs : TCGRegSet) : Nat :=
  (List.range cfg.TCG_TARGET_NB_REGS).foldl
    (fun n i => if tcg_regset_test_reg regs i then n + 1 else n) 0

def get_constraint_priority (cfg : Config) (df : TCGOpDef) (k : Nat) : Int :=
  let arg_ct := df.args_ct.getD k default
  if flag arg_ct.ct cfg.TCG_CT_ALIAS then
    (cfg.TCG_TARGET_NB_REGS : Int) - 1 + 1
  else if !flag arg_ct.ct cfg.TCG_CT_REG then 0
  else (cfg.TCG_TARGET_NB_REGS : Int) - (count_regs cfg arg_ct.regs : Int) + 1

/-- The body of the inner loop of `sort_constraints`. -/
def sort_swap (cfg : Config) (df : TCGOpDef) (start i : Nat) (sa : List Nat) (j : Nat) :
    List Nat :=
  let p1 := get_constraint_priority cfg df (sa.getD (start + i) 0)
  let p2 := get_constraint_priority cfg df (sa.getD (start + j) 0)
  if p1 < p2 then
    let tmp := sa.getD (start + i) 0
    let sa1 := sa.set (start + i) (sa.getD (start + j) 0)
    sa1.set (start + j) tmp
  else sa

def sort_constraints (cfg : Config) (df : TCGOpDef) (start n : Nat) : TCGOpDef :=
  let sa0 := (List.range n).foldl (fun sa i => sa.set (start + i) (start + i)) df.sorted_args
  if n ≤ 1 then { df with sorted_args := sa0 }
  else
    let sa := (List.range (n - 1)).foldl (fun sa i =>
      (List.range' (i + 1) (n - (i + 1))).foldl (sort_swap cfg df start i) sa) sa0
    { df with sorted_args := sa }

/-- The loop that reads a constraint string that does not start with a digit; the
fuel is the length of the string. -/
def parse_ct_str (cfg : Config) : Nat → TCGArgConstraint → List Char →
    Except Fault TCGArgConstraint
  | _, ct, [] => pure ct
  | 0, _, _ :: _ => throw Fault.fuel
  | fuel + 1, ct, 'i' :: rest =>
    parse_ct_str cfg fuel { ct with ct := ct.ct ||| cfg.TCG_CT_CONST } rest
  | fuel + 1, ct, c :: rest =>
    match cfg.target_parse_constraint ct (c :: rest) with
    | some (ct1, rest1) => parse_ct_str cfg fuel ct1 rest1
    | none => throw Fault.abort

/-- One iteration of the loop over the arguments in `tcg_add_target_add_op_defs`. -/
def add_op_def_arg (cfg : Config) (td : TCGTargetOpDef) (df : TCGOpDef) (i : Nat) :
    Except Fault TCGOpDef := do
  let ct_str ← match td.args_ct_str.getD i none with
    | some str => pure str
    | none => throw Fault.assert
  let cleared : TCGArgConstraint := { df.args_ct.getD i default with regs := 0, ct := 0 }
  let df : TCGOpDef := { df with args_ct := df.args_ct.set i cleared }
  match ct_str with
  | c :: _ =>
    if '0' ≤ c ∧ c ≤ '9' then
      let oarg := c.toNat - '0'.toNat
      if !(decide (oarg < df.nb_oargs)) then throw Fault.assert
      if !flag (df.args_ct.getD oarg default).ct cfg.TCG_CT_REG then throw Fault.assert
      let src := df.args_ct.getD oarg default
      let a1 := df.args_ct.set i src
      let a2 := a1.set oarg { a1.getD oarg default with ct := cfg.TCG_CT_ALIAS }
      let a3 := a2.set oarg { a2.getD oarg default with alias_index := i }
      let a4 := a3.set i { a3.getD i default with ct := (a3.getD i default).ct ||| cfg.TCG_CT_IALIAS }
      let a5 := a4.set i { a4.getD i default with alias_index := oarg }
      pure { df with args_ct := a5 }
    else do
      let ct ← parse_ct_str cfg ct_str.length cleared ct_str
      pure { df with args_ct := df.args_ct.set i ct }
  | [] => pure df

/-- The body of the loop of `tcg_add_target_add_op_defs` for one entry of the table:
the new definition of the opcode of the entry. -/
def add_op_def (cfg : Config) (td : TCGTargetOpDef) (df : TCGOpDef) :
    Except Fault TCGOpDef := do
  if df.used then throw Fault.assert
  let df : TCGOpDef := { df with used := true }
  let nb_args := df.nb_iargs + df.nb_oargs
  let df ← (List.range nb_args).foldlM (add_op_def_arg cfg td) df
  if !(nb_args == cfg.TCG_MAX_OP_ARGS || td.args_ct_str.getD nb_args none == none) then
    throw Fault.assert
  let df := sort_constraints cfg df 0 df.nb_oargs
  pure (sort_constraints cfg df df.nb_oargs df.nb_iargs)

/-- `tcg_add_target_add_op_defs`: the table `tcg_op_defs` after the entries `tdefs`
(the table up to its terminator) have been read. -/
def tcg_add_target_add_op_defs (cfg : Config) (tbl : TCGOpcode → TCGOpDef)
    (tdefs : List TCGTargetOpDef) : Except Fault (TCGOpcode → TCGOpDef) := do
  let tbl ← tdefs.foldlM (fun (tbl : TCGOpcode → TCGOpDef) td => do
    let df ← add_op_def cfg td (tbl td.op)
    pure (fun op => if op = td.op then df else tbl op)) tbl
  let bad := cfg.all_ops.any (fun op =>
    if flag (tbl op).flags cfg.TCG_OPF_NOT_PRESENT then (tbl op).used else !(tbl op).used)
  if bad then throw Fault.abort
  pure tbl

/-! ## Predicates used to state the properties -/

/-- "dead and memory-fresh": `dead_temps[t] && !mem_temps[t]` -/
def dead_fresh (st : LaState) (t : TCGArg) : Prop :=
  st.dead_temps.getD t false = true ∧ st.mem_temps.getD t false = false

instance (st : LaState) (t : TCGArg) : Decidable (dead_fresh st t) := by
  unfold dead_fresh; infer_instance

/-- opcodes handled by the `default:` case of the switch of the liveness pass -/
def la_generic : TCGOpcode → Bool
  | TCGOpcode.call | TCGOpcode.insn_start | TCGOpcode.discard
  | TCGOpcode.add2_i32 | TCGOpcode.sub2_i32 | TCGOpcode.add2_i64 | TCGOpcode.sub2_i64
  | TCGOpcode.mulu2_i32 | TCGOpcode.muls2_i32 | TCGOpcode.mulu2_i64 | TCGOpcode.muls2_i64 => false
  | _ => true

/-- the single-word opcode by which the liveness pass replaces a double-word add or sub -/
def addsub2_low : TCGOpcode → Option TCGOpcode
  | TCGOpcode.add2_i32 => some TCGOpcode.add_i32
  | TCGOpcode.sub2_i32 => some TCGOpcode.sub_i32
  | TCGOpcode.add2_i64 => some TCGOpcode.add_i64
  | TCGOpcode.sub2_i64 => some TCGOpcode.sub_i64
  | _ => none

/-- first element of a list of op indices, `d` for the empty list -/
def headI (l : List Nat) (d : Int) : Int :=
  match l with
  | [] => d
  | a :: _ => (a : Int)

/-- last element of a list of op indices, `d` for the empty list -/
def lastI (l : List Nat) (d : Int) : Int :=
  match l with
  | [] => d
  | a :: t => lastI t (a : Int)

/-- `Chain buf p l q`: the ops at the indices `l` are linked to each other in this
order through `prev` and `next`; the `prev` of the first is `p`, the `next` of the
last is `q`. -/
def Chain (buf : List TCGOp) : Int → List Nat → Int → Prop
  | _, [], _ => True
  | p, i :: t, q =>
    (∃ op, buf[i]? = some op ∧ op.prev = p ∧ op.next = headI t q) ∧ Chain buf (i : Int) t q

/-- The op list of the context is the doubly-linked list of the ops `l`, in this
order: the first op has `prev = -1`, the last has `next = -1`, and no op occurs twice. -/
structure OpList (s : TCGContext) (l : List Nat) : Prop where
  chain : Chain s.gen_op_buf (-1) l (-1)
  first : s.gen_first_op_idx = headI l (-1)
  last : s.gen_last_op_idx = lastI l (-1)
  nodup : l.Nodup

/-- Number of leading entries of `args` that the liveness pass reads or writes for
an op. -/
def la_footprint (cfg : Config) (op : TCGOp) : Nat :=
  match op.opc with
  | TCGOpcode.call => op.callo + op.calli + 2
  | TCGOpcode.insn_start => 0
  | TCGOpcode.discard => 1
  | TCGOpcode.add2_i32 | TCGOpcode.sub2_i32 | TCGOpcode.add2_i64 | TCGOpcode.sub2_i64 => 6
  | TCGOpcode.mulu2_i32 | TCGOpcode.muls2_i32 | TCGOpcode.mulu2_i64 | TCGOpcode.muls2_i64 => 4
  | opc => (cfg.tcg_op_defs opc).nb_oargs + (cfg.tcg_op_defs opc).nb_iargs

/-- The arguments of the ops `l` lie inside the parameter buffer and the argument
areas of two different ops do not overlap. -/
def ArgsWF (cfg : Config) (s : TCGContext) (l : List Nat) : Prop :=
  (∀ i ∈ l, ∃ op, s.gen_op_buf[i]? = some op ∧ 0 ≤ op.args
      ∧ op.args.toNat + la_footprint cfg op ≤ s.gen_opparam_buf.length)
  ∧ ∀ i ∈ l, ∀ j ∈ l, i ≠ j → ∀ oi oj, s.gen_op_buf[i]? = some oi → s.gen_op_buf[j]? = some oj →
      oi.args.toNat + la_footprint cfg oi ≤ oj.args.toNat
      ∨ oj.args.toNat + la_footprint cfg oj ≤ oi.args.toNat

/-- The ops visited by the liveness pass, in the order `r` of the visits. -/
def la_run (cfg : Config) (r : List Nat) (p : TCGContext × LaState) : TCGContext × LaState :=
  r.foldl (fun p oi => la_visit cfg p.1 p.2 oi) p

/-- The opcodes by which the liveness pass may replace a double-word opcode. -/
def la_rewrites : TCGOpcode → List TCGOpcode
  | TCGOpcode.add2_i32 => [TCGOpcode.add_i32]
  | TCGOpcode.sub2_i32 => [TCGOpcode.sub_i32]
  | TCGOpcode.add2_i64 => [TCGOpcode.add_i64]
  | TCGOpcode.sub2_i64 => [TCGOpcode.sub_i64]
  | TCGOpcode.mulu2_i32 => [TCGOpcode.mul_i32, TCGOpcode.muluh_i32]
  | TCGOpcode.muls2_i32 => [TCGOpcode.mul_i32, TCGOpcode.mulsh_i32]
  | TCGOpcode.mulu2_i64 => [TCGOpcode.mul_i64, TCGOpcode.muluh_i64]
  | TCGOpcode.muls2_i64 => [TCGOpcode.mul_i64, TCGOpcode.mulsh_i64]
  | _ => []

/-- The op table describes the single-word opcodes as the liveness pass treats the
ops it has rewritten: one output, two inputs, and the same `BB_END` and
`SIDE_EFFECTS` flags as the double-word opcode they replace. -/
def TableOK (cfg : Config) : Prop :=
  ∀ old new, new ∈ la_rewrites old →
    (cfg.tcg_op_defs new).nb_oargs = 1 ∧ (cfg.tcg_op_defs new).nb_iargs = 2
    ∧ flag (cfg.tcg_op_defs new).flags cfg.TCG_OPF_BB_END
        = flag (cfg.tcg_op_defs old).flags cfg.TCG_OPF_BB_END
    ∧ flag (cfg.tcg_op_defs new).flags cfg.TCG_OPF_SIDE_EFFECTS
        = flag (cfg.tcg_op_defs old).flags cfg.TCG_OPF_SIDE_EFFECTS

/-- the view `args[.]` after the stores `args[k] = v` of the list `ws` -/
def args_writes (A : Nat → TCGArg) (ws : List (Nat × TCGArg)) : Nat → TCGArg :=
  ws.foldl (fun f w => args_write f w.1 w.2) A

/-- The ops that the liveness pass keeps, of the ops `r` visited in this order. -/
def la_kept (cfg : Config) : List Nat → TCGContext × LaState → List Nat
  | [], _ => []
  | i :: r, p =>
    if la_op cfg p.1 (p.1.gen_op_buf.getD i TCGOp.poison)
        (op_arg p.1.gen_opparam_buf (p.1.gen_op_buf.getD i TCGOp.poison).args) p.2
        = LaResult.remove
    then la_kept cfg r (la_visit cfg p.1 p.2 i)
    else i :: la_kept cfg r (la_visit cfg p.1 p.2 i)

/-- The shape of a kept op: either nothing was rewritten, or the op was narrowed to
one output and two inputs. -/
def KeptShape (cfg : Config) (s : TCGContext) (opc0 : TCGOpcode) (A : Nat → TCGArg)
    (st : LaState) (opc : TCGOpcode) (ws : List (Nat × TCGArg)) (r : LaResult) : Prop :=
  (opc = opc0 ∧ ws = [])
  ∨ (opc ∈ la_rewrites opc0 ∧ (∀ w ∈ ws, w.1 < 3)
      ∧ ¬ dead_fresh st (args_writes A ws 0)
      ∧ r = la_keep opc ws
          (la_do_not_remove cfg s (cfg.tcg_op_defs opc0) (args_writes A ws) 1 2 st))

/-- two entries of the op buffer describe the same op, links apart -/
def SameOp (o o' : TCGOp) : Prop :=
  o'.opc = o.opc ∧ o'.callo = o.callo ∧ o'.calli = o.calli ∧ o'.args = o.args

/-- the liveness pass sees the same op `i` in the two contexts -/
def ViewEq (cfg : Config) (s s' : TCGContext) (i : Nat) : Prop :=
  ∃ op op', s.gen_op_buf[i]? = some op ∧ s'.gen_op_buf[i]? = some op' ∧ SameOp op op'
    ∧ ∀ k, k < la_footprint cfg op →
        op_arg s'.gen_opparam_buf op'.args k = op_arg s.gen_opparam_buf op.args k

/-- the two contexts have the same temps -/
def SameEnv (s s' : TCGContext) : Prop :=
  s'.nb_globals = s.nb_globals ∧ s'.nb_temps = s.nb_temps ∧ s'.temps = s.temps

/-- the ops `l` keep their arguments and do not grow, from `s` to `s'` -/
def OpsLe (cfg : Config) (s s' : TCGContext) (l : List Nat) : Prop :=
  s'.gen_opparam_buf.length = s.gen_opparam_buf.length
  ∧ ∀ k ∈ l, ∀ opk, s.gen_op_buf[k]? = some opk →
      ∃ op', s'.gen_op_buf[k]? = some op' ∧ op'.args = opk.args
        ∧ la_footprint cfg op' ≤ la_footprint cfg opk

/-- The arguments that the liveness pass makes live for an op: the index of the
first one and their number. -/
def la_in (cfg : Config) (op : TCGOp) : Nat × Nat :=
  match op.opc with
  | TCGOpcode.call => (op.callo, op.calli)
  | TCGOpcode.insn_start => (0, 0)
  | TCGOpcode.discard => (0, 0)
  | TCGOpcode.add2_i32 | TCGOpcode.sub2_i32 | TCGOpcode.add2_i64 | TCGOpcode.sub2_i64 => (2, 4)
  | TCGOpcode.mulu2_i32 | TCGOpcode.muls2_i32 | TCGOpcode.mulu2_i64 | TCGOpcode.muls2_i64 => (2, 2)
  | opc => ((cfg.tcg_op_defs opc).nb_oargs, (cfg.tcg_op_defs opc).nb_iargs)

/-- The op at index `j` reads the temp `d`: `d` is one of its input arguments. -/
def la_reads (cfg : Config) (s : TCGContext) (j : Nat) (d : TCGArg) : Prop :=
  ∃ op, s.gen_op_buf[j]? = some op
    ∧ ∃ k, (la_in cfg op).1 ≤ k ∧ k < (la_in cfg op).1 + (la_in cfg op).2
        ∧ op_arg s.gen_opparam_buf op.args k = d

/-- the liveness state after an iteration that started in the state `st` -/
def LaResult.state (st : LaState) : LaResult → LaState
  | LaResult.remove => st
  | LaResult.skip st1 => st1
  | LaResult.keep _ _ _ _ st1 => st1

/-- `Post x P`: when `x` returns, its result satisfies `P` -/
@[irreducible] def Post {α : Type} (x : Except Fault α) (P : α → Prop) : Prop :=
  ∀ a, x = Except.ok a → P a

/-- What the register allocator never changes in a context, the labels and the
per-instruction data apart: the temps and the register map are cut down to their
number, the frame offset and `code_ptr` are dropped, and of the emitted instructions
only the epilogues of the translation block are kept. -/
def coreL (s : TCGContext) : TCGContext :=
  { s with temps := List.replicate s.temps.length default,
           reg_to_temp := List.replicate s.reg_to_temp.length 0,
           current_frame_offset := 0, code_ptr := 0,
           out := s.out.filter (fun i => i == HostInsn.tb_finalize) }

/-- `coreL` without the labels and the per-instruction data. -/
def core (s : TCGContext) : TCGContext :=
  { coreL s with labels := [], gen_insn_end_off := [], gen_insn_data := [] }

/-- The ops `l` handed one after the other to the switch of `tcg_gen_code`, up to
and including the first op that leaves `code_ptr` above `code_gen_highwater`: the
loop of `tcg_gen_code` as the specification describes it. -/
def gen_ops (cfg : Config) : List Nat → TCGContext → Int → Except Fault GenLoop
  | [], s, num_insns => pure (GenLoop.done s num_insns)
  | oi :: l, s, num_insns => do
    let r ← gen_op cfg s num_insns oi
    if r.1.code_ptr > r.1.code_gen_highwater then pure (GenLoop.overflow r.1)
    else gen_ops cfg l r.1 r.2

/-- The context in which `tcg_gen_code` enters its loop, `s1` being the context left
by the liveness pass. -/
def gen_entry (cfg : Config) (s1 : TCGContext) (gen_code_buf : Nat) : TCGContext :=
  let s2 := tcg_reg_alloc_start cfg s1
  tcg_out cfg { s2 with code_buf := gen_code_buf, code_ptr := gen_code_buf } HostInsn.tb_init

/-- The indices met by the traversal `for (oi = start; oi >= 0; oi = buf[oi].next)`;
`none` when the walk leaves the buffer or does not end within `fuel` steps. -/
def walk_next (buf : List TCGOp) : Nat → Int → Option (List Nat)
  | 0, oi => if oi < 0 then some [] else none
  | fuel + 1, oi =>
    if oi < 0 then some []
    else match buf[oi.toNat]? with
      | none => none
      | some op => (walk_next buf fuel op.next).map (fun l => oi.toNat :: l)

/-- The indices met by the traversal `for (oi = start; oi >= 0; oi = buf[oi].prev)`. -/
def walk_prev (buf : List TCGOp) : Nat → Int → Option (List Nat)
  | 0, oi => if oi < 0 then some [] else none
  | fuel + 1, oi =>
    if oi < 0 then some []
    else match buf[oi.toNat]? with
      | none => none
      | some op => (walk_prev buf fuel op.prev).map (fun l => oi.toNat :: l)

deriving instance DecidableEq for Except

/-! ## A small host and small translation blocks, used to run the code above -/

def exDef (o i c f : Nat) (ct : List TCGArgConstraint) (so : List Nat) : TCGOpDef :=
  { nb_oargs := o, nb_iargs := i, nb_cargs := c, flags := f, args_ct := ct, sorted_args := so }

/-- An op table in the style of `tcg-opc.h`: `other 0` is `exit_tb`, `other 1` is `br`. -/
def exDefs : TCGOpcode → TCGOpDef
  | TCGOpcode.mov_i32 => exDef 1 1 0 0x10 [] []
  | TCGOpcode.movi_i32 => exDef 1 0 1 0x10 [] []
  | TCGOpcode.insn_start => exDef 0 0 1 0x10 [] []
  | TCGOpcode.discard => exDef 1 0 0 0x10 [] []
  | TCGOpcode.set_label => exDef 0 0 1 0x11 [] []
  | TCGOpcode.call => exDef 0 1 2 0x12 [] []
  | TCGOpcode.add_i32 | TCGOpcode.add_i64 | TCGOpcode.mul_i32 | TCGOpcode.mul_i64
  | TCGOpcode.muluh_i32 | TCGOpcode.muluh_i64 | TCGOpcode.mulsh_i32 | TCGOpcode.mulsh_i64 =>
    exDef 1 2 0 0 [⟨1, 0, 0xf⟩, ⟨1, 0, 0xf⟩, ⟨1, 0, 0xf⟩] [0, 1, 2]
  | TCGOpcode.sub_i64 => exDef 1 2 0 0 [⟨0x80, 1, 0xf⟩, ⟨0x41, 0, 0xf⟩, ⟨1, 0, 0xf⟩] [0, 1, 2]
  | TCGOpcode.add2_i32 | TCGOpcode.sub2_i32 =>
    exDef 2 4 0 0 [⟨1, 0, 0xf⟩, ⟨1, 0, 0xf⟩, ⟨1, 0, 0xf⟩, ⟨1, 0, 0xf⟩, ⟨1, 0, 0xf⟩, ⟨1, 0, 0xf⟩]
      [0, 1, 2, 3, 4, 5]
  | TCGOpcode.sub_i32 => exDef 1 2 0 0 [⟨0x80, 1, 0xf⟩, ⟨0x41, 0, 0xf⟩, ⟨1, 0, 0xf⟩] [0, 1, 2]
  | TCGOpcode.other 0 => exDef 0 0 1 0x01 [] []
  | TCGOpcode.other 1 => exDef 0 0 1 0x01 [] []
  | TCGOpcode.other 2 => exDef 1 0 0 0x01 [⟨1, 0, 0xe⟩] [0]
  | _ => exDef 0 0 0 0 [] []

/-- A host with 8 registers; the flag masks are those of `tcg.h`. -/
def exCfg : Config :=
  { tcg_op_defs := exDefs
    TCG_OPF_BB_END := 0x01, TCG_OPF_CALL_CLOBBER := 0x02, TCG_OPF_SIDE_EFFECTS := 0x04
    TCG_OPF_NOT_PRESENT := 0x10
    TCG_CALL_NO_READ_GLOBALS := 0x10, TCG_CALL_NO_WRITE_GLOBALS := 0x20
    TCG_CALL_NO_SIDE_EFFECTS := 0x40
    TCG_CALL_DUMMY_ARG := 2 ^ 64 - 1
    TCG_CT_ALIAS := 0x80, TCG_CT_IALIAS := 0x40
    TCG_TARGET_HAS_muluh_i32 := false, TCG_TARGET_HAS_mulsh_i32 := false
    TCG_TARGET_HAS_muluh_i64 := false, TCG_TARGET_HAS_mulsh_i64 := false
    TCG_TARGET_NB_REGS := 8, TCG_MAX_OP_ARGS := 4, TARGET_INSN_START_WORDS := 1
    tcg_target_reg_alloc_order := [0, 1, 2, 3, 4, 5, 6, 7]
    tcg_target_call_iarg_regs := [0, 1], tcg_target_call_oarg_regs := [0, 1]
    tcg_target_call_clobber_regs := 0x7
    tcg_target_available_regs := fun _ => 0xff
    tcg_target_const_match := fun _ _ _ => false
    sizeof_tcg_target_long := 8, TCG_TARGET_STACK_ALIGN := 16
    TCG_STATIC_CALL_ARGS_SIZE := 128, TCG_TARGET_CALL_STACK_OFFSET := 0
    TCG_REG_CALL_STACK := 7, TCG_TARGET_STACK_GROWSUP := false
    insn_size := fun _ => 4
    op_relocs := fun opc args => match opc, args with
      | TCGOpcode.other 1, (some l) :: _ => [⟨0, 0, l, 0⟩]
      | _, _ => []
    tcg_optimize := id
    TARGET_LONG_WIDER := false
    TCG_MAX_TEMPS := 8, TCG_TYPE_COUNT := 2
    tcg_type_index := fun ty => match ty with
      | TCGType.I32 => 0
      | TCGType.I64 => 1
    TCG_TARGET_REG_BITS := 64
    TCG_CT_REG := 0x01, TCG_CT_CONST := 0x02
    OPC_BUF_SIZE := 8, OPPARAM_BUF_SIZE := 16
    HOST_WORDS_BIGENDIAN := false, TCG_TARGET_CALL_ALIGN_ARGS := false
    calli_bits := 6
    helpers := fun f => if f = 0xf000 then some ⟨0x70, 0⟩ else none
    target_parse_constraint := fun ct str => match str with
      | 'r' :: rest => some (⟨ct.ct ||| 0x01, ct.alias_index, 0xf⟩, rest)
      | 'a' :: rest => some (⟨ct.ct ||| 0x01, ct.alias_index, 0x1⟩, rest)
      | _ => none
    all_ops := [] }

def exTemp (fixed : Bool) (reg : Nat) : TCGTemp :=
  { base_type := TCGType.I32, type := TCGType.I32, val_type := TCGTempVal.DEAD, reg := reg,
    val := 0, mem_reg := 6, mem_offset := 0, fixed_reg := fixed, mem_coherent := false,
    mem_allocated := fixed, temp_local := false, temp_allocated := true }

def exOp (opc : TCGOpcode) (a : Int) (p n : Int) : TCGOp :=
  { opc := opc, callo := 0, calli := 0, args := a, prev := p, next := n }

/-- A context with one global bound to host register 5 and one scratch temp; the op
list and the parameter buffer are given. -/
def exCtx (ops : List TCGOp) (parm : List TCGArg) (labels : List TCGLabel) : TCGContext :=
  { nb_globals := 1, nb_temps := 2, temps := [exTemp true 5, exTemp false 0],
    gen_op_buf := ops, gen_opparam_buf := parm,
    gen_first_op_idx := 0, gen_last_op_idx := (ops.length : Int) - 1,
    gen_next_op_idx := ops.length,
    op_dead_args := [], op_sync_args := [], reg_to_temp := [], reserved_regs := 0xa0,
    frame_reg := 7, frame_start := 0, frame_end := 64, current_frame_offset := 0,
    code_buf := 0, code_ptr := 0, code_gen_highwater := 1000, labels := labels,
    gen_insn_end_off := [0, 0], gen_insn_data := [[0], [0]], out := [] }

/-- `insn_start; movi_i32 t1, 5; mov_i32 g0, t1; exit_tb`, where `g0` is the global
bound to a host register and `t1` a scratch temp. -/
def exMovFixed : TCGContext :=
  exCtx [exOp TCGOpcode.insn_start 0 (-1) 1, exOp TCGOpcode.movi_i32 1 0 2,
         exOp TCGOpcode.mov_i32 3 1 3, exOp (TCGOpcode.other 0) 5 2 (-1)]
    [0x1000, 1, 5, 0, 1, 0] []

/-- `insn_start; br L0` with no `set_label L0`. -/
def exBranch : TCGContext :=
  exCtx [exOp TCGOpcode.insn_start 0 (-1) 1, exOp (TCGOpcode.other 1) 1 0 (-1)]
    [0x1000, 0] [{ has_value := false, u := TCGLabelU.first_reloc [] }]

/-- `insn_start; add2_i32 g0, t1, g0, t1, g0, t1; exit_tb`: the high half `t1` of
the sum is never read. -/
def exAdd2 : TCGContext :=
  exCtx [exOp TCGOpcode.insn_start 0 (-1) 1, exOp TCGOpcode.add2_i32 1 0 2,
         exOp (TCGOpcode.other 0) 7 1 (-1)]
    [0x1000, 0, 1, 0, 1, 0, 1, 0] []

/-- `insn_start; br L0; set_label L0; exit_tb`. -/
def exBranchLabel : TCGContext :=
  exCtx [exOp TCGOpcode.insn_start 0 (-1) 1, exOp (TCGOpcode.other 1) 1 0 2,
         exOp TCGOpcode.set_label 2 1 3, exOp (TCGOpcode.other 0) 3 2 (-1)]
    [0x1000, 0, 0, 0] [{ has_value := false, u := TCGLabelU.first_reloc [] }]

/-- `insn_start; call t1 = f()` with the flags `NO_SIDE_EFFECTS`, `NO_WRITE_GLOBALS`
and `NO_READ_GLOBALS`; `exit_tb`: the result `t1` of the helper is never read. -/
def exCall : TCGContext :=
  exCtx [exOp TCGOpcode.insn_start 0 (-1) 1,
         { opc := TCGOpcode.call, callo := 1, calli := 0, args := 1, prev := 0, next := 2 },
         exOp (TCGOpcode.other 0) 4 1 (-1)]
    [0x1000, 1, 0xf000, 0x70, 0] []

/-- the liveness state at the end of a basic block of the example contexts -/
def exStEnd : LaState := { dead_temps := [true, true], mem_temps := [true, false] }

/-- `insn_start; movi_i32 t1, 5; exit_tb`: the temp `t1` is never read. -/
def exMoviDead : TCGContext :=
  exCtx [exOp TCGOpcode.insn_start 0 (-1) 1, exOp TCGOpcode.movi_i32 1 0 2,
         exOp (TCGOpcode.other 0) 3 1 (-1)]
    [0x1000, 1, 5, 0] []
/-- The context in which `tcg_gen_code` reaches the last op of `exMovFixed`: the
liveness pass, `tcg_reg_alloc_start`, and the first three ops. -/
def exMovFixed_at_exit : Except Fault TCGContext := do
  let s1 ← match tcg_liveness_analysis exCfg exMovFixed with
    | some s1 => pure s1
    | none => throw Fault.fuel
  let s4 := tcg_out exCfg (tcg_reg_alloc_start exCfg s1) HostInsn.tb_init
  let r ← gen_op exCfg s4 (-1) 0
  let r ← gen_op exCfg r.1 r.2 1
  let r ← gen_op exCfg r.1 r.2 2
  pure r.1
/-- The two single-word opcodes of a double-word multiply, low part first, and whether
the host has the second one (`TCG_TARGET_HAS_muluh_i32` ...). -/
def mul2_parts (cfg : Config) : TCGOpcode → Option (TCGOpcode × TCGOpcode × Bool)
  | TCGOpcode.mulu2_i32 =>
    some (TCGOpcode.mul_i32, TCGOpcode.muluh_i32, cfg.TCG_TARGET_HAS_muluh_i32)
  | TCGOpcode.muls2_i32 =>
    some (TCGOpcode.mul_i32, TCGOpcode.mulsh_i32, cfg.TCG_TARGET_HAS_mulsh_i32)
  | TCGOpcode.mulu2_i64 =>
    some (TCGOpcode.mul_i64, TCGOpcode.muluh_i64, cfg.TCG_TARGET_HAS_muluh_i64)
  | TCGOpcode.muls2_i64 =>
    some (TCGOpcode.mul_i64, TCGOpcode.mulsh_i64, cfg.TCG_TARGET_HAS_mulsh_i64)
  | _ => none

/-- A translation block with a `mulu2_i32` whose low half is never read:
`insn_start; mulu2_i32 t0, t1, t0, t1; exit_tb`. -/
def exMul2 : TCGContext :=
  exCtx [exOp TCGOpcode.insn_start 0 (-1) 1, exOp TCGOpcode.mulu2_i32 1 0 2,
         exOp (TCGOpcode.other 0) 5 1 (-1)]
    [0x1000, 0, 1, 0, 1, 0] []
/-- `insn_start; call f(g0, ..., g0)` with 17 inputs, no output and the flags 0;
`exit_tb`. -/
def exCallWide : TCGContext :=
  exCtx [exOp TCGOpcode.insn_start 0 (-1) 1,
         { opc := TCGOpcode.call, callo := 0, calli := 17, args := 1, prev := 0, next := 2 },
         exOp (TCGOpcode.other 0) 20 1 (-1)]
    ([0x1000] ++ List.replicate 17 0 ++ [0xf000, 0, 0]) []
/-- The numbers `nb_oargs` and `nb_iargs` with which the liveness pass reaches the
label `do_not_remove` for an op that came with the opcode `opc0` and leaves with the
opcode `opc`: (1, 2) for an op it has rewritten, (2, 4) for a double-word add or sub,
(2, 2) for a double-word multiply, else those of the op definition. -/
def la_arity (cfg : Config) (opc0 opc : TCGOpcode) : Nat × Nat :=
  if opc ∈ la_rewrites opc0 then (1, 2)
  else match opc0 with
    | TCGOpcode.add2_i32 | TCGOpcode.sub2_i32 | TCGOpcode.add2_i64 | TCGOpcode.sub2_i64 => (2, 4)
    | TCGOpcode.mulu2_i32 | TCGOpcode.muls2_i32 | TCGOpcode.mulu2_i64 | TCGOpcode.muls2_i64 =>
      (2, 2)
    | _ => ((cfg.tcg_op_defs opc0).nb_oargs, (cfg.tcg_op_defs opc0).nb_iargs)

/-- `insn_start; add2_i32 t1, t1, g0, t1, g0, t1; exit_tb`: both halves of the sum are
written to the temp `t1`. -/
def exAdd2Same : TCGContext :=
  exCtx [exOp TCGOpcode.insn_start 0 (-1) 1, exOp TCGOpcode.add2_i32 1 0 2,
         exOp (TCGOpcode.other 0) 7 1 (-1)]
    [0x1000, 1, 1, 0, 1, 0, 1, 0] []

/-- a liveness state in which the temp `t1` is live and needed in memory -/
def exStLive : LaState := { dead_temps := [true, false], mem_temps := [true, true] }
/-! ## The ELF image handed to the debugger (`tcg_register_jit_int`) -/

/-- What `elf.h` and the host back-end define for `tcg_register_jit_int`: the values
of the macros, and the sizes and alignments of `ElfW(Ehdr)`, `ElfW(Phdr)` and
`ElfW(Shdr)`. `ELF_HOST_FLAGS` and `ELF_OSABI` are `none` when not defined. -/
structure ElfConfig where
  EI_NIDENT : Nat
  EI_MAG0 : Nat
  EI_MAG1 : Nat
  EI_MAG2 : Nat
  EI_MAG3 : Nat
  EI_CLASS : Nat
  EI_DATA : Nat
  EI_VERSION : Nat
  EI_OSABI : Nat
  ELFMAG0 : Nat
  ELFMAG1 : Nat
  ELFMAG2 : Nat
  ELFMAG3 : Nat
  ELF_CLASS : Nat
  ELF_DATA : Nat
  EV_CURRENT : Nat
  ET_EXEC : Nat
  PT_LOAD : Nat
  PF_X : Nat
  ELF_HOST_MACHINE : Nat
  ELF_HOST_FLAGS : Option Nat
  ELF_OSABI : Option Nat
  sizeof_Ehdr : Nat
  sizeof_Phdr : Nat
  sizeof_Shdr : Nat
  alignof_Phdr : Nat
  alignof_Shdr : Nat

/-- `ElfW(Ehdr)` -/
structure ElfEhdr where
  e_ident : List Nat
  e_type : Nat
  e_machine : Nat
  e_version : Nat
  e_entry : Nat
  e_phoff : Nat
  e_shoff : Nat
  e_flags : Nat
  e_ehsize : Nat
  e_phentsize : Nat
  e_phnum : Nat
  e_shentsize : Nat
  e_shnum : Nat
  e_shstrndx : Nat
  deriving DecidableEq, Repr, Inhabited

/-- The fields of `ElfW(Phdr)` that `tcg_register_jit_int` sets; the others are 0. -/
structure ElfPhdr where
  p_type : Nat
  p_flags : Nat
  p_vaddr : Nat
  p_paddr : Nat
  p_memsz : Nat
  deriving DecidableEq, Repr, Inhabited

/-- The first two members of `struct ElfImage`. -/
structure ElfImage where
  ehdr : ElfEhdr
  phdr : ElfPhdr
  deriving DecidableEq, Repr, Inhabited

/-- `x` rounded up to a multiple of the alignment `a` -/
def align_up (x a : Nat) : Nat := (x + a - 1) / a * a

/-- `offsetof(struct ElfImage, phdr)` -/
def offsetof_phdr (e : ElfConfig) : Nat := align_up e.sizeof_Ehdr e.alignof_Phdr

/-- `offsetof(struct ElfImage, shdr)` -/
def offsetof_shdr (e : ElfConfig) : Nat :=
  align_up (offsetof_phdr e + e.sizeof_Phdr) e.alignof_Shdr

/-- `ARRAY_SIZE(img->shdr)` -/
def shdr_count : Nat := 7

/-- An array of `n` bytes given by designated initialisers, the rest being 0. -/
def designated (n : Nat) (inits : List (Nat × Nat)) : List Nat :=
  inits.foldl (fun l p => l.set p.1 p.2) (List.replicate n 0)

/-- The members `ehdr` and `phdr` of `img_template`. -/
def img_template (e : ElfConfig) : ElfImage :=
  { ehdr :=
      { e_ident := designated e.EI_NIDENT
          ([(e.EI_MAG0, e.ELFMAG0), (e.EI_MAG1, e.ELFMAG1), (e.EI_MAG2, e.ELFMAG2),
            (e.EI_MAG3, e.ELFMAG3), (e.EI_CLASS, e.ELF_CLASS), (e.EI_DATA, e.ELF_DATA),
            (e.EI_VERSION, e.EV_CURRENT)]
           ++ match e.ELF_OSABI with
              | some v => [(e.EI_OSABI, v)]
              | none => []),
        e_type := e.ET_EXEC,
        e_machine := e.ELF_HOST_MACHINE,
        e_version := e.EV_CURRENT,
        e_entry := 0,
        e_phoff := offsetof_phdr e,
        e_shoff := offsetof_shdr e,
        e_flags := e.ELF_HOST_FLAGS.getD 0,
        e_ehsize := e.sizeof_Shdr,
        e_phentsize := e.sizeof_Phdr,
        e_phnum := 1,
        e_shentsize := e.sizeof_Shdr,
        e_shnum := shdr_count,
        e_shstrndx := shdr_count - 1 },
    phdr := { p_type := e.PT_LOAD, p_flags := e.PF_X, p_vaddr := 0, p_paddr := 0, p_memsz := 0 } }

/-- The members `ehdr` and `phdr` of the image that `tcg_register_jit_int` builds for
the code buffer at address `buf` of `buf_size` bytes. -/
def tcg_register_jit_int (e : ElfConfig) (buf buf_size : Nat) : ElfImage :=
  let img := img_template e
  { img with phdr := { img.phdr with p_vaddr := buf, p_paddr := buf, p_memsz := buf_size } }

/-- `elf.h` for a 32-bit little-endian x86 host (`ELFCLASS32`, `EM_386`). -/
def exElf32 : ElfConfig :=
  { EI_NIDENT := 16, EI_MAG0 := 0, EI_MAG1 := 1, EI_MAG2 := 2, EI_MAG3 := 3, EI_CLASS := 4,
    EI_DATA := 5, EI_VERSION := 6, EI_OSABI := 7,
    ELFMAG0 := 0x7f, ELFMAG1 := 0x45, ELFMAG2 := 0x4c, ELFMAG3 := 0x46,
    ELF_CLASS := 1, ELF_DATA := 1, EV_CURRENT := 1, ET_EXEC := 2, PT_LOAD := 1, PF_X := 1,
    ELF_HOST_MACHINE := 3, ELF_HOST_FLAGS := none, ELF_OSABI := none,
    sizeof_Ehdr := 52, sizeof_Phdr := 32, sizeof_Shdr := 40,
    alignof_Phdr := 4, alignof_Shdr := 4 }

/-- `elf.h` for a 64-bit little-endian x86 host (`ELFCLASS64`, `EM_X86_64`). -/
def exElf64 : ElfConfig :=
  { exElf32 with ELF_CLASS := 2, ELF_HOST_MACHINE := 62,
                 sizeof_Ehdr := 64, sizeof_Phdr := 56, sizeof_Shdr := 64,
                 alignof_Phdr := 8, alignof_Shdr := 8 }
/-! ## Pool allocation (`tcg_malloc_internal`, `tcg_pool_reset`) -/

/-- The header of a `TCGPool`: the link `next` (`none` for `NULL`) and the size of the
data area. -/
structure TCGPool where
  next : Option Nat
  size : Nat
  deriving DecidableEq, Repr, Inhabited

/-- The pool fields of `TCGContext`, with the blocks that `g_malloc` has handed out:
`heap[a]` is the pool at the address `a`, `none` once it is freed. A pointer into the
data area of a pool is the pair of the address of the pool and the offset in its
data. -/
structure PoolCtx where
  heap : List (Option TCGPool)
  pool_first : Option Nat
  pool_current : Option Nat
  pool_first_large : Option Nat
  pool_cur : Option (Nat × Nat)
  pool_end : Option (Nat × Nat)
  deriving DecidableEq, Repr, Inhabited

/-- `*p` for a pool pointer -/
def rdp (heap : List (Option TCGPool)) (p : Nat) : Except Fault TCGPool :=
  match heap[p]? with
  | some (some pool) => pure pool
  | _ => throw Fault.oob

/-- The code at the label `new_pool`: the address of the new chunk and the context. -/
def new_pool (chunk_size : Nat) (s : PoolCtx) : Except Fault (Nat × PoolCtx) := do
  let p := s.heap.length
  let heap := s.heap ++ [some { next := none, size := chunk_size }]
  match s.pool_current with
  | some pc => do
    let cur ← rdp heap pc
    pure (p, { s with heap := heap.set pc (some { cur with next := some p }) })
  | none => pure (p, { s with heap := heap, pool_first := some p })

/-- `tcg_malloc_internal`; `chunk_size` is `TCG_POOL_CHUNK_SIZE`. The result is the
pointer returned and the new context. -/
def tcg_malloc_internal (chunk_size : Nat) (s : PoolCtx) (size : Nat) :
    Except Fault ((Nat × Nat) × PoolCtx) := do
  if size > chunk_size then
    let p := s.heap.length
    pure ((p, 0), { s with heap := s.heap ++ [some { next := s.pool_first_large, size := size }],
                           pool_first_large := some p })
  else
    let (p, s1) ← match s.pool_current with
      | none =>
        match s.pool_first with
        | some p => pure (p, s)
        | none => new_pool chunk_size s
      | some pc => do
        let cur ← rdp s.heap pc
        match cur.next with
        | none => new_pool chunk_size s
        | some n => pure (n, s)
    let pool ← rdp s1.heap p
    pure ((p, 0), { s1 with pool_current := some p, pool_cur := some (p, size),
                            pool_end := some (p, pool.size) })

/-- The loop of `tcg_pool_reset` that frees the large segments. -/
def free_large : Nat → List (Option TCGPool) → Option Nat → Except Fault (List (Option TCGPool))
  | _, heap, none => pure heap
  | 0, _, some _ => throw Fault.fuel
  | fuel + 1, heap, some p => do
    let pool ← rdp heap p
    free_large fuel (heap.set p none) pool.next

def tcg_pool_reset (s : PoolCtx) : Except Fault PoolCtx := do
  let heap ← free_large s.heap.length s.heap s.pool_first_large
  pure { s with heap := heap, pool_first_large := none, pool_cur := none, pool_end := none,
                pool_current := none }

/-- The pools `l` are those reached from the pointer `start` along `next`, in this
order, up to a `NULL` link. -/
def IsPoolList (heap : List (Option TCGPool)) : Option Nat → List Nat → Prop
  | start, [] => start = none
  | start, a :: l =>
    start = some a ∧ ∃ pool, heap[a]? = some (some pool) ∧ IsPoolList heap pool.next l

/-- Two chunks of 64 bytes, the second one current and half used, and one large
segment of 1000 bytes. -/
def exPool : PoolCtx :=
  { heap := [some ⟨some 2, 64⟩, some ⟨none, 1000⟩, some ⟨none, 64⟩],
    pool_first := some 0, pool_current := some 2, pool_first_large := some 1,
    pool_cur := some (2, 32), pool_end := some (2, 64) }
/-- The slots that one iteration of the loop over the arguments of `tcg_gen_callN`
writes for the argument `arg` at position `i`, when `k` input slots are written
already. -/
def arg_slots (cfg : Config) (sizemask : Nat) (arg : TCGArg) (i k : Nat) : List TCGArg :=
  if cfg.TCG_TARGET_REG_BITS < 64 && sizemask &&& (1 <<< ((i + 1) * 2)) != 0 then
    (if cfg.TCG_TARGET_CALL_ALIGN_ARGS && k &&& 1 != 0 then [cfg.TCG_CALL_DUMMY_ARG] else [])
      ++ (if cfg.HOST_WORDS_BIGENDIAN != cfg.TCG_TARGET_STACK_GROWSUP then [arg + 1, arg]
          else [arg, arg + 1])
  else [arg]

/-- The input slots written for the first `n` arguments. -/
def call_slots (cfg : Config) (sizemask : Nat) (args : List TCGArg) : Nat → List TCGArg
  | 0 => []
  | n + 1 =>
    call_slots cfg sizemask args n
      ++ arg_slots cfg sizemask (args.getD n 0) n (call_slots cfg sizemask args n).length

/-- The slots written for the return value `ret`. -/
def call_rets (cfg : Config) (sizemask : Nat) (ret : TCGArg) : List TCGArg :=
  if ret != cfg.TCG_CALL_DUMMY_ARG then
    if cfg.TCG_TARGET_REG_BITS < 64 && sizemask &&& 1 != 0 then
      if cfg.HOST_WORDS_BIGENDIAN then [ret + 1, ret] else [ret, ret + 1]
    else [ret]
  else []

/-- From the state `a` of the parameter buffer to the state `b`, the values `l` were
stored one after the other at `a.pi` and nothing else was written. -/
def CallInv (a b : CallAcc) (l : List TCGArg) : Prop :=
  b.pi = a.pi + l.length ∧ b.buf.length = a.buf.length
  ∧ (∀ j, j < l.length → b.buf[a.pi + j]? = l[j]?)
  ∧ ∀ j, (j < a.pi ∨ a.pi + l.length ≤ j) → b.buf[j]? = a.buf[j]?

/-- A 32-bit big-endian host that wants 64-bit helper arguments in aligned pairs. -/
def exCfg32 : Config :=
  { exCfg with TCG_TARGET_REG_BITS := 32, HOST_WORDS_BIGENDIAN := true,
               TCG_TARGET_CALL_ALIGN_ARGS := true,
               helpers := fun f => if f = 0xf000 then some ⟨0, 0x10⟩ else none }

/-- An empty translation block with room for ops and parameters. -/
def exEmpty : TCGContext :=
  { exCtx (List.replicate 4 TCGOp.poison) (List.replicate 12 0) [] with
    gen_next_op_idx := 0, gen_last_op_idx := -1, nb_temps := 8,
    temps := List.replicate 8 (exTemp false 0) }

/-- `Returns x P`: `x` returns a result, and the result satisfies `P` -/
def Returns {α : Type} (x : Except Fault α) (P : α → Prop) : Prop :=
  ∃ a, x = Except.ok a ∧ P a
/-! ## The start of a function -/

/-- `tcg_func_start`.  The pool of `tcg_malloc`, `goto_tb_issue_mask` and `be` are not
part of this context; `nb_labels = 0` on a fresh pool leaves no label. -/
def tcg_func_start (cfg : Config) (s : TCGContext) : TCGContext :=
  { s with nb_temps := s.nb_globals,
           free_temps := List.replicate (cfg.TCG_TYPE_COUNT * 2)
             (List.replicate cfg.TCG_MAX_TEMPS false),
           labels := [],
           current_frame_offset := s.frame_start,
           gen_first_op_idx := 0, gen_last_op_idx := -1, gen_next_op_idx := 0,
           gen_next_parm_idx := 0 }

/-- The two contexts have the same frame and the same `current_frame_offset`. -/
def FrameEq (a b : TCGContext) : Prop :=
  a.current_frame_offset = b.current_frame_offset ∧ a.frame_start = b.frame_start
    ∧ a.frame_end = b.frame_end

/-- A run of the translator from the context `s`: each entry `(pre, temp, post)` is one
call of `temp_allocate_frame` on `temp` that takes `pre` to `post`, and what runs before
the call, from the context left by the previous one, leaves the frame and
`current_frame_offset` as they are. -/
def FrameRun (cfg : Config) : TCGContext → List (TCGContext × Nat × TCGContext) → Prop
  | _, [] => True
  | s, (pre, temp, post) :: rest =>
    FrameEq s pre ∧ temp_allocate_frame cfg pre temp = Except.ok post ∧ FrameRun cfg post rest

/-- The offset of the slot handed out by an entry of a run. -/
def frame_slot (e : TCGContext × Nat × TCGContext) : Int :=
  (e.2.2.temps.getD e.2.1 default).mem_offset

/-- A context whose frame starts at an offset that is not a multiple of the word. -/
def exFrame : TCGContext := { exCtx [] [] [] with frame_start := 3 }

/-- After `tcg_func_start`, the context `exFrame` once `temp_allocate_frame` has run on
the temp 1. -/
def exFrame1 : TCGContext :=
  { tcg_func_start exCfg exFrame with
    temps := [exTemp true 5,
              { exTemp false 0 with mem_offset := 8, mem_reg := 7, mem_allocated := true }],
    current_frame_offset := 16 }

/-- The context `exFrame1` once `temp_allocate_frame` has run on the temp 0. -/
def exFrame2 : TCGContext :=
  { exFrame1 with
    temps := [{ exTemp true 5 with mem_offset := 16, mem_reg := 7, mem_allocated := true },
              { exTemp false 0 with mem_offset := 8, mem_reg := 7, mem_allocated := true }],
    current_frame_offset := 24 }
/-! ## A kept call in the liveness pass, with the array accesses checked -/

/-- One iteration of the loop "output args are dead" of a call; each access to
`dead_temps` and `mem_temps` is checked against the size of the array. -/
def la_out_step_chk (args : Nat → TCGArg) (acc : LaAcc) (i : Nat) : Except Fault LaAcc := do
  let arg := args i
  let d ← rd acc.st.dead_temps arg
  let m ← rd acc.st.mem_temps arg
  let dead ← wr acc.st.dead_temps arg true
  let mem ← wr acc.st.mem_temps arg false
  pure { dead_args := if d then (acc.dead_args ||| (1 <<< i)) % 65536 else acc.dead_args,
         sync_args := if m then (acc.sync_args ||| (1 <<< i)) % 256 else acc.sync_args,
         st := { dead_temps := dead, mem_temps := mem } }

/-- `memset(p, 1, n)`, checked against the size of the array -/
def memset1_chk (l : List Bool) (n : Nat) : Except Fault (List Bool) :=
  if n ≤ l.length then pure (memset1 l n) else throw Fault.oob

/-- The code from the label `do_not_remove_call` to the end of the case; each access to
`dead_temps` and `mem_temps` is checked against the size of the array. -/
def la_do_not_remove_call_chk (cfg : Config) (s : TCGContext) (args : Nat → TCGArg)
    (nb_oargs nb_iargs : Nat) (call_flags : Nat) (st : LaState) : Except Fault LaAcc := do
  let acc ← (List.range nb_oargs).foldlM (la_out_step_chk args)
    { dead_args := 0, sync_args := 0, st := st }
  let mem1 ← if !flag call_flags cfg.TCG_CALL_NO_READ_GLOBALS
             then memset1_chk acc.st.mem_temps s.nb_globals else pure acc.st.mem_temps
  let dead1 ← if !flag call_flags (cfg.TCG_CALL_NO_WRITE_GLOBALS ||| cfg.TCG_CALL_NO_READ_GLOBALS)
              then memset1_chk acc.st.dead_temps s.nb_globals else pure acc.st.dead_temps
  let dead_args ← (List.range' nb_oargs nb_iargs).foldlM
    (fun da i =>
      if args i != cfg.TCG_CALL_DUMMY_ARG then do
        let d ← rd dead1 (args i)
        pure (if d then (da ||| (1 <<< i)) % 65536 else da)
      else pure da) acc.dead_args
  let dead2 ← (List.range' nb_oargs nb_iargs).foldlM (fun d i => wr d (args i) false) dead1
  pure { dead_args := dead_args, sync_args := acc.sync_args,
         st := { dead_temps := dead2, mem_temps := mem1 } }

/-- `insn_start; call f(t1, pad, g0)` with the flags 0, where the second input slot
holds `TCG_CALL_DUMMY_ARG`; `exit_tb`. -/
def exCallDummy : TCGContext :=
  exCtx [exOp TCGOpcode.insn_start 0 (-1) 1,
         { opc := TCGOpcode.call, callo := 0, calli := 3, args := 1, prev := 0, next := 2 },
         exOp (TCGOpcode.other 0) 6 1 (-1)]
    [0x1000, 1, 2 ^ 64 - 1, 0, 0xf000, 0, 0] []
/-- `insn_start; movi_i32 t1, 5; add_i32 g0, t1, t1; exit_tb`, where `g0` is the global
bound to the host register 5, which the constraint of the output of `add_i32` does not
allow. -/
def exAddFixed : TCGContext :=
  exCtx [exOp TCGOpcode.insn_start 0 (-1) 1, exOp TCGOpcode.movi_i32 1 0 2,
         exOp TCGOpcode.add_i32 3 1 3, exOp (TCGOpcode.other 0) 6 2 (-1)]
    [0x1000, 1, 5, 0, 1, 1, 0] []

/-- The context in which `tcg_gen_code` reaches the `add_i32` of `exAddFixed`: the
liveness pass, `tcg_reg_alloc_start`, and the first two ops. -/
def exAddFixed_at_add : Except Fault TCGContext := do
  let s1 ← match tcg_liveness_analysis exCfg exAddFixed with
    | some s1 => pure s1
    | none => throw Fault.fuel
  let s4 := tcg_out exCfg (tcg_reg_alloc_start exCfg s1) HostInsn.tb_init
  let r ← gen_op exCfg s4 (-1) 0
  let r ← gen_op exCfg r.1 r.2 1
  pure r.1
/-- A context in which the host register 0 is owned by the temp 1, whose value is only
in the register and which has no slot in the frame; `frame_left` bytes of the frame are
not handed out yet. -/
def exSpill (frame_left : Int) : TCGContext :=
  { exCtx [] [] [] with
    temps := [exTemp true 5, { exTemp false 0 with val_type := TCGTempVal.REG }],
    reg_to_temp := [1, -1, -1, -1, -1, -1, -1, -1],
    current_frame_offset := 64 - frame_left }
/-- `call f(t1)` in a context where the temp `t1` is DEAD: the parameters of a call with
no output and one input, the address of the helper and its flags. -/
def exCallDeadArgs : List TCGArg := [1, 0xf000, 0]
/-! ## Runs of the front end on the temps -/

/-- A call of the front end: `tcg_temp_new_internal(type, temp_local)` or
`tcg_temp_free_internal(idx)`. -/
inductive TempCmd
  | new (type : TCGType) (temp_local : Bool)
  | free (idx : Int)

/-- One call of the front end; the list holds the indices that `tcg_temp_new_internal`
has returned and that were not handed to `tcg_temp_free_internal` since. -/
def temp_step (cfg : Config) (p : TCGContext × List Nat) :
    TempCmd → Except Fault (TCGContext × List Nat)
  | TempCmd.new type temp_local => do
    let r ← tcg_temp_new_internal cfg p.1 type temp_local
    pure (r.2, r.1 :: p.2)
  | TempCmd.free idx => do
    let s1 ← tcg_temp_free_internal cfg p.1 idx
    pure (s1, p.2.filter (fun i => (i : Int) != idx))

/-- Every index whose bit is set in the bitmap of a bucket is a temp of the function
that is not a global, is not allocated, and has the type and the locality of the
bucket. -/
def FreeOK (cfg : Config) (s : TCGContext) : Prop :=
  ∀ k bm i, s.free_temps[k]? = some bm → bm.getD i false = true →
    s.nb_globals ≤ i ∧ i < s.nb_temps
    ∧ ∃ ts, s.temps[i]? = some ts ∧ ts.temp_allocated = false
        ∧ temp_bucket cfg ts.base_type ts.temp_local = k

/-- The invariant of a run: the bitmaps are as `FreeOK` says, and the indices handed
out and not freed are distinct temps of the function, none a global, all allocated. -/
def TempsInv (cfg : Config) (p : TCGContext × List Nat) : Prop :=
  FreeOK cfg p.1 ∧ p.1.nb_globals ≤ p.1.nb_temps ∧ p.2.Nodup
  ∧ ∀ i ∈ p.2, p.1.nb_globals ≤ i ∧ i < p.1.nb_temps
      ∧ ∃ ts, p.1.temps[i]? = some ts ∧ ts.temp_allocated = true

/-- A run of the front end: a temp is created, then freed. -/
def exTempsRun : List TempCmd := [TempCmd.new TCGType.I32 false, TempCmd.free 1]

/-- The context that the run `exTempsRun` leaves, from `tcg_func_start` on the example
context: the temp 1 is free, in the bitmap of the bucket of the 32-bit temps. -/
def exTempsAfter : TCGContext :=
  { tcg_func_start exCfg (exCtx [] [] []) with
    nb_temps := 2,
    temps := [exTemp true 5, { exTemp false 0 with temp_allocated := false }],
    free_temps := [[false, true, false, false, false, false, false, false],
                   List.replicate 8 false, List.replicate 8 false, List.replicate 8 false] }
/-- The array `sa` in the loops of `sort_constraints` on the segment of `n` entries from
`start`, with `sa0` the array after the first loop, `i` the index of the outer loop and
`j` that of the inner loop, and `pr` the priority: outside the segment nothing has
changed; the entries of the segment are distinct indices of the segment; each of the
first `i` entries has a priority at least that of every entry after it; and the entry
`i` has a priority at least that of the entries between `i` and `j`. -/
def SortInv (pr : Nat → Int) (start n : Nat) (sa0 sa : List Nat) (i j : Nat) : Prop :=
  sa.length = sa0.length
  ∧ (∀ k, ¬ (start ≤ k ∧ k < start + n) → sa.getD k 0 = sa0.getD k 0)
  ∧ (∀ a, a < n → start ≤ sa.getD (start + a) 0 ∧ sa.getD (start + a) 0 < start + n)
  ∧ (∀ a b, a < n → b < n → sa.getD (start + a) 0 = sa.getD (start + b) 0 → a = b)
  ∧ (∀ a b, a < i → a < b → b < n →
      pr (sa.getD (start + b) 0) ≤ pr (sa.getD (start + a) 0))
  ∧ (∀ b, i < b → b < j → pr (sa.getD (start + b) 0) ≤ pr (sa.getD (start + i) 0))
/-- An op definition of one output and two inputs whose second input allows one
register only, and the entry of the table of the host that sets it up. -/
def exSortDef : TCGOpDef :=
  exDef 1 2 0 0 [⟨1, 0, 0xf⟩, ⟨1, 0, 0xf⟩, ⟨1, 0, 0x1⟩] [0, 0, 0]

def exSortEntry : TCGTargetOpDef :=
  { op := TCGOpcode.add_i32, args_ct_str := [some ['r'], some ['r'], some ['a']] }

/-- An op definition of three inputs: two that allow four registers, then one that
allows one register only. -/
def exSortTies : TCGOpDef :=
  exDef 0 3 0 0 [⟨1, 0, 0xf⟩, ⟨1, 0, 0xf⟩, ⟨1, 0, 0x1⟩] [0, 0, 0]
/-- The alias links when the loop of `tcg_add_target_add_op_defs` over the arguments of the
entry `td` has read the first `k` constraint strings, `d0` being the definition before
the loop and `d` the definition now: the arguments not yet read are as in `d0`; an
argument read that carries `TCG_CT_IALIAS` names an earlier output, which carries
`TCG_CT_ALIAS`, names it back and has the same register set; and an argument read whose
string does not start with a digit has the register set read from its string. -/
def AliasInv (cfg : Config) (td : TCGTargetOpDef) (d0 : TCGOpDef) (k : Nat) (d : TCGOpDef) :
    Prop :=
  d.nb_oargs = d0.nb_oargs ∧ d.nb_iargs = d0.nb_iargs
  ∧ d.args_ct.length = d0.args_ct.length
  ∧ (∀ j, k ≤ j → d.args_ct.getD j default = d0.args_ct.getD j default)
  ∧ (∀ i, i < k → flag (d.args_ct.getD i default).ct cfg.TCG_CT_IALIAS = true →
      (d.args_ct.getD i default).alias_index < d.nb_oargs
      ∧ (d.args_ct.getD i default).alias_index < i
      ∧ (d.args_ct.getD (d.args_ct.getD i default).alias_index default).ct = cfg.TCG_CT_ALIAS
      ∧ (d.args_ct.getD (d.args_ct.getD i default).alias_index default).alias_index = i
      ∧ (d.args_ct.getD i default).regs
          = (d.args_ct.getD (d.args_ct.getD i default).alias_index default).regs)
  ∧ (∀ j s, j < k → td.args_ct_str.getD j none = some s →
      (∀ c rest, s = c :: rest → ¬ ('0' ≤ c ∧ c ≤ '9')) →
      ∃ ct, parse_ct_str cfg s.length
          { d0.args_ct.getD j default with regs := 0, ct := 0 } s = Except.ok ct
        ∧ (d.args_ct.getD j default).regs = ct.regs)

/-- An op definition of two outputs in which the memory of the constraint of the second
output happens to hold a register constraint, and an entry of the table of a host whose
first output names the second. -/
def exAliasDef : TCGOpDef := exDef 2 0 0 0 [⟨0, 0, 0⟩, ⟨1, 0, 0xf⟩] [0, 0]

def exAliasEntry : TCGTargetOpDef :=
  { op := TCGOpcode.add_i32, args_ct_str := [some ['1'], some ['r']] }

/-- An op definition of one output and two inputs, and the entry of the table of the host
that ties the first input to the output. -/
def exTiedDef : TCGOpDef := exDef 1 2 0 0 [⟨0, 0, 0⟩, ⟨0, 0, 0⟩, ⟨0, 0, 0⟩] [0, 0, 0]

def exTiedEntry : TCGTargetOpDef :=
  { op := TCGOpcode.sub_i32, args_ct_str := [some ['r'], some ['0'], some ['r']] }
/-- The context `exSpill 8` after `movi t1, 5` has recorded the constant: the temp 1 is
CONST and the host register 0 has no owner. -/
def exMoviConst : TCGContext :=
  { exSpill 8 with
    temps := [exTemp true 5, { exTemp false 0 with val_type := TCGTempVal.CONST, val := 5 }],
    reg_to_temp := [-1, -1, -1, -1, -1, -1, -1, -1] }
/-- How a temp may differ, after steps of the register allocator, from the temp `t0` it
was before: `fixed_reg`, `temp_local` and the types are as before, `mem_allocated` is
not cleared, and a global (an index below `g`) that is DEAD was DEAD before. -/
def TempLe (g i : Nat) (t0 ts : TCGTemp) : Prop :=
  ts.fixed_reg = t0.fixed_reg ∧ ts.temp_local = t0.temp_local ∧ ts.type = t0.type
  ∧ ts.base_type = t0.base_type
  ∧ (t0.mem_allocated = true → ts.mem_allocated = true)
  ∧ (i < g → ts.val_type = TCGTempVal.DEAD → t0.val_type = TCGTempVal.DEAD)

/-- The context `a` has the temps of `s0`, each changed as `TempLe` allows. -/
structure Ev (s0 a : TCGContext) : Prop where
  globals : a.nb_globals = s0.nb_globals
  ntemps : a.nb_temps = s0.nb_temps
  len : a.temps.length = s0.temps.length
  le : ∀ i t0 ts, s0.temps[i]? = some t0 → a.temps[i]? = some ts →
    TempLe s0.nb_globals i t0 ts

/-- The temp `ts` may stand at index `i` in a context that `Ev` relates to `s0`. -/
structure Rel (s0 : TCGContext) (i : Nat) (ts : TCGTemp) : Prop where
  le : ∀ t0, s0.temps[i]? = some t0 → TempLe s0.nb_globals i t0 ts
/-- The part of `tcg_reg_alloc_mov` that follows the load of the source: `s1` is the
context with the source loaded, `otype` the type of the destination and `allocated_regs`
the set `reserved_regs`, both read before the load. -/
def mov_finish (cfg : Config) (s1 : TCGContext) (a0 a1 : TCGArg) (otype : TCGType)
    (allocated_regs : TCGRegSet) (dead_args sync_args : Nat) : Except Fault TCGContext := do
  let ots ← rd s1.temps a0
  let ts ← rd s1.temps a1
  if IS_DEAD_ARG dead_args 0 && !ots.fixed_reg then
    if !NEED_SYNC_ARG sync_args 0 then throw Fault.assert
    if ts.val_type != TCGTempVal.REG then throw Fault.assert
    let s2 ← if !ots.mem_allocated then temp_allocate_frame cfg s1 a0 else pure s1
    let ots ← rd s2.temps a0
    let ts ← rd s2.temps a1
    let s3 := tcg_out cfg s2 (HostInsn.st otype ts.reg ots.mem_reg ots.mem_offset)
    let s4 ← if IS_DEAD_ARG dead_args 1 then temp_dead s3 a1 else pure s3
    temp_dead s4 a0
  else if ts.val_type == TCGTempVal.CONST then
    let s2 ← if ots.val_type == TCGTempVal.REG then set_reg_to_temp s1 ots.reg (-1) else pure s1
    let s3 := set_temp s2 a0 { ots with val_type := TCGTempVal.CONST, val := ts.val }
    if IS_DEAD_ARG dead_args 1 then temp_dead s3 a1 else pure s3
  else
    if ts.val_type != TCGTempVal.REG then throw Fault.assert
    let s2 ← if IS_DEAD_ARG dead_args 1 && !ts.fixed_reg && !ots.fixed_reg then do
        let s0 ← if ots.val_type == TCGTempVal.REG then set_reg_to_temp s1 ots.reg (-1)
                 else pure s1
        let s0 := set_temp s0 a0 { ots with reg := ts.reg }
        temp_dead s0 a1
      else do
        let s0 ← if ots.val_type != TCGTempVal.REG then do
            let allocated_regs := tcg_regset_set_reg allocated_regs ts.reg
            let (s0, reg) ← tcg_reg_alloc cfg s1 (cfg.tcg_target_available_regs otype)
              allocated_regs
            let ots0 ← rd s0.temps a0
            pure (set_temp s0 a0 { ots0 with reg := reg })
          else pure s1
        let ots0 ← rd s0.temps a0
        let ts0 ← rd s0.temps a1
        pure (tcg_out cfg s0 (HostInsn.mov otype ots0.reg ts0.reg))
    let ots ← rd s2.temps a0
    let s3 := set_temp s2 a0 { ots with val_type := TCGTempVal.REG, mem_coherent := false }
    let s4 ← set_reg_to_temp s3 ots.reg a0
    if NEED_SYNC_ARG sync_args 0 then tcg_reg_sync cfg s4 ots.reg else pure s4

/-- The load of the source in `tcg_reg_alloc_mov`: the source `a1`, of type `itype`, is
put in a register outside `allocated_regs`. -/
def mov_load (cfg : Config) (s : TCGContext) (a1 : TCGArg) (itype : TCGType)
    (allocated_regs : TCGRegSet) : Except Fault TCGContext := do
  let (s0, reg) ← tcg_reg_alloc cfg s (cfg.tcg_target_available_regs itype) allocated_regs
  let ts0 ← rd s0.temps a1
  let ts0 := { ts0 with reg := reg }
  let (s0, ts0) :=
    if ts0.val_type == TCGTempVal.MEM then
      (tcg_out cfg s0 (HostInsn.ld itype ts0.reg ts0.mem_reg ts0.mem_offset),
       { ts0 with mem_coherent := true })
    else if ts0.val_type == TCGTempVal.CONST then
      (tcg_out cfg s0 (HostInsn.movi itype ts0.reg ts0.val),
       { ts0 with mem_coherent := false })
    else (s0, ts0)
  let s0 ← set_reg_to_temp s0 ts0.reg a1
  pure (set_temp s0 a1 { ts0 with val_type := TCGTempVal.REG })
/-- No global is DEAD: every temp with index below `nb_globals` is in REG, MEM or CONST
state. -/
def GlobalsLive (s : TCGContext) : Prop :=
  ∀ (i : Nat) (ts : TCGTemp), i < s.nb_globals → s.temps[i]? = some ts → ts.val_type ≠ TCGTempVal.DEAD

/-- Every temp that has a slot in the frame in `s` has one in `a`. -/
def SlotsKept (s a : TCGContext) : Prop :=
  ∀ (i : Nat) (ts : TCGTemp), s.temps[i]? = some ts → ts.mem_allocated = true →
    ∃ ts1 : TCGTemp, a.temps[i]? = some ts1 ∧ ts1.mem_allocated = true

/-- A context with the global bound to host register 5, a scratch temp and a local
temp. -/
def exLocal : TCGContext :=
  { exCtx [] [] [] with
    nb_temps := 3,
    temps := [exTemp true 5, exTemp false 0, { exTemp false 0 with temp_local := true }],
    reg_to_temp := [-1, -1, -1, -1, -1, -1, -1, -1] }
/-- The host register-to-register moves among the emitted instructions. -/
def host_movs (out : List HostInsn) : List HostInsn :=
  out.filter (fun i => match i with
    | HostInsn.mov _ _ _ => true
    | _ => false)

/-- A context in which the global is in its host register 5, the scratch temp 1 is in
host register 0 and the scratch temp 2 is dead. -/
def exRename : TCGContext :=
  { exCtx [] [] [] with
    nb_temps := 3,
    temps := [{ exTemp true 5 with val_type := TCGTempVal.REG },
              { exTemp false 0 with val_type := TCGTempVal.REG }, exTemp false 3],
    reg_to_temp := [1, -1, -1, -1, -1, -1, -1, -1] }
/-- A context for a helper call with arguments on the stack: the global is in its host
register 5, the temp 1 is in host register 3, the temp 2 is in its slot of the frame and
the temp 3 holds the constant 9. -/
def exCallStack : TCGContext :=
  { exCtx [] [] [] with
    nb_temps := 4,
    temps := [{ exTemp true 5 with val_type := TCGTempVal.REG },
              { exTemp false 3 with val_type := TCGTempVal.REG },
              { exTemp false 0 with val_type := TCGTempVal.MEM, mem_allocated := true,
                                    mem_offset := 40 },
              { exTemp false 0 with val_type := TCGTempVal.CONST, val := 9 }],
    reg_to_temp := [-1, -1, -1, 1, -1, -1, -1, -1] }

/-- The parameters of `call f(t1, t2, t1, pad, t2, t3)` with no output: the six inputs, of
which the last four go on the stack of the example host, the address of the helper and
its flags `NO_SIDE_EFFECTS`, `NO_WRITE_GLOBALS` and `NO_READ_GLOBALS`. -/
def exCallStackArgs : List TCGArg := [1, 2, 1, 2 ^ 64 - 1, 2, 3, 0xf000, 0x70]
/-- The context that the loop of `tcg_gen_code` has reached. -/
def GenLoop.ctx : GenLoop → TCGContext
  | GenLoop.overflow s => s
  | GenLoop.done s _ => s

/-- What `tcg_gen_code` does with the result of its loop: `return -1` in the loop, or the
last entry of `gen_insn_end_off`, `tcg_out_tb_finalize` and the size of the code. -/
def gen_finish (cfg : Config) : GenLoop → Except Fault (Int × TCGContext)
  | GenLoop.overflow s5 => pure (-1, s5)
  | GenLoop.done s5 num_insns => do
    if num_insns < 0 then throw Fault.assert
    let e ← wr s5.gen_insn_end_off num_insns.toNat (s5.code_ptr - s5.code_buf)
    let s6 : TCGContext := { s5 with gen_insn_end_off := e }
    let s7 := tcg_out cfg s6 HostInsn.tb_finalize
    pure ((s7.code_ptr : Int) - (s7.code_buf : Int), s7)

/-- The translation block `exMoviDead` with a code buffer whose high-water mark is
reached by the prologue. -/
def exMoviFull : TCGContext := { exMoviDead with code_gen_highwater := 3 }
/-- The labels of `a` against those of `s0`: there are as many, and a label that had its
value in `s0` has the same value in `a`. -/
structure LabLe (s0 a : TCGContext) : Prop where
  len : a.labels.length = s0.labels.length
  keep : ∀ (i : Nat) (lab : TCGLabel), s0.labels[i]? = some lab → lab.has_value = true →
    a.labels[i]? = some lab
/-- A context for a helper call whose argument dies: the scratch temp 1 is in the host
register 2, which a call clobbers. -/
def exCallDies : TCGContext :=
  { exCtx [] [] [] with
    temps := [{ exTemp true 5 with val_type := TCGTempVal.REG },
              { exTemp false 2 with val_type := TCGTempVal.REG }],
    reg_to_temp := [-1, -1, 1, -1, -1, -1, -1, -1] }
/-- The state, the register and `fixed_reg` of a temp. -/
def own_key (ts : TCGTemp) : TCGTempVal × Nat × Bool := (ts.val_type, ts.reg, ts.fixed_reg)

/-- The contexts `s` and `a` agree on `reg_to_temp`, on `nb_temps` and on the state, the
register and `fixed_reg` of every temp. -/
def SameOwn (s a : TCGContext) : Prop :=
  a.reg_to_temp = s.reg_to_temp ∧ a.nb_temps = s.nb_temps
  ∧ ∀ t : Nat, (a.temps[t]?).map own_key = (s.temps[t]?).map own_key
theorem la_all_dead_iff (args : Nat → TCGArg) (n : Nat) (st : LaState) :
    la_all_dead args n st = true ↔ ∀ i, i < n → dead_fresh st (args i) := by
  simp [la_all_dead, List.all_eq_true, dead_fresh]

theorem la_keep_ne_remove (opc : TCGOpcode) (ws : List (Nat × TCGArg)) (acc : LaAcc) :
    la_keep opc ws acc ≠ LaResult.remove := by
  simp [la_keep]

theorem la_op_call_remove_iff (cfg : Config) (s : TCGContext) (op : TCGOp)
    (args : Nat → TCGArg) (st : LaState) (hop : op.opc = TCGOpcode.call) :
    la_op cfg s op args st = LaResult.remove
      ↔ (flag (args (op.callo + op.calli + 1)) cfg.TCG_CALL_NO_SIDE_EFFECTS = true
          ∧ ∀ i, i < op.callo → dead_fresh st (args i)) := by
  unfold la_op
  simp only [hop]
  split
  · rename_i h
    simp only [Bool.and_eq_true, la_all_dead_iff] at h
    exact ⟨fun _ => h, fun _ => rfl⟩
  · rename_i h
    simp only [Bool.and_eq_true, la_all_dead_iff] at h
    constructor
    · intro h'
      exact absurd h' (la_keep_ne_remove _ _ _)
    · intro h'
      exact absurd h' h

theorem la_op_call_keep (cfg : Config) (s : TCGContext) (op : TCGOp)
    (args : Nat → TCGArg) (st : LaState) (hop : op.opc = TCGOpcode.call)
    (h : la_op cfg s op args st ≠ LaResult.remove) :
    la_op cfg s op args st = la_keep TCGOpcode.call []
      (la_do_not_remove_call cfg s args op.callo op.calli
        (args (op.callo + op.calli + 1)) st) := by
  unfold la_op at h ⊢
  simp only [hop] at h ⊢
  split
  · rename_i h1
    simp [h1] at h
  · rfl

theorem la_visit_remove (cfg : Config) (s : TCGContext) (st : LaState) (oi : Nat)
    (h : la_op cfg s (s.gen_op_buf.getD oi TCGOp.poison)
      (op_arg s.gen_opparam_buf (s.gen_op_buf.getD oi TCGOp.poison).args) st
        = LaResult.remove) :
    la_visit cfg s st oi = (tcg_op_remove s oi, st) := by
  unfold la_visit
  simp only [h]

theorem la_visit_keep (cfg : Config) (s : TCGContext) (st : LaState) (oi : Nat)
    (opc : TCGOpcode) (ws : List (Nat × TCGArg)) (acc : LaAcc)
    (h : la_op cfg s (s.gen_op_buf.getD oi TCGOp.poison)
      (op_arg s.gen_opparam_buf (s.gen_op_buf.getD oi TCGOp.poison).args) st
        = la_keep opc ws acc) :
    la_visit cfg s st oi =
      ({ s with gen_op_buf := s.gen_op_buf.set oi
                  { s.gen_op_buf.getD oi TCGOp.poison with opc := opc },
                gen_opparam_buf := apply_writes s.gen_opparam_buf
                  (s.gen_op_buf.getD oi TCGOp.poison).args ws,
                op_dead_args := s.op_dead_args.set oi acc.dead_args,
                op_sync_args := s.op_sync_args.set oi acc.sync_args }, acc.st) := by
  unfold la_visit
  simp only [h, la_keep]

theorem la_outputs_congr (args args' : Nat → TCGArg) (n : Nat) (st : LaState)
    (h : ∀ i, i < n → args i = args' i) : la_outputs args n st = la_outputs args' n st := by
  unfold la_outputs
  apply List.foldl_ext
  intro a b hb
  have hb' := h b (List.mem_range.mp hb)
  simp only [la_out_step, hb']

theorem la_inputs_live_congr (args args' : Nat → TCGArg) (no ni : Nat) (d : List Bool)
    (h : ∀ i, i < no + ni → args i = args' i) :
    la_inputs_live args no ni d = la_inputs_live args' no ni d := by
  unfold la_inputs_live
  apply List.foldl_ext
  intro a b hb
  rw [h b (List.mem_range'_1.mp hb).2]

theorem la_do_not_remove_congr (cfg : Config) (s : TCGContext) (df : TCGOpDef)
    (args args' : Nat → TCGArg) (no ni : Nat) (st : LaState)
    (h : ∀ i, i < no + ni → args i = args' i) :
    la_do_not_remove cfg s df args no ni st = la_do_not_remove cfg s df args' no ni st := by
  unfold la_do_not_remove
  have h1 : la_outputs args no st = la_outputs args' no st :=
    la_outputs_congr _ _ _ _ (fun i hi => h i (by omega))
  rw [h1]
  simp only
  rw [la_inputs_live_congr args args' no ni _ h]
  congr 1
  apply List.foldl_ext
  intro a b hb
  rw [h b (List.mem_range'_1.mp hb).2]

theorem la_do_not_remove_call_congr (cfg : Config) (s : TCGContext)
    (args args' : Nat → TCGArg) (no ni : Nat) (fl : Nat) (st : LaState)
    (h : ∀ i, i < no + ni → args i = args' i) :
    la_do_not_remove_call cfg s args no ni fl st
      = la_do_not_remove_call cfg s args' no ni fl st := by
  unfold la_do_not_remove_call
  have h1 : la_outputs args no st = la_outputs args' no st :=
    la_outputs_congr _ _ _ _ (fun i hi => h i (by omega))
  rw [h1]
  simp only
  rw [la_inputs_live_congr args args' no ni _ h]
  congr 1
  apply List.foldl_ext
  intro a b hb
  rw [h b (List.mem_range'_1.mp hb).2]

theorem la_all_dead_congr (args args' : Nat → TCGArg) (n : Nat) (st : LaState)
    (h : ∀ i, i < n → args i = args' i) : la_all_dead args n st = la_all_dead args' n st := by
  rw [Bool.eq_iff_iff, la_all_dead_iff, la_all_dead_iff]
  constructor
  · intro h1 i hi; rw [← h i hi]; exact h1 i hi
  · intro h1 i hi; rw [h i hi]; exact h1 i hi

theorem op_with_opc_self (op : TCGOp) : { op with opc := op.opc } = op := by
  cases op; rfl

theorem la_op_generic (cfg : Config) (s : TCGContext) (op : TCGOp)
    (args : Nat → TCGArg) (st : LaState) (hg : la_generic op.opc = true) :
    la_op cfg s op args st =
      if !flag (cfg.tcg_op_defs op.opc).flags cfg.TCG_OPF_SIDE_EFFECTS
          && (cfg.tcg_op_defs op.opc).nb_oargs != 0
          && la_all_dead args (cfg.tcg_op_defs op.opc).nb_oargs st then LaResult.remove
      else la_keep op.opc [] (la_do_not_remove cfg s (cfg.tcg_op_defs op.opc) args
        (cfg.tcg_op_defs op.opc).nb_oargs (cfg.tcg_op_defs op.opc).nb_iargs st) := by
  rcases op with ⟨opc, callo, calli, a, p, n⟩
  cases opc <;> first | (simp [la_generic] at hg; done) | rfl

theorem la_op_generic_remove_iff (cfg : Config) (s : TCGContext) (op : TCGOp)
    (args : Nat → TCGArg) (st : LaState) (hg : la_generic op.opc = true) :
    la_op cfg s op args st = LaResult.remove
      ↔ (flag (cfg.tcg_op_defs op.opc).flags cfg.TCG_OPF_SIDE_EFFECTS = false
          ∧ (cfg.tcg_op_defs op.opc).nb_oargs ≠ 0
          ∧ ∀ i, i < (cfg.tcg_op_defs op.opc).nb_oargs → dead_fresh st (args i)) := by
  rw [la_op_generic cfg s op args st hg]
  split
  · rename_i h
    simp only [Bool.and_eq_true, la_all_dead_iff, Bool.not_eq_true', bne_iff_ne, ne_eq] at h
    exact ⟨fun _ => ⟨h.1.1, h.1.2, h.2⟩, fun _ => rfl⟩
  · rename_i h
    simp only [Bool.and_eq_true, la_all_dead_iff, Bool.not_eq_true', bne_iff_ne, ne_eq] at h
    constructor
    · intro h'
      exact absurd h' (la_keep_ne_remove _ _ _)
    · intro h'
      exact absurd ⟨⟨h'.1, h'.2.1⟩, h'.2.2⟩ h

/-! ### Arrays of the liveness pass -/

theorem overwrite_length (l : List Bool) (f : Nat → Bool → Bool) :
    (overwrite l f).length = l.length := by
  simp [overwrite]

theorem getD_overwrite (l : List Bool) (f : Nat → Bool → Bool) (t : Nat) :
    (overwrite l f).getD t false = if t < l.length then f t (l.getD t false) else false := by
  unfold overwrite
  rw [List.getD_eq_getElem?_getD, List.getElem?_map]
  by_cases h : t < l.length
  · simp [h, List.getElem?_range h]
  · have : (List.range l.length)[t]? = none := by
      apply List.getElem?_eq_none; simpa using h
    simp [h, this]

theorem getD_true_lt {l : List Bool} {t : Nat} (h : l.getD t false = true) : t < l.length := by
  by_contra hn
  rw [List.getD_eq_default _ _ (by omega)] at h
  exact Bool.noConfusion h

theorem getD_set_bool (l : List Bool) (i t : Nat) (v : Bool) :
    (l.set i v).getD t false = if t = i ∧ i < l.length then v else l.getD t false := by
  rw [List.getD_eq_getElem?_getD, List.getElem?_set, List.getD_eq_getElem?_getD]
  by_cases h : i = t
  · subst h
    by_cases h2 : i < l.length
    · simp [h2]
    · simp [h2, List.getElem?_eq_none (Nat.le_of_not_lt h2)]
  · have : ¬ t = i := fun e => h e.symm
    simp [h, this]

theorem getD_memset1 (l : List Bool) (n t : Nat) :
    (memset1 l n).getD t false = if t < l.length then (if t < n then true else l.getD t false)
      else false := by
  unfold memset1
  rw [getD_overwrite]

theorem foldl_set_length (f : Nat → Nat) (v : Bool) (l : List Nat) (d : List Bool) :
    (l.foldl (fun d i => d.set (f i) v) d).length = d.length := by
  induction l generalizing d with
  | nil => rfl
  | cons a l ih => rw [List.foldl_cons, ih, List.length_set]

/-- stores of one value `v` at the indices `f i`: an index not stored to -/
theorem getD_foldl_set_of_not_mem (f : Nat → Nat) (v : Bool) (l : List Nat) (d : List Bool)
    (t : Nat) (h : ∀ i ∈ l, f i ≠ t) :
    (l.foldl (fun d i => d.set (f i) v) d).getD t false = d.getD t false := by
  induction l generalizing d with
  | nil => rfl
  | cons a l ih =>
    rw [List.foldl_cons, ih _ (fun i hi => h i (List.mem_cons_of_mem _ hi)), getD_set_bool]
    have : ¬ (t = f a ∧ f a < d.length) := fun e => h a (List.mem_cons_self _ _) e.1.symm
    rw [if_neg this]

/-- stores of one value `v` at the indices `f i`: an index stored to -/
theorem getD_foldl_set_of_mem (f : Nat → Nat) (v : Bool) (l : List Nat) (d : List Bool)
    (t : Nat) (h : ∃ i ∈ l, f i = t) (ht : t < d.length) :
    (l.foldl (fun d i => d.set (f i) v) d).getD t false = v := by
  induction l generalizing d with
  | nil => obtain ⟨i, hi, _⟩ := h; cases hi
  | cons a l ih =>
    rw [List.foldl_cons]
    by_cases h1 : ∃ i ∈ l, f i = t
    · exact ih _ h1 (by rw [List.length_set]; exact ht)
    · have hn : ∀ i ∈ l, f i ≠ t := fun i hi e => h1 ⟨i, hi, e⟩
      rw [getD_foldl_set_of_not_mem f v l _ t hn, getD_set_bool]
      obtain ⟨i, hi, e⟩ := h
      rcases List.mem_cons.mp hi with rfl | hi
      · rw [if_pos ⟨e.symm, by rw [e]; exact ht⟩]
      · exact absurd e (hn i hi)

theorem la_inputs_live_length (args : Nat → TCGArg) (no ni : Nat) (d : List Bool) :
    (la_inputs_live args no ni d).length = d.length :=
  foldl_set_length _ _ _ _

theorem la_inputs_live_of_not_mem (args : Nat → TCGArg) (no ni : Nat) (d : List Bool) (t : Nat)
    (h : ∀ i, no ≤ i → i < no + ni → args i ≠ t) :
    (la_inputs_live args no ni d).getD t false = d.getD t false :=
  getD_foldl_set_of_not_mem _ _ _ _ _
    (fun i hi => h i (List.mem_range'_1.mp hi).1 (List.mem_range'_1.mp hi).2)

theorem la_inputs_live_of_mem (args : Nat → TCGArg) (no ni : Nat) (d : List Bool) (i : Nat)
    (h1 : no ≤ i) (h2 : i < no + ni) :
    (la_inputs_live args no ni d).getD (args i) false = false := by
  by_cases ht : args i < d.length
  · exact getD_foldl_set_of_mem _ _ _ _ _ ⟨i, List.mem_range'_1.mpr ⟨h1, h2⟩, rfl⟩ ht
  · exact List.getD_eq_default _ _ (by rw [la_inputs_live_length]; exact Nat.le_of_not_lt ht)

/-- marking inputs live only clears entries -/
theorem la_inputs_live_mono (args : Nat → TCGArg) (no ni : Nat) (d : List Bool) (t : Nat)
    (h : (la_inputs_live args no ni d).getD t false = true) : d.getD t false = true := by
  by_cases hm : ∃ i, no ≤ i ∧ i < no + ni ∧ args i = t
  · obtain ⟨i, h1, h2, rfl⟩ := hm
    rw [la_inputs_live_of_mem _ _ _ _ _ h1 h2] at h
    exact Bool.noConfusion h
  · rw [la_inputs_live_of_not_mem _ _ _ _ _ (fun i h1 h2 e => hm ⟨i, h1, h2, e⟩)] at h
    exact h

theorem la_out_foldl_st (args : Nat → TCGArg) (l : List Nat) (acc : LaAcc) :
    (l.foldl (la_out_step args) acc).st =
      { dead_temps := l.foldl (fun d i => d.set (args i) true) acc.st.dead_temps,
        mem_temps := l.foldl (fun d i => d.set (args i) false) acc.st.mem_temps } := by
  induction l generalizing acc with
  | nil => rfl
  | cons x l ih =>
    simp only [List.foldl_cons]
    rw [ih]
    rfl

/-- the arrays after the loop over the outputs -/
theorem la_outputs_st (args : Nat → TCGArg) (n : Nat) (st : LaState) :
    (la_outputs args n st).st =
      { dead_temps := (List.range n).foldl (fun d i => d.set (args i) true) st.dead_temps,
        mem_temps := (List.range n).foldl (fun d i => d.set (args i) false) st.mem_temps } := by
  unfold la_outputs
  rw [la_out_foldl_st]

theorem la_outputs_dead_of_mem (args : Nat → TCGArg) (n : Nat) (st : LaState) (i : Nat)
    (hi : i < n) (ht : args i < st.dead_temps.length) :
    (la_outputs args n st).st.dead_temps.getD (args i) false = true := by
  rw [la_outputs_st]
  exact getD_foldl_set_of_mem _ _ _ _ _ ⟨i, List.mem_range.mpr hi, rfl⟩ ht

theorem la_outputs_dead_of_not_mem (args : Nat → TCGArg) (n : Nat) (st : LaState) (t : Nat)
    (h : ∀ i, i < n → args i ≠ t) :
    (la_outputs args n st).st.dead_temps.getD t false = st.dead_temps.getD t false := by
  rw [la_outputs_st]
  exact getD_foldl_set_of_not_mem _ _ _ _ _ (fun i hi => h i (List.mem_range.mp hi))

theorem la_outputs_mem_of_mem (args : Nat → TCGArg) (n : Nat) (st : LaState) (i : Nat)
    (hi : i < n) :
    (la_outputs args n st).st.mem_temps.getD (args i) false = false := by
  rw [la_outputs_st]
  by_cases ht : args i < st.mem_temps.length
  · exact getD_foldl_set_of_mem _ _ _ _ _ ⟨i, List.mem_range.mpr hi, rfl⟩ ht
  · exact List.getD_eq_default _ _ (by rw [foldl_set_length]; exact Nat.le_of_not_lt ht)

theorem la_outputs_mem_of_not_mem (args : Nat → TCGArg) (n : Nat) (st : LaState) (t : Nat)
    (h : ∀ i, i < n → args i ≠ t) :
    (la_outputs args n st).st.mem_temps.getD t false = st.mem_temps.getD t false := by
  rw [la_outputs_st]
  exact getD_foldl_set_of_not_mem _ _ _ _ _ (fun i hi => h i (List.mem_range.mp hi))

theorem la_outputs_dead_length (args : Nat → TCGArg) (n : Nat) (st : LaState) :
    (la_outputs args n st).st.dead_temps.length = st.dead_temps.length := by
  rw [la_outputs_st]; exact foldl_set_length _ _ _ _

theorem la_outputs_mem_length (args : Nat → TCGArg) (n : Nat) (st : LaState) :
    (la_outputs args n st).st.mem_temps.length = st.mem_temps.length := by
  rw [la_outputs_st]; exact foldl_set_length _ _ _ _

/-- the loop over the outputs only sets entries of `dead_temps` -/
theorem la_outputs_dead_mono (args : Nat → TCGArg) (n : Nat) (st : LaState) (t : Nat)
    (h : st.dead_temps.getD t false = true) :
    (la_outputs args n st).st.dead_temps.getD t false = true := by
  by_cases hm : ∃ i, i < n ∧ args i = t
  · obtain ⟨i, h1, rfl⟩ := hm
    exact la_outputs_dead_of_mem _ _ _ _ h1 (getD_true_lt h)
  · rw [la_outputs_dead_of_not_mem _ _ _ _ (fun i h1 e => hm ⟨i, h1, e⟩)]
    exact h

theorem dead_fresh_iff (st : LaState) (t : TCGArg) :
    (st.dead_temps.getD t false && !st.mem_temps.getD t false) = true ↔ dead_fresh st t := by
  simp [dead_fresh]

theorem la_op_addsub2 (cfg : Config) (s : TCGContext) (op : TCGOp) (args : Nat → TCGArg)
    (st : LaState) (opc_new : TCGOpcode) (h : addsub2_low op.opc = some opc_new) :
    la_op cfg s op args st
      = la_addsub2 cfg s (cfg.tcg_op_defs op.opc) op.opc opc_new args st := by
  rcases op with ⟨opc, callo, calli, a, p, n⟩
  cases opc <;> simp only [addsub2_low] at h <;>
    first | (cases h; done) | (injection h with h; subst h; rfl)

theorem op_arg_set (parm : List TCGArg) (a : Int) (idx j k : Nat) (v : TCGArg)
    (h0 : 0 ≤ a) (hidx : idx = a.toNat + j) (hj : idx < parm.length) :
    op_arg (parm.set idx v) a k = if k = j then v else op_arg parm a k := by
  unfold op_arg
  have hk : 0 ≤ a + k := by omega
  rw [if_pos hk, if_pos hk, List.getD_eq_getElem?_getD, List.getElem?_set,
    List.getD_eq_getElem?_getD]
  by_cases e : k = j
  · subst e
    subst hidx
    have e2 : a.toNat + k = (a + (k : Int)).toNat := by omega
    rw [e2] at hj ⊢
    simp [hj]
  · have : ¬ idx = (a + k).toNat := by omega
    simp [e, this]

/-! ### The op list as a doubly-linked list -/

theorem headI_append (l1 l2 : List Nat) (d : Int) :
    headI (l1 ++ l2) d = headI l1 (headI l2 d) := by
  cases l1 <;> rfl

theorem lastI_append (l1 l2 : List Nat) (d : Int) :
    lastI (l1 ++ l2) d = lastI l2 (lastI l1 d) := by
  induction l1 generalizing d with
  | nil => rfl
  | cons a t ih => exact ih _

theorem lastI_concat (l : List Nat) (a : Nat) (d : Int) : lastI (l ++ [a]) d = (a : Int) := by
  rw [lastI_append]; rfl

theorem chain_append (buf : List TCGOp) (p q : Int) (l1 l2 : List Nat) :
    Chain buf p (l1 ++ l2) q ↔ Chain buf p l1 (headI l2 q) ∧ Chain buf (lastI l1 p) l2 q := by
  induction l1 generalizing p with
  | nil => simp [Chain, lastI]
  | cons a t ih =>
    have e : Chain buf p (a :: t ++ l2) q ↔
        (∃ op, buf[a]? = some op ∧ op.prev = p ∧ op.next = headI (t ++ l2) q)
          ∧ Chain buf (a : Int) (t ++ l2) q := Iff.rfl
    rw [e, ih, headI_append]
    exact ⟨fun ⟨h1, h2, h3⟩ => ⟨⟨h1, h2⟩, h3⟩, fun ⟨⟨h1, h2⟩, h3⟩ => ⟨h1, h2, h3⟩⟩

/-- a chain only depends on the entries of its ops -/
theorem chain_congr (buf buf' : List TCGOp) (p q : Int) (l : List Nat)
    (h : ∀ i ∈ l, ∀ op, buf[i]? = some op →
      ∃ op', buf'[i]? = some op' ∧ op'.prev = op.prev ∧ op'.next = op.next)
    (hc : Chain buf p l q) : Chain buf' p l q := by
  induction l generalizing p with
  | nil => trivial
  | cons a t ih =>
    obtain ⟨⟨op, h1, h2, h3⟩, h4⟩ := hc
    obtain ⟨op', e1, e2, e3⟩ := h a (List.mem_cons_self _ _) op h1
    exact ⟨⟨op', e1, e2.trans h2, e3.trans h3⟩,
      ih _ (fun i hi => h i (List.mem_cons_of_mem _ hi)) h4⟩

theorem chain_mem_lt (buf : List TCGOp) (p q : Int) (l : List Nat) (hc : Chain buf p l q)
    (i : Nat) (hi : i ∈ l) : i < buf.length := by
  induction l generalizing p with
  | nil => cases hi
  | cons a t ih =>
    obtain ⟨⟨op, h1, _, _⟩, h4⟩ := hc
    rcases List.mem_cons.mp hi with rfl | hi
    · exact (List.getElem?_eq_some.mp h1).1
    · exact ih _ h4 hi

/-- the `next` of the last op of a chain is changed -/
theorem chain_set_last (buf buf' : List TCGOp) (p q q' : Int) (l : List Nat) (a : Nat)
    (hl : ∀ i ∈ l, ∀ op, buf[i]? = some op →
      ∃ op', buf'[i]? = some op' ∧ op'.prev = op.prev ∧ op'.next = op.next)
    (ha : ∀ op, buf[a]? = some op → ∃ op', buf'[a]? = some op' ∧ op'.prev = op.prev
      ∧ op'.next = q')
    (hc : Chain buf p (l ++ [a]) q) : Chain buf' p (l ++ [a]) q' := by
  rw [chain_append] at hc ⊢
  obtain ⟨h1, ⟨op, h2, h3, _⟩, _⟩ := hc
  refine ⟨chain_congr buf buf' _ _ _ hl h1, ?_, trivial⟩
  obtain ⟨op', e1, e2, e3⟩ := ha op h2
  exact ⟨op', e1, e2.trans h3, e3⟩

/-- the `prev` of the first op of a chain is changed -/
theorem chain_set_first (buf buf' : List TCGOp) (p p' q : Int) (l : List Nat) (a : Nat)
    (hl : ∀ i ∈ l, ∀ op, buf[i]? = some op →
      ∃ op', buf'[i]? = some op' ∧ op'.prev = op.prev ∧ op'.next = op.next)
    (ha : ∀ op, buf[a]? = some op → ∃ op', buf'[a]? = some op' ∧ op'.prev = p'
      ∧ op'.next = op.next)
    (hc : Chain buf p (a :: l) q) : Chain buf' p' (a :: l) q := by
  obtain ⟨⟨op, h1, _, h3⟩, h4⟩ := hc
  obtain ⟨op', e1, e2, e3⟩ := ha op h1
  exact ⟨⟨op', e1, e2, e3.trans h3⟩, chain_congr buf buf' _ _ _ hl h4⟩

theorem headI_nonneg_or (l : List Nat) : headI l (-1) = -1 ∧ l = [] ∨
    ∃ (a : Nat) (t : List Nat), l = a :: t ∧ headI l (-1) = (a : Int) := by
  cases l with
  | nil => exact Or.inl ⟨rfl, rfl⟩
  | cons a t => exact Or.inr ⟨a, t, rfl, rfl⟩

theorem lastI_nonneg_or (l : List Nat) : lastI l (-1) = -1 ∧ l = [] ∨
    ∃ (t : List Nat) (a : Nat), l = t ++ [a] ∧ lastI l (-1) = (a : Int) := by
  rcases List.eq_nil_or_concat l with rfl | ⟨t, a, h⟩
  · exact Or.inl ⟨rfl, rfl⟩
  · rw [List.concat_eq_append] at h
    subst h
    exact Or.inr ⟨t, a, rfl, lastI_concat _ _ _⟩

theorem getElem?_set_prev (buf : List TCGOp) (j k : Nat) (v : Int) :
    (set_prev buf j v)[k]? =
      if k = j then Option.map (fun o => { o with prev := v }) buf[j]? else buf[k]? := by
  unfold set_prev
  rw [List.getElem?_set]
  by_cases h : j = k
  · subst h
    by_cases h2 : j < buf.length
    · simp [h2, List.getD_eq_getElem?_getD, List.getElem?_eq_getElem h2]
    · simp [h2, List.getElem?_eq_none (Nat.le_of_not_lt h2)]
  · have : ¬ k = j := fun e => h e.symm
    simp [h, this]

theorem getElem?_set_next (buf : List TCGOp) (j k : Nat) (v : Int) :
    (set_next buf j v)[k]? =
      if k = j then Option.map (fun o => { o with next := v }) buf[j]? else buf[k]? := by
  unfold set_next
  rw [List.getElem?_set]
  by_cases h : j = k
  · subst h
    by_cases h2 : j < buf.length
    · simp [h2, List.getD_eq_getElem?_getD, List.getElem?_eq_getElem h2]
    · simp [h2, List.getElem?_eq_none (Nat.le_of_not_lt h2)]
  · have : ¬ k = j := fun e => h e.symm
    simp [h, this]

/-- what `tcg_op_remove` does to the entry of another op -/
theorem tcg_op_remove_other (s : TCGContext) (i k : Nat) (op opk : TCGOp)
    (hi : s.gen_op_buf[i]? = some op) (hk : s.gen_op_buf[k]? = some opk) (hne : k ≠ i) :
    ∃ op', (tcg_op_remove s i).gen_op_buf[k]? = some op'
      ∧ op'.opc = opk.opc ∧ op'.callo = opk.callo ∧ op'.calli = opk.calli
      ∧ op'.args = opk.args
      ∧ op'.prev = (if (k : Int) = op.next then op.prev else opk.prev)
      ∧ op'.next = (if (k : Int) = op.prev then op.next else opk.next) := by
  have hg : s.gen_op_buf.getD i TCGOp.poison = op := by
    rw [List.getD_eq_getElem?_getD, hi]; rfl
  unfold tcg_op_remove
  simp only [hg]
  have hik : ¬ i = k := fun e => hne e.symm
  by_cases hn : 0 ≤ op.next <;> by_cases hp : 0 ≤ op.prev
  · simp only [if_pos hn, if_pos hp, List.getElem?_set, if_neg hik, getElem?_set_next,
      getElem?_set_prev]
    by_cases e1 : (k : Int) = op.next <;> by_cases e2 : (k : Int) = op.prev
    · have h1 : k = op.next.toNat := by omega
      have h2 : k = op.prev.toNat := by omega
      rw [if_pos h2, if_pos e1, if_pos e2, ← h2, if_pos h1, ← h1, hk]
      exact ⟨_, rfl, rfl, rfl, rfl, rfl, rfl, rfl⟩
    · have h1 : k = op.next.toNat := by omega
      have h2 : ¬ k = op.prev.toNat := by omega
      rw [if_neg h2, if_pos e1, if_neg e2, if_pos h1, ← h1, hk]
      exact ⟨_, rfl, rfl, rfl, rfl, rfl, rfl, rfl⟩
    · have h1 : ¬ k = op.next.toNat := by omega
      have h2 : k = op.prev.toNat := by omega
      rw [if_pos h2, if_neg e1, if_pos e2, ← h2, if_neg h1, hk]
      exact ⟨_, rfl, rfl, rfl, rfl, rfl, rfl, rfl⟩
    · have h1 : ¬ k = op.next.toNat := by omega
      have h2 : ¬ k = op.prev.toNat := by omega
      rw [if_neg h2, if_neg e1, if_neg e2, if_neg h1, hk]
      exact ⟨_, rfl, rfl, rfl, rfl, rfl, rfl, rfl⟩
  · simp only [if_pos hn, if_neg hp, List.getElem?_set, if_neg hik, getElem?_set_prev]
    have e2 : ¬ (k : Int) = op.prev := by omega
    by_cases e1 : (k : Int) = op.next
    · have h1 : k = op.next.toNat := by omega
      rw [if_pos e1, if_neg e2, if_pos h1, ← h1, hk]
      exact ⟨_, rfl, rfl, rfl, rfl, rfl, rfl, rfl⟩
    · have h1 : ¬ k = op.next.toNat := by omega
      rw [if_neg e1, if_neg e2, if_neg h1, hk]
      exact ⟨_, rfl, rfl, rfl, rfl, rfl, rfl, rfl⟩
  · simp only [if_neg hn, if_pos hp, List.getElem?_set, if_neg hik, getElem?_set_next]
    have e1 : ¬ (k : Int) = op.next := by omega
    by_cases e2 : (k : Int) = op.prev
    · have h2 : k = op.prev.toNat := by omega
      rw [if_neg e1, if_pos e2, if_pos h2, ← h2, hk]
      exact ⟨_, rfl, rfl, rfl, rfl, rfl, rfl, rfl⟩
    · have h2 : ¬ k = op.prev.toNat := by omega
      rw [if_neg e1, if_neg e2, if_neg h2, hk]
      exact ⟨_, rfl, rfl, rfl, rfl, rfl, rfl, rfl⟩
  · simp only [if_neg hn, if_neg hp, List.getElem?_set, if_neg hik]
    have e1 : ¬ (k : Int) = op.next := by omega
    have e2 : ¬ (k : Int) = op.prev := by omega
    rw [if_neg e1, if_neg e2, hk]
    exact ⟨_, rfl, rfl, rfl, rfl, rfl, rfl, rfl⟩

theorem headI_mem (l : List Nat) (k : Nat) (h : headI l (-1) = (k : Int)) : k ∈ l := by
  cases l with
  | nil => simp only [headI] at h; omega
  | cons a t =>
    simp only [headI] at h
    have : a = k := by omega
    subst this
    exact List.mem_cons_self _ _

theorem lastI_mem (l : List Nat) (k : Nat) (h : lastI l (-1) = (k : Int)) : k ∈ l := by
  rcases lastI_nonneg_or l with ⟨e, _⟩ | ⟨t, a, rfl, e⟩
  · rw [e] at h; omega
  · rw [e] at h
    have : a = k := by omega
    subst this
    simp

theorem tcg_op_remove_first (s : TCGContext) (i : Nat) :
    (tcg_op_remove s i).gen_first_op_idx =
      if 0 ≤ (s.gen_op_buf.getD i TCGOp.poison).prev then s.gen_first_op_idx
      else (s.gen_op_buf.getD i TCGOp.poison).next := by
  unfold tcg_op_remove
  by_cases hn : 0 ≤ (s.gen_op_buf.getD i TCGOp.poison).next <;>
    by_cases hp : 0 ≤ (s.gen_op_buf.getD i TCGOp.poison).prev <;>
    simp only [hn, hp, if_true, if_false]

theorem tcg_op_remove_last (s : TCGContext) (i : Nat) :
    (tcg_op_remove s i).gen_last_op_idx =
      if 0 ≤ (s.gen_op_buf.getD i TCGOp.poison).next then s.gen_last_op_idx
      else (s.gen_op_buf.getD i TCGOp.poison).prev := by
  unfold tcg_op_remove
  by_cases hn : 0 ≤ (s.gen_op_buf.getD i TCGOp.poison).next <;>
    by_cases hp : 0 ≤ (s.gen_op_buf.getD i TCGOp.poison).prev <;>
    simp only [hn, hp, if_true, if_false]

/-- `tcg_op_remove` unlinks the op and keeps the list well formed -/
theorem oplist_remove (s : TCGContext) (pre post : List Nat) (i : Nat)
    (h : OpList s (pre ++ i :: post)) : OpList (tcg_op_remove s i) (pre ++ post) := by
  obtain ⟨hc, hf, hl, hnd⟩ := h
  rw [chain_append] at hc
  obtain ⟨hc1, ⟨op, hi, hprev, hnext⟩, hc2⟩ := hc
  have hg : s.gen_op_buf.getD i TCGOp.poison = op := by
    rw [List.getD_eq_getElem?_getD, hi]; rfl
  have hnd' : (pre ++ post).Nodup := by
    have := hnd
    rw [List.nodup_append] at this ⊢
    exact ⟨this.1, (List.nodup_cons.mp this.2.1).2,
      fun a h1 h2 => this.2.2 h1 (List.mem_cons_of_mem _ h2)⟩
  have hipre : i ∉ pre := fun hm =>
    (List.nodup_append.mp hnd).2.2 hm (List.mem_cons_self _ _)
  have hipost : i ∉ post := (List.nodup_cons.mp (List.nodup_append.mp hnd).2.1).1
  have hdisj : ∀ k, k ∈ pre → k ∉ post := fun k h1 h2 =>
    (List.nodup_append.mp hnd').2.2 h1 h2
  -- an op of `pre` is never the `next` of `i`, an op of `post` never its `prev`
  have hpre_next : ∀ k, k ∈ pre → ¬ (k : Int) = op.next := by
    intro k hk e
    rw [hnext] at e
    exact hdisj k hk (headI_mem _ _ e.symm)
  have hpost_prev : ∀ k, k ∈ post → ¬ (k : Int) = op.prev := by
    intro k hk e
    rw [hprev] at e
    exact hdisj k (lastI_mem _ _ e.symm) hk
  refine ⟨?_, ?_, ?_, hnd'⟩
  · rw [chain_append]
    constructor
    · rcases lastI_nonneg_or pre with ⟨_, rfl⟩ | ⟨t, a, rfl, e⟩
      · trivial
      · have hat : a ∉ t := by
          have := (List.nodup_append.mp hnd).1
          rw [List.nodup_append] at this
          exact fun hm => this.2.2 hm (List.mem_singleton_self a)
        refine chain_set_last s.gen_op_buf _ _ _ _ t a ?_ ?_ hc1
        · intro k hk opk hk1
          have hkpre : k ∈ t ++ [a] := List.mem_append_left _ hk
          obtain ⟨op', e1, _, _, _, _, e6, e7⟩ := tcg_op_remove_other s i k op opk hi hk1
            (fun e => hipre (e ▸ hkpre))
          refine ⟨op', e1, ?_, ?_⟩
          · rw [e6, if_neg (hpre_next k hkpre)]
          · rw [e7, if_neg]
            rw [hprev, e]
            intro e'
            have : k = a := by omega
            exact hat (this ▸ hk)
        · intro opk hk1
          have hkpre : a ∈ t ++ [a] := by simp
          obtain ⟨op', e1, _, _, _, _, e6, e7⟩ := tcg_op_remove_other s i a op opk hi hk1
            (fun e => hipre (e ▸ hkpre))
          refine ⟨op', e1, ?_, ?_⟩
          · rw [e6, if_neg (hpre_next a hkpre)]
          · rw [e7, if_pos (by rw [hprev, e]), hnext]
    · cases post with
      | nil => trivial
      | cons b t =>
        have hbt : b ∉ t := (List.nodup_cons.mp (List.nodup_append.mp hnd').2.1).1
        refine chain_set_first s.gen_op_buf _ _ _ _ t b ?_ ?_ hc2
        · intro k hk opk hk1
          have hkpost : k ∈ b :: t := List.mem_cons_of_mem _ hk
          obtain ⟨op', e1, _, _, _, _, e6, e7⟩ := tcg_op_remove_other s i k op opk hi hk1
            (fun e => hipost (e ▸ hkpost))
          refine ⟨op', e1, ?_, ?_⟩
          · rw [e6, if_neg]
            rw [hnext]
            simp only [headI]
            intro e'
            have : k = b := by omega
            exact hbt (this ▸ hk)
          · rw [e7, if_neg (hpost_prev k hkpost)]
        · intro opk hk1
          have hkpost : b ∈ b :: t := List.mem_cons_self _ _
          obtain ⟨op', e1, _, _, _, _, e6, e7⟩ := tcg_op_remove_other s i b op opk hi hk1
            (fun e => hipost (e ▸ hkpost))
          refine ⟨op', e1, ?_, ?_⟩
          · rw [e6, if_pos (by rw [hnext]; rfl), hprev]
          · rw [e7, if_neg (hpost_prev b hkpost)]
  · rw [tcg_op_remove_first, hg, hprev, headI_append]
    rcases lastI_nonneg_or pre with ⟨e, rfl⟩ | ⟨t, a, rfl, e⟩
    · rw [e, if_neg (by omega), hnext]; rfl
    · rw [e, if_pos (by omega), hf, headI_append]
      cases t <;> rfl
  · rw [tcg_op_remove_last, hg, hnext, lastI_append]
    cases post with
    | nil =>
      rw [show headI [] (-1 : Int) = -1 from rfl, if_neg (by omega), hprev]; rfl
    | cons b t =>
      rw [show headI (b :: t) (-1 : Int) = (b : Int) from rfl, if_pos (by omega), hl,
        lastI_append]
      rfl

/-- the three outcomes of one iteration of the liveness loop -/
theorem la_visit_cases (cfg : Config) (s : TCGContext) (st : LaState) (oi : Nat) :
    (la_op cfg s (s.gen_op_buf.getD oi TCGOp.poison)
        (op_arg s.gen_opparam_buf (s.gen_op_buf.getD oi TCGOp.poison).args) st
        = LaResult.remove
      ∧ la_visit cfg s st oi = (tcg_op_remove s oi, st))
    ∨ (∃ st1, la_op cfg s (s.gen_op_buf.getD oi TCGOp.poison)
        (op_arg s.gen_opparam_buf (s.gen_op_buf.getD oi TCGOp.poison).args) st
        = LaResult.skip st1
      ∧ la_visit cfg s st oi = (s, st1))
    ∨ (∃ opc ws da sa st1, la_op cfg s (s.gen_op_buf.getD oi TCGOp.poison)
        (op_arg s.gen_opparam_buf (s.gen_op_buf.getD oi TCGOp.poison).args) st
        = LaResult.keep opc ws da sa st1
      ∧ la_visit cfg s st oi =
        ({ s with gen_op_buf := s.gen_op_buf.set oi
                    { s.gen_op_buf.getD oi TCGOp.poison with opc := opc },
                  gen_opparam_buf := apply_writes s.gen_opparam_buf
                    (s.gen_op_buf.getD oi TCGOp.poison).args ws,
                  op_dead_args := s.op_dead_args.set oi da,
                  op_sync_args := s.op_sync_args.set oi sa }, st1)) := by
  cases h : la_op cfg s (s.gen_op_buf.getD oi TCGOp.poison)
      (op_arg s.gen_opparam_buf (s.gen_op_buf.getD oi TCGOp.poison).args) st with
  | remove => exact Or.inl ⟨rfl, la_visit_remove cfg s st oi h⟩
  | skip st1 =>
    refine Or.inr (Or.inl ⟨st1, rfl, ?_⟩)
    unfold la_visit
    simp only [h]
  | keep opc ws da sa st1 =>
    refine Or.inr (Or.inr ⟨opc, ws, da, sa, st1, rfl, ?_⟩)
    unfold la_visit
    simp only [h]

/-- an entry of the op buffer after the opcode of op `oi` is stored -/
theorem getElem?_set_opc (buf : List TCGOp) (oi k : Nat) (opc : TCGOpcode) (opk : TCGOp)
    (hk : buf[k]? = some opk) :
    ∃ op', (buf.set oi { buf.getD oi TCGOp.poison with opc := opc })[k]? = some op'
      ∧ op'.callo = opk.callo ∧ op'.calli = opk.calli ∧ op'.args = opk.args
      ∧ op'.prev = opk.prev ∧ op'.next = opk.next
      ∧ op'.opc = (if k = oi then opc else opk.opc) := by
  rw [List.getElem?_set]
  by_cases h : oi = k
  · subst h
    have hlt : oi < buf.length := (List.getElem?_eq_some.mp hk).1
    have hg : buf.getD oi TCGOp.poison = opk := by
      rw [List.getD_eq_getElem?_getD, hk]; rfl
    rw [if_pos rfl, if_pos hlt, hg]
    exact ⟨_, rfl, rfl, rfl, rfl, rfl, rfl, by simp⟩
  · have : ¬ k = oi := fun e => h e.symm
    rw [if_neg h, hk]
    exact ⟨_, rfl, rfl, rfl, rfl, rfl, rfl, by simp [this]⟩

/-- an iteration that does not remove the op leaves the list as it is -/
theorem oplist_visit_keep (cfg : Config) (s : TCGContext) (st : LaState) (oi : Nat)
    (l : List Nat) (h : OpList s l)
    (hk : la_op cfg s (s.gen_op_buf.getD oi TCGOp.poison)
        (op_arg s.gen_opparam_buf (s.gen_op_buf.getD oi TCGOp.poison).args) st
        ≠ LaResult.remove) :
    OpList (la_visit cfg s st oi).1 l := by
  rcases la_visit_cases cfg s st oi with ⟨h1, _⟩ | ⟨st1, _, h2⟩ | ⟨opc, ws, da, sa, st1, _, h2⟩
  · exact absurd h1 hk
  · rw [h2]; exact h
  · rw [h2]
    obtain ⟨hc, hf, hl, hnd⟩ := h
    refine ⟨?_, hf, hl, hnd⟩
    refine chain_congr s.gen_op_buf _ _ _ _ ?_ hc
    intro k _ opk hk1
    obtain ⟨op', e1, _, _, _, e5, e6, _⟩ := getElem?_set_opc s.gen_op_buf oi k opc opk hk1
    exact ⟨op', e1, e5, e6⟩

theorem la_run_concat (cfg : Config) (r : List Nat) (i : Nat) (p : TCGContext × LaState) :
    la_run cfg (i :: r) p = la_run cfg r (la_visit cfg p.1 p.2 i) := rfl

/-- On a well-formed list the loop of the liveness pass visits the ops from the
last to the first. -/
theorem la_loop_run (cfg : Config) (pre : List Nat) :
    ∀ (post : List Nat) (fuel : Nat) (s : TCGContext) (st : LaState),
      OpList s (pre ++ post) → pre.length ≤ fuel →
      la_loop cfg fuel s st (lastI pre (-1)) = some (la_run cfg pre.reverse (s, st)).1 := by
  induction pre using List.reverseRecOn with
  | nil =>
    intro post fuel s st _ _
    cases fuel <;> simp [la_loop, lastI, la_run]
  | append_singleton pre i ih =>
    intro post fuel s st h hfuel
    rw [List.length_append, List.length_singleton] at hfuel
    obtain ⟨f, rfl⟩ : ∃ f, fuel = f + 1 := ⟨fuel - 1, by omega⟩
    rw [lastI_concat, List.reverse_append, List.reverse_singleton, List.singleton_append,
      la_run_concat]
    have h' : OpList s (pre ++ i :: post) := by
      rw [List.append_assoc, List.singleton_append] at h; exact h
    have hc := h'.chain
    rw [chain_append] at hc
    obtain ⟨_, ⟨op, hi, hprev, _⟩, _⟩ := hc
    have hg : s.gen_op_buf.getD i TCGOp.poison = op := by
      rw [List.getD_eq_getElem?_getD, hi]; rfl
    have hnot : ¬ ((i : Int) < 0) := by omega
    unfold la_loop
    rw [if_neg hnot]
    simp only [Int.toNat_ofNat, hg, hprev]
    by_cases hr : la_op cfg s (s.gen_op_buf.getD i TCGOp.poison)
        (op_arg s.gen_opparam_buf (s.gen_op_buf.getD i TCGOp.poison).args) st
        = LaResult.remove
    · have hv := la_visit_remove cfg s st i hr
      have h2 : OpList (la_visit cfg s st i).1 (pre ++ post) := by
        rw [hv]; exact oplist_remove s pre post i h'
      exact ih post f _ _ h2 (by omega)
    · have h2 := oplist_visit_keep cfg s st i _ h' hr
      exact ih (i :: post) f _ _ h2 (by omega)

/-! ### One iteration of the liveness loop: what it depends on -/

theorem tcg_la_bb_end_env (s s2 : TCGContext) (st : LaState)
    (h1 : s2.nb_globals = s.nb_globals) (h2 : s2.nb_temps = s.nb_temps)
    (h3 : s2.temps = s.temps) : tcg_la_bb_end s2 st = tcg_la_bb_end s st := by
  unfold tcg_la_bb_end
  rw [h1, h2, h3]

/-- `la_do_not_remove` uses the context only through the temps and the op
definition only through two flags -/
theorem la_do_not_remove_env (cfg : Config) (s s2 : TCGContext) (df df2 : TCGOpDef)
    (args args2 : Nat → TCGArg) (no ni : Nat) (st : LaState)
    (h1 : s2.nb_globals = s.nb_globals) (h2 : s2.nb_temps = s.nb_temps)
    (h3 : s2.temps = s.temps)
    (hb : flag df2.flags cfg.TCG_OPF_BB_END = flag df.flags cfg.TCG_OPF_BB_END)
    (hs : flag df2.flags cfg.TCG_OPF_SIDE_EFFECTS = flag df.flags cfg.TCG_OPF_SIDE_EFFECTS)
    (h : ∀ i, i < no + ni → args2 i = args i) :
    la_do_not_remove cfg s2 df2 args2 no ni st = la_do_not_remove cfg s df args no ni st := by
  rw [la_do_not_remove_congr cfg s2 df2 args2 args no ni st h]
  simp only [la_do_not_remove, hb, hs, tcg_la_bb_end_env s s2 _ h1 h2 h3, h1]

theorem la_do_not_remove_call_env (cfg : Config) (s s2 : TCGContext)
    (args args2 : Nat → TCGArg) (no ni fl : Nat) (st : LaState)
    (h1 : s2.nb_globals = s.nb_globals)
    (h : ∀ i, i < no + ni → args2 i = args i) :
    la_do_not_remove_call cfg s2 args2 no ni fl st
      = la_do_not_remove_call cfg s args no ni fl st := by
  rw [la_do_not_remove_call_congr cfg s2 args2 args no ni fl st h]
  simp only [la_do_not_remove_call, h1]

theorem la_addsub2_env (cfg : Config) (s s2 : TCGContext) (df : TCGOpDef)
    (opc opc_new : TCGOpcode) (args args2 : Nat → TCGArg) (st : LaState)
    (h1 : s2.nb_globals = s.nb_globals) (h2 : s2.nb_temps = s.nb_temps)
    (h3 : s2.temps = s.temps) (h : ∀ i, i < 6 → args2 i = args i) :
    la_addsub2 cfg s2 df opc opc_new args2 st = la_addsub2 cfg s df opc opc_new args st := by
  have e0 := h 0 (by omega)
  have e1 := h 1 (by omega)
  have e2 := h 2 (by omega)
  have e4 := h 4 (by omega)
  have d1 := la_do_not_remove_env cfg s s2 df df args args2 2 4 st h1 h2 h3 rfl rfl
    (fun i hi => h i (by omega))
  have w : args_write args2 1 (args 2) 4 = args_write args 1 (args 2) 4 := by
    simp [args_write, e4]
  have d2 := la_do_not_remove_env cfg s s2 df df
    (args_write (args_write args 1 (args 2)) 2 (args_write args 1 (args 2) 4))
    (args_write (args_write args2 1 (args 2)) 2 (args_write args2 1 (args 2) 4)) 1 2 st
    h1 h2 h3 rfl rfl
    (by
      intro i hi
      have : i = 0 ∨ i = 1 ∨ i = 2 := by omega
      rcases this with rfl | rfl | rfl <;> simp [args_write, e0, e4])
  unfold la_addsub2
  simp only []
  rw [e0, e1, e2, d2, w, d1]

theorem la_mul2_env (cfg : Config) (s s2 : TCGContext) (df : TCGOpDef)
    (opc opc_new opc_new2 : TCGOpcode) (hv : Bool) (args args2 : Nat → TCGArg) (st : LaState)
    (h1 : s2.nb_globals = s.nb_globals) (h2 : s2.nb_temps = s.nb_temps)
    (h3 : s2.temps = s.temps) (h : ∀ i, i < 4 → args2 i = args i) :
    la_mul2 cfg s2 df opc opc_new opc_new2 hv args2 st
      = la_mul2 cfg s df opc opc_new opc_new2 hv args st := by
  have e0 := h 0 (by omega)
  have e1 := h 1 (by omega)
  have e2 := h 2 (by omega)
  have e3 := h 3 (by omega)
  have d1 := la_do_not_remove_env cfg s s2 df df args args2 2 2 st h1 h2 h3 rfl rfl
    (fun i hi => h i (by omega))
  have w : args_write args2 1 (args 2) 3 = args_write args 1 (args 2) 3 := by
    simp [args_write, e3]
  have d2 := la_do_not_remove_env cfg s s2 df df
    (args_write (args_write args 1 (args 2)) 2 (args_write args 1 (args 2) 3))
    (args_write (args_write args2 1 (args 2)) 2 (args_write args2 1 (args 2) 3)) 1 2 st
    h1 h2 h3 rfl rfl
    (by
      intro i hi
      have : i = 0 ∨ i = 1 ∨ i = 2 := by omega
      rcases this with rfl | rfl | rfl <;> simp [args_write, e0, e3])
  have w2 : args_write args2 0 (args 1) 2 = args_write args 0 (args 1) 2 := by
    simp [args_write, e2]
  have w3 : args_write (args_write args2 0 (args 1)) 1 (args_write args 0 (args 1) 2) 3
      = args_write (args_write args 0 (args 1)) 1 (args_write args 0 (args 1) 2) 3 := by
    simp [args_write, e3]
  have d3 := la_do_not_remove_env cfg s s2 df df
    (args_write (args_write (args_write args 0 (args 1)) 1
        (args_write args 0 (args 1) 2)) 2
      (args_write (args_write args 0 (args 1)) 1 (args_write args 0 (args 1) 2) 3))
    (args_write (args_write (args_write args2 0 (args 1)) 1
        (args_write args 0 (args 1) 2)) 2
      (args_write (args_write args 0 (args 1)) 1 (args_write args 0 (args 1) 2) 3)) 1 2 st
    h1 h2 h3 rfl rfl
    (by
      intro i hi
      have : i = 0 ∨ i = 1 ∨ i = 2 := by omega
      rcases this with rfl | rfl | rfl <;> simp [args_write])
  unfold la_mul2
  simp only []
  rw [e0, e1, e2, d2, w, w2, w3, d3, d1]

/-- One iteration depends on the context only through the temps, and on the
arguments only below the footprint of the op. -/
theorem la_op_env (cfg : Config) (s s2 : TCGContext) (op op2 : TCGOp)
    (args args2 : Nat → TCGArg) (st : LaState)
    (h1 : s2.nb_globals = s.nb_globals) (h2 : s2.nb_temps = s.nb_temps)
    (h3 : s2.temps = s.temps)
    (ho : op2.opc = op.opc) (hco : op2.callo = op.callo) (hci : op2.calli = op.calli)
    (h : ∀ i, i < la_footprint cfg op → args2 i = args i) :
    la_op cfg s2 op2 args2 st = la_op cfg s op args st := by
  rcases op with ⟨opc, callo, calli, a, p, n⟩
  rcases op2 with ⟨opc2, callo2, calli2, a2, p2, n2⟩
  simp only at ho hco hci
  subst ho hco hci
  cases opc2
  case call =>
    simp only [la_footprint] at h
    simp only [la_op]
    rw [h _ (by omega), la_all_dead_congr args2 args callo2 st (fun i hi => h i (by omega)),
      la_do_not_remove_call_env cfg s s2 args args2 _ _ _ st h1 (fun i hi => h i (by omega))]
  case insn_start => rfl
  case discard =>
    simp only [la_footprint] at h
    simp only [la_op]
    rw [h 0 (by omega)]
  case add2_i32 => exact la_addsub2_env cfg s s2 _ _ _ args args2 st h1 h2 h3 h
  case sub2_i32 => exact la_addsub2_env cfg s s2 _ _ _ args args2 st h1 h2 h3 h
  case add2_i64 => exact la_addsub2_env cfg s s2 _ _ _ args args2 st h1 h2 h3 h
  case sub2_i64 => exact la_addsub2_env cfg s s2 _ _ _ args args2 st h1 h2 h3 h
  case mulu2_i32 => exact la_mul2_env cfg s s2 _ _ _ _ _ args args2 st h1 h2 h3 h
  case muls2_i32 => exact la_mul2_env cfg s s2 _ _ _ _ _ args args2 st h1 h2 h3 h
  case mulu2_i64 => exact la_mul2_env cfg s s2 _ _ _ _ _ args args2 st h1 h2 h3 h
  case muls2_i64 => exact la_mul2_env cfg s s2 _ _ _ _ _ args args2 st h1 h2 h3 h
  all_goals
    simp only [la_footprint] at h
    simp only [la_op]
    rw [la_all_dead_congr args2 args _ st (fun i hi => h i (by omega)),
      la_do_not_remove_env cfg s s2 _ _ args args2 _ _ st h1 h2 h3 rfl rfl h]

theorem la_keep_inj (opc opc' : TCGOpcode) (ws ws' : List (Nat × TCGArg)) (acc : LaAcc)
    (da sa : Nat) (st' : LaState)
    (h : la_keep opc ws acc = LaResult.keep opc' ws' da sa st') :
    opc' = opc ∧ ws' = ws := by
  unfold la_keep at h
  injection h with h1 h2
  exact ⟨h1.symm, h2.symm⟩

theorem la_addsub2_keep_inv (cfg : Config) (s : TCGContext) (opc0 opc_new : TCGOpcode)
    (A : Nat → TCGArg) (st : LaState) (opc : TCGOpcode) (ws : List (Nat × TCGArg))
    (da sa : Nat) (st' : LaState) (hn : opc_new ∈ la_rewrites opc0)
    (h : la_addsub2 cfg s (cfg.tcg_op_defs opc0) opc0 opc_new A st
      = LaResult.keep opc ws da sa st') :
    KeptShape cfg s opc0 A st opc ws (LaResult.keep opc ws da sa st') := by
  unfold la_addsub2 at h
  split at h
  · split at h
    · cases h
    · rename_i hlo
      obtain ⟨e1, e2⟩ := la_keep_inj _ _ _ _ _ _ _ _ h
      subst e1 e2
      refine Or.inr ⟨hn, ?_, ?_, h.symm⟩
      · intro w hw
        simp only [List.mem_cons, List.mem_singleton, List.not_mem_nil, or_false] at hw
        rcases hw with rfl | rfl <;> simp
      · intro hd
        apply hlo
        rw [dead_fresh_iff]
        simpa [args_writes, args_write] using hd
  · obtain ⟨e1, e2⟩ := la_keep_inj _ _ _ _ _ _ _ _ h
    exact Or.inl ⟨e1, e2⟩

theorem la_mul2_keep_inv (cfg : Config) (s : TCGContext) (opc0 opc_new opc_new2 : TCGOpcode)
    (hv : Bool) (A : Nat → TCGArg) (st : LaState) (opc : TCGOpcode)
    (ws : List (Nat × TCGArg)) (da sa : Nat) (st' : LaState)
    (hn : opc_new ∈ la_rewrites opc0) (hn2 : opc_new2 ∈ la_rewrites opc0)
    (h : la_mul2 cfg s (cfg.tcg_op_defs opc0) opc0 opc_new opc_new2 hv A st
      = LaResult.keep opc ws da sa st') :
    KeptShape cfg s opc0 A st opc ws (LaResult.keep opc ws da sa st') := by
  unfold la_mul2 at h
  split at h
  · split at h
    · cases h
    · rename_i hlo
      obtain ⟨e1, e2⟩ := la_keep_inj _ _ _ _ _ _ _ _ h
      subst e1 e2
      refine Or.inr ⟨hn, ?_, ?_, h.symm⟩
      · intro w hw
        simp only [List.mem_cons, List.mem_singleton, List.not_mem_nil, or_false] at hw
        rcases hw with rfl | rfl <;> simp
      · intro hd
        apply hlo
        rw [dead_fresh_iff]
        simpa [args_writes, args_write] using hd
  · rename_i hhi
    split at h
    · obtain ⟨e1, e2⟩ := la_keep_inj _ _ _ _ _ _ _ _ h
      subst e1 e2
      refine Or.inr ⟨hn2, ?_, ?_, h.symm⟩
      · intro w hw
        simp only [List.mem_cons, List.mem_singleton, List.not_mem_nil, or_false] at hw
        rcases hw with rfl | rfl | rfl <;> simp
      · intro hd
        apply hhi
        rw [dead_fresh_iff]
        simpa [args_writes, args_write] using hd
    · obtain ⟨e1, e2⟩ := la_keep_inj _ _ _ _ _ _ _ _ h
      exact Or.inl ⟨e1, e2⟩

theorem la_op_keep_inv (cfg : Config) (s : TCGContext) (op : TCGOp)
    (A : Nat → TCGArg) (st : LaState) (opc : TCGOpcode) (ws : List (Nat × TCGArg))
    (da sa : Nat) (st' : LaState)
    (h : la_op cfg s op A st = LaResult.keep opc ws da sa st') :
    KeptShape cfg s op.opc A st opc ws (LaResult.keep opc ws da sa st') := by
  rcases op with ⟨opc0, callo, calli, a, p, n⟩
  cases opc0
  case call =>
    simp only [la_op] at h
    split at h
    · cases h
    · exact Or.inl (la_keep_inj _ _ _ _ _ _ _ _ h)
  case insn_start => simp only [la_op] at h; cases h
  case discard => simp only [la_op] at h; cases h
  case add2_i32 => exact la_addsub2_keep_inv cfg s _ _ A st opc ws da sa st' (by simp [la_rewrites]) h
  case sub2_i32 => exact la_addsub2_keep_inv cfg s _ _ A st opc ws da sa st' (by simp [la_rewrites]) h
  case add2_i64 => exact la_addsub2_keep_inv cfg s _ _ A st opc ws da sa st' (by simp [la_rewrites]) h
  case sub2_i64 => exact la_addsub2_keep_inv cfg s _ _ A st opc ws da sa st' (by simp [la_rewrites]) h
  case mulu2_i32 =>
    exact la_mul2_keep_inv cfg s _ _ _ _ A st opc ws da sa st' (by simp [la_rewrites])
      (by simp [la_rewrites]) h
  case muls2_i32 =>
    exact la_mul2_keep_inv cfg s _ _ _ _ A st opc ws da sa st' (by simp [la_rewrites])
      (by simp [la_rewrites]) h
  case mulu2_i64 =>
    exact la_mul2_keep_inv cfg s _ _ _ _ A st opc ws da sa st' (by simp [la_rewrites])
      (by simp [la_rewrites]) h
  case muls2_i64 =>
    exact la_mul2_keep_inv cfg s _ _ _ _ A st opc ws da sa st' (by simp [la_rewrites])
      (by simp [la_rewrites]) h
  all_goals
    simp only [la_op] at h
    split at h
    · cases h
    · exact Or.inl (la_keep_inj _ _ _ _ _ _ _ _ h)

theorem la_rewrites_generic (opc0 opc : TCGOpcode) (h : opc ∈ la_rewrites opc0) :
    la_generic opc = true := by
  cases opc0 <;> simp only [la_rewrites, List.mem_cons, List.mem_singleton,
    List.not_mem_nil, or_false] at h
  all_goals first | (cases h; done) | (subst h; rfl) | (rcases h with rfl | rfl <;> rfl)

theorem la_rewrites_footprint (cfg : Config) (op : TCGOp) (opc : TCGOpcode)
    (h : opc ∈ la_rewrites op.opc) : 4 ≤ la_footprint cfg op := by
  rcases op with ⟨opc0, callo, calli, a, p, n⟩
  cases opc0 <;> simp only [la_rewrites, List.not_mem_nil] at h <;> simp [la_footprint]

theorem la_all_dead_one (A : Nat → TCGArg) (st : LaState) :
    la_all_dead A 1 st = true ↔ dead_fresh st (A 0) := by
  rw [la_all_dead_iff]
  constructor
  · intro h; exact h 0 (by omega)
  · intro h i hi
    have : i = 0 := by omega
    subst this; exact h

theorem la_generic_footprint (cfg : Config) (op : TCGOp) (h : la_generic op.opc = true) :
    la_footprint cfg op
      = (cfg.tcg_op_defs op.opc).nb_oargs + (cfg.tcg_op_defs op.opc).nb_iargs := by
  rcases op with ⟨opc, callo, calli, a, p, n⟩
  cases opc <;> first | (simp [la_generic] at h; done) | rfl

/-- A kept op, visited again in the same liveness state, is kept as it is, with the
same `dead_args`, `sync_args` and the same arrays. -/
theorem la_op_idem (cfg : Config) (htab : TableOK cfg) (s s2 : TCGContext) (op op2 : TCGOp)
    (A A2 : Nat → TCGArg) (st : LaState) (opc : TCGOpcode) (ws : List (Nat × TCGArg))
    (da sa : Nat) (st' : LaState)
    (h : la_op cfg s op A st = LaResult.keep opc ws da sa st')
    (h1 : s2.nb_globals = s.nb_globals) (h2 : s2.nb_temps = s.nb_temps)
    (h3 : s2.temps = s.temps)
    (ho : op2.opc = opc) (hco : op2.callo = op.callo) (hci : op2.calli = op.calli)
    (hA : ∀ k, k < la_footprint cfg op2 → A2 k = args_writes A ws k) :
    la_op cfg s2 op2 A2 st = LaResult.keep opc [] da sa st' := by
  rcases la_op_keep_inv cfg s op A st opc ws da sa st' h with ⟨e1, e2⟩ | ⟨hm, _, hdf, hr⟩
  · subst e2
    have hfp : la_footprint cfg op2 = la_footprint cfg op := by
      unfold la_footprint; rw [ho, e1, hco, hci]
    rw [la_op_env cfg s s2 op op2 A A2 st h1 h2 h3 (ho.trans e1) hco hci
      (fun k hk => hA k (by rw [hfp]; exact hk)), h]
  · obtain ⟨t1, t2, t3, t4⟩ := htab op.opc opc hm
    have hg : la_generic op2.opc = true := by rw [ho]; exact la_rewrites_generic _ _ hm
    have hfp : la_footprint cfg op2 = 3 := by
      rw [la_generic_footprint cfg op2 hg, ho, t1, t2]
    rw [la_op_generic cfg s2 op2 A2 st hg, ho, t1, t2]
    have hnd : la_all_dead A2 1 st = false := by
      rw [Bool.eq_false_iff]
      intro hd
      rw [la_all_dead_one, hA 0 (by omega)] at hd
      exact hdf hd
    rw [hnd, Bool.and_false, if_neg (by simp)]
    rw [la_do_not_remove_env cfg s s2 (cfg.tcg_op_defs op.opc) (cfg.tcg_op_defs opc)
      (args_writes A ws) A2 1 2 st h1 h2 h3 t3 t4 (fun i hi => hA i (by omega))]
    unfold la_keep at hr ⊢
    injection hr with _ _ r1 r2 r3
    rw [r1, r2, r3]

/-! ### One iteration of the liveness loop: what it changes -/

theorem apply_writes_length (parm : List TCGArg) (a : Int) (ws : List (Nat × TCGArg)) :
    (apply_writes parm a ws).length = parm.length := by
  unfold apply_writes
  induction ws generalizing parm with
  | nil => rfl
  | cons w ws ih =>
    rw [List.foldl_cons, ih]
    split
    · rw [List.length_set]
    · rfl

theorem set_prev_length (buf : List TCGOp) (i : Nat) (v : Int) :
    (set_prev buf i v).length = buf.length := by
  simp [set_prev]

theorem set_next_length (buf : List TCGOp) (i : Nat) (v : Int) :
    (set_next buf i v).length = buf.length := by
  simp [set_next]

/-- `tcg_op_remove` only changes the op buffer and the two ends of the list -/
theorem tcg_op_remove_frame (s : TCGContext) (i : Nat) :
    (tcg_op_remove s i).nb_globals = s.nb_globals
    ∧ (tcg_op_remove s i).nb_temps = s.nb_temps
    ∧ (tcg_op_remove s i).temps = s.temps
    ∧ (tcg_op_remove s i).gen_opparam_buf = s.gen_opparam_buf
    ∧ (tcg_op_remove s i).op_dead_args = s.op_dead_args
    ∧ (tcg_op_remove s i).op_sync_args = s.op_sync_args
    ∧ (tcg_op_remove s i).gen_next_op_idx = s.gen_next_op_idx
    ∧ (tcg_op_remove s i).gen_op_buf.length = s.gen_op_buf.length := by
  unfold tcg_op_remove
  by_cases hn : 0 ≤ (s.gen_op_buf.getD i TCGOp.poison).next <;>
    by_cases hp : 0 ≤ (s.gen_op_buf.getD i TCGOp.poison).prev <;>
    simp only [hn, hp, if_true, if_false] <;>
    simp [set_prev_length, set_next_length]

theorem la_visit_env (cfg : Config) (s : TCGContext) (st : LaState) (i : Nat) :
    SameEnv s (la_visit cfg s st i).1
    ∧ (la_visit cfg s st i).1.gen_next_op_idx = s.gen_next_op_idx
    ∧ (la_visit cfg s st i).1.gen_op_buf.length = s.gen_op_buf.length
    ∧ (la_visit cfg s st i).1.gen_opparam_buf.length = s.gen_opparam_buf.length := by
  rcases la_visit_cases cfg s st i with ⟨_, h2⟩ | ⟨st1, _, h2⟩ | ⟨opc, ws, da, sa, st1, _, h2⟩
  · rw [h2]
    obtain ⟨f1, f2, f3, f4, _, _, f7, f8⟩ := tcg_op_remove_frame s i
    exact ⟨⟨f1, f2, f3⟩, f7, f8, by rw [f4]⟩
  · rw [h2]; exact ⟨⟨rfl, rfl, rfl⟩, rfl, rfl, rfl⟩
  · rw [h2]
    exact ⟨⟨rfl, rfl, rfl⟩, rfl, by simp, by simp [apply_writes_length]⟩

/-- the entries of the other ops keep everything but their links -/
theorem la_visit_other (cfg : Config) (s : TCGContext) (st : LaState) (i k : Nat)
    (op opk : TCGOp) (hi : s.gen_op_buf[i]? = some op) (hk : s.gen_op_buf[k]? = some opk)
    (hne : k ≠ i) :
    ∃ op', (la_visit cfg s st i).1.gen_op_buf[k]? = some op' ∧ SameOp opk op' := by
  rcases la_visit_cases cfg s st i with ⟨_, h2⟩ | ⟨st1, _, h2⟩ | ⟨opc, ws, da, sa, st1, _, h2⟩
  · rw [h2]
    obtain ⟨op', e1, e2, e3, e4, e5, _⟩ := tcg_op_remove_other s i k op opk hi hk hne
    exact ⟨op', e1, e2, e3, e4, e5⟩
  · rw [h2]; exact ⟨opk, hk, rfl, rfl, rfl, rfl⟩
  · rw [h2]
    obtain ⟨op', e1, e2, e3, e4, _, _, e7⟩ := getElem?_set_opc s.gen_op_buf i k opc opk hk
    rw [if_neg hne] at e7
    exact ⟨op', e1, e7, e2, e3, e4⟩

theorem getD_apply_writes_of_not_mem (parm : List TCGArg) (a : Int) (ws : List (Nat × TCGArg))
    (idx : Nat) (h : ∀ w ∈ ws, 0 ≤ a + w.1 → (a + w.1).toNat ≠ idx) :
    (apply_writes parm a ws).getD idx 0 = parm.getD idx 0 := by
  unfold apply_writes
  induction ws generalizing parm with
  | nil => rfl
  | cons w ws ih =>
    rw [List.foldl_cons, ih _ (fun w' hw' => h w' (List.mem_cons_of_mem _ hw'))]
    split
    · rename_i h0
      rw [List.getD_eq_getElem?_getD, List.getElem?_set_ne (h w (List.mem_cons_self _ _) h0),
        List.getD_eq_getElem?_getD]
    · rfl

/-- the parameter buffer outside the arguments of the op visited -/
theorem la_visit_parm_frame (cfg : Config) (s : TCGContext) (st : LaState) (i : Nat)
    (op : TCGOp) (hi : s.gen_op_buf[i]? = some op) (h0 : 0 ≤ op.args) (idx : Nat)
    (hidx : idx < op.args.toNat ∨ op.args.toNat + la_footprint cfg op ≤ idx) :
    (la_visit cfg s st i).1.gen_opparam_buf.getD idx 0 = s.gen_opparam_buf.getD idx 0 := by
  have hg : s.gen_op_buf.getD i TCGOp.poison = op := by
    rw [List.getD_eq_getElem?_getD, hi]; rfl
  rcases la_visit_cases cfg s st i with ⟨_, h2⟩ | ⟨st1, _, h2⟩ | ⟨opc, ws, da, sa, st1, h1, h2⟩
  · rw [h2, (tcg_op_remove_frame s i).2.2.2.1]
  · rw [h2]
  · rw [h2]
    simp only
    rw [hg] at h1 ⊢
    apply getD_apply_writes_of_not_mem
    intro w hw _
    rcases la_op_keep_inv cfg s op _ st opc ws da sa st1 h1 with ⟨_, e2⟩ | ⟨hm, hw3, _, _⟩
    · subst e2; cases hw
    · have := la_rewrites_footprint cfg op opc hm
      have := hw3 w hw
      omega


theorem sameOp_footprint (cfg : Config) (o o' : TCGOp) (h : SameOp o o') :
    la_footprint cfg o' = la_footprint cfg o := by
  obtain ⟨h1, h2, h3, _⟩ := h
  unfold la_footprint
  rw [h1, h2, h3]

theorem argsWF_of_opsLe (cfg : Config) (s s' : TCGContext) (L L' : List Nat)
    (h : ArgsWF cfg s L) (hsub : ∀ k ∈ L', k ∈ L) (hle : OpsLe cfg s s' L') :
    ArgsWF cfg s' L' := by
  obtain ⟨h1, h2⟩ := h
  obtain ⟨hlen, hops⟩ := hle
  constructor
  · intro i hi
    obtain ⟨op, e1, e2, e3⟩ := h1 i (hsub i hi)
    obtain ⟨op', f1, f2, f3⟩ := hops i hi op e1
    refine ⟨op', f1, by rw [f2]; exact e2, ?_⟩
    rw [f2, hlen]; omega
  · intro i hi j hj hne oi oj ei ej
    obtain ⟨opi, e1, _, _⟩ := h1 i (hsub i hi)
    obtain ⟨opj, g1, _, _⟩ := h1 j (hsub j hj)
    obtain ⟨oi', f1, f2, f3⟩ := hops i hi opi e1
    obtain ⟨oj', k1, k2, k3⟩ := hops j hj opj g1
    rw [ei] at f1; rw [ej] at k1
    injection f1 with f1; injection k1 with k1
    subst f1 k1
    rcases h2 i (hsub i hi) j (hsub j hj) hne opi opj e1 g1 with h | h
    · left; rw [f2, k2]; omega
    · right; rw [f2, k2]; omega

/-- after one iteration the remaining ops still have separate arguments -/
theorem argsWF_visit (cfg : Config) (htab : TableOK cfg) (s : TCGContext) (st : LaState)
    (i : Nat) (L L' : List Nat) (h : ArgsWF cfg s L) (hi : i ∈ L) (hsub : ∀ k ∈ L', k ∈ L)
    (hrem : la_op cfg s (s.gen_op_buf.getD i TCGOp.poison)
        (op_arg s.gen_opparam_buf (s.gen_op_buf.getD i TCGOp.poison).args) st
        = LaResult.remove → i ∉ L') :
    ArgsWF cfg (la_visit cfg s st i).1 L' := by
  apply argsWF_of_opsLe cfg s _ L L' h hsub
  obtain ⟨op, hop, _, _⟩ := h.1 i hi
  have hg : s.gen_op_buf.getD i TCGOp.poison = op := by
    rw [List.getD_eq_getElem?_getD, hop]; rfl
  refine ⟨(la_visit_env cfg s st i).2.2.2, ?_⟩
  intro k hk opk hopk
  by_cases hki : k = i
  · subst hki
    rw [hop] at hopk; injection hopk with hopk; subst hopk
    rcases la_visit_cases cfg s st k with ⟨h1, _⟩ | ⟨st1, _, h2⟩ | ⟨opc, ws, da, sa, st1, h1, h2⟩
    · exact absurd hk (hrem h1)
    · rw [h2]; exact ⟨op, hop, rfl, Nat.le_refl _⟩
    · rw [h2]
      obtain ⟨op', e1, e2, e3, e4, _, _, e7⟩ := getElem?_set_opc s.gen_op_buf k k opc op hop
      rw [if_pos rfl] at e7
      refine ⟨op', e1, e4, ?_⟩
      rw [hg] at h1
      rcases la_op_keep_inv cfg s op _ st opc ws da sa st1 h1 with ⟨f1, _⟩ | ⟨hm, _, _, _⟩
      · rw [sameOp_footprint cfg op op' ⟨e7.trans f1, e2, e3, e4⟩]
      · have hfp := la_rewrites_footprint cfg op opc hm
        have hgen : la_generic op'.opc = true := by rw [e7]; exact la_rewrites_generic _ _ hm
        obtain ⟨t1, t2, _, _⟩ := htab op.opc opc hm
        rw [la_generic_footprint cfg op' hgen, e7, t1, t2]
        omega
  · obtain ⟨op', e1, e2⟩ := la_visit_other cfg s st i k op opk hop hopk hki
    exact ⟨op', e1, e2.2.2.2, by rw [sameOp_footprint cfg opk op' e2]⟩

theorem viewEq_trans (cfg : Config) (s1 s2 s3 : TCGContext) (i : Nat)
    (h12 : ViewEq cfg s1 s2 i) (h23 : ViewEq cfg s2 s3 i) : ViewEq cfg s1 s3 i := by
  obtain ⟨o1, o2, a1, a2, a3, a4⟩ := h12
  obtain ⟨o2', o3, b1, b2, b3, b4⟩ := h23
  rw [a2] at b1; injection b1 with b1; subst b1
  refine ⟨o1, o3, a1, b2, ⟨b3.1.trans a3.1, b3.2.1.trans a3.2.1, b3.2.2.1.trans a3.2.2.1,
    b3.2.2.2.trans a3.2.2.2⟩, ?_⟩
  intro k hk
  rw [b4 k (by rw [sameOp_footprint cfg o1 o2 a3]; exact hk), a4 k hk]

theorem op_arg_eq_getD (parm : List TCGArg) (a : Int) (k : Nat) (h0 : 0 ≤ a) :
    op_arg parm a k = parm.getD (a.toNat + k) 0 := by
  unfold op_arg
  rw [if_pos (by omega)]
  congr 1
  omega

/-- an op that is not the one visited is seen unchanged -/
theorem la_visit_viewEq_other (cfg : Config) (s : TCGContext) (st : LaState) (i k : Nat)
    (L : List Nat) (h : ArgsWF cfg s L) (hi : i ∈ L) (hk : k ∈ L) (hne : k ≠ i) :
    ViewEq cfg s (la_visit cfg s st i).1 k := by
  obtain ⟨op, hop, h0, _⟩ := h.1 i hi
  obtain ⟨opk, hopk, hk0, _⟩ := h.1 k hk
  obtain ⟨op', e1, e2⟩ := la_visit_other cfg s st i k op opk hop hopk hne
  refine ⟨opk, op', hopk, e1, e2, ?_⟩
  intro j hj
  rw [e2.2.2.2, op_arg_eq_getD _ _ _ hk0, op_arg_eq_getD _ _ _ hk0]
  apply la_visit_parm_frame cfg s st i op hop h0
  rcases h.2 i hi k hk (fun e => hne e.symm) op opk hop hopk with h | h
  · right; omega
  · left; omega


/-! ### The whole pass, as a list of visits -/

theorem la_run_env (cfg : Config) (r : List Nat) :
    ∀ (s : TCGContext) (st : LaState),
      SameEnv s (la_run cfg r (s, st)).1
      ∧ (la_run cfg r (s, st)).1.gen_next_op_idx = s.gen_next_op_idx
      ∧ (la_run cfg r (s, st)).1.gen_op_buf.length = s.gen_op_buf.length
      ∧ (la_run cfg r (s, st)).1.gen_opparam_buf.length = s.gen_opparam_buf.length := by
  induction r with
  | nil => intro s st; exact ⟨⟨rfl, rfl, rfl⟩, rfl, rfl, rfl⟩
  | cons i r ih =>
    intro s st
    rw [la_run_concat]
    obtain ⟨⟨a1, a2, a3⟩, a4, a5, a6⟩ := la_visit_env cfg s st i
    obtain ⟨⟨b1, b2, b3⟩, b4, b5, b6⟩ := ih (la_visit cfg s st i).1 (la_visit cfg s st i).2
    exact ⟨⟨b1.trans a1, b2.trans a2, b3.trans a3⟩, b4.trans a4, b5.trans a5, b6.trans a6⟩

theorem viewEq_refl (cfg : Config) (s : TCGContext) (i : Nat) (op : TCGOp)
    (h : s.gen_op_buf[i]? = some op) : ViewEq cfg s s i :=
  ⟨op, op, h, h, ⟨rfl, rfl, rfl, rfl⟩, fun _ _ => rfl⟩

theorem viewEq_congr_right (cfg : Config) (s s2 s3 : TCGContext) (i : Nat)
    (h : ViewEq cfg s s2 i) (hb : s3.gen_op_buf = s2.gen_op_buf)
    (hp : s3.gen_opparam_buf = s2.gen_opparam_buf) : ViewEq cfg s s3 i := by
  obtain ⟨o1, o2, a1, a2, a3, a4⟩ := h
  exact ⟨o1, o2, a1, by rw [hb]; exact a2, a3, by rw [hp]; exact a4⟩

/-- an op that is not visited is seen unchanged after the visits -/
theorem run_viewEq (cfg : Config) (htab : TableOK cfg) (r : List Nat) :
    ∀ (s : TCGContext) (st : LaState) (L : List Nat) (k : Nat),
      ArgsWF cfg s L → (∀ i ∈ r, i ∈ L) → r.Nodup → k ∈ L → k ∉ r →
      ViewEq cfg s (la_run cfg r (s, st)).1 k := by
  induction r with
  | nil =>
    intro s st L k h _ _ hk _
    obtain ⟨op, hop, _, _⟩ := h.1 k hk
    exact viewEq_refl cfg s k op hop
  | cons i r ih =>
    intro s st L k h hsub hnd hk hkr
    rw [la_run_concat]
    have hi : i ∈ L := hsub i (List.mem_cons_self _ _)
    have hki : k ≠ i := fun e => hkr (e ▸ List.mem_cons_self _ _)
    have hir : i ∉ r := (List.nodup_cons.mp hnd).1
    have h1 := la_visit_viewEq_other cfg s st i k L h hi hk hki
    have h2 : ArgsWF cfg (la_visit cfg s st i).1 (k :: r) := by
      apply argsWF_visit cfg htab s st i L (k :: r) h hi
      · intro j hj
        rcases List.mem_cons.mp hj with rfl | hj
        · exact hk
        · exact hsub j (List.mem_cons_of_mem _ hj)
      · intro _ hm
        rcases List.mem_cons.mp hm with e | hm
        · exact hki e.symm
        · exact hir hm
    have h3 := ih (la_visit cfg s st i).1 (la_visit cfg s st i).2 (k :: r) k h2
      (fun j hj => List.mem_cons_of_mem _ hj) (List.nodup_cons.mp hnd).2
      (List.mem_cons_self _ _) (fun hm => hkr (List.mem_cons_of_mem _ hm))
    exact viewEq_trans cfg _ _ _ k h1 h3

theorem la_kept_subset (cfg : Config) (r : List Nat) :
    ∀ (p : TCGContext × LaState), ∀ k ∈ la_kept cfg r p, k ∈ r := by
  induction r with
  | nil => intro p k hk; cases hk
  | cons i r ih =>
    intro p k hk
    unfold la_kept at hk
    split at hk
    · exact List.mem_cons_of_mem _ (ih _ k hk)
    · rcases List.mem_cons.mp hk with rfl | hk
      · exact List.mem_cons_self _ _
      · exact List.mem_cons_of_mem _ (ih _ k hk)

theorem la_kept_nodup (cfg : Config) (r : List Nat) :
    ∀ (p : TCGContext × LaState), r.Nodup → (la_kept cfg r p).Nodup := by
  induction r with
  | nil => intro p _; exact List.nodup_nil
  | cons i r ih =>
    intro p hnd
    unfold la_kept
    split
    · exact ih _ (List.nodup_cons.mp hnd).2
    · exact List.nodup_cons.mpr
        ⟨fun hm => (List.nodup_cons.mp hnd).1 (la_kept_subset cfg r _ i hm),
          ih _ (List.nodup_cons.mp hnd).2⟩

theorem args_writes_nil (A : Nat → TCGArg) : args_writes A [] = A := rfl

/-- the view of the arguments after the stores of one iteration -/
theorem op_arg_apply_writes (parm : List TCGArg) (a : Int) (ws : List (Nat × TCGArg))
    (k : Nat) (h0 : 0 ≤ a) (hb : ∀ w ∈ ws, a.toNat + w.1 < parm.length) :
    op_arg (apply_writes parm a ws) a k = args_writes (op_arg parm a) ws k := by
  unfold apply_writes args_writes
  induction ws generalizing parm with
  | nil => rfl
  | cons w ws ih =>
    rw [List.foldl_cons, List.foldl_cons]
    have hw0 : (0 : Int) ≤ a + (w.1 : Int) := by omega
    rw [if_pos hw0]
    have e : (a + (w.1 : Int)).toNat = a.toNat + w.1 := by omega
    rw [e, ih _ (by
      intro w' hw'
      rw [List.length_set]
      exact hb w' (List.mem_cons_of_mem _ hw'))]
    have hfun : op_arg (parm.set (a.toNat + w.1) w.2) a = args_write (op_arg parm a) w.1 w.2 := by
      funext j
      rw [op_arg_set parm a _ w.1 j w.2 h0 rfl (hb w (List.mem_cons_self _ _))]
      rfl
    rw [hfun]

theorem set_getD_self (buf : List TCGOp) (i : Nat) (op : TCGOp) (h : buf[i]? = some op) :
    buf.set i op = buf := by
  apply List.ext_getElem?
  intro j
  rw [List.getElem?_set]
  by_cases e : i = j
  · subst e
    rw [if_pos rfl, if_pos (List.getElem?_eq_some.mp h).1, h]
  · rw [if_neg e]



theorem la_run_pair (cfg : Config) (r : List Nat) (i : Nat) (s : TCGContext) (st : LaState) :
    la_run cfg (i :: r) (s, st) = la_run cfg r (la_visit cfg s st i) := rfl

theorem la_kept_cons (cfg : Config) (r : List Nat) (i : Nat) (s : TCGContext) (st : LaState) :
    la_kept cfg (i :: r) (s, st) =
      if la_op cfg s (s.gen_op_buf.getD i TCGOp.poison)
          (op_arg s.gen_opparam_buf (s.gen_op_buf.getD i TCGOp.poison).args) st
          = LaResult.remove
      then la_kept cfg r (la_visit cfg s st i)
      else i :: la_kept cfg r (la_visit cfg s st i) := rfl

/-- Visiting again the ops that were kept, from a context that shows them as the
first visits left them, changes nothing but writes the same `dead_args` and
`sync_args`. -/
theorem la_rerun (cfg : Config) (htab : TableOK cfg) (r : List Nat) :
    ∀ (s : TCGContext) (st : LaState) (L : List Nat) (s2 : TCGContext),
      ArgsWF cfg s L → (∀ i ∈ r, i ∈ L) → r.Nodup → SameEnv s s2 →
      (∀ i ∈ la_kept cfg r (s, st), ViewEq cfg (la_run cfg r (s, st)).1 s2 i) →
      ∃ F G : List Nat → List Nat,
        (la_run cfg r (s, st)).1.op_dead_args = F s.op_dead_args
        ∧ (la_run cfg r (s, st)).1.op_sync_args = G s.op_sync_args
        ∧ la_run cfg (la_kept cfg r (s, st)) (s2, st)
            = ({ s2 with op_dead_args := F s2.op_dead_args,
                         op_sync_args := G s2.op_sync_args }, (la_run cfg r (s, st)).2) := by
  induction r with
  | nil =>
    intro s st L s2 _ _ _ _ _
    exact ⟨id, id, rfl, rfl, rfl⟩
  | cons i r ih =>
    intro s st L s2 hwf hsub hnd henv hview
    have hi : i ∈ L := hsub i (List.mem_cons_self _ _)
    have hir : i ∉ r := (List.nodup_cons.mp hnd).1
    have hndr : r.Nodup := (List.nodup_cons.mp hnd).2
    have hsubr : ∀ k ∈ r, k ∈ L := fun k hk => hsub k (List.mem_cons_of_mem _ hk)
    obtain ⟨op, hop, h0, hbound⟩ := hwf.1 i hi
    have hg : s.gen_op_buf.getD i TCGOp.poison = op := by
      rw [List.getD_eq_getElem?_getD, hop]; rfl
    obtain ⟨n1, n2, n3⟩ := henv
    rw [la_run_pair, la_kept_cons] at hview ⊢
    have hcases := la_visit_cases cfg s st i
    have henvv := (la_visit_env cfg s st i).1
    have hwf1 := fun hrm => argsWF_visit cfg htab s st i L r hwf hi hsubr hrm
    have hwf2 := fun hrm => argsWF_visit cfg htab s st i L L hwf hi (fun k hk => hk) hrm
    have hrv := fun hw => run_viewEq cfg htab r (la_visit cfg s st i).1
      (la_visit cfg s st i).2 L i hw hsubr hndr hi hir
    generalize hp : la_visit cfg s st i = p at hcases henvv hwf1 hwf2 hrv hview ⊢
    obtain ⟨sa, sta⟩ := p
    obtain ⟨v1, v2, v3⟩ := henvv
    simp only at v1 v2 v3 hwf1 hwf2 hrv
    have henv' : SameEnv sa s2 := ⟨n1.trans v1.symm, n2.trans v2.symm, n3.trans v3.symm⟩
    rcases hcases with ⟨h1, h2⟩ | ⟨st1, h1, h2⟩ | ⟨opc, ws, da, sa', st1, h1, h2⟩
    · -- the op is removed
      injection h2 with h2a h2b
      rw [if_pos h1] at hview ⊢
      obtain ⟨F, G, f1, f2, f3⟩ := ih sa sta r s2 (hwf1 (fun _ => hir))
        (fun k hk => hk) hndr henv' hview
      refine ⟨F, G, ?_, ?_, ?_⟩
      · rw [f1, h2a, (tcg_op_remove_frame s i).2.2.2.2.1]
      · rw [f2, h2a, (tcg_op_remove_frame s i).2.2.2.2.2.1]
      · rw [h2b] at f3 ⊢
        exact f3
    · -- nothing is recorded for the op
      injection h2 with h2a h2b
      have hne : la_op cfg s (s.gen_op_buf.getD i TCGOp.poison)
          (op_arg s.gen_opparam_buf (s.gen_op_buf.getD i TCGOp.poison).args) st
          ≠ LaResult.remove := by rw [h1]; intro e; cases e
      rw [if_neg hne] at hview ⊢
      have hwf' := hwf2 (fun e => absurd e hne)
      have hv2 := viewEq_trans cfg _ _ _ i (hrv hwf') (hview i (List.mem_cons_self _ _))
      rw [h2a] at hv2
      obtain ⟨o1, o2, a1, a2, a3, a4⟩ := hv2
      rw [hop] at a1; injection a1 with a1; subst a1
      have hg2 : s2.gen_op_buf.getD i TCGOp.poison = o2 := by
        rw [List.getD_eq_getElem?_getD, a2]; rfl
      have hla : la_op cfg s2 (s2.gen_op_buf.getD i TCGOp.poison)
          (op_arg s2.gen_opparam_buf (s2.gen_op_buf.getD i TCGOp.poison).args) st
          = LaResult.skip st1 := by
        rw [hg2, la_op_env cfg s s2 op o2 _ _ st n1 n2 n3 a3.1 a3.2.1 a3.2.2.1 a4, ← hg]
        exact h1
      have hvis2 : la_visit cfg s2 st i = (s2, st1) := by
        unfold la_visit
        simp only [hla]
      obtain ⟨F, G, f1, f2, f3⟩ := ih sa sta L s2 hwf' hsubr hndr henv'
        (fun k hk => hview k (List.mem_cons_of_mem _ hk))
      refine ⟨F, G, ?_, ?_, ?_⟩
      · rw [f1, h2a]
      · rw [f2, h2a]
      · rw [la_run_pair, hvis2]
        rw [h2b] at f3 ⊢
        exact f3
    · -- the op is kept
      injection h2 with h2a h2b
      have hne : la_op cfg s (s.gen_op_buf.getD i TCGOp.poison)
          (op_arg s.gen_opparam_buf (s.gen_op_buf.getD i TCGOp.poison).args) st
          ≠ LaResult.remove := by rw [h1]; intro e; cases e
      rw [if_neg hne] at hview ⊢
      have hwf' := hwf2 (fun e => absurd e hne)
      have hv2 := viewEq_trans cfg _ _ _ i (hrv hwf') (hview i (List.mem_cons_self _ _))
      rw [h2a] at hv2
      obtain ⟨o1, o2, a1, a2, a3, a4⟩ := hv2
      simp only at a1 a4
      rw [hg] at h1 a1 a4
      obtain ⟨o1', b1, b2, b3, b4, _, _, b7⟩ := getElem?_set_opc s.gen_op_buf i i opc op hop
      rw [hg] at b1
      rw [b1] at a1; injection a1 with a1; subst a1
      rw [if_pos rfl] at b7
      have hg2 : s2.gen_op_buf.getD i TCGOp.poison = o2 := by
        rw [List.getD_eq_getElem?_getD, a2]; rfl
      -- the stores of the first visit lie inside the buffer
      have hwb : ∀ w ∈ ws, op.args.toNat + w.1 < s.gen_opparam_buf.length := by
        intro w hw
        rcases la_op_keep_inv cfg s op _ st opc ws da sa' st1 h1 with ⟨_, e2⟩ | ⟨hm, hw3, _, _⟩
        · subst e2; cases hw
        · have := la_rewrites_footprint cfg op opc hm
          have := hw3 w hw
          omega
      have hla : la_op cfg s2 (s2.gen_op_buf.getD i TCGOp.poison)
          (op_arg s2.gen_opparam_buf (s2.gen_op_buf.getD i TCGOp.poison).args) st
          = LaResult.keep opc [] da sa' st1 := by
        rw [hg2]
        apply la_op_idem cfg htab s s2 op o2 _ _ st opc ws da sa' st1 h1 n1 n2 n3
          (a3.1.trans b7) (a3.2.1.trans b2) (a3.2.2.1.trans b3)
        intro k hk
        rw [a4 k (by rw [← sameOp_footprint cfg o1' o2 a3]; exact hk), b4,
          op_arg_apply_writes _ _ _ _ h0 hwb]
      have hvis2 : la_visit cfg s2 st i
          = ({ s2 with op_dead_args := s2.op_dead_args.set i da,
                       op_sync_args := s2.op_sync_args.set i sa' }, st1) := by
        have := la_visit_keep cfg s2 st i opc []
          { dead_args := da, sync_args := sa', st := st1 } (by rw [hla]; rfl)
        rw [this, hg2]
        have e1 : ({ o2 with opc := opc } : TCGOp) = o2 := by
          rw [← a3.1.trans b7]
        rw [e1, set_getD_self _ _ _ a2]
        rfl
      obtain ⟨F, G, f1, f2, f3⟩ := ih sa sta L
        { s2 with op_dead_args := s2.op_dead_args.set i da,
                  op_sync_args := s2.op_sync_args.set i sa' } hwf' hsubr hndr henv'
        (fun k hk => viewEq_congr_right cfg _ s2 _ k
          (hview k (List.mem_cons_of_mem _ hk)) rfl rfl)
      refine ⟨fun l => F (l.set i da), fun l => G (l.set i sa'), ?_, ?_, ?_⟩
      · rw [f1, h2a]
      · rw [f2, h2a]
      · rw [la_run_pair, hvis2]
        rw [h2b] at f3 ⊢
        exact f3


/-- After the visits the op list is the list of the ops that were kept. -/
theorem oplist_run (cfg : Config) (pre : List Nat) :
    ∀ (post : List Nat) (s : TCGContext) (st : LaState),
      OpList s (pre ++ post) →
      OpList (la_run cfg pre.reverse (s, st)).1
        ((la_kept cfg pre.reverse (s, st)).reverse ++ post) := by
  induction pre using List.reverseRecOn with
  | nil =>
    intro post s st h
    exact h
  | append_singleton pre i ih =>
    intro post s st h
    rw [List.reverse_append, List.reverse_singleton, List.singleton_append,
      la_run_pair, la_kept_cons]
    have h' : OpList s (pre ++ i :: post) := by
      rw [List.append_assoc, List.singleton_append] at h; exact h
    by_cases hr : la_op cfg s (s.gen_op_buf.getD i TCGOp.poison)
        (op_arg s.gen_opparam_buf (s.gen_op_buf.getD i TCGOp.poison).args) st
        = LaResult.remove
    · rw [if_pos hr]
      have hv := la_visit_remove cfg s st i hr
      have h2 : OpList (la_visit cfg s st i).1 (pre ++ post) := by
        rw [hv]; exact oplist_remove s pre post i h'
      exact ih post _ _ h2
    · rw [if_neg hr]
      have h2 := oplist_visit_keep cfg s st i _ h' hr
      have := ih (i :: post) (la_visit cfg s st i).1 (la_visit cfg s st i).2 h2
      rw [List.reverse_cons, List.append_assoc, List.singleton_append]
      exact this

theorem nodup_length_le (l : List Nat) (n : Nat) (hnd : l.Nodup) (h : ∀ i ∈ l, i < n) :
    l.length ≤ n := by
  have hs : l ⊆ List.range n := fun i hi => List.mem_range.mpr (h i hi)
  have := (List.subperm_of_subset hnd hs).length_le
  rwa [List.length_range] at this

theorem la_init_env (s s2 : TCGContext) (h1 : s2.nb_globals = s.nb_globals)
    (h2 : s2.nb_temps = s.nb_temps) : la_init s2 = la_init s := by
  unfold la_init tcg_la_func_end
  rw [h1, h2]

/-- On a well-formed op list the pass returns the context left by the visits of the
ops, from the last to the first. -/
theorem tcg_liveness_analysis_run (cfg : Config) (s : TCGContext) (l : List Nat)
    (hl : OpList s l) (hb : ∀ i ∈ l, i < s.gen_op_buf.length) :
    tcg_liveness_analysis cfg s
      = some (la_run cfg l.reverse
          ({ s with op_dead_args := List.replicate s.gen_next_op_idx 0,
                    op_sync_args := List.replicate s.gen_next_op_idx 0 },
           la_init s)).1 := by
  unfold tcg_liveness_analysis
  have h0 : OpList { s with op_dead_args := List.replicate s.gen_next_op_idx 0,
                            op_sync_args := List.replicate s.gen_next_op_idx 0 } (l ++ []) := by
    rw [List.append_nil]
    exact ⟨hl.chain, hl.first, hl.last, hl.nodup⟩
  have := la_loop_run cfg l [] s.gen_op_buf.length _ (la_init s) h0
    (nodup_length_le l _ hl.nodup hb)
  rw [← hl.last] at this
  exact this


theorem la_kept_sublist (cfg : Config) (r : List Nat) :
    ∀ (p : TCGContext × LaState), (la_kept cfg r p).Sublist r := by
  induction r with
  | nil => intro p; exact List.Sublist.refl _
  | cons i r ih =>
    intro p
    unfold la_kept
    split
    · exact (ih _).cons _
    · exact (ih _).cons₂ _

/-- Claim C6: liveness is idempotent. On a well-formed op list (the ops are linked
into a doubly-linked list, their argument areas lie in the parameter buffer and do
not overlap) and with an op table that describes the single-word opcodes as ops with
one output and two inputs, `tcg_liveness_analysis` returns a context `s1` whose op
list `l1` is a sublist of the list it was given, and running it again on `s1`
returns `s1` itself: no op is removed, no opcode and no argument is rewritten, and
`op_dead_args` and `op_sync_args` are the same. -/
theorem liveness_idempotent (cfg : Config) (s : TCGContext) (l : List Nat)
    (htab : TableOK cfg) (hl : OpList s l) (hwf : ArgsWF cfg s l) :
    ∃ s1 l1, tcg_liveness_analysis cfg s = some s1 ∧ OpList s1 l1 ∧ l1.Sublist l
      ∧ tcg_liveness_analysis cfg s1 = some s1 := by
  have hb : ∀ i ∈ l, i < s.gen_op_buf.length := by
    intro i hi
    obtain ⟨op, hop, _, _⟩ := hwf.1 i hi
    exact (List.getElem?_eq_some.mp hop).1
  have h0 : OpList { s with op_dead_args := List.replicate s.gen_next_op_idx 0,
                            op_sync_args := List.replicate s.gen_next_op_idx 0 } (l ++ []) := by
    rw [List.append_nil]
    exact ⟨hl.chain, hl.first, hl.last, hl.nodup⟩
  have hwf0 : ArgsWF cfg { s with op_dead_args := List.replicate s.gen_next_op_idx 0,
                                  op_sync_args := List.replicate s.gen_next_op_idx 0 } l := hwf
  have hrun := tcg_liveness_analysis_run cfg s l hl hb
  have hop1 := oplist_run cfg l [] _ (la_init s) h0
  rw [List.append_nil] at hop1
  obtain ⟨⟨e1, e2, e3⟩, e4, e5, e6⟩ := la_run_env cfg l.reverse
    { s with op_dead_args := List.replicate s.gen_next_op_idx 0,
             op_sync_args := List.replicate s.gen_next_op_idx 0 } (la_init s)
  have hsub : ∀ i ∈ l.reverse, i ∈ l := fun i hi => List.mem_reverse.mp hi
  have hndr : l.reverse.Nodup := List.nodup_reverse.mpr hl.nodup
  have hkl : ∀ i ∈ la_kept cfg l.reverse
      ({ s with op_dead_args := List.replicate s.gen_next_op_idx 0,
                op_sync_args := List.replicate s.gen_next_op_idx 0 }, la_init s), i ∈ l :=
    fun i hi => hsub i (la_kept_subset cfg _ _ i hi)
  obtain ⟨s0, hs0⟩ : ∃ s0 : TCGContext,
      { s with op_dead_args := List.replicate s.gen_next_op_idx 0,
               op_sync_args := List.replicate s.gen_next_op_idx 0 } = s0 := ⟨_, rfl⟩
  rw [hs0] at hrun hop1 e1 e2 e3 e4 e5 e6 hkl hwf0
  have d0 : s0.op_dead_args = List.replicate s.gen_next_op_idx 0 := by rw [← hs0]
  have y0 : s0.op_sync_args = List.replicate s.gen_next_op_idx 0 := by rw [← hs0]
  have n0 : s0.gen_next_op_idx = s.gen_next_op_idx := by rw [← hs0]
  have g0 : s0.nb_globals = s.nb_globals := by rw [← hs0]
  have t0 : s0.nb_temps = s.nb_temps := by rw [← hs0]
  have b0 : s0.gen_op_buf.length = s.gen_op_buf.length := by rw [← hs0]
  have hb1 : ∀ i ∈ (la_kept cfg l.reverse (s0, la_init s)).reverse,
      i < (la_run cfg l.reverse (s0, la_init s)).1.gen_op_buf.length := by
    intro i hi
    rw [e5, b0]
    exact hb i (hkl i (List.mem_reverse.mp hi))
  refine ⟨_, _, hrun, hop1, ?_, ?_⟩
  · have := (la_kept_sublist cfg l.reverse (s0, la_init s)).reverse
    rwa [List.reverse_reverse] at this
  · have hrep : List.replicate (la_run cfg l.reverse (s0, la_init s)).1.gen_next_op_idx 0
        = List.replicate s.gen_next_op_idx 0 := by rw [e4, n0]
    rw [tcg_liveness_analysis_run cfg _ _ hop1 hb1, List.reverse_reverse,
      la_init_env s _ (e1.trans g0) (e2.trans t0), hrep]
    have hview : ∀ i ∈ la_kept cfg l.reverse (s0, la_init s),
        ViewEq cfg (la_run cfg l.reverse (s0, la_init s)).1
          { (la_run cfg l.reverse (s0, la_init s)).1 with
              op_dead_args := List.replicate s.gen_next_op_idx 0,
              op_sync_args := List.replicate s.gen_next_op_idx 0 } i := by
      intro i hi
      have hlt : i < (la_run cfg l.reverse (s0, la_init s)).1.gen_op_buf.length := by
        rw [e5, b0]; exact hb i (hkl i hi)
      exact viewEq_congr_right cfg _ _ _ i
        (viewEq_refl cfg _ i _ (List.getElem?_eq_getElem hlt)) rfl rfl
    obtain ⟨F, G, f1, f2, f3⟩ := la_rerun cfg htab l.reverse s0 (la_init s) l
      { (la_run cfg l.reverse (s0, la_init s)).1 with
          op_dead_args := List.replicate s.gen_next_op_idx 0,
          op_sync_args := List.replicate s.gen_next_op_idx 0 }
      hwf0 hsub hndr ⟨e1, e2, e3⟩ hview
    refine congrArg some ((congrArg Prod.fst f3).trans ?_)
    simp only
    rw [y0.trans d0.symm] at f2
    rw [← d0, ← f1, ← f2]


/-! ### The example host and the example translation blocks -/

theorem exCfg_tableOK : TableOK exCfg := by
  intro old new h
  cases old <;> simp only [la_rewrites, List.mem_cons, List.mem_singleton, List.not_mem_nil,
    or_false] at h
  all_goals first
    | exact absurd h id
    | (subst h; exact ⟨rfl, rfl, rfl, rfl⟩)
    | (rcases h with h | h <;> subst h <;> exact ⟨rfl, rfl, rfl, rfl⟩)

theorem exAdd2_oplist : OpList exAdd2 [0, 1, 2] :=
  ⟨⟨⟨_, rfl, rfl, rfl⟩, ⟨_, rfl, rfl, rfl⟩, ⟨_, rfl, rfl, rfl⟩, trivial⟩, rfl, rfl, by decide⟩

theorem exAdd2_argsWF : ArgsWF exCfg exAdd2 [0, 1, 2] := by
  constructor
  · intro i hi
    simp only [List.mem_cons, List.mem_singleton, List.not_mem_nil, or_false] at hi
    rcases hi with rfl | rfl | rfl <;> exact ⟨_, rfl, by decide, by decide⟩
  · intro i hi j hj hne oi oj h1 h2
    simp only [List.mem_cons, List.mem_singleton, List.not_mem_nil, or_false] at hi hj
    rcases hi with rfl | rfl | rfl <;> rcases hj with rfl | rfl | rfl <;>
      first
        | exact absurd rfl hne
        | (cases h1; cases h2; decide)

theorem liveness_idempotent_witness :
    TableOK exCfg ∧ OpList exAdd2 [0, 1, 2] ∧ ArgsWF exCfg exAdd2 [0, 1, 2]
    ∧ ∃ s1 l1, tcg_liveness_analysis exCfg exAdd2 = some s1 ∧ OpList s1 l1
        ∧ l1.Sublist [0, 1, 2] ∧ tcg_liveness_analysis exCfg s1 = some s1 :=
  ⟨exCfg_tableOK, exAdd2_oplist, exAdd2_argsWF,
    liveness_idempotent exCfg exAdd2 [0, 1, 2] exCfg_tableOK exAdd2_oplist exAdd2_argsWF⟩


/-- Claim C3: in the liveness pass a call op (op `oi`, with arguments `A`) is removed
if and only if its flags contain `TCG_CALL_NO_SIDE_EFFECTS` and each of its `callo`
outputs is dead and memory-fresh. When it is removed, the op is unlinked from the op
list and `dead_temps` and `mem_temps` stay as they are; when it is not (in particular
when `NO_SIDE_EFFECTS` is missing), the op list stays as it is and only the op's
entries of `op_dead_args` and `op_sync_args` are written. -/
theorem call_removed_iff (cfg : Config) (s : TCGContext) (st : LaState) (oi : Nat)
    (op : TCGOp) (A : Nat → TCGArg)
    (hget : s.gen_op_buf.getD oi TCGOp.poison = op)
    (hA : A = op_arg s.gen_opparam_buf op.args)
    (hop : op.opc = TCGOpcode.call) :
    (la_op cfg s op A st = LaResult.remove
      ↔ (flag (A (op.callo + op.calli + 1)) cfg.TCG_CALL_NO_SIDE_EFFECTS = true
          ∧ ∀ i, i < op.callo → dead_fresh st (A i)))
    ∧ ((flag (A (op.callo + op.calli + 1)) cfg.TCG_CALL_NO_SIDE_EFFECTS = true
          ∧ ∀ i, i < op.callo → dead_fresh st (A i))
        → la_visit cfg s st oi = (tcg_op_remove s oi, st)
          ∧ ∀ pre post, OpList s (pre ++ oi :: post)
              → OpList (la_visit cfg s st oi).1 (pre ++ post))
    ∧ (¬ (flag (A (op.callo + op.calli + 1)) cfg.TCG_CALL_NO_SIDE_EFFECTS = true
          ∧ ∀ i, i < op.callo → dead_fresh st (A i))
        → (∃ acc : LaAcc, la_visit cfg s st oi =
            ({ s with gen_op_buf := s.gen_op_buf.set oi op,
                      op_dead_args := s.op_dead_args.set oi acc.dead_args,
                      op_sync_args := s.op_sync_args.set oi acc.sync_args }, acc.st))
          ∧ ∀ l, OpList s l → OpList (la_visit cfg s st oi).1 l) := by
  subst hget hA
  have hiff := la_op_call_remove_iff cfg s _
    (op_arg s.gen_opparam_buf (s.gen_op_buf.getD oi TCGOp.poison).args) st hop
  refine ⟨hiff, ?_, ?_⟩
  · intro hc
    have hv := la_visit_remove cfg s st oi (hiff.mpr hc)
    refine ⟨hv, ?_⟩
    intro pre post hl
    rw [hv]
    exact oplist_remove s pre post oi hl
  · intro hc
    have h : la_op cfg s (s.gen_op_buf.getD oi TCGOp.poison)
        (op_arg s.gen_opparam_buf (s.gen_op_buf.getD oi TCGOp.poison).args) st
        ≠ LaResult.remove := fun e => hc (hiff.mp e)
    have h1 := la_op_call_keep cfg s _ _ st hop h
    refine ⟨⟨la_do_not_remove_call cfg s
      (op_arg s.gen_opparam_buf (s.gen_op_buf.getD oi TCGOp.poison).args)
      (s.gen_op_buf.getD oi TCGOp.poison).callo (s.gen_op_buf.getD oi TCGOp.poison).calli
      (op_arg s.gen_opparam_buf (s.gen_op_buf.getD oi TCGOp.poison).args
        ((s.gen_op_buf.getD oi TCGOp.poison).callo
          + (s.gen_op_buf.getD oi TCGOp.poison).calli + 1))
      st, ?_⟩, ?_⟩
    · rw [la_visit_keep cfg s st oi _ _ _ h1]
      simp only [apply_writes, List.foldl_nil]
      rw [← hop, op_with_opc_self]
    · intro l hl
      exact oplist_visit_keep cfg s st oi l hl h

theorem call_removed_iff_witness :
    (exCall.gen_op_buf.getD 1 TCGOp.poison).opc = TCGOpcode.call
    ∧ la_visit exCfg exCall exStEnd 1 = (tcg_op_remove exCall 1, exStEnd) :=
  ⟨rfl, ((call_removed_iff exCfg exCall exStEnd 1 _ _ rfl rfl rfl).2.1
    ⟨by decide, fun i hi => by
      obtain rfl : i = 0 := Nat.lt_one_iff.mp hi
      decide⟩).1⟩


/-- Claim C4: a double-word add or sub (`add2_i32`, `add2_i64`, `sub2_i32`,
`sub2_i64`) with the arguments `(lo, hi, a_lo, a_hi, b_lo, b_hi)`, met by the liveness
pass at op `oi`. If `lo` and `hi` are both dead and memory-fresh the op is removed and
unlinked. Otherwise, if `hi` is dead and memory-fresh, the op stays at its place in
the list, its opcode becomes the add or sub of the same width, its first three
arguments become `(lo, a_lo, b_lo)`, and `dead_args`, `sync_args` and the liveness
state are those of an op with one output and two inputs, so that a temp other than
`a_lo` and `b_lo` that was dead stays dead. Otherwise the op is left as it is and
treated as an op with two outputs and four inputs. -/
theorem addsub2_high_dead (cfg : Config) (s : TCGContext) (st : LaState) (oi : Nat)
    (op : TCGOp) (A : Nat → TCGArg) (opc_new : TCGOpcode)
    (hget : s.gen_op_buf.getD oi TCGOp.poison = op)
    (hA : A = op_arg s.gen_opparam_buf op.args)
    (hop : addsub2_low op.opc = some opc_new)
    (h0 : 0 ≤ op.args) (hlen : op.args.toNat + 2 < s.gen_opparam_buf.length) :
    (dead_fresh st (A 0) → dead_fresh st (A 1) →
      la_visit cfg s st oi = (tcg_op_remove s oi, st)
      ∧ ∀ pre post, OpList s (pre ++ oi :: post)
          → OpList (la_visit cfg s st oi).1 (pre ++ post))
    ∧ (¬ dead_fresh st (A 0) → dead_fresh st (A 1) →
        ∃ acc parm, acc = la_do_not_remove cfg s (cfg.tcg_op_defs op.opc)
            (fun k => if k = 0 then A 0 else if k = 1 then A 2 else A 4) 1 2 st
          ∧ parm = (s.gen_opparam_buf.set (op.args.toNat + 1) (A 2)).set (op.args.toNat + 2) (A 4)
          ∧ la_visit cfg s st oi =
              ({ s with gen_op_buf := s.gen_op_buf.set oi { op with opc := opc_new },
                        gen_opparam_buf := parm,
                        op_dead_args := s.op_dead_args.set oi acc.dead_args,
                        op_sync_args := s.op_sync_args.set oi acc.sync_args }, acc.st)
          ∧ op_arg parm op.args 0 = A 0 ∧ op_arg parm op.args 1 = A 2
          ∧ op_arg parm op.args 2 = A 4
          ∧ (∀ t, st.dead_temps.getD t false = true → t ≠ A 2 → t ≠ A 4 →
              acc.st.dead_temps.getD t false = true)
          ∧ ∀ l, OpList s l → OpList (la_visit cfg s st oi).1 l)
    ∧ (¬ dead_fresh st (A 1) →
        ∃ acc, acc = la_do_not_remove cfg s (cfg.tcg_op_defs op.opc) A 2 4 st
          ∧ la_visit cfg s st oi =
              ({ s with gen_op_buf := s.gen_op_buf.set oi op,
                        op_dead_args := s.op_dead_args.set oi acc.dead_args,
                        op_sync_args := s.op_sync_args.set oi acc.sync_args }, acc.st)
          ∧ ∀ l, OpList s l → OpList (la_visit cfg s st oi).1 l) := by
  have hla : la_op cfg s (s.gen_op_buf.getD oi TCGOp.poison)
      (op_arg s.gen_opparam_buf (s.gen_op_buf.getD oi TCGOp.poison).args) st
      = la_addsub2 cfg s (cfg.tcg_op_defs op.opc) op.opc opc_new A st := by
    rw [hget, ← hA]; exact la_op_addsub2 cfg s op A st opc_new hop
  refine ⟨?_, ?_, ?_⟩
  · intro hlo hhi
    have hrm : la_op cfg s (s.gen_op_buf.getD oi TCGOp.poison)
        (op_arg s.gen_opparam_buf (s.gen_op_buf.getD oi TCGOp.poison).args) st
        = LaResult.remove := by
      rw [hla]
      unfold la_addsub2
      rw [if_pos ((dead_fresh_iff _ _).mpr hhi), if_pos ((dead_fresh_iff _ _).mpr hlo)]
    refine ⟨la_visit_remove cfg s st oi hrm, fun pre post hl => ?_⟩
    rw [la_visit_remove cfg s st oi hrm]
    exact oplist_remove s pre post oi hl
  · intro hlo hhi
    have hkeep : la_addsub2 cfg s (cfg.tcg_op_defs op.opc) op.opc opc_new A st
        ≠ LaResult.remove := by
      unfold la_addsub2
      rw [if_pos ((dead_fresh_iff _ _).mpr hhi),
        if_neg (fun h => hlo ((dead_fresh_iff _ _).mp h))]
      exact la_keep_ne_remove _ _ _
    refine ⟨_, _, rfl, rfl, ?_, ?_, ?_, ?_, ?_,
      fun l hl => oplist_visit_keep cfg s st oi l hl (by rw [hla]; exact hkeep)⟩
    · have : la_addsub2 cfg s (cfg.tcg_op_defs op.opc) op.opc opc_new A st
          = la_keep opc_new [(1, A 2), (2, args_write A 1 (A 2) 4)]
              (la_do_not_remove cfg s (cfg.tcg_op_defs op.opc)
                (fun k => if k = 0 then A 0 else if k = 1 then A 2 else A 4) 1 2 st) := by
        unfold la_addsub2
        rw [if_pos ((dead_fresh_iff _ _).mpr hhi),
          if_neg (fun h => hlo ((dead_fresh_iff _ _).mp h))]
        have e : la_do_not_remove cfg s (cfg.tcg_op_defs op.opc)
            (args_write (args_write A 1 (A 2)) 2 (args_write A 1 (A 2) 4)) 1 2 st
            = la_do_not_remove cfg s (cfg.tcg_op_defs op.opc)
                (fun k => if k = 0 then A 0 else if k = 1 then A 2 else A 4) 1 2 st := by
          apply la_do_not_remove_congr
          intro i hi
          have : i = 0 ∨ i = 1 ∨ i = 2 := by omega
          rcases this with rfl | rfl | rfl <;> simp [args_write]
        simp only [e]
      rw [la_visit_keep cfg s st oi _ _ _ (hla.trans this), hget]
      have h1 : (0 : Int) ≤ op.args + ((1 : Nat) : Int) := by omega
      have h2 : (0 : Int) ≤ op.args + ((2 : Nat) : Int) := by omega
      have e1 : (op.args + ((1 : Nat) : Int)).toNat = op.args.toNat + 1 := by omega
      have e2 : (op.args + ((2 : Nat) : Int)).toNat = op.args.toNat + 2 := by omega
      simp only [apply_writes, List.foldl_cons, List.foldl_nil, if_pos h1, if_pos h2, args_write,
        e1, e2]
      simp
    · rw [op_arg_set _ _ _ 2 _ _ h0 rfl (by rw [List.length_set]; omega),
        op_arg_set _ _ _ 1 _ _ h0 rfl (by omega)]
      simp [hA]
    · rw [op_arg_set _ _ _ 2 _ _ h0 rfl (by rw [List.length_set]; omega),
        op_arg_set _ _ _ 1 _ _ h0 rfl (by omega)]
      simp
    · rw [op_arg_set _ _ _ 2 _ _ h0 rfl (by rw [List.length_set]; omega)]
      simp
    · intro t ht h2 h4
      unfold la_do_not_remove
      simp only
      rw [la_inputs_live_of_not_mem]
      · have hm := la_outputs_dead_mono
          (fun k => if k = 0 then A 0 else if k = 1 then A 2 else A 4) 1 st t ht
        split
        · simp only [tcg_la_bb_end]
          rw [getD_memset1, la_outputs_dead_length, if_pos (getD_true_lt ht)]
          split
          · rfl
          · exact hm
        · split
          · exact hm
          · exact hm
      · intro i hi1 hi2
        have : i = 1 ∨ i = 2 := by omega
        rcases this with rfl | rfl
        · simpa using fun e => h2 e.symm
        · simpa using fun e => h4 e.symm
  · intro hhi
    have hkeep : la_addsub2 cfg s (cfg.tcg_op_defs op.opc) op.opc opc_new A st
        ≠ LaResult.remove := by
      unfold la_addsub2
      rw [if_neg (fun h => hhi ((dead_fresh_iff _ _).mp h))]
      exact la_keep_ne_remove _ _ _
    refine ⟨_, rfl, ?_,
      fun l hl => oplist_visit_keep cfg s st oi l hl (by rw [hla]; exact hkeep)⟩
    have : la_addsub2 cfg s (cfg.tcg_op_defs op.opc) op.opc opc_new A st
        = la_keep op.opc [] (la_do_not_remove cfg s (cfg.tcg_op_defs op.opc) A 2 4 st) := by
      unfold la_addsub2
      rw [if_neg (fun h => hhi ((dead_fresh_iff _ _).mp h))]
    rw [la_visit_keep cfg s st oi _ _ _ (hla.trans this), hget, op_with_opc_self]
    simp only [apply_writes, List.foldl_nil]


theorem addsub2_high_dead_witness :
    exAdd2.gen_op_buf.getD 1 TCGOp.poison = exOp TCGOpcode.add2_i32 1 0 2
    ∧ addsub2_low TCGOpcode.add2_i32 = some TCGOpcode.add_i32
    ∧ ¬ dead_fresh exStEnd 0 ∧ dead_fresh exStEnd 1
    ∧ ((la_visit exCfg exAdd2 exStEnd 1).1.gen_op_buf.getD 1 TCGOp.poison).opc
        = TCGOpcode.add_i32
    ∧ (la_visit exCfg exAdd2 exStEnd 1).1.gen_opparam_buf = [0x1000, 0, 0, 0, 1, 0, 1, 0] := by
  obtain ⟨acc, parm, _, hp, hv, _⟩ :=
    (addsub2_high_dead exCfg exAdd2 exStEnd 1 (exOp TCGOpcode.add2_i32 1 0 2)
      (op_arg exAdd2.gen_opparam_buf 1) TCGOpcode.add_i32 rfl rfl rfl
      (by decide) (by decide)).2.1 (by decide) (by decide)
  refine ⟨rfl, rfl, by decide, by decide, ?_, ?_⟩
  · rw [hv]; rfl
  · rw [hv, hp]; rfl


/-! ### Temps that stay dead -/

theorem la_outputs_fresh (args : Nat → TCGArg) (n : Nat) (st : LaState) (d : TCGArg)
    (h : dead_fresh st d) : dead_fresh (la_outputs args n st).st d := by
  refine ⟨la_outputs_dead_mono args n st d h.1, ?_⟩
  by_cases hm : ∃ i, i < n ∧ args i = d
  · obtain ⟨i, hi, rfl⟩ := hm
    exact la_outputs_mem_of_mem args n st i hi
  · rw [la_outputs_mem_of_not_mem args n st d (fun i hi e => hm ⟨i, hi, e⟩)]
    exact h.2

theorem tcg_la_bb_end_fresh (s : TCGContext) (st : LaState) (d : TCGArg)
    (hg : s.nb_globals ≤ d) (hloc : (s.temps.getD d default).temp_local = false)
    (h : dead_fresh st d) : dead_fresh (tcg_la_bb_end s st) d := by
  obtain ⟨h1, h2⟩ := h
  constructor
  · simp only [tcg_la_bb_end]
    rw [getD_memset1, if_pos (getD_true_lt h1)]
    split
    · rfl
    · exact h1
  · simp only [tcg_la_bb_end]
    rw [getD_overwrite]
    split
    · rw [if_neg (by omega)]
      split
      · exact hloc
      · exact h2
    · rfl

theorem memset1_globals_fresh (s : TCGContext) (l : List Bool) (d : TCGArg)
    (hg : s.nb_globals ≤ d) (h : l.getD d false = false) :
    (memset1 l s.nb_globals).getD d false = false := by
  rw [getD_memset1]
  split
  · rw [if_neg (by omega)]; exact h
  · rfl

theorem memset1_dead (l : List Bool) (n : Nat) (d : TCGArg)
    (h : l.getD d false = true) : (memset1 l n).getD d false = true := by
  rw [getD_memset1, if_pos (getD_true_lt h)]
  split
  · rfl
  · exact h

/-- a dead and memory-fresh temp that is neither a global nor a local temp stays so
over an op that does not read it -/
theorem la_do_not_remove_fresh (cfg : Config) (s : TCGContext) (df : TCGOpDef)
    (args : Nat → TCGArg) (no ni : Nat) (st : LaState) (d : TCGArg)
    (hg : s.nb_globals ≤ d) (hloc : (s.temps.getD d default).temp_local = false)
    (h : dead_fresh st d) (hnr : ∀ i, no ≤ i → i < no + ni → args i ≠ d) :
    dead_fresh (la_do_not_remove cfg s df args no ni st).st d := by
  have h1 := la_outputs_fresh args no st d h
  unfold la_do_not_remove
  simp only []
  constructor
  · simp only []
    rw [la_inputs_live_of_not_mem _ _ _ _ _ hnr]
    split
    · exact (tcg_la_bb_end_fresh s _ d hg hloc h1).1
    · split
      · exact h1.1
      · exact h1.1
  · simp only []
    split
    · exact (tcg_la_bb_end_fresh s _ d hg hloc h1).2
    · split
      · exact memset1_globals_fresh s _ d hg h1.2
      · exact h1.2

theorem la_do_not_remove_call_fresh (cfg : Config) (s : TCGContext)
    (args : Nat → TCGArg) (no ni fl : Nat) (st : LaState) (d : TCGArg)
    (hg : s.nb_globals ≤ d)
    (h : dead_fresh st d) (hnr : ∀ i, no ≤ i → i < no + ni → args i ≠ d) :
    dead_fresh (la_do_not_remove_call cfg s args no ni fl st).st d := by
  have h1 := la_outputs_fresh args no st d h
  unfold la_do_not_remove_call
  simp only []
  constructor
  · simp only []
    rw [la_inputs_live_of_not_mem _ _ _ _ _ hnr]
    split
    · exact memset1_dead _ _ d h1.1
    · exact h1.1
  · simp only []
    split
    · exact memset1_globals_fresh s _ d hg h1.2
    · exact h1.2


theorem la_visit_snd (cfg : Config) (s : TCGContext) (st : LaState) (oi : Nat) :
    (la_visit cfg s st oi).2
      = (la_op cfg s (s.gen_op_buf.getD oi TCGOp.poison)
          (op_arg s.gen_opparam_buf (s.gen_op_buf.getD oi TCGOp.poison).args) st).state st := by
  rcases la_visit_cases cfg s st oi with ⟨h1, h2⟩ | ⟨st1, h1, h2⟩ | ⟨opc, ws, da, sa, st1, h1, h2⟩ <;>
    rw [h1, h2] <;> rfl

theorem la_addsub2_fresh (cfg : Config) (s : TCGContext) (df : TCGOpDef)
    (opc opc_new : TCGOpcode) (args : Nat → TCGArg) (st : LaState) (d : TCGArg)
    (hg : s.nb_globals ≤ d) (hloc : (s.temps.getD d default).temp_local = false)
    (h : dead_fresh st d) (hnr : ∀ i, 2 ≤ i → i < 2 + 4 → args i ≠ d) :
    dead_fresh ((la_addsub2 cfg s df opc opc_new args st).state st) d := by
  unfold la_addsub2
  split
  · split
    · exact h
    · apply la_do_not_remove_fresh cfg s df _ 1 2 st d hg hloc h
      intro i h1 h2
      have : i = 1 ∨ i = 2 := by omega
      rcases this with rfl | rfl
      · simpa [args_write] using hnr 2 (by omega) (by omega)
      · simpa [args_write] using hnr 4 (by omega) (by omega)
  · exact la_do_not_remove_fresh cfg s df _ 2 4 st d hg hloc h hnr

theorem la_mul2_fresh (cfg : Config) (s : TCGContext) (df : TCGOpDef)
    (opc opc_new opc_new2 : TCGOpcode) (hv : Bool) (args : Nat → TCGArg) (st : LaState)
    (d : TCGArg)
    (hg : s.nb_globals ≤ d) (hloc : (s.temps.getD d default).temp_local = false)
    (h : dead_fresh st d) (hnr : ∀ i, 2 ≤ i → i < 2 + 2 → args i ≠ d) :
    dead_fresh ((la_mul2 cfg s df opc opc_new opc_new2 hv args st).state st) d := by
  unfold la_mul2
  split
  · split
    · exact h
    · apply la_do_not_remove_fresh cfg s df _ 1 2 st d hg hloc h
      intro i h1 h2
      have : i = 1 ∨ i = 2 := by omega
      rcases this with rfl | rfl
      · simpa [args_write] using hnr 2 (by omega) (by omega)
      · simpa [args_write] using hnr 3 (by omega) (by omega)
  · split
    · apply la_do_not_remove_fresh cfg s df _ 1 2 st d hg hloc h
      intro i h1 h2
      have : i = 1 ∨ i = 2 := by omega
      rcases this with rfl | rfl
      · simpa [args_write] using hnr 2 (by omega) (by omega)
      · simpa [args_write] using hnr 3 (by omega) (by omega)
    · exact la_do_not_remove_fresh cfg s df _ 2 2 st d hg hloc h hnr

/-- One iteration of the liveness loop over an op that does not read the temp `d`
leaves `d` dead and memory-fresh, when `d` is neither a global nor a local temp. -/
theorem la_op_fresh (cfg : Config) (s : TCGContext) (op : TCGOp) (args : Nat → TCGArg)
    (st : LaState) (d : TCGArg)
    (hg : s.nb_globals ≤ d) (hloc : (s.temps.getD d default).temp_local = false)
    (h : dead_fresh st d)
    (hnr : ∀ i, (la_in cfg op).1 ≤ i → i < (la_in cfg op).1 + (la_in cfg op).2 → args i ≠ d) :
    dead_fresh ((la_op cfg s op args st).state st) d := by
  rcases op with ⟨opc, callo, calli, a, p, n⟩
  cases opc
  case call =>
    simp only [la_in] at hnr
    simp only [la_op]
    split
    · exact h
    · exact la_do_not_remove_call_fresh cfg s args _ _ _ st d hg h hnr
  case insn_start => exact h
  case discard =>
    simp only [la_op, LaResult.state]
    obtain ⟨h1, h2⟩ := h
    constructor
    · simp only []
      rw [getD_set_bool]
      split
      · rfl
      · exact h1
    · simp only []
      rw [getD_set_bool]
      split
      · rfl
      · exact h2
  case add2_i32 => exact la_addsub2_fresh cfg s _ _ _ args st d hg hloc h hnr
  case sub2_i32 => exact la_addsub2_fresh cfg s _ _ _ args st d hg hloc h hnr
  case add2_i64 => exact la_addsub2_fresh cfg s _ _ _ args st d hg hloc h hnr
  case sub2_i64 => exact la_addsub2_fresh cfg s _ _ _ args st d hg hloc h hnr
  case mulu2_i32 => exact la_mul2_fresh cfg s _ _ _ _ _ args st d hg hloc h hnr
  case muls2_i32 => exact la_mul2_fresh cfg s _ _ _ _ _ args st d hg hloc h hnr
  case mulu2_i64 => exact la_mul2_fresh cfg s _ _ _ _ _ args st d hg hloc h hnr
  case muls2_i64 => exact la_mul2_fresh cfg s _ _ _ _ _ args st d hg hloc h hnr
  all_goals
    simp only [la_in] at hnr
    simp only [la_op]
    split
    · exact h
    · exact la_do_not_remove_fresh cfg s _ args _ _ st d hg hloc h hnr


theorem la_in_le_footprint (cfg : Config) (op : TCGOp) :
    (la_in cfg op).1 + (la_in cfg op).2 ≤ la_footprint cfg op := by
  rcases op with ⟨opc, callo, calli, a, p, n⟩
  cases opc <;> simp [la_in, la_footprint]

theorem sameOp_in (cfg : Config) (o o' : TCGOp) (h : SameOp o o') :
    la_in cfg o' = la_in cfg o := by
  rcases o with ⟨opc, callo, calli, a, p, n⟩
  rcases o' with ⟨opc', callo', calli', a', p', n'⟩
  obtain ⟨h1, h2, h3, _⟩ := h
  simp only at h1 h2 h3
  subst h1 h2 h3
  rfl

theorem la_reads_viewEq (cfg : Config) (s s' : TCGContext) (j : Nat) (d : TCGArg)
    (h : ViewEq cfg s s' j) (hr : la_reads cfg s' j d) : la_reads cfg s j d := by
  obtain ⟨o, o', a1, a2, a3, a4⟩ := h
  obtain ⟨op, b1, k, b2, b3, b4⟩ := hr
  rw [a2] at b1
  injection b1 with b1
  subst b1
  rw [sameOp_in cfg o o' a3] at b2 b3
  refine ⟨o, a1, k, b2, b3, ?_⟩
  rw [← a4 k (by have := la_in_le_footprint cfg o; omega)]
  exact b4

/-- A temp that is neither a global nor a local temp and that none of the visited
ops reads stays dead and memory-fresh over the visits. -/
theorem la_run_fresh (cfg : Config) (htab : TableOK cfg) (d : TCGArg) (r : List Nat) :
    ∀ (s : TCGContext) (st : LaState) (L : List Nat),
      ArgsWF cfg s L → (∀ j ∈ r, j ∈ L) → r.Nodup →
      s.nb_globals ≤ d → (s.temps.getD d default).temp_local = false →
      dead_fresh st d → (∀ j ∈ r, ¬ la_reads cfg s j d) →
      dead_fresh (la_run cfg r (s, st)).2 d := by
  induction r with
  | nil =>
    intro s st L _ _ _ _ _ h _
    exact h
  | cons j r ih =>
    intro s st L hwf hsub hnd hg hloc h hnr
    rw [la_run_pair]
    have hj : j ∈ L := hsub j (List.mem_cons_self _ _)
    have hjr : j ∉ r := (List.nodup_cons.mp hnd).1
    obtain ⟨op, hop, _, _⟩ := hwf.1 j hj
    have hgd : s.gen_op_buf.getD j TCGOp.poison = op := by
      rw [List.getD_eq_getElem?_getD, hop]; rfl
    have h1 : dead_fresh (la_visit cfg s st j).2 d := by
      rw [la_visit_snd, hgd]
      apply la_op_fresh cfg s op _ st d hg hloc h
      intro k k1 k2 e
      exact hnr j (List.mem_cons_self _ _) ⟨op, hop, k, k1, k2, e⟩
    obtain ⟨⟨v1, _, v3⟩, _⟩ := la_visit_env cfg s st j
    have hwf' : ArgsWF cfg (la_visit cfg s st j).1 r :=
      argsWF_visit cfg htab s st j L r hwf hj
        (fun k hk => hsub k (List.mem_cons_of_mem _ hk)) (fun _ => hjr)
    apply ih (la_visit cfg s st j).1 (la_visit cfg s st j).2 r hwf' (fun k hk => hk)
      (List.nodup_cons.mp hnd).2 (by rw [v1]; exact hg) (by rw [v3]; exact hloc) h1
    intro k hk hr
    have hkj : k ≠ j := fun e => hjr (e ▸ hk)
    exact hnr k (List.mem_cons_of_mem _ hk)
      (la_reads_viewEq cfg s _ k d
        (la_visit_viewEq_other cfg s st j k L hwf hj
          (hsub k (List.mem_cons_of_mem _ hk)) hkj) hr)

theorem la_run_append (cfg : Config) (a b : List Nat) (p : TCGContext × LaState) :
    la_run cfg (a ++ b) p = la_run cfg b (la_run cfg a p) := by
  unfold la_run
  rw [List.foldl_append]

theorem la_kept_append (cfg : Config) (a b : List Nat) :
    ∀ (p : TCGContext × LaState),
      la_kept cfg (a ++ b) p = la_kept cfg a p ++ la_kept cfg b (la_run cfg a p) := by
  induction a with
  | nil => intro p; rfl
  | cons i a ih =>
    intro p
    obtain ⟨s, st⟩ := p
    rw [List.cons_append, la_kept_cons, la_kept_cons, la_run_pair, ih]
    split
    · rfl
    · rfl

theorem la_init_fresh (s : TCGContext) (d : TCGArg) (hg : s.nb_globals ≤ d)
    (hd : d < s.nb_temps) : dead_fresh (la_init s) d := by
  unfold la_init tcg_la_func_end
  constructor
  · simp only []
    rw [getD_memset1, List.length_replicate, if_pos hd, if_pos hd]
  · simp only []
    rw [getD_overwrite, List.length_replicate, if_pos hd, if_neg (by omega), if_pos hd]


/-- An op of the default case with one output and no side effect, whose output is
neither a global nor a local temp and is read by no later op, is not in the op list
that the liveness pass returns. -/
theorem la_dead_output_removed (cfg : Config) (s : TCGContext) (pre post : List Nat)
    (i : Nat) (op : TCGOp) (d : TCGArg) (htab : TableOK cfg)
    (hl : OpList s (pre ++ i :: post)) (hwf : ArgsWF cfg s (pre ++ i :: post))
    (hop : s.gen_op_buf[i]? = some op) (hgen : la_generic op.opc = true)
    (hno : (cfg.tcg_op_defs op.opc).nb_oargs = 1)
    (hse : flag (cfg.tcg_op_defs op.opc).flags cfg.TCG_OPF_SIDE_EFFECTS = false)
    (hd : op_arg s.gen_opparam_buf op.args 0 = d)
    (hg : s.nb_globals ≤ d) (hdt : d < s.nb_temps)
    (hloc : (s.temps.getD d default).temp_local = false)
    (hnr : ∀ j ∈ post, ¬ la_reads cfg s j d) :
    ∃ s1 l1, tcg_liveness_analysis cfg s = some s1 ∧ OpList s1 l1 ∧ i ∉ l1 := by
  have hb : ∀ k ∈ pre ++ i :: post, k < s.gen_op_buf.length := by
    intro k hk
    obtain ⟨o, ho, _, _⟩ := hwf.1 k hk
    exact (List.getElem?_eq_some.mp ho).1
  have h0 : OpList { s with op_dead_args := List.replicate s.gen_next_op_idx 0,
                            op_sync_args := List.replicate s.gen_next_op_idx 0 }
      ((pre ++ i :: post) ++ []) := by
    rw [List.append_nil]
    exact ⟨hl.chain, hl.first, hl.last, hl.nodup⟩
  have hrun := tcg_liveness_analysis_run cfg s _ hl hb
  have hop1 := oplist_run cfg (pre ++ i :: post) [] _ (la_init s) h0
  rw [List.append_nil] at hop1
  refine ⟨_, _, hrun, hop1, ?_⟩
  -- the ops after `i` are visited first
  have hnd := hl.nodup
  have hipre : i ∉ pre := fun hm =>
    (List.nodup_append.mp hnd).2.2 hm (List.mem_cons_self _ _)
  have hipost : i ∉ post := (List.nodup_cons.mp (List.nodup_append.mp hnd).2.1).1
  have hndpost : post.Nodup := (List.nodup_cons.mp (List.nodup_append.mp hnd).2.1).2
  have hsubpost : ∀ j ∈ post.reverse, j ∈ pre ++ i :: post := fun j hj =>
    List.mem_append_right _ (List.mem_cons_of_mem _ (List.mem_reverse.mp hj))
  have hiL : i ∈ pre ++ i :: post := List.mem_append_right _ (List.mem_cons_self _ _)
  have hwf0 : ArgsWF cfg
      { s with op_dead_args := List.replicate s.gen_next_op_idx 0,
               op_sync_args := List.replicate s.gen_next_op_idx 0 } (pre ++ i :: post) := hwf
  have hfresh := la_run_fresh cfg htab d post.reverse _ (la_init s) _ hwf0 hsubpost
    (List.nodup_reverse.mpr hndpost) hg hloc (la_init_fresh s d hg hdt)
    (fun j hj => hnr j (List.mem_reverse.mp hj))
  have hview := run_viewEq cfg htab post.reverse _ (la_init s) _ i hwf0 hsubpost
    (List.nodup_reverse.mpr hndpost) hiL (fun hm => hipost (List.mem_reverse.mp hm))
  obtain ⟨⟨e1, e2, e3⟩, _⟩ := la_run_env cfg post.reverse
    { s with op_dead_args := List.replicate s.gen_next_op_idx 0,
             op_sync_args := List.replicate s.gen_next_op_idx 0 } (la_init s)
  obtain ⟨o1, o2, a1, a2, a3, a4⟩ := hview
  have a1' : s.gen_op_buf[i]? = some o1 := a1
  rw [hop] at a1'
  injection a1' with a1'
  subst a1'
  have hg2 : (la_run cfg post.reverse
      ({ s with op_dead_args := List.replicate s.gen_next_op_idx 0,
                op_sync_args := List.replicate s.gen_next_op_idx 0 }, la_init s)).1.gen_op_buf.getD
      i TCGOp.poison = o2 := by
    rw [List.getD_eq_getElem?_getD, a2]; rfl
  -- so the op `i` is removed when it is visited
  have hrem : la_op cfg (la_run cfg post.reverse
      ({ s with op_dead_args := List.replicate s.gen_next_op_idx 0,
                op_sync_args := List.replicate s.gen_next_op_idx 0 }, la_init s)).1 o2
      (op_arg (la_run cfg post.reverse
        ({ s with op_dead_args := List.replicate s.gen_next_op_idx 0,
                  op_sync_args := List.replicate s.gen_next_op_idx 0 },
          la_init s)).1.gen_opparam_buf o2.args)
      (la_run cfg post.reverse
        ({ s with op_dead_args := List.replicate s.gen_next_op_idx 0,
                  op_sync_args := List.replicate s.gen_next_op_idx 0 }, la_init s)).2
      = LaResult.remove := by
    have hgen2 : la_generic o2.opc = true := by rw [a3.1]; exact hgen
    rw [la_op_generic_remove_iff cfg _ o2 _ _ hgen2, a3.1]
    refine ⟨hse, by omega, ?_⟩
    intro k hk
    obtain rfl : k = 0 := by omega
    have hfp : 0 < la_footprint cfg op := by
      have := la_generic_footprint cfg op hgen
      omega
    rw [a4 0 hfp]
    exact hd ▸ hfresh
  intro hmem
  have hmem' := List.mem_reverse.mp hmem
  rw [List.reverse_append, List.reverse_cons, List.append_assoc, List.singleton_append,
    la_kept_append, la_kept_cons] at hmem'
  rw [hg2, if_pos hrem] at hmem'
  rcases List.mem_append.mp hmem' with hm | hm
  · exact hipost (List.mem_reverse.mp (la_kept_subset cfg _ _ i hm))
  · exact hipre (List.mem_reverse.mp (la_kept_subset cfg _ _ i hm))


/-- Claim C5: an op handled by the default case of the liveness pass (op `oi`, with
arguments `A`) is removed if and only if its def lacks `TCG_OPF_SIDE_EFFECTS`, it
has at least one output, and each output is dead and memory-fresh; an op with no
output is never removed. A removed op is unlinked from the op list and the liveness
state stays as it is; an op that is not removed stays in the list. A `movi` whose
destination is neither a global nor a local temp and is read by no later op of the
list is not in the op list that `tcg_liveness_analysis` returns, which is the list the
code generator walks (the table gives `movi` one output and no side effect). -/
theorem generic_removed_iff (cfg : Config) (s : TCGContext) (st : LaState) (oi : Nat)
    (op : TCGOp) (A : Nat → TCGArg)
    (hget : s.gen_op_buf.getD oi TCGOp.poison = op)
    (hA : A = op_arg s.gen_opparam_buf op.args)
    (hgen : la_generic op.opc = true) :
    (la_op cfg s op A st = LaResult.remove
      ↔ (flag (cfg.tcg_op_defs op.opc).flags cfg.TCG_OPF_SIDE_EFFECTS = false
          ∧ (cfg.tcg_op_defs op.opc).nb_oargs ≠ 0
          ∧ ∀ i, i < (cfg.tcg_op_defs op.opc).nb_oargs → dead_fresh st (A i)))
    ∧ ((cfg.tcg_op_defs op.opc).nb_oargs = 0 → la_op cfg s op A st ≠ LaResult.remove)
    ∧ (la_op cfg s op A st = LaResult.remove
        → la_visit cfg s st oi = (tcg_op_remove s oi, st)
          ∧ ∀ pre post, OpList s (pre ++ oi :: post)
              → OpList (la_visit cfg s st oi).1 (pre ++ post))
    ∧ (la_op cfg s op A st ≠ LaResult.remove
        → ∀ l, OpList s l → OpList (la_visit cfg s st oi).1 l)
    ∧ (∀ (pre post : List Nat) (d : TCGArg),
        (op.opc = TCGOpcode.movi_i32 ∨ op.opc = TCGOpcode.movi_i64) →
        (cfg.tcg_op_defs op.opc).nb_oargs = 1 →
        flag (cfg.tcg_op_defs op.opc).flags cfg.TCG_OPF_SIDE_EFFECTS = false →
        TableOK cfg → OpList s (pre ++ oi :: post) → ArgsWF cfg s (pre ++ oi :: post) →
        A 0 = d → s.nb_globals ≤ d → d < s.nb_temps →
        (s.temps.getD d default).temp_local = false →
        (∀ j ∈ post, ¬ la_reads cfg s j d) →
        ∃ s1 l1, tcg_liveness_analysis cfg s = some s1 ∧ OpList s1 l1 ∧ oi ∉ l1) := by
  subst hget hA
  have hiff := la_op_generic_remove_iff cfg s (s.gen_op_buf.getD oi TCGOp.poison)
    (op_arg s.gen_opparam_buf (s.gen_op_buf.getD oi TCGOp.poison).args) st hgen
  refine ⟨hiff, ?_, ?_, ?_, ?_⟩
  · intro h0 hr
    exact (hiff.mp hr).2.1 h0
  · intro hr
    have hv := la_visit_remove cfg s st oi hr
    refine ⟨hv, fun pre post hl => ?_⟩
    rw [hv]
    exact oplist_remove s pre post oi hl
  · intro hr l hl
    exact oplist_visit_keep cfg s st oi l hl hr
  · intro pre post d _ hno hse htab hl hwf hd hg hdt hloc hnr
    obtain ⟨o, ho, _, _⟩ := hwf.1 oi (List.mem_append_right _ (List.mem_cons_self _ _))
    have hgd : s.gen_op_buf.getD oi TCGOp.poison = o := by
      rw [List.getD_eq_getElem?_getD, ho]; rfl
    rw [hgd] at hgen hno hse hd
    exact la_dead_output_removed cfg s pre post oi o d htab hl hwf ho hgen hno hse hd hg hdt
      hloc hnr

theorem exMoviDead_oplist : OpList exMoviDead ([0] ++ 1 :: [2]) :=
  ⟨⟨⟨_, rfl, rfl, rfl⟩, ⟨_, rfl, rfl, rfl⟩, ⟨_, rfl, rfl, rfl⟩, trivial⟩, rfl, rfl, by decide⟩

theorem exMoviDead_argsWF : ArgsWF exCfg exMoviDead ([0] ++ 1 :: [2]) := by
  constructor
  · intro i hi
    simp only [List.singleton_append, List.mem_cons, List.mem_singleton, List.not_mem_nil,
      or_false] at hi
    rcases hi with rfl | rfl | rfl <;> exact ⟨_, rfl, by decide, by decide⟩
  · intro i hi j hj hne oi oj h1 h2
    simp only [List.singleton_append, List.mem_cons, List.mem_singleton, List.not_mem_nil,
      or_false] at hi hj
    rcases hi with rfl | rfl | rfl <;> rcases hj with rfl | rfl | rfl <;>
      first
        | exact absurd rfl hne
        | (cases h1; cases h2; decide)

theorem exMoviDead_not_read : ∀ j ∈ [2], ¬ la_reads exCfg exMoviDead j 1 := by
  intro j hj
  obtain rfl : j = 2 := List.mem_singleton.mp hj
  rintro ⟨op, h1, k, k1, k2, _⟩
  cases h1
  have e1 : k < 0 + 0 := k2
  omega

theorem generic_removed_iff_witness :
    la_generic (exMoviDead.gen_op_buf.getD 1 TCGOp.poison).opc = true
    ∧ ∃ s1 l1, tcg_liveness_analysis exCfg exMoviDead = some s1 ∧ OpList s1 l1 ∧ 1 ∉ l1 :=
  ⟨rfl, (generic_removed_iff exCfg exMoviDead exStEnd 1 _ _ rfl rfl rfl).2.2.2.2
    [0] [2] 1 (Or.inl rfl) rfl rfl exCfg_tableOK exMoviDead_oplist exMoviDead_argsWF rfl
    (by decide) (by decide) rfl exMoviDead_not_read⟩


/-! ### The liveness-reliant assertions -/

/-- Claim C7 fails on the translation block `exMovFixed`
(`insn_start; movi_i32 t1, 5; mov_i32 g0, t1; exit_tb`, with `g0` a global bound to a
host register and `t1` a scratch temp written before it is read). The liveness pass
keeps the four ops and marks both arguments of the `mov` as dead; `tcg_reg_alloc_mov`
copies `t1` into the register of `g0` without calling `temp_dead` on `t1`, so when the
allocator reaches `exit_tb` the scratch temp `t1` is still in REG state, and the
assertion of `tcg_reg_alloc_bb_end` fails. -/
theorem mov_to_fixed_leaves_source_live :
    (tcg_liveness_analysis exCfg exMovFixed).map
        (fun s => (s.gen_first_op_idx, s.gen_op_buf.map (fun o => o.next), s.op_dead_args))
      = some (0, [1, 2, 3, -1], [0, 0, 3, 0])
    ∧ exMovFixed_at_exit.map (fun s => s.temps.map (fun t => (t.val_type, t.fixed_reg)))
      = Except.ok [(TCGTempVal.REG, true), (TCGTempVal.REG, false)]
    ∧ (exMovFixed_at_exit >>= fun s => tcg_reg_alloc_bb_end s s.reserved_regs)
      = Except.error Fault.assert
    ∧ tcg_gen_code exCfg exMovFixed 0 = Except.error Fault.assert := by
  refine ⟨by decide, by decide, by decide, by decide⟩


/-! ### Reasoning about code that may fail -/

theorem post_def {α : Type} (x : Except Fault α) (P : α → Prop) :
    Post x P ↔ ∀ a, x = Except.ok a → P a := by
  unfold Post
  exact Iff.rfl

theorem post_pure {α : Type} (a : α) (P : α → Prop) (h : P a) :
    Post (pure a : Except Fault α) P := by
  rw [post_def]
  intro b hb
  cases hb
  exact h

theorem post_throw {α : Type} (e : Fault) (P : α → Prop) :
    Post (throw e : Except Fault α) P := by
  rw [post_def]
  intro b hb
  cases hb

theorem post_bind {α β : Type} (x : Except Fault α) (f : α → Except Fault β)
    (Q : β → Prop) (h : Post x (fun a => Post (f a) Q)) : Post (x >>= f) Q := by
  rw [post_def] at h ⊢
  intro b hb
  cases x with
  | error e => cases hb
  | ok a =>
    have := h a rfl
    rw [post_def] at this
    exact this b hb

theorem post_mono {α : Type} (x : Except Fault α) (P Q : α → Prop)
    (h : Post x P) (hpq : ∀ a, P a → Q a) : Post x Q := by
  rw [post_def] at h ⊢
  exact fun a ha => hpq a (h a ha)

theorem post_bind_mid {α β : Type} (x : Except Fault α) (f : α → Except Fault β)
    (M : α → Prop) (Q : β → Prop) (hx : Post x M) (hf : ∀ a, M a → Post (f a) Q) :
    Post (x >>= f) Q :=
  post_bind x f Q (post_mono x M _ hx hf)

theorem post_bind_iff {α β : Type} (x : Except Fault α) (f : α → Except Fault β)
    (Q : β → Prop) : Post (x >>= f) Q ↔ Post x (fun a => Post (f a) Q) := by
  constructor
  · intro h
    rw [post_def] at h ⊢
    intro a ha
    rw [post_def]
    intro b hb
    apply h b
    rw [ha]
    exact hb
  · exact post_bind x f Q

theorem post_pure_iff {α : Type} (a : α) (P : α → Prop) :
    Post (pure a : Except Fault α) P ↔ P a :=
  ⟨fun h => (post_def _ _).mp h a rfl, post_pure a P⟩

theorem post_ok_iff {α : Type} (a : α) (P : α → Prop) :
    Post (Except.ok a : Except Fault α) P ↔ P a :=
  post_pure_iff a P

theorem post_throw_iff {α : Type} (e : Fault) (P : α → Prop) :
    Post (throw e : Except Fault α) P ↔ True :=
  ⟨fun _ => trivial, fun _ => post_throw e P⟩

theorem post_error_iff {α : Type} (e : Fault) (P : α → Prop) :
    Post (Except.error e : Except Fault α) P ↔ True :=
  post_throw_iff e P

theorem post_ite_iff {α : Type} (c : Prop) [Decidable c] (x y : Except Fault α)
    (P : α → Prop) :
    Post (if c then x else y) P ↔ (c → Post x P) ∧ (¬ c → Post y P) := by
  constructor
  · intro h
    constructor
    · intro hc; rw [if_pos hc] at h; exact h
    · intro hc; rw [if_neg hc] at h; exact h
  · intro h
    split
    · exact h.1 (by assumption)
    · exact h.2 (by assumption)

theorem post_rd_iff {α : Type} (l : List α) (i : Nat) (P : α → Prop) :
    Post (rd l i) P ↔ ∀ x, l[i]? = some x → P x := by
  rw [post_def]
  unfold rd
  constructor
  · intro h x hx
    apply h
    rw [hx]
    rfl
  · intro h a ha
    cases hl : l[i]? with
    | none => rw [hl] at ha; cases ha
    | some x =>
      rw [hl] at ha
      cases ha
      exact h _ hl

theorem post_wr_iff {α : Type} (l : List α) (i : Nat) (x : α) (P : List α → Prop) :
    Post (wr l i x) P ↔ (i < l.length → P (l.set i x)) := by
  rw [post_def]
  unfold wr
  constructor
  · intro h hi
    apply h
    rw [if_pos hi]
    rfl
  · intro h a ha
    split at ha
    · cases ha
      exact h (by assumption)
    · cases ha

theorem post_rdi_iff {α : Type} (l : List α) (i : Int) (P : α → Prop) :
    Post (rdi l i) P ↔ (0 ≤ i → ∀ x, l[i.toNat]? = some x → P x) := by
  unfold rdi
  rw [post_ite_iff, post_rd_iff, post_throw_iff]
  simp

theorem post_rdo_iff (l : List (Option Nat)) (i : Nat) (P : Nat → Prop) :
    Post (rdo l i) P ↔ ∀ x, l[i]? = some (some x) → P x := by
  rw [post_def]
  unfold rdo
  constructor
  · intro h x hx
    apply h
    rw [hx]
    rfl
  · intro h a ha
    split at ha
    · rename_i x hx
      cases ha
      exact h _ hx
    · cases ha

theorem post_foldlM {α β : Type} (l : List β) (f : α → β → Except Fault α)
    (Inv : α → Prop) :
    ∀ (init : α), Inv init → (∀ a i, i ∈ l → Inv a → Post (f a i) Inv) →
      Post (l.foldlM f init) Inv := by
  induction l with
  | nil =>
    intro init h0 _
    exact post_pure init Inv h0
  | cons b l ih =>
    intro init h0 hstep
    rw [List.foldlM_cons]
    apply post_bind
    apply post_mono _ _ _ (hstep init b (List.mem_cons_self _ _) h0)
    intro a ha
    exact ih a ha (fun a' i hi => hstep a' i (List.mem_cons_of_mem _ hi))

/-- a loop whose every iteration keeps `R` keeps `R`; then `Q` follows -/
theorem post_foldlM_cont {α β : Type} (l : List β) (f : α → β → Except Fault α)
    (Inv : α → Prop) (Q : α → Prop) (init : α) (h0 : Inv init)
    (hstep : ∀ a i, i ∈ l → Inv a → Post (f a i) Inv) (h : ∀ a, Inv a → Q a) :
    Post (l.foldlM f init) Q :=
  post_mono _ _ _ (post_foldlM l f Inv init h0 hstep) h


/-! ### What the register allocator leaves as it is -/

theorem coreL_tcg_out (cfg : Config) (s : TCGContext) (i : HostInsn)
    (h : i ≠ HostInsn.tb_finalize) : coreL (tcg_out cfg s i) = coreL s := by
  simp [coreL, tcg_out, List.filter_append, h]

theorem coreL_set_temp (s : TCGContext) (t : Nat) (ts : TCGTemp) :
    coreL (set_temp s t ts) = coreL s := by
  simp [coreL, set_temp]

theorem coreL_upd (s : TCGContext) (temps : List TCGTemp) (regs : List Int) (cfo : Int)
    (h1 : temps.length = s.temps.length) (h2 : regs.length = s.reg_to_temp.length) :
    coreL { s with temps := temps, reg_to_temp := regs, current_frame_offset := cfo }
      = coreL s := by
  simp [coreL, h1, h2]

theorem set_reg_to_temp_frame (s : TCGContext) (r : Nat) (v : Int) (Q : TCGContext → Prop)
    (h : ∀ a, coreL a = coreL s → Q a) : Post (set_reg_to_temp s r v) Q := by
  unfold set_reg_to_temp
  simp only [post_bind_iff, post_pure_iff, post_wr_iff]
  intro _
  apply h
  simp [coreL]

theorem temp_allocate_frame_frame (cfg : Config) (s : TCGContext) (t : Nat)
    (Q : TCGContext → Prop) (h : ∀ a, coreL a = coreL s → Q a) :
    Post (temp_allocate_frame cfg s t) Q := by
  unfold temp_allocate_frame
  simp only [post_bind_iff, post_pure_iff, post_throw_iff, post_ite_iff, post_rd_iff]
  repeat' first
    | intro _
    | apply And.intro
    | exact True.intro
    | (apply h; simp [coreL, set_temp])

theorem tcg_reg_sync_frame (cfg : Config) (s : TCGContext) (reg : Nat)
    (Q : TCGContext → Prop) (h : ∀ a, coreL a = coreL s → Q a) :
    Post (tcg_reg_sync cfg s reg) Q := by
  unfold tcg_reg_sync
  simp only [post_bind_iff, post_pure_iff, post_throw_iff, post_ite_iff, post_rd_iff,
    post_rdi_iff]
  repeat' first
    | intro _
    | apply And.intro
    | exact True.intro
    | apply temp_allocate_frame_frame
    | (apply h; simp [coreL_tcg_out, coreL_set_temp, *])

theorem tcg_reg_free_frame (cfg : Config) (s : TCGContext) (reg : Nat)
    (Q : TCGContext → Prop) (h : ∀ a, coreL a = coreL s → Q a) :
    Post (tcg_reg_free cfg s reg) Q := by
  unfold tcg_reg_free
  simp only [post_bind_iff, post_pure_iff, post_throw_iff, post_ite_iff, post_rd_iff,
    post_rdi_iff]
  repeat' first
    | intro _
    | apply And.intro
    | exact True.intro
    | apply tcg_reg_sync_frame
    | apply set_reg_to_temp_frame
    | (apply h; simp [coreL_tcg_out, coreL_set_temp, *])

theorem tcg_reg_alloc_frame (cfg : Config) (s : TCGContext) (reg1 reg2 : TCGRegSet)
    (Q : TCGContext × Nat → Prop) (h : ∀ a, coreL a.1 = coreL s → Q a) :
    Post (tcg_reg_alloc cfg s reg1 reg2) Q := by
  unfold tcg_reg_alloc
  simp only [post_bind_iff, post_pure_iff, post_throw_iff, post_ite_iff, post_rd_iff,
    post_rdi_iff]
  rw [post_def]
  intro r _
  cases r with
  | some reg =>
    simp only [post_pure_iff]
    exact h _ rfl
  | none =>
    simp only []
    split
    · simp only [post_bind_iff, post_pure_iff]
      apply tcg_reg_free_frame
      intro a ha
      exact h _ ha
    · simp only [post_throw_iff]

theorem temp_dead_frame (s : TCGContext) (temp : Nat)
    (Q : TCGContext → Prop) (h : ∀ a, coreL a = coreL s → Q a) :
    Post (temp_dead s temp) Q := by
  unfold temp_dead
  simp only [post_bind_iff, post_pure_iff, post_throw_iff, post_ite_iff, post_rd_iff,
    post_rdi_iff]
  repeat' first
    | intro _
    | apply And.intro
    | exact True.intro
    | apply set_reg_to_temp_frame
    | (apply h; simp [coreL_tcg_out, coreL_set_temp, *])

theorem temp_sync_frame (cfg : Config) (s : TCGContext) (temp : Nat) (ar : TCGRegSet)
    (Q : TCGContext → Prop) (h : ∀ a, coreL a = coreL s → Q a) :
    Post (temp_sync cfg s temp ar) Q := by
  unfold temp_sync
  simp only [post_bind_iff, post_pure_iff, post_throw_iff, post_ite_iff, post_rd_iff,
    post_rdi_iff]
  intro ts _
  refine ⟨fun _ => ?_, fun _ => h _ rfl⟩
  cases ts.val_type <;>
    simp only [post_bind_iff, post_pure_iff, post_throw_iff, post_ite_iff, post_rd_iff]
  · exact h _ rfl
  · apply tcg_reg_sync_frame
    exact h
  · exact h _ rfl
  · apply tcg_reg_alloc_frame
    repeat' first
      | intro _
      | apply And.intro
      | exact True.intro
      | apply tcg_reg_sync_frame
      | apply set_reg_to_temp_frame
      | (apply h; simp [coreL_tcg_out, coreL_set_temp, *])

theorem temp_save_frame (s : TCGContext) (temp : Nat) (ar : TCGRegSet)
    (Q : TCGContext → Prop) (h : Q s) : Post (temp_save s temp ar) Q := by
  unfold temp_save
  simp only [post_bind_iff, post_pure_iff, post_throw_iff, post_ite_iff, post_rd_iff]
  repeat' first
    | intro _
    | apply And.intro
    | exact True.intro
    | exact h

theorem save_globals_frame (s : TCGContext) (ar : TCGRegSet)
    (Q : TCGContext → Prop) (h : Q s) : Post (save_globals s ar) Q := by
  unfold save_globals
  apply post_foldlM_cont _ _ (fun a => a = s) Q s rfl
  · intro a i _ ha
    subst ha
    exact temp_save_frame a i ar _ rfl
  · intro a ha
    subst ha
    exact h

theorem sync_globals_frame (s : TCGContext) (ar : TCGRegSet)
    (Q : TCGContext → Prop) (h : Q s) : Post (sync_globals s ar) Q := by
  unfold sync_globals
  apply post_foldlM_cont _ _ (fun a => a = s) Q s rfl
  · intro a i _ ha
    subst ha
    simp only [post_bind_iff, post_pure_iff, post_throw_iff, post_ite_iff, post_rd_iff]
    repeat' first
      | intro _
      | apply And.intro
      | exact True.intro
  · intro a ha
    subst ha
    exact h

theorem tcg_reg_alloc_bb_end_frame (s : TCGContext) (ar : TCGRegSet)
    (Q : TCGContext → Prop) (h : Q s) : Post (tcg_reg_alloc_bb_end s ar) Q := by
  unfold tcg_reg_alloc_bb_end
  rw [post_bind_iff]
  apply post_foldlM_cont _ _ (fun a => a = s) _ s rfl
  · intro a i _ ha
    subst ha
    simp only [post_bind_iff, post_pure_iff, post_throw_iff, post_ite_iff, post_rd_iff]
    repeat' first
      | intro _
      | apply And.intro
      | exact True.intro
      | apply temp_save_frame
      | rfl
  · intro a ha
    subst ha
    exact save_globals_frame a ar Q h

theorem tcg_reg_alloc_movi_frame (cfg : Config) (s : TCGContext) (args : List TCGArg)
    (da sa : Nat) (Q : TCGContext → Prop) (h : ∀ a, coreL a = coreL s → Q a) :
    Post (tcg_reg_alloc_movi cfg s args da sa) Q := by
  unfold tcg_reg_alloc_movi
  simp only [post_bind_iff, post_pure_iff, post_throw_iff, post_ite_iff, post_rd_iff]
  repeat' first
    | intro _
    | apply And.intro
    | exact True.intro
    | apply temp_sync_frame
    | apply temp_dead_frame
    | apply set_reg_to_temp_frame
    | (apply h; simp [coreL_tcg_out, coreL_set_temp, *])

theorem tcg_reg_alloc_mov_frame (cfg : Config) (s : TCGContext) (args : List TCGArg)
    (da sa : Nat) (Q : TCGContext → Prop) (h : ∀ a, coreL a = coreL s → Q a) :
    Post (tcg_reg_alloc_mov cfg s args da sa) Q := by
  unfold tcg_reg_alloc_mov
  simp only [post_bind_iff, post_pure_iff, post_throw_iff, post_ite_iff, post_rd_iff]
  repeat' first
    | intro _
    | apply And.intro
    | exact True.intro
    | apply tcg_reg_alloc_frame
    | apply tcg_reg_sync_frame
    | apply temp_allocate_frame_frame
    | apply temp_dead_frame
    | apply set_reg_to_temp_frame
    | (apply h; simp [coreL_tcg_out, coreL_set_temp, *])
    | simp [coreL_tcg_out, coreL_set_temp, *]
    | split


theorem ialias_clash_frame (cfg : Config) (df : TCGOpDef) (na : List (Option TCGArg))
    (reg : Nat) (l : List Nat) (Q : Bool → Prop) (h : ∀ b, Q b) :
    Post (ialias_clash cfg df na reg l) Q := by
  rw [post_def]
  intro b _
  exact h b

theorem alloc_op_input_frame (cfg : Config) (df : TCGOpDef) (args : List TCGArg)
    (da : Nat) (acc : OpAcc) (k : Nat) (Q : OpAcc → Prop)
    (h : ∀ a, coreL a.s = coreL acc.s → Q a) :
    Post (alloc_op_input cfg df args da acc k) Q := by
  unfold alloc_op_input
  simp only [post_bind_iff, post_pure_iff, post_throw_iff, post_ite_iff, post_rd_iff,
    post_wr_iff, post_rdo_iff]
  repeat' first
    | intro _
    | apply And.intro
    | exact True.intro
    | apply tcg_reg_alloc_frame
    | apply set_reg_to_temp_frame
    | apply ialias_clash_frame
    | (apply h; simp [coreL_tcg_out, coreL_set_temp, *])

theorem alloc_op_output_frame (cfg : Config) (df : TCGOpDef) (args : List TCGArg)
    (acc : OpAcc) (k : Nat) (Q : OpAcc → Prop)
    (h : ∀ a, coreL a.s = coreL acc.s → Q a) :
    Post (alloc_op_output cfg df args acc k) Q := by
  unfold alloc_op_output
  simp only [post_bind_iff, post_pure_iff, post_throw_iff, post_ite_iff, post_rd_iff,
    post_wr_iff, post_rdo_iff]
  repeat' first
    | intro _
    | apply And.intro
    | exact True.intro
    | apply tcg_reg_alloc_frame
    | apply set_reg_to_temp_frame
    | (apply h; simp [coreL_tcg_out, coreL_set_temp, *])

theorem dead_inputs_frame (s : TCGContext) (args : List TCGArg) (da no ni : Nat)
    (Q : TCGContext → Prop) (h : ∀ a, coreL a = coreL s → Q a) :
    Post (dead_inputs s args da no ni) Q := by
  unfold dead_inputs
  apply post_foldlM_cont _ _ (fun a => coreL a = coreL s) Q s rfl
  · intro a i _ ha
    simp only [post_bind_iff, post_pure_iff, post_ite_iff, post_rd_iff]
    repeat' first
      | intro _
      | apply And.intro
      | apply temp_dead_frame
      | simp [*]
  · exact h

theorem clobber_regs_frame (cfg : Config) (s : TCGContext)
    (Q : TCGContext → Prop) (h : ∀ a, coreL a = coreL s → Q a) :
    Post (clobber_regs cfg s) Q := by
  unfold clobber_regs
  apply post_foldlM_cont _ _ (fun a => coreL a = coreL s) Q s rfl
  · intro a i _ ha
    simp only [post_bind_iff, post_pure_iff, post_ite_iff, post_rd_iff]
    repeat' first
      | intro _
      | apply And.intro
      | apply tcg_reg_free_frame
      | simp [*]
  · exact h

theorem tcg_reg_alloc_op_args_frame (cfg : Config) (s : TCGContext) (df : TCGOpDef)
    (args : List TCGArg) (da : Nat) (Q : OpAcc → Prop)
    (h : ∀ a, coreL a.s = coreL s → Q a) :
    Post (tcg_reg_alloc_op_args cfg s df args da) Q := by
  unfold tcg_reg_alloc_op_args
  simp only [post_bind_iff]
  rw [post_def]
  intro na _
  apply post_foldlM_cont _ _ (fun a => coreL a.s = coreL s) _ _ rfl
  · intro a i _ ha
    apply alloc_op_input_frame
    intro b hb
    exact hb.trans ha
  · intro acc hacc
    apply dead_inputs_frame
    intro s1 h1
    simp only [post_bind_iff, post_pure_iff, post_ite_iff]
    refine ⟨fun _ => ?_, fun _ => ?_⟩
    · apply tcg_reg_alloc_bb_end_frame
      apply h
      exact h1.trans hacc
    · refine ⟨fun _ => ?_, fun _ => ?_⟩
      · apply clobber_regs_frame
        intro s2 h2
        refine ⟨fun _ => ?_, fun _ => ?_⟩
        · apply sync_globals_frame
          apply post_foldlM_cont _ _ (fun a => coreL a.s = coreL s) _ _
            (h2.trans (h1.trans hacc))
          · intro a i _ ha
            apply alloc_op_output_frame
            intro b hb
            exact hb.trans ha
          · exact h
        · apply post_foldlM_cont _ _ (fun a => coreL a.s = coreL s) _ _
            (h2.trans (h1.trans hacc))
          · intro a i _ ha
            apply alloc_op_output_frame
            intro b hb
            exact hb.trans ha
          · exact h
      · refine ⟨fun _ => ?_, fun _ => ?_⟩
        · apply sync_globals_frame
          apply post_foldlM_cont _ _ (fun a => coreL a.s = coreL s) _ _ (h1.trans hacc)
          · intro a i _ ha
            apply alloc_op_output_frame
            intro b hb
            exact hb.trans ha
          · exact h
        · apply post_foldlM_cont _ _ (fun a => coreL a.s = coreL s) _ _ (h1.trans hacc)
          · intro a i _ ha
            apply alloc_op_output_frame
            intro b hb
            exact hb.trans ha
          · exact h


theorem core_of_coreL (s a : TCGContext) (h : coreL a = coreL s) : core a = core s := by
  unfold core
  rw [h]

theorem core_tcg_out (cfg : Config) (s : TCGContext) (i : HostInsn)
    (h : i ≠ HostInsn.tb_finalize) : core (tcg_out cfg s i) = core s :=
  core_of_coreL _ _ (coreL_tcg_out cfg s i h)

theorem tcg_out_reloc_frame (s : TCGContext) (cp ty l : Nat) (ad : Int)
    (Q : TCGContext → Prop) (h : ∀ a, core a = core s → Q a) :
    Post (tcg_out_reloc s cp ty l ad) Q := by
  unfold tcg_out_reloc
  simp only [post_bind_iff, post_pure_iff, post_throw_iff, post_ite_iff, post_rd_iff]
  repeat' first
    | intro _
    | apply And.intro
    | exact True.intro
    | (apply h; simp [core, coreL, List.filter_append])
    | simp only [post_bind_iff, post_pure_iff, post_throw_iff, post_ite_iff, post_rd_iff]
    | split

theorem tcg_out_label_frame (s : TCGContext) (l ptr : Nat)
    (Q : TCGContext → Prop) (h : ∀ a, core a = core s → Q a) :
    Post (tcg_out_label s l ptr) Q := by
  unfold tcg_out_label
  simp only [post_bind_iff, post_pure_iff, post_throw_iff, post_ite_iff, post_rd_iff]
  have hf : ∀ (rs : List TCGRelocation) (o : List HostInsn),
      (rs.foldl (fun o r => o ++ [HostInsn.patch_reloc r.ptr r.type ptr r.addend]) o).filter
          (fun i => i == HostInsn.tb_finalize)
        = o.filter (fun i => i == HostInsn.tb_finalize) := by
    intro rs
    induction rs with
    | nil => intro o; rfl
    | cons r rs ih =>
      intro o
      rw [List.foldl_cons, ih]
      simp [List.filter_append]
  repeat' first
    | intro _
    | apply And.intro
    | exact True.intro
    | (apply h; simp [core, coreL, hf])
    | simp only [post_bind_iff, post_pure_iff, post_throw_iff, post_ite_iff, post_rd_iff]
    | split

theorem tcg_out_op_frame (cfg : Config) (s : TCGContext) (opc : TCGOpcode)
    (na : List (Option TCGArg)) (ca : List (Option Nat))
    (Q : TCGContext → Prop) (h : ∀ a, core a = core s → Q a) :
    Post (tcg_out_op cfg s opc na ca) Q := by
  unfold tcg_out_op
  apply post_foldlM_cont _ _ (fun a => core a = core s) Q _
    (core_tcg_out cfg s _ (by simp))
  · intro a i _ ha
    apply tcg_out_reloc_frame
    intro b hb
    exact hb.trans ha
  · exact h

theorem alloc_op_finish_frame (cfg : Config) (args : List TCGArg)
    (na : List (Option TCGArg)) (da sa : Nat) (s : TCGContext) (i : Nat)
    (Q : TCGContext → Prop) (h : ∀ a, coreL a = coreL s → Q a) :
    Post (alloc_op_finish cfg args na da sa s i) Q := by
  unfold alloc_op_finish
  simp only [post_bind_iff, post_pure_iff, post_throw_iff, post_ite_iff, post_rd_iff,
    post_rdo_iff]
  repeat' first
    | intro _
    | apply And.intro
    | exact True.intro
    | apply tcg_reg_sync_frame
    | apply temp_dead_frame
    | (apply h; simp [coreL_tcg_out, coreL_set_temp, *])
    | simp [coreL_tcg_out, coreL_set_temp, apply_ite coreL, *]

theorem tcg_reg_alloc_op_frame (cfg : Config) (s : TCGContext) (df : TCGOpDef)
    (opc : TCGOpcode) (args : List TCGArg) (da sa : Nat)
    (Q : TCGContext → Prop) (h : ∀ a, core a = core s → Q a) :
    Post (tcg_reg_alloc_op cfg s df opc args da sa) Q := by
  unfold tcg_reg_alloc_op
  simp only [post_bind_iff]
  apply tcg_reg_alloc_op_args_frame
  intro acc hacc
  apply tcg_out_op_frame
  intro s1 h1
  apply post_foldlM_cont _ _ (fun a => core a = core s) Q _
    (h1.trans (core_of_coreL _ _ hacc))
  · intro a i _ ha
    apply alloc_op_finish_frame
    intro b hb
    exact (core_of_coreL _ _ hb).trans ha
  · exact h

theorem call_stack_arg_frame (cfg : Config) (args : List TCGArg) (no : Nat)
    (p : TCGContext × Int) (i : Nat) (Q : TCGContext × Int → Prop)
    (h : ∀ a, coreL a.1 = coreL p.1 → Q a) :
    Post (call_stack_arg cfg args no p i) Q := by
  unfold call_stack_arg
  simp only [post_bind_iff, post_pure_iff, post_throw_iff, post_ite_iff, post_rd_iff]
  repeat' first
    | intro _
    | apply And.intro
    | exact True.intro
    | apply tcg_reg_alloc_frame
    | (apply h; simp [coreL_tcg_out, coreL_set_temp, *])
    | simp only [post_bind_iff, post_pure_iff, post_throw_iff, post_ite_iff, post_rd_iff]
    | split

theorem call_reg_arg_frame (cfg : Config) (args : List TCGArg) (no : Nat)
    (p : TCGContext × TCGRegSet) (i : Nat) (Q : TCGContext × TCGRegSet → Prop)
    (h : ∀ a, coreL a.1 = coreL p.1 → Q a) :
    Post (call_reg_arg cfg args no p i) Q := by
  unfold call_reg_arg
  simp only [post_bind_iff, post_pure_iff, post_throw_iff, post_ite_iff, post_rd_iff]
  repeat' first
    | intro _
    | apply And.intro
    | exact True.intro
    | apply tcg_reg_free_frame
    | (apply h; simp [coreL_tcg_out, coreL_set_temp, apply_ite coreL, *])
    | simp only [post_bind_iff, post_pure_iff, post_throw_iff, post_ite_iff, post_rd_iff]
    | split

theorem call_clobber_globals_frame (cfg : Config) (s : TCGContext) (args : List TCGArg)
    (da no ni fl : Nat) (ar : TCGRegSet)
    (Q : TCGContext → Prop) (h : ∀ a, coreL a = coreL s → Q a) :
    Post (call_clobber_globals cfg s args da no ni fl ar) Q := by
  unfold call_clobber_globals
  simp only [post_bind_iff]
  apply dead_inputs_frame
  intro s1 h1
  apply clobber_regs_frame
  intro s2 h2
  simp only [post_pure_iff, post_ite_iff]
  refine ⟨fun _ => h _ (h2.trans h1), fun _ => ⟨fun _ => ?_, fun _ => ?_⟩⟩
  · exact sync_globals_frame _ _ _ (h _ (h2.trans h1))
  · exact save_globals_frame _ _ _ (h _ (h2.trans h1))

theorem call_output_frame (cfg : Config) (args : List TCGArg) (da sa : Nat)
    (s : TCGContext) (i : Nat)
    (Q : TCGContext → Prop) (h : ∀ a, coreL a = coreL s → Q a) :
    Post (call_output cfg args da sa s i) Q := by
  unfold call_output
  simp only [post_bind_iff, post_pure_iff, post_throw_iff, post_ite_iff, post_rd_iff]
  repeat' first
    | intro _
    | apply And.intro
    | exact True.intro
    | apply tcg_reg_sync_frame
    | apply temp_dead_frame
    | apply set_reg_to_temp_frame
    | (apply h; simp [coreL_tcg_out, coreL_set_temp, apply_ite coreL, *])

theorem tcg_reg_alloc_call_setup_frame (cfg : Config) (s : TCGContext) (no ni : Nat)
    (args : List TCGArg) (da : Nat)
    (Q : TCGContext → Prop) (h : ∀ a, coreL a = coreL s → Q a) :
    Post (tcg_reg_alloc_call_setup cfg s no ni args da) Q := by
  unfold tcg_reg_alloc_call_setup
  simp only [post_bind_iff, post_pure_iff, post_throw_iff, post_ite_iff, post_rd_iff]
  intro fl _
  refine ⟨fun _ => True.intro, fun _ => ?_⟩
  apply post_foldlM_cont _ _ (fun a => coreL a.1 = coreL s) _ _ rfl
  · intro a i _ ha
    apply call_stack_arg_frame
    intro b hb
    exact hb.trans ha
  · intro p hp
    apply post_foldlM_cont _ _ (fun a => coreL a.1 = coreL s) _ _ hp
    · intro a i _ ha
      apply call_reg_arg_frame
      intro b hb
      exact hb.trans ha
    · intro q hq
      apply call_clobber_globals_frame
      intro a ha
      exact h _ (ha.trans hq)

theorem tcg_reg_alloc_call_frame (cfg : Config) (s : TCGContext) (no ni : Nat)
    (args : List TCGArg) (da sa : Nat)
    (Q : TCGContext → Prop) (h : ∀ a, coreL a = coreL s → Q a) :
    Post (tcg_reg_alloc_call cfg s no ni args da sa) Q := by
  unfold tcg_reg_alloc_call
  simp only [post_bind_iff, post_rd_iff]
  intro fa _
  apply tcg_reg_alloc_call_setup_frame
  intro s1 h1
  apply post_foldlM_cont _ _ (fun a => coreL a = coreL s) _ _
    ((coreL_tcg_out cfg s1 _ (by simp)).trans h1)
  · intro a i _ ha
    apply call_output_frame
    intro b hb
    exact hb.trans ha
  · exact h

theorem core_insn_upd (s a : TCGContext) (e : List Nat) (d : List (List Nat))
    (h : core a = core s) :
    core { a with gen_insn_end_off := e } = core s
    ∧ core { a with gen_insn_data := d } = core s := by
  constructor <;> (rw [← h]; simp [core, coreL])

theorem gen_insn_start_loop_frame (cfg : Config) (s s1 : TCGContext) (args : List TCGArg)
    (n : Int) (l : List Nat) (h1 : core s1 = core s)
    (Q : TCGContext → Prop) (h : ∀ a, core a = core s → Q a) :
    Post (l.foldlM (fun (s : TCGContext) i => do
      let a ← if cfg.TARGET_LONG_WIDER then do
          let hi ← rd args (i * 2 + 1)
          let lo ← rd args (i * 2)
          pure ((hi <<< 32) ||| lo)
        else rd args i
      let row ← rdi s.gen_insn_data n
      let row ← wr row i a
      let d ← wr s.gen_insn_data n.toNat row
      pure { s with gen_insn_data := d }) s1) Q := by
  apply post_foldlM_cont _ _ (fun a => core a = core s) _ _ h1
  · intro a i _ ha
    simp only [post_bind_iff, post_pure_iff, post_throw_iff, post_ite_iff, post_rd_iff,
      post_rdi_iff, post_wr_iff]
    repeat' first
      | intro _
      | apply And.intro
      | exact (core_insn_upd s a [] _ ha).2
  · exact h

theorem gen_insn_start_frame (cfg : Config) (s : TCGContext) (args : List TCGArg)
    (n : Int) (Q : TCGContext × Int → Prop) (h : ∀ a, core a.1 = core s → Q a) :
    Post (gen_insn_start cfg s args n) Q := by
  unfold gen_insn_start
  simp only [post_bind_iff, post_pure_iff, post_ite_iff, post_wr_iff]
  refine ⟨fun _ _ => ?_, fun _ => ?_⟩
  · apply gen_insn_start_loop_frame cfg s _ args _ _ (core_insn_upd s s _ [] rfl).1
    intro a ha
    exact h _ ha
  · apply gen_insn_start_loop_frame cfg s _ args _ _ rfl
    intro a ha
    exact h _ ha

theorem check_regs_frame (cfg : Config) (s : TCGContext) (Q : Unit → Prop) (h : Q ()) :
    Post (check_regs cfg s) Q := by
  rw [post_def]
  intro _ _
  exact h

theorem gen_op_frame (cfg : Config) (s : TCGContext) (n : Int) (oi : Nat)
    (Q : TCGContext × Int → Prop) (h : ∀ a, core a.1 = core s → Q a) :
    Post (gen_op cfg s n oi) Q := by
  unfold gen_op
  simp only [post_bind_iff, post_rd_iff]
  intro op _ da _ sa _
  split <;> simp only [post_bind_iff, post_pure_iff, post_throw_iff, post_ite_iff,
    post_rd_iff]
  · apply tcg_reg_alloc_mov_frame
    intro a ha
    apply check_regs_frame
    exact h _ (core_of_coreL _ _ ha)
  · apply tcg_reg_alloc_mov_frame
    intro a ha
    apply check_regs_frame
    exact h _ (core_of_coreL _ _ ha)
  · apply tcg_reg_alloc_movi_frame
    intro a ha
    apply check_regs_frame
    exact h _ (core_of_coreL _ _ ha)
  · apply tcg_reg_alloc_movi_frame
    intro a ha
    apply check_regs_frame
    exact h _ (core_of_coreL _ _ ha)
  · apply gen_insn_start_frame
    intro a ha
    apply check_regs_frame
    exact h _ ha
  · intro a _
    apply temp_dead_frame
    intro b hb
    apply check_regs_frame
    exact h _ (core_of_coreL _ _ hb)
  · apply tcg_reg_alloc_bb_end_frame
    intro l _
    apply tcg_out_label_frame
    intro b hb
    apply check_regs_frame
    exact h _ hb
  · apply tcg_reg_alloc_call_frame
    intro a ha
    apply check_regs_frame
    exact h _ (core_of_coreL _ _ ha)
  · refine ⟨fun _ => True.intro, fun _ => ?_⟩
    apply tcg_reg_alloc_op_frame
    intro a ha
    apply check_regs_frame
    exact h _ ha


/-! ### `code_ptr` only grows -/

theorem set_reg_to_temp_mono (s : TCGContext) (r : Nat) (v : Int) (Q : TCGContext → Prop)
    (h : ∀ a, s.code_ptr ≤ a.code_ptr → Q a) : Post (set_reg_to_temp s r v) Q := by
  unfold set_reg_to_temp
  simp only [post_bind_iff, post_pure_iff, post_wr_iff]
  intro _
  apply h
  exact Nat.le_refl _

theorem temp_allocate_frame_mono (cfg : Config) (s : TCGContext) (t : Nat)
    (Q : TCGContext → Prop) (h : ∀ a, s.code_ptr ≤ a.code_ptr → Q a) :
    Post (temp_allocate_frame cfg s t) Q := by
  unfold temp_allocate_frame
  simp only [post_bind_iff, post_pure_iff, post_throw_iff, post_ite_iff, post_rd_iff]
  repeat' first
    | intro _
    | apply And.intro
    | exact True.intro
    | (apply h; first | omega | (simp [tcg_out, set_temp] at * <;> omega) | (split_ifs at * <;> simp [tcg_out, set_temp] at * <;> omega))

theorem tcg_reg_sync_mono (cfg : Config) (s : TCGContext) (reg : Nat)
    (Q : TCGContext → Prop) (h : ∀ a, s.code_ptr ≤ a.code_ptr → Q a) :
    Post (tcg_reg_sync cfg s reg) Q := by
  unfold tcg_reg_sync
  simp only [post_bind_iff, post_pure_iff, post_throw_iff, post_ite_iff, post_rd_iff,
    post_rdi_iff]
  repeat' first
    | intro _
    | apply And.intro
    | exact True.intro
    | apply temp_allocate_frame_mono
    | (apply h; first | omega | (simp [tcg_out, set_temp] at * <;> omega) | (split_ifs at * <;> simp [tcg_out, set_temp] at * <;> omega))

theorem tcg_reg_free_mono (cfg : Config) (s : TCGContext) (reg : Nat)
    (Q : TCGContext → Prop) (h : ∀ a, s.code_ptr ≤ a.code_ptr → Q a) :
    Post (tcg_reg_free cfg s reg) Q := by
  unfold tcg_reg_free
  simp only [post_bind_iff, post_pure_iff, post_throw_iff, post_ite_iff, post_rd_iff,
    post_rdi_iff]
  repeat' first
    | intro _
    | apply And.intro
    | exact True.intro
    | apply tcg_reg_sync_mono
    | apply set_reg_to_temp_mono
    | (apply h; first | omega | (simp [tcg_out, set_temp] at * <;> omega) | (split_ifs at * <;> simp [tcg_out, set_temp] at * <;> omega))

theorem tcg_reg_alloc_mono (cfg : Config) (s : TCGContext) (reg1 reg2 : TCGRegSet)
    (Q : TCGContext × Nat → Prop) (h : ∀ a, s.code_ptr ≤ a.1.code_ptr → Q a) :
    Post (tcg_reg_alloc cfg s reg1 reg2) Q := by
  unfold tcg_reg_alloc
  simp only [post_bind_iff, post_pure_iff, post_throw_iff, post_ite_iff, post_rd_iff,
    post_rdi_iff]
  rw [post_def]
  intro r _
  cases r with
  | some reg =>
    simp only [post_pure_iff]
    exact h _ (Nat.le_refl _)
  | none =>
    simp only []
    split
    · simp only [post_bind_iff, post_pure_iff]
      apply tcg_reg_free_mono
      intro a ha
      exact h _ ha
    · simp only [post_throw_iff]

theorem temp_dead_mono (s : TCGContext) (temp : Nat)
    (Q : TCGContext → Prop) (h : ∀ a, s.code_ptr ≤ a.code_ptr → Q a) :
    Post (temp_dead s temp) Q := by
  unfold temp_dead
  simp only [post_bind_iff, post_pure_iff, post_throw_iff, post_ite_iff, post_rd_iff,
    post_rdi_iff]
  repeat' first
    | intro _
    | apply And.intro
    | exact True.intro
    | apply set_reg_to_temp_mono
    | (apply h; first | omega | (simp [tcg_out, set_temp] at * <;> omega) | (split_ifs at * <;> simp [tcg_out, set_temp] at * <;> omega))

theorem temp_sync_mono (cfg : Config) (s : TCGContext) (temp : Nat) (ar : TCGRegSet)
    (Q : TCGContext → Prop) (h : ∀ a, s.code_ptr ≤ a.code_ptr → Q a) :
    Post (temp_sync cfg s temp ar) Q := by
  unfold temp_sync
  simp only [post_bind_iff, post_pure_iff, post_throw_iff, post_ite_iff, post_rd_iff,
    post_rdi_iff]
  intro ts _
  refine ⟨fun _ => ?_, fun _ => h _ (Nat.le_refl _)⟩
  cases ts.val_type <;>
    simp only [post_bind_iff, post_pure_iff, post_throw_iff, post_ite_iff, post_rd_iff]
  · exact h _ (Nat.le_refl _)
  · apply tcg_reg_sync_mono
    exact h
  · exact h _ (Nat.le_refl _)
  · apply tcg_reg_alloc_mono
    repeat' first
      | intro _
      | apply And.intro
      | exact True.intro
      | apply tcg_reg_sync_mono
      | apply set_reg_to_temp_mono
      | (apply h; first | omega | (simp [tcg_out, set_temp] at * <;> omega) | (split_ifs at * <;> simp [tcg_out, set_temp] at * <;> omega))

theorem tcg_reg_alloc_movi_mono (cfg : Config) (s : TCGContext) (args : List TCGArg)
    (da sa : Nat) (Q : TCGContext → Prop) (h : ∀ a, s.code_ptr ≤ a.code_ptr → Q a) :
    Post (tcg_reg_alloc_movi cfg s args da sa) Q := by
  unfold tcg_reg_alloc_movi
  simp only [post_bind_iff, post_pure_iff, post_throw_iff, post_ite_iff, post_rd_iff]
  repeat' first
    | intro _
    | apply And.intro
    | exact True.intro
    | apply temp_sync_mono
    | apply temp_dead_mono
    | apply set_reg_to_temp_mono
    | (apply h; first | omega | (simp [tcg_out, set_temp] at * <;> omega) | (split_ifs at * <;> simp [tcg_out, set_temp] at * <;> omega))

set_option maxHeartbeats 4000000 in
theorem tcg_reg_alloc_mov_mono (cfg : Config) (s : TCGContext) (args : List TCGArg)
    (da sa : Nat) (Q : TCGContext → Prop) (h : ∀ a, s.code_ptr ≤ a.code_ptr → Q a) :
    Post (tcg_reg_alloc_mov cfg s args da sa) Q := by
  unfold tcg_reg_alloc_mov
  simp only [post_bind_iff, post_pure_iff, post_throw_iff, post_ite_iff, post_rd_iff]
  repeat' first
    | intro _
    | apply And.intro
    | exact True.intro
    | apply tcg_reg_alloc_mono
    | apply tcg_reg_sync_mono
    | apply temp_allocate_frame_mono
    | apply temp_dead_mono
    | apply set_reg_to_temp_mono
    | (apply h; first | omega | (simp [tcg_out, set_temp] at * <;> omega) | (split_ifs at * <;> simp [tcg_out, set_temp] at * <;> omega))
    | omega
    | (simp [tcg_out, set_temp] at * <;> omega)
    | split

theorem alloc_op_input_mono (cfg : Config) (df : TCGOpDef) (args : List TCGArg)
    (da : Nat) (acc : OpAcc) (k : Nat) (Q : OpAcc → Prop)
    (h : ∀ a, acc.s.code_ptr ≤ a.s.code_ptr → Q a) :
    Post (alloc_op_input cfg df args da acc k) Q := by
  unfold alloc_op_input
  simp only [post_bind_iff, post_pure_iff, post_throw_iff, post_ite_iff, post_rd_iff,
    post_wr_iff, post_rdo_iff]
  repeat' first
    | intro _
    | apply And.intro
    | exact True.intro
    | apply tcg_reg_alloc_mono
    | apply set_reg_to_temp_mono
    | apply ialias_clash_frame
    | (apply h; first | omega | (simp [tcg_out, set_temp] at * <;> omega) | (split_ifs at * <;> simp [tcg_out, set_temp] at * <;> omega))

theorem alloc_op_output_mono (cfg : Config) (df : TCGOpDef) (args : List TCGArg)
    (acc : OpAcc) (k : Nat) (Q : OpAcc → Prop)
    (h : ∀ a, acc.s.code_ptr ≤ a.s.code_ptr → Q a) :
    Post (alloc_op_output cfg df args acc k) Q := by
  unfold alloc_op_output
  simp only [post_bind_iff, post_pure_iff, post_throw_iff, post_ite_iff, post_rd_iff,
    post_wr_iff, post_rdo_iff]
  repeat' first
    | intro _
    | apply And.intro
    | exact True.intro
    | apply tcg_reg_alloc_mono
    | apply set_reg_to_temp_mono
    | (apply h; first | omega | (simp [tcg_out, set_temp] at * <;> omega) | (split_ifs at * <;> simp [tcg_out, set_temp] at * <;> omega))

theorem dead_inputs_mono (s : TCGContext) (args : List TCGArg) (da no ni : Nat)
    (Q : TCGContext → Prop) (h : ∀ a, s.code_ptr ≤ a.code_ptr → Q a) :
    Post (dead_inputs s args da no ni) Q := by
  unfold dead_inputs
  apply post_foldlM_cont _ _ (fun a => s.code_ptr ≤ a.code_ptr) Q s (Nat.le_refl _)
  · intro a i _ ha
    simp only [post_bind_iff, post_pure_iff, post_ite_iff, post_rd_iff]
    repeat' first
      | intro _
      | apply And.intro
      | apply temp_dead_mono
      | omega
  · exact h

theorem clobber_regs_mono (cfg : Config) (s : TCGContext)
    (Q : TCGContext → Prop) (h : ∀ a, s.code_ptr ≤ a.code_ptr → Q a) :
    Post (clobber_regs cfg s) Q := by
  unfold clobber_regs
  apply post_foldlM_cont _ _ (fun a => s.code_ptr ≤ a.code_ptr) Q s (Nat.le_refl _)
  · intro a i _ ha
    simp only [post_bind_iff, post_pure_iff, post_ite_iff, post_rd_iff]
    repeat' first
      | intro _
      | apply And.intro
      | apply tcg_reg_free_mono
      | omega
  · exact h

theorem tcg_reg_alloc_op_args_mono (cfg : Config) (s : TCGContext) (df : TCGOpDef)
    (args : List TCGArg) (da : Nat) (Q : OpAcc → Prop)
    (h : ∀ a, s.code_ptr ≤ a.s.code_ptr → Q a) :
    Post (tcg_reg_alloc_op_args cfg s df args da) Q := by
  unfold tcg_reg_alloc_op_args
  simp only [post_bind_iff]
  rw [post_def]
  intro na _
  apply post_foldlM_cont _ _ (fun a => s.code_ptr ≤ a.s.code_ptr) _ _ (Nat.le_refl _)
  · intro a i _ ha
    apply alloc_op_input_mono
    intro b hb
    first | omega | (simp at * <;> omega)
  · intro acc hacc
    apply dead_inputs_mono
    intro s1 h1
    simp only [post_bind_iff, post_pure_iff, post_ite_iff]
    refine ⟨fun _ => ?_, fun _ => ?_⟩
    · apply tcg_reg_alloc_bb_end_frame
      apply h
      first | omega | (simp at * <;> omega)
    · refine ⟨fun _ => ?_, fun _ => ?_⟩
      · apply clobber_regs_mono
        intro s2 h2
        refine ⟨fun _ => ?_, fun _ => ?_⟩
        · apply sync_globals_frame
          apply post_foldlM_cont _ _ (fun a => s.code_ptr ≤ a.s.code_ptr) _ _
            (by first | omega | (simp at * <;> omega))
          · intro a i _ ha
            apply alloc_op_output_mono
            intro b hb
            first | omega | (simp at * <;> omega)
          · exact h
        · apply post_foldlM_cont _ _ (fun a => s.code_ptr ≤ a.s.code_ptr) _ _
            (by first | omega | (simp at * <;> omega))
          · intro a i _ ha
            apply alloc_op_output_mono
            intro b hb
            first | omega | (simp at * <;> omega)
          · exact h
      · refine ⟨fun _ => ?_, fun _ => ?_⟩
        · apply sync_globals_frame
          apply post_foldlM_cont _ _ (fun a => s.code_ptr ≤ a.s.code_ptr) _ _ (by first | omega | (simp at * <;> omega))
          · intro a i _ ha
            apply alloc_op_output_mono
            intro b hb
            first | omega | (simp at * <;> omega)
          · exact h
        · apply post_foldlM_cont _ _ (fun a => s.code_ptr ≤ a.s.code_ptr) _ _ (by first | omega | (simp at * <;> omega))
          · intro a i _ ha
            apply alloc_op_output_mono
            intro b hb
            first | omega | (simp at * <;> omega)
          · exact h

theorem tcg_out_reloc_mono (s : TCGContext) (cp ty l : Nat) (ad : Int)
    (Q : TCGContext → Prop) (h : ∀ a, s.code_ptr ≤ a.code_ptr → Q a) :
    Post (tcg_out_reloc s cp ty l ad) Q := by
  unfold tcg_out_reloc
  simp only [post_bind_iff, post_pure_iff, post_throw_iff, post_ite_iff, post_rd_iff]
  repeat' first
    | intro _
    | apply And.intro
    | exact True.intro
    | (apply h; first | omega | (simp [tcg_out, set_temp] at * <;> omega) | (split_ifs at * <;> simp [tcg_out, set_temp] at * <;> omega))
    | simp only [post_bind_iff, post_pure_iff, post_throw_iff, post_ite_iff, post_rd_iff]
    | split

theorem tcg_out_label_mono (s : TCGContext) (l ptr : Nat)
    (Q : TCGContext → Prop) (h : ∀ a, s.code_ptr ≤ a.code_ptr → Q a) :
    Post (tcg_out_label s l ptr) Q := by
  unfold tcg_out_label
  simp only [post_bind_iff, post_pure_iff, post_throw_iff, post_ite_iff, post_rd_iff]
  have hf : ∀ (rs : List TCGRelocation) (o : List HostInsn),
      (rs.foldl (fun o r => o ++ [HostInsn.patch_reloc r.ptr r.type ptr r.addend]) o).filter
          (fun i => i == HostInsn.tb_finalize)
        = o.filter (fun i => i == HostInsn.tb_finalize) := by
    intro rs
    induction rs with
    | nil => intro o; rfl
    | cons r rs ih =>
      intro o
      rw [List.foldl_cons, ih]
      simp [List.filter_append]
  repeat' first
    | intro _
    | apply And.intro
    | exact True.intro
    | (apply h; first | omega | (simp [tcg_out, set_temp] at * <;> omega) | (split_ifs at * <;> simp [tcg_out, set_temp] at * <;> omega))
    | simp only [post_bind_iff, post_pure_iff, post_throw_iff, post_ite_iff, post_rd_iff]
    | split

theorem tcg_out_op_mono (cfg : Config) (s : TCGContext) (opc : TCGOpcode)
    (na : List (Option TCGArg)) (ca : List (Option Nat))
    (Q : TCGContext → Prop) (h : ∀ a, s.code_ptr ≤ a.code_ptr → Q a) :
    Post (tcg_out_op cfg s opc na ca) Q := by
  unfold tcg_out_op
  apply post_foldlM_cont _ _ (fun a => s.code_ptr ≤ a.code_ptr) Q _
    (by simp [tcg_out])
  · intro a i _ ha
    apply tcg_out_reloc_mono
    intro b hb
    first | omega | (simp at * <;> omega)
  · exact h

theorem alloc_op_finish_mono (cfg : Config) (args : List TCGArg)
    (na : List (Option TCGArg)) (da sa : Nat) (s : TCGContext) (i : Nat)
    (Q : TCGContext → Prop) (h : ∀ a, s.code_ptr ≤ a.code_ptr → Q a) :
    Post (alloc_op_finish cfg args na da sa s i) Q := by
  unfold alloc_op_finish
  simp only [post_bind_iff, post_pure_iff, post_throw_iff, post_ite_iff, post_rd_iff,
    post_rdo_iff]
  repeat' first
    | intro _
    | apply And.intro
    | exact True.intro
    | apply tcg_reg_sync_mono
    | apply temp_dead_mono
    | (apply h; first | omega | (simp [tcg_out, set_temp] at * <;> omega) | (split_ifs at * <;> simp [tcg_out, set_temp] at * <;> omega))
    | omega
    | (simp [tcg_out, set_temp] at * <;> omega)

theorem tcg_reg_alloc_op_mono (cfg : Config) (s : TCGContext) (df : TCGOpDef)
    (opc : TCGOpcode) (args : List TCGArg) (da sa : Nat)
    (Q : TCGContext → Prop) (h : ∀ a, s.code_ptr ≤ a.code_ptr → Q a) :
    Post (tcg_reg_alloc_op cfg s df opc args da sa) Q := by
  unfold tcg_reg_alloc_op
  simp only [post_bind_iff]
  apply tcg_reg_alloc_op_args_mono
  intro acc hacc
  apply tcg_out_op_mono
  intro s1 h1
  apply post_foldlM_cont _ _ (fun a => s.code_ptr ≤ a.code_ptr) Q _
    (by first | omega | (simp at * <;> omega))
  · intro a i _ ha
    apply alloc_op_finish_mono
    intro b hb
    first | omega | (simp at * <;> omega)
  · exact h

theorem call_stack_arg_mono (cfg : Config) (args : List TCGArg) (no : Nat)
    (p : TCGContext × Int) (i : Nat) (Q : TCGContext × Int → Prop)
    (h : ∀ a, p.1.code_ptr ≤ a.1.code_ptr → Q a) :
    Post (call_stack_arg cfg args no p i) Q := by
  unfold call_stack_arg
  simp only [post_bind_iff, post_pure_iff, post_throw_iff, post_ite_iff, post_rd_iff]
  repeat' first
    | intro _
    | apply And.intro
    | exact True.intro
    | apply tcg_reg_alloc_mono
    | (apply h; first | omega | (simp [tcg_out, set_temp] at * <;> omega) | (split_ifs at * <;> simp [tcg_out, set_temp] at * <;> omega))
    | simp only [post_bind_iff, post_pure_iff, post_throw_iff, post_ite_iff, post_rd_iff]
    | split

theorem call_reg_arg_mono (cfg : Config) (args : List TCGArg) (no : Nat)
    (p : TCGContext × TCGRegSet) (i : Nat) (Q : TCGContext × TCGRegSet → Prop)
    (h : ∀ a, p.1.code_ptr ≤ a.1.code_ptr → Q a) :
    Post (call_reg_arg cfg args no p i) Q := by
  unfold call_reg_arg
  simp only [post_bind_iff, post_pure_iff, post_throw_iff, post_ite_iff, post_rd_iff]
  repeat' first
    | intro _
    | apply And.intro
    | exact True.intro
    | apply tcg_reg_free_mono
    | (apply h; first | omega | (simp [tcg_out, set_temp] at * <;> omega) | (split_ifs at * <;> simp [tcg_out, set_temp] at * <;> omega))
    | simp only [post_bind_iff, post_pure_iff, post_throw_iff, post_ite_iff, post_rd_iff]
    | split

theorem call_clobber_globals_mono (cfg : Config) (s : TCGContext) (args : List TCGArg)
    (da no ni fl : Nat) (ar : TCGRegSet)
    (Q : TCGContext → Prop) (h : ∀ a, s.code_ptr ≤ a.code_ptr → Q a) :
    Post (call_clobber_globals cfg s args da no ni fl ar) Q := by
  unfold call_clobber_globals
  simp only [post_bind_iff]
  apply dead_inputs_mono
  intro s1 h1
  apply clobber_regs_mono
  intro s2 h2
  simp only [post_pure_iff, post_ite_iff]
  refine ⟨fun _ => h _ (by first | omega | (simp at * <;> omega)), fun _ => ⟨fun _ => ?_, fun _ => ?_⟩⟩
  · exact sync_globals_frame _ _ _ (h _ (by first | omega | (simp at * <;> omega)))
  · exact save_globals_frame _ _ _ (h _ (by first | omega | (simp at * <;> omega)))

theorem call_output_mono (cfg : Config) (args : List TCGArg) (da sa : Nat)
    (s : TCGContext) (i : Nat)
    (Q : TCGContext → Prop) (h : ∀ a, s.code_ptr ≤ a.code_ptr → Q a) :
    Post (call_output cfg args da sa s i) Q := by
  unfold call_output
  simp only [post_bind_iff, post_pure_iff, post_throw_iff, post_ite_iff, post_rd_iff]
  repeat' first
    | intro _
    | apply And.intro
    | exact True.intro
    | apply tcg_reg_sync_mono
    | apply temp_dead_mono
    | apply set_reg_to_temp_mono
    | (apply h; first | omega | (simp [tcg_out, set_temp] at * <;> omega) | (split_ifs at * <;> simp [tcg_out, set_temp] at * <;> omega))

theorem tcg_reg_alloc_call_setup_mono (cfg : Config) (s : TCGContext) (no ni : Nat)
    (args : List TCGArg) (da : Nat)
    (Q : TCGContext → Prop) (h : ∀ a, s.code_ptr ≤ a.code_ptr → Q a) :
    Post (tcg_reg_alloc_call_setup cfg s no ni args da) Q := by
  unfold tcg_reg_alloc_call_setup
  simp only [post_bind_iff, post_pure_iff, post_throw_iff, post_ite_iff, post_rd_iff]
  intro fl _
  refine ⟨fun _ => True.intro, fun _ => ?_⟩
  apply post_foldlM_cont _ _ (fun a => s.code_ptr ≤ a.1.code_ptr) _ _ (Nat.le_refl _)
  · intro a i _ ha
    apply call_stack_arg_mono
    intro b hb
    first | omega | (simp at * <;> omega)
  · intro p hp
    apply post_foldlM_cont _ _ (fun a => s.code_ptr ≤ a.1.code_ptr) _ _ hp
    · intro a i _ ha
      apply call_reg_arg_mono
      intro b hb
      first | omega | (simp at * <;> omega)
    · intro q hq
      apply call_clobber_globals_mono
      intro a ha
      exact h _ (by first | omega | (simp at * <;> omega))

theorem tcg_reg_alloc_call_mono (cfg : Config) (s : TCGContext) (no ni : Nat)
    (args : List TCGArg) (da sa : Nat)
    (Q : TCGContext → Prop) (h : ∀ a, s.code_ptr ≤ a.code_ptr → Q a) :
    Post (tcg_reg_alloc_call cfg s no ni args da sa) Q := by
  unfold tcg_reg_alloc_call
  simp only [post_bind_iff, post_rd_iff]
  intro fa _
  apply tcg_reg_alloc_call_setup_mono
  intro s1 h1
  apply post_foldlM_cont _ _ (fun a => s.code_ptr ≤ a.code_ptr) _ _
    (by simp [tcg_out]; omega)
  · intro a i _ ha
    apply call_output_mono
    intro b hb
    first | omega | (simp at * <;> omega)
  · exact h

theorem gen_insn_start_loop_mono (cfg : Config) (s s1 : TCGContext) (args : List TCGArg)
    (n : Int) (l : List Nat) (h1 : s.code_ptr ≤ s1.code_ptr)
    (Q : TCGContext → Prop) (h : ∀ a, s.code_ptr ≤ a.code_ptr → Q a) :
    Post (l.foldlM (fun (s : TCGContext) i => do
      let a ← if cfg.TARGET_LONG_WIDER then do
          let hi ← rd args (i * 2 + 1)
          let lo ← rd args (i * 2)
          pure ((hi <<< 32) ||| lo)
        else rd args i
      let row ← rdi s.gen_insn_data n
      let row ← wr row i a
      let d ← wr s.gen_insn_data n.toNat row
      pure { s with gen_insn_data := d }) s1) Q := by
  apply post_foldlM_cont _ _ (fun a => s.code_ptr ≤ a.code_ptr) _ _ h1
  · intro a i _ ha
    simp only [post_bind_iff, post_pure_iff, post_throw_iff, post_ite_iff, post_rd_iff,
      post_rdi_iff, post_wr_iff]
    repeat' first
      | intro _
      | apply And.intro
      | exact ha
  · exact h

theorem gen_insn_start_mono (cfg : Config) (s : TCGContext) (args : List TCGArg)
    (n : Int) (Q : TCGContext × Int → Prop) (h : ∀ a, s.code_ptr ≤ a.1.code_ptr → Q a) :
    Post (gen_insn_start cfg s args n) Q := by
  unfold gen_insn_start
  simp only [post_bind_iff, post_pure_iff, post_ite_iff, post_wr_iff]
  refine ⟨fun _ _ => ?_, fun _ => ?_⟩
  · apply gen_insn_start_loop_mono cfg s _ args _ _ (by exact Nat.le_refl _)
    intro a ha
    exact h _ ha
  · apply gen_insn_start_loop_mono cfg s _ args _ _ (by exact Nat.le_refl _)
    intro a ha
    exact h _ ha

theorem gen_op_mono (cfg : Config) (s : TCGContext) (n : Int) (oi : Nat)
    (Q : TCGContext × Int → Prop) (h : ∀ a, s.code_ptr ≤ a.1.code_ptr → Q a) :
    Post (gen_op cfg s n oi) Q := by
  unfold gen_op
  simp only [post_bind_iff, post_rd_iff]
  intro op _ da _ sa _
  split <;> simp only [post_bind_iff, post_pure_iff, post_throw_iff, post_ite_iff,
    post_rd_iff]
  · apply tcg_reg_alloc_mov_mono
    intro a ha
    apply check_regs_frame
    exact h _ ha
  · apply tcg_reg_alloc_mov_mono
    intro a ha
    apply check_regs_frame
    exact h _ ha
  · apply tcg_reg_alloc_movi_mono
    intro a ha
    apply check_regs_frame
    exact h _ ha
  · apply tcg_reg_alloc_movi_mono
    intro a ha
    apply check_regs_frame
    exact h _ ha
  · apply gen_insn_start_mono
    intro a ha
    apply check_regs_frame
    exact h _ ha
  · intro a _
    apply temp_dead_mono
    intro b hb
    apply check_regs_frame
    exact h _ hb
  · apply tcg_reg_alloc_bb_end_frame
    intro l _
    apply tcg_out_label_mono
    intro b hb
    apply check_regs_frame
    exact h _ hb
  · apply tcg_reg_alloc_call_mono
    intro a ha
    apply check_regs_frame
    exact h _ ha
  · refine ⟨fun _ => True.intro, fun _ => ?_⟩
    apply tcg_reg_alloc_op_mono
    intro a ha
    apply check_regs_frame
    exact h _ ha


/-! ### The op list after the liveness pass -/

theorem walk_next_chain (buf : List TCGOp) (l : List Nat) :
    ∀ (p : Int) (fuel : Nat), Chain buf p l (-1) → l.length ≤ fuel →
      walk_next buf fuel (headI l (-1)) = some l := by
  induction l with
  | nil =>
    intro p fuel _ _
    cases fuel <;> simp [walk_next, headI]
  | cons i t ih =>
    intro p fuel hc hf
    obtain ⟨f, rfl⟩ : ∃ f, fuel = f + 1 := ⟨fuel - 1, by simp at hf; omega⟩
    obtain ⟨⟨op, hi, _, hnext⟩, hct⟩ := hc
    have hnot : ¬ ((i : Int) < 0) := by omega
    rw [show headI (i :: t) (-1 : Int) = (i : Int) from rfl]
    unfold walk_next
    simp only [if_neg hnot, Int.toNat_ofNat, hi, hnext]
    rw [ih (i : Int) f hct (by simp at hf; omega)]
    rfl

theorem walk_prev_chain (buf : List TCGOp) (l : List Nat) :
    ∀ (q : Int) (fuel : Nat), Chain buf (-1) l q → l.length ≤ fuel →
      walk_prev buf fuel (lastI l (-1)) = some l.reverse := by
  induction l using List.reverseRecOn with
  | nil =>
    intro q fuel _ _
    cases fuel <;> simp [walk_prev, lastI]
  | append_singleton t i ih =>
    intro q fuel hc hf
    rw [List.length_append, List.length_singleton] at hf
    obtain ⟨f, rfl⟩ : ∃ f, fuel = f + 1 := ⟨fuel - 1, by omega⟩
    rw [chain_append] at hc
    obtain ⟨hct, ⟨op, hi, hprev, _⟩, _⟩ := hc
    have hnot : ¬ ((i : Int) < 0) := by omega
    rw [lastI_concat]
    unfold walk_prev
    simp only [if_neg hnot, Int.toNat_ofNat, hi, hprev]
    rw [ih _ f hct (by omega), List.reverse_append]
    rfl

/-- Claim C13: on a well-formed doubly-linked op list `l`, `tcg_liveness_analysis`
returns a context whose op list `l1` is made of the ops for which the pass did not
call `tcg_op_remove`, in their original order (`l1` is a sublist of `l`); the list is
still well formed, the traversal along `next` from `gen_first_op_idx` meets exactly
`l1`, and the traversal along `prev` from `gen_last_op_idx` meets its reverse.
`tcg_op_remove` of the only op of a list leaves `gen_first_op_idx` and
`gen_last_op_idx` equal to -1. -/
theorem oplist_after_liveness (cfg : Config) (s : TCGContext) (l : List Nat)
    (hl : OpList s l) :
    (∃ s1 l1, tcg_liveness_analysis cfg s = some s1
      ∧ l1 = (la_kept cfg l.reverse
          ({ s with op_dead_args := List.replicate s.gen_next_op_idx 0,
                    op_sync_args := List.replicate s.gen_next_op_idx 0 }, la_init s)).reverse
      ∧ l1.Sublist l ∧ OpList s1 l1
      ∧ walk_next s1.gen_op_buf s1.gen_op_buf.length s1.gen_first_op_idx = some l1
      ∧ walk_prev s1.gen_op_buf s1.gen_op_buf.length s1.gen_last_op_idx = some l1.reverse)
    ∧ ∀ (s2 : TCGContext) (i : Nat), OpList s2 [i] →
        (tcg_op_remove s2 i).gen_first_op_idx = -1
        ∧ (tcg_op_remove s2 i).gen_last_op_idx = -1 := by
  constructor
  · have hb : ∀ i ∈ l, i < s.gen_op_buf.length :=
      fun i hi => chain_mem_lt _ _ _ _ hl.chain i hi
    have h0 : OpList { s with op_dead_args := List.replicate s.gen_next_op_idx 0,
                              op_sync_args := List.replicate s.gen_next_op_idx 0 } (l ++ []) := by
      rw [List.append_nil]
      exact ⟨hl.chain, hl.first, hl.last, hl.nodup⟩
    have hrun := tcg_liveness_analysis_run cfg s l hl hb
    have hop1 := oplist_run cfg l [] _ (la_init s) h0
    rw [List.append_nil] at hop1
    have hsub := (la_kept_sublist cfg l.reverse
      ({ s with op_dead_args := List.replicate s.gen_next_op_idx 0,
                op_sync_args := List.replicate s.gen_next_op_idx 0 }, la_init s)).reverse
    rw [List.reverse_reverse] at hsub
    have hlen := nodup_length_le _ _ hop1.nodup
      (fun i hi => chain_mem_lt _ _ _ _ hop1.chain i hi)
    refine ⟨_, _, hrun, rfl, hsub, hop1, ?_, ?_⟩
    · rw [hop1.first]
      exact walk_next_chain _ _ _ _ hop1.chain hlen
    · rw [hop1.last]
      exact walk_prev_chain _ _ _ _ hop1.chain hlen
  · intro s2 i h
    have := oplist_remove s2 [] [] i h
    exact ⟨this.first, this.last⟩

theorem oplist_after_liveness_witness :
    OpList exAdd2 [0, 1, 2]
    ∧ ∃ s1 l1, tcg_liveness_analysis exCfg exAdd2 = some s1 ∧ l1.Sublist [0, 1, 2]
        ∧ OpList s1 l1
        ∧ walk_next s1.gen_op_buf s1.gen_op_buf.length s1.gen_first_op_idx = some l1 := by
  obtain ⟨s1, l1, h1, _, h3, h4, h5, _⟩ :=
    (oplist_after_liveness exCfg exAdd2 [0, 1, 2] exAdd2_oplist).1
  exact ⟨exAdd2_oplist, s1, l1, h1, h3, h4, h5⟩


/-! ### Labels and relocations -/

theorem foldl_patch (f : TCGRelocation → HostInsn) (rs : List TCGRelocation) :
    ∀ (o : List HostInsn), rs.foldl (fun o r => o ++ [f r]) o = o ++ rs.map f := by
  induction rs with
  | nil => intro o; simp
  | cons r rs ih =>
    intro o
    rw [List.foldl_cons, ih, List.map_cons, List.append_assoc, List.singleton_append]

theorem tcg_out_reloc_unresolved (s : TCGContext) (code_ptr type l : Nat) (addend : Int)
    (lab : TCGLabel) (hl : s.labels[l]? = some lab) (rs : List TCGRelocation)
    (hv : lab.has_value = false) (hu : lab.u = TCGLabelU.first_reloc rs) :
    tcg_out_reloc s code_ptr type l addend
      = Except.ok { s with
          labels := s.labels.set l
            ⟨lab.has_value, TCGLabelU.first_reloc (⟨type, code_ptr, addend⟩ :: rs)⟩ } := by
  have hrd : rd s.labels l = Except.ok lab := by
    unfold rd
    rw [hl]
    rfl
  unfold tcg_out_reloc
  rw [hrd]
  simp only [bind, Except.bind, hv, hu]
  rfl

/-- Claim C11: `tcg_out_reloc (code_ptr, type, l, addend)`. On a resolved label it
calls `patch_reloc (code_ptr, type, value of l, addend)` once and leaves every label
as it is; on an unresolved label it calls `patch_reloc` not at all and puts the record
`{ptr = code_ptr, type, addend}` at the head of the relocation list of `l`, the list
there was becoming its tail. -/
theorem tcg_out_reloc_spec (s : TCGContext) (code_ptr type l : Nat) (addend : Int)
    (lab : TCGLabel) (hl : s.labels[l]? = some lab) :
    (∀ v, lab.has_value = true → lab.u = TCGLabelU.value v →
      tcg_out_reloc s code_ptr type l addend
        = Except.ok { s with out := s.out ++ [HostInsn.patch_reloc code_ptr type v addend] })
    ∧ (∀ rs, lab.has_value = false → lab.u = TCGLabelU.first_reloc rs →
      tcg_out_reloc s code_ptr type l addend
        = Except.ok { s with
            labels := s.labels.set l
              ⟨lab.has_value, TCGLabelU.first_reloc (⟨type, code_ptr, addend⟩ :: rs)⟩ }) := by
  have hrd : rd s.labels l = Except.ok lab := by
    unfold rd
    rw [hl]
    rfl
  constructor
  · intro v hv hu
    unfold tcg_out_reloc
    rw [hrd]
    simp only [bind, Except.bind, hv, if_true, hu]
    rfl
  · intro rs hv hu
    exact tcg_out_reloc_unresolved s code_ptr type l addend lab hl rs hv hu

theorem tcg_out_reloc_spec_witness :
    exBranch.labels[0]? = some { has_value := false, u := TCGLabelU.first_reloc [] }
    ∧ tcg_out_reloc exBranch 4 0 0 0
        = Except.ok { exBranch with
            labels := exBranch.labels.set 0 ⟨false, TCGLabelU.first_reloc [⟨0, 4, 0⟩]⟩ } :=
  ⟨rfl, (tcg_out_reloc_spec exBranch 4 0 0 0 _ rfl).2 [] rfl rfl⟩

theorem rd_of_getElem? {α : Type} (l : List α) (i : Nat) (a : α) (h : l[i]? = some a) :
    rd l i = Except.ok a := by
  unfold rd
  rw [h]
  rfl

theorem tcg_out_label_unresolved (s : TCGContext) (l ptr : Nat) (lab : TCGLabel)
    (hl : s.labels[l]? = some lab) (rs : List TCGRelocation)
    (hv : lab.has_value = false) (hu : lab.u = TCGLabelU.first_reloc rs) :
    tcg_out_label s l ptr
      = Except.ok { s with
          out := s.out ++ rs.map (fun r => HostInsn.patch_reloc r.ptr r.type ptr r.addend),
          labels := s.labels.set l { has_value := true, u := TCGLabelU.value ptr } } := by
  unfold tcg_out_label
  rw [rd_of_getElem? _ _ _ hl]
  simp only [bind, Except.bind, hv, hu]
  rw [foldl_patch (fun r => HostInsn.patch_reloc r.ptr r.type ptr r.addend)]
  rfl

theorem tcg_out_label_resolved (s : TCGContext) (l ptr : Nat) (lab : TCGLabel)
    (hl : s.labels[l]? = some lab) (hv : lab.has_value = true) :
    tcg_out_label s l ptr = Except.error Fault.assert := by
  unfold tcg_out_label
  rw [rd_of_getElem? _ _ _ hl]
  simp only [bind, Except.bind, hv, if_true]

/-- Claim C12: `tcg_out_label (l, ptr)`. On an unresolved label it calls `patch_reloc`
once for each record of the relocation list of `l`, in the order of the list, with the
`ptr`, `type` and `addend` of the record and with the value `ptr`, and marks `l`
resolved with the value `ptr`. On a resolved label its assertion fails. So it fails
when it is called again on a label it has resolved, and the record that
`tcg_out_reloc` has just put on the list is the first to be patched. -/
theorem tcg_out_label_spec (s : TCGContext) (l ptr : Nat) (lab : TCGLabel)
    (hl : s.labels[l]? = some lab) :
    (∀ rs, lab.has_value = false → lab.u = TCGLabelU.first_reloc rs →
      tcg_out_label s l ptr
        = Except.ok { s with
            out := s.out ++ rs.map (fun r => HostInsn.patch_reloc r.ptr r.type ptr r.addend),
            labels := s.labels.set l { has_value := true, u := TCGLabelU.value ptr } })
    ∧ (lab.has_value = true → tcg_out_label s l ptr = Except.error Fault.assert)
    ∧ (∀ s1, tcg_out_label s l ptr = Except.ok s1 →
        ∀ ptr2, tcg_out_label s1 l ptr2 = Except.error Fault.assert)
    ∧ (∀ rs code_ptr type addend s1, lab.has_value = false →
        lab.u = TCGLabelU.first_reloc rs →
        tcg_out_reloc s code_ptr type l addend = Except.ok s1 →
        ∃ s2, tcg_out_label s1 l ptr = Except.ok s2
          ∧ s2.out = s.out ++ HostInsn.patch_reloc code_ptr type ptr addend
              :: rs.map (fun r => HostInsn.patch_reloc r.ptr r.type ptr r.addend)) := by
  have hlt : l < s.labels.length := (List.getElem?_eq_some.mp hl).1
  refine ⟨tcg_out_label_unresolved s l ptr lab hl, tcg_out_label_resolved s l ptr lab hl,
    ?_, ?_⟩
  · intro s1 hs1 ptr2
    cases hv : lab.has_value with
    | true => rw [tcg_out_label_resolved s l ptr lab hl hv] at hs1; cases hs1
    | false =>
      cases hu : lab.u with
      | value v =>
        unfold tcg_out_label at hs1
        rw [rd_of_getElem? _ _ _ hl] at hs1
        simp only [bind, Except.bind, hv, hu] at hs1
        cases hs1
      | first_reloc rs =>
        rw [tcg_out_label_unresolved s l ptr lab hl rs hv hu] at hs1
        cases hs1
        apply tcg_out_label_resolved _ l ptr2 ⟨true, TCGLabelU.value ptr⟩ _ rfl
        simp [hlt]
  · intro rs code_ptr type addend s1 hv hu hs1
    rw [tcg_out_reloc_unresolved s code_ptr type l addend lab hl rs hv hu] at hs1
    cases hs1
    rw [tcg_out_label_unresolved _ l ptr
      ⟨lab.has_value, TCGLabelU.first_reloc (⟨type, code_ptr, addend⟩ :: rs)⟩
      (by simp [hlt]) (⟨type, code_ptr, addend⟩ :: rs) hv rfl]
    exact ⟨_, rfl, rfl⟩

theorem tcg_out_label_spec_witness :
    exBranch.labels[0]? = some { has_value := false, u := TCGLabelU.first_reloc [] }
    ∧ tcg_out_label exBranch 0 8
        = Except.ok { exBranch with
            out := exBranch.out ++ [],
            labels := exBranch.labels.set 0 ⟨true, TCGLabelU.value 8⟩ } :=
  ⟨rfl, (tcg_out_label_spec exBranch 0 8 _ rfl).1 [] rfl rfl⟩


/-! ### Double-word multiplies in the liveness pass -/

theorem la_op_mul2 (cfg : Config) (s : TCGContext) (op : TCGOp) (args : Nat → TCGArg)
    (st : LaState) (lo hi : TCGOpcode) (have_hi : Bool)
    (h : mul2_parts cfg op.opc = some (lo, hi, have_hi)) :
    la_op cfg s op args st
      = la_mul2 cfg s (cfg.tcg_op_defs op.opc) op.opc lo hi have_hi args st := by
  rcases op with ⟨opc, callo, calli, a, p, n⟩
  cases opc <;> simp only [mul2_parts] at h <;>
    first | (cases h; done) | (injection h with h; cases h; rfl)

/-- Claim C28: a double-word multiply (`mulu2_i32`, `muls2_i32`, `mulu2_i64`,
`muls2_i64`) with the arguments `(lo, hi, a, b)`, met by the liveness pass at op `oi`.
If `hi` and `lo` are both dead and memory-fresh the op is removed and unlinked. If `hi`
is dead and memory-fresh and `lo` is not, the op stays at its place, its opcode becomes
the `mul` of the same width and its first three arguments become `(lo, a, b)`.
Otherwise, if `lo` is dead and memory-fresh and the host has the high-part opcode
(`muluh` for `mulu2`, `mulsh` for `muls2`, of the same width), the opcode becomes that
opcode and the first three arguments become `(hi, a, b)`. Otherwise the op is left as
it is and treated as an op with two outputs and two inputs. In both rewrites
`dead_args`, `sync_args` and the liveness state are those of an op with one output and
two inputs on the new arguments. -/
theorem mul2_rewrite (cfg : Config) (s : TCGContext) (st : LaState) (oi : Nat)
    (op : TCGOp) (A : Nat → TCGArg) (opc_lo opc_hi : TCGOpcode) (have_hi : Bool)
    (hget : s.gen_op_buf.getD oi TCGOp.poison = op)
    (hA : A = op_arg s.gen_opparam_buf op.args)
    (hop : mul2_parts cfg op.opc = some (opc_lo, opc_hi, have_hi))
    (h0 : 0 ≤ op.args) (hlen : op.args.toNat + 2 < s.gen_opparam_buf.length) :
    (dead_fresh st (A 1) → dead_fresh st (A 0) →
      la_visit cfg s st oi = (tcg_op_remove s oi, st)
      ∧ ∀ pre post, OpList s (pre ++ oi :: post)
          → OpList (la_visit cfg s st oi).1 (pre ++ post))
    ∧ (dead_fresh st (A 1) → ¬ dead_fresh st (A 0) →
        ∃ acc parm, acc = la_do_not_remove cfg s (cfg.tcg_op_defs op.opc)
            (fun k => if k = 0 then A 0 else if k = 1 then A 2 else A 3) 1 2 st
          ∧ parm = (s.gen_opparam_buf.set (op.args.toNat + 1) (A 2)).set (op.args.toNat + 2) (A 3)
          ∧ la_visit cfg s st oi =
              ({ s with gen_op_buf := s.gen_op_buf.set oi { op with opc := opc_lo },
                        gen_opparam_buf := parm,
                        op_dead_args := s.op_dead_args.set oi acc.dead_args,
                        op_sync_args := s.op_sync_args.set oi acc.sync_args }, acc.st)
          ∧ op_arg parm op.args 0 = A 0 ∧ op_arg parm op.args 1 = A 2
          ∧ op_arg parm op.args 2 = A 3)
    ∧ (¬ dead_fresh st (A 1) → have_hi = true → dead_fresh st (A 0) →
        ∃ acc parm, acc = la_do_not_remove cfg s (cfg.tcg_op_defs op.opc)
            (fun k => if k = 0 then A 1 else if k = 1 then A 2 else A 3) 1 2 st
          ∧ parm = ((s.gen_opparam_buf.set op.args.toNat (A 1)).set (op.args.toNat + 1) (A 2)).set
              (op.args.toNat + 2) (A 3)
          ∧ la_visit cfg s st oi =
              ({ s with gen_op_buf := s.gen_op_buf.set oi { op with opc := opc_hi },
                        gen_opparam_buf := parm,
                        op_dead_args := s.op_dead_args.set oi acc.dead_args,
                        op_sync_args := s.op_sync_args.set oi acc.sync_args }, acc.st)
          ∧ op_arg parm op.args 0 = A 1 ∧ op_arg parm op.args 1 = A 2
          ∧ op_arg parm op.args 2 = A 3)
    ∧ (¬ dead_fresh st (A 1) → ¬ (have_hi = true ∧ dead_fresh st (A 0)) →
        ∃ acc, acc = la_do_not_remove cfg s (cfg.tcg_op_defs op.opc) A 2 2 st
          ∧ la_visit cfg s st oi =
              ({ s with gen_op_buf := s.gen_op_buf.set oi op,
                        op_dead_args := s.op_dead_args.set oi acc.dead_args,
                        op_sync_args := s.op_sync_args.set oi acc.sync_args }, acc.st)
          ∧ ∀ l, OpList s l → OpList (la_visit cfg s st oi).1 l) := by
  have hla : la_op cfg s (s.gen_op_buf.getD oi TCGOp.poison)
      (op_arg s.gen_opparam_buf (s.gen_op_buf.getD oi TCGOp.poison).args) st
      = la_mul2 cfg s (cfg.tcg_op_defs op.opc) op.opc opc_lo opc_hi have_hi A st := by
    rw [hget, ← hA]; exact la_op_mul2 cfg s op A st opc_lo opc_hi have_hi hop
  have h1 : (0 : Int) ≤ op.args + ((1 : Nat) : Int) := by omega
  have h2 : (0 : Int) ≤ op.args + ((2 : Nat) : Int) := by omega
  have h00 : (0 : Int) ≤ op.args + ((0 : Nat) : Int) := by omega
  have e0 : (op.args + ((0 : Nat) : Int)).toNat = op.args.toNat := by omega
  have e1 : (op.args + ((1 : Nat) : Int)).toNat = op.args.toNat + 1 := by omega
  have e2 : (op.args + ((2 : Nat) : Int)).toNat = op.args.toNat + 2 := by omega
  refine ⟨?_, ?_, ?_, ?_⟩
  · intro hhi hlo
    have hrm : la_op cfg s (s.gen_op_buf.getD oi TCGOp.poison)
        (op_arg s.gen_opparam_buf (s.gen_op_buf.getD oi TCGOp.poison).args) st
        = LaResult.remove := by
      rw [hla]
      unfold la_mul2
      rw [if_pos ((dead_fresh_iff _ _).mpr hhi), if_pos ((dead_fresh_iff _ _).mpr hlo)]
    refine ⟨la_visit_remove cfg s st oi hrm, fun pre post hl => ?_⟩
    rw [la_visit_remove cfg s st oi hrm]
    exact oplist_remove s pre post oi hl
  · intro hhi hlo
    refine ⟨_, _, rfl, rfl, ?_, ?_, ?_, ?_⟩
    · have : la_mul2 cfg s (cfg.tcg_op_defs op.opc) op.opc opc_lo opc_hi have_hi A st
          = la_keep opc_lo [(1, A 2), (2, args_write A 1 (A 2) 3)]
              (la_do_not_remove cfg s (cfg.tcg_op_defs op.opc)
                (fun k => if k = 0 then A 0 else if k = 1 then A 2 else A 3) 1 2 st) := by
        unfold la_mul2
        rw [if_pos ((dead_fresh_iff _ _).mpr hhi),
          if_neg (fun h => hlo ((dead_fresh_iff _ _).mp h))]
        have e : la_do_not_remove cfg s (cfg.tcg_op_defs op.opc)
            (args_write (args_write A 1 (A 2)) 2 (args_write A 1 (A 2) 3)) 1 2 st
            = la_do_not_remove cfg s (cfg.tcg_op_defs op.opc)
                (fun k => if k = 0 then A 0 else if k = 1 then A 2 else A 3) 1 2 st := by
          apply la_do_not_remove_congr
          intro i hi
          have : i = 0 ∨ i = 1 ∨ i = 2 := by omega
          rcases this with rfl | rfl | rfl <;> simp [args_write]
        simp only [e]
      rw [la_visit_keep cfg s st oi _ _ _ (hla.trans this), hget]
      simp only [apply_writes, List.foldl_cons, List.foldl_nil, if_pos h1, if_pos h2, args_write,
        e1, e2]
      simp
    · rw [op_arg_set _ _ _ 2 _ _ h0 rfl (by rw [List.length_set]; omega),
        op_arg_set _ _ _ 1 _ _ h0 rfl (by omega)]
      simp [hA]
    · rw [op_arg_set _ _ _ 2 _ _ h0 rfl (by rw [List.length_set]; omega),
        op_arg_set _ _ _ 1 _ _ h0 rfl (by omega)]
      simp
    · rw [op_arg_set _ _ _ 2 _ _ h0 rfl (by rw [List.length_set]; omega)]
      simp
  · intro hhi hh hlo
    refine ⟨_, _, rfl, rfl, ?_, ?_, ?_, ?_⟩
    · have : la_mul2 cfg s (cfg.tcg_op_defs op.opc) op.opc opc_lo opc_hi have_hi A st
          = la_keep opc_hi [(0, A 1), (1, args_write A 0 (A 1) 2),
                (2, args_write (args_write A 0 (A 1)) 1 (args_write A 0 (A 1) 2) 3)]
              (la_do_not_remove cfg s (cfg.tcg_op_defs op.opc)
                (fun k => if k = 0 then A 1 else if k = 1 then A 2 else A 3) 1 2 st) := by
        unfold la_mul2
        rw [if_neg (fun h => hhi ((dead_fresh_iff _ _).mp h))]
        have hc : (have_hi && st.dead_temps.getD (A 0) false
            && !st.mem_temps.getD (A 0) false) = true := by
          rw [Bool.and_assoc, Bool.and_eq_true]
          exact ⟨hh, (dead_fresh_iff _ _).mpr hlo⟩
        rw [if_pos hc]
        have e : la_do_not_remove cfg s (cfg.tcg_op_defs op.opc)
            (args_write (args_write (args_write A 0 (A 1)) 1 (args_write A 0 (A 1) 2)) 2
              (args_write (args_write A 0 (A 1)) 1 (args_write A 0 (A 1) 2) 3)) 1 2 st
            = la_do_not_remove cfg s (cfg.tcg_op_defs op.opc)
                (fun k => if k = 0 then A 1 else if k = 1 then A 2 else A 3) 1 2 st := by
          apply la_do_not_remove_congr
          intro i hi
          have : i = 0 ∨ i = 1 ∨ i = 2 := by omega
          rcases this with rfl | rfl | rfl <;> simp [args_write]
        simp only [e]
      rw [la_visit_keep cfg s st oi _ _ _ (hla.trans this), hget]
      simp only [apply_writes, List.foldl_cons, List.foldl_nil, if_pos h1, if_pos h2,
        if_pos h00, args_write, e0, e1, e2]
      simp
    · rw [op_arg_set _ _ _ 2 _ _ h0 rfl (by simp only [List.length_set]; omega),
        op_arg_set _ _ _ 1 _ _ h0 rfl (by simp only [List.length_set]; omega),
        op_arg_set _ _ op.args.toNat 0 _ _ h0 rfl (by omega)]
      simp
    · rw [op_arg_set _ _ _ 2 _ _ h0 rfl (by simp only [List.length_set]; omega),
        op_arg_set _ _ _ 1 _ _ h0 rfl (by simp only [List.length_set]; omega)]
      simp
    · rw [op_arg_set _ _ _ 2 _ _ h0 rfl (by simp only [List.length_set]; omega)]
      simp
  · intro hhi hn
    have this : la_mul2 cfg s (cfg.tcg_op_defs op.opc) op.opc opc_lo opc_hi have_hi A st
        = la_keep op.opc [] (la_do_not_remove cfg s (cfg.tcg_op_defs op.opc) A 2 2 st) := by
      unfold la_mul2
      rw [if_neg (fun h => hhi ((dead_fresh_iff _ _).mp h))]
      have hc : ¬ (have_hi && st.dead_temps.getD (A 0) false
          && !st.mem_temps.getD (A 0) false) = true := by
        rw [Bool.and_assoc, Bool.and_eq_true]
        exact fun h => hn ⟨h.1, (dead_fresh_iff _ _).mp h.2⟩
      rw [if_neg hc]
    have hkeep : la_mul2 cfg s (cfg.tcg_op_defs op.opc) op.opc opc_lo opc_hi have_hi A st
        ≠ LaResult.remove := by
      rw [this]
      exact la_keep_ne_remove _ _ _
    refine ⟨_, rfl, ?_,
      fun l hl => oplist_visit_keep cfg s st oi l hl (by rw [hla]; exact hkeep)⟩
    rw [la_visit_keep cfg s st oi _ _ _ (hla.trans this), hget, op_with_opc_self]
    simp only [apply_writes, List.foldl_nil]

theorem mul2_rewrite_witness :
    exMul2.gen_op_buf.getD 1 TCGOp.poison = exOp TCGOpcode.mulu2_i32 1 0 2
    ∧ mul2_parts exCfg TCGOpcode.mulu2_i32
        = some (TCGOpcode.mul_i32, TCGOpcode.muluh_i32, exCfg.TCG_TARGET_HAS_muluh_i32)
    ∧ dead_fresh exStEnd 1 ∧ ¬ dead_fresh exStEnd 0
    ∧ ((la_visit exCfg exMul2 exStEnd 1).1.gen_op_buf.getD 1 TCGOp.poison).opc
        = TCGOpcode.mul_i32
    ∧ (la_visit exCfg exMul2 exStEnd 1).1.gen_opparam_buf = [0x1000, 0, 0, 1, 1, 0] := by
  obtain ⟨acc, parm, _, hp, hv, _⟩ :=
    (mul2_rewrite exCfg exMul2 exStEnd 1 (exOp TCGOpcode.mulu2_i32 1 0 2)
      (op_arg exMul2.gen_opparam_buf 1) TCGOpcode.mul_i32 TCGOpcode.muluh_i32 _ rfl rfl rfl
      (by decide) (by decide)).2.1 (by decide) (by decide)
  refine ⟨rfl, rfl, by decide, by decide, ?_, ?_⟩
  · rw [hv]; rfl
  · rw [hv, hp]; rfl


/-! ### The bits of `dead_args` and `sync_args` -/

theorem or_eq_zero_iff (p q : Nat) : p ||| q = 0 ↔ p = 0 ∧ q = 0 := by
  constructor
  · intro h
    constructor
    · apply Nat.eq_of_testBit_eq
      intro i
      have := congrArg (fun x => Nat.testBit x i) h
      simp only [Nat.testBit_or, Nat.zero_testBit, Bool.or_eq_false_iff] at this
      simp [this.1]
    · apply Nat.eq_of_testBit_eq
      intro i
      have := congrArg (fun x => Nat.testBit x i) h
      simp only [Nat.testBit_or, Nat.zero_testBit, Bool.or_eq_false_iff] at this
      simp [this.2]
  · rintro ⟨rfl, rfl⟩
    rfl

theorem flag_or (x a b : Nat) : flag x (a ||| b) = (flag x a || flag x b) := by
  unfold flag
  rw [Nat.and_or_distrib_left, Bool.eq_iff_iff]
  simp only [bne_iff_ne, ne_eq, Bool.or_eq_true, or_eq_zero_iff]
  tauto

theorem IS_DEAD_ARG_eq (x i : Nat) : IS_DEAD_ARG x i = x.testBit i := by
  simp [IS_DEAD_ARG, Nat.testBit, bne_iff_ne]

theorem NEED_SYNC_ARG_eq (x i : Nat) : NEED_SYNC_ARG x i = x.testBit i := by
  simp [NEED_SYNC_ARG, Nat.testBit, bne_iff_ne]

theorem testBit_set16 (da k i : Nat) (hi : i < 16) :
    ((da ||| (1 <<< k)) % 65536).testBit i = (da.testBit i || decide (k = i)) := by
  rw [show (65536 : Nat) = 2 ^ 16 from rfl, Nat.testBit_mod_two_pow, Nat.testBit_or,
    Nat.one_shiftLeft, Nat.testBit_two_pow]
  simp [hi]

theorem testBit_set8 (da k i : Nat) (hi : i < 8) :
    ((da ||| (1 <<< k)) % 256).testBit i = (da.testBit i || decide (k = i)) := by
  rw [show (256 : Nat) = 2 ^ 8 from rfl, Nat.testBit_mod_two_pow, Nat.testBit_or,
    Nat.one_shiftLeft, Nat.testBit_two_pow]
  simp [hi]

/-- the loop "record arguments that die": bit `i < 16` of the result -/
theorem dead_bits_fold (c : Nat → Bool) (l : List Nat) (i : Nat) (hi : i < 16) :
    ∀ da0 : Nat,
      (l.foldl (fun da k => if c k then (da ||| (1 <<< k)) % 65536 else da) da0).testBit i
        = (da0.testBit i || (decide (i ∈ l) && c i)) := by
  induction l with
  | nil => intro da0; simp
  | cons a l ih =>
    intro da0
    rw [List.foldl_cons, ih]
    by_cases hc : c a = true
    · rw [if_pos hc, testBit_set16 _ _ _ hi]
      by_cases e : a = i
      · subst e
        simp [hc]
      · have e' : ¬ i = a := fun h => e h.symm
        simp [e, e', List.mem_cons]
    · rw [if_neg hc]
      by_cases e : a = i
      · subst e
        simp only [Bool.not_eq_true] at hc
        simp [hc]
      · have e' : ¬ i = a := fun h => e h.symm
        simp [e', List.mem_cons]

/-- the loop over the outputs sets no bit outside the positions it visits -/
theorem la_out_foldl_dead_bit (args : Nat → TCGArg) (l : List Nat) (j : Nat)
    (hj : ∀ k ∈ l, k ≠ j) :
    ∀ acc : LaAcc, acc.dead_args.testBit j = false →
      (l.foldl (la_out_step args) acc).dead_args.testBit j = false := by
  induction l with
  | nil => intro acc h; exact h
  | cons a l ih =>
    intro acc h
    rw [List.foldl_cons]
    apply ih (fun k hk => hj k (List.mem_cons_of_mem _ hk))
    have ha : a ≠ j := hj a (List.mem_cons_self _ _)
    unfold la_out_step
    simp only
    split
    · rw [show (65536 : Nat) = 2 ^ 16 from rfl, Nat.testBit_mod_two_pow, Nat.testBit_or,
        Nat.one_shiftLeft, Nat.testBit_two_pow, h]
      simp [ha]
    · exact h

theorem la_outputs_dead_bit (args : Nat → TCGArg) (n : Nat) (st : LaState) (j : Nat)
    (hj : n ≤ j) : (la_outputs args n st).dead_args.testBit j = false := by
  unfold la_outputs
  apply la_out_foldl_dead_bit
  · intro k hk
    have := List.mem_range.mp hk
    omega
  · simp

theorem mem_outs_iff (A : Nat → TCGArg) (n t : Nat) :
    t ∈ (List.range n).map A ↔ ∃ k, k < n ∧ A k = t := by
  simp [List.mem_map, List.mem_range]

theorem mem_ins_iff (A : Nat → TCGArg) (no ni t : Nat) :
    t ∈ (List.range' no ni).map A ↔ ∃ i, no ≤ i ∧ i < no + ni ∧ A i = t := by
  simp only [List.mem_map, List.mem_range'_1]
  constructor
  · rintro ⟨i, ⟨h1, h2⟩, e⟩
    exact ⟨i, h1, h2, e⟩
  · rintro ⟨i, h1, h2, e⟩
    exact ⟨i, ⟨h1, h2⟩, e⟩

/-- the entry of `dead_temps` for `t` after the loop over the outputs -/
theorem la_outputs_dead_getD (A : Nat → TCGArg) (n : Nat) (st : LaState) (t : Nat)
    (ht : t < st.dead_temps.length) :
    (la_outputs A n st).st.dead_temps.getD t false
      = (decide (t ∈ (List.range n).map A) || st.dead_temps.getD t false) := by
  by_cases hm : t ∈ (List.range n).map A
  · obtain ⟨k, hk, rfl⟩ := (mem_outs_iff A n t).mp hm
    rw [la_outputs_dead_of_mem A n st k hk ht]
    simp [hm]
  · rw [la_outputs_dead_of_not_mem A n st t
      (fun i hi e => hm ((mem_outs_iff A n t).mpr ⟨i, hi, e⟩))]
    simp [hm]

/-- the entry of `mem_temps` for `t` after the loop over the outputs -/
theorem la_outputs_mem_getD (A : Nat → TCGArg) (n : Nat) (st : LaState) (t : Nat) :
    (la_outputs A n st).st.mem_temps.getD t false
      = (!decide (t ∈ (List.range n).map A) && st.mem_temps.getD t false) := by
  by_cases hm : t ∈ (List.range n).map A
  · obtain ⟨k, hk, rfl⟩ := (mem_outs_iff A n t).mp hm
    rw [la_outputs_mem_of_mem A n st k hk]
    simp [hm]
  · rw [la_outputs_mem_of_not_mem A n st t
      (fun i hi e => hm ((mem_outs_iff A n t).mpr ⟨i, hi, e⟩))]
    simp [hm]

theorem la_inputs_live_getD (A : Nat → TCGArg) (no ni : Nat) (d : List Bool) (t : Nat) :
    (la_inputs_live A no ni d).getD t false
      = (!decide (t ∈ (List.range' no ni).map A) && d.getD t false) := by
  by_cases hm : t ∈ (List.range' no ni).map A
  · obtain ⟨i, h1, h2, rfl⟩ := (mem_ins_iff A no ni t).mp hm
    rw [la_inputs_live_of_mem A no ni d i h1 h2]
    simp [hm]
  · rw [la_inputs_live_of_not_mem A no ni d t
      (fun i h1 h2 e => hm ((mem_ins_iff A no ni t).mpr ⟨i, h1, h2, e⟩))]
    simp [hm]

/-- The arrays and the bits of the inputs after the code of a kept call. -/
theorem la_do_not_remove_call_spec (cfg : Config) (s : TCGContext) (A : Nat → TCGArg)
    (no ni fl : Nat) (st : LaState) :
    (∀ t, t < st.mem_temps.length →
      (la_do_not_remove_call cfg s A no ni fl st).st.mem_temps.getD t false
        = ((!flag fl cfg.TCG_CALL_NO_READ_GLOBALS && decide (t < s.nb_globals))
            || (!decide (t ∈ (List.range no).map A) && st.mem_temps.getD t false)))
    ∧ (∀ t, t < st.dead_temps.length →
      (la_do_not_remove_call cfg s A no ni fl st).st.dead_temps.getD t false
        = (!decide (t ∈ (List.range' no ni).map A)
            && ((!flag fl cfg.TCG_CALL_NO_WRITE_GLOBALS && !flag fl cfg.TCG_CALL_NO_READ_GLOBALS
                  && decide (t < s.nb_globals))
                || decide (t ∈ (List.range no).map A) || st.dead_temps.getD t false)))
    ∧ (∀ i, no ≤ i → i < no + ni → i < 16 →
      (la_do_not_remove_call cfg s A no ni fl st).dead_args.testBit i
        = (A i != cfg.TCG_CALL_DUMMY_ARG && decide (A i < st.dead_temps.length)
            && ((!flag fl cfg.TCG_CALL_NO_WRITE_GLOBALS && !flag fl cfg.TCG_CALL_NO_READ_GLOBALS
                  && decide (A i < s.nb_globals))
                || decide (A i ∈ (List.range no).map A) || st.dead_temps.getD (A i) false))) := by
  have hd1 : ∀ t, t < st.dead_temps.length →
      (if (!flag fl (cfg.TCG_CALL_NO_WRITE_GLOBALS ||| cfg.TCG_CALL_NO_READ_GLOBALS)) = true
        then memset1 (la_outputs A no st).st.dead_temps s.nb_globals
        else (la_outputs A no st).st.dead_temps).getD t false
      = ((!flag fl cfg.TCG_CALL_NO_WRITE_GLOBALS && !flag fl cfg.TCG_CALL_NO_READ_GLOBALS
              && decide (t < s.nb_globals))
            || decide (t ∈ (List.range no).map A) || st.dead_temps.getD t false) := by
    intro t ht
    rw [flag_or]
    split
    · rename_i h
      rw [getD_memset1, la_outputs_dead_length, if_pos ht, la_outputs_dead_getD A no st t ht]
      simp only [Bool.not_or, Bool.and_eq_true] at h
      by_cases hg : t < s.nb_globals
      · simp [hg, h.1, h.2]
      · simp [hg]
    · rename_i h
      rw [la_outputs_dead_getD A no st t ht]
      simp only [Bool.not_or, Bool.and_eq_true, not_and, Bool.not_eq_true', Bool.not_eq_false]
        at h
      cases hw : flag fl cfg.TCG_CALL_NO_WRITE_GLOBALS
      · have := h (by simp [hw])
        simp [this]
      · simp
  have hd1o : ∀ t, ¬ t < st.dead_temps.length →
      (if (!flag fl (cfg.TCG_CALL_NO_WRITE_GLOBALS ||| cfg.TCG_CALL_NO_READ_GLOBALS)) = true
        then memset1 (la_outputs A no st).st.dead_temps s.nb_globals
        else (la_outputs A no st).st.dead_temps).getD t false = false := by
    intro t ht
    apply List.getD_eq_default
    split
    · unfold memset1
      rw [overwrite_length, la_outputs_dead_length]
      omega
    · rw [la_outputs_dead_length]
      omega
  refine ⟨?_, ?_, ?_⟩
  · intro t ht
    unfold la_do_not_remove_call
    simp only
    split
    · rename_i h
      rw [getD_memset1, la_outputs_mem_length, if_pos ht, la_outputs_mem_getD]
      by_cases hg : t < s.nb_globals
      · simp [hg, h]
      · simp [hg]
    · rename_i h
      rw [la_outputs_mem_getD]
      simp only [Bool.not_eq_true] at h
      simp [h]
  · intro t ht
    unfold la_do_not_remove_call
    simp only
    rw [la_inputs_live_getD, hd1 t ht]
  · intro i h1 h2 h16
    unfold la_do_not_remove_call
    simp only
    rw [dead_bits_fold (fun k => A k != cfg.TCG_CALL_DUMMY_ARG &&
      (if (!flag fl (cfg.TCG_CALL_NO_WRITE_GLOBALS ||| cfg.TCG_CALL_NO_READ_GLOBALS)) = true
        then memset1 (la_outputs A no st).st.dead_temps s.nb_globals
        else (la_outputs A no st).st.dead_temps).getD (A k) false) _ i h16,
      la_outputs_dead_bit A no st i h1]
    have hm : i ∈ List.range' no ni := List.mem_range'_1.mpr ⟨h1, h2⟩
    simp only [hm, decide_True, Bool.true_and, Bool.false_or]
    by_cases ht : A i < st.dead_temps.length
    · rw [hd1 _ ht]
      simp [ht]
    · rw [hd1o _ ht]
      simp [ht]

/-- Claim C29, as amended (input positions below 16, the width of `op_dead_args`): a
call op at `oi` that the liveness pass keeps. Afterwards `mem_temps[t]` is 1 for every
global unless the flags contain `NO_READ_GLOBALS`, else 0 for an output temp, else
unchanged; `dead_temps[t]` is 0 for an input temp, else 1 for every global when the
flags contain neither `NO_WRITE_GLOBALS` nor `NO_READ_GLOBALS`, else 1 for an output
temp, else unchanged. The bit of an input position `i < 16` in the entry of
`op_dead_args` is set iff the argument is not `TCG_CALL_DUMMY_ARG` and its temp is dead
once the outputs are marked dead and the globals updated; so a call with neither flag
marks every global it takes as an input (at a position below 16) as dead. -/
theorem call_liveness_effect (cfg : Config) (s : TCGContext) (st : LaState) (oi : Nat)
    (op : TCGOp) (A : Nat → TCGArg)
    (hget : s.gen_op_buf.getD oi TCGOp.poison = op)
    (hA : A = op_arg s.gen_opparam_buf op.args)
    (hop : op.opc = TCGOpcode.call)
    (hkeep : la_op cfg s op A st ≠ LaResult.remove)
    (hoi : oi < s.op_dead_args.length) :
    (∀ t, t < st.mem_temps.length →
      (la_visit cfg s st oi).2.mem_temps.getD t false
        = if flag (A (op.callo + op.calli + 1)) cfg.TCG_CALL_NO_READ_GLOBALS = false
              ∧ t < s.nb_globals then true
          else if t ∈ (List.range op.callo).map A then false
          else st.mem_temps.getD t false)
    ∧ (∀ t, t < st.dead_temps.length →
      (la_visit cfg s st oi).2.dead_temps.getD t false
        = if t ∈ (List.range' op.callo op.calli).map A then false
          else if flag (A (op.callo + op.calli + 1)) cfg.TCG_CALL_NO_WRITE_GLOBALS = false
              ∧ flag (A (op.callo + op.calli + 1)) cfg.TCG_CALL_NO_READ_GLOBALS = false
              ∧ t < s.nb_globals then true
          else if t ∈ (List.range op.callo).map A then true
          else st.dead_temps.getD t false)
    ∧ (∀ i, op.callo ≤ i → i < op.callo + op.calli → i < 16 →
      (IS_DEAD_ARG ((la_visit cfg s st oi).1.op_dead_args.getD oi 0) i = true
        ↔ A i ≠ cfg.TCG_CALL_DUMMY_ARG ∧ A i < st.dead_temps.length
          ∧ ((flag (A (op.callo + op.calli + 1)) cfg.TCG_CALL_NO_WRITE_GLOBALS = false
                ∧ flag (A (op.callo + op.calli + 1)) cfg.TCG_CALL_NO_READ_GLOBALS = false
                ∧ A i < s.nb_globals)
              ∨ A i ∈ (List.range op.callo).map A
              ∨ st.dead_temps.getD (A i) false = true)))
    ∧ (flag (A (op.callo + op.calli + 1)) cfg.TCG_CALL_NO_WRITE_GLOBALS = false →
        flag (A (op.callo + op.calli + 1)) cfg.TCG_CALL_NO_READ_GLOBALS = false →
        ∀ i, op.callo ≤ i → i < op.callo + op.calli → i < 16 →
          A i ≠ cfg.TCG_CALL_DUMMY_ARG → A i < s.nb_globals → A i < st.dead_temps.length →
          IS_DEAD_ARG ((la_visit cfg s st oi).1.op_dead_args.getD oi 0) i = true) := by
  subst hget hA
  have h1 := la_op_call_keep cfg s _ _ st hop hkeep
  have hv := la_visit_keep cfg s st oi _ _ _ h1
  obtain ⟨hm, hd, hb⟩ := la_do_not_remove_call_spec cfg s
    (op_arg s.gen_opparam_buf (s.gen_op_buf.getD oi TCGOp.poison).args)
    (s.gen_op_buf.getD oi TCGOp.poison).callo (s.gen_op_buf.getD oi TCGOp.poison).calli
    (op_arg s.gen_opparam_buf (s.gen_op_buf.getD oi TCGOp.poison).args
      ((s.gen_op_buf.getD oi TCGOp.poison).callo
        + (s.gen_op_buf.getD oi TCGOp.poison).calli + 1)) st
  have hbits : ∀ i, (s.gen_op_buf.getD oi TCGOp.poison).callo ≤ i →
      i < (s.gen_op_buf.getD oi TCGOp.poison).callo
        + (s.gen_op_buf.getD oi TCGOp.poison).calli → i < 16 →
      (IS_DEAD_ARG ((la_visit cfg s st oi).1.op_dead_args.getD oi 0) i = true
        ↔ op_arg s.gen_opparam_buf (s.gen_op_buf.getD oi TCGOp.poison).args i
            ≠ cfg.TCG_CALL_DUMMY_ARG
          ∧ op_arg s.gen_opparam_buf (s.gen_op_buf.getD oi TCGOp.poison).args i
            < st.dead_temps.length
          ∧ ((flag (op_arg s.gen_opparam_buf (s.gen_op_buf.getD oi TCGOp.poison).args
                  ((s.gen_op_buf.getD oi TCGOp.poison).callo
                    + (s.gen_op_buf.getD oi TCGOp.poison).calli + 1))
                  cfg.TCG_CALL_NO_WRITE_GLOBALS = false
                ∧ flag (op_arg s.gen_opparam_buf (s.gen_op_buf.getD oi TCGOp.poison).args
                  ((s.gen_op_buf.getD oi TCGOp.poison).callo
                    + (s.gen_op_buf.getD oi TCGOp.poison).calli + 1))
                  cfg.TCG_CALL_NO_READ_GLOBALS = false
                ∧ op_arg s.gen_opparam_buf (s.gen_op_buf.getD oi TCGOp.poison).args i
                  < s.nb_globals)
              ∨ op_arg s.gen_opparam_buf (s.gen_op_buf.getD oi TCGOp.poison).args i
                  ∈ (List.range (s.gen_op_buf.getD oi TCGOp.poison).callo).map
                      (op_arg s.gen_opparam_buf (s.gen_op_buf.getD oi TCGOp.poison).args)
              ∨ st.dead_temps.getD
                  (op_arg s.gen_opparam_buf (s.gen_op_buf.getD oi TCGOp.poison).args i) false
                  = true)) := by
    intro i hi1 hi2 hi3
    rw [hv]
    simp only
    rw [List.getD_eq_getElem?_getD, List.getElem?_set_self hoi, Option.getD_some, IS_DEAD_ARG_eq,
      hb i hi1 hi2 hi3]
    simp only [Bool.and_eq_true, Bool.or_eq_true, bne_iff_ne, ne_eq, decide_eq_true_eq,
      Bool.not_eq_true']
    tauto
  refine ⟨?_, ?_, hbits, ?_⟩
  · intro t ht
    rw [hv]
    simp only
    rw [hm t ht]
    by_cases hg : t < s.nb_globals <;> by_cases ho : t ∈ (List.range
        (s.gen_op_buf.getD oi TCGOp.poison).callo).map
          (op_arg s.gen_opparam_buf (s.gen_op_buf.getD oi TCGOp.poison).args) <;>
      cases flag (op_arg s.gen_opparam_buf (s.gen_op_buf.getD oi TCGOp.poison).args
        ((s.gen_op_buf.getD oi TCGOp.poison).callo
          + (s.gen_op_buf.getD oi TCGOp.poison).calli + 1)) cfg.TCG_CALL_NO_READ_GLOBALS <;>
      simp [hg, ho]
  · intro t ht
    rw [hv]
    simp only
    rw [hd t ht]
    by_cases hg : t < s.nb_globals <;> by_cases ho : t ∈ (List.range
        (s.gen_op_buf.getD oi TCGOp.poison).callo).map
          (op_arg s.gen_opparam_buf (s.gen_op_buf.getD oi TCGOp.poison).args) <;>
      by_cases hin : t ∈ (List.range' (s.gen_op_buf.getD oi TCGOp.poison).callo
        (s.gen_op_buf.getD oi TCGOp.poison).calli).map
          (op_arg s.gen_opparam_buf (s.gen_op_buf.getD oi TCGOp.poison).args) <;>
      cases flag (op_arg s.gen_opparam_buf (s.gen_op_buf.getD oi TCGOp.poison).args
        ((s.gen_op_buf.getD oi TCGOp.poison).callo
          + (s.gen_op_buf.getD oi TCGOp.poison).calli + 1)) cfg.TCG_CALL_NO_READ_GLOBALS <;>
      cases flag (op_arg s.gen_opparam_buf (s.gen_op_buf.getD oi TCGOp.poison).args
        ((s.gen_op_buf.getD oi TCGOp.poison).callo
          + (s.gen_op_buf.getD oi TCGOp.poison).calli + 1)) cfg.TCG_CALL_NO_WRITE_GLOBALS <;>
      simp [hg, ho, hin]
  · intro hw hr i hi1 hi2 hi3 hdm hg hl
    exact (hbits i hi1 hi2 hi3).mpr ⟨hdm, hl, Or.inl ⟨hw, hr, hg⟩⟩

/-- The claim C29 as it stands fails for an input position that `op_dead_args` has no
bit for: in `exCallWide` the call has the flags 0 and takes the global `g0` at its
17 input positions 0..16; the liveness pass keeps the call and stores the 16 bits
`0xffff`, so the allocator's test `IS_DEAD_ARG (16)` is false for the last input. -/
theorem call_liveness_effect_counterexample :
    (tcg_liveness_analysis exCfg exCallWide).map
        (fun s => (s.gen_op_buf.map (fun o => (o.opc, o.callo, o.calli)), s.op_dead_args))
      = some ([(TCGOpcode.insn_start, 0, 0), (TCGOpcode.call, 0, 17),
               (TCGOpcode.other 0, 0, 0)], [0, 65535, 0])
    ∧ op_arg exCallWide.gen_opparam_buf 1 16 = 0
    ∧ (0 : Nat) < exCallWide.nb_globals
    ∧ (0 : Nat) ≠ exCfg.TCG_CALL_DUMMY_ARG
    ∧ flag (op_arg exCallWide.gen_opparam_buf 1 18) exCfg.TCG_CALL_NO_WRITE_GLOBALS = false
    ∧ flag (op_arg exCallWide.gen_opparam_buf 1 18) exCfg.TCG_CALL_NO_READ_GLOBALS = false
    ∧ IS_DEAD_ARG 65535 16 = false := by
  refine ⟨by decide, by decide, by decide, by decide, by decide, by decide, by decide⟩

theorem call_liveness_effect_witness :
    (exCallWide.gen_op_buf.getD 1 TCGOp.poison).opc = TCGOpcode.call
    ∧ la_op exCfg exCallWide (exCallWide.gen_op_buf.getD 1 TCGOp.poison)
        (op_arg exCallWide.gen_opparam_buf 1) (la_init exCallWide) ≠ LaResult.remove
    ∧ IS_DEAD_ARG ((la_visit exCfg { exCallWide with op_dead_args := [0, 0, 0] }
        (la_init exCallWide) 1).1.op_dead_args.getD 1 0) 3 = true :=
  ⟨rfl, by decide,
   (call_liveness_effect exCfg { exCallWide with op_dead_args := [0, 0, 0] }
      (la_init exCallWide) 1 _ _ rfl rfl rfl (by decide) (by decide)).2.2.2
      (by decide) (by decide) 3 (by decide) (by decide) (by decide) (by decide) (by decide)
      (by decide)⟩


theorem la_outputs_succ (A : Nat → TCGArg) (n : Nat) (st : LaState) :
    la_outputs A (n + 1) st = la_out_step A (la_outputs A n st) n := by
  unfold la_outputs
  rw [List.range_succ, List.foldl_append]
  rfl

theorem getD_false_of_le (l : List Bool) (t : Nat) (h : l.length ≤ t) :
    l.getD t false = false :=
  List.getD_eq_default _ _ h

/-- the bit of an output position in `dead_args` after the loop over the outputs -/
theorem la_outputs_dead_bits (A : Nat → TCGArg) (st : LaState) (n : Nat) :
    ∀ j, j < n → j < 16 →
      (la_outputs A n st).dead_args.testBit j
        = (st.dead_temps.getD (A j) false
            || (decide (A j < st.dead_temps.length) && decide (A j ∈ (List.range j).map A))) := by
  induction n with
  | zero => intro j hj; omega
  | succ n ih =>
    intro j hj h16
    rw [la_outputs_succ]
    unfold la_out_step
    simp only
    by_cases e : j = n
    · subst e
      have hb := la_outputs_dead_bit A j st j (Nat.le_refl _)
      by_cases hl : A j < st.dead_temps.length
      · rw [la_outputs_dead_getD A j st (A j) hl]
        split
        · rename_i h
          rw [testBit_set16 _ _ _ h16]
          simp only [Bool.or_eq_true, decide_eq_true_eq] at h
          rcases h with h | h
          · simp [h, hl]
          · rw [h]
            simp
        · rename_i h
          simp only [Bool.or_eq_true, decide_eq_true_eq, not_or, Bool.not_eq_true] at h
          rw [hb, h.2]
          simp [h.1]
      · have hl' : st.dead_temps.length ≤ A j := Nat.le_of_not_lt hl
        have h1 : (la_outputs A j st).st.dead_temps.getD (A j) false = false :=
          getD_false_of_le _ _ (by rw [la_outputs_dead_length]; exact hl')
        have h2 : st.dead_temps.getD (A j) false = false := getD_false_of_le _ _ hl'
        rw [h1, h2]
        simp [hb, hl]
    · have hj' : j < n := by omega
      have e' : ¬ n = j := fun h => e h.symm
      split
      · rw [testBit_set16 _ _ _ h16, ih j hj' h16]
        simp [e']
      · exact ih j hj' h16

/-- the bit of an output position in `sync_args` after the loop over the outputs -/
theorem la_outputs_sync_bits (A : Nat → TCGArg) (st : LaState) (n : Nat) :
    ∀ j, j < n → j < 8 →
      (la_outputs A n st).sync_args.testBit j
        = (!decide (A j ∈ (List.range j).map A) && st.mem_temps.getD (A j) false) := by
  induction n with
  | zero => intro j hj; omega
  | succ n ih =>
    intro j hj h8
    rw [la_outputs_succ]
    unfold la_out_step
    simp only
    by_cases e : j = n
    · subst e
      have hb : (la_outputs A j st).sync_args.testBit j = false := by
        clear ih hj
        have : ∀ (l : List Nat) (acc : LaAcc), (∀ k ∈ l, k ≠ j) →
            acc.sync_args.testBit j = false →
            (l.foldl (la_out_step A) acc).sync_args.testBit j = false := by
          intro l
          induction l with
          | nil => intro acc _ h; exact h
          | cons a l ihl =>
            intro acc hk h
            rw [List.foldl_cons]
            apply ihl _ (fun k hk' => hk k (List.mem_cons_of_mem _ hk'))
            have ha : a ≠ j := hk a (List.mem_cons_self _ _)
            unfold la_out_step
            simp only
            split
            · rw [testBit_set8 _ _ _ h8, h]
              simp [ha]
            · exact h
        unfold la_outputs
        apply this
        · intro k hk
          have := List.mem_range.mp hk
          omega
        · simp
      rw [la_outputs_mem_getD A j st (A j)]
      split
      · rename_i h
        rw [testBit_set8 _ _ _ h8]
        simp only [Bool.and_eq_true, Bool.not_eq_true', decide_eq_false_iff_not] at h
        rw [h.2]
        simp [h.1]
      · rename_i h
        rw [hb]
        simp only [Bool.not_eq_true] at h
        exact h.symm
    · have hj' : j < n := by omega
      have e' : ¬ n = j := fun h => e h.symm
      split
      · rw [testBit_set8 _ _ _ h8, ih j hj' h8]
        simp [e']
      · exact ih j hj' h8

/-- The bits of `dead_args` and `sync_args` computed at the label `do_not_remove` for
an op with `no` outputs and `ni` inputs. -/
theorem la_do_not_remove_spec (cfg : Config) (s : TCGContext) (df : TCGOpDef)
    (A : Nat → TCGArg) (no ni : Nat) (st : LaState) :
    (∀ n, n < no → n < 16 →
      (la_do_not_remove cfg s df A no ni st).dead_args.testBit n
        = (st.dead_temps.getD (A n) false
            || (decide (A n < st.dead_temps.length) && decide (A n ∈ (List.range n).map A))))
    ∧ (∀ n, n < no → n < 8 →
      (la_do_not_remove cfg s df A no ni st).sync_args.testBit n
        = (!decide (A n ∈ (List.range n).map A) && st.mem_temps.getD (A n) false))
    ∧ (∀ n, no ≤ n → n < no + ni → n < 16 →
      (la_do_not_remove cfg s df A no ni st).dead_args.testBit n
        = (decide (A n < st.dead_temps.length)
            && ((flag df.flags cfg.TCG_OPF_BB_END && decide (A n < s.nb_temps))
                || decide (A n ∈ (List.range no).map A)
                || st.dead_temps.getD (A n) false))) := by
  have hD : ∀ t,
      (if flag df.flags cfg.TCG_OPF_BB_END = true then tcg_la_bb_end s (la_outputs A no st).st
        else if flag df.flags cfg.TCG_OPF_SIDE_EFFECTS = true
          then { (la_outputs A no st).st with
                 mem_temps := memset1 (la_outputs A no st).st.mem_temps s.nb_globals }
          else (la_outputs A no st).st).dead_temps.getD t false
      = (decide (t < st.dead_temps.length)
            && ((flag df.flags cfg.TCG_OPF_BB_END && decide (t < s.nb_temps))
                || decide (t ∈ (List.range no).map A)
                || st.dead_temps.getD t false)) := by
    intro t
    by_cases ht : t < st.dead_temps.length
    · split
      · rename_i h
        simp only [tcg_la_bb_end]
        rw [getD_memset1, la_outputs_dead_length, if_pos ht, la_outputs_dead_getD A no st t ht]
        by_cases hn : t < s.nb_temps
        · simp [hn, h, ht]
        · simp [hn, ht]
      · rename_i h
        simp only [Bool.not_eq_true] at h
        split
        · simp only
          rw [la_outputs_dead_getD A no st t ht]
          simp [h, ht]
        · rw [la_outputs_dead_getD A no st t ht]
          simp [h, ht]
    · have hle : st.dead_temps.length ≤ t := by omega
      simp only [ht, decide_False, Bool.false_and]
      apply getD_false_of_le
      split
      · simp only [tcg_la_bb_end]
        unfold memset1
        rw [overwrite_length, la_outputs_dead_length]
        exact hle
      · split
        · simp only
          rw [la_outputs_dead_length]
          exact hle
        · rw [la_outputs_dead_length]
          exact hle
  refine ⟨?_, ?_, ?_⟩
  · intro n hn h16
    unfold la_do_not_remove
    simp only
    rw [dead_bits_fold _ _ n h16, la_outputs_dead_bits A st no n hn h16]
    have hm : ¬ n ∈ List.range' no ni := fun h => by
      have := (List.mem_range'_1.mp h).1
      omega
    simp [hm]
  · intro n hn h8
    unfold la_do_not_remove
    simp only
    exact la_outputs_sync_bits A st no n hn h8
  · intro n h1 h2 h16
    unfold la_do_not_remove
    simp only
    rw [dead_bits_fold (fun k =>
      (if flag df.flags cfg.TCG_OPF_BB_END = true then tcg_la_bb_end s (la_outputs A no st).st
        else if flag df.flags cfg.TCG_OPF_SIDE_EFFECTS = true
          then { (la_outputs A no st).st with
                 mem_temps := memset1 (la_outputs A no st).st.mem_temps s.nb_globals }
          else (la_outputs A no st).st).dead_temps.getD (A k) false) _ n h16,
      la_outputs_dead_bit A no st n h1]
    have hm : n ∈ List.range' no ni := List.mem_range'_1.mpr ⟨h1, h2⟩
    simp only [hm, decide_True, Bool.true_and, Bool.false_or]
    exact hD (A n)

theorem la_addsub2_keep_arity (cfg : Config) (s : TCGContext) (opc0 opc_new : TCGOpcode)
    (A : Nat → TCGArg) (st : LaState) (opc : TCGOpcode) (ws : List (Nat × TCGArg))
    (da sa : Nat) (st' : LaState) (hn : la_rewrites opc0 = [opc_new])
    (h0 : la_arity cfg opc0 opc0 = (2, 4))
    (h : la_addsub2 cfg s (cfg.tcg_op_defs opc0) opc0 opc_new A st
      = LaResult.keep opc ws da sa st') :
    la_keep opc ws (la_do_not_remove cfg s (cfg.tcg_op_defs opc0) (args_writes A ws)
        (la_arity cfg opc0 opc).1 (la_arity cfg opc0 opc).2 st)
      = LaResult.keep opc ws da sa st' := by
  unfold la_addsub2 at h
  split at h
  · split at h
    · cases h
    · obtain ⟨e1, e2⟩ := la_keep_inj _ _ _ _ _ _ _ _ h
      subst e1 e2
      have : la_arity cfg opc0 opc = (1, 2) := by
        unfold la_arity
        rw [if_pos (by rw [hn]; exact List.mem_singleton_self _)]
      rw [this]
      exact h
  · obtain ⟨e1, e2⟩ := la_keep_inj _ _ _ _ _ _ _ _ h
    subst e1 e2
    rw [h0]
    exact h

theorem la_mul2_keep_arity (cfg : Config) (s : TCGContext) (opc0 opc_new opc_new2 : TCGOpcode)
    (hv : Bool) (A : Nat → TCGArg) (st : LaState) (opc : TCGOpcode)
    (ws : List (Nat × TCGArg)) (da sa : Nat) (st' : LaState)
    (hn : la_rewrites opc0 = [opc_new, opc_new2])
    (h0 : la_arity cfg opc0 opc0 = (2, 2))
    (h : la_mul2 cfg s (cfg.tcg_op_defs opc0) opc0 opc_new opc_new2 hv A st
      = LaResult.keep opc ws da sa st') :
    la_keep opc ws (la_do_not_remove cfg s (cfg.tcg_op_defs opc0) (args_writes A ws)
        (la_arity cfg opc0 opc).1 (la_arity cfg opc0 opc).2 st)
      = LaResult.keep opc ws da sa st' := by
  unfold la_mul2 at h
  split at h
  · split at h
    · cases h
    · obtain ⟨e1, e2⟩ := la_keep_inj _ _ _ _ _ _ _ _ h
      subst e1 e2
      have : la_arity cfg opc0 opc = (1, 2) := by
        unfold la_arity
        rw [if_pos (by rw [hn]; exact List.mem_cons_self _ _)]
      rw [this]
      exact h
  · split at h
    · obtain ⟨e1, e2⟩ := la_keep_inj _ _ _ _ _ _ _ _ h
      subst e1 e2
      have : la_arity cfg opc0 opc = (1, 2) := by
        unfold la_arity
        rw [if_pos (by rw [hn]; exact List.mem_cons_of_mem _ (List.mem_singleton_self _))]
      rw [this]
      exact h
    · obtain ⟨e1, e2⟩ := la_keep_inj _ _ _ _ _ _ _ _ h
      subst e1 e2
      rw [h0]
      exact h

/-- a kept op other than a call went through the label `do_not_remove` -/
theorem la_op_keep_arity (cfg : Config) (s : TCGContext) (op : TCGOp)
    (A : Nat → TCGArg) (st : LaState) (opc : TCGOpcode) (ws : List (Nat × TCGArg))
    (da sa : Nat) (st' : LaState) (hop : op.opc ≠ TCGOpcode.call)
    (h : la_op cfg s op A st = LaResult.keep opc ws da sa st') :
    la_keep opc ws (la_do_not_remove cfg s (cfg.tcg_op_defs op.opc) (args_writes A ws)
        (la_arity cfg op.opc opc).1 (la_arity cfg op.opc opc).2 st)
      = LaResult.keep opc ws da sa st' := by
  rcases op with ⟨opc0, callo, calli, a, p, n⟩
  cases opc0
  case call => exact absurd rfl hop
  case insn_start => simp only [la_op] at h; cases h
  case discard => simp only [la_op] at h; cases h
  case add2_i32 => exact la_addsub2_keep_arity cfg s _ _ A st opc ws da sa st' rfl rfl h
  case sub2_i32 => exact la_addsub2_keep_arity cfg s _ _ A st opc ws da sa st' rfl rfl h
  case add2_i64 => exact la_addsub2_keep_arity cfg s _ _ A st opc ws da sa st' rfl rfl h
  case sub2_i64 => exact la_addsub2_keep_arity cfg s _ _ A st opc ws da sa st' rfl rfl h
  case mulu2_i32 => exact la_mul2_keep_arity cfg s _ _ _ _ A st opc ws da sa st' rfl rfl h
  case muls2_i32 => exact la_mul2_keep_arity cfg s _ _ _ _ A st opc ws da sa st' rfl rfl h
  case mulu2_i64 => exact la_mul2_keep_arity cfg s _ _ _ _ A st opc ws da sa st' rfl rfl h
  case muls2_i64 => exact la_mul2_keep_arity cfg s _ _ _ _ A st opc ws da sa st' rfl rfl h
  all_goals
    simp only [la_op] at h
    split at h
    · cases h
    · obtain ⟨e1, e2⟩ := la_keep_inj _ _ _ _ _ _ _ _ h
      subst e1 e2
      exact h

/-- Claim C30, as amended (an output temp that also occupies an earlier output
position): a non-call op that the liveness pass keeps, with the opcode `opc` and the
arguments `A'` it leaves with, `no` outputs and `ni` inputs as the pass counts them.
Bit `n < no` (`n < 16`) of `dead_args` is set iff output temp `n` was dead just after
the op or occupies an earlier output position; bit `n < no` (`n < 8`) of `sync_args` is
set iff the `mem_temps` entry of output temp `n` was set and the temp occupies no
earlier output position. Bit `n` of `dead_args` for an input position (`n < 16`) is set
iff the temp is dead once the outputs are marked dead and the reset of a `BB_END` op is
applied, before any input is marked live. So an input that is also an output is
flagged dead, and a dead temp at two input positions is flagged at both. -/
theorem kept_op_bits (cfg : Config) (s : TCGContext) (op : TCGOp)
    (A : Nat → TCGArg) (st : LaState) (opc : TCGOpcode) (ws : List (Nat × TCGArg))
    (da sa : Nat) (st' : LaState) (hop : op.opc ≠ TCGOpcode.call)
    (h : la_op cfg s op A st = LaResult.keep opc ws da sa st')
    (hlen : ∀ n, n < (la_arity cfg op.opc opc).1 + (la_arity cfg op.opc opc).2 →
      args_writes A ws n < st.dead_temps.length) :
    (∀ n, n < (la_arity cfg op.opc opc).1 → n < 16 →
      (IS_DEAD_ARG da n = true
        ↔ st.dead_temps.getD (args_writes A ws n) false = true
          ∨ ∃ k, k < n ∧ args_writes A ws k = args_writes A ws n))
    ∧ (∀ n, n < (la_arity cfg op.opc opc).1 → n < 8 →
      (NEED_SYNC_ARG sa n = true
        ↔ st.mem_temps.getD (args_writes A ws n) false = true
          ∧ ¬ ∃ k, k < n ∧ args_writes A ws k = args_writes A ws n))
    ∧ (∀ n, (la_arity cfg op.opc opc).1 ≤ n →
        n < (la_arity cfg op.opc opc).1 + (la_arity cfg op.opc opc).2 → n < 16 →
      (IS_DEAD_ARG da n = true
        ↔ (flag (cfg.tcg_op_defs op.opc).flags cfg.TCG_OPF_BB_END = true
              ∧ args_writes A ws n < s.nb_temps)
          ∨ (∃ k, k < (la_arity cfg op.opc opc).1 ∧ args_writes A ws k = args_writes A ws n)
          ∨ st.dead_temps.getD (args_writes A ws n) false = true))
    ∧ (∀ n k, (la_arity cfg op.opc opc).1 ≤ n →
        n < (la_arity cfg op.opc opc).1 + (la_arity cfg op.opc opc).2 → n < 16 →
        k < (la_arity cfg op.opc opc).1 → args_writes A ws k = args_writes A ws n →
        IS_DEAD_ARG da n = true)
    ∧ (∀ n m, (la_arity cfg op.opc opc).1 ≤ n →
        n < (la_arity cfg op.opc opc).1 + (la_arity cfg op.opc opc).2 → n < 16 →
        (la_arity cfg op.opc opc).1 ≤ m →
        m < (la_arity cfg op.opc opc).1 + (la_arity cfg op.opc opc).2 → m < 16 →
        args_writes A ws n = args_writes A ws m → IS_DEAD_ARG da n = true →
        IS_DEAD_ARG da m = true) := by
  have hk := la_op_keep_arity cfg s op A st opc ws da sa st' hop h
  unfold la_keep at hk
  injection hk with _ _ hda hsa _
  obtain ⟨hb1, hb2, hb3⟩ := la_do_not_remove_spec cfg s (cfg.tcg_op_defs op.opc)
    (args_writes A ws) (la_arity cfg op.opc opc).1 (la_arity cfg op.opc opc).2 st
  have hin : ∀ n, (la_arity cfg op.opc opc).1 ≤ n →
        n < (la_arity cfg op.opc opc).1 + (la_arity cfg op.opc opc).2 → n < 16 →
      (IS_DEAD_ARG da n = true
        ↔ (flag (cfg.tcg_op_defs op.opc).flags cfg.TCG_OPF_BB_END = true
              ∧ args_writes A ws n < s.nb_temps)
          ∨ (∃ k, k < (la_arity cfg op.opc opc).1 ∧ args_writes A ws k = args_writes A ws n)
          ∨ st.dead_temps.getD (args_writes A ws n) false = true) := by
    intro n h1 h2 h16
    rw [IS_DEAD_ARG_eq, ← hda, hb3 n h1 h2 h16]
    have hl := hlen n h2
    simp only [Bool.and_eq_true, Bool.or_eq_true, decide_eq_true_eq, mem_outs_iff, hl,
      true_and, or_assoc]
  refine ⟨?_, ?_, hin, ?_, ?_⟩
  · intro n hn h16
    rw [IS_DEAD_ARG_eq, ← hda, hb1 n hn h16]
    have hl := hlen n (by omega)
    simp only [Bool.and_eq_true, Bool.or_eq_true, decide_eq_true_eq, mem_outs_iff, hl,
      true_and]
  · intro n hn h8
    rw [NEED_SYNC_ARG_eq, ← hsa, hb2 n hn h8]
    simp only [Bool.and_eq_true, Bool.not_eq_true', decide_eq_false_iff_not, mem_outs_iff]
    tauto
  · intro n k h1 h2 h16 hk e
    exact (hin n h1 h2 h16).mpr (Or.inr (Or.inl ⟨k, hk, e⟩))
  · intro n m h1 h2 h16 h1' h2' h16' e hd
    rw [hin m h1' h2' h16', ← e]
    exact (hin n h1 h2 h16).mp hd

/-- The claim C30 as it stands fails for an op that names one temp at two output
positions: in `exAdd2Same` both outputs of the `add2_i32` are the temp `t1`, which is
live and needed in memory after the op (`exStLive`), and the first output is not
dead, so the op is kept with two outputs. Bit 1 of `dead_args` is set although `t1`
was not dead after the op, and bit 1 of `sync_args` is clear although the `mem_temps`
entry of `t1` was set. -/
theorem kept_op_bits_counterexample :
    la_op exCfg exAdd2Same (exAdd2Same.gen_op_buf.getD 1 TCGOp.poison)
        (op_arg exAdd2Same.gen_opparam_buf 1) exStLive
      = LaResult.keep TCGOpcode.add2_i32 [] 62 1
          { dead_temps := [false, false], mem_temps := [true, false] }
    ∧ op_arg exAdd2Same.gen_opparam_buf 1 1 = 1
    ∧ exStLive.dead_temps.getD 1 false = false
    ∧ exStLive.mem_temps.getD 1 false = true
    ∧ IS_DEAD_ARG 62 1 = true
    ∧ NEED_SYNC_ARG 1 1 = false := by
  refine ⟨by decide, by decide, by decide, by decide, by decide, by decide⟩

theorem kept_op_bits_witness :
    la_op exCfg exAdd2Same (exAdd2Same.gen_op_buf.getD 1 TCGOp.poison)
        (op_arg exAdd2Same.gen_opparam_buf 1) exStLive
      = LaResult.keep TCGOpcode.add2_i32 [] 62 1
          { dead_temps := [false, false], mem_temps := [true, false] }
    ∧ (IS_DEAD_ARG 62 1 = true
        ↔ exStLive.dead_temps.getD
            (args_writes (op_arg exAdd2Same.gen_opparam_buf 1) [] 1) false = true
          ∨ ∃ k, k < 1 ∧ args_writes (op_arg exAdd2Same.gen_opparam_buf 1) [] k
              = args_writes (op_arg exAdd2Same.gen_opparam_buf 1) [] 1) :=
  ⟨by decide,
   (kept_op_bits exCfg exAdd2Same (exAdd2Same.gen_op_buf.getD 1 TCGOp.poison)
      (op_arg exAdd2Same.gen_opparam_buf 1) exStLive TCGOpcode.add2_i32 [] 62 1
      { dead_temps := [false, false], mem_temps := [true, false] } (by decide) (by decide)
      (by
        intro n hn
        have hn' : n < 6 := hn
        have : n = 0 ∨ n = 1 ∨ n = 2 ∨ n = 3 ∨ n = 4 ∨ n = 5 := by omega
        rcases this with rfl | rfl | rfl | rfl | rfl | rfl <;> decide)).1 1 (by decide)
      (by decide)⟩


/-! ### The ELF header of the image for the debugger -/

/-- Claim C27 fails for the 32-bit ELF class. In the image built by
`tcg_register_jit_int`, for every host, `e_machine` is the configured value, `e_phoff`
and `e_shoff` are the offsets of `phdr` and `shdr` in the image, `e_phnum = 1`,
`e_shnum = 7`, `e_shstrndx = 6`, `e_phentsize` and `e_shentsize` are the sizes of a
program header and of a section header, but `e_ehsize` is the size of a section header.
With the structures of `ELFCLASS64` the header is as claimed (both sizes are 64); with
those of `ELFCLASS32` the magic bytes, `EI_CLASS` and `EI_DATA` are right and
`e_phoff = 52`, `e_shoff = 84`, but `e_ehsize` is 40 where the ELF header has 52
bytes. -/
theorem jit_ehdr_ehsize (e : ElfConfig) (buf buf_size : Nat) :
    ((tcg_register_jit_int e buf buf_size).ehdr.e_machine = e.ELF_HOST_MACHINE
      ∧ (tcg_register_jit_int e buf buf_size).ehdr.e_phoff = offsetof_phdr e
      ∧ (tcg_register_jit_int e buf buf_size).ehdr.e_shoff = offsetof_shdr e
      ∧ (tcg_register_jit_int e buf buf_size).ehdr.e_phnum = 1
      ∧ (tcg_register_jit_int e buf buf_size).ehdr.e_shnum = 7
      ∧ (tcg_register_jit_int e buf buf_size).ehdr.e_shstrndx = 6
      ∧ (tcg_register_jit_int e buf buf_size).ehdr.e_phentsize = e.sizeof_Phdr
      ∧ (tcg_register_jit_int e buf buf_size).ehdr.e_shentsize = e.sizeof_Shdr
      ∧ (tcg_register_jit_int e buf buf_size).ehdr.e_ehsize = e.sizeof_Shdr)
    ∧ ((tcg_register_jit_int exElf64 buf buf_size).ehdr.e_ident.take 7
          = [0x7f, 0x45, 0x4c, 0x46, 2, 1, 1]
        ∧ (tcg_register_jit_int exElf64 buf buf_size).ehdr.e_phoff = 64
        ∧ (tcg_register_jit_int exElf64 buf buf_size).ehdr.e_shoff = 120
        ∧ (tcg_register_jit_int exElf64 buf buf_size).ehdr.e_ehsize = exElf64.sizeof_Ehdr)
    ∧ ((tcg_register_jit_int exElf32 buf buf_size).ehdr.e_ident.take 7
          = [0x7f, 0x45, 0x4c, 0x46, 1, 1, 1]
        ∧ (tcg_register_jit_int exElf32 buf buf_size).ehdr.e_phoff = 52
        ∧ (tcg_register_jit_int exElf32 buf buf_size).ehdr.e_shoff = 84
        ∧ (tcg_register_jit_int exElf32 buf buf_size).ehdr.e_ehsize = 40
        ∧ exElf32.sizeof_Ehdr = 52) := by
  refine ⟨⟨rfl, rfl, rfl, rfl, rfl, rfl, rfl, rfl, rfl⟩, ⟨?_, ?_, ?_, ?_⟩, ⟨?_, ?_, ?_, ?_, ?_⟩⟩
  all_goals rfl


/-! ### Pool allocation -/

theorem rdp_ok (heap : List (Option TCGPool)) (p : Nat) (pool : TCGPool)
    (h : heap[p]? = some (some pool)) : rdp heap p = Except.ok pool := by
  unfold rdp
  rw [h]
  rfl

theorem isPoolList_congr (heap heap' : List (Option TCGPool)) (l : List Nat) :
    ∀ start, IsPoolList heap start l → (∀ a ∈ l, heap'[a]? = heap[a]?) →
      IsPoolList heap' start l := by
  induction l with
  | nil => intro start h _; exact h
  | cons a l ih =>
    intro start h hag
    obtain ⟨h1, pool, h2, h3⟩ := h
    refine ⟨h1, pool, ?_, ih _ h3 (fun x hx => hag x (List.mem_cons_of_mem _ hx))⟩
    rw [hag a (List.mem_cons_self _ _)]
    exact h2

theorem isPoolList_unique (heap : List (Option TCGPool)) (l1 : List Nat) :
    ∀ start l2, IsPoolList heap start l1 → IsPoolList heap start l2 → l1 = l2 := by
  induction l1 with
  | nil =>
    intro start l2 h1 h2
    cases l2 with
    | nil => rfl
    | cons b l2 =>
      have e1 : start = none := h1
      rw [e1] at h2
      exact absurd h2.1 (by simp)
  | cons a l1 ih =>
    intro start l2 h1 h2
    obtain ⟨e1, pool, hp, hr⟩ := h1
    cases l2 with
    | nil =>
      have e2 : start = none := h2
      rw [e2] at e1
      cases e1
    | cons b l2 =>
      obtain ⟨e2, pool2, hp2, hr2⟩ := h2
      rw [e1] at e2
      cases e2
      rw [hp] at hp2
      cases hp2
      rw [ih _ _ hr hr2]

theorem isPoolList_suffix (heap : List (Option TCGPool)) (l : List Nat) :
    ∀ start a, IsPoolList heap start l → a ∈ l →
      ∃ l1 l2, l = l1 ++ a :: l2 ∧ IsPoolList heap (some a) (a :: l2) := by
  induction l with
  | nil => intro start a _ ha; cases ha
  | cons b l ih =>
    intro start a h ha
    obtain ⟨e1, pool, hp, hr⟩ := h
    rcases List.mem_cons.mp ha with rfl | ha'
    · exact ⟨[], l, rfl, rfl, pool, hp, hr⟩
    · obtain ⟨l1, l2, e, hs⟩ := ih _ a hr ha'
      exact ⟨b :: l1, l2, by rw [e]; rfl, hs⟩

theorem isPoolList_nodup (heap : List (Option TCGPool)) (l : List Nat) :
    ∀ start, IsPoolList heap start l → l.Nodup := by
  induction l with
  | nil => intro _ _; exact List.nodup_nil
  | cons a l ih =>
    intro start h
    obtain ⟨e1, pool, hp, hr⟩ := h
    refine List.nodup_cons.mpr ⟨?_, ih _ hr⟩
    intro ha
    obtain ⟨l1, l2, e, hs⟩ := isPoolList_suffix heap l _ a hr ha
    have hfull : IsPoolList heap (some a) (a :: l) := ⟨rfl, pool, hp, hr⟩
    have := isPoolList_unique heap _ _ _ hfull hs
    have hlen := congrArg List.length this
    rw [e] at hlen
    simp only [List.length_cons, List.length_append] at hlen
    omega

theorem isPoolList_lt (heap : List (Option TCGPool)) (l : List Nat) :
    ∀ start, IsPoolList heap start l → ∀ a ∈ l, a < heap.length := by
  induction l with
  | nil => intro _ _ a ha; cases ha
  | cons b l ih =>
    intro start h a ha
    obtain ⟨e1, pool, hp, hr⟩ := h
    rcases List.mem_cons.mp ha with rfl | ha'
    · exact (List.getElem?_eq_some.mp hp).1
    · exact ih _ hr a ha'

/-- the heap after the blocks `l` are freed -/
theorem free_large_ok (l : List Nat) :
    ∀ (fuel : Nat) (heap : List (Option TCGPool)) (start : Option Nat),
      IsPoolList heap start l → l.length ≤ fuel →
      ∃ heap', free_large fuel heap start = Except.ok heap'
        ∧ heap'.length = heap.length
        ∧ ∀ a, a ∉ l → heap'[a]? = heap[a]? := by
  induction l with
  | nil =>
    intro fuel heap start h _
    have e : start = none := h
    subst e
    refine ⟨heap, ?_, rfl, fun _ _ => rfl⟩
    cases fuel <;> rfl
  | cons b l ih =>
    intro fuel heap start h hf
    have hnd := isPoolList_nodup heap _ _ h
    obtain ⟨e1, pool, hp, hr⟩ := h
    subst e1
    cases fuel with
    | zero => simp at hf
    | succ fuel =>
      have hb : b ∉ l := (List.nodup_cons.mp hnd).1
      have hr' : IsPoolList (heap.set b none) pool.next l := by
        apply isPoolList_congr heap _ l _ hr
        intro a ha
        rw [List.getElem?_set_ne]
        intro e
        subst e
        exact hb ha
      obtain ⟨heap', h1, h2, h3⟩ := ih fuel _ _ hr' (by simpa using hf)
      refine ⟨heap', ?_, ?_, ?_⟩
      · show (rdp heap b >>= fun pool => free_large fuel (heap.set b none) pool.next) = _
        rw [rdp_ok heap b pool hp]
        exact h1
      · rw [h2, List.length_set]
      · intro a ha
        have ha1 : a ≠ b := fun e => ha (by rw [e]; exact List.mem_cons_self _ _)
        have ha2 : a ∉ l := fun e => ha (List.mem_cons_of_mem _ e)
        rw [h3 a ha2, List.getElem?_set_ne (fun e => ha1 e.symm)]

theorem isPoolList_append_heap (heap : List (Option TCGPool)) (x : Option TCGPool)
    (l : List Nat) (start : Option Nat) (h : IsPoolList heap start l) :
    IsPoolList (heap ++ [x]) start l := by
  apply isPoolList_congr heap _ l _ h
  intro a ha
  have := isPoolList_lt heap l start h a ha
  rw [List.getElem?_append_left this]

/-- a chunk linked after the last chunk of the list -/
theorem isPoolList_snoc (heap : List (Option TCGPool)) (l : List Nat) :
    ∀ (start : Option Nat) (pc : Nat) (cur : TCGPool) (chunk : TCGPool),
      IsPoolList heap start l → pc ∈ l → heap[pc]? = some (some cur) → cur.next = none →
      chunk.next = none →
      IsPoolList ((heap ++ [some chunk]).set pc (some { cur with next := some heap.length }))
        start (l ++ [heap.length]) := by
  induction l with
  | nil => intro _ pc _ _ _ hpc; cases hpc
  | cons b l ih =>
    intro start pc cur chunk h hpc hcur hnext hchunk
    have hnd := isPoolList_nodup heap _ _ h
    have hlt := isPoolList_lt heap _ _ h
    obtain ⟨e1, pool, hp, hr⟩ := h
    have hbl : b < heap.length := hlt b (List.mem_cons_self _ _)
    by_cases e : pc = b
    · subst e
      rw [hcur] at hp
      cases hp
      rw [hnext] at hr
      cases l with
      | cons c l => exact absurd hr.1 (by simp)
      | nil =>
        refine ⟨e1, { cur with next := some heap.length }, ?_, rfl, chunk, ?_, hchunk⟩
        · rw [List.getElem?_set_self (by rw [List.length_append]; omega)]
        · rw [List.getElem?_set_ne (by omega), List.getElem?_append_right (Nat.le_refl _)]
          simp
    · have hpc' : pc ∈ l := by
        rcases List.mem_cons.mp hpc with h | h
        · exact absurd h e
        · exact h
      refine ⟨e1, pool, ?_, ih _ pc cur chunk hr hpc' hcur hnext hchunk⟩
      rw [List.getElem?_set_ne e, List.getElem?_append_left hbl]
      exact hp

/-- a chunk linked after a pool that is not on the list leaves the list as it is -/
theorem isPoolList_set_other (heap : List (Option TCGPool)) (l : List Nat)
    (start : Option Nat) (pc : Nat) (x y : Option TCGPool)
    (h : IsPoolList heap start l) (hpc : pc ∉ l) :
    IsPoolList ((heap ++ [x]).set pc y) start l := by
  apply isPoolList_congr heap _ l _ h
  intro a ha
  have := isPoolList_lt heap l start h a ha
  rw [List.getElem?_set_ne (fun e => hpc (by rw [e]; exact ha)), List.getElem?_append_left this]

theorem isPoolList_get (heap : List (Option TCGPool)) (l : List Nat) (start : Option Nat)
    (a : Nat) (h : IsPoolList heap start l) (ha : a ∈ l) :
    ∃ pool, heap[a]? = some (some pool) := by
  obtain ⟨l1, l2, _, hs⟩ := isPoolList_suffix heap l start a h ha
  obtain ⟨_, pool, hp, _⟩ := hs
  exact ⟨pool, hp⟩

theorem isPoolList_next (heap : List (Option TCGPool)) (l : List Nat) (start : Option Nat)
    (pc n : Nat) (cur : TCGPool) (h : IsPoolList heap start l) (hpc : pc ∈ l)
    (hcur : heap[pc]? = some (some cur)) (hn : cur.next = some n) :
    ∃ pool, heap[n]? = some (some pool) := by
  obtain ⟨l1, l2, _, hs⟩ := isPoolList_suffix heap l start pc h hpc
  obtain ⟨_, pool, hp, hr⟩ := hs
  rw [hcur] at hp
  cases hp
  rw [hn] at hr
  cases l2 with
  | nil => exact absurd hr (by simp [IsPoolList])
  | cons b l2 =>
    obtain ⟨e, pool2, hp2, _⟩ := hr
    cases e
    exact ⟨pool2, hp2⟩

/-- `tcg_pool_reset` on a context whose chunk list and large list are well formed -/
theorem tcg_pool_reset_ok (s : PoolCtx) (c L : List Nat)
    (hc : IsPoolList s.heap s.pool_first c) (hL : IsPoolList s.heap s.pool_first_large L)
    (hd : ∀ a ∈ c, a ∉ L) :
    ∃ heap, tcg_pool_reset s
        = Except.ok { s with heap := heap, pool_first_large := none, pool_cur := none,
                             pool_end := none, pool_current := none }
      ∧ IsPoolList heap s.pool_first c ∧ ∀ a ∈ c, heap[a]? = s.heap[a]? := by
  have hlen : L.length ≤ s.heap.length :=
    nodup_length_le L _ (isPoolList_nodup _ _ _ hL) (isPoolList_lt _ _ _ hL)
  obtain ⟨heap, h1, _, h3⟩ := free_large_ok L s.heap.length s.heap s.pool_first_large hL hlen
  refine ⟨heap, ?_, ?_, fun a ha => h3 a (hd a ha)⟩
  · unfold tcg_pool_reset
    rw [h1]
    rfl
  · exact isPoolList_congr s.heap heap c _ hc (fun a ha => h3 a (hd a ha))

/-- a request of at most `chunk_size` bytes when no chunk is current -/
theorem tcg_malloc_first (chunk_size : Nat) (s : PoolCtx) (size p : Nat) (pool : TCGPool)
    (hs : size ≤ chunk_size) (hcur : s.pool_current = none) (hf : s.pool_first = some p)
    (hp : s.heap[p]? = some (some pool)) :
    tcg_malloc_internal chunk_size s size
      = Except.ok ((p, 0), { s with pool_current := some p, pool_cur := some (p, size),
                                    pool_end := some (p, pool.size) }) := by
  unfold tcg_malloc_internal
  rw [if_neg (by omega)]
  simp only [hcur, hf, bind, Except.bind, pure, Except.pure, rdp_ok _ _ _ hp]

/-- Claim C22: the pool allocator, on a context whose chunk list `c` (from
`pool_first`) and large list `L` (from `pool_first_large`) are well-formed lists
without a common block. `tcg_pool_reset` returns; it empties the large list, sets
`pool_current`, `pool_cur` and `pool_end` to null and leaves `pool_first` and every
chunk of the chunk list as they are; after it, a request of at most
`TCG_POOL_CHUNK_SIZE` bytes returns the data area of the first chunk and creates no
chunk. In general such a request (with `pool_current` null or on the chunk list)
returns, and it creates a chunk exactly when nothing follows the current position
(the current chunk has no successor, or there is no chunk at all); the new chunk is
appended to the chunk list, which otherwise stays as it is, and the large list is not
touched. A larger request returns the data area of a new segment put at the head of
the large list, and leaves `pool_current`, `pool_cur`, `pool_end` and the chunk list
unchanged. -/
theorem pool_reset_and_malloc (chunk_size : Nat) (s : PoolCtx) (c L : List Nat)
    (hc : IsPoolList s.heap s.pool_first c) (hL : IsPoolList s.heap s.pool_first_large L)
    (hd : ∀ a ∈ c, a ∉ L) :
    (∃ s1, tcg_pool_reset s = Except.ok s1
      ∧ s1.pool_first_large = none ∧ s1.pool_current = none ∧ s1.pool_cur = none
      ∧ s1.pool_end = none ∧ s1.pool_first = s.pool_first
      ∧ IsPoolList s1.heap s1.pool_first c ∧ (∀ a ∈ c, s1.heap[a]? = s.heap[a]?)
      ∧ ∀ size p pool, size ≤ chunk_size → s.pool_first = some p →
          s.heap[p]? = some (some pool) →
          tcg_malloc_internal chunk_size s1 size
            = Except.ok ((p, 0), { s1 with pool_current := some p, pool_cur := some (p, size),
                                           pool_end := some (p, pool.size) }))
    ∧ (∀ size, size ≤ chunk_size →
        (s.pool_current = none ∨ ∃ pc, s.pool_current = some pc ∧ pc ∈ c) →
        ∃ r s2, tcg_malloc_internal chunk_size s size = Except.ok (r, s2)
          ∧ s2.pool_first_large = s.pool_first_large
          ∧ IsPoolList s2.heap s2.pool_first_large L
          ∧ (((s.pool_current = none ∧ s.pool_first = none)
                ∨ ∃ pc cur, s.pool_current = some pc ∧ s.heap[pc]? = some (some cur)
                    ∧ cur.next = none)
              → s2.heap.length = s.heap.length + 1
                ∧ IsPoolList s2.heap s2.pool_first (c ++ [s.heap.length])
                ∧ r = (s.heap.length, 0))
          ∧ (¬ ((s.pool_current = none ∧ s.pool_first = none)
                ∨ ∃ pc cur, s.pool_current = some pc ∧ s.heap[pc]? = some (some cur)
                    ∧ cur.next = none)
              → s2.heap = s.heap ∧ s2.pool_first = s.pool_first))
    ∧ (∀ size, chunk_size < size →
        tcg_malloc_internal chunk_size s size
          = Except.ok ((s.heap.length, 0),
              { s with heap := s.heap ++ [some { next := s.pool_first_large, size := size }],
                       pool_first_large := some s.heap.length })
        ∧ IsPoolList (s.heap ++ [some { next := s.pool_first_large, size := size }])
            s.pool_first c
        ∧ IsPoolList (s.heap ++ [some { next := s.pool_first_large, size := size }])
            (some s.heap.length) (s.heap.length :: L)) := by
  refine ⟨?_, ?_, ?_⟩
  · obtain ⟨heap, h1, h2, h3⟩ := tcg_pool_reset_ok s c L hc hL hd
    refine ⟨_, h1, rfl, rfl, rfl, rfl, rfl, h2, h3, ?_⟩
    intro size p pool hs hf hp
    have hpc : p ∈ c := by
      cases c with
      | nil =>
        have : s.pool_first = none := hc
        rw [this] at hf
        cases hf
      | cons b c =>
        obtain ⟨e, _⟩ := hc
        rw [e] at hf
        cases hf
        exact List.mem_cons_self _ _
    exact tcg_malloc_first chunk_size _ size p pool hs rfl hf (by rw [h3 p hpc]; exact hp)
  · intro size hs hwf
    have hlt := isPoolList_lt _ _ _ hc
    have hltL := isPoolList_lt _ _ _ hL
    cases hcur : s.pool_current with
    | none =>
      cases hf : s.pool_first with
      | none =>
        have hc0 : c = [] := by
          cases c with
          | nil => rfl
          | cons b c =>
            obtain ⟨e, _⟩ := hc
            rw [hf] at e
            cases e
        subst hc0
        refine ⟨(s.heap.length, 0),
          { s with heap := s.heap ++ [some { next := none, size := chunk_size }],
                   pool_first := some s.heap.length, pool_current := some s.heap.length,
                   pool_cur := some (s.heap.length, size),
                   pool_end := some (s.heap.length, chunk_size) }, ?_, rfl, ?_, ?_, ?_⟩
        · unfold tcg_malloc_internal new_pool
          rw [if_neg (by omega)]
          simp only [hcur, hf, bind, Except.bind, pure, Except.pure]
          rw [rdp_ok _ _ ({ next := none, size := chunk_size } : TCGPool)
            (by rw [List.getElem?_append_right (Nat.le_refl _)]; simp)]
        · exact isPoolList_append_heap _ _ _ _ hL
        · intro _
          refine ⟨by simp, ?_, rfl⟩
          refine ⟨rfl, { next := none, size := chunk_size }, ?_, rfl⟩
          rw [List.getElem?_append_right (Nat.le_refl _)]
          simp
        · intro hn
          exact absurd (Or.inl ⟨rfl, rfl⟩) hn
      | some p =>
        have hpc : p ∈ c := by
          cases c with
          | nil =>
            have : s.pool_first = none := hc
            rw [this] at hf
            cases hf
          | cons b c =>
            obtain ⟨e, _⟩ := hc
            rw [e] at hf
            cases hf
            exact List.mem_cons_self _ _
        obtain ⟨pool, hp⟩ := isPoolList_get _ _ _ p hc hpc
        refine ⟨(p, 0), _, tcg_malloc_first chunk_size s size p pool hs hcur hf hp, rfl, hL,
          ?_, ?_⟩
        · rintro (⟨_, h⟩ | ⟨pc, cur, h, _⟩)
          · cases h
          · cases h
        · intro _
          exact ⟨rfl, hf⟩
    | some pc =>
      have hpc : pc ∈ c := by
        rcases hwf with h | ⟨pc', h, hm⟩
        · rw [hcur] at h
          cases h
        · rw [hcur] at h
          cases h
          exact hm
      obtain ⟨cur, hcurp⟩ := isPoolList_get _ _ _ pc hc hpc
      cases hn : cur.next with
      | some n =>
        obtain ⟨pool, hp⟩ := isPoolList_next _ _ _ pc n cur hc hpc hcurp hn
        refine ⟨(n, 0), { s with pool_current := some n, pool_cur := some (n, size),
                                 pool_end := some (n, pool.size) }, ?_, rfl, hL, ?_, ?_⟩
        · unfold tcg_malloc_internal
          rw [if_neg (by omega)]
          simp only [hcur, bind, Except.bind, pure, Except.pure, rdp_ok _ _ _ hcurp, hn,
            rdp_ok _ _ _ hp]
        · rintro (⟨h, _⟩ | ⟨pc', cur', h, h2, h3⟩)
          · cases h
          · cases h
            rw [hcurp] at h2
            cases h2
            rw [hn] at h3
            cases h3
        · intro _
          exact ⟨rfl, rfl⟩
      | none =>
        have hpclt : pc < s.heap.length := hlt pc hpc
        have hpcL : pc ∉ L := hd pc hpc
        refine ⟨(s.heap.length, 0),
          { s with heap := (s.heap ++ [some ({ next := none, size := chunk_size } : TCGPool)]).set pc
                     (some { cur with next := some s.heap.length }),
                   pool_current := some s.heap.length,
                   pool_cur := some (s.heap.length, size),
                   pool_end := some (s.heap.length, chunk_size) }, ?_, rfl, ?_, ?_, ?_⟩
        · unfold tcg_malloc_internal new_pool
          rw [if_neg (by omega)]
          simp only [hcur, bind, Except.bind, pure, Except.pure, rdp_ok _ _ _ hcurp, hn]
          rw [rdp_ok _ pc cur (by rw [List.getElem?_append_left hpclt]; exact hcurp)]
          simp only []
          rw [rdp_ok _ s.heap.length ({ next := none, size := chunk_size } : TCGPool)
            (by
              rw [List.getElem?_set_ne (by omega),
                List.getElem?_append_right (Nat.le_refl _)]
              simp)]
        · exact isPoolList_set_other _ _ _ _ _ _ hL hpcL
        · intro _
          refine ⟨by simp, ?_, rfl⟩
          exact isPoolList_snoc s.heap c s.pool_first pc cur _ hc hpc hcurp hn rfl
        · intro hne
          exact absurd (Or.inr ⟨pc, cur, rfl, hcurp, hn⟩) hne
  · intro size hs
    refine ⟨?_, isPoolList_append_heap _ _ _ _ hc, ?_⟩
    · unfold tcg_malloc_internal
      rw [if_pos hs]
      rfl
    · refine ⟨rfl, { next := s.pool_first_large, size := size }, ?_,
        isPoolList_append_heap _ _ _ _ hL⟩
      rw [List.getElem?_append_right (Nat.le_refl _)]
      simp

theorem pool_reset_and_malloc_witness :
    IsPoolList exPool.heap exPool.pool_first [0, 2]
    ∧ IsPoolList exPool.heap exPool.pool_first_large [1]
    ∧ tcg_pool_reset exPool
        = Except.ok { heap := [some ⟨some 2, 64⟩, none, some ⟨none, 64⟩],
                      pool_first := some 0, pool_current := none, pool_first_large := none,
                      pool_cur := none, pool_end := none }
    ∧ (∃ s1, tcg_pool_reset exPool = Except.ok s1
        ∧ tcg_malloc_internal 64 s1 16
            = Except.ok ((0, 0), { s1 with pool_current := some 0, pool_cur := some (0, 16),
                                           pool_end := some (0, 64) })) := by
  have hc : IsPoolList exPool.heap exPool.pool_first [0, 2] :=
    ⟨rfl, ⟨some 2, 64⟩, rfl, rfl, ⟨none, 64⟩, rfl, rfl⟩
  have hL : IsPoolList exPool.heap exPool.pool_first_large [1] :=
    ⟨rfl, ⟨none, 1000⟩, rfl, rfl⟩
  obtain ⟨s1, h1, _, _, _, _, _, _, _, h2⟩ :=
    (pool_reset_and_malloc 64 exPool [0, 2] [1] hc hL (by decide)).1
  exact ⟨hc, hL, by decide, s1, h1, h2 16 0 ⟨some 2, 64⟩ (by decide) rfl rfl⟩


/-! ### Helper calls (`tcg_gen_callN`) -/

theorem callInv_refl (a : CallAcc) : CallInv a a [] :=
  ⟨rfl, rfl, fun j hj => absurd hj (by simp), fun _ _ => rfl⟩

theorem callInv_trans (a b c : CallAcc) (l1 l2 : List TCGArg)
    (h1 : CallInv a b l1) (h2 : CallInv b c l2) : CallInv a c (l1 ++ l2) := by
  obtain ⟨p1, n1, i1, o1⟩ := h1
  obtain ⟨p2, n2, i2, o2⟩ := h2
  refine ⟨?_, ?_, ?_, ?_⟩
  · rw [p2, p1, List.length_append]; omega
  · rw [n2, n1]
  · intro j hj
    rw [List.length_append] at hj
    by_cases hlt : j < l1.length
    · rw [List.getElem?_append_left hlt, o2 _ (Or.inl (by omega)), i1 j hlt]
    · have hge : l1.length ≤ j := Nat.le_of_not_lt hlt
      rw [List.getElem?_append_right hge]
      have := i2 (j - l1.length) (by omega)
      rw [p1] at this
      rw [← this]
      congr 1
      omega
  · intro j hj
    rw [List.length_append] at hj
    rw [o2 j (by omega), o1 j (by omega)]

theorem call_push_ok (a : CallAcc) (v : TCGArg) (h : a.pi < a.buf.length) :
    call_push a v = Except.ok { a with buf := a.buf.set a.pi v, pi := a.pi + 1 } := by
  unfold call_push wr
  rw [if_pos h]
  rfl

theorem callInv_push (a : CallAcc) (v : TCGArg) (r : Nat) (h : a.pi < a.buf.length) :
    CallInv a { buf := a.buf.set a.pi v, pi := a.pi + 1, real_args := r } [v] := by
  refine ⟨rfl, by simp, ?_, ?_⟩
  · intro j hj
    have : j = 0 := by simpa using hj
    subst this
    simp [h]
  · intro j hj
    simp only [List.length_singleton] at hj
    show (a.buf.set a.pi v)[j]? = a.buf[j]?
    rw [List.getElem?_set_ne (by omega)]

theorem callInv_real_args (a b : CallAcc) (l : List TCGArg) (r : Nat) (h : CallInv a b l) :
    CallInv a { b with real_args := r } l := h

theorem call_push_bind {β : Type} (a : CallAcc) (v : TCGArg) (f : CallAcc → Except Fault β)
    (h : a.pi < a.buf.length) :
    (call_push a v >>= f) = f { a with buf := a.buf.set a.pi v, pi := a.pi + 1 } := by
  rw [call_push_ok a v h]
  rfl

/-- one iteration of the loop over the arguments -/
theorem call_arg_ok (cfg : Config) (sizemask : Nat) (args : List TCGArg) (a : CallAcc)
    (i : Nat) (hi : i < args.length)
    (hroom : a.pi + (arg_slots cfg sizemask (args.getD i 0) i a.real_args).length
      ≤ a.buf.length) :
    ∃ b, call_arg cfg sizemask args a i = Except.ok b
      ∧ CallInv a b (arg_slots cfg sizemask (args.getD i 0) i a.real_args)
      ∧ b.real_args
          = a.real_args + (arg_slots cfg sizemask (args.getD i 0) i a.real_args).length := by
  have hrd : rd args i = Except.ok (args.getD i 0) := by
    apply rd_of_getElem?
    rw [List.getD_eq_getElem?_getD, List.getElem?_eq_getElem hi]
    rfl
  unfold call_arg
  rw [hrd]
  unfold arg_slots at hroom ⊢
  by_cases h64 : (cfg.TCG_TARGET_REG_BITS < 64 && sizemask &&& (1 <<< ((i + 1) * 2)) != 0) = true
  · by_cases hpad : (cfg.TCG_TARGET_CALL_ALIGN_ARGS && a.real_args &&& 1 != 0) = true
    · by_cases hbe : (cfg.HOST_WORDS_BIGENDIAN != cfg.TCG_TARGET_STACK_GROWSUP) = true
      · simp only [h64, hpad, hbe, if_true, List.length_append, List.length_singleton,
          List.length_cons, List.length_nil] at hroom ⊢
        have p1 : a.pi < a.buf.length := by omega
        have p2 : a.pi + 1 < a.buf.length := by omega
        have p3 : a.pi + 1 + 1 < a.buf.length := by omega
        refine ⟨{ buf := ((a.buf.set a.pi cfg.TCG_CALL_DUMMY_ARG).set (a.pi + 1)
                    (args.getD i 0 + 1)).set (a.pi + 1 + 1) (args.getD i 0),
                  pi := a.pi + 1 + 1 + 1, real_args := a.real_args + 1 + 2 }, ?_, ?_, ?_⟩
        · simp only [bind, Except.bind, pure, Except.pure, call_push_ok, List.length_set,
            p1, p2, p3]
        · have h1 := callInv_push a cfg.TCG_CALL_DUMMY_ARG (a.real_args + 1 + 2) p1
          have h2 := callInv_push _ (args.getD i 0 + 1) (a.real_args + 1 + 2)
            (show ({ buf := a.buf.set a.pi cfg.TCG_CALL_DUMMY_ARG, pi := a.pi + 1,
                     real_args := a.real_args + 1 + 2 } : CallAcc).pi < _ by
              simp only [List.length_set]; omega)
          have h3 := callInv_push _ (args.getD i 0) (a.real_args + 1 + 2)
            (show ({ buf := (a.buf.set a.pi cfg.TCG_CALL_DUMMY_ARG).set (a.pi + 1)
                       (args.getD i 0 + 1), pi := a.pi + 1 + 1,
                     real_args := a.real_args + 1 + 2 } : CallAcc).pi < _ by
              simp only [List.length_set]; omega)
          exact callInv_trans _ _ _ [_] [_, _] h1 (callInv_trans _ _ _ [_] [_] h2 h3)
        · show a.real_args + 1 + 2 = _
          omega
      · have hbe' : (cfg.HOST_WORDS_BIGENDIAN != cfg.TCG_TARGET_STACK_GROWSUP) = false :=
          Bool.not_eq_true _ ▸ hbe
        simp only [h64, hpad, hbe', if_true, Bool.false_eq_true, if_false, List.length_append,
          List.length_singleton, List.length_cons, List.length_nil] at hroom ⊢
        have p1 : a.pi < a.buf.length := by omega
        have p2 : a.pi + 1 < a.buf.length := by omega
        have p3 : a.pi + 1 + 1 < a.buf.length := by omega
        refine ⟨{ buf := ((a.buf.set a.pi cfg.TCG_CALL_DUMMY_ARG).set (a.pi + 1)
                    (args.getD i 0)).set (a.pi + 1 + 1) (args.getD i 0 + 1),
                  pi := a.pi + 1 + 1 + 1, real_args := a.real_args + 1 + 2 }, ?_, ?_, ?_⟩
        · simp only [bind, Except.bind, pure, Except.pure, call_push_ok, List.length_set,
            p1, p2, p3]
        · have h1 := callInv_push a cfg.TCG_CALL_DUMMY_ARG (a.real_args + 1 + 2) p1
          have h2 := callInv_push _ (args.getD i 0) (a.real_args + 1 + 2)
            (show ({ buf := a.buf.set a.pi cfg.TCG_CALL_DUMMY_ARG, pi := a.pi + 1,
                     real_args := a.real_args + 1 + 2 } : CallAcc).pi < _ by
              simp only [List.length_set]; omega)
          have h3 := callInv_push _ (args.getD i 0 + 1) (a.real_args + 1 + 2)
            (show ({ buf := (a.buf.set a.pi cfg.TCG_CALL_DUMMY_ARG).set (a.pi + 1)
                       (args.getD i 0), pi := a.pi + 1 + 1,
                     real_args := a.real_args + 1 + 2 } : CallAcc).pi < _ by
              simp only [List.length_set]; omega)
          exact callInv_trans _ _ _ [_] [_, _] h1 (callInv_trans _ _ _ [_] [_] h2 h3)
        · show a.real_args + 1 + 2 = _
          omega
    · have hpad' : (cfg.TCG_TARGET_CALL_ALIGN_ARGS && a.real_args &&& 1 != 0) = false :=
        Bool.not_eq_true _ ▸ hpad
      by_cases hbe : (cfg.HOST_WORDS_BIGENDIAN != cfg.TCG_TARGET_STACK_GROWSUP) = true
      · simp only [h64, hpad', hbe, if_true, Bool.false_eq_true, if_false, List.length_append,
          List.nil_append, List.length_cons, List.length_nil] at hroom ⊢
        have p1 : a.pi < a.buf.length := by omega
        have p2 : a.pi + 1 < a.buf.length := by omega
        refine ⟨{ buf := (a.buf.set a.pi (args.getD i 0 + 1)).set (a.pi + 1) (args.getD i 0),
                  pi := a.pi + 1 + 1, real_args := a.real_args + 2 }, ?_, ?_, ?_⟩
        · simp only [bind, Except.bind, pure, Except.pure, call_push_ok, List.length_set,
            p1, p2]
        · have h2 := callInv_push a (args.getD i 0 + 1) (a.real_args + 2) p1
          have h3 := callInv_push _ (args.getD i 0) (a.real_args + 2)
            (show ({ buf := a.buf.set a.pi (args.getD i 0 + 1), pi := a.pi + 1,
                     real_args := a.real_args + 2 } : CallAcc).pi < _ by
              simp only [List.length_set]; omega)
          exact callInv_trans _ _ _ [_] [_] h2 h3
        · show a.real_args + 2 = _
          omega
      · have hbe' : (cfg.HOST_WORDS_BIGENDIAN != cfg.TCG_TARGET_STACK_GROWSUP) = false :=
          Bool.not_eq_true _ ▸ hbe
        simp only [h64, hpad', hbe', if_true, Bool.false_eq_true, if_false, List.length_append,
          List.nil_append, List.length_cons, List.length_nil] at hroom ⊢
        have p1 : a.pi < a.buf.length := by omega
        have p2 : a.pi + 1 < a.buf.length := by omega
        refine ⟨{ buf := (a.buf.set a.pi (args.getD i 0)).set (a.pi + 1) (args.getD i 0 + 1),
                  pi := a.pi + 1 + 1, real_args := a.real_args + 2 }, ?_, ?_, ?_⟩
        · simp only [bind, Except.bind, pure, Except.pure, call_push_ok, List.length_set,
            p1, p2]
        · have h2 := callInv_push a (args.getD i 0) (a.real_args + 2) p1
          have h3 := callInv_push _ (args.getD i 0 + 1) (a.real_args + 2)
            (show ({ buf := a.buf.set a.pi (args.getD i 0), pi := a.pi + 1,
                     real_args := a.real_args + 2 } : CallAcc).pi < _ by
              simp only [List.length_set]; omega)
          exact callInv_trans _ _ _ [_] [_] h2 h3
        · show a.real_args + 2 = _
          omega
  · have h64' : (cfg.TCG_TARGET_REG_BITS < 64 && sizemask &&& (1 <<< ((i + 1) * 2)) != 0)
        = false := Bool.not_eq_true _ ▸ h64
    simp only [h64', Bool.false_eq_true, if_false, List.length_singleton] at hroom ⊢
    have p1 : a.pi < a.buf.length := by omega
    refine ⟨{ buf := a.buf.set a.pi (args.getD i 0), pi := a.pi + 1,
              real_args := a.real_args + 1 }, ?_, callInv_push a _ _ p1, rfl⟩
    simp only [bind, Except.bind, pure, Except.pure, call_push_ok, p1]

theorem call_slots_length_mono (cfg : Config) (sizemask : Nat) (args : List TCGArg) (n : Nat) :
    (call_slots cfg sizemask args n).length ≤ (call_slots cfg sizemask args (n + 1)).length := by
  simp [call_slots]

/-- the loop over the arguments -/
theorem call_args_ok (cfg : Config) (sizemask : Nat) (args : List TCGArg) (a : CallAcc)
    (h0 : a.real_args = 0) :
    ∀ n, n ≤ args.length →
      a.pi + (call_slots cfg sizemask args n).length ≤ a.buf.length →
      ∃ b, (List.range n).foldlM (call_arg cfg sizemask args) a = Except.ok b
        ∧ CallInv a b (call_slots cfg sizemask args n)
        ∧ b.real_args = (call_slots cfg sizemask args n).length := by
  intro n
  induction n with
  | zero =>
    intro _ _
    exact ⟨a, rfl, callInv_refl a, h0⟩
  | succ n ih =>
    intro hn hroom
    obtain ⟨b, hb, hinv, hra⟩ := ih (by omega)
      (Nat.le_trans (Nat.add_le_add_left (call_slots_length_mono cfg sizemask args n) _) hroom)
    have hroom' : b.pi + (arg_slots cfg sizemask (args.getD n 0) n b.real_args).length
        ≤ b.buf.length := by
      rw [hinv.1, hinv.2.1, hra]
      simp only [call_slots, List.length_append] at hroom
      omega
    obtain ⟨c, hc, hinv2, hra2⟩ := call_arg_ok cfg sizemask args b n (by omega) hroom'
    refine ⟨c, ?_, ?_, ?_⟩
    · rw [List.range_succ, List.foldlM_append, hb]
      simp only [bind, Except.bind, List.foldlM_cons, List.foldlM_nil]
      rw [hc]
      rfl
    · have := callInv_trans a b c _ _ hinv hinv2
      rw [hra] at this
      exact this
    · rw [hra2, hra]
      simp [call_slots]
theorem returns_of_eq {α : Type} (x : Except Fault α) (a : α) (P : α → Prop)
    (h : x = Except.ok a) : Returns x P ↔ P a := by
  unfold Returns
  constructor
  · rintro ⟨b, hb, hp⟩
    rw [h] at hb
    cases hb
    exact hp
  · intro hp
    exact ⟨a, h, hp⟩

theorem returns_pure_iff {α : Type} (a : α) (P : α → Prop) :
    Returns (pure a : Except Fault α) P ↔ P a :=
  returns_of_eq _ a P rfl

theorem returns_throw_iff {α : Type} (e : Fault) (P : α → Prop) :
    Returns (throw e : Except Fault α) P ↔ False := by
  unfold Returns
  constructor
  · rintro ⟨b, hb, _⟩
    cases hb
  · exact False.elim

theorem returns_bind_iff {α β : Type} (x : Except Fault α) (f : α → Except Fault β)
    (Q : β → Prop) : Returns (x >>= f) Q ↔ Returns x (fun a => Returns (f a) Q) := by
  unfold Returns
  cases x with
  | error e =>
    constructor
    · rintro ⟨b, hb, _⟩
      cases hb
    · rintro ⟨a, ha, _⟩
      cases ha
  | ok a =>
    constructor
    · rintro ⟨b, hb, hq⟩
      exact ⟨a, rfl, b, hb, hq⟩
    · rintro ⟨a1, ha, b, hb, hq⟩
      cases ha
      exact ⟨b, hb, hq⟩

theorem returns_ite_iff {α : Type} (c : Prop) [Decidable c] (x y : Except Fault α)
    (P : α → Prop) :
    Returns (if c then x else y) P ↔ (c → Returns x P) ∧ (¬ c → Returns y P) := by
  by_cases h : c
  · simp [h]
  · simp [h]

theorem returns_wr_iff {α : Type} (l : List α) (i : Nat) (x : α) (P : List α → Prop) :
    Returns (wr l i x) P ↔ i < l.length ∧ P (l.set i x) := by
  unfold wr
  by_cases h : i < l.length
  · simp only [h, if_true, true_and]
    exact returns_pure_iff _ P
  · simp only [h, if_false, false_and]
    exact returns_throw_iff _ P

theorem returns_call_push_iff (a : CallAcc) (v : TCGArg) (P : CallAcc → Prop) :
    Returns (call_push a v) P
      ↔ a.pi < a.buf.length ∧ P { a with buf := a.buf.set a.pi v, pi := a.pi + 1 } := by
  unfold call_push
  rw [returns_bind_iff, returns_wr_iff]
  simp only [returns_pure_iff]

theorem returns_mono {α : Type} (x : Except Fault α) (P Q : α → Prop)
    (h : Returns x P) (hpq : ∀ a, P a → Q a) : Returns x Q := by
  obtain ⟨a, ha, hp⟩ := h
  exact ⟨a, ha, hpq a hp⟩
/-- the loop over the arguments and the two trailing parameters -/
theorem call_tail (cfg : Config) (sizemask : Nat) (args : List TCGArg) (nargs : Nat)
    (func flags : Nat) (a0 A : CallAcc) (rets : List TCGArg)
    (hinv : CallInv a0 A rets) (h0 : A.real_args = 0) (hn : nargs ≤ args.length)
    (hroom : a0.pi + (rets.length + (call_slots cfg sizemask args nargs).length + 2)
      ≤ a0.buf.length) :
    Returns ((List.range nargs).foldlM (call_arg cfg sizemask args) A) (fun a =>
      a.pi = a0.pi + (rets.length + (call_slots cfg sizemask args nargs).length)
      ∧ a.buf.length = a0.buf.length
      ∧ a.real_args = (call_slots cfg sizemask args nargs).length
      ∧ CallInv a0 ⟨(a.buf.set a.pi func).set (a.pi + 1) flags, a.pi + 1 + 1, 0⟩
          (rets ++ call_slots cfg sizemask args nargs ++ [func, flags])) := by
  obtain ⟨b, hb, hcb, hra⟩ := call_args_ok cfg sizemask args A h0 nargs hn
    (by rw [hinv.1, hinv.2.1]; omega)
  rw [returns_of_eq _ b _ hb]
  have hpi : b.pi = a0.pi + (rets.length + (call_slots cfg sizemask args nargs).length) := by
    rw [hcb.1, hinv.1]; omega
  have hlen : b.buf.length = a0.buf.length := by rw [hcb.2.1, hinv.2.1]
  refine ⟨hpi, hlen, hra, ?_⟩
  have h1 := callInv_push b func 0 (by omega)
  have h2 := callInv_push ⟨b.buf.set b.pi func, b.pi + 1, 0⟩ flags 0
    (by simp only [List.length_set]; omega)
  have := callInv_trans _ _ _ _ _ (callInv_trans _ _ _ _ _ hinv hcb)
    (callInv_trans _ _ _ [_] [_] h1 h2)
  exact this

theorem call_rets_length_le (cfg : Config) (sizemask : Nat) (ret : TCGArg) :
    (call_rets cfg sizemask ret).length ≤ 2 := by
  unfold call_rets
  split
  · split
    · split <;> simp
    · simp
  · simp

theorem tcg_gen_callN_ok (cfg : Config) (s : TCGContext) (func : Nat) (ret : TCGArg)
    (nargs : Nat) (args : List TCGArg) (info : TCGHelperInfo)
    (hh : cfg.helpers func = some info)
    (hn : nargs ≤ args.length)
    (hroom : s.gen_next_parm_idx + ((call_rets cfg info.sizemask ret).length
        + (call_slots cfg info.sizemask args nargs).length + 2) ≤ s.gen_opparam_buf.length)
    (hmax : s.gen_next_parm_idx + ((call_rets cfg info.sizemask ret).length
        + (call_slots cfg info.sizemask args nargs).length + 2) ≤ cfg.OPPARAM_BUF_SIZE)
    (hop : s.gen_next_op_idx < cfg.OPC_BUF_SIZE)
    (hop2 : s.gen_next_op_idx < s.gen_op_buf.length)
    (hcalli : (call_slots cfg info.sizemask args nargs).length < 2 ^ cfg.calli_bits) :
    Returns (tcg_gen_callN cfg s func ret nargs args) (fun s1 =>
      s1 = { s with
        gen_opparam_buf := s1.gen_opparam_buf,
        gen_op_buf := s.gen_op_buf.set s.gen_next_op_idx
          { opc := TCGOpcode.call, callo := (call_rets cfg info.sizemask ret).length,
            calli := (call_slots cfg info.sizemask args nargs).length,
            args := (s.gen_next_parm_idx : Int), prev := (s.gen_next_op_idx : Int) - 1,
            next := (s.gen_next_op_idx : Int) + 1 },
        gen_last_op_idx := (s.gen_next_op_idx : Int),
        gen_next_op_idx := s.gen_next_op_idx + 1,
        gen_next_parm_idx := s.gen_next_parm_idx + ((call_rets cfg info.sizemask ret).length
          + (call_slots cfg info.sizemask args nargs).length + 2) }
      ∧ CallInv ⟨s.gen_opparam_buf, s.gen_next_parm_idx, 0⟩
          ⟨s1.gen_opparam_buf, s1.gen_next_parm_idx, 0⟩
          (call_rets cfg info.sizemask ret ++ call_slots cfg info.sizemask args nargs
            ++ [func, info.flags])) := by
  have hmod := Nat.mod_eq_of_lt hcalli
  have key : ∀ (A : CallAcc), A.real_args = 0 →
      CallInv ⟨s.gen_opparam_buf, s.gen_next_parm_idx, 0⟩ A (call_rets cfg info.sizemask ret) →
      Returns ((List.range nargs).foldlM (call_arg cfg info.sizemask args) A) (fun a =>
        a.pi < a.buf.length ∧ a.pi + 1 < (a.buf.set a.pi func).length
        ∧ a.pi + 1 + 1 ≤ cfg.OPPARAM_BUF_SIZE
        ∧ a.real_args % 2 ^ cfg.calli_bits = a.real_args
        ∧ a.real_args = (call_slots cfg info.sizemask args nargs).length
        ∧ a.pi + 1 + 1 = s.gen_next_parm_idx + ((call_rets cfg info.sizemask ret).length
          + (call_slots cfg info.sizemask args nargs).length + 2)
        ∧ CallInv ⟨s.gen_opparam_buf, s.gen_next_parm_idx, 0⟩
            ⟨(a.buf.set a.pi func).set (a.pi + 1) info.flags, a.pi + 1 + 1, 0⟩
            (call_rets cfg info.sizemask ret ++ call_slots cfg info.sizemask args nargs
              ++ [func, info.flags])) := by
    intro A h0 hA
    refine returns_mono _ _ _
      (call_tail cfg info.sizemask args nargs func info.flags _ A _ hA h0 hn hroom) ?_
    rintro a ⟨hpi, hlen, hra, hc⟩
    simp only [List.length_set]
    have hpi2 : a.pi = s.gen_next_parm_idx + ((call_rets cfg info.sizemask ret).length
          + (call_slots cfg info.sizemask args nargs).length) := hpi
    have hlen2 : a.buf.length = s.gen_opparam_buf.length := hlen
    refine ⟨by omega, by omega, by omega, by rw [hra]; exact hmod, hra, by omega, hc⟩
  unfold tcg_gen_callN
  rw [hh]
  simp only [returns_bind_iff, returns_pure_iff, returns_ite_iff, returns_call_push_iff,
    returns_throw_iff, returns_wr_iff]
  refine ⟨fun hret => ⟨fun h64 => ⟨fun hbe => ?_, fun hbe => ?_⟩, fun h64 => ?_⟩, fun hret => ?_⟩
  · have hr : call_rets cfg info.sizemask ret = [ret + 1, ret] := by
      simp only [call_rets, hret, h64, hbe, if_true]
    rw [hr] at hroom
    simp only [List.length_cons, List.length_nil] at hroom
    have p1 : s.gen_next_parm_idx < s.gen_opparam_buf.length := by omega
    have hA : CallInv ⟨s.gen_opparam_buf, s.gen_next_parm_idx, 0⟩
        ⟨(s.gen_opparam_buf.set s.gen_next_parm_idx (ret + 1)).set (s.gen_next_parm_idx + 1) ret,
          s.gen_next_parm_idx + 1 + 1, 0⟩ (call_rets cfg info.sizemask ret) := by
      rw [hr]
      exact callInv_trans _ _ _ [_] [_]
        (callInv_push ⟨s.gen_opparam_buf, s.gen_next_parm_idx, 0⟩ (ret + 1) 0 p1)
        (callInv_push ⟨s.gen_opparam_buf.set s.gen_next_parm_idx (ret + 1),
          s.gen_next_parm_idx + 1, 0⟩ ret 0 (by simp only [List.length_set]; omega))
    refine ⟨p1, by simp only [List.length_set]; omega, returns_mono _ _ _ (key _ rfl hA) ?_⟩
    rintro a ⟨h1, h2, h3, h4, h5, h6, h7⟩
    refine ⟨h1, h2, by simp [hop], fun _ => ⟨by simp [h3], fun _ => ⟨hop2, by simp [h4],
      fun _ => ⟨?_, h7⟩⟩⟩⟩
    rw [h4, h5, h6, hr]
    rfl
  · have hbe' : cfg.HOST_WORDS_BIGENDIAN = false := Bool.not_eq_true _ ▸ hbe
    have hr : call_rets cfg info.sizemask ret = [ret, ret + 1] := by
      simp only [call_rets, hret, h64, hbe', if_true, Bool.false_eq_true, if_false]
    rw [hr] at hroom
    simp only [List.length_cons, List.length_nil] at hroom
    have p1 : s.gen_next_parm_idx < s.gen_opparam_buf.length := by omega
    have hA : CallInv ⟨s.gen_opparam_buf, s.gen_next_parm_idx, 0⟩
        ⟨(s.gen_opparam_buf.set s.gen_next_parm_idx ret).set (s.gen_next_parm_idx + 1) (ret + 1),
          s.gen_next_parm_idx + 1 + 1, 0⟩ (call_rets cfg info.sizemask ret) := by
      rw [hr]
      exact callInv_trans _ _ _ [_] [_]
        (callInv_push ⟨s.gen_opparam_buf, s.gen_next_parm_idx, 0⟩ ret 0 p1)
        (callInv_push ⟨s.gen_opparam_buf.set s.gen_next_parm_idx ret,
          s.gen_next_parm_idx + 1, 0⟩ (ret + 1) 0 (by simp only [List.length_set]; omega))
    refine ⟨p1, by simp only [List.length_set]; omega, returns_mono _ _ _ (key _ rfl hA) ?_⟩
    rintro a ⟨h1, h2, h3, h4, h5, h6, h7⟩
    refine ⟨h1, h2, by simp [hop], fun _ => ⟨by simp [h3], fun _ => ⟨hop2, by simp [h4],
      fun _ => ⟨?_, h7⟩⟩⟩⟩
    rw [h4, h5, h6, hr]
    rfl
  · have h64' : (decide (cfg.TCG_TARGET_REG_BITS < 64) && info.sizemask &&& 1 != 0) = false :=
      Bool.not_eq_true _ ▸ h64
    have hr : call_rets cfg info.sizemask ret = [ret] := by
      simp only [call_rets, hret, h64', if_true, Bool.false_eq_true, if_false]
    rw [hr] at hroom
    simp only [List.length_cons, List.length_nil] at hroom
    have p1 : s.gen_next_parm_idx < s.gen_opparam_buf.length := by omega
    have hA : CallInv ⟨s.gen_opparam_buf, s.gen_next_parm_idx, 0⟩
        ⟨s.gen_opparam_buf.set s.gen_next_parm_idx ret, s.gen_next_parm_idx + 1, 0⟩
        (call_rets cfg info.sizemask ret) := by
      rw [hr]
      exact callInv_push ⟨s.gen_opparam_buf, s.gen_next_parm_idx, 0⟩ ret 0 p1
    refine ⟨p1, returns_mono _ _ _ (key _ rfl hA) ?_⟩
    rintro a ⟨h1, h2, h3, h4, h5, h6, h7⟩
    refine ⟨h1, h2, by simp [hop], fun _ => ⟨by simp [h3], fun _ => ⟨hop2, by simp [h4],
      fun _ => ⟨?_, h7⟩⟩⟩⟩
    rw [h4, h5, h6, hr]
    rfl
  · have hret' : (ret != cfg.TCG_CALL_DUMMY_ARG) = false := Bool.not_eq_true _ ▸ hret
    have hr : call_rets cfg info.sizemask ret = [] := by
      simp only [call_rets, hret', Bool.false_eq_true, if_false]
    have hA : CallInv ⟨s.gen_opparam_buf, s.gen_next_parm_idx, 0⟩
        ⟨s.gen_opparam_buf, s.gen_next_parm_idx, 0⟩ (call_rets cfg info.sizemask ret) := by
      rw [hr]
      exact callInv_refl _
    refine returns_mono _ _ _ (key _ rfl hA) ?_
    rintro a ⟨h1, h2, h3, h4, h5, h6, h7⟩
    refine ⟨h1, h2, by simp [hop], fun _ => ⟨by simp [h3], fun _ => ⟨hop2, by simp [h4],
      fun _ => ⟨?_, h7⟩⟩⟩⟩
    rw [h4, h5, h6, hr]
    rfl
theorem and_shift_test (m k : Nat) : (m &&& (1 <<< k) != 0) = m.testBit k := by
  rw [Nat.one_shiftLeft, Nat.and_two_pow]
  cases h : m.testBit k <;> simp

theorem arg_slots_length_le (cfg : Config) (sizemask : Nat) (arg : TCGArg) (i k : Nat) :
    (arg_slots cfg sizemask arg i k).length ≤ 3 := by
  unfold arg_slots
  split
  · split <;> split <;> simp
  · simp

theorem call_slots_length_le (cfg : Config) (sizemask : Nat) (args : List TCGArg) (n : Nat) :
    (call_slots cfg sizemask args n).length ≤ 3 * n := by
  induction n with
  | zero => simp [call_slots]
  | succ n ih =>
    simp only [call_slots, List.length_append]
    have := arg_slots_length_le cfg sizemask (args.getD n 0) n
      (call_slots cfg sizemask args n).length
    omega

theorem call_slots_prefix (cfg : Config) (sizemask : Nat) (args : List TCGArg) (i : Nat) :
    ∀ n, i ≤ n → ∃ t, call_slots cfg sizemask args n = call_slots cfg sizemask args i ++ t := by
  intro n
  induction n with
  | zero =>
    intro h
    have : i = 0 := by omega
    subst this
    exact ⟨[], by simp⟩
  | succ n ih =>
    intro h
    by_cases he : i = n + 1
    · subst he
      exact ⟨[], by simp⟩
    · obtain ⟨t, ht⟩ := ih (by omega)
      refine ⟨t ++ arg_slots cfg sizemask (args.getD n 0) n
        (call_slots cfg sizemask args n).length, ?_⟩
      show call_slots cfg sizemask args n ++ _ = _
      rw [← List.append_assoc, ← ht]

/-- the slots of argument `i` in the parameters of a call -/
theorem call_slot_at (cfg : Config) (sizemask : Nat) (args : List TCGArg) (nargs : Nat)
    (rets tl : List TCGArg) (a b : CallAcc)
    (h : CallInv a b (rets ++ call_slots cfg sizemask args nargs ++ tl))
    (i : Nat) (hi : i < nargs) (m : Nat)
    (hm : m < (arg_slots cfg sizemask (args.getD i 0) i
      (call_slots cfg sizemask args i).length).length) :
    b.buf[a.pi + rets.length + ((call_slots cfg sizemask args i).length + m)]?
      = (arg_slots cfg sizemask (args.getD i 0) i (call_slots cfg sizemask args i).length)[m]? := by
  obtain ⟨t, ht⟩ := call_slots_prefix cfg sizemask args (i + 1) nargs (by omega)
  have e : call_slots cfg sizemask args (i + 1) = call_slots cfg sizemask args i
      ++ arg_slots cfg sizemask (args.getD i 0) i (call_slots cfg sizemask args i).length := rfl
  rw [e] at ht
  have hidx := h.2.2.1 (rets.length + ((call_slots cfg sizemask args i).length + m))
    (by rw [ht]; simp only [List.length_append]; omega)
  rw [← Nat.add_assoc] at hidx
  rw [hidx, ht]
  rw [List.append_assoc, List.getElem?_append_right (by omega)]
  rw [show rets.length + ((call_slots cfg sizemask args i).length + m) - rets.length
    = (call_slots cfg sizemask args i).length + m by omega]
  rw [List.append_assoc, List.append_assoc, List.getElem?_append_right (by omega)]
  rw [show (call_slots cfg sizemask args i).length + m - (call_slots cfg sizemask args i).length
    = m by omega]
  rw [List.getElem?_append_left hm]
/-- C21: on a 32-bit host whose stack does not grow up, with room in the buffers, for at
most fifteen arguments (the mask is tested by a shift of an `int`), `tcg_gen_callN` returns,
and with `k i` the number of input slots written before argument `i` (`k 0 = 0`): an
argument whose bit `2 (i + 1)` of the size mask is set occupies two adjacent input slots
starting at `q`, holding `args[i]` then `args[i] + 1` on a little-endian host and
`args[i] + 1` then `args[i]` on a big-endian host, where `q = k i + 1` after one
`TCG_CALL_DUMMY_ARG` at slot `k i` when `TCG_TARGET_CALL_ALIGN_ARGS` is defined and `k i`
is odd, and `q = k i` with no pad otherwise, so that with `TCG_TARGET_CALL_ALIGN_ARGS` the
pair starts at an even slot; any other argument occupies one slot; and `calli` of the op
is `k nargs`, the number of input slots written, pads and both halves counted. -/
theorem callN_split_args (cfg : Config) (s : TCGContext) (func : Nat) (ret : TCGArg)
    (nargs : Nat) (args : List TCGArg) (info : TCGHelperInfo)
    (h32 : cfg.TCG_TARGET_REG_BITS = 32) (hup : cfg.TCG_TARGET_STACK_GROWSUP = false)
    (hh : cfg.helpers func = some info)
    (hn : nargs ≤ args.length) (_hsh : nargs ≤ 15)
    (hroom : s.gen_next_parm_idx + (3 * nargs + 4) ≤ s.gen_opparam_buf.length)
    (hmax : s.gen_next_parm_idx + (3 * nargs + 4) ≤ cfg.OPPARAM_BUF_SIZE)
    (hop : s.gen_next_op_idx < cfg.OPC_BUF_SIZE)
    (hop2 : s.gen_next_op_idx < s.gen_op_buf.length)
    (hcalli : 3 * nargs < 2 ^ cfg.calli_bits) :
    ∃ (s1 : TCGContext) (op : TCGOp) (k : Nat → Nat),
      tcg_gen_callN cfg s func ret nargs args = Except.ok s1
      ∧ s1.gen_op_buf[s.gen_next_op_idx]? = some op
      ∧ op.opc = TCGOpcode.call ∧ op.args = (s.gen_next_parm_idx : Int)
      ∧ k 0 = 0 ∧ op.calli = k nargs
      ∧ s1.gen_next_parm_idx = s.gen_next_parm_idx + op.callo + op.calli + 2
      ∧ ∀ i, i < nargs →
          (info.sizemask.testBit (2 * (i + 1)) = true →
            ∃ q, q = (if cfg.TCG_TARGET_CALL_ALIGN_ARGS = true ∧ k i % 2 = 1 then k i + 1
                      else k i)
              ∧ (q ≠ k i →
                  s1.gen_opparam_buf[s.gen_next_parm_idx + op.callo + k i]?
                    = some cfg.TCG_CALL_DUMMY_ARG)
              ∧ s1.gen_opparam_buf[s.gen_next_parm_idx + op.callo + q]?
                  = some (if cfg.HOST_WORDS_BIGENDIAN then args.getD i 0 + 1
                          else args.getD i 0)
              ∧ s1.gen_opparam_buf[s.gen_next_parm_idx + op.callo + (q + 1)]?
                  = some (if cfg.HOST_WORDS_BIGENDIAN then args.getD i 0
                          else args.getD i 0 + 1)
              ∧ (cfg.TCG_TARGET_CALL_ALIGN_ARGS = true → q % 2 = 0)
              ∧ k (i + 1) = q + 2)
          ∧ (info.sizemask.testBit (2 * (i + 1)) = false →
              s1.gen_opparam_buf[s.gen_next_parm_idx + op.callo + k i]?
                = some (args.getD i 0)
              ∧ k (i + 1) = k i + 1) := by
  have hlen := call_slots_length_le cfg info.sizemask args nargs
  have hrl := call_rets_length_le cfg info.sizemask ret
  obtain ⟨s1, hs1, heq, hinv⟩ := tcg_gen_callN_ok cfg s func ret nargs args info hh hn
    (by omega) (by omega) hop hop2 (by omega)
  have hop_at : s1.gen_op_buf[s.gen_next_op_idx]? = some
      { opc := TCGOpcode.call, callo := (call_rets cfg info.sizemask ret).length,
        calli := (call_slots cfg info.sizemask args nargs).length,
        args := (s.gen_next_parm_idx : Int), prev := (s.gen_next_op_idx : Int) - 1,
        next := (s.gen_next_op_idx : Int) + 1 } := by
    rw [heq]
    exact List.getElem?_set_self hop2
  have hpi : s1.gen_next_parm_idx = s.gen_next_parm_idx
      + ((call_rets cfg info.sizemask ret).length
        + (call_slots cfg info.sizemask args nargs).length + 2) := by
    rw [heq]
  refine ⟨s1, _, fun i => (call_slots cfg info.sizemask args i).length, hs1, hop_at, rfl, rfl,
    rfl, rfl, ?_, ?_⟩
  · rw [hpi]
    show _ = s.gen_next_parm_idx + (call_rets cfg info.sizemask ret).length
      + (call_slots cfg info.sizemask args nargs).length + 2
    omega
  intro i hi
  have hslot := call_slot_at cfg info.sizemask args nargs (call_rets cfg info.sizemask ret)
    [func, info.flags] _ _ hinv i hi
  have hk1 : call_slots cfg info.sizemask args (i + 1) = call_slots cfg info.sizemask args i
      ++ arg_slots cfg info.sizemask (args.getD i 0) i
        (call_slots cfg info.sizemask args i).length := rfl
  simp only [hk1, List.length_append]
  generalize (call_slots cfg info.sizemask args i).length = p at hslot ⊢
  have hbit : (decide (cfg.TCG_TARGET_REG_BITS < 64)
      && info.sizemask &&& (1 <<< ((i + 1) * 2)) != 0) = info.sizemask.testBit (2 * (i + 1)) := by
    rw [and_shift_test, h32, Nat.mul_comm]
    simp
  have hodd : (p &&& 1 != 0) = decide (p % 2 = 1) := by
    rw [Nat.and_one_is_mod]
    rcases Nat.mod_two_eq_zero_or_one p with h | h <;> simp [h]
  unfold arg_slots at hslot ⊢
  rw [hbit, hup, hodd] at hslot ⊢
  show (_ → ∃ q, _ ∧ (_ → s1.gen_opparam_buf[_]? = _) ∧ s1.gen_opparam_buf[_]? = _
    ∧ s1.gen_opparam_buf[_]? = _ ∧ _) ∧ (_ → s1.gen_opparam_buf[_]? = _ ∧ _)
  constructor
  · intro hb
    rw [hb] at hslot ⊢
    simp only [if_true] at hslot ⊢
    by_cases hal : cfg.TCG_TARGET_CALL_ALIGN_ARGS = true ∧ p % 2 = 1
    · refine ⟨p + 1, by rw [if_pos hal], ?_, ?_, ?_, fun _ => by omega, ?_⟩
      · intro _
        have := hslot 0 (by simp [hal.1, hal.2])
        simpa [hal.1, hal.2] using this
      · have := hslot 1 (by simp [hal.1, hal.2]; split <;> simp)
        rw [this]
        cases hbe : cfg.HOST_WORDS_BIGENDIAN <;> simp [hal.1, hal.2]
      · have := hslot 2 (by simp [hal.1, hal.2]; split <;> simp)
        rw [show p + 1 + 1 = p + 2 by omega, this]
        cases hbe : cfg.HOST_WORDS_BIGENDIAN <;> simp [hal.1, hal.2]
      · cases hbe : cfg.HOST_WORDS_BIGENDIAN <;> simp [hal.1, hal.2]
    · have hal' : (cfg.TCG_TARGET_CALL_ALIGN_ARGS && decide (p % 2 = 1)) = false := by
        cases h1 : cfg.TCG_TARGET_CALL_ALIGN_ARGS
        · simp
        · simp only [Bool.true_and, decide_eq_false_iff_not]
          exact fun h2 => hal ⟨h1, h2⟩
      rw [hal'] at hslot ⊢
      simp only [Bool.false_eq_true, if_false, List.nil_append] at hslot ⊢
      refine ⟨p, by rw [if_neg hal], fun h => absurd rfl h, ?_, ?_, ?_, ?_⟩
      · have := hslot 0 (by split <;> simp)
        rw [Nat.add_zero] at this
        rw [this]
        cases hbe : cfg.HOST_WORDS_BIGENDIAN <;> simp
      · have := hslot 1 (by split <;> simp)
        rw [this]
        cases hbe : cfg.HOST_WORDS_BIGENDIAN <;> simp
      · intro h1
        have : ¬ p % 2 = 1 := fun h2 => hal ⟨h1, h2⟩
        omega
      · cases hbe : cfg.HOST_WORDS_BIGENDIAN <;> simp
  · intro hb
    rw [hb] at hslot ⊢
    simp only [Bool.false_eq_true, if_false, List.length_singleton] at hslot ⊢
    have := hslot 0 (by omega)
    rw [Nat.add_zero] at this
    exact ⟨by rw [this]; rfl, trivial⟩

theorem callN_split_args_witness :
    exCfg32.TCG_TARGET_REG_BITS = 32 ∧ exCfg32.TCG_TARGET_STACK_GROWSUP = false
    ∧ exCfg32.helpers 0xf000 = some ⟨0, 0x10⟩
    ∧ tcg_gen_callN exCfg32 exEmpty 0xf000 6 2 [1, 2]
        = Except.ok { exEmpty with
            gen_opparam_buf := [6, 1, 2 ^ 64 - 1, 3, 2, 0xf000, 0, 0, 0, 0, 0, 0],
            gen_op_buf := [{ opc := TCGOpcode.call, callo := 1, calli := 4, args := 0,
                             prev := -1, next := 1 },
                           TCGOp.poison, TCGOp.poison, TCGOp.poison],
            gen_last_op_idx := 0, gen_next_op_idx := 1, gen_next_parm_idx := 7 }
    ∧ ∃ (s1 : TCGContext) (op : TCGOp) (k : Nat → Nat),
        tcg_gen_callN exCfg32 exEmpty 0xf000 6 2 [1, 2] = Except.ok s1
        ∧ s1.gen_op_buf[0]? = some op ∧ k 0 = 0 ∧ op.calli = k 2
        ∧ s1.gen_next_parm_idx = 0 + op.callo + op.calli + 2 := by
  obtain ⟨s1, op, k, h1, h2, _, _, h5, h6, h7, _⟩ :=
    callN_split_args exCfg32 exEmpty 0xf000 6 2 [1, 2] ⟨0, 0x10⟩ rfl rfl rfl
      (by decide) (by decide) (by decide) (by decide) (by decide) (by decide) (by decide)
  exact ⟨rfl, rfl, rfl, by decide, s1, op, k, h1, h2, h5, h6, h7⟩
theorem arg_slots_64 (cfg : Config) (sizemask : Nat) (arg : TCGArg) (i k : Nat)
    (h64 : cfg.TCG_TARGET_REG_BITS = 64) : arg_slots cfg sizemask arg i k = [arg] := by
  unfold arg_slots
  rw [h64]
  simp

theorem call_slots_64 (cfg : Config) (sizemask : Nat) (args : List TCGArg)
    (h64 : cfg.TCG_TARGET_REG_BITS = 64) :
    ∀ n, n ≤ args.length → call_slots cfg sizemask args n = args.take n := by
  intro n
  induction n with
  | zero => intro _; rfl
  | succ n ih =>
    intro hn
    show call_slots cfg sizemask args n ++ _ = _
    rw [ih (by omega), arg_slots_64 cfg sizemask _ _ _ h64, List.take_succ,
      List.getD_eq_getElem?_getD, List.getElem?_eq_getElem (by omega)]
    rfl

theorem call_rets_64 (cfg : Config) (sizemask : Nat) (ret : TCGArg)
    (h64 : cfg.TCG_TARGET_REG_BITS = 64) :
    call_rets cfg sizemask ret = if ret != cfg.TCG_CALL_DUMMY_ARG then [ret] else [] := by
  unfold call_rets
  rw [h64]
  simp

/-- C20: on a 64-bit host, for a known helper, with room in the two buffers and `nargs`
that fits the `calli` field, `tcg_gen_callN` returns; the parameters written from the
previous `gen_next_parm_idx` on are `ret` (unless it is `TCG_CALL_DUMMY_ARG`), the first
`nargs` arguments, the address of the function and the flags of the helper, the rest of
the buffer is unchanged; the op at the previous `gen_next_op_idx` `i` is a call with
`callo` 1 or 0, `calli = nargs`, `args` the previous `gen_next_parm_idx`, `prev = i - 1`,
`next = i + 1`; and `gen_last_op_idx = i`, `gen_next_op_idx = i + 1`, `gen_next_parm_idx`
is advanced by `callo + calli + 2`. -/
theorem callN_plain (cfg : Config) (s : TCGContext) (func : Nat) (ret : TCGArg)
    (nargs : Nat) (args : List TCGArg) (info : TCGHelperInfo)
    (h64 : cfg.TCG_TARGET_REG_BITS = 64)
    (hh : cfg.helpers func = some info)
    (hn : nargs ≤ args.length)
    (hroom : s.gen_next_parm_idx + (nargs + 3) ≤ s.gen_opparam_buf.length)
    (hmax : s.gen_next_parm_idx + (nargs + 3) ≤ cfg.OPPARAM_BUF_SIZE)
    (hop : s.gen_next_op_idx < cfg.OPC_BUF_SIZE)
    (hop2 : s.gen_next_op_idx < s.gen_op_buf.length)
    (hcalli : nargs < 2 ^ cfg.calli_bits) :
    ∃ (buf : List TCGArg) (callo : Nat),
      callo = (if ret != cfg.TCG_CALL_DUMMY_ARG then 1 else 0)
      ∧ tcg_gen_callN cfg s func ret nargs args = Except.ok { s with
          gen_opparam_buf := buf,
          gen_op_buf := s.gen_op_buf.set s.gen_next_op_idx
            { opc := TCGOpcode.call, callo := callo, calli := nargs,
              args := (s.gen_next_parm_idx : Int), prev := (s.gen_next_op_idx : Int) - 1,
              next := (s.gen_next_op_idx : Int) + 1 },
          gen_last_op_idx := (s.gen_next_op_idx : Int),
          gen_next_op_idx := s.gen_next_op_idx + 1,
          gen_next_parm_idx := s.gen_next_parm_idx + (callo + nargs + 2) }
      ∧ buf.length = s.gen_opparam_buf.length
      ∧ (∀ j, j < callo + nargs + 2 →
          buf[s.gen_next_parm_idx + j]?
            = ((if ret != cfg.TCG_CALL_DUMMY_ARG then [ret] else []) ++ args.take nargs
                ++ [func, info.flags])[j]?)
      ∧ ∀ j, (j < s.gen_next_parm_idx ∨ s.gen_next_parm_idx + (callo + nargs + 2) ≤ j) →
          buf[j]? = s.gen_opparam_buf[j]? := by
  have hs := call_slots_64 cfg info.sizemask args h64 nargs hn
  have hr := call_rets_64 cfg info.sizemask ret h64
  have hrl : (call_rets cfg info.sizemask ret).length
      = if ret != cfg.TCG_CALL_DUMMY_ARG then 1 else 0 := by
    rw [hr]
    split <;> rfl
  have hsl : (call_slots cfg info.sizemask args nargs).length = nargs := by
    rw [hs, List.length_take]
    omega
  have hle : (call_rets cfg info.sizemask ret).length ≤ 1 := by
    rw [hrl]
    split <;> omega
  obtain ⟨s1, hs1, heq, hinv⟩ := tcg_gen_callN_ok cfg s func ret nargs args info hh hn
    (by omega) (by omega) hop hop2 (by omega)
  rw [hsl] at heq
  rw [hs, hr] at hinv
  refine ⟨s1.gen_opparam_buf, (call_rets cfg info.sizemask ret).length, hrl, ?_, hinv.2.1,
    ?_, ?_⟩
  · rw [hs1]
    exact congrArg Except.ok heq
  · intro j hj
    refine hinv.2.2.1 j ?_
    simp only [List.length_append, List.length_take, List.length_cons, List.length_nil]
    rw [← hr]
    omega
  · intro j hj
    refine hinv.2.2.2 j ?_
    simp only [List.length_append, List.length_take, List.length_cons, List.length_nil]
    rw [← hr]
    show j < s.gen_next_parm_idx ∨ s.gen_next_parm_idx + _ ≤ j
    omega

theorem callN_plain_witness :
    exCfg.TCG_TARGET_REG_BITS = 64 ∧ exCfg.helpers 0xf000 = some ⟨0x70, 0⟩
    ∧ tcg_gen_callN exCfg exEmpty 0xf000 6 2 [1, 2]
        = Except.ok { exEmpty with
            gen_opparam_buf := [6, 1, 2, 0xf000, 0x70, 0, 0, 0, 0, 0, 0, 0],
            gen_op_buf := [{ opc := TCGOpcode.call, callo := 1, calli := 2, args := 0,
                             prev := -1, next := 1 },
                           TCGOp.poison, TCGOp.poison, TCGOp.poison],
            gen_last_op_idx := 0, gen_next_op_idx := 1, gen_next_parm_idx := 5 }
    ∧ ∃ (buf : List TCGArg) (callo : Nat),
        callo = (if (6 : TCGArg) != exCfg.TCG_CALL_DUMMY_ARG then 1 else 0)
        ∧ buf.length = exEmpty.gen_opparam_buf.length
        ∧ ∀ j, j < callo + 2 + 2 →
            buf[exEmpty.gen_next_parm_idx + j]?
              = ((if (6 : TCGArg) != exCfg.TCG_CALL_DUMMY_ARG then [6] else [])
                  ++ [1, 2].take 2 ++ [0xf000, 0x70])[j]? := by
  obtain ⟨buf, callo, h1, _, h3, h4, _⟩ :=
    callN_plain exCfg exEmpty 0xf000 6 2 [1, 2] ⟨0x70, 0⟩ rfl rfl
      (by decide) (by decide) (by decide) (by decide) (by decide) (by decide)
  exact ⟨rfl, rfl, by decide, buf, callo, h1, h3, h4⟩

/-! ### The liveness state at the end of the function and of a basic block -/

/-- C31, amended: on arrays of `nb_temps` entries, with `nb_globals ≤ nb_temps`,
`tcg_la_func_end` leaves `dead_temps` set for every temp, `mem_temps` set for every
global and `mem_temps` clear for every other temp, whatever the arrays held. -/
theorem func_end_state (s : TCGContext) (st : LaState)
    (hd : st.dead_temps.length = s.nb_temps) (hm : st.mem_temps.length = s.nb_temps)
    (_hg : s.nb_globals ≤ s.nb_temps) :
    (∀ i, i < s.nb_temps → (tcg_la_func_end s st).dead_temps.getD i false = true)
    ∧ (∀ i, i < s.nb_globals → i < s.nb_temps →
        (tcg_la_func_end s st).mem_temps.getD i false = true)
    ∧ (∀ i, s.nb_globals ≤ i → i < s.nb_temps →
        (tcg_la_func_end s st).mem_temps.getD i false = false)
    ∧ (tcg_la_func_end s st).dead_temps.length = s.nb_temps
    ∧ (tcg_la_func_end s st).mem_temps.length = s.nb_temps := by
  unfold tcg_la_func_end
  refine ⟨?_, ?_, ?_, ?_, ?_⟩
  · intro i hi
    simp only []
    rw [getD_memset1, hd, if_pos hi, if_pos hi]
  · intro i hg hi
    simp only []
    rw [getD_overwrite, hm, if_pos hi, if_pos hg]
  · intro i hg hi
    simp only []
    rw [getD_overwrite, hm, if_pos hi, if_neg (by omega), if_pos hi]
  · simp only [memset1, overwrite_length, hd]
  · simp only [overwrite_length, hm]

/-- The claim C31 as it stands fails: in the example context, of one global and one
other temp, the state of `tcg_la_func_end` has the `mem_temps` entry of the global set,
not clear. -/
theorem func_end_state_counterexample :
    (exCtx [] [] []).nb_globals = 1 ∧ (exCtx [] [] []).nb_temps = 2
    ∧ tcg_la_func_end (exCtx [] [] []) { dead_temps := [false, false],
                                          mem_temps := [false, false] }
      = { dead_temps := [true, true], mem_temps := [true, false] }
    ∧ (tcg_la_func_end (exCtx [] [] []) { dead_temps := [false, false],
                                           mem_temps := [false, false] }).mem_temps.getD 0 false
      ≠ false := by
  refine ⟨rfl, rfl, by decide, by decide⟩

theorem func_end_state_witness :
    (tcg_la_func_end (exCtx [] [] []) { dead_temps := [false, false],
                                         mem_temps := [false, false] }).mem_temps.getD 0 false
      = true
    ∧ (tcg_la_func_end (exCtx [] [] []) { dead_temps := [false, false],
                                           mem_temps := [false, false] }).mem_temps.getD 1 false
      = false :=
  ⟨(func_end_state (exCtx [] [] []) ⟨[false, false], [false, false]⟩ rfl rfl
      (by decide)).2.1 0 (by decide) (by decide),
   (func_end_state (exCtx [] [] []) ⟨[false, false], [false, false]⟩ rfl rfl
      (by decide)).2.2.1 1 (by decide) (by decide)⟩

/-! ### Priorities of the argument constraints -/

theorem count_regs_foldl (p : Nat → Bool) (l : List Nat) (n0 : Nat) :
    l.foldl (fun n i => if p i then n + 1 else n) n0 = n0 + (l.filter p).length := by
  induction l generalizing n0 with
  | nil => simp
  | cons a l ih =>
    simp only [List.foldl_cons, List.filter_cons]
    rw [ih]
    cases p a
    · simp
    · simp only [if_true, List.length_cons]
      omega

/-- `count_regs` is the number of registers below `TCG_TARGET_NB_REGS` in the set -/
theorem count_regs_eq (cfg : Config) (regs : TCGRegSet) :
    count_regs cfg regs
      = ((List.range cfg.TCG_TARGET_NB_REGS).filter (tcg_regset_test_reg regs)).length := by
  unfold count_regs
  rw [count_regs_foldl (tcg_regset_test_reg regs)]
  omega

theorem count_regs_le (cfg : Config) (regs : TCGRegSet) :
    count_regs cfg regs ≤ cfg.TCG_TARGET_NB_REGS := by
  rw [count_regs_eq]
  have := List.length_filter_le (tcg_regset_test_reg regs) (List.range cfg.TCG_TARGET_NB_REGS)
  rwa [List.length_range] at this

theorem priority_reg (cfg : Config) (df : TCGOpDef) (k : Nat)
    (hr : flag (df.args_ct.getD k default).ct cfg.TCG_CT_REG = true)
    (ha : flag (df.args_ct.getD k default).ct cfg.TCG_CT_ALIAS = false) :
    get_constraint_priority cfg df k
      = (cfg.TCG_TARGET_NB_REGS : Int)
        - (count_regs cfg (df.args_ct.getD k default).regs : Int) + 1 := by
  unfold get_constraint_priority
  simp only [ha, hr, Bool.false_eq_true, if_false, Bool.not_true]

/-- C33: for a constraint with `TCG_CT_REG` and without `TCG_CT_ALIAS`,
`get_constraint_priority` returns `TCG_TARGET_NB_REGS - n + 1`, with `n` the number of
registers below `TCG_TARGET_NB_REGS` in its set; this priority lies between 1 and
`TCG_TARGET_NB_REGS + 1`, and is strictly above the priority of any other such constraint
that allows strictly more registers; for a constraint with neither `TCG_CT_ALIAS` nor
`TCG_CT_REG` it returns 0. -/
theorem constraint_priority_reg (cfg : Config) (df : TCGOpDef) (k k2 : Nat) :
    (flag (df.args_ct.getD k default).ct cfg.TCG_CT_REG = true →
     flag (df.args_ct.getD k default).ct cfg.TCG_CT_ALIAS = false →
      get_constraint_priority cfg df k
        = (cfg.TCG_TARGET_NB_REGS : Int)
          - (((List.range cfg.TCG_TARGET_NB_REGS).filter
              (tcg_regset_test_reg (df.args_ct.getD k default).regs)).length : Int) + 1
      ∧ 1 ≤ get_constraint_priority cfg df k
      ∧ get_constraint_priority cfg df k ≤ (cfg.TCG_TARGET_NB_REGS : Int) + 1
      ∧ (flag (df.args_ct.getD k2 default).ct cfg.TCG_CT_REG = true →
         flag (df.args_ct.getD k2 default).ct cfg.TCG_CT_ALIAS = false →
         ((List.range cfg.TCG_TARGET_NB_REGS).filter
            (tcg_regset_test_reg (df.args_ct.getD k default).regs)).length
          < ((List.range cfg.TCG_TARGET_NB_REGS).filter
            (tcg_regset_test_reg (df.args_ct.getD k2 default).regs)).length →
         get_constraint_priority cfg df k2 < get_constraint_priority cfg df k))
    ∧ (flag (df.args_ct.getD k default).ct cfg.TCG_CT_REG = false →
       flag (df.args_ct.getD k default).ct cfg.TCG_CT_ALIAS = false →
        get_constraint_priority cfg df k = 0) := by
  constructor
  · intro hr ha
    have h1 := priority_reg cfg df k hr ha
    have hle := count_regs_le cfg (df.args_ct.getD k default).regs
    rw [← count_regs_eq]
    refine ⟨h1, by omega, by omega, ?_⟩
    intro hr2 ha2 hlt
    have h2 := priority_reg cfg df k2 hr2 ha2
    rw [← count_regs_eq cfg (df.args_ct.getD k2 default).regs] at hlt
    omega
  · intro hr ha
    unfold get_constraint_priority
    simp only [ha, hr, Bool.false_eq_true, if_false, Bool.not_false, if_true]

theorem constraint_priority_reg_witness :
    flag ((exDefs (TCGOpcode.other 2)).args_ct.getD 0 default).ct exCfg.TCG_CT_REG = true
    ∧ flag ((exDefs (TCGOpcode.other 2)).args_ct.getD 0 default).ct exCfg.TCG_CT_ALIAS = false
    ∧ get_constraint_priority exCfg (exDefs (TCGOpcode.other 2)) 0 = 6
    ∧ get_constraint_priority exCfg (exDefs (TCGOpcode.other 2)) 0
        = (exCfg.TCG_TARGET_NB_REGS : Int)
          - (((List.range exCfg.TCG_TARGET_NB_REGS).filter
              (tcg_regset_test_reg
                ((exDefs (TCGOpcode.other 2)).args_ct.getD 0 default).regs)).length : Int) + 1
    ∧ get_constraint_priority exCfg (exDefs (TCGOpcode.other 2)) 5 = 0 :=
  ⟨by decide, by decide, by decide,
   ((constraint_priority_reg exCfg (exDefs (TCGOpcode.other 2)) 0 0).1
      (by decide) (by decide)).1,
   (constraint_priority_reg exCfg (exDefs (TCGOpcode.other 2)) 5 0).2 (by decide) (by decide)⟩

/-- C34, amended: `get_constraint_priority` gives every argument constraint tagged
`TCG_CT_ALIAS` the priority `TCG_TARGET_NB_REGS`, the priority of a register constraint
that allows one register, whatever its register set. -/
theorem constraint_priority_alias (cfg : Config) (df : TCGOpDef) (k : Nat)
    (ha : flag (df.args_ct.getD k default).ct cfg.TCG_CT_ALIAS = true) :
    get_constraint_priority cfg df k = (cfg.TCG_TARGET_NB_REGS : Int) := by
  unfold get_constraint_priority
  simp only [ha, if_true]
  omega

/-- The claim C34 as it stands fails: on the example host of 8 registers the output of
`sub_i32`, tagged `TCG_CT_ALIAS`, has priority 8, not 1. -/
theorem constraint_priority_alias_counterexample :
    flag ((exDefs TCGOpcode.sub_i32).args_ct.getD 0 default).ct exCfg.TCG_CT_ALIAS = true
    ∧ get_constraint_priority exCfg (exDefs TCGOpcode.sub_i32) 0 = 8
    ∧ get_constraint_priority exCfg (exDefs TCGOpcode.sub_i32) 0 ≠ 1 := by
  refine ⟨by decide, by decide, by decide⟩

theorem constraint_priority_alias_witness :
    flag ((exDefs TCGOpcode.sub_i32).args_ct.getD 0 default).ct exCfg.TCG_CT_ALIAS = true
    ∧ get_constraint_priority exCfg (exDefs TCGOpcode.sub_i32) 0
        = (exCfg.TCG_TARGET_NB_REGS : Int) :=
  ⟨by decide, constraint_priority_alias exCfg (exDefs TCGOpcode.sub_i32) 0 (by decide)⟩

/-! ### Slots of the frame -/

theorem round_up_spec (c w : Int) (hw : 0 < w) :
    (c + w - 1 - Int.emod (c + w - 1) w) % w = 0
    ∧ c ≤ c + w - 1 - Int.emod (c + w - 1) w
    ∧ c + w - 1 - Int.emod (c + w - 1) w < c + w := by
  have h1 := Int.emod_nonneg (c + w - 1) (Int.ne_of_gt hw)
  have h2 := Int.emod_lt_of_pos (c + w - 1) hw
  have h3 : c + w - 1 - Int.emod (c + w - 1) w = w * ((c + w - 1) / w) := by
    have := Int.emod_add_ediv (c + w - 1) w
    show c + w - 1 - (c + w - 1) % w = _
    omega
  refine ⟨?_, ?_, ?_⟩
  · rw [h3]
    exact Int.mul_emod_right _ _
  · show c ≤ c + w - 1 - (c + w - 1) % w
    omega
  · show c + w - 1 - (c + w - 1) % w < c + w
    omega

theorem temp_allocate_frame_eq (cfg : Config) (s : TCGContext) (temp : Nat) (ts : TCGTemp)
    (ht : s.temps[temp]? = some ts) :
    temp_allocate_frame cfg s temp
      = if (s.current_frame_offset + cfg.sizeof_tcg_target_long - 1
            - Int.emod (s.current_frame_offset + cfg.sizeof_tcg_target_long - 1)
                cfg.sizeof_tcg_target_long) + cfg.sizeof_tcg_target_long > s.frame_end
        then Except.error Fault.abort
        else Except.ok { s with
          temps := s.temps.set temp { ts with
            mem_offset := s.current_frame_offset + cfg.sizeof_tcg_target_long - 1
              - Int.emod (s.current_frame_offset + cfg.sizeof_tcg_target_long - 1)
                  cfg.sizeof_tcg_target_long,
            mem_reg := s.frame_reg, mem_allocated := true },
          current_frame_offset := (s.current_frame_offset + cfg.sizeof_tcg_target_long - 1
            - Int.emod (s.current_frame_offset + cfg.sizeof_tcg_target_long - 1)
                cfg.sizeof_tcg_target_long) + cfg.sizeof_tcg_target_long } := by
  unfold temp_allocate_frame
  rw [rd_of_getElem? _ _ _ ht]
  simp only [bind, Except.bind, set_temp]
  split <;> rfl

theorem temp_allocate_frame_slot (cfg : Config) (pre post : TCGContext) (temp : Nat)
    (hw : 0 < cfg.sizeof_tcg_target_long)
    (h : temp_allocate_frame cfg pre temp = Except.ok post) :
    pre.current_frame_offset ≤ frame_slot (pre, temp, post)
    ∧ frame_slot (pre, temp, post) + cfg.sizeof_tcg_target_long = post.current_frame_offset
    ∧ post.current_frame_offset ≤ pre.frame_end
    ∧ post.frame_start = pre.frame_start ∧ post.frame_end = pre.frame_end := by
  have hw' : (0 : Int) < cfg.sizeof_tcg_target_long := by exact_mod_cast hw
  cases ht : pre.temps[temp]? with
  | none =>
    unfold temp_allocate_frame rd at h
    rw [ht] at h
    cases h
  | some ts =>
    have hlt : temp < pre.temps.length := by
      rcases Nat.lt_or_ge temp pre.temps.length with h1 | h1
      · exact h1
      · rw [List.getElem?_eq_none h1] at ht
        cases ht
    rw [temp_allocate_frame_eq cfg pre temp ts ht] at h
    obtain ⟨_, r2, _⟩ := round_up_spec pre.current_frame_offset cfg.sizeof_tcg_target_long hw'
    split at h
    · cases h
    · rename_i hle
      cases h
      simp only [frame_slot, List.getD_eq_getElem?_getD, List.getElem?_set_self hlt,
        Option.getD_some, and_self, and_true, true_and]
      refine ⟨r2, ?_⟩
      omega

theorem frameRun_slots (cfg : Config) (hw : 0 < cfg.sizeof_tcg_target_long)
    (steps : List (TCGContext × Nat × TCGContext)) :
    ∀ s, FrameRun cfg s steps →
      (∀ a ∈ steps.map frame_slot,
        s.current_frame_offset ≤ a ∧ a + cfg.sizeof_tcg_target_long ≤ s.frame_end)
      ∧ (steps.map frame_slot).Pairwise (fun (a b : Int) => a + cfg.sizeof_tcg_target_long ≤ b) := by
  induction steps with
  | nil =>
    intro s _
    exact ⟨by simp, by simp⟩
  | cons e rest ih =>
    intro s h
    obtain ⟨pre, temp, post⟩ := e
    obtain ⟨⟨e1, _, e3⟩, hstep, hrest⟩ := h
    obtain ⟨h1, h2, h3, _, h5⟩ := temp_allocate_frame_slot cfg pre post temp hw hstep
    obtain ⟨ihin, ihpw⟩ := ih post hrest
    have hw' : (0 : Int) < cfg.sizeof_tcg_target_long := by exact_mod_cast hw
    constructor
    · intro a ha
      simp only [List.map_cons, List.mem_cons] at ha
      rcases ha with ha | ha
      · subst ha
        rw [e1, e3]
        omega
      · have := ihin a ha
        rw [e1, e3]
        omega
    · simp only [List.map_cons, List.pairwise_cons]
      refine ⟨?_, ihpw⟩
      intro b hb
      have := ihin b hb
      omega

/-- C39: with a word of positive size, `temp_allocate_frame` on a temp of the context
rounds `current_frame_offset` up to a multiple `off` of the word (`off` is a multiple, at
least `current_frame_offset` and less than one word above it); it aborts if `off` plus
one word exceeds `frame_end`, and otherwise returns the context in which the temp has
`mem_offset = off`, `mem_reg = frame_reg`, `mem_allocated = 1` and
`current_frame_offset` is `off` plus one word, nothing else being changed.  Hence in every
run from the context left by `tcg_func_start`, whatever `frame_start`, the slots handed
out one after the other are word-sized intervals, each ending where or before the next
one starts, all inside `[frame_start, frame_end)`. -/
theorem frame_slots_disjoint (cfg : Config) (s : TCGContext) (temp : Nat) (ts : TCGTemp)
    (s0 : TCGContext) (steps : List (TCGContext × Nat × TCGContext))
    (hw : 0 < cfg.sizeof_tcg_target_long) (ht : s.temps[temp]? = some ts) :
    (∃ off : Int, off % cfg.sizeof_tcg_target_long = 0
      ∧ s.current_frame_offset ≤ off
      ∧ off < s.current_frame_offset + cfg.sizeof_tcg_target_long
      ∧ temp_allocate_frame cfg s temp
          = if off + cfg.sizeof_tcg_target_long > s.frame_end
            then Except.error Fault.abort
            else Except.ok { s with
              temps := s.temps.set temp { ts with
                mem_offset := off, mem_reg := s.frame_reg, mem_allocated := true },
              current_frame_offset := off + cfg.sizeof_tcg_target_long })
    ∧ (FrameRun cfg (tcg_func_start cfg s0) steps →
        (steps.map frame_slot).Pairwise (fun (a b : Int) => a + cfg.sizeof_tcg_target_long ≤ b)
        ∧ ∀ a ∈ steps.map frame_slot,
            s0.frame_start ≤ a ∧ a + cfg.sizeof_tcg_target_long ≤ s0.frame_end) := by
  have hw' : (0 : Int) < cfg.sizeof_tcg_target_long := by exact_mod_cast hw
  obtain ⟨r1, r2, r3⟩ := round_up_spec s.current_frame_offset cfg.sizeof_tcg_target_long hw'
  refine ⟨⟨_, r1, r2, r3, temp_allocate_frame_eq cfg s temp ts ht⟩, ?_⟩
  intro hrun
  obtain ⟨hin, hpw⟩ := frameRun_slots cfg hw steps _ hrun
  exact ⟨hpw, hin⟩

theorem frame_slots_disjoint_witness :
    0 < exCfg.sizeof_tcg_target_long
    ∧ (tcg_func_start exCfg exFrame).temps[1]? = some (exTemp false 0)
    ∧ temp_allocate_frame exCfg (tcg_func_start exCfg exFrame) 1 = Except.ok exFrame1
    ∧ temp_allocate_frame exCfg exFrame1 0 = Except.ok exFrame2
    ∧ [(tcg_func_start exCfg exFrame, 1, exFrame1), (exFrame1, 0, exFrame2)].map frame_slot
        = [8, 16]
    ∧ ([(tcg_func_start exCfg exFrame, 1, exFrame1), (exFrame1, 0, exFrame2)].map
          frame_slot).Pairwise (fun (a b : Int) => a + exCfg.sizeof_tcg_target_long ≤ b)
    ∧ ∀ a ∈ [(tcg_func_start exCfg exFrame, 1, exFrame1), (exFrame1, 0, exFrame2)].map
          frame_slot,
        exFrame.frame_start ≤ a ∧ a + exCfg.sizeof_tcg_target_long ≤ exFrame.frame_end :=
  have h1 : temp_allocate_frame exCfg (tcg_func_start exCfg exFrame) 1 = Except.ok exFrame1 := by
    decide
  have h2 : temp_allocate_frame exCfg exFrame1 0 = Except.ok exFrame2 := by decide
  have hrun : FrameRun exCfg (tcg_func_start exCfg exFrame)
      [(tcg_func_start exCfg exFrame, 1, exFrame1), (exFrame1, 0, exFrame2)] :=
    ⟨⟨rfl, rfl, rfl⟩, h1, ⟨rfl, rfl, rfl⟩, h2, trivial⟩
  have h := (frame_slots_disjoint exCfg (tcg_func_start exCfg exFrame) 1 (exTemp false 0)
    exFrame _ (by decide) (by decide)).2 hrun
  ⟨by decide, by decide, h1, h2, by decide, h.1, h.2⟩

/-! ### The state left by an op that ends a basic block -/

/-- C32: a generic op flagged `TCG_OPF_BB_END` that the liveness pass keeps, with at
most 16 arguments, inputs that are temps of the context, and arrays of `nb_temps`
entries, whatever they held (`st`): in the state `st1` handed to the preceding ops, a temp
is live exactly when it is an input of the op, `mem_temps` is set for every global and is
`temp_local` for every other temp; and the bit of every input position is set in the
`dead_args` stored for the op. -/
theorem bb_end_op_state (cfg : Config) (s : TCGContext) (op : TCGOp) (A : Nat → TCGArg)
    (st st1 : LaState) (opc : TCGOpcode) (ws : List (Nat × TCGArg)) (da sa : Nat)
    (hg : la_generic op.opc = true)
    (hbb : flag (cfg.tcg_op_defs op.opc).flags cfg.TCG_OPF_BB_END = true)
    (h : la_op cfg s op A st = LaResult.keep opc ws da sa st1)
    (hd : st.dead_temps.length = s.nb_temps) (hm : st.mem_temps.length = s.nb_temps)
    (hin : ∀ n, (cfg.tcg_op_defs op.opc).nb_oargs ≤ n →
      n < (cfg.tcg_op_defs op.opc).nb_oargs + (cfg.tcg_op_defs op.opc).nb_iargs →
      A n < s.nb_temps)
    (h16 : (cfg.tcg_op_defs op.opc).nb_oargs + (cfg.tcg_op_defs op.opc).nb_iargs ≤ 16) :
    (∀ t, t < s.nb_temps →
      (st1.dead_temps.getD t false = false
        ↔ ∃ n, (cfg.tcg_op_defs op.opc).nb_oargs ≤ n
            ∧ n < (cfg.tcg_op_defs op.opc).nb_oargs + (cfg.tcg_op_defs op.opc).nb_iargs
            ∧ A n = t))
    ∧ (∀ t, t < s.nb_globals → t < s.nb_temps → st1.mem_temps.getD t false = true)
    ∧ (∀ t, s.nb_globals ≤ t → t < s.nb_temps →
        st1.mem_temps.getD t false = (s.temps.getD t default).temp_local)
    ∧ (∀ n, (cfg.tcg_op_defs op.opc).nb_oargs ≤ n →
        n < (cfg.tcg_op_defs op.opc).nb_oargs + (cfg.tcg_op_defs op.opc).nb_iargs →
        IS_DEAD_ARG da n = true) := by
  rw [la_op_generic cfg s op A st hg] at h
  split at h
  · cases h
  unfold la_keep at h
  injection h with _ _ hda _ hst
  obtain ⟨_, _, hb3⟩ := la_do_not_remove_spec cfg s (cfg.tcg_op_defs op.opc) A
    (cfg.tcg_op_defs op.opc).nb_oargs (cfg.tcg_op_defs op.opc).nb_iargs st
  have e1 : st1.dead_temps = la_inputs_live A (cfg.tcg_op_defs op.opc).nb_oargs
      (cfg.tcg_op_defs op.opc).nb_iargs
      (memset1 (la_outputs A (cfg.tcg_op_defs op.opc).nb_oargs st).st.dead_temps s.nb_temps) := by
    rw [← hst]
    simp only [la_do_not_remove, hbb, if_true, tcg_la_bb_end]
  have e2 : st1.mem_temps = overwrite (la_outputs A (cfg.tcg_op_defs op.opc).nb_oargs st).st.mem_temps
      (fun i b => if i < s.nb_globals then true
                  else if i < s.nb_temps then (s.temps.getD i default).temp_local else b) := by
    rw [← hst]
    simp only [la_do_not_remove, hbb, if_true, tcg_la_bb_end]
  refine ⟨?_, ?_, ?_, ?_⟩
  · intro t ht
    constructor
    · intro hf
      by_contra hne
      rw [e1, la_inputs_live_of_not_mem _ _ _ _ _ (fun i h1 h2 e => hne ⟨i, h1, h2, e⟩),
        getD_memset1, la_outputs_dead_length, hd, if_pos ht, if_pos ht] at hf
      exact Bool.noConfusion hf
    · rintro ⟨n, h1, h2, rfl⟩
      rw [e1]
      exact la_inputs_live_of_mem _ _ _ _ _ h1 h2
  · intro t hg ht
    rw [e2, getD_overwrite, la_outputs_mem_length, hm, if_pos ht, if_pos hg]
  · intro t hg ht
    rw [e2, getD_overwrite, la_outputs_mem_length, hm, if_pos ht, if_neg (by omega), if_pos ht]
  · intro n h1 h2
    rw [IS_DEAD_ARG_eq, ← hda, hb3 n h1 h2 (by omega), hbb]
    have := hin n h1 h2
    simp [hd, this]

theorem bb_end_op_state_witness :
    la_generic (TCGOpcode.other 2) = true
    ∧ flag (exCfg.tcg_op_defs (TCGOpcode.other 2)).flags exCfg.TCG_OPF_BB_END = true
    ∧ la_op exCfg (exCtx [] [] []) (exOp (TCGOpcode.other 2) 0 (-1) (-1)) (fun _ => 1)
        { dead_temps := [false, false], mem_temps := [false, false] }
      = LaResult.keep (TCGOpcode.other 2) [] 0 0
          { dead_temps := [true, true], mem_temps := [true, false] }
    ∧ (∀ t, t < (exCtx [] [] []).nb_globals → t < (exCtx [] [] []).nb_temps →
        ([true, false] : List Bool).getD t false = true)
    ∧ (∀ t, (exCtx [] [] []).nb_globals ≤ t → t < (exCtx [] [] []).nb_temps →
        ([true, false] : List Bool).getD t false
          = ((exCtx [] [] []).temps.getD t default).temp_local) :=
  have h := bb_end_op_state exCfg (exCtx [] [] []) (exOp (TCGOpcode.other 2) 0 (-1) (-1))
    (fun _ => 1) { dead_temps := [false, false], mem_temps := [false, false] }
    { dead_temps := [true, true], mem_temps := [true, false] } (TCGOpcode.other 2) [] 0 0
    (by decide) (by decide) (by decide) rfl rfl
    (fun n h1 h2 => absurd h2 (Nat.not_lt.mpr h1)) (by decide)
  ⟨by decide, by decide, by decide, h.2.1, h.2.2.1⟩

/-! ### Array accesses of the liveness pass at a call -/

theorem foldlM_eq_foldl {α β : Type} (f : α → β → Except Fault α) (g : α → β → α)
    (Inv : α → Prop) (l : List β) :
    ∀ a, Inv a → (∀ a b, b ∈ l → Inv a → f a b = Except.ok (g a b) ∧ Inv (g a b)) →
      l.foldlM f a = Except.ok (l.foldl g a) ∧ Inv (l.foldl g a) := by
  induction l with
  | nil =>
    intro a ha _
    exact ⟨rfl, ha⟩
  | cons b l ih =>
    intro a ha h
    obtain ⟨h1, h2⟩ := h a b (List.mem_cons_self _ _) ha
    rw [List.foldlM_cons, h1]
    exact ih (g a b) h2 (fun a' b' hb' => h a' b' (List.mem_cons_of_mem _ hb'))

theorem rd_bool_ok (l : List Bool) (i : Nat) (h : i < l.length) :
    rd l i = Except.ok (l.getD i false) := by
  apply rd_of_getElem?
  rw [List.getD_eq_getElem?_getD, List.getElem?_eq_getElem h]
  rfl

theorem wr_ok {α : Type} (l : List α) (i : Nat) (x : α) (h : i < l.length) :
    wr l i x = Except.ok (l.set i x) := by
  unfold wr
  rw [if_pos h]
  rfl

theorem wr_oob {α : Type} (l : List α) (i : Nat) (x : α) (h : l.length ≤ i) :
    wr l i x = Except.error Fault.oob := by
  unfold wr
  rw [if_neg (by omega)]
  rfl

theorem la_outputs_chk (A : Nat → TCGArg) (no : Nat) (st : LaState) (n : Nat)
    (hd : st.dead_temps.length = n) (hm : st.mem_temps.length = n)
    (hout : ∀ i, i < no → A i < n) :
    (List.range no).foldlM (la_out_step_chk A) { dead_args := 0, sync_args := 0, st := st }
      = Except.ok (la_outputs A no st) := by
  unfold la_outputs
  refine (foldlM_eq_foldl (la_out_step_chk A) (la_out_step A)
    (fun acc => acc.st.dead_temps.length = n ∧ acc.st.mem_temps.length = n) _ _ ⟨hd, hm⟩ ?_).1
  intro acc i hi ⟨h1, h2⟩
  have hi' := hout i (List.mem_range.mp hi)
  unfold la_out_step_chk la_out_step
  simp only []
  have p1 : A i < acc.st.dead_temps.length := by rw [h1]; exact hi'
  have p2 : A i < acc.st.mem_temps.length := by rw [h2]; exact hi'
  rw [rd_bool_ok _ _ p1, rd_bool_ok _ _ p2, wr_ok _ _ _ p1, wr_ok _ _ _ p2]
  exact ⟨rfl, by simp [h1], by simp [h2]⟩

theorem foldlM_wr_oob (f : Nat → Nat) (l : List Nat) :
    ∀ d : List Bool, (∃ i ∈ l, d.length ≤ f i) →
      l.foldlM (fun d i => wr d (f i) false) d = Except.error Fault.oob := by
  induction l with
  | nil =>
    rintro d ⟨i, hi, _⟩
    cases hi
  | cons a l ih =>
    rintro d ⟨i, hi, hle⟩
    rw [List.foldlM_cons]
    by_cases ha : f a < d.length
    · rw [wr_ok _ _ _ ha]
      have hi' : i ∈ l := by
        rcases List.mem_cons.mp hi with h | h
        · subst h; omega
        · exact h
      exact ih _ ⟨i, hi', by rw [List.length_set]; exact hle⟩
    · rw [wr_oob _ _ _ (by omega)]
      rfl
theorem except_ok_bind {α β : Type} (a : α) (f : α → Except Fault β) :
    (Except.ok a >>= f) = f a := rfl

theorem except_error_bind {α β : Type} (e : Fault) (f : α → Except Fault β) :
    (Except.error e >>= f) = Except.error e := rfl

theorem memset1_chk_ok (l : List Bool) (n : Nat) (h : n ≤ l.length) :
    memset1_chk l n = Except.ok (memset1 l n) := by
  unfold memset1_chk
  rw [if_pos h]
  rfl

theorem memset1_length (l : List Bool) (n : Nat) : (memset1 l n).length = l.length := by
  unfold memset1
  exact overwrite_length _ _

theorem ite_ok_chk (c : Bool) (l : List Bool) (n : Nat) (h : n ≤ l.length) :
    (if c = true then memset1_chk l n else pure l)
      = Except.ok (if c = true then memset1 l n else l) := by
  cases c
  · rfl
  · simp only [if_true]
    exact memset1_chk_ok l n h

theorem la_dead_args_chk (cfg : Config) (A : Nat → TCGArg) (no ni : Nat) (dead1 : List Bool)
    (da0 : Nat)
    (hin : ∀ i, no ≤ i → i < no + ni → A i ≠ cfg.TCG_CALL_DUMMY_ARG → A i < dead1.length) :
    (List.range' no ni).foldlM
      (fun da i =>
        if A i != cfg.TCG_CALL_DUMMY_ARG then do
          let d ← rd dead1 (A i)
          pure (if d then (da ||| (1 <<< i)) % 65536 else da)
        else (pure da : Except Fault Nat)) da0
    = Except.ok ((List.range' no ni).foldl
      (fun da i =>
        if A i != cfg.TCG_CALL_DUMMY_ARG && dead1.getD (A i) false
        then (da ||| (1 <<< i)) % 65536 else da) da0) := by
  refine (foldlM_eq_foldl _ _ (fun _ => True) _ _ trivial ?_).1
  intro da i hi _
  refine ⟨?_, trivial⟩
  obtain ⟨h1, h2⟩ := List.mem_range'_1.mp hi
  by_cases hdm : A i = cfg.TCG_CALL_DUMMY_ARG
  · simp [hdm]
    rfl
  · have hne : (A i != cfg.TCG_CALL_DUMMY_ARG) = true := by simpa using hdm
    simp only [hne, if_true, Bool.true_and]
    rw [rd_bool_ok _ _ (hin i h1 h2 hdm)]
    rfl

theorem la_inputs_live_chk (A : Nat → TCGArg) (no ni : Nat) (dead1 : List Bool)
    (hin : ∀ i, no ≤ i → i < no + ni → A i < dead1.length) :
    (List.range' no ni).foldlM (fun d i => wr d (A i) false) dead1
      = Except.ok (la_inputs_live A no ni dead1) := by
  unfold la_inputs_live
  refine (foldlM_eq_foldl _ _ (fun d => d.length = dead1.length) _ _ rfl ?_).1
  intro d i hi hl
  obtain ⟨h1, h2⟩ := List.mem_range'_1.mp hi
  have := hin i h1 h2
  refine ⟨wr_ok _ _ _ (by rw [hl]; exact this), ?_⟩
  show (d.set (A i) false).length = _
  rw [List.length_set]
  exact hl

/-- Claim C37 fails when an input slot of a kept call holds `TCG_CALL_DUMMY_ARG`.  For a
call whose arguments other than `TCG_CALL_DUMMY_ARG` are temps of the context, on arrays
of `nb_temps` entries (`nb_temps` is at most `TCG_CALL_DUMMY_ARG`, the largest value of a
`TCGArg`): the code of `do_not_remove_call`, with every access to `dead_temps` and
`mem_temps` checked, leaves the array if some input slot holds `TCG_CALL_DUMMY_ARG` (the
loop "input arguments are live for preceding opcodes" stores at `dead_temps[arg]` for
every input, the pad included), and otherwise stays inside and computes what the
unchecked code computes. -/
theorem call_dummy_input_out_of_bounds (cfg : Config) (s : TCGContext) (A : Nat → TCGArg)
    (no ni fl : Nat) (st : LaState)
    (hd : st.dead_temps.length = s.nb_temps) (hm : st.mem_temps.length = s.nb_temps)
    (hg : s.nb_globals ≤ s.nb_temps)
    (hout : ∀ i, i < no → A i < s.nb_temps)
    (hin : ∀ i, no ≤ i → i < no + ni → A i ≠ cfg.TCG_CALL_DUMMY_ARG → A i < s.nb_temps)
    (hdummy : s.nb_temps ≤ cfg.TCG_CALL_DUMMY_ARG) :
    ((∃ i, no ≤ i ∧ i < no + ni ∧ A i = cfg.TCG_CALL_DUMMY_ARG) →
      la_do_not_remove_call_chk cfg s A no ni fl st = Except.error Fault.oob)
    ∧ ((¬ ∃ i, no ≤ i ∧ i < no + ni ∧ A i = cfg.TCG_CALL_DUMMY_ARG) →
      la_do_not_remove_call_chk cfg s A no ni fl st
        = Except.ok (la_do_not_remove_call cfg s A no ni fl st)) := by
  have hl1 := la_outputs_dead_length A no st
  have hl2 := la_outputs_mem_length A no st
  rw [hd] at hl1
  rw [hm] at hl2
  have e1 := la_outputs_chk A no st s.nb_temps hd hm hout
  have m1 := memset1_chk_ok (la_outputs A no st).st.mem_temps s.nb_globals
    (by rw [hl2]; exact hg)
  have m2 := memset1_chk_ok (la_outputs A no st).st.dead_temps s.nb_globals
    (by rw [hl1]; exact hg)
  have hl3 : (memset1 (la_outputs A no st).st.dead_temps s.nb_globals).length = s.nb_temps := by
    rw [memset1_length, hl1]
  have e4a := la_dead_args_chk cfg A no ni
    (memset1 (la_outputs A no st).st.dead_temps s.nb_globals) (la_outputs A no st).dead_args
    (fun i h1 h2 h3 => by rw [hl3]; exact hin i h1 h2 h3)
  have e4b := la_dead_args_chk cfg A no ni (la_outputs A no st).st.dead_temps
    (la_outputs A no st).dead_args (fun i h1 h2 h3 => by rw [hl1]; exact hin i h1 h2 h3)
  unfold la_do_not_remove_call_chk la_do_not_remove_call
  rw [e1, except_ok_bind]
  dsimp only
  constructor
  · rintro ⟨i, h1, h2, h3⟩
    have f1 := foldlM_wr_oob A (List.range' no ni)
      (memset1 (la_outputs A no st).st.dead_temps s.nb_globals)
      ⟨i, List.mem_range'_1.mpr ⟨h1, h2⟩, by rw [hl3, h3]; exact hdummy⟩
    have f2 := foldlM_wr_oob A (List.range' no ni) (la_outputs A no st).st.dead_temps
      ⟨i, List.mem_range'_1.mpr ⟨h1, h2⟩, by rw [hl1, h3]; exact hdummy⟩
    cases c1 : (!flag fl cfg.TCG_CALL_NO_READ_GLOBALS) <;>
      cases c2 : (!flag fl (cfg.TCG_CALL_NO_WRITE_GLOBALS ||| cfg.TCG_CALL_NO_READ_GLOBALS)) <;>
      simp only [Bool.false_eq_true, if_false, if_true, m1, m2, except_ok_bind, pure_bind,
        e4a, e4b, f1, f2, except_error_bind]
  · intro hno
    have f1 := la_inputs_live_chk A no ni
      (memset1 (la_outputs A no st).st.dead_temps s.nb_globals)
      (fun i h1 h2 => by rw [hl3]; exact hin i h1 h2 (fun e => hno ⟨i, h1, h2, e⟩))
    have f2 := la_inputs_live_chk A no ni (la_outputs A no st).st.dead_temps
      (fun i h1 h2 => by rw [hl1]; exact hin i h1 h2 (fun e => hno ⟨i, h1, h2, e⟩))
    cases c1 : (!flag fl cfg.TCG_CALL_NO_READ_GLOBALS) <;>
      cases c2 : (!flag fl (cfg.TCG_CALL_NO_WRITE_GLOBALS ||| cfg.TCG_CALL_NO_READ_GLOBALS)) <;>
      simp only [Bool.false_eq_true, if_false, if_true, m1, m2, except_ok_bind, pure_bind,
        e4a, e4b, f1, f2] <;> rfl

theorem call_dummy_input_out_of_bounds_witness :
    la_op exCfg exCallDummy (exCallDummy.gen_op_buf.getD 1 TCGOp.poison)
        (op_arg exCallDummy.gen_opparam_buf 1) exStEnd ≠ LaResult.remove
    ∧ op_arg exCallDummy.gen_opparam_buf 1 1 = exCfg.TCG_CALL_DUMMY_ARG
    ∧ exStEnd.dead_temps.length = exCallDummy.nb_temps
    ∧ la_do_not_remove_call_chk exCfg exCallDummy (op_arg exCallDummy.gen_opparam_buf 1) 0 3
        (op_arg exCallDummy.gen_opparam_buf 1 4) exStEnd = Except.error Fault.oob := by
  refine ⟨by decide, by decide, rfl, ?_⟩
  refine (call_dummy_input_out_of_bounds exCfg exCallDummy
    (op_arg exCallDummy.gen_opparam_buf 1) 0 3 _ exStEnd rfl rfl (by decide)
    (fun i hi => absurd hi (Nat.not_lt_zero i)) ?_ (by decide)).1 ⟨1, by decide, by decide, by decide⟩
  intro i _ h2
  have h : i = 0 ∨ i = 1 ∨ i = 2 := by omega
  rcases h with rfl | rfl | rfl <;> decide

/-! ### The sync of an output bound to a host register -/

/-- `tcg_reg_sync` on a register without owner reads `temps[-1]` -/
theorem tcg_reg_sync_no_owner (cfg : Config) (s : TCGContext) (reg : Nat)
    (h : s.reg_to_temp[reg]? = some (-1)) :
    tcg_reg_sync cfg s reg = Except.error Fault.oob := by
  unfold tcg_reg_sync
  rw [rd_of_getElem? _ _ _ h]
  rfl

/-- Claim C38 fails on the translation block `exAddFixed`
(`insn_start; movi_i32 t1, 5; add_i32 g0, t1, t1; exit_tb`, with `g0` a global bound to
the host register 5). The liveness pass sets the sync bit of the output of the `add_i32`,
since a global must be in memory at the end of the block. When the allocator reaches the
op, no register has an owner; `tcg_reg_alloc_op` takes the register 0 for the output and,
`g0` being `fixed_reg`, leaves `reg_to_temp[0]` at -1; after the op it calls
`tcg_reg_sync` on the register 0, which reads `temps[-1]`. With the sync bit clear the
same call returns. -/
theorem sync_of_fixed_output_reads_no_owner :
    (tcg_liveness_analysis exCfg exAddFixed).map (fun s => (s.op_dead_args, s.op_sync_args))
      = some ([0, 0, 7, 0], [0, 0, 1, 0])
    ∧ exAddFixed_at_add.map
        (fun s => (s.temps.map (fun t => (t.val_type, t.fixed_reg, t.reg)), s.reg_to_temp))
      = Except.ok ([(TCGTempVal.REG, true, 5), (TCGTempVal.CONST, false, 0)],
                   [-1, -1, -1, -1, -1, -1, -1, -1])
    ∧ (exAddFixed_at_add >>= fun s =>
        tcg_reg_alloc_op_args exCfg s (exDefs TCGOpcode.add_i32) [0, 1, 1, 0] 7).map
          (fun a => (a.new_args, a.s.reg_to_temp))
      = Except.ok ([some 0, some 0, some 0, none], [-1, -1, -1, -1, -1, -1, -1, -1])
    ∧ (exAddFixed_at_add >>= fun s =>
        tcg_reg_alloc_op exCfg s (exDefs TCGOpcode.add_i32) TCGOpcode.add_i32 [0, 1, 1, 0] 7 1)
      = Except.error Fault.oob
    ∧ ((exAddFixed_at_add >>= fun s =>
        tcg_reg_alloc_op exCfg s (exDefs TCGOpcode.add_i32) TCGOpcode.add_i32 [0, 1, 1, 0] 7 0).map
          (fun s => s.reg_to_temp))
      = Except.ok [-1, -1, -1, -1, -1, -1, -1, -1]
    ∧ tcg_gen_code exCfg exAddFixed 0 = Except.error Fault.oob := by
  refine ⟨by decide, by decide, by decide, by decide, by decide, by decide⟩

/-! ### The choice of a register -/

/-- the first loop of `tcg_reg_alloc` finds the first register of the order that is in
the set and has no owner, when the registers of the set are entries of `reg_to_temp` -/
theorem reg_alloc_free_eq (s : TCGContext) (reg_ct : TCGRegSet) (order : List Nat)
    (hv : ∀ r ∈ order, tcg_regset_test_reg reg_ct r = true → r < s.reg_to_temp.length) :
    reg_alloc_free s reg_ct order
      = Except.ok (order.find? (fun r =>
          tcg_regset_test_reg reg_ct r && s.reg_to_temp.getD r 0 == -1)) := by
  induction order with
  | nil => rfl
  | cons r rest ih =>
    have ih' := ih (fun x hx => hv x (List.mem_cons_of_mem _ hx))
    unfold reg_alloc_free
    cases ht : tcg_regset_test_reg reg_ct r
    · simp only [Bool.false_eq_true, if_false, List.find?_cons, ht, Bool.false_and]
      exact ih'
    · have hlt := hv r (List.mem_cons_self _ _) ht
      have hrd : rd s.reg_to_temp r = Except.ok (s.reg_to_temp.getD r 0) := by
        apply rd_of_getElem?
        rw [List.getD_eq_getElem?_getD, List.getElem?_eq_getElem hlt]
        rfl
      simp only [if_true, List.find?_cons, Bool.true_and]
      rw [hrd, except_ok_bind]
      cases hf : (s.reg_to_temp.getD r 0 == -1)
      · simp only [Bool.false_eq_true, if_false, ht, hf, Bool.and_false]
        exact ih'
      · simp only [if_true, ht, hf, Bool.and_true]
        rfl

theorem reg_alloc_spill_eq (reg_ct : TCGRegSet) (order : List Nat) :
    reg_alloc_spill reg_ct order = order.find? (fun r => tcg_regset_test_reg reg_ct r) := by
  induction order with
  | nil => rfl
  | cons r rest ih =>
    unfold reg_alloc_spill
    cases ht : tcg_regset_test_reg reg_ct r
    · simp only [Bool.false_eq_true, if_false, List.find?_cons, ht]
      exact ih
    · simp only [if_true, List.find?_cons, ht]
theorem tcg_reg_alloc_eq (cfg : Config) (s : TCGContext) (reg1 reg2 : TCGRegSet)
    (hv : ∀ r ∈ cfg.tcg_target_reg_alloc_order,
      tcg_regset_test_reg (tcg_regset_andnot reg1 reg2) r = true → r < s.reg_to_temp.length) :
    tcg_reg_alloc cfg s reg1 reg2
      = match cfg.tcg_target_reg_alloc_order.find? (fun r =>
            tcg_regset_test_reg (tcg_regset_andnot reg1 reg2) r
              && s.reg_to_temp.getD r 0 == -1) with
        | some r => Except.ok (s, r)
        | none =>
          match cfg.tcg_target_reg_alloc_order.find? (fun r =>
              tcg_regset_test_reg (tcg_regset_andnot reg1 reg2) r) with
          | some r => tcg_reg_free cfg s r >>= fun s1 => pure (s1, r)
          | none => Except.error Fault.abort := by
  unfold tcg_reg_alloc
  simp only []
  rw [reg_alloc_free_eq s _ _ hv, except_ok_bind, reg_alloc_spill_eq]
  cases cfg.tcg_target_reg_alloc_order.find? (fun r =>
      tcg_regset_test_reg (tcg_regset_andnot reg1 reg2) r && s.reg_to_temp.getD r 0 == -1) with
  | some r => rfl
  | none =>
    simp only []
    cases cfg.tcg_target_reg_alloc_order.find? (fun r =>
        tcg_regset_test_reg (tcg_regset_andnot reg1 reg2) r) with
    | some r => rfl
    | none => rfl

/-- after `tcg_reg_free` the register has no owner -/
theorem tcg_reg_free_no_owner (cfg : Config) (s : TCGContext) (reg : Nat) :
    Post (tcg_reg_free cfg s reg) (fun s1 => s1.reg_to_temp[reg]? = some (-1)) := by
  unfold tcg_reg_free
  simp only [post_bind_iff, post_pure_iff, post_ite_iff, post_rd_iff]
  intro temp htemp
  constructor
  · intro _
    apply tcg_reg_sync_frame
    intro a ha
    simp only [post_rdi_iff]
    intro _ ts _
    unfold set_reg_to_temp
    simp only [post_bind_iff, post_pure_iff, post_wr_iff]
    intro hlt
    exact List.getElem?_set_self hlt
  · intro hne
    have : temp = -1 := by simpa using hne
    rw [← this]
    exact htemp
theorem find?_some_mem {α : Type} (p : α → Bool) (l : List α) (a : α)
    (h : l.find? p = some a) : p a = true ∧ a ∈ l :=
  ⟨List.find?_some h, List.mem_of_find?_eq_some h⟩

theorem tcg_reg_sync_coherent (cfg : Config) (s : TCGContext) (r t : Nat) (ts : TCGTemp)
    (hr : s.reg_to_temp[r]? = some (t : Int)) (ht : s.temps[t]? = some ts)
    (hreg : ts.val_type = TCGTempVal.REG)
    (hc : ts.mem_coherent = true ∨ ts.fixed_reg = true) :
    tcg_reg_sync cfg s r = Except.ok (set_temp s t { ts with mem_coherent := true }) := by
  have hrd : rd s.reg_to_temp r = Except.ok (t : Int) := rd_of_getElem? _ _ _ hr
  have hrdt : rd s.temps t = Except.ok ts := rd_of_getElem? _ _ _ ht
  have hcond : (!ts.mem_coherent && !ts.fixed_reg) = false := by
    rcases hc with h | h <;> simp [h]
  unfold tcg_reg_sync
  simp only [hrd, except_ok_bind, rdi, Int.natCast_nonneg, if_true, Int.toNat_ofNat, hrdt,
    hreg, bne_self_eq_false, Bool.false_eq_true, if_false, hcond, pure_bind]
  rfl

theorem tcg_reg_sync_store (cfg : Config) (s : TCGContext) (r t : Nat) (ts : TCGTemp)
    (hr : s.reg_to_temp[r]? = some (t : Int)) (ht : s.temps[t]? = some ts)
    (hreg : ts.val_type = TCGTempVal.REG)
    (h1 : ts.mem_coherent = false) (h2 : ts.fixed_reg = false) (h3 : ts.mem_allocated = true) :
    tcg_reg_sync cfg s r
      = Except.ok (set_temp (tcg_out cfg s (HostInsn.st ts.type r ts.mem_reg ts.mem_offset)) t
          { ts with mem_coherent := true }) := by
  have hrd : rd s.reg_to_temp r = Except.ok (t : Int) := rd_of_getElem? _ _ _ hr
  have hrdt : rd s.temps t = Except.ok ts := rd_of_getElem? _ _ _ ht
  have hrdt2 : rd (tcg_out cfg s (HostInsn.st ts.type r ts.mem_reg ts.mem_offset)).temps t
      = Except.ok ts := rd_of_getElem? _ _ _ ht
  unfold tcg_reg_sync
  simp only [hrd, except_ok_bind, rdi, Int.natCast_nonneg, if_true, Int.toNat_ofNat, hrdt,
    hreg, bne_self_eq_false, Bool.false_eq_true, if_false, h1, h2, h3, Bool.not_false,
    Bool.not_true, Bool.and_self, pure_bind, hrdt2]
  rfl

theorem tcg_reg_free_of_sync (cfg : Config) (s s1 : TCGContext) (r t : Nat) (ts1 : TCGTemp)
    (hr : s.reg_to_temp[r]? = some (t : Int))
    (hs : tcg_reg_sync cfg s r = Except.ok s1) (ht1 : s1.temps[t]? = some ts1)
    (hrl : r < s1.reg_to_temp.length) :
    tcg_reg_free cfg s r = Except.ok { s1 with
      temps := s1.temps.set t { ts1 with val_type := TCGTempVal.MEM },
      reg_to_temp := s1.reg_to_temp.set r (-1) } := by
  have hrd : rd s.reg_to_temp r = Except.ok (t : Int) := rd_of_getElem? _ _ _ hr
  have hrdt : rd s1.temps t = Except.ok ts1 := rd_of_getElem? _ _ _ ht1
  have hne : ((t : Int) != -1) = true := by
    simp only [bne_iff_ne, ne_eq]
    omega
  unfold tcg_reg_free
  simp only [hrd, except_ok_bind, hne, if_true, hs, rdi, Int.natCast_nonneg, Int.toNat_ofNat,
    hrdt, set_reg_to_temp, set_temp]
  rw [wr_ok _ _ _ hrl]
  rfl

/-- C35, amended.  When the registers of `reg1` minus `reg2` in the order are entries of
`reg_to_temp`: `tcg_reg_alloc` returns the first register of the order that is in
`reg1` minus `reg2` and has no owner, with the context unchanged; if there is none it
hands the first register of the order in `reg1` minus `reg2` to `tcg_reg_free` and
returns it with the context `tcg_reg_free` leaves; if no register of the order is in
`reg1` minus `reg2` it aborts.  Whenever it returns, the register returned is in `reg1`
minus `reg2` and has no owner.  The spill of an owner in REG state emits no store when
the owner is `mem_coherent` or `fixed_reg`, and one store to its slot when it is neither
and has a slot; in both cases the owner becomes MEM and `mem_coherent`. -/
theorem reg_alloc_choice (cfg : Config) (s : TCGContext) (reg1 reg2 : TCGRegSet)
    (hv : ∀ r ∈ cfg.tcg_target_reg_alloc_order,
      tcg_regset_test_reg (tcg_regset_andnot reg1 reg2) r = true → r < s.reg_to_temp.length) :
    tcg_reg_alloc cfg s reg1 reg2
      = (match cfg.tcg_target_reg_alloc_order.find? (fun r =>
            tcg_regset_test_reg (tcg_regset_andnot reg1 reg2) r
              && s.reg_to_temp.getD r 0 == -1) with
        | some r => Except.ok (s, r)
        | none =>
          match cfg.tcg_target_reg_alloc_order.find? (fun r =>
              tcg_regset_test_reg (tcg_regset_andnot reg1 reg2) r) with
          | some r => tcg_reg_free cfg s r >>= fun s1 => pure (s1, r)
          | none => Except.error Fault.abort)
    ∧ (∀ s1 r, tcg_reg_alloc cfg s reg1 reg2 = Except.ok (s1, r) →
        tcg_regset_test_reg (tcg_regset_andnot reg1 reg2) r = true
        ∧ s1.reg_to_temp[r]? = some (-1))
    ∧ (∀ (r t : Nat) (ts : TCGTemp), s.reg_to_temp[r]? = some (t : Int) →
        s.temps[t]? = some ts → ts.val_type = TCGTempVal.REG →
        ((ts.mem_coherent = true ∨ ts.fixed_reg = true) →
          tcg_reg_free cfg s r = Except.ok { s with
            temps := s.temps.set t { ts with mem_coherent := true,
                                             val_type := TCGTempVal.MEM },
            reg_to_temp := s.reg_to_temp.set r (-1) })
        ∧ (ts.mem_coherent = false → ts.fixed_reg = false → ts.mem_allocated = true →
          tcg_reg_free cfg s r = Except.ok { s with
            temps := s.temps.set t { ts with mem_coherent := true,
                                             val_type := TCGTempVal.MEM },
            reg_to_temp := s.reg_to_temp.set r (-1),
            out := s.out ++ [HostInsn.st ts.type r ts.mem_reg ts.mem_offset],
            code_ptr := s.code_ptr
              + cfg.insn_size (HostInsn.st ts.type r ts.mem_reg ts.mem_offset) })) := by
  have heq := tcg_reg_alloc_eq cfg s reg1 reg2 hv
  refine ⟨heq, ?_, ?_⟩
  · intro s1 r h
    rw [heq] at h
    cases hf : cfg.tcg_target_reg_alloc_order.find? (fun r =>
        tcg_regset_test_reg (tcg_regset_andnot reg1 reg2) r
          && s.reg_to_temp.getD r 0 == -1) with
    | some r0 =>
      rw [hf] at h
      simp only [Except.ok.injEq, Prod.mk.injEq] at h
      obtain ⟨rfl, rfl⟩ := h
      obtain ⟨hp, hm⟩ := find?_some_mem _ _ _ hf
      simp only [Bool.and_eq_true, beq_iff_eq] at hp
      have hlt := hv r0 hm hp.1
      refine ⟨hp.1, ?_⟩
      rw [List.getElem?_eq_getElem hlt, ← hp.2, List.getD_eq_getElem?_getD,
        List.getElem?_eq_getElem hlt]
      rfl
    | none =>
      rw [hf] at h
      simp only [] at h
      cases hs : cfg.tcg_target_reg_alloc_order.find? (fun r =>
          tcg_regset_test_reg (tcg_regset_andnot reg1 reg2) r) with
      | none =>
        rw [hs] at h
        cases h
      | some r0 =>
        rw [hs] at h
        simp only [] at h
        obtain ⟨hp, _⟩ := find?_some_mem _ _ _ hs
        cases hfr : tcg_reg_free cfg s r0 with
        | error e =>
          rw [hfr] at h
          cases h
        | ok s2 =>
          rw [hfr, except_ok_bind] at h
          simp only [pure, Except.pure, Except.ok.injEq, Prod.mk.injEq] at h
          obtain ⟨rfl, rfl⟩ := h
          exact ⟨hp, (post_def _ _).mp (tcg_reg_free_no_owner cfg s r0) s2 hfr⟩
  · intro r t ts hr ht hreg
    have hrl : r < s.reg_to_temp.length := by
      rcases Nat.lt_or_ge r s.reg_to_temp.length with h | h
      · exact h
      · rw [List.getElem?_eq_none h] at hr
        cases hr
    have htl : t < s.temps.length := by
      rcases Nat.lt_or_ge t s.temps.length with h | h
      · exact h
      · rw [List.getElem?_eq_none h] at ht
        cases ht
    constructor
    · intro hc
      rw [tcg_reg_free_of_sync cfg s _ r t { ts with mem_coherent := true } hr
        (tcg_reg_sync_coherent cfg s r t ts hr ht hreg hc)
        (by simp only [set_temp]; exact List.getElem?_set_self htl) hrl]
      simp only [set_temp, List.set_set]
    · intro h1 h2 h3
      rw [tcg_reg_free_of_sync cfg s _ r t { ts with mem_coherent := true } hr
        (tcg_reg_sync_store cfg s r t ts hr ht hreg h1 h2 h3)
        (by simp only [set_temp, tcg_out]; exact List.getElem?_set_self htl) hrl]
      simp only [set_temp, tcg_out, List.set_set]

/-- The claim C35 as it stands fails: in the context `exSpill 0` the only register of
`reg1` minus `reg2`, the register 0 of the order, is owned by a temp that has no slot in
the frame, and the frame is full; `tcg_reg_alloc` aborts, in `temp_allocate_frame`,
although a register of the order lies in `reg1` minus `reg2`.  With one word left in the
frame (`exSpill 8`) the same call returns the register 0 after one store. -/
theorem reg_alloc_choice_counterexample :
    exCfg.tcg_target_reg_alloc_order.find? (fun r =>
        tcg_regset_test_reg (tcg_regset_andnot 1 0) r) = some 0
    ∧ tcg_reg_alloc exCfg (exSpill 0) 1 0 = Except.error Fault.abort
    ∧ (tcg_reg_alloc exCfg (exSpill 8) 1 0).map (fun p => (p.2, p.1.out, p.1.reg_to_temp))
        = Except.ok (0, [HostInsn.st TCGType.I32 0 7 56], [-1, -1, -1, -1, -1, -1, -1, -1]) := by
  refine ⟨by decide, by decide, by decide⟩

theorem reg_alloc_choice_witness :
    (∀ r ∈ exCfg.tcg_target_reg_alloc_order,
      tcg_regset_test_reg (tcg_regset_andnot 1 0) r = true
        → r < (exSpill 8).reg_to_temp.length)
    ∧ ∀ s1 r, tcg_reg_alloc exCfg (exSpill 8) 1 0 = Except.ok (s1, r) →
        tcg_regset_test_reg (tcg_regset_andnot 1 0) r = true
        ∧ s1.reg_to_temp[r]? = some (-1) :=
  have hv : ∀ r ∈ exCfg.tcg_target_reg_alloc_order,
      tcg_regset_test_reg (tcg_regset_andnot 1 0) r = true
        → r < (exSpill 8).reg_to_temp.length := by
    intro r hr _
    have h : r ∈ [0, 1, 2, 3, 4, 5, 6, 7] := hr
    simp only [List.mem_cons, List.mem_singleton, List.not_mem_nil, or_false] at h
    show r < 8
    omega
  ⟨hv, (reg_alloc_choice exCfg (exSpill 8) 1 0 hv).2.1⟩

/-! ### The arguments of a helper call -/

/-- one slot of the stack: the offset advances by one word, whatever the argument -/
theorem call_stack_arg_offset (cfg : Config) (args : List TCGArg) (no : Nat)
    (p : TCGContext × Int) (i : Nat) (hup : cfg.TCG_TARGET_STACK_GROWSUP = false) :
    Post (call_stack_arg cfg args no p i)
      (fun q => q.2 = p.2 + (cfg.sizeof_tcg_target_long : Int)) := by
  unfold call_stack_arg
  simp only [hup, Bool.false_eq_true, if_false, post_bind_iff, post_pure_iff, post_rd_iff,
    post_ite_iff]
  intro arg _
  constructor
  · intro _ ts _
    cases ts.val_type with
    | REG => simp only [post_bind_iff, post_pure_iff]
    | MEM =>
      simp only [post_bind_iff, post_pure_iff, post_rd_iff]
      apply tcg_reg_alloc_frame
      intro a _ ts0 _
      trivial
    | CONST =>
      simp only [post_bind_iff, post_pure_iff, post_rd_iff]
      apply tcg_reg_alloc_frame
      intro a _ ts0 _
      trivial
    | DEAD => simp only [post_bind_iff, post_throw_iff]
  · intro _
    trivial

theorem call_stack_fold_offset (cfg : Config) (args : List TCGArg) (no : Nat)
    (hup : cfg.TCG_TARGET_STACK_GROWSUP = false) (n k : Nat) :
    ∀ (p : TCGContext × Int),
      Post ((List.range' n k).foldlM (call_stack_arg cfg args no) p)
        (fun q => q.2 = p.2 + (k : Int) * (cfg.sizeof_tcg_target_long : Int)) := by
  induction k generalizing n with
  | zero =>
    intro p
    simp only [List.range'_zero, List.foldlM_nil, post_pure_iff]
    omega
  | succ k ih =>
    intro p
    rw [List.range'_succ, List.foldlM_cons, post_bind_iff]
    refine post_mono _ _ _ (call_stack_arg_offset cfg args no p n hup) ?_
    intro q hq
    refine post_mono _ _ _ (ih (n + 1) q) ?_
    intro r hr
    rw [hr, hq]
    push_cast
    ring

/-- a pad on the stack: no instruction, the slot is consumed -/
theorem call_stack_arg_dummy (cfg : Config) (args : List TCGArg) (no : Nat)
    (p : TCGContext × Int) (i : Nat) (hup : cfg.TCG_TARGET_STACK_GROWSUP = false)
    (ha : args[no + i]? = some cfg.TCG_CALL_DUMMY_ARG) :
    call_stack_arg cfg args no p i
      = Except.ok (p.1, p.2 + (cfg.sizeof_tcg_target_long : Int)) := by
  unfold call_stack_arg
  simp only [rd_of_getElem? _ _ _ ha, except_ok_bind, hup, Bool.false_eq_true, if_false,
    bne_self_eq_false, pure_bind]
  rfl

/-- an argument in a register, on the stack: one store at the offset of the slot -/
theorem call_stack_arg_reg (cfg : Config) (args : List TCGArg) (no : Nat)
    (p : TCGContext × Int) (i : Nat) (arg : TCGArg) (ts : TCGTemp)
    (hup : cfg.TCG_TARGET_STACK_GROWSUP = false)
    (ha : args[no + i]? = some arg) (hd : arg ≠ cfg.TCG_CALL_DUMMY_ARG)
    (ht : p.1.temps[arg]? = some ts) (hr : ts.val_type = TCGTempVal.REG) :
    call_stack_arg cfg args no p i
      = Except.ok (tcg_out cfg p.1 (HostInsn.st ts.type ts.reg cfg.TCG_REG_CALL_STACK p.2),
                   p.2 + (cfg.sizeof_tcg_target_long : Int)) := by
  have hne : (arg != cfg.TCG_CALL_DUMMY_ARG) = true := by simpa using hd
  unfold call_stack_arg
  simp only [rd_of_getElem? _ _ _ ha, except_ok_bind, hup, Bool.false_eq_true, if_false,
    hne, if_true, rd_of_getElem? _ _ _ ht, hr, pure_bind]
  rfl

/-- a pad in the place of a register argument: nothing is done -/
theorem call_reg_arg_dummy (cfg : Config) (args : List TCGArg) (no : Nat)
    (p : TCGContext × TCGRegSet) (i : Nat)
    (ha : args[no + i]? = some cfg.TCG_CALL_DUMMY_ARG) :
    call_reg_arg cfg args no p i = Except.ok p := by
  unfold call_reg_arg
  simp only [rd_of_getElem? _ _ _ ha, except_ok_bind, bne_self_eq_false, Bool.false_eq_true,
    if_false]
  rfl

/-- a register argument: the register `tcg_target_call_iarg_regs[i]` is freed, then
receives the argument by a move, a load or a load of the constant, and is added to
`allocated_regs` -/
theorem call_reg_arg_place (cfg : Config) (args : List TCGArg) (no : Nat)
    (p : TCGContext × TCGRegSet) (i : Nat) (arg : TCGArg)
    (ha : args[no + i]? = some arg) (hd : arg ≠ cfg.TCG_CALL_DUMMY_ARG) :
    Post (call_reg_arg cfg args no p i) (fun q =>
      ∃ reg s1 ts, cfg.tcg_target_call_iarg_regs[i]? = some reg
        ∧ tcg_reg_free cfg p.1 reg = Except.ok s1 ∧ s1.temps[arg]? = some ts
        ∧ q.2 = tcg_regset_set_reg p.2 reg
        ∧ ((ts.val_type = TCGTempVal.REG ∧ ts.reg = reg ∧ q.1 = s1)
          ∨ (ts.val_type = TCGTempVal.REG ∧ ts.reg ≠ reg
              ∧ q.1 = tcg_out cfg s1 (HostInsn.mov ts.type reg ts.reg))
          ∨ (ts.val_type = TCGTempVal.MEM
              ∧ q.1 = tcg_out cfg s1 (HostInsn.ld ts.type reg ts.mem_reg ts.mem_offset))
          ∨ (ts.val_type = TCGTempVal.CONST
              ∧ q.1 = tcg_out cfg s1 (HostInsn.movi ts.type reg ts.val)))) := by
  have hne : (arg != cfg.TCG_CALL_DUMMY_ARG) = true := by simpa using hd
  unfold call_reg_arg
  simp only [rd_of_getElem? _ _ _ ha, except_ok_bind, hne, if_true, post_bind_iff,
    post_rd_iff]
  intro reg hreg
  rw [post_def]
  intro s1 hs1
  intro ts hts
  cases hv : ts.val_type with
  | DEAD => simp only [post_bind_iff, post_throw_iff]
  | REG =>
    simp only [post_bind_iff, post_pure_iff]
    refine ⟨reg, s1, ts, hreg, hs1, hts, rfl, ?_⟩
    by_cases he : ts.reg = reg
    · left
      exact ⟨hv, he, by simp [he]⟩
    · right; left
      have : (ts.reg != reg) = true := by simpa using he
      exact ⟨hv, he, by simp [this]⟩
  | MEM =>
    simp only [post_bind_iff, post_pure_iff]
    exact ⟨reg, s1, ts, hreg, hs1, hts, rfl, Or.inr (Or.inr (Or.inl ⟨hv, rfl⟩))⟩
  | CONST =>
    simp only [post_bind_iff, post_pure_iff]
    exact ⟨reg, s1, ts, hreg, hs1, hts, rfl, Or.inr (Or.inr (Or.inr ⟨hv, rfl⟩))⟩

/-- The claim C36 as it stands fails: the call `f(t1)` of `exCallDeadArgs` passes its one
argument in a register, so the size of the stack arguments is 0, and `tcg_reg_alloc_call`
aborts all the same, because the temp `t1` is in DEAD state. -/
theorem call_args_layout_counterexample :
    ((1 - min 1 exCfg.tcg_target_call_iarg_regs.length) * exCfg.sizeof_tcg_target_long
        + exCfg.TCG_TARGET_STACK_ALIGN - 1
      - ((1 - min 1 exCfg.tcg_target_call_iarg_regs.length) * exCfg.sizeof_tcg_target_long
          + exCfg.TCG_TARGET_STACK_ALIGN - 1) % exCfg.TCG_TARGET_STACK_ALIGN) = 0
    ∧ ((tcg_reg_alloc_start exCfg (exCtx [] [] [])).temps.map (fun t => t.val_type))
        = [TCGTempVal.REG, TCGTempVal.DEAD]
    ∧ tcg_reg_alloc_call exCfg (tcg_reg_alloc_start exCfg (exCtx [] [] [])) 0 1
        exCallDeadArgs 0 0 = Except.error Fault.abort := by
  refine ⟨by decide, by decide, by decide⟩

/-! ### Temps handed out and freed -/

theorem find_first_bit_set (l : List Bool) (size : Nat) (h : find_first_bit l size < size) :
    l.getD (find_first_bit l size) false = true := by
  unfold find_first_bit at h ⊢
  cases hf : (List.range size).find? (fun i => l.getD i false) with
  | none =>
    rw [hf] at h
    exact absurd h (Nat.lt_irrefl _)
  | some i =>
    simp only []
    exact (find?_some_mem (fun i => l.getD i false) _ _ hf).1

theorem tempsInv_start (cfg : Config) (s : TCGContext) :
    TempsInv cfg (tcg_func_start cfg s, []) := by
  refine ⟨?_, Nat.le_refl _, List.nodup_nil, fun i hi => absurd hi (List.not_mem_nil i)⟩
  intro k bm i hk hb
  exfalso
  simp only [tcg_func_start, List.getElem?_replicate] at hk
  split at hk
  · cases hk
    rw [List.getD_eq_getElem?_getD, List.getElem?_replicate] at hb
    split at hb <;> exact Bool.noConfusion hb
  · cases hk

theorem getElem?_lt {α : Type} {l : List α} {i : Nat} {a : α} (h : l[i]? = some a) :
    i < l.length := by
  rcases Nat.lt_or_ge i l.length with h1 | h1
  · exact h1
  · rw [List.getElem?_eq_none h1] at h
    cases h

/-- `tcg_temp_free_internal` keeps the invariant of a run -/
theorem temp_free_inv (cfg : Config) (s : TCGContext) (live : List Nat) (idx : Int)
    (hinv : TempsInv cfg (s, live)) :
    Post (tcg_temp_free_internal cfg s idx)
      (fun s1 => TempsInv cfg (s1, live.filter (fun i => (i : Int) != idx))) := by
  obtain ⟨hfree, hgt, hnd, hlive⟩ := hinv
  unfold tcg_temp_free_internal
  simp only [post_bind_iff, post_pure_iff, post_throw_iff, post_ite_iff, post_rd_iff,
    post_wr_iff, post_rdi_iff]
  refine ⟨fun _ => trivial, fun hrange => ?_⟩
  simp only [Bool.not_eq_true', Bool.and_eq_false_imp, decide_eq_true_eq, decide_eq_false_iff_not,
    not_not, Bool.not_eq_false'] at hrange
  intro h0 ts hts
  refine ⟨fun _ => trivial, fun halloc => ?_⟩
  have halloc' : ts.temp_allocated = true := by simpa using halloc
  intro hlt bm hbm hlt2 hk
  have hrange' : (s.nb_globals : Int) ≤ idx ∧ idx < (s.nb_temps : Int) := by
    by_contra hc
    exact hrange (fun h1 h2 => hc ⟨h1, h2⟩)
  have hidx : (idx.toNat : Int) = idx := Int.toNat_of_nonneg h0
  refine ⟨?_, hgt, hnd.filter _, ?_⟩
  · intro k bm' i hk' hb'
    show s.nb_globals ≤ i ∧ i < s.nb_temps ∧ ∃ ts', (s.temps.set idx.toNat _)[i]? = some ts' ∧ _
    by_cases hi : i = idx.toNat
    · subst hi
      refine ⟨by omega, by omega, _, List.getElem?_set_self hlt, rfl, ?_⟩
      show temp_bucket cfg ts.base_type ts.temp_local = k
      by_contra hne
      have hk'' : s.free_temps[k]? = some bm' := by
        have : (s.free_temps.set (temp_bucket cfg ts.base_type ts.temp_local)
            (bm.set idx.toNat true))[k]? = some bm' := hk'
        rwa [List.getElem?_set_ne hne] at this
      obtain ⟨_, _, ts2, hts2, hna, _⟩ := hfree k bm' idx.toNat hk'' hb'
      rw [hts] at hts2
      cases hts2
      rw [halloc'] at hna
      exact Bool.noConfusion hna
    · have hold : ∃ bm0, s.free_temps[k]? = some bm0 ∧ bm0.getD i false = true := by
        have hk2 : (s.free_temps.set (temp_bucket cfg ts.base_type ts.temp_local)
            (bm.set idx.toNat true))[k]? = some bm' := hk'
        by_cases hke : temp_bucket cfg ts.base_type ts.temp_local = k
        · rw [hke] at hk2 hbm
          rw [List.getElem?_set_self (by rw [← hke]; exact hk)] at hk2
          cases hk2
          refine ⟨bm, hbm, ?_⟩
          rw [getD_set_bool] at hb'
          rw [if_neg (fun h => hi h.1)] at hb'
          exact hb'
        · rw [List.getElem?_set_ne hke] at hk2
          exact ⟨bm', hk2, hb'⟩
      obtain ⟨bm0, hk0, hb0⟩ := hold
      obtain ⟨h1, h2, ts2, hts2, hna, hbk⟩ := hfree k bm0 i hk0 hb0
      refine ⟨h1, h2, ts2, ?_, hna, hbk⟩
      rw [List.getElem?_set_ne (fun h => hi h.symm)]
      exact hts2
  · intro i hi
    rw [List.mem_filter] at hi
    obtain ⟨himem, hne⟩ := hi
    have hne' : (i : Int) ≠ idx := by simpa using hne
    obtain ⟨h1, h2, ts2, hts2, ha⟩ := hlive i himem
    refine ⟨h1, h2, ts2, ?_, ha⟩
    show (s.temps.set idx.toNat _)[i]? = some ts2
    rw [List.getElem?_set_ne (by omega)]
    exact hts2

theorem tempsInv_congr (cfg : Config) (s s1 : TCGContext) (live : List Nat)
    (h1 : s1.nb_globals = s.nb_globals) (h2 : s1.nb_temps = s.nb_temps)
    (h3 : s1.temps = s.temps) (h4 : s1.free_temps = s.free_temps)
    (h : TempsInv cfg (s, live)) : TempsInv cfg (s1, live) := by
  unfold TempsInv FreeOK at h ⊢
  simp only [h1, h2, h3, h4]
  exact h

/-- a temp taken from the bitmap of its bucket -/
theorem tempsInv_reuse (cfg : Config) (s : TCGContext) (live : List Nat)
    (k idx : Nat) (bm : List Bool) (ts : TCGTemp)
    (hinv : TempsInv cfg (s, live))
    (hbm : s.free_temps[k]? = some bm) (hbit : bm.getD idx false = true)
    (hts : s.temps[idx]? = some ts) :
    idx ∉ live ∧ s.nb_globals ≤ idx
    ∧ temp_bucket cfg ts.base_type ts.temp_local = k
    ∧ TempsInv cfg ({ s with free_temps := s.free_temps.set k (bm.set idx false),
                             temps := s.temps.set idx { ts with temp_allocated := true } },
                    idx :: live) := by
  obtain ⟨hfree, hgt, hnd, hlive⟩ := hinv
  obtain ⟨hg, hlt, ts0, hts0, hna, hbk⟩ := hfree k bm idx hbm hbit
  rw [hts] at hts0
  cases hts0
  have hnl : idx ∉ live := by
    intro hm
    obtain ⟨_, _, ts1, hts1, ha⟩ := hlive idx hm
    rw [hts] at hts1
    cases hts1
    rw [hna] at ha
    exact Bool.noConfusion ha
  have hil : idx < s.temps.length := getElem?_lt hts
  have hkl : k < s.free_temps.length := getElem?_lt hbm
  refine ⟨hnl, hg, hbk, ?_, hgt, List.nodup_cons.mpr ⟨hnl, hnd⟩, ?_⟩
  · intro k' bm' i hk' hb'
    have hk2 : (s.free_temps.set k (bm.set idx false))[k']? = some bm' := hk'
    have hi : i ≠ idx := by
      intro he
      subst he
      by_cases hke : k = k'
      · subst hke
        rw [List.getElem?_set_self hkl] at hk2
        cases hk2
        rw [getD_set_bool] at hb'
        by_cases hc : i < bm.length
        · rw [if_pos ⟨rfl, hc⟩] at hb'
          exact Bool.noConfusion hb'
        · rw [if_neg (fun h => hc h.2)] at hb'
          exact hc (getD_true_lt hb')
      · rw [List.getElem?_set_ne hke] at hk2
        obtain ⟨_, _, ts1, hts1, _, hbk1⟩ := hfree k' bm' i hk2 hb'
        rw [hts] at hts1
        cases hts1
        exact hke (hbk.symm.trans hbk1)
    have hold : ∃ bm0, s.free_temps[k']? = some bm0 ∧ bm0.getD i false = true := by
      by_cases hke : k = k'
      · subst hke
        rw [List.getElem?_set_self hkl] at hk2
        cases hk2
        refine ⟨bm, hbm, ?_⟩
        rw [getD_set_bool, if_neg (fun h => hi h.1)] at hb'
        exact hb'
      · rw [List.getElem?_set_ne hke] at hk2
        exact ⟨bm', hk2, hb'⟩
    obtain ⟨bm0, hk0, hb0⟩ := hold
    obtain ⟨h1, h2, ts2, hts2, hna2, hbk2⟩ := hfree k' bm0 i hk0 hb0
    refine ⟨h1, h2, ts2, ?_, hna2, hbk2⟩
    show (s.temps.set idx _)[i]? = some ts2
    rw [List.getElem?_set_ne (fun h => hi h.symm)]
    exact hts2
  · intro i hi
    show s.nb_globals ≤ i ∧ i < s.nb_temps ∧ ∃ ts', (s.temps.set idx _)[i]? = some ts' ∧ _
    rcases List.mem_cons.mp hi with he | hm
    · subst he
      exact ⟨hg, hlt, _, List.getElem?_set_self hil, rfl⟩
    · obtain ⟨h1, h2, ts2, hts2, ha⟩ := hlive i hm
      have hne : i ≠ idx := fun he => hnl (he ▸ hm)
      refine ⟨h1, h2, ts2, ?_, ha⟩
      rw [List.getElem?_set_ne (fun h => hne h.symm)]
      exact hts2

/-- new temps appended at `nb_temps`: `temps'` agrees with `temps` below `nb_temps` and
holds an allocated temp at `nb_temps` -/
theorem tempsInv_fresh (cfg : Config) (s : TCGContext) (live : List Nat)
    (temps1 : List TCGTemp) (n : Nat) (ts : TCGTemp)
    (hinv : TempsInv cfg (s, live)) (hn : s.nb_temps < n)
    (hagree : ∀ i, i < s.nb_temps → temps1[i]? = s.temps[i]?)
    (hnew : temps1[s.nb_temps]? = some ts) (ha : ts.temp_allocated = true) :
    s.nb_temps ∉ live ∧ s.nb_globals ≤ s.nb_temps
    ∧ TempsInv cfg ({ s with temps := temps1, nb_temps := n }, s.nb_temps :: live) := by
  obtain ⟨hfree, hgt, hnd, hlive⟩ := hinv
  have hnl : s.nb_temps ∉ live := by
    intro hm
    obtain ⟨_, h2, _⟩ := hlive _ hm
    exact Nat.lt_irrefl _ h2
  refine ⟨hnl, hgt, ?_, Nat.le_trans hgt (Nat.le_of_lt hn),
    List.nodup_cons.mpr ⟨hnl, hnd⟩, ?_⟩
  · intro k bm i hk hb
    obtain ⟨h1, h2, ts2, hts2, hna, hbk⟩ := hfree k bm i hk hb
    refine ⟨h1, Nat.lt_trans h2 hn, ts2, ?_, hna, hbk⟩
    show temps1[i]? = some ts2
    rw [hagree i h2]
    exact hts2
  · intro i hi
    show s.nb_globals ≤ i ∧ i < n ∧ ∃ ts', temps1[i]? = some ts' ∧ _
    rcases List.mem_cons.mp hi with he | hm
    · subst he
      exact ⟨hgt, hn, ts, hnew, ha⟩
    · obtain ⟨h1, h2, ts2, hts2, ha2⟩ := hlive i hm
      refine ⟨h1, Nat.lt_trans h2 hn, ts2, ?_, ha2⟩
      rw [hagree i h2]
      exact hts2

theorem tempsInv_fresh_one (cfg : Config) (s : TCGContext) (live : List Nat)
    (ts : TCGTemp) (ty : TCGType) (loc : Bool)
    (hinv : TempsInv cfg (s, live)) (hil : s.nb_temps < s.temps.length) :
    s.nb_temps ∉ live ∧ s.nb_globals ≤ s.nb_temps
    ∧ TempsInv cfg
        ({ s with
            temps := s.temps.set s.nb_temps
              { ts with base_type := ty, type := ty, temp_allocated := true, temp_local := loc },
            nb_temps := s.nb_temps + 1 },
         s.nb_temps :: live) :=
  tempsInv_fresh cfg s live _ (s.nb_temps + 1) _ hinv (Nat.lt_succ_self _)
    (fun _ hi => List.getElem?_set_ne (Nat.ne_of_gt hi))
    (List.getElem?_set_self hil) rfl

theorem tempsInv_fresh_two (cfg : Config) (s : TCGContext) (live : List Nat)
    (ts ts2 : TCGTemp) (ty : TCGType) (loc : Bool)
    (hinv : TempsInv cfg (s, live)) (hil : s.nb_temps < s.temps.length) :
    s.nb_temps ∉ live ∧ s.nb_globals ≤ s.nb_temps
    ∧ TempsInv cfg
        ({ s with
            temps := (s.temps.set s.nb_temps
              { ts with base_type := ty, type := TCGType.I32, temp_allocated := true,
                        temp_local := loc }).set (s.nb_temps + 1)
              { ts2 with base_type := ty, type := TCGType.I32, temp_allocated := true,
                         temp_local := loc },
            nb_temps := s.nb_temps + 2 },
         s.nb_temps :: live) :=
  tempsInv_fresh cfg s live _ (s.nb_temps + 2) _ hinv (by omega)
    (fun _ hi => by
      rw [List.getElem?_set_ne (by omega), List.getElem?_set_ne (by omega)])
    (by rw [List.getElem?_set_ne (by omega), List.getElem?_set_self hil]) rfl

/-- `tcg_temp_new_internal` keeps the invariant of a run, and the index it returns is
not a global and was not handed out already; a temp taken from a bitmap has the type and
the locality asked for -/
theorem temp_new_inv (cfg : Config) (s : TCGContext) (live : List Nat) (ty : TCGType)
    (temp_local : Bool) (hinv : TempsInv cfg (s, live)) :
    Post (tcg_temp_new_internal cfg s ty temp_local)
      (fun r => r.1 ∉ live ∧ s.nb_globals ≤ r.1
        ∧ (r.1 < s.nb_temps → ∃ ts, s.temps[r.1]? = some ts ∧ ts.temp_allocated = false
            ∧ ts.base_type = ty ∧ ts.temp_local = temp_local)
        ∧ TempsInv cfg (r.2, r.1 :: live)) := by
  unfold tcg_temp_new_internal tcg_temp_alloc
  simp only [post_bind_iff, post_pure_iff, post_throw_iff, post_ite_iff, post_rd_iff,
    post_wr_iff]
  intro bm hbm
  refine ⟨fun hlt => ?_, fun hnlt => ⟨fun h32 => ?_, fun h32 => ?_⟩⟩
  · -- a temp of the bucket is free
    intro hlt1 hkl ts hts hil
    refine ⟨fun _ => trivial, fun hbt => ⟨fun _ => trivial, fun hloc => ?_⟩⟩
    have hbit := find_first_bit_set bm cfg.TCG_MAX_TEMPS hlt
    obtain ⟨h1, h2, h3, h4⟩ := tempsInv_reuse cfg s live _ _ bm ts hinv hbm hbit hts
    have hbt' : ts.base_type = ty := by simpa using hbt
    have hloc' : ts.temp_local = temp_local := by simpa using hloc
    obtain ⟨hfree, _, _, _⟩ := hinv
    obtain ⟨_, hlt2, ts0, hts0, hna, _⟩ := hfree _ bm _ hbm hbit
    rw [hts] at hts0
    cases hts0
    refine ⟨h1, h2, fun _ => ⟨ts, hts, hna, hbt', hloc'⟩, ?_⟩
    exact tempsInv_congr cfg _ _ _ rfl rfl rfl rfl h4
  · -- two new temps for a 64-bit temp on a 32-bit host
    refine ⟨fun _ => trivial, fun _ => ?_⟩
    intro ts hts hil ts2 hts2 hil2
    obtain ⟨h1, h2, h3⟩ := tempsInv_fresh_two cfg s live ts ts2 ty temp_local hinv hil
    refine ⟨h1, h2, fun hc => absurd hc (Nat.lt_irrefl _), ?_⟩
    exact tempsInv_congr cfg _ _ _ rfl rfl rfl rfl h3
  · -- one new temp
    refine ⟨fun _ => trivial, fun _ => ?_⟩
    intro ts hts hil
    obtain ⟨h1, h2, h3⟩ := tempsInv_fresh_one cfg s live ts ty temp_local hinv hil
    refine ⟨h1, h2, fun hc => absurd hc (Nat.lt_irrefl _), ?_⟩
    exact tempsInv_congr cfg _ _ _ rfl rfl rfl rfl h3

/-- every run from `tcg_func_start` in which no call fails keeps the invariant -/
theorem temp_run_inv (cfg : Config) (cmds : List TempCmd) :
    ∀ p, TempsInv cfg p → Post (cmds.foldlM (temp_step cfg) p) (TempsInv cfg) := by
  intro p hp
  refine post_foldlM cmds (temp_step cfg) (TempsInv cfg) p hp ?_
  intro a c _ ha
  cases c with
  | new type temp_local =>
    unfold temp_step
    simp only [post_bind_iff, post_pure_iff]
    refine post_mono _ _ _ (temp_new_inv cfg a.1 a.2 type temp_local ha) ?_
    intro r hr
    exact hr.2.2.2
  | free idx =>
    unfold temp_step
    simp only [post_bind_iff, post_pure_iff]
    exact temp_free_inv cfg a.1 a.2 idx ha

/-- C40: after any run of `tcg_temp_new_internal` and `tcg_temp_free_internal` calls from
the context left by `tcg_func_start`, none of which failed, with `live` the indices
handed out and not freed since: every index whose bit is set in the bitmap of a bucket
lies in `[nb_globals, nb_temps)`, is not allocated and has the type and the locality of
the bucket; the indices of `live` are distinct and allocated; and a further
`tcg_temp_new_internal` that returns gives an index that is not in `live` and not below
`nb_globals`, and, when it is an existing temp, one that was free, of the type and the
locality asked for. -/
theorem temp_new_not_live (cfg : Config) (s0 s : TCGContext) (cmds : List TempCmd)
    (live : List Nat)
    (hrun : cmds.foldlM (temp_step cfg) (tcg_func_start cfg s0, []) = Except.ok (s, live)) :
    FreeOK cfg s ∧ live.Nodup
    ∧ (∀ i ∈ live, s.nb_globals ≤ i ∧ i < s.nb_temps
        ∧ ∃ ts, s.temps[i]? = some ts ∧ ts.temp_allocated = true)
    ∧ ∀ (ty : TCGType) (loc : Bool) (idx : Nat) (s1 : TCGContext),
        tcg_temp_new_internal cfg s ty loc = Except.ok (idx, s1) →
        idx ∉ live ∧ s.nb_globals ≤ idx
        ∧ (idx < s.nb_temps → ∃ ts, s.temps[idx]? = some ts ∧ ts.temp_allocated = false
            ∧ ts.base_type = ty ∧ ts.temp_local = loc) := by
  have hinv : TempsInv cfg (s, live) :=
    (post_def _ _).mp (temp_run_inv cfg cmds _ (tempsInv_start cfg s0)) _ hrun
  refine ⟨hinv.1, hinv.2.2.1, hinv.2.2.2, ?_⟩
  intro ty loc idx s1 hnew
  have h := (post_def _ _).mp (temp_new_inv cfg s live ty loc hinv) _ hnew
  exact ⟨h.1, h.2.1, h.2.2.1⟩

theorem temp_new_not_live_witness :
    exTempsRun.foldlM (temp_step exCfg) (tcg_func_start exCfg (exCtx [] [] []), [])
      = Except.ok (exTempsAfter, [])
    ∧ (tcg_temp_new_internal exCfg exTempsAfter TCGType.I32 false).map (fun r => r.1)
        = Except.ok 1
    ∧ FreeOK exCfg exTempsAfter :=
  have hrun : exTempsRun.foldlM (temp_step exCfg) (tcg_func_start exCfg (exCtx [] [] []), [])
      = Except.ok (exTempsAfter, []) := by decide
  ⟨hrun, by decide, (temp_new_not_live exCfg (exCtx [] [] []) exTempsAfter exTempsRun [] hrun).1⟩

/-! ### Globals bound to a host register -/

theorem test_set_reg (d : TCGRegSet) (r k : Nat) :
    tcg_regset_test_reg (tcg_regset_set_reg d r) k = (decide (k = r) || tcg_regset_test_reg d k) := by
  unfold tcg_regset_test_reg tcg_regset_set_reg
  rw [Nat.testBit_or, Nat.one_shiftLeft, Nat.testBit_two_pow]
  by_cases h : r = k
  · subst h
    simp
  · have h' : ¬ k = r := fun e => h e.symm
    simp [h, h']

/-- C19: with a table of `TCG_MAX_TEMPS` temps, `tcg_global_reg_new_internal` aborts
exactly when the host is 32-bit and the type is not I32, or the register is already in
`reserved_regs`, or the table is full; otherwise it returns the previous `nb_globals`,
and at that index the temp has `base_type = type = type`, `fixed_reg = 1` and the
register, `nb_globals` is one more, and `reserved_regs` has the register in addition and
nothing else; a second global on the same register always aborts. -/
theorem global_reg_new_spec (cfg : Config) (s : TCGContext) (ty : TCGType) (reg : Nat)
    (hlen : cfg.TCG_MAX_TEMPS ≤ s.temps.length) :
    (tcg_global_reg_new_internal cfg s ty reg = Except.error Fault.abort
      ↔ ((cfg.TCG_TARGET_REG_BITS == 32 && ty != TCGType.I32) = true
          ∨ tcg_regset_test_reg s.reserved_regs reg = true
          ∨ s.nb_globals + 1 > cfg.TCG_MAX_TEMPS))
    ∧ (¬ ((cfg.TCG_TARGET_REG_BITS == 32 && ty != TCGType.I32) = true
          ∨ tcg_regset_test_reg s.reserved_regs reg = true
          ∨ s.nb_globals + 1 > cfg.TCG_MAX_TEMPS) →
        tcg_global_reg_new_internal cfg s ty reg
          = Except.ok (s.nb_globals, { s with
              temps := s.temps.set s.nb_globals
                { s.temps.getD s.nb_globals default with
                  base_type := ty, type := ty, fixed_reg := true, reg := reg },
              nb_globals := s.nb_globals + 1,
              reserved_regs := tcg_regset_set_reg s.reserved_regs reg }))
    ∧ (∀ k, tcg_regset_test_reg (tcg_regset_set_reg s.reserved_regs reg) k
        = (decide (k = reg) || tcg_regset_test_reg s.reserved_regs k))
    ∧ (∀ idx s1, tcg_global_reg_new_internal cfg s ty reg = Except.ok (idx, s1) →
        ∀ ty2, tcg_global_reg_new_internal cfg s1 ty2 reg = Except.error Fault.abort) := by
  have hok : ¬ ((cfg.TCG_TARGET_REG_BITS == 32 && ty != TCGType.I32) = true
          ∨ tcg_regset_test_reg s.reserved_regs reg = true
          ∨ s.nb_globals + 1 > cfg.TCG_MAX_TEMPS) →
        tcg_global_reg_new_internal cfg s ty reg
          = Except.ok (s.nb_globals, { s with
              temps := s.temps.set s.nb_globals
                { s.temps.getD s.nb_globals default with
                  base_type := ty, type := ty, fixed_reg := true, reg := reg },
              nb_globals := s.nb_globals + 1,
              reserved_regs := tcg_regset_set_reg s.reserved_regs reg }) := by
    intro h
    simp only [not_or, Bool.not_eq_true, Nat.not_lt] at h
    obtain ⟨h1, h2, h3⟩ := h
    have hlt : s.nb_globals < s.temps.length := by omega
    have hrd : rd s.temps s.nb_globals = Except.ok (s.temps.getD s.nb_globals default) := by
      apply rd_of_getElem?
      rw [List.getD_eq_getElem?_getD, List.getElem?_eq_getElem hlt]
      rfl
    unfold tcg_global_reg_new_internal tcg_temp_alloc
    simp only [h1, h2, Bool.false_eq_true, if_false, if_neg (Nat.not_lt.mpr h3), pure_bind,
      hrd, except_ok_bind, wr_ok _ _ _ hlt]
    rfl
  have habort : ((cfg.TCG_TARGET_REG_BITS == 32 && ty != TCGType.I32) = true
          ∨ tcg_regset_test_reg s.reserved_regs reg = true
          ∨ s.nb_globals + 1 > cfg.TCG_MAX_TEMPS) →
      tcg_global_reg_new_internal cfg s ty reg = Except.error Fault.abort := by
    intro h
    unfold tcg_global_reg_new_internal tcg_temp_alloc
    by_cases h1 : (cfg.TCG_TARGET_REG_BITS == 32 && ty != TCGType.I32) = true
    · simp only [h1, if_true]
      rfl
    · by_cases h2 : tcg_regset_test_reg s.reserved_regs reg = true
      · simp only [h1, h2, if_true, Bool.false_eq_true, if_false, pure_bind]
        rfl
      · have h3 : s.nb_globals + 1 > cfg.TCG_MAX_TEMPS := by
          rcases h with h | h | h
          · exact absurd h h1
          · exact absurd h h2
          · exact h
        simp only [h1, h2, Bool.false_eq_true, if_false, pure_bind, if_pos h3]
        rfl
  refine ⟨⟨?_, habort⟩, hok, test_set_reg s.reserved_regs reg, ?_⟩
  · intro he
    by_contra hn
    rw [hok hn] at he
    cases he
  · intro idx s1 h ty2
    have hn : ¬ ((cfg.TCG_TARGET_REG_BITS == 32 && ty != TCGType.I32) = true
          ∨ tcg_regset_test_reg s.reserved_regs reg = true
          ∨ s.nb_globals + 1 > cfg.TCG_MAX_TEMPS) := by
      intro hc
      rw [habort hc] at h
      cases h
    rw [hok hn] at h
    simp only [Except.ok.injEq, Prod.mk.injEq] at h
    obtain ⟨_, rfl⟩ := h
    have hres : tcg_regset_test_reg (tcg_regset_set_reg s.reserved_regs reg) reg = true := by
      rw [test_set_reg]
      simp
    unfold tcg_global_reg_new_internal tcg_temp_alloc
    by_cases h1 : (cfg.TCG_TARGET_REG_BITS == 32 && ty2 != TCGType.I32) = true
    · simp only [h1, if_true]
      rfl
    · simp only [h1, hres, if_true, Bool.false_eq_true, if_false, pure_bind]
      rfl

theorem global_reg_new_spec_witness :
    exCfg.TCG_MAX_TEMPS
      ≤ ({ exCtx [] [] [] with temps := List.replicate 8 (exTemp false 0) } : TCGContext).temps.length
    ∧ (tcg_global_reg_new_internal exCfg
        { exCtx [] [] [] with temps := List.replicate 8 (exTemp false 0) } TCGType.I32 2).map
          (fun r => (r.1, r.2.nb_globals, r.2.reserved_regs)) = Except.ok (1, 2, 0xa4)
    ∧ ∀ idx s1, tcg_global_reg_new_internal exCfg
          { exCtx [] [] [] with temps := List.replicate 8 (exTemp false 0) } TCGType.I32 2
          = Except.ok (idx, s1) →
        ∀ ty2, tcg_global_reg_new_internal exCfg s1 ty2 2 = Except.error Fault.abort :=
  ⟨by decide, by decide,
   (global_reg_new_spec exCfg { exCtx [] [] [] with temps := List.replicate 8 (exTemp false 0) }
      TCGType.I32 2 (by decide)).2.2.2⟩

/-! ### Freeing a temp -/

theorem temp_free_assert_range (cfg : Config) (s : TCGContext) (idx : Int)
    (h : ¬ ((s.nb_globals : Int) ≤ idx ∧ idx < (s.nb_temps : Int))) :
    tcg_temp_free_internal cfg s idx = Except.error Fault.assert := by
  unfold tcg_temp_free_internal
  have hc : (!(decide ((s.nb_globals : Int) ≤ idx) && decide (idx < (s.nb_temps : Int)))) = true := by
    simp only [Bool.not_eq_true', Bool.and_eq_false_imp, decide_eq_true_eq,
      decide_eq_false_iff_not]
    exact fun h1 h2 => h ⟨h1, h2⟩
  simp only [hc, if_true]
  rfl

theorem temp_free_assert_alloc (cfg : Config) (s : TCGContext) (idx : Int) (ts : TCGTemp)
    (h : (s.nb_globals : Int) ≤ idx ∧ idx < (s.nb_temps : Int))
    (hts : s.temps[idx.toNat]? = some ts) (ha : ts.temp_allocated = false) :
    tcg_temp_free_internal cfg s idx = Except.error Fault.assert := by
  unfold tcg_temp_free_internal
  have hc : (!(decide ((s.nb_globals : Int) ≤ idx) && decide (idx < (s.nb_temps : Int)))) = false := by
    simp [h.1, h.2]
  have h0 : 0 ≤ idx := by omega
  have hrd : rdi s.temps idx = Except.ok ts := by
    unfold rdi
    rw [if_pos h0]
    exact rd_of_getElem? _ _ _ hts
  simp only [hc, Bool.false_eq_true, if_false, pure_bind, hrd, except_ok_bind, ha, Bool.not_false,
    if_true]
  rfl

theorem temp_free_ok (cfg : Config) (s : TCGContext) (idx : Int) (ts : TCGTemp) (bm : List Bool)
    (h : (s.nb_globals : Int) ≤ idx ∧ idx < (s.nb_temps : Int))
    (hts : s.temps[idx.toNat]? = some ts) (ha : ts.temp_allocated = true)
    (hbm : s.free_temps[temp_bucket cfg ts.base_type ts.temp_local]? = some bm)
    (hbl : idx.toNat < bm.length) :
    tcg_temp_free_internal cfg s idx = Except.ok { s with
      temps_in_use := s.temps_in_use - 1,
      temps := s.temps.set idx.toNat { ts with temp_allocated := false },
      free_temps := s.free_temps.set (temp_bucket cfg ts.base_type ts.temp_local)
        (bm.set idx.toNat true) } := by
  unfold tcg_temp_free_internal
  have hc : (!(decide ((s.nb_globals : Int) ≤ idx) && decide (idx < (s.nb_temps : Int)))) = false := by
    simp [h.1, h.2]
  have h0 : 0 ≤ idx := by omega
  have hrd : rdi s.temps idx = Except.ok ts := by
    unfold rdi
    rw [if_pos h0]
    exact rd_of_getElem? _ _ _ hts
  simp only [hc, Bool.false_eq_true, if_false, pure_bind, hrd, except_ok_bind, ha, Bool.not_true,
    wr_ok _ _ _ (getElem?_lt hts), rd_of_getElem? _ _ _ hbm, wr_ok _ _ _ hbl,
    wr_ok _ _ _ (getElem?_lt hbm)]
  rfl

/-- C18: on a context whose table holds the temps below `nb_temps` and whose bitmaps have
a bit for each of them, `tcg_temp_free_internal` fails its assertions exactly when `idx`
is outside `[nb_globals, nb_temps)` or the temp is not allocated; otherwise it returns
the context in which the temp has `temp_allocated = 0` and the bit `idx` is set in the
bitmap of the bucket of its `base_type` and `temp_local`, the other temps and the other
bitmaps being as they were; a second call on the same index fails. -/
theorem temp_free_spec (cfg : Config) (s : TCGContext) (idx : Int)
    (hT : s.nb_temps ≤ s.temps.length)
    (hF : ∀ ty loc, ∃ bm, s.free_temps[temp_bucket cfg ty loc]? = some bm
      ∧ s.nb_temps ≤ bm.length) :
    (tcg_temp_free_internal cfg s idx = Except.error Fault.assert
      ↔ (¬ ((s.nb_globals : Int) ≤ idx ∧ idx < (s.nb_temps : Int))
          ∨ (s.temps.getD idx.toNat default).temp_allocated = false))
    ∧ ((s.nb_globals : Int) ≤ idx → idx < (s.nb_temps : Int) →
        (s.temps.getD idx.toNat default).temp_allocated = true →
        ∃ bm, s.free_temps[temp_bucket cfg (s.temps.getD idx.toNat default).base_type
            (s.temps.getD idx.toNat default).temp_local]? = some bm
          ∧ tcg_temp_free_internal cfg s idx = Except.ok { s with
              temps_in_use := s.temps_in_use - 1,
              temps := s.temps.set idx.toNat
                { s.temps.getD idx.toNat default with temp_allocated := false },
              free_temps := s.free_temps.set
                (temp_bucket cfg (s.temps.getD idx.toNat default).base_type
                  (s.temps.getD idx.toNat default).temp_local)
                (bm.set idx.toNat true) }
          ∧ ∀ s1, tcg_temp_free_internal cfg s idx = Except.ok s1 →
              tcg_temp_free_internal cfg s1 idx = Except.error Fault.assert) := by
  have hget : ∀ (h : (s.nb_globals : Int) ≤ idx ∧ idx < (s.nb_temps : Int)),
      s.temps[idx.toNat]? = some (s.temps.getD idx.toNat default) := by
    intro h
    have hlt : idx.toNat < s.temps.length := by omega
    rw [List.getD_eq_getElem?_getD, List.getElem?_eq_getElem hlt]
    rfl
  have hokk : (s.nb_globals : Int) ≤ idx → idx < (s.nb_temps : Int) →
        (s.temps.getD idx.toNat default).temp_allocated = true →
        ∃ bm, s.free_temps[temp_bucket cfg (s.temps.getD idx.toNat default).base_type
            (s.temps.getD idx.toNat default).temp_local]? = some bm
          ∧ tcg_temp_free_internal cfg s idx = Except.ok { s with
              temps_in_use := s.temps_in_use - 1,
              temps := s.temps.set idx.toNat
                { s.temps.getD idx.toNat default with temp_allocated := false },
              free_temps := s.free_temps.set
                (temp_bucket cfg (s.temps.getD idx.toNat default).base_type
                  (s.temps.getD idx.toNat default).temp_local)
                (bm.set idx.toNat true) } := by
    intro h1 h2 ha
    obtain ⟨bm, hbm, hbl⟩ := hF (s.temps.getD idx.toNat default).base_type
      (s.temps.getD idx.toNat default).temp_local
    exact ⟨bm, hbm, temp_free_ok cfg s idx _ bm ⟨h1, h2⟩ (hget ⟨h1, h2⟩) ha hbm (by omega)⟩
  refine ⟨⟨?_, ?_⟩, ?_⟩
  · intro he
    by_contra hn
    simp only [not_or, not_not, Bool.not_eq_false] at hn
    obtain ⟨_, _, hok⟩ := hokk hn.1.1 hn.1.2 hn.2
    rw [hok] at he
    cases he
  · rintro (h | h)
    · exact temp_free_assert_range cfg s idx h
    · by_cases hr : (s.nb_globals : Int) ≤ idx ∧ idx < (s.nb_temps : Int)
      · exact temp_free_assert_alloc cfg s idx _ hr (hget hr) h
      · exact temp_free_assert_range cfg s idx hr
  · intro h1 h2 ha
    obtain ⟨bm, hbm, hok⟩ := hokk h1 h2 ha
    refine ⟨bm, hbm, hok, ?_⟩
    intro s1 hs1
    rw [hok] at hs1
    cases hs1
    have hlt : idx.toNat < s.temps.length := by omega
    exact temp_free_assert_alloc cfg _ idx
      { s.temps.getD idx.toNat default with temp_allocated := false } ⟨h1, h2⟩
      (List.getElem?_set_self hlt) rfl

theorem temp_free_spec_witness :
    exTempsAfter.nb_temps ≤ exTempsAfter.temps.length
    ∧ (∀ ty loc, ∃ bm, exTempsAfter.free_temps[temp_bucket exCfg ty loc]? = some bm
        ∧ exTempsAfter.nb_temps ≤ bm.length)
    ∧ tcg_temp_free_internal exCfg exTempsAfter 1 = Except.error Fault.assert
    ∧ tcg_temp_free_internal exCfg exTempsAfter 0 = Except.error Fault.assert :=
  have hF : ∀ ty loc, ∃ bm, exTempsAfter.free_temps[temp_bucket exCfg ty loc]? = some bm
      ∧ exTempsAfter.nb_temps ≤ bm.length := by
    intro ty loc
    cases ty <;> cases loc <;> exact ⟨_, rfl, by decide⟩
  have h := temp_free_spec exCfg exTempsAfter 1 (by decide) hF
  ⟨by decide, hF, h.1.mpr (Or.inr (by decide)),
   (temp_free_spec exCfg exTempsAfter 0 (by decide) hF).1.mpr (Or.inl (by decide))⟩

/-! ### Creating a temp -/

theorem find?_range'_some (p : Nat → Bool) :
    ∀ (n a i : Nat), (List.range' a n).find? p = some i →
      a ≤ i ∧ i < a + n ∧ p i = true ∧ ∀ j, a ≤ j → j < i → p j = false := by
  intro n
  induction n with
  | zero =>
    intro a i h
    cases h
  | succ n ih =>
    intro a i h
    rw [List.range'_succ, List.find?_cons] at h
    cases hp : p a with
    | true =>
      rw [hp] at h
      cases h
      exact ⟨Nat.le_refl _, by omega, hp, fun j h1 h2 => absurd h2 (by omega)⟩
    | false =>
      rw [hp] at h
      obtain ⟨h1, h2, h3, h4⟩ := ih (a + 1) i h
      refine ⟨by omega, by omega, h3, ?_⟩
      intro j hj1 hj2
      by_cases hja : j = a
      · rw [hja]; exact hp
      · exact h4 j (by omega) hj2

theorem find?_range'_none (p : Nat → Bool) :
    ∀ (n a : Nat), (List.range' a n).find? p = none →
      ∀ j, a ≤ j → j < a + n → p j = false := by
  intro n a h j h1 h2
  rw [List.find?_eq_none] at h
  have := h j (List.mem_range'_1.mpr ⟨h1, h2⟩)
  simpa using this

/-- `find_first_bit` returns the lowest index below `size` whose bit is set, or `size` -/
theorem find_first_bit_spec (l : List Bool) (size : Nat) :
    (find_first_bit l size < size →
      l.getD (find_first_bit l size) false = true
      ∧ ∀ j, j < find_first_bit l size → l.getD j false = false)
    ∧ (¬ find_first_bit l size < size →
      find_first_bit l size = size ∧ ∀ j, j < size → l.getD j false = false) := by
  unfold find_first_bit
  rw [List.range_eq_range']
  cases hf : (List.range' 0 size).find? (fun i => l.getD i false) with
  | none =>
    simp only []
    refine ⟨fun h => absurd h (Nat.lt_irrefl _), fun _ => ⟨trivial, ?_⟩⟩
    intro j hj
    exact find?_range'_none _ _ _ hf j (Nat.zero_le _) (by omega)
  | some i =>
    simp only []
    obtain ⟨_, h2, h3, h4⟩ := find?_range'_some _ _ _ _ hf
    refine ⟨fun _ => ⟨h3, fun j hj => h4 j (Nat.zero_le _) hj⟩, fun hn => absurd ?_ hn⟩
    omega

theorem find_first_bit_unique (l : List Bool) (size x : Nat) (hx : x < size)
    (hbit : l.getD x false = true) (hlow : ∀ j, j < x → l.getD j false = false) :
    find_first_bit l size = x := by
  obtain ⟨h1, h2⟩ := find_first_bit_spec l size
  by_cases hlt : find_first_bit l size < size
  · obtain ⟨hb, hl⟩ := h1 hlt
    rcases Nat.lt_trichotomy (find_first_bit l size) x with h | h | h
    · rw [hlow _ h] at hb
      exact Bool.noConfusion hb
    · exact h
    · rw [hl x h] at hbit
      exact Bool.noConfusion hbit
  · obtain ⟨_, hl⟩ := h2 hlt
    rw [hl x hx] at hbit
    exact Bool.noConfusion hbit

/-- a free temp of the bucket is handed out -/
theorem temp_new_reuse (cfg : Config) (s : TCGContext) (ty : TCGType) (loc : Bool)
    (bm : List Bool) (ts : TCGTemp)
    (hbm : s.free_temps[temp_bucket cfg ty loc]? = some bm)
    (hlt : find_first_bit bm cfg.TCG_MAX_TEMPS < cfg.TCG_MAX_TEMPS)
    (hts : s.temps[find_first_bit bm cfg.TCG_MAX_TEMPS]? = some ts)
    (hty : ts.base_type = ty) (hloc : ts.temp_local = loc) :
    tcg_temp_new_internal cfg s ty loc
      = Except.ok (find_first_bit bm cfg.TCG_MAX_TEMPS, { s with
          free_temps := s.free_temps.set (temp_bucket cfg ty loc)
            (bm.set (find_first_bit bm cfg.TCG_MAX_TEMPS) false),
          temps := s.temps.set (find_first_bit bm cfg.TCG_MAX_TEMPS)
            { ts with temp_allocated := true },
          temps_in_use := s.temps_in_use + 1 }) := by
  have hbit := (find_first_bit_spec bm cfg.TCG_MAX_TEMPS).1 hlt
  have hbl : find_first_bit bm cfg.TCG_MAX_TEMPS < bm.length := getD_true_lt hbit.1
  unfold tcg_temp_new_internal
  simp only [rd_of_getElem? _ _ _ hbm, except_ok_bind, if_pos hlt, wr_ok _ _ _ hbl,
    wr_ok _ _ _ (getElem?_lt hbm), rd_of_getElem? _ _ _ hts, wr_ok _ _ _ (getElem?_lt hts),
    hty, hloc, bne_self_eq_false, Bool.false_eq_true, if_false, pure_bind]
  rfl

/-- no free temp in the bucket: one new temp -/
theorem temp_new_fresh (cfg : Config) (s : TCGContext) (ty : TCGType) (loc : Bool)
    (bm : List Bool) (ts : TCGTemp)
    (hbm : s.free_temps[temp_bucket cfg ty loc]? = some bm)
    (hno : ¬ find_first_bit bm cfg.TCG_MAX_TEMPS < cfg.TCG_MAX_TEMPS)
    (h32 : (cfg.TCG_TARGET_REG_BITS == 32 && ty == TCGType.I64) = false)
    (hroom : s.nb_temps + 1 ≤ cfg.TCG_MAX_TEMPS)
    (hts : s.temps[s.nb_temps]? = some ts) :
    tcg_temp_new_internal cfg s ty loc
      = Except.ok (s.nb_temps, { s with
          temps := s.temps.set s.nb_temps
            { ts with base_type := ty, type := ty, temp_allocated := true, temp_local := loc },
          nb_temps := s.nb_temps + 1,
          temps_in_use := s.temps_in_use + 1 }) := by
  unfold tcg_temp_new_internal tcg_temp_alloc
  simp only [rd_of_getElem? _ _ _ hbm, except_ok_bind, if_neg hno, h32, Bool.false_eq_true,
    if_false, if_neg (Nat.not_lt.mpr hroom), pure_bind, rd_of_getElem? _ _ _ hts,
    wr_ok _ _ _ (getElem?_lt hts)]
  rfl

/-- no free temp in the bucket, a 64-bit temp on a 32-bit host: two new temps -/
theorem temp_new_fresh_pair (cfg : Config) (s : TCGContext) (ty : TCGType) (loc : Bool)
    (bm : List Bool) (ts ts2 : TCGTemp)
    (hbm : s.free_temps[temp_bucket cfg ty loc]? = some bm)
    (hno : ¬ find_first_bit bm cfg.TCG_MAX_TEMPS < cfg.TCG_MAX_TEMPS)
    (h32 : (cfg.TCG_TARGET_REG_BITS == 32 && ty == TCGType.I64) = true)
    (hroom : s.nb_temps + 2 ≤ cfg.TCG_MAX_TEMPS)
    (hts : s.temps[s.nb_temps]? = some ts) (hts2 : s.temps[s.nb_temps + 1]? = some ts2) :
    tcg_temp_new_internal cfg s ty loc
      = Except.ok (s.nb_temps, { s with
          temps := (s.temps.set s.nb_temps
            { ts with base_type := ty, type := TCGType.I32, temp_allocated := true,
                      temp_local := loc }).set (s.nb_temps + 1)
            { ts2 with base_type := ty, type := TCGType.I32, temp_allocated := true,
                       temp_local := loc },
          nb_temps := s.nb_temps + 2,
          temps_in_use := s.temps_in_use + 1 }) := by
  have hts2' : (s.temps.set s.nb_temps
      { ts with base_type := ty, type := TCGType.I32, temp_allocated := true,
                temp_local := loc })[s.nb_temps + 1]? = some ts2 := by
    rw [List.getElem?_set_ne (by omega)]
    exact hts2
  unfold tcg_temp_new_internal tcg_temp_alloc
  simp only [rd_of_getElem? _ _ _ hbm, except_ok_bind, if_neg hno, h32, if_true,
    if_neg (Nat.not_lt.mpr hroom), pure_bind, rd_of_getElem? _ _ _ hts,
    wr_ok _ _ _ (getElem?_lt hts), rd_of_getElem? _ _ _ hts2',
    wr_ok _ _ _ (getElem?_lt hts2')]
  rfl

/-- C17.  `tcg_temp_new_internal(type, temp_local)`, when the bitmap of the bucket has a
bit set below `TCG_MAX_TEMPS`, returns the lowest such index, a temp of that type and
locality, with its bit cleared, `temp_allocated` set and `nb_temps` unchanged; so a temp
freed and then asked for again, by its base type and locality, is returned when it is
the lowest free index of its bucket.  When the bitmap has no bit set and the table has
room, it returns the old `nb_temps` and there is a temp with `base_type = type`, the
locality asked for and `temp_allocated = 1`; `nb_temps` grows by 1, or by 2 for a 64-bit
temp on a 32-bit host, the two temps of the pair being of type I32. -/
theorem temp_new_spec (cfg : Config) (s : TCGContext) (ty : TCGType) (loc : Bool)
    (bm : List Bool) (hbm : s.free_temps[temp_bucket cfg ty loc]? = some bm) :
    (∀ ts, find_first_bit bm cfg.TCG_MAX_TEMPS < cfg.TCG_MAX_TEMPS →
      s.temps[find_first_bit bm cfg.TCG_MAX_TEMPS]? = some ts →
      ts.base_type = ty → ts.temp_local = loc →
      bm.getD (find_first_bit bm cfg.TCG_MAX_TEMPS) false = true
      ∧ (∀ j, j < find_first_bit bm cfg.TCG_MAX_TEMPS → bm.getD j false = false)
      ∧ tcg_temp_new_internal cfg s ty loc
          = Except.ok (find_first_bit bm cfg.TCG_MAX_TEMPS, { s with
              free_temps := s.free_temps.set (temp_bucket cfg ty loc)
                (bm.set (find_first_bit bm cfg.TCG_MAX_TEMPS) false),
              temps := s.temps.set (find_first_bit bm cfg.TCG_MAX_TEMPS)
                { ts with temp_allocated := true },
              temps_in_use := s.temps_in_use + 1 }))
    ∧ (∀ ts, (∀ j, j < cfg.TCG_MAX_TEMPS → bm.getD j false = false) →
        (cfg.TCG_TARGET_REG_BITS == 32 && ty == TCGType.I64) = false →
        s.nb_temps + 1 ≤ cfg.TCG_MAX_TEMPS → s.temps[s.nb_temps]? = some ts →
        tcg_temp_new_internal cfg s ty loc
          = Except.ok (s.nb_temps, { s with
              temps := s.temps.set s.nb_temps
                { ts with base_type := ty, type := ty, temp_allocated := true,
                          temp_local := loc },
              nb_temps := s.nb_temps + 1,
              temps_in_use := s.temps_in_use + 1 }))
    ∧ (∀ ts ts2, (∀ j, j < cfg.TCG_MAX_TEMPS → bm.getD j false = false) →
        (cfg.TCG_TARGET_REG_BITS == 32 && ty == TCGType.I64) = true →
        s.nb_temps + 2 ≤ cfg.TCG_MAX_TEMPS → s.temps[s.nb_temps]? = some ts →
        s.temps[s.nb_temps + 1]? = some ts2 →
        tcg_temp_new_internal cfg s ty loc
          = Except.ok (s.nb_temps, { s with
              temps := (s.temps.set s.nb_temps
                { ts with base_type := ty, type := TCGType.I32, temp_allocated := true,
                          temp_local := loc }).set (s.nb_temps + 1)
                { ts2 with base_type := ty, type := TCGType.I32, temp_allocated := true,
                           temp_local := loc },
              nb_temps := s.nb_temps + 2,
              temps_in_use := s.temps_in_use + 1 }))
    ∧ (∀ (s0 : TCGContext) (x : Nat) (tx : TCGTemp) (bm0 : List Bool),
        tcg_temp_free_internal cfg s0 (x : Int) = Except.ok s →
        s0.temps[x]? = some tx → tx.base_type = ty → tx.temp_local = loc →
        s0.free_temps[temp_bucket cfg ty loc]? = some bm0 →
        x < cfg.TCG_MAX_TEMPS → (∀ j, j < x → bm0.getD j false = false) →
        (tcg_temp_new_internal cfg s ty loc).map (fun r => r.1) = Except.ok x) := by
  have hempty : (∀ j, j < cfg.TCG_MAX_TEMPS → bm.getD j false = false) →
      ¬ find_first_bit bm cfg.TCG_MAX_TEMPS < cfg.TCG_MAX_TEMPS := by
    intro h hlt
    have hb := ((find_first_bit_spec bm cfg.TCG_MAX_TEMPS).1 hlt).1
    rw [h _ hlt] at hb
    exact Bool.noConfusion hb
  refine ⟨?_, ?_, ?_, ?_⟩
  · intro ts hlt hts hty hloc
    obtain ⟨h1, h2⟩ := (find_first_bit_spec bm cfg.TCG_MAX_TEMPS).1 hlt
    exact ⟨h1, h2, temp_new_reuse cfg s ty loc bm ts hbm hlt hts hty hloc⟩
  · intro ts he h32 hroom hts
    exact temp_new_fresh cfg s ty loc bm ts hbm (hempty he) h32 hroom hts
  · intro ts ts2 he h32 hroom hts hts2
    exact temp_new_fresh_pair cfg s ty loc bm ts ts2 hbm (hempty he) h32 hroom hts hts2
  · intro s0 x tx bm0 hfree htx hty hloc hbm0 hx hlow
    -- the context left by the free
    have hxl : x < s0.temps.length := getElem?_lt htx
    by_cases hr : (s0.nb_globals : Int) ≤ (x : Int) ∧ (x : Int) < (s0.nb_temps : Int)
    · cases ha : tx.temp_allocated with
      | false =>
        rw [temp_free_assert_alloc cfg s0 x tx hr (by simpa using htx) ha] at hfree
        cases hfree
      | true =>
        have hbm0' : s0.free_temps[temp_bucket cfg tx.base_type tx.temp_local]? = some bm0 := by
          rw [hty, hloc]; exact hbm0
        cases hwr : wr bm0 x true with
        | error e =>
          -- the bit is outside the bitmap: the free fails
          exfalso
          have hnl : bm0.length ≤ x := by
            by_contra hc
            rw [wr_ok _ _ _ (Nat.lt_of_not_le hc)] at hwr
            cases hwr
          have : tcg_temp_free_internal cfg s0 (x : Int) = Except.error Fault.oob := by
            unfold tcg_temp_free_internal
            have hc : (!(decide ((s0.nb_globals : Int) ≤ (x : Int))
                && decide ((x : Int) < (s0.nb_temps : Int)))) = false := by
              simp [hr.1, hr.2]
            have hrd : rdi s0.temps (x : Int) = Except.ok tx := by
              unfold rdi
              rw [if_pos (Int.natCast_nonneg x), Int.toNat_ofNat]
              exact rd_of_getElem? _ _ _ htx
            simp only [hc, Bool.false_eq_true, if_false, pure_bind, hrd, except_ok_bind, ha,
              Bool.not_true, Int.toNat_ofNat, wr_ok _ _ _ hxl, rd_of_getElem? _ _ _ hbm0',
              wr_oob _ _ _ hnl]
            rfl
          rw [this] at hfree
          cases hfree
        | ok bm1 =>
          have hbl : x < bm0.length := by
            by_contra hc
            rw [wr_oob _ _ _ (Nat.le_of_not_lt hc)] at hwr
            cases hwr
          have hok := temp_free_ok cfg s0 (x : Int) tx bm0 hr (by simpa using htx) ha hbm0'
            (by simpa using hbl)
          rw [hok] at hfree
          simp only [Int.toNat_ofNat, Except.ok.injEq] at hfree
          subst hfree
          have hkl : temp_bucket cfg ty loc < s0.free_temps.length := getElem?_lt hbm0
          have hbm1 : bm = bm0.set x true := by
            have : (s0.free_temps.set (temp_bucket cfg tx.base_type tx.temp_local)
                (bm0.set x true))[temp_bucket cfg ty loc]? = some bm := hbm
            rw [hty, hloc, List.getElem?_set_self hkl] at this
            cases this
            rfl
          have hff : find_first_bit bm cfg.TCG_MAX_TEMPS = x := by
            apply find_first_bit_unique _ _ _ hx
            · rw [hbm1, getD_set_bool, if_pos ⟨rfl, hbl⟩]
            · intro j hj
              rw [hbm1, getD_set_bool, if_neg (fun h => by omega)]
              exact hlow j hj
          have hts : ({ s0 with
              temps_in_use := s0.temps_in_use - 1,
              temps := s0.temps.set x { tx with temp_allocated := false },
              free_temps := s0.free_temps.set (temp_bucket cfg tx.base_type tx.temp_local)
                (bm0.set x true) } : TCGContext).temps[find_first_bit bm cfg.TCG_MAX_TEMPS]?
              = some { tx with temp_allocated := false } := by
            rw [hff]
            exact List.getElem?_set_self hxl
          rw [temp_new_reuse cfg _ ty loc bm _ hbm (by rw [hff]; exact hx) hts hty hloc, hff]
          rfl
    · rw [temp_free_assert_range cfg s0 x hr] at hfree
      cases hfree

theorem temp_new_spec_witness :
    exTempsAfter.free_temps[temp_bucket exCfg TCGType.I32 false]?
      = some [false, true, false, false, false, false, false, false]
    ∧ find_first_bit [false, true, false, false, false, false, false, false]
        exCfg.TCG_MAX_TEMPS = 1
    ∧ (tcg_temp_new_internal exCfg exTempsAfter TCGType.I32 false).map (fun r => r.1)
        = Except.ok 1
    ∧ tcg_temp_new_internal exCfg exTempsAfter TCGType.I32 false
        = Except.ok (find_first_bit [false, true, false, false, false, false, false, false]
              exCfg.TCG_MAX_TEMPS,
            { exTempsAfter with
              free_temps := exTempsAfter.free_temps.set (temp_bucket exCfg TCGType.I32 false)
                (([false, true, false, false, false, false, false, false] : List Bool).set
                  (find_first_bit [false, true, false, false, false, false, false, false]
                    exCfg.TCG_MAX_TEMPS) false),
              temps := exTempsAfter.temps.set
                (find_first_bit [false, true, false, false, false, false, false, false]
                  exCfg.TCG_MAX_TEMPS)
                { ({ exTemp false 0 with temp_allocated := false } : TCGTemp) with
                  temp_allocated := true },
              temps_in_use := exTempsAfter.temps_in_use + 1 }) :=
  ⟨rfl, by decide, by decide,
   ((temp_new_spec exCfg exTempsAfter TCGType.I32 false
      [false, true, false, false, false, false, false, false] rfl).1
      { exTemp false 0 with temp_allocated := false } (by decide) (by decide) rfl rfl).2.2⟩


/-! ### The sort of the constraints -/

theorem getD_set_nat (l : List Nat) (i k v : Nat) (hi : i < l.length) :
    (l.set i v).getD k 0 = if k = i then v else l.getD k 0 := by
  rw [List.getD_eq_getElem?_getD, List.getElem?_set, List.getD_eq_getElem?_getD]
  by_cases h : i = k
  · subst h
    simp [hi]
  · have h' : ¬ k = i := fun e => h e.symm
    simp [h, h']

theorem sort_swap_length (cfg : Config) (df : TCGOpDef) (start i j : Nat) (sa : List Nat) :
    (sort_swap cfg df start i sa j).length = sa.length := by
  unfold sort_swap
  simp only []
  split <;> simp

/-- the entries of the array after `sort_swap`: the two positions are exchanged when the
priority at the first is the lower one -/
theorem sort_swap_getD (cfg : Config) (df : TCGOpDef) (start i j : Nat) (sa : List Nat)
    (hi : start + i < sa.length) (hj : start + j < sa.length) (k : Nat) :
    (sort_swap cfg df start i sa j).getD k 0
      = if get_constraint_priority cfg df (sa.getD (start + i) 0)
            < get_constraint_priority cfg df (sa.getD (start + j) 0)
        then (if k = start + j then sa.getD (start + i) 0
              else if k = start + i then sa.getD (start + j) 0 else sa.getD k 0)
        else sa.getD k 0 := by
  unfold sort_swap
  simp only []
  split
  · rw [getD_set_nat _ _ _ _ (by rw [List.length_set]; exact hj), getD_set_nat _ _ _ _ hi]
  · rfl

/-- the first loop of `sort_constraints` writes the identity on the segment -/
theorem sort_init_spec (start n : Nat) (sa : List Nat) (h : start + n ≤ sa.length) :
    ((List.range n).foldl (fun sa i => sa.set (start + i) (start + i)) sa).length = sa.length
    ∧ ∀ k, ((List.range n).foldl (fun sa i => sa.set (start + i) (start + i)) sa).getD k 0
        = if start ≤ k ∧ k < start + n then k else sa.getD k 0 := by
  induction n with
  | zero =>
    refine ⟨rfl, fun k => ?_⟩
    simp only [List.range_zero, List.foldl_nil]
    rw [if_neg (by omega)]
  | succ n ih =>
    obtain ⟨h1, h2⟩ := ih (by omega)
    rw [List.range_succ, List.foldl_append]
    simp only [List.foldl_cons, List.foldl_nil]
    refine ⟨by rw [List.length_set, h1], fun k => ?_⟩
    rw [getD_set_nat _ _ _ _ (by rw [h1]; omega), h2]
    by_cases hk : k = start + n
    · rw [if_pos hk, if_pos (by omega), hk]
    · rw [if_neg hk]
      by_cases hr : start ≤ k ∧ k < start + n
      · rw [if_pos hr, if_pos (by omega)]
      · rw [if_neg hr, if_neg (by omega)]

/-- one step of the inner loop -/
theorem sortInv_step (cfg : Config) (df : TCGOpDef) (start n : Nat) (sa0 sa : List Nat)
    (i j : Nat) (hij : i < j) (hjn : j < n) (hlen : start + n ≤ sa0.length)
    (h : SortInv (get_constraint_priority cfg df) start n sa0 sa i j) :
    SortInv (get_constraint_priority cfg df) start n sa0 (sort_swap cfg df start i sa j) i
      (j + 1) := by
  obtain ⟨h1, h2, h3, h4, h5, h6⟩ := h
  have hi : start + i < sa.length := by omega
  have hj : start + j < sa.length := by omega
  have key := sort_swap_getD cfg df start i j sa hi hj
  refine ⟨by rw [sort_swap_length, h1], ?_, ?_, ?_, ?_, ?_⟩
  · intro k hk
    rw [key]
    split
    · rw [if_neg (by omega), if_neg (by omega)]
      exact h2 k hk
    · exact h2 k hk
  · intro a ha
    rw [key]
    split
    · by_cases e1 : start + a = start + j
      · rw [if_pos e1]; exact h3 i (by omega)
      · rw [if_neg e1]
        by_cases e2 : start + a = start + i
        · rw [if_pos e2]; exact h3 j hjn
        · rw [if_neg e2]; exact h3 a ha
    · exact h3 a ha
  · intro a b ha hb
    rw [key, key]
    split
    · have src : ∀ c, c < n → ∃ c1, c1 < n ∧ (c1 = c ∨ c1 = i ∨ c1 = j)
          ∧ (c1 = i ↔ c = j) ∧ (c1 = j ↔ c = i)
          ∧ (if start + c = start + j then sa.getD (start + i) 0
              else if start + c = start + i then sa.getD (start + j) 0
              else sa.getD (start + c) 0) = sa.getD (start + c1) 0 := by
        intro c hc
        by_cases c1 : c = j
        · exact ⟨i, by omega, by omega, by omega, by omega, by rw [if_pos (by omega)]⟩
        · by_cases c2 : c = i
          · exact ⟨j, hjn, by omega, by omega, by omega,
              by rw [if_neg (by omega), if_pos (by omega)]⟩
          · exact ⟨c, hc, by omega, by omega, by omega,
              by rw [if_neg (by omega), if_neg (by omega)]⟩
      obtain ⟨a1, ha1, _, ha3, ha4, ea⟩ := src a ha
      obtain ⟨b1, hb1, _, hb3, hb4, eb⟩ := src b hb
      rw [ea, eb]
      intro e
      have := h4 a1 b1 ha1 hb1 e
      omega
    · exact h4 a b ha hb
  · intro a b ha hab hb
    rw [key, key]
    split
    · rw [if_neg (by omega : ¬ start + a = start + j), if_neg (by omega : ¬ start + a = start + i)]
      by_cases b1 : start + b = start + j
      · rw [if_pos b1]; exact h5 a i ha (by omega) (by omega)
      · rw [if_neg b1]
        by_cases b2 : start + b = start + i
        · rw [if_pos b2]; exact h5 a j ha (by omega) hjn
        · rw [if_neg b2]; exact h5 a b ha hab hb
    · exact h5 a b ha hab hb
  · intro b hib hbj
    rw [key, key]
    split
    · rename_i hlt
      rw [if_neg (by omega : ¬ start + i = start + j), if_pos rfl]
      by_cases b1 : start + b = start + j
      · rw [if_pos b1]; omega
      · rw [if_neg b1, if_neg (by omega : ¬ start + b = start + i)]
        have := h6 b hib (by omega)
        omega
    · rename_i hge
      by_cases b1 : b = j
      · subst b1; omega
      · exact h6 b hib (by omega)

/-- the inner loop, from `j` on -/
theorem sortInv_inner (cfg : Config) (df : TCGOpDef) (start n : Nat) (sa0 : List Nat)
    (i : Nat) (hlen : start + n ≤ sa0.length) :
    ∀ (m j : Nat) (sa : List Nat), i < j → j + m = n →
      SortInv (get_constraint_priority cfg df) start n sa0 sa i j →
      SortInv (get_constraint_priority cfg df) start n sa0
        ((List.range' j m).foldl (sort_swap cfg df start i) sa) i n := by
  intro m
  induction m with
  | zero =>
    intro j sa _ hjm h
    have : j = n := by omega
    subst this
    exact h
  | succ m ih =>
    intro j sa hij hjm h
    rw [List.range'_succ, List.foldl_cons]
    exact ih (j + 1) _ (by omega) (by omega)
      (sortInv_step cfg df start n sa0 sa i j hij (by omega) hlen h)

/-- from the end of an inner loop to the start of the next one -/
theorem sortInv_next (pr : Nat → Int) (start n : Nat) (sa0 sa : List Nat) (i : Nat)
    (h : SortInv pr start n sa0 sa i n) : SortInv pr start n sa0 sa (i + 1) (i + 2) := by
  obtain ⟨h1, h2, h3, h4, h5, h6⟩ := h
  refine ⟨h1, h2, h3, h4, ?_, fun b hb1 hb2 => absurd hb2 (by omega)⟩
  intro a b ha hab hb
  by_cases hai : a = i
  · subst hai
    exact h6 b hab hb
  · exact h5 a b (by omega) hab hb

/-- the outer loop -/
theorem sortInv_outer (cfg : Config) (df : TCGOpDef) (start n : Nat) (sa0 : List Nat)
    (hlen : start + n ≤ sa0.length) :
    ∀ (m : Nat) (sa : List Nat), m < n →
      SortInv (get_constraint_priority cfg df) start n sa0 sa 0 1 →
      SortInv (get_constraint_priority cfg df) start n sa0
        ((List.range m).foldl (fun sa i =>
          (List.range' (i + 1) (n - (i + 1))).foldl (sort_swap cfg df start i) sa) sa) m (m + 1) := by
  intro m
  induction m with
  | zero =>
    intro sa _ h
    exact h
  | succ m ih =>
    intro sa hm h
    rw [List.range_succ, List.foldl_append]
    simp only [List.foldl_cons, List.foldl_nil]
    have h1 := ih sa (by omega) h
    have h2 := sortInv_inner cfg df start n sa0 m hlen (n - (m + 1)) (m + 1) _ (by omega)
      (by omega) h1
    exact sortInv_next _ start n sa0 _ m h2

theorem sortInv_init (pr : Nat → Int) (start n : Nat) (sa : List Nat)
    (h : start + n ≤ sa.length) :
    SortInv pr start n ((List.range n).foldl (fun sa i => sa.set (start + i) (start + i)) sa)
      ((List.range n).foldl (fun sa i => sa.set (start + i) (start + i)) sa) 0 1 := by
  obtain ⟨_, h2⟩ := sort_init_spec start n sa h
  refine ⟨rfl, fun _ _ => rfl, ?_, ?_, fun a b ha => absurd ha (Nat.not_lt_zero a),
    fun b h1 h2 => absurd h2 (by omega)⟩
  · intro a ha
    rw [h2, if_pos ⟨by omega, by omega⟩]
    omega
  · intro a b ha hb
    rw [h2, h2, if_pos ⟨by omega, by omega⟩, if_pos ⟨by omega, by omega⟩]
    omega

/-- the array left by `sort_constraints` -/
theorem sort_constraints_inv (cfg : Config) (df : TCGOpDef) (start n : Nat)
    (h : start + n ≤ df.sorted_args.length) :
    (sort_constraints cfg df start n).args_ct = df.args_ct
    ∧ (sort_constraints cfg df start n).nb_oargs = df.nb_oargs
    ∧ (sort_constraints cfg df start n).nb_iargs = df.nb_iargs
    ∧ SortInv (get_constraint_priority cfg df) start n
        ((List.range n).foldl (fun sa i => sa.set (start + i) (start + i)) df.sorted_args)
        (sort_constraints cfg df start n).sorted_args (n - 1) n := by
  have h0 := sortInv_init (get_constraint_priority cfg df) start n df.sorted_args h
  have hl := (sort_init_spec start n df.sorted_args h).1
  unfold sort_constraints
  simp only []
  split
  · rename_i hn
    refine ⟨rfl, rfl, rfl, ?_⟩
    obtain ⟨h1, h2, h3, h4, _, _⟩ := h0
    exact ⟨h1, h2, h3, h4, fun a b ha hab hb => absurd hb (by omega),
      fun b hb1 hb2 => absurd hb2 (by omega)⟩
  · rename_i hn
    refine ⟨rfl, rfl, rfl, ?_⟩
    have := sortInv_outer cfg df start n _ (by rw [hl]; exact h) (n - 1) _ (by omega) h0
    rw [show n - 1 + 1 = n by omega] at this
    exact this

theorem priority_congr (cfg : Config) (df df1 : TCGOpDef) (h : df1.args_ct = df.args_ct)
    (k : Nat) : get_constraint_priority cfg df1 k = get_constraint_priority cfg df k := by
  unfold get_constraint_priority
  rw [h]

/-- the segment of an array that holds distinct indices of the segment is a permutation
of the indices of the segment -/
theorem segment_perm (sa : List Nat) (start n : Nat)
    (hr : ∀ a, a < n → start ≤ sa.getD (start + a) 0 ∧ sa.getD (start + a) 0 < start + n)
    (hi : ∀ a b, a < n → b < n → sa.getD (start + a) 0 = sa.getD (start + b) 0 → a = b) :
    ((List.range n).map (fun a => sa.getD (start + a) 0)).Perm (List.range' start n) := by
  apply List.Subperm.perm_of_length_le
  · apply List.subperm_of_subset
    · rw [List.nodup_map_iff_inj_on (List.nodup_range n)]
      intro a ha b hb e
      exact hi a b (List.mem_range.mp ha) (List.mem_range.mp hb) e
    · intro x hx
      rw [List.mem_map] at hx
      obtain ⟨a, ha, rfl⟩ := hx
      have := hr a (List.mem_range.mp ha)
      exact List.mem_range'_1.mpr ⟨this.1, this.2⟩
  · simp

theorem sort_constraints_full (cfg : Config) (d : TCGOpDef) (st m : Nat)
    (hd : st + m ≤ d.sorted_args.length) :
    (sort_constraints cfg d st m).args_ct = d.args_ct
    ∧ (sort_constraints cfg d st m).sorted_args.length = d.sorted_args.length
    ∧ (∀ k, ¬ (st ≤ k ∧ k < st + m) →
        (sort_constraints cfg d st m).sorted_args.getD k 0 = d.sorted_args.getD k 0)
    ∧ ((List.range m).map (fun a =>
          (sort_constraints cfg d st m).sorted_args.getD (st + a) 0)).Perm
        (List.range' st m)
    ∧ (∀ a b, a < b → b < m →
        get_constraint_priority cfg (sort_constraints cfg d st m)
            ((sort_constraints cfg d st m).sorted_args.getD (st + b) 0)
          ≤ get_constraint_priority cfg (sort_constraints cfg d st m)
            ((sort_constraints cfg d st m).sorted_args.getD (st + a) 0)) := by
  obtain ⟨e1, _, _, h1, h2, h3, h4, h5, _⟩ := sort_constraints_inv cfg d st m hd
  obtain ⟨i1, i2⟩ := sort_init_spec st m d.sorted_args hd
  refine ⟨e1, by rw [h1, i1], ?_, segment_perm _ st m h3 h4, ?_⟩
  · intro k hk
    rw [h2 k hk, i2, if_neg hk]
  · intro a b hab hb
    rw [priority_congr cfg d _ e1, priority_congr cfg d _ e1]
    exact h5 a b (by omega) hab hb

theorem add_op_def_arg_frame (cfg : Config) (td : TCGTargetOpDef) (df d : TCGOpDef) (i : Nat)
    (h : add_op_def_arg cfg td df i = Except.ok d) :
    d.nb_oargs = df.nb_oargs ∧ d.nb_iargs = df.nb_iargs ∧ d.sorted_args = df.sorted_args := by
  unfold add_op_def_arg at h
  cases hs : td.args_ct_str.getD i none with
  | none =>
    rw [hs] at h
    simp [bind, Except.bind, throw, throwThe, MonadExceptOf.throw] at h
  | some str =>
    simp only [hs, bind, Except.bind, pure, Except.pure] at h
    cases str with
    | nil =>
      simp only [Except.ok.injEq] at h
      subst h
      exact ⟨rfl, rfl, rfl⟩
    | cons c rest =>
      simp only [] at h
      split at h
      · split at h
        · cases h
        · split at h
          · cases h
          · simp only [Except.ok.injEq] at h
            subst h
            exact ⟨rfl, rfl, rfl⟩
      · split at h
        · cases h
        · simp only [Except.ok.injEq] at h
          subst h
          exact ⟨rfl, rfl, rfl⟩

theorem add_op_def_args_frame (cfg : Config) (td : TCGTargetOpDef) (l : List Nat)
    (df d : TCGOpDef) (h : l.foldlM (add_op_def_arg cfg td) df = Except.ok d) :
    d.nb_oargs = df.nb_oargs ∧ d.nb_iargs = df.nb_iargs ∧ d.sorted_args = df.sorted_args := by
  induction l generalizing df with
  | nil =>
    simp only [List.foldlM, pure, Except.pure, Except.ok.injEq] at h
    subst h
    exact ⟨rfl, rfl, rfl⟩
  | cons i l ih =>
    simp only [List.foldlM, bind, Except.bind] at h
    cases h1 : add_op_def_arg cfg td df i with
    | error e => rw [h1] at h; cases h
    | ok d1 =>
      rw [h1] at h
      obtain ⟨a1, a2, a3⟩ := add_op_def_arg_frame cfg td df d1 i h1
      obtain ⟨b1, b2, b3⟩ := ih d1 h
      exact ⟨b1.trans a1, b2.trans a2, b3.trans a3⟩

theorem sort_constraints_nb (cfg : Config) (d : TCGOpDef) (st m : Nat) :
    (sort_constraints cfg d st m).nb_oargs = d.nb_oargs
    ∧ (sort_constraints cfg d st m).nb_iargs = d.nb_iargs := by
  unfold sort_constraints
  simp only []
  split <;> exact ⟨rfl, rfl⟩

/-- what `add_op_def` returns is the definition after the loop over the arguments, sorted
on the outputs and then on the inputs -/
theorem add_op_def_sorted (cfg : Config) (td : TCGTargetOpDef) (df df1 : TCGOpDef)
    (h : add_op_def cfg td df = Except.ok df1) :
    ∃ d, d.nb_oargs = df.nb_oargs ∧ d.nb_iargs = df.nb_iargs
      ∧ d.sorted_args = df.sorted_args
      ∧ df1 = sort_constraints cfg (sort_constraints cfg d 0 d.nb_oargs) d.nb_oargs
          d.nb_iargs := by
  unfold add_op_def at h
  simp only [bind, Except.bind, pure, Except.pure] at h
  split at h
  · cases h
  · split at h
    · cases h
    · rename_i d hd
      obtain ⟨a1, a2, a3⟩ := add_op_def_args_frame cfg td _ _ d hd
      split at h
      · cases h
      · simp only [Except.ok.injEq] at h
        refine ⟨d, a1, a2, a3, ?_⟩
        rw [← h, (sort_constraints_nb cfg d 0 d.nb_oargs).1,
          (sort_constraints_nb cfg d 0 d.nb_oargs).2]

/-- C14: on a segment inside `sorted_args`, `sort_constraints` changes `sorted_args`
only; the entries outside the segment are as before; the entries of the segment are a
permutation of the indices `start .. start + n - 1`; and their priorities are
non-increasing.  And in the definition that the body of the loop of
`tcg_add_target_add_op_defs` returns for an entry, the numbers of outputs and inputs are
as before, the first `nb_oargs` entries of `sorted_args` are a permutation of the indices
of the outputs, the next `nb_iargs` a permutation of the indices of the inputs, and each
of the two segments is in non-increasing priority. -/
theorem sort_constraints_spec (cfg : Config) (df : TCGOpDef) (start n : Nat)
    (td : TCGTargetOpDef) (df1 : TCGOpDef)
    (h : start + n ≤ df.sorted_args.length) :
    ((sort_constraints cfg df start n).args_ct = df.args_ct
      ∧ (sort_constraints cfg df start n).sorted_args.length = df.sorted_args.length
      ∧ (∀ k, ¬ (start ≤ k ∧ k < start + n) →
          (sort_constraints cfg df start n).sorted_args.getD k 0 = df.sorted_args.getD k 0)
      ∧ ((List.range n).map (fun a =>
            (sort_constraints cfg df start n).sorted_args.getD (start + a) 0)).Perm
          (List.range' start n)
      ∧ (∀ a b, a < b → b < n →
          get_constraint_priority cfg (sort_constraints cfg df start n)
              ((sort_constraints cfg df start n).sorted_args.getD (start + b) 0)
            ≤ get_constraint_priority cfg (sort_constraints cfg df start n)
              ((sort_constraints cfg df start n).sorted_args.getD (start + a) 0)))
    ∧ (add_op_def cfg td df = Except.ok df1 →
        df.nb_oargs + df.nb_iargs ≤ df.sorted_args.length →
        df1.nb_oargs = df.nb_oargs ∧ df1.nb_iargs = df.nb_iargs
        ∧ ((List.range df.nb_oargs).map (fun a => df1.sorted_args.getD a 0)).Perm
            (List.range' 0 df.nb_oargs)
        ∧ ((List.range df.nb_iargs).map (fun a =>
              df1.sorted_args.getD (df.nb_oargs + a) 0)).Perm
            (List.range' df.nb_oargs df.nb_iargs)
        ∧ (∀ a b, a < b → b < df.nb_oargs →
            get_constraint_priority cfg df1 (df1.sorted_args.getD b 0)
              ≤ get_constraint_priority cfg df1 (df1.sorted_args.getD a 0))
        ∧ (∀ a b, a < b → b < df.nb_iargs →
            get_constraint_priority cfg df1 (df1.sorted_args.getD (df.nb_oargs + b) 0)
              ≤ get_constraint_priority cfg df1
                (df1.sorted_args.getD (df.nb_oargs + a) 0))) := by
  refine ⟨sort_constraints_full cfg df start n h, ?_⟩
  intro hr hlen
  obtain ⟨d, n1, n2, n3, e⟩ := add_op_def_sorted cfg td df df1 hr
  rw [← n1, ← n2, ← n3] at hlen
  rw [← n1, ← n2]
  obtain ⟨c1, l1, _, p1, s1⟩ := sort_constraints_full cfg d 0 d.nb_oargs (by omega)
  have i1 := sort_constraints_inv cfg d 0 d.nb_oargs (by omega)
  obtain ⟨c2, _, o2, p2, s2⟩ := sort_constraints_full cfg
    (sort_constraints cfg d 0 d.nb_oargs) d.nb_oargs d.nb_iargs (by rw [l1]; exact hlen)
  have i2 := sort_constraints_inv cfg (sort_constraints cfg d 0 d.nb_oargs) d.nb_oargs
    d.nb_iargs (by rw [l1]; exact hlen)
  rw [← e] at c2 o2 p2 s2 i2
  have hout : ∀ a, a < d.nb_oargs →
      df1.sorted_args.getD a 0 = (sort_constraints cfg d 0 d.nb_oargs).sorted_args.getD a 0 :=
    fun a ha => o2 a (by omega)
  refine ⟨i2.2.1.trans i1.2.1, i2.2.2.1.trans i1.2.2.1, ?_, p2, ?_, s2⟩
  · have : (List.range d.nb_oargs).map (fun a => df1.sorted_args.getD a 0)
        = (List.range d.nb_oargs).map (fun a =>
          (sort_constraints cfg d 0 d.nb_oargs).sorted_args.getD (0 + a) 0) := by
      apply List.map_congr_left
      intro a ha
      rw [hout a (List.mem_range.mp ha), Nat.zero_add]
    rw [this]
    exact p1
  · intro a b hab hb
    have := s1 a b hab hb
    rw [Nat.zero_add, Nat.zero_add] at this
    rw [hout a (by omega), hout b hb, priority_congr cfg _ df1 c2,
      priority_congr cfg _ df1 c2]
    exact this

theorem sort_constraints_spec_witness :
    1 + 2 ≤ exSortDef.sorted_args.length
    ∧ (sort_constraints exCfg exSortDef 1 2).sorted_args = [0, 2, 1]
    ∧ ((List.range 2).map (fun a =>
          (sort_constraints exCfg exSortDef 1 2).sorted_args.getD (1 + a) 0)).Perm
        (List.range' 1 2)
    ∧ add_op_def exCfg exSortEntry exSortDef
        = Except.ok { exSortDef with sorted_args := [0, 2, 1], used := true }
    ∧ ((List.range 2).map (fun a => ([0, 2, 1] : List Nat).getD (1 + a) 0)).Perm
        (List.range' 1 2) :=
  ⟨by decide, by decide,
   (sort_constraints_spec exCfg exSortDef 1 2 exSortEntry
      { exSortDef with sorted_args := [0, 2, 1], used := true } (by decide)).1.2.2.2.1,
   by decide,
   ((sort_constraints_spec exCfg exSortDef 1 2 exSortEntry
      { exSortDef with sorted_args := [0, 2, 1], used := true } (by decide)).2
        (by decide) (by decide)).2.2.2.1⟩

theorem foldl_fixed {α β : Type} (f : α → β → α) (a : α) (l : List β)
    (h : ∀ x, x ∈ l → f a x = a) : l.foldl f a = a := by
  induction l with
  | nil => rfl
  | cons x l ih =>
    rw [List.foldl_cons, h x (List.mem_cons_self x l)]
    exact ih (fun y hy => h y (List.mem_cons_of_mem x hy))

/-- C15, amended: `sort_constraints` leaves in place a segment that is already in
non-increasing priority: if the priorities of the indices `start .. start + n - 1` do not
increase with the index, then after `sort_constraints` entry `start + a` of `sorted_args`
is `start + a`, for every `a < n`; so arguments of equal priority keep their order in this
case.  The sort is an exchange sort and is not stable in general. -/
theorem sort_constraints_sorted_input (cfg : Config) (df : TCGOpDef) (start n : Nat)
    (h : start + n ≤ df.sorted_args.length)
    (hs : ∀ a b, a < b → b < n →
      get_constraint_priority cfg df (start + b) ≤ get_constraint_priority cfg df (start + a)) :
    ∀ a, a < n → (sort_constraints cfg df start n).sorted_args.getD (start + a) 0 = start + a := by
  obtain ⟨_, h2⟩ := sort_init_spec start n df.sorted_args h
  have key : ∀ a, a < n →
      ((List.range n).foldl (fun sa i => sa.set (start + i) (start + i))
        df.sorted_args).getD (start + a) 0 = start + a := by
    intro a ha
    rw [h2, if_pos ⟨by omega, by omega⟩]
  intro a ha
  unfold sort_constraints
  simp only []
  split
  · exact key a ha
  · simp only []
    rw [foldl_fixed]
    · exact key a ha
    · intro i hi
      apply foldl_fixed
      intro j hj
      have hi' := List.mem_range.mp hi
      have hj' := List.mem_range'_1.mp hj
      unfold sort_swap
      simp only []
      rw [key i (by omega), key j (by omega), if_neg]
      exact not_lt.mpr (hs i j (by omega) (by omega))

/-- The claim C15 as it stands fails: on the example host, of three inputs with the
priorities 5, 5 and 8 the sort puts index 1 before index 0, although both have
priority 5. -/
theorem sort_constraints_sorted_input_counterexample :
    0 + 3 ≤ exSortTies.sorted_args.length
    ∧ get_constraint_priority exCfg exSortTies 0 = get_constraint_priority exCfg exSortTies 1
    ∧ (sort_constraints exCfg exSortTies 0 3).sorted_args = [2, 1, 0]
    ∧ (sort_constraints exCfg exSortTies 0 3).sorted_args.getD (0 + 1) 0 = 1
    ∧ (sort_constraints exCfg exSortTies 0 3).sorted_args.getD (0 + 2) 0 = 0 := by
  refine ⟨by decide, by decide, by decide, by decide, by decide⟩

theorem sort_constraints_sorted_input_witness :
    0 + 2 ≤ exSortDef.sorted_args.length
    ∧ get_constraint_priority exCfg exSortDef 1 ≤ get_constraint_priority exCfg exSortDef 0
    ∧ (sort_constraints exCfg exSortDef 0 2).sorted_args.getD (0 + 1) 0 = 0 + 1 :=
  ⟨by decide, by decide,
   sort_constraints_sorted_input exCfg exSortDef 0 2 (by decide)
     (fun a b hab hb => by
       have ha : a = 0 := by omega
       have hb1 : b = 1 := by omega
       subst ha; subst hb1; decide) 1 (by decide)⟩


/-! ### The links between an aliased input and its output -/

theorem getD_set_any {α : Type} (l : List α) (i k : Nat) (v dflt : α) (hi : i < l.length) :
    (l.set i v).getD k dflt = if k = i then v else l.getD k dflt := by
  rw [List.getD_eq_getElem?_getD, List.getElem?_set, List.getD_eq_getElem?_getD]
  by_cases h : i = k
  · subst h
    simp [hi]
  · have h' : ¬ k = i := fun e => h e.symm
    simp [h, h']

theorem flag_zero (m : Nat) : flag 0 m = false := by
  simp [flag]

theorem post_foldlM_range {α : Type} (f : α → Nat → Except Fault α) (Inv : Nat → α → Prop)
    (n : Nat) (init : α) (h0 : Inv 0 init)
    (hstep : ∀ k a, k < n → Inv k a → Post (f a k) (Inv (k + 1))) :
    Post ((List.range n).foldlM f init) (Inv n) := by
  induction n with
  | zero => exact post_pure init _ h0
  | succ n ih =>
    rw [List.range_succ, List.foldlM_append, post_bind_iff]
    apply post_mono _ _ _ (ih (fun k a hk => hstep k a (by omega)))
    intro a ha
    simp only [List.foldlM, bind_pure]
    exact hstep n a (by omega) ha

/-- the pair of links that a constraint string starting with a digit installs -/
theorem add_op_def_arg_digit (cfg : Config) (td : TCGTargetOpDef) (df d1 : TCGOpDef)
    (i : Nat) (c : Char) (rest : List Char)
    (hs : td.args_ct_str.getD i none = some (c :: rest)) (hc : '0' ≤ c ∧ c ≤ '9')
    (hi : i < df.args_ct.length) (ho : df.nb_oargs ≤ df.args_ct.length)
    (h : add_op_def_arg cfg td df i = Except.ok d1) :
    c.toNat - '0'.toNat < df.nb_oargs
    ∧ c.toNat - '0'.toNat ≠ i
    ∧ flag (df.args_ct.getD (c.toNat - '0'.toNat) default).ct cfg.TCG_CT_REG = true
    ∧ d1.nb_oargs = df.nb_oargs ∧ d1.nb_iargs = df.nb_iargs
    ∧ d1.args_ct.length = df.args_ct.length
    ∧ d1.args_ct.getD i default
        = { ct := (df.args_ct.getD (c.toNat - '0'.toNat) default).ct ||| cfg.TCG_CT_IALIAS,
            alias_index := c.toNat - '0'.toNat,
            regs := (df.args_ct.getD (c.toNat - '0'.toNat) default).regs }
    ∧ d1.args_ct.getD (c.toNat - '0'.toNat) default
        = { ct := cfg.TCG_CT_ALIAS, alias_index := i,
            regs := (df.args_ct.getD (c.toNat - '0'.toNat) default).regs }
    ∧ (∀ k, k ≠ i → k ≠ c.toNat - '0'.toNat →
        d1.args_ct.getD k default = df.args_ct.getD k default) := by
  unfold add_op_def_arg at h
  rw [hs] at h
  simp only [bind, Except.bind, pure, Except.pure] at h
  rw [if_pos hc] at h
  generalize c.toNat - '0'.toNat = o at h ⊢
  split at h
  · cases h
  · rename_i h1
    split at h
    · cases h
    · rename_i h2
      simp only [Except.ok.injEq] at h
      have ho1 : o < df.nb_oargs := by simpa using h1
      have hol : o < df.args_ct.length := by omega
      have hne : o ≠ i := by
        intro e
        apply h2
        rw [e, getD_set_any _ _ _ _ _ hi, if_pos rfl]
        simp [flag_zero]
      have hne' : ¬ i = o := fun e => hne e.symm
      have hreg : flag (df.args_ct.getD o default).ct cfg.TCG_CT_REG = true := by
        have := h2
        rw [getD_set_any _ _ _ _ _ hi, if_neg hne] at this
        simpa using this
      subst h
      refine ⟨ho1, hne, hreg, rfl, rfl, ?_, ?_, ?_, ?_⟩
      · simp only [List.length_set]
      · simp [getD_set_any, List.length_set, hi, hol, hne, hne']
      · simp [getD_set_any, List.length_set, hi, hol, hne, hne']
      · intro k hk1 hk2
        simp [List.getElem?_set, List.length_set, hi, hol, hne, hne', hk1, hk2, Ne.symm hk1,
          Ne.symm hk2]

/-- a constraint string that does not start with a digit: the constraint is what the loop
over the string makes of the cleared constraint -/
theorem add_op_def_arg_parse (cfg : Config) (td : TCGTargetOpDef) (df d1 : TCGOpDef)
    (i : Nat) (s : List Char)
    (hs : td.args_ct_str.getD i none = some s)
    (hc : ∀ c rest, s = c :: rest → ¬ ('0' ≤ c ∧ c ≤ '9'))
    (h : add_op_def_arg cfg td df i = Except.ok d1) :
    ∃ ct, parse_ct_str cfg s.length
        { df.args_ct.getD i default with regs := 0, ct := 0 } s = Except.ok ct
      ∧ d1 = { df with args_ct := df.args_ct.set i ct } := by
  unfold add_op_def_arg at h
  rw [hs] at h
  simp only [bind, Except.bind, pure, Except.pure] at h
  cases s with
  | nil =>
    simp only [Except.ok.injEq] at h
    exact ⟨_, by simp [parse_ct_str, pure, Except.pure], h.symm⟩
  | cons c rest =>
    simp only [] at h
    rw [if_neg (hc c rest rfl)] at h
    split at h
    · cases h
    · rename_i ct hct
      simp only [Except.ok.injEq] at h
      refine ⟨ct, hct, ?_⟩
      rw [← h, List.set_set]

theorem add_op_def_arg_none (cfg : Config) (td : TCGTargetOpDef) (df d1 : TCGOpDef)
    (i : Nat) (hs : td.args_ct_str.getD i none = none) :
    add_op_def_arg cfg td df i ≠ Except.ok d1 := by
  intro h
  unfold add_op_def_arg at h
  rw [hs] at h
  simp [bind, Except.bind, throw, throwThe, MonadExceptOf.throw] at h

theorem parse_ct_str_ialias (cfg : Config)
    (hC : flag cfg.TCG_CT_CONST cfg.TCG_CT_IALIAS = false)
    (hP : ∀ ct str ct1 rest, cfg.target_parse_constraint ct str = some (ct1, rest) →
      flag ct.ct cfg.TCG_CT_IALIAS = false → flag ct1.ct cfg.TCG_CT_IALIAS = false) :
    ∀ (fuel : Nat) (ct : TCGArgConstraint) (s : List Char) (r : TCGArgConstraint),
      flag ct.ct cfg.TCG_CT_IALIAS = false →
      parse_ct_str cfg fuel ct s = Except.ok r → flag r.ct cfg.TCG_CT_IALIAS = false := by
  intro fuel
  induction fuel with
  | zero =>
    intro ct s r h0 h
    cases s with
    | nil =>
      simp only [parse_ct_str, pure, Except.pure, Except.ok.injEq] at h
      rw [← h]; exact h0
    | cons c rest => simp [parse_ct_str, throw, throwThe, MonadExceptOf.throw] at h
  | succ fuel ih =>
    intro ct s r h0 h
    cases s with
    | nil =>
      simp only [parse_ct_str, pure, Except.pure, Except.ok.injEq] at h
      rw [← h]; exact h0
    | cons c rest =>
      by_cases hci : c = 'i'
      · subst hci
        simp only [parse_ct_str] at h
        refine ih _ _ _ ?_ h
        simp only [flag, bne_eq_false_iff_eq, beq_iff_eq] at h0 hC ⊢
        rw [Nat.and_comm, Nat.and_or_distrib_left, Nat.and_comm, h0, Nat.and_comm, hC]
        rfl
      · rw [parse_ct_str] at h
        · split at h
          · rename_i ct1 rest1 hp
            exact ih _ _ _ (hP _ _ _ _ hp h0) h
          · cases h
        · exact hci

theorem aliasInv_step (cfg : Config) (td : TCGTargetOpDef) (d0 : TCGOpDef)
    (hA : flag cfg.TCG_CT_ALIAS cfg.TCG_CT_REG = false)
    (hB : flag cfg.TCG_CT_ALIAS cfg.TCG_CT_IALIAS = false)
    (hC : flag cfg.TCG_CT_CONST cfg.TCG_CT_IALIAS = false)
    (hP : ∀ ct str ct1 rest, cfg.target_parse_constraint ct str = some (ct1, rest) →
      flag ct.ct cfg.TCG_CT_IALIAS = false → flag ct1.ct cfg.TCG_CT_IALIAS = false)
    (hlen : d0.nb_oargs + d0.nb_iargs ≤ d0.args_ct.length)
    (hd : ∀ i c rest, td.args_ct_str.getD i none = some (c :: rest) → '0' ≤ c ∧ c ≤ '9' →
      c.toNat - '0'.toNat < i)
    (k : Nat) (d : TCGOpDef) (hk : k < d0.nb_oargs + d0.nb_iargs)
    (inv : AliasInv cfg td d0 k d) :
    Post (add_op_def_arg cfg td d k) (AliasInv cfg td d0 (k + 1)) := by
  rw [post_def]
  intro d1 h1
  obtain ⟨n1, n2, l0, i4, i5, i6⟩ := inv
  have hkl : k < d.args_ct.length := by omega
  cases hs : td.args_ct_str.getD k none with
  | none => exact absurd h1 (add_op_def_arg_none cfg td d d1 k hs)
  | some s =>
    by_cases hdig : ∃ c rest, s = c :: rest ∧ ('0' ≤ c ∧ c ≤ '9')
    · obtain ⟨c, rest, rfl, hc⟩ := hdig
      have hok := hd k c rest hs hc
      obtain ⟨ho1, hne, hreg, m1, m2, l1, ei, eo, ek⟩ :=
        add_op_def_arg_digit cfg td d d1 k c rest hs hc hkl (by omega) h1
      generalize c.toNat - '0'.toNat = o at hok ho1 hne hreg ei eo ek
      refine ⟨m1.trans n1, m2.trans n2, l1.trans l0, ?_, ?_, ?_⟩
      · intro j hj
        rw [ek j (by omega) (by omega)]
        exact i4 j (by omega)
      · intro i hi hf
        by_cases hik : i = k
        · subst hik
          rw [ei]
          simp only []
          rw [eo]
          exact ⟨by rw [m1]; exact ho1, hok, rfl, rfl, rfl⟩
        · by_cases hio : i = o
          · subst hio
            rw [eo] at hf
            simp only [] at hf
            rw [hB] at hf
            cases hf
          · rw [ek i hik hio] at hf ⊢
            obtain ⟨a1, a2, a3, a4, a5⟩ := i5 i (by omega) hf
            have hoo : (d.args_ct.getD i default).alias_index ≠ o := by
              intro e
              rw [e] at a3
              rw [a3, hA] at hreg
              cases hreg
            rw [ek _ (by omega) hoo]
            exact ⟨by rw [m1]; exact a1, a2, a3, a4, a5⟩
      · intro j s hj hsj hnd
        have hjk : j ≠ k := by
          intro e
          subst e
          rw [hs] at hsj
          exact hnd c rest (Option.some.inj hsj).symm hc
        obtain ⟨ct, p1, p2⟩ := i6 j s (by omega) hsj hnd
        refine ⟨ct, p1, ?_⟩
        by_cases hjo : j = o
        · subst hjo
          rw [eo]
          exact p2
        · rw [ek j hjk hjo]
          exact p2
    · have hnd : ∀ c rest, s = c :: rest → ¬ ('0' ≤ c ∧ c ≤ '9') :=
        fun c rest e hc => hdig ⟨c, rest, e, hc⟩
      obtain ⟨ct, hp, e1⟩ := add_op_def_arg_parse cfg td d d1 k s hs hnd h1
      have hct : flag ct.ct cfg.TCG_CT_IALIAS = false :=
        parse_ct_str_ialias cfg hC hP _ _ _ _ (flag_zero _) hp
      have eg : ∀ j, d1.args_ct.getD j default
          = if j = k then ct else d.args_ct.getD j default := by
        intro j
        rw [e1]
        exact getD_set_any _ _ _ _ _ hkl
      refine ⟨by rw [e1]; exact n1, by rw [e1]; exact n2, ?_, ?_, ?_, ?_⟩
      · rw [e1]
        simp only [List.length_set]
        exact l0
      · intro j hj
        rw [eg j, if_neg (by omega)]
        exact i4 j (by omega)
      · intro i hi hf
        by_cases hik : i = k
        · subst hik
          rw [eg i, if_pos rfl, hct] at hf
          cases hf
        · rw [eg i, if_neg hik] at hf ⊢
          obtain ⟨a1, a2, a3, a4, a5⟩ := i5 i (by omega) hf
          rw [eg _, if_neg (by omega)]
          exact ⟨by rw [e1]; exact a1, a2, a3, a4, a5⟩
      · intro j s1 hj hsj hnd1
        by_cases hjk : j = k
        · subst hjk
          rw [hs] at hsj
          cases hsj
          refine ⟨ct, ?_, ?_⟩
          · rw [← i4 j (Nat.le_refl j)]
            exact hp
          · rw [eg j, if_pos rfl]
        · obtain ⟨ct1, p1, p2⟩ := i6 j s1 (by omega) hsj hnd1
          exact ⟨ct1, p1, by rw [eg j, if_neg hjk]; exact p2⟩

theorem sort_constraints_args_ct (cfg : Config) (d : TCGOpDef) (st m : Nat) :
    (sort_constraints cfg d st m).args_ct = d.args_ct := by
  unfold sort_constraints
  simp only []
  split <;> rfl

/-- what `add_op_def` returns has the constraints that the loop over the arguments
leaves -/
theorem add_op_def_fold (cfg : Config) (td : TCGTargetOpDef) (df df1 : TCGOpDef)
    (h : add_op_def cfg td df = Except.ok df1) :
    ∃ d, (List.range (df.nb_iargs + df.nb_oargs)).foldlM (add_op_def_arg cfg td)
        { df with used := true } = Except.ok d
      ∧ df1.args_ct = d.args_ct ∧ df1.nb_oargs = d.nb_oargs := by
  unfold add_op_def at h
  simp only [bind, Except.bind, pure, Except.pure] at h
  split at h
  · cases h
  · split at h
    · cases h
    · rename_i d hd
      split at h
      · cases h
      · simp only [Except.ok.injEq] at h
        refine ⟨d, hd, ?_, ?_⟩
        · rw [← h, sort_constraints_args_ct, sort_constraints_args_ct]
        · rw [← h, (sort_constraints_nb cfg _ _ _).1, (sort_constraints_nb cfg _ _ _).1]

/-- C16, amended: let the constants `TCG_CT_ALIAS`, `TCG_CT_REG`, `TCG_CT_IALIAS` and
`TCG_CT_CONST` be distinct bits, let the host never set `TCG_CT_IALIAS` when it reads a
constraint letter, and let every constraint string of the entry that starts with a digit
`d` belong to an argument after `d` (so it is whenever only inputs have such strings).
If the body of the loop of `tcg_add_target_add_op_defs` returns for the entry, then every
argument `i` that carries `TCG_CT_IALIAS` has `alias_index = d` with `d < nb_oargs`,
`args_ct[d].ct = TCG_CT_ALIAS`, `args_ct[d].alias_index = i`, no other argument that
carries `TCG_CT_IALIAS` names `d`, the register set of `i` is that of `d`, and, when the
string of `d` does not start with a digit, it is the set read from the string of `d`.
And one step of the loop on a string that starts with the digit `d` asserts that
`d < nb_oargs` and that `args_ct[d]` is a register constraint, then leaves `args_ct[i]`
the old `args_ct[d]` with `TCG_CT_IALIAS` added and `alias_index = d`, leaves `args_ct[d]`
with `ct = TCG_CT_ALIAS` and `alias_index = i`, and changes no other constraint. -/
theorem add_op_def_alias_links (cfg : Config) (td : TCGTargetOpDef) (df df1 : TCGOpDef)
    (hA : flag cfg.TCG_CT_ALIAS cfg.TCG_CT_REG = false)
    (hB : flag cfg.TCG_CT_ALIAS cfg.TCG_CT_IALIAS = false)
    (hC : flag cfg.TCG_CT_CONST cfg.TCG_CT_IALIAS = false)
    (hP : ∀ ct str ct1 rest, cfg.target_parse_constraint ct str = some (ct1, rest) →
      flag ct.ct cfg.TCG_CT_IALIAS = false → flag ct1.ct cfg.TCG_CT_IALIAS = false)
    (hlen : df.nb_oargs + df.nb_iargs ≤ df.args_ct.length)
    (hd : ∀ i c rest, td.args_ct_str.getD i none = some (c :: rest) → '0' ≤ c ∧ c ≤ '9' →
      c.toNat - '0'.toNat < i)
    (h : add_op_def cfg td df = Except.ok df1) :
    (∀ i, i < df.nb_oargs + df.nb_iargs →
      flag (df1.args_ct.getD i default).ct cfg.TCG_CT_IALIAS = true →
      (df1.args_ct.getD i default).alias_index < df1.nb_oargs
      ∧ (df1.args_ct.getD (df1.args_ct.getD i default).alias_index default).ct
          = cfg.TCG_CT_ALIAS
      ∧ (df1.args_ct.getD (df1.args_ct.getD i default).alias_index default).alias_index = i
      ∧ (∀ i2, i2 < df.nb_oargs + df.nb_iargs →
          flag (df1.args_ct.getD i2 default).ct cfg.TCG_CT_IALIAS = true →
          (df1.args_ct.getD i2 default).alias_index
            = (df1.args_ct.getD i default).alias_index → i2 = i)
      ∧ (df1.args_ct.getD i default).regs
          = (df1.args_ct.getD (df1.args_ct.getD i default).alias_index default).regs
      ∧ (∀ s, td.args_ct_str.getD (df1.args_ct.getD i default).alias_index none = some s →
          (∀ c rest, s = c :: rest → ¬ ('0' ≤ c ∧ c ≤ '9')) →
          ∃ ct, parse_ct_str cfg s.length
              { df.args_ct.getD (df1.args_ct.getD i default).alias_index default with
                regs := 0, ct := 0 } s = Except.ok ct
            ∧ (df1.args_ct.getD i default).regs = ct.regs))
    ∧ (∀ (d0 d1 : TCGOpDef) (i : Nat) (c : Char) (rest : List Char),
        td.args_ct_str.getD i none = some (c :: rest) → '0' ≤ c ∧ c ≤ '9' →
        i < d0.args_ct.length → d0.nb_oargs ≤ d0.args_ct.length →
        add_op_def_arg cfg td d0 i = Except.ok d1 →
        c.toNat - '0'.toNat < d0.nb_oargs
        ∧ flag (d0.args_ct.getD (c.toNat - '0'.toNat) default).ct cfg.TCG_CT_REG = true
        ∧ d1.args_ct.getD i default
            = { ct := (d0.args_ct.getD (c.toNat - '0'.toNat) default).ct ||| cfg.TCG_CT_IALIAS,
                alias_index := c.toNat - '0'.toNat,
                regs := (d0.args_ct.getD (c.toNat - '0'.toNat) default).regs }
        ∧ d1.args_ct.getD (c.toNat - '0'.toNat) default
            = { ct := cfg.TCG_CT_ALIAS, alias_index := i,
                regs := (d0.args_ct.getD (c.toNat - '0'.toNat) default).regs }
        ∧ (∀ k, k ≠ i → k ≠ c.toNat - '0'.toNat →
            d1.args_ct.getD k default = d0.args_ct.getD k default)) := by
  constructor
  · obtain ⟨d, hf, e1, e2⟩ := add_op_def_fold cfg td df df1 h
    have inv : AliasInv cfg td { df with used := true } (df.nb_oargs + df.nb_iargs) d := by
      have := post_foldlM_range (add_op_def_arg cfg td)
        (AliasInv cfg td { df with used := true }) (df.nb_oargs + df.nb_iargs)
        { df with used := true }
        ⟨rfl, rfl, rfl, fun _ _ => rfl, fun i hi => absurd hi (Nat.not_lt_zero i),
          fun j s hj => absurd hj (Nat.not_lt_zero j)⟩
        (fun k a hk hi => aliasInv_step cfg td { df with used := true } hA hB hC hP hlen hd
          k a hk hi)
      rw [post_def] at this
      exact this d (by rw [Nat.add_comm]; exact hf)
    obtain ⟨_, _, _, _, i5, i6⟩ := inv
    intro i hi hfl
    rw [e1] at hfl ⊢
    rw [e2]
    obtain ⟨a1, a2, a3, a4, a5⟩ := i5 i hi hfl
    refine ⟨a1, a3, a4, ?_, a5, ?_⟩
    · intro i2 hi2 hf2 he
      have b4 := (i5 i2 hi2 hf2).2.2.2.1
      rw [he, a4] at b4
      exact b4.symm
    · intro s hs hnd
      obtain ⟨ct, p1, p2⟩ := i6 _ s (by omega) hs hnd
      exact ⟨ct, p1, a5.trans p2⟩
  · intro d0 d1 i c rest hs hc hi ho hr
    obtain ⟨q1, _, q3, _, _, _, q7, q8, q9⟩ :=
      add_op_def_arg_digit cfg td d0 d1 i c rest hs hc hi ho hr
    exact ⟨q1, q3, q7, q8, q9⟩

theorem lor_eq_zero_left (x y : Nat) (e : x ||| y = 0) : x = 0 := by
  apply Nat.eq_of_testBit_eq
  intro i
  have := congrArg (fun n => n.testBit i) e
  simp only [Nat.testBit_or, Nat.zero_testBit, Bool.or_eq_false_iff] at this
  rw [this.1, Nat.zero_testBit]

theorem flag_lor (a b m : Nat) : flag (a ||| b) m = (flag a m || flag b m) := by
  unfold flag
  rw [Nat.and_comm, Nat.and_or_distrib_left, Nat.and_comm m a, Nat.and_comm m b]
  by_cases ha : a &&& m = 0
  · by_cases hb : b &&& m = 0
    · simp [ha, hb]
    · simp [ha, hb]
  · have : (a &&& m ||| b &&& m) ≠ 0 := fun e => ha (lor_eq_zero_left _ _ e)
    rw [bne_iff_ne.mpr this, bne_iff_ne.mpr ha]
    rfl

/-- the example host never sets `TCG_CT_IALIAS` when it reads a constraint letter -/
theorem exCfg_parse_ialias (ct : TCGArgConstraint) (str : List Char) (ct1 : TCGArgConstraint)
    (rest : List Char) (h : exCfg.target_parse_constraint ct str = some (ct1, rest))
    (h0 : flag ct.ct exCfg.TCG_CT_IALIAS = false) : flag ct1.ct exCfg.TCG_CT_IALIAS = false := by
  simp only [exCfg] at h h0 ⊢
  split at h
  · simp only [Option.some.injEq, Prod.mk.injEq] at h
    rw [← h.1]
    simp only []
    rw [flag_lor, h0]
    decide
  · simp only [Option.some.injEq, Prod.mk.injEq] at h
    rw [← h.1]
    simp only []
    rw [flag_lor, h0]
    decide
  · cases h

theorem exTiedEntry_digits (i : Nat) (c : Char) (rest : List Char)
    (h : exTiedEntry.args_ct_str.getD i none = some (c :: rest)) (hc : '0' ≤ c ∧ c ≤ '9') :
    c.toNat - '0'.toNat < i := by
  match i, h with
  | 0, h =>
    simp only [exTiedEntry, List.getD_cons_zero, Option.some.injEq, List.cons.injEq] at h
    rw [← h.1] at hc
    exact absurd hc (by decide)
  | 1, h =>
    simp only [exTiedEntry, List.getD_cons_succ, List.getD_cons_zero, Option.some.injEq,
      List.cons.injEq] at h
    rw [← h.1]
    decide
  | 2, h =>
    simp only [exTiedEntry, List.getD_cons_succ, List.getD_cons_zero, Option.some.injEq,
      List.cons.injEq] at h
    rw [← h.1] at hc
    exact absurd hc (by decide)
  | n + 3, h =>
    simp [exTiedEntry] at h

theorem add_op_def_alias_links_witness :
    add_op_def exCfg exTiedEntry exTiedDef
      = Except.ok { exDef 1 2 0 0 [⟨0x80, 1, 0xf⟩, ⟨0x41, 0, 0xf⟩, ⟨1, 0, 0xf⟩] [0, 1, 2] with
          used := true }
    ∧ flag (([⟨0x80, 1, 0xf⟩, ⟨0x41, 0, 0xf⟩, ⟨1, 0, 0xf⟩] : List TCGArgConstraint).getD 1
        default).ct exCfg.TCG_CT_IALIAS = true
    ∧ (([⟨0x80, 1, 0xf⟩, ⟨0x41, 0, 0xf⟩, ⟨1, 0, 0xf⟩] : List TCGArgConstraint).getD
        (([⟨0x80, 1, 0xf⟩, ⟨0x41, 0, 0xf⟩, ⟨1, 0, 0xf⟩] : List TCGArgConstraint).getD 1
          default).alias_index default).ct = exCfg.TCG_CT_ALIAS :=
  ⟨by decide, by decide,
   ((add_op_def_alias_links exCfg exTiedEntry exTiedDef
      { exDef 1 2 0 0 [⟨0x80, 1, 0xf⟩, ⟨0x41, 0, 0xf⟩, ⟨1, 0, 0xf⟩] [0, 1, 2] with
        used := true }
      (by decide) (by decide) (by decide) exCfg_parse_ialias (by decide) exTiedEntry_digits
      (by decide)).1 1 (by decide) (by decide)).2.1⟩

/-- The claim C16 as it stands fails: on the example host, for an entry whose first output
has the string "1" and a definition whose second constraint holds a register constraint
before the loop, the loop returns, the first output carries `TCG_CT_IALIAS` and names the
second, and the second, read afterwards, is a plain register constraint and not
`TCG_CT_ALIAS`. -/
theorem add_op_def_alias_links_counterexample :
    add_op_def exCfg exAliasEntry exAliasDef
      = Except.ok { exDef 2 0 0 0 [⟨0x41, 1, 0xf⟩, ⟨1, 0, 0xf⟩] [0, 1] with used := true }
    ∧ flag (([⟨0x41, 1, 0xf⟩, ⟨1, 0, 0xf⟩] : List TCGArgConstraint).getD 0 default).ct
        exCfg.TCG_CT_IALIAS = true
    ∧ (([⟨0x41, 1, 0xf⟩, ⟨1, 0, 0xf⟩] : List TCGArgConstraint).getD 0 default).alias_index = 1
    ∧ (([⟨0x41, 1, 0xf⟩, ⟨1, 0, 0xf⟩] : List TCGArgConstraint).getD 1 default).ct
        ≠ exCfg.TCG_CT_ALIAS := by
  refine ⟨by decide, by decide, by decide, by decide⟩


/-! ### The allocation of a constant -/

theorem andnot_test (a b : TCGRegSet) (r : Nat) :
    tcg_regset_test_reg (tcg_regset_andnot a b) r
      = (tcg_regset_test_reg a r && !tcg_regset_test_reg b r) := by
  unfold tcg_regset_test_reg tcg_regset_andnot
  rw [Nat.testBit_xor, Nat.testBit_and]
  cases a.testBit r <;> cases b.testBit r <;> rfl

theorem temp_allocate_frame_keeps (cfg : Config) (s : TCGContext) (k t : Nat) (ts : TCGTemp)
    (ht : s.temps[t]? = some ts) (hk : k ≠ t) :
    Post (temp_allocate_frame cfg s k) (fun a => a.temps[t]? = some ts) := by
  unfold temp_allocate_frame
  simp only [post_bind_iff, post_pure_iff, post_throw_iff, post_ite_iff, post_rd_iff]
  intro x _
  refine ⟨fun _ => trivial, fun _ => ?_⟩
  simp only [set_temp]
  rw [List.getElem?_set_ne hk]
  exact ht

/-- `tcg_reg_sync` leaves a temp that is not in a register as it is, and the owner of
the register is another temp -/
theorem tcg_reg_sync_keeps (cfg : Config) (s : TCGContext) (reg t : Nat) (ts : TCGTemp)
    (ht : s.temps[t]? = some ts) (hv : ts.val_type ≠ TCGTempVal.REG) :
    Post (tcg_reg_sync cfg s reg) (fun a => a.temps[t]? = some ts
      ∧ ∀ temp, s.reg_to_temp[reg]? = some temp → temp.toNat ≠ t) := by
  unfold tcg_reg_sync
  simp only [post_bind_iff, post_pure_iff, post_throw_iff, post_ite_iff, post_rd_iff,
    post_rdi_iff]
  intro temp htemp _ x hx
  refine ⟨fun _ => trivial, fun hreg => ?_⟩
  have hne : temp.toNat ≠ t := by
    intro e
    rw [e, ht] at hx
    cases hx
    apply hreg
    exact bne_iff_ne.mpr hv
  have hown : ∀ temp1, s.reg_to_temp[reg]? = some temp1 → temp1.toNat ≠ t := by
    intro temp1 h1
    rw [htemp] at h1
    cases h1
    exact hne
  refine ⟨fun _ => ⟨fun _ => ?_, fun _ => ?_⟩, fun _ => ?_⟩
  · apply post_mono _ _ _ (temp_allocate_frame_keeps cfg s _ t ts ht hne)
    intro a ha
    intro _ _ y _
    simp only [set_temp, tcg_out]
    rw [List.getElem?_set_ne hne]
    exact ⟨ha, hown⟩
  · intro _ _ y _
    simp only [set_temp, tcg_out]
    rw [List.getElem?_set_ne hne]
    exact ⟨ht, hown⟩
  · intro y _
    simp only [set_temp]
    rw [List.getElem?_set_ne hne]
    exact ⟨ht, hown⟩

theorem tcg_reg_free_keeps (cfg : Config) (s : TCGContext) (reg t : Nat) (ts : TCGTemp)
    (ht : s.temps[t]? = some ts) (hv : ts.val_type ≠ TCGTempVal.REG) :
    Post (tcg_reg_free cfg s reg) (fun a => a.temps[t]? = some ts) := by
  unfold tcg_reg_free
  simp only [post_bind_iff, post_pure_iff, post_ite_iff, post_rd_iff]
  intro temp htemp
  refine ⟨fun _ => ?_, fun _ => ht⟩
  apply post_mono _ _ _ (tcg_reg_sync_keeps cfg s reg t ts ht hv)
  intro a ha
  simp only [post_rdi_iff, set_reg_to_temp, post_bind_iff, post_wr_iff, post_pure_iff]
  intro _ tq _ _
  simp only [set_temp]
  rw [List.getElem?_set_ne (ha.2 temp htemp)]
  exact ha.1

theorem reg_alloc_free_ok (s : TCGContext) (reg_ct : TCGRegSet) (order : List Nat) :
    Post (reg_alloc_free s reg_ct order) (fun o => ∀ r, o = some r →
      tcg_regset_test_reg reg_ct r = true ∧ s.reg_to_temp[r]? = some (-1)) := by
  induction order with
  | nil =>
    unfold reg_alloc_free
    rw [post_pure_iff]
    intro r hr
    cases hr
  | cons r rest ih =>
    unfold reg_alloc_free
    simp only [post_ite_iff, post_bind_iff, post_rd_iff, post_pure_iff]
    refine ⟨fun htest => ?_, fun _ => ih⟩
    intro x hx
    refine ⟨fun hx1 => ?_, fun _ => ih⟩
    intro r1 hr1
    cases hr1
    have : x = -1 := by simpa using hx1
    rw [this] at hx
    exact ⟨htest, hx⟩

theorem reg_alloc_spill_ok (reg_ct : TCGRegSet) (order : List Nat) (r : Nat)
    (h : reg_alloc_spill reg_ct order = some r) : tcg_regset_test_reg reg_ct r = true := by
  rw [reg_alloc_spill_eq] at h
  exact (find?_some_mem _ _ _ h).1

/-- what `tcg_reg_alloc` returns: a register of `reg1` minus `reg2` that has no owner;
a temp that was not in a register is as before -/
theorem tcg_reg_alloc_ok (cfg : Config) (s : TCGContext) (reg1 reg2 : TCGRegSet)
    (t : Nat) (ts : TCGTemp) (ht : s.temps[t]? = some ts)
    (hv : ts.val_type ≠ TCGTempVal.REG) :
    Post (tcg_reg_alloc cfg s reg1 reg2) (fun p =>
      tcg_regset_test_reg reg1 p.2 = true ∧ tcg_regset_test_reg reg2 p.2 = false
      ∧ p.1.reg_to_temp[p.2]? = some (-1) ∧ p.1.temps[t]? = some ts) := by
  unfold tcg_reg_alloc
  simp only [post_bind_iff]
  apply post_mono _ _ _ (reg_alloc_free_ok s _ _)
  intro o ho
  cases o with
  | some r =>
    simp only [post_pure_iff]
    obtain ⟨h1, h2⟩ := ho r rfl
    rw [andnot_test] at h1
    simp only [Bool.and_eq_true, Bool.not_eq_true'] at h1
    exact ⟨h1.1, h1.2, h2, ht⟩
  | none =>
    simp only []
    cases hsp : reg_alloc_spill (tcg_regset_andnot reg1 reg2) cfg.tcg_target_reg_alloc_order with
    | none => simp only [post_throw_iff]
    | some r =>
      simp only [post_bind_iff, post_pure_iff]
      have h1 := reg_alloc_spill_ok _ _ _ hsp
      rw [andnot_test] at h1
      simp only [Bool.and_eq_true, Bool.not_eq_true'] at h1
      have k1 := tcg_reg_free_keeps cfg s r t ts ht hv
      have k2 := tcg_reg_free_no_owner cfg s r
      rw [post_def] at k1 k2 ⊢
      intro a ha
      exact ⟨h1.1, h1.2, k2 a ha, k1 a ha⟩

theorem getElem?_lt_length {α : Type} (l : List α) (i : Nat) (a : α) (h : l[i]? = some a) :
    i < l.length := by
  rcases Nat.lt_or_ge i l.length with h1 | h1
  · exact h1
  · rw [List.getElem?_eq_none h1] at h
    cases h

theorem temp_sync_fixed (cfg : Config) (s : TCGContext) (t : Nat) (ts : TCGTemp)
    (ar : TCGRegSet) (ht : s.temps[t]? = some ts) (hf : ts.fixed_reg = true) :
    temp_sync cfg s t ar = Except.ok s := by
  unfold temp_sync
  rw [rd_of_getElem? _ _ _ ht, except_ok_bind]
  simp only [hf, Bool.not_true, Bool.false_eq_true, if_false]
  rfl

theorem temp_dead_fixed (s : TCGContext) (t : Nat) (ts : TCGTemp)
    (ht : s.temps[t]? = some ts) (hf : ts.fixed_reg = true) :
    temp_dead s t = Except.ok s := by
  unfold temp_dead
  rw [rd_of_getElem? _ _ _ ht, except_ok_bind]
  simp only [hf, Bool.not_true, Bool.false_eq_true, if_false]
  rfl

/-- `temp_dead` on a temp that is not `fixed_reg` and not in a register -/
theorem temp_dead_not_reg (s : TCGContext) (t : Nat) (ts : TCGTemp)
    (ht : s.temps[t]? = some ts) (hf : ts.fixed_reg = false)
    (hv : ts.val_type ≠ TCGTempVal.REG) :
    temp_dead s t = Except.ok { s with temps := s.temps.set t { ts with
      val_type := if t < s.nb_globals ∨ ts.temp_local = true then TCGTempVal.MEM
                  else TCGTempVal.DEAD } } := by
  unfold temp_dead
  rw [rd_of_getElem? _ _ _ ht, except_ok_bind]
  have hv' : (ts.val_type == TCGTempVal.REG) = false := by
    simp only [beq_eq_false_iff_ne, ne_eq]
    exact hv
  simp only [hf, Bool.not_false, if_true, hv', Bool.false_eq_true, if_false, except_ok_bind,
    Bool.or_eq_true, decide_eq_true_eq, set_temp, pure_bind]
  by_cases hc : t < s.nb_globals ∨ ts.temp_local = true
  · simp only [hc, if_true]
    rfl
  · simp only [hc, if_false]
    rfl

/-- `temp_dead` on a temp that is not `fixed_reg` and is in a register -/
theorem temp_dead_reg (s : TCGContext) (t : Nat) (ts : TCGTemp)
    (ht : s.temps[t]? = some ts) (hf : ts.fixed_reg = false)
    (hv : ts.val_type = TCGTempVal.REG) (hr : ts.reg < s.reg_to_temp.length) :
    temp_dead s t = Except.ok { s with
      temps := s.temps.set t { ts with
        val_type := if t < s.nb_globals ∨ ts.temp_local = true then TCGTempVal.MEM
                    else TCGTempVal.DEAD },
      reg_to_temp := s.reg_to_temp.set ts.reg (-1) } := by
  unfold temp_dead
  rw [rd_of_getElem? _ _ _ ht, except_ok_bind]
  simp only [hf, Bool.not_false, if_true, hv, beq_self_eq_true, set_reg_to_temp,
    wr_ok _ _ _ hr, except_ok_bind, Bool.or_eq_true, decide_eq_true_eq, set_temp, pure_bind]
  by_cases hc : t < s.nb_globals ∨ ts.temp_local = true
  · simp only [hc, if_true]
    rfl
  · simp only [hc, if_false]
    rfl

/-- `tcg_reg_sync` on a register whose owner is not coherent with memory and has no slot
yet: a slot is allocated and the register is stored to it -/
theorem tcg_reg_sync_new_slot (cfg : Config) (s : TCGContext) (r t : Nat) (ts : TCGTemp)
    (hr : s.reg_to_temp[r]? = some (t : Int)) (ht : s.temps[t]? = some ts)
    (hreg : ts.val_type = TCGTempVal.REG)
    (h1 : ts.mem_coherent = false) (h2 : ts.fixed_reg = false) (h3 : ts.mem_allocated = false)
    (hfit : ¬ (s.current_frame_offset + cfg.sizeof_tcg_target_long - 1
            - Int.emod (s.current_frame_offset + cfg.sizeof_tcg_target_long - 1)
                cfg.sizeof_tcg_target_long) + cfg.sizeof_tcg_target_long > s.frame_end) :
    tcg_reg_sync cfg s r
      = Except.ok { s with
          temps := s.temps.set t { ts with
            mem_offset := s.current_frame_offset + cfg.sizeof_tcg_target_long - 1
              - Int.emod (s.current_frame_offset + cfg.sizeof_tcg_target_long - 1)
                  cfg.sizeof_tcg_target_long,
            mem_reg := s.frame_reg, mem_allocated := true, mem_coherent := true },
          current_frame_offset := (s.current_frame_offset + cfg.sizeof_tcg_target_long - 1
            - Int.emod (s.current_frame_offset + cfg.sizeof_tcg_target_long - 1)
                cfg.sizeof_tcg_target_long) + cfg.sizeof_tcg_target_long,
          out := s.out ++ [HostInsn.st ts.type r s.frame_reg
            (s.current_frame_offset + cfg.sizeof_tcg_target_long - 1
              - Int.emod (s.current_frame_offset + cfg.sizeof_tcg_target_long - 1)
                  cfg.sizeof_tcg_target_long)],
          code_ptr := s.code_ptr + cfg.insn_size (HostInsn.st ts.type r s.frame_reg
            (s.current_frame_offset + cfg.sizeof_tcg_target_long - 1
              - Int.emod (s.current_frame_offset + cfg.sizeof_tcg_target_long - 1)
                  cfg.sizeof_tcg_target_long)) } := by
  have hrd : rd s.reg_to_temp r = Except.ok (t : Int) := rd_of_getElem? _ _ _ hr
  have hrdt : rd s.temps t = Except.ok ts := rd_of_getElem? _ _ _ ht
  have htl := getElem?_lt_length _ _ _ ht
  unfold tcg_reg_sync
  simp only [hrd, except_ok_bind, rdi, Int.natCast_nonneg, if_true, Int.toNat_ofNat, hrdt,
    hreg, bne_self_eq_false, Bool.false_eq_true, if_false, h1, h2, h3, Bool.not_false,
    Bool.and_self, temp_allocate_frame_eq cfg s t ts ht, if_neg hfit]
  simp only [rd, List.getElem?_set_self htl, pure, Except.pure, tcg_out, set_temp,
    bind, Except.bind, List.set_set]

/-- `tcg_reg_alloc_movi` on a destination that is not `fixed_reg`: the constant is
recorded, then `temp_sync` and `temp_dead` run as the two bits say -/
theorem movi_stages (cfg : Config) (s : TCGContext) (args : List TCGArg) (da sa : Nat)
    (a0 val : Nat) (ots : TCGTemp)
    (h0 : args[0]? = some a0) (h1 : args[1]? = some val) (ht : s.temps[a0]? = some ots)
    (hf : ots.fixed_reg = false)
    (hr : ots.val_type = TCGTempVal.REG → ots.reg < s.reg_to_temp.length) :
    tcg_reg_alloc_movi cfg s args da sa
      = (if NEED_SYNC_ARG sa 0 = true then
            temp_sync cfg { s with
              temps := s.temps.set a0 { ots with val_type := TCGTempVal.CONST, val := val },
              reg_to_temp := if ots.val_type = TCGTempVal.REG
                then s.reg_to_temp.set ots.reg (-1) else s.reg_to_temp } a0 s.reserved_regs
          else Except.ok { s with
              temps := s.temps.set a0 { ots with val_type := TCGTempVal.CONST, val := val },
              reg_to_temp := if ots.val_type = TCGTempVal.REG
                then s.reg_to_temp.set ots.reg (-1) else s.reg_to_temp })
        >>= fun s2 => if IS_DEAD_ARG da 0 = true then temp_dead s2 a0 else pure s2 := by
  unfold tcg_reg_alloc_movi
  rw [rd_of_getElem? _ _ _ h0, except_ok_bind, rd_of_getElem? _ _ _ ht, except_ok_bind,
    rd_of_getElem? _ _ _ h1, except_ok_bind]
  by_cases hv : ots.val_type = TCGTempVal.REG
  · have hw := wr_ok s.reg_to_temp ots.reg (-1 : Int) (hr hv)
    cases hs : NEED_SYNC_ARG sa 0 <;> cases hd : IS_DEAD_ARG da 0 <;>
      simp only [hf, hv, Bool.false_eq_true, if_false, if_true, beq_self_eq_true,
        set_reg_to_temp, hw, except_ok_bind, pure_bind, set_temp, bind_assoc]
  · have hv' : (ots.val_type == TCGTempVal.REG) = false := by
      simp only [beq_eq_false_iff_ne, ne_eq]
      exact hv
    cases hs : NEED_SYNC_ARG sa 0 <;> cases hd : IS_DEAD_ARG da 0 <;>
      simp only [hf, hv, hv', Bool.false_eq_true, if_false, if_true,
        except_ok_bind, pure_bind, set_temp, bind_assoc]

theorem movi_fixed (cfg : Config) (s : TCGContext) (args : List TCGArg) (da sa : Nat)
    (a0 val : Nat) (ots : TCGTemp)
    (h0 : args[0]? = some a0) (h1 : args[1]? = some val) (ht : s.temps[a0]? = some ots)
    (hf : ots.fixed_reg = true) :
    tcg_reg_alloc_movi cfg s args da sa
      = Except.ok (tcg_out cfg s (HostInsn.movi ots.type ots.reg val)) := by
  have ht' : (tcg_out cfg s (HostInsn.movi ots.type ots.reg val)).temps[a0]? = some ots := ht
  unfold tcg_reg_alloc_movi
  rw [rd_of_getElem? _ _ _ h0, except_ok_bind, rd_of_getElem? _ _ _ ht, except_ok_bind,
    rd_of_getElem? _ _ _ h1, except_ok_bind]
  cases hs : NEED_SYNC_ARG sa 0 <;> cases hd : IS_DEAD_ARG da 0 <;>
    simp only [hf, Bool.false_eq_true, if_false, if_true, except_ok_bind, pure_bind,
      temp_sync_fixed cfg _ a0 ots _ ht' hf, temp_dead_fixed _ a0 ots ht' hf] <;> rfl

/-- `temp_sync` on a constant that is not `fixed_reg`, when `tcg_reg_alloc` returns -/
theorem temp_sync_const (cfg : Config) (s s1 : TCGContext) (t reg : Nat) (ts : TCGTemp)
    (ar : TCGRegSet) (ht : s.temps[t]? = some ts) (hf : ts.fixed_reg = false)
    (hv : ts.val_type = TCGTempVal.CONST)
    (hal : tcg_reg_alloc cfg s (cfg.tcg_target_available_regs ts.type) ar
      = Except.ok (s1, reg)) :
    s1.temps[t]? = some ts ∧ reg < s1.reg_to_temp.length
    ∧ tcg_regset_test_reg (cfg.tcg_target_available_regs ts.type) reg = true
    ∧ tcg_regset_test_reg ar reg = false
    ∧ ∃ S : TCGContext, temp_sync cfg s t ar = tcg_reg_sync cfg S reg
      ∧ S.temps = s1.temps.set t { ts with reg := reg, val_type := TCGTempVal.REG,
                                           mem_coherent := false }
      ∧ S.reg_to_temp = s1.reg_to_temp.set reg (t : Int)
      ∧ S.out = s1.out ++ [HostInsn.movi ts.type reg ts.val]
      ∧ S.nb_globals = s1.nb_globals
      ∧ S.current_frame_offset = s1.current_frame_offset
      ∧ S.frame_end = s1.frame_end ∧ S.frame_reg = s1.frame_reg := by
  have hne : ts.val_type ≠ TCGTempVal.REG := by rw [hv]; decide
  obtain ⟨k1, k2, k3, k4⟩ :=
    (post_def _ _).mp (tcg_reg_alloc_ok cfg s _ ar t ts ht hne) (s1, reg) hal
  have hlt := getElem?_lt_length _ _ _ k3
  refine ⟨k4, hlt, k1, k2, ?_⟩
  refine Exists.intro ?S ⟨?e, ?r⟩
  case e =>
    unfold temp_sync
    rw [rd_of_getElem? _ _ _ ht, except_ok_bind]
    simp only [hf, Bool.not_false, if_true, hv, hal, except_ok_bind, rd_of_getElem? _ _ _ k4,
      set_reg_to_temp, set_temp]
    rw [wr_ok _ _ _ hlt, except_ok_bind, pure_bind]
    exact rfl
  case r =>
    refine ⟨?_, rfl, rfl, rfl, rfl, rfl, rfl⟩
    simp only [tcg_out]
    rw [hf]

/-- `tcg_reg_sync` on the register of a temp that is not coherent with memory, followed
by `temp_dead` when `dead` is set: one store to the slot of the temp, which is allocated
first when the temp has none -/
theorem sync_then_dead (cfg : Config) (S : TCGContext) (t reg : Nat) (ts : TCGTemp)
    (dead : Bool)
    (hr : S.reg_to_temp[reg]? = some (t : Int)) (ht : S.temps[t]? = some ts)
    (hreg : ts.val_type = TCGTempVal.REG) (hrr : ts.reg = reg)
    (hc : ts.mem_coherent = false) (hf : ts.fixed_reg = false)
    (hslot : ts.mem_allocated = true
      ∨ ¬ (S.current_frame_offset + cfg.sizeof_tcg_target_long - 1
            - Int.emod (S.current_frame_offset + cfg.sizeof_tcg_target_long - 1)
                cfg.sizeof_tcg_target_long) + cfg.sizeof_tcg_target_long > S.frame_end) :
    Returns (tcg_reg_sync cfg S reg
        >>= fun s2 => if dead = true then temp_dead s2 t else pure s2)
      (fun s2 => ∃ ts2, s2.temps[t]? = some ts2
        ∧ s2.out = S.out ++ [HostInsn.st ts.type reg ts2.mem_reg ts2.mem_offset]
        ∧ ts2.mem_coherent = true ∧ ts2.mem_allocated = true ∧ ts2.val = ts.val
        ∧ ts2.reg = reg
        ∧ ts2.val_type = (if dead = true then
            (if t < S.nb_globals ∨ ts.temp_local = true then TCGTempVal.MEM
             else TCGTempVal.DEAD) else TCGTempVal.REG)
        ∧ s2.reg_to_temp[reg]? = some (if dead = true then (-1 : Int) else (t : Int))
        ∧ (ts.mem_allocated = true →
            ts2.mem_reg = ts.mem_reg ∧ ts2.mem_offset = ts.mem_offset)
        ∧ (ts.mem_allocated = false →
            ts2.mem_reg = S.frame_reg
            ∧ ts2.mem_offset = S.current_frame_offset + cfg.sizeof_tcg_target_long - 1
                - Int.emod (S.current_frame_offset + cfg.sizeof_tcg_target_long - 1)
                    cfg.sizeof_tcg_target_long)) := by
  have htl := getElem?_lt_length _ _ _ ht
  have hlt := getElem?_lt_length _ _ _ hr
  cases hma : ts.mem_allocated
  · have hfit := hslot.resolve_left (by rw [hma]; decide)
    rw [tcg_reg_sync_new_slot cfg S reg t ts hr ht hreg hc hf hma hfit, except_ok_bind]
    cases dead
    · simp only [Bool.false_eq_true, if_false]
      rw [returns_pure_iff]
      refine ⟨_, List.getElem?_set_self htl, rfl, rfl, rfl, rfl, hrr, hreg, hr, ?_,
        fun _ => ⟨rfl, rfl⟩⟩
      intro h
      cases h
    · simp only [if_true]
      rw [temp_dead_reg _ t _ (List.getElem?_set_self htl) (by exact hf) (by exact hreg)
        (by rw [hrr]; exact hlt)]
      rw [returns_of_eq _ _ _ rfl]
      simp only [List.set_set]
      refine ⟨_, List.getElem?_set_self htl, rfl, rfl, rfl, rfl, hrr, rfl, ?_, ?_,
        fun _ => ⟨rfl, rfl⟩⟩
      · rw [hrr]
        exact List.getElem?_set_self hlt
      · intro h
        cases h
  · rw [tcg_reg_sync_store cfg S reg t ts hr ht hreg hc hf hma, except_ok_bind]
    cases dead
    · simp only [Bool.false_eq_true, if_false]
      rw [returns_pure_iff]
      simp only [set_temp, tcg_out]
      exact ⟨_, List.getElem?_set_self htl, rfl, rfl, hma, rfl, hrr, hreg, hr,
        fun _ => ⟨rfl, rfl⟩, fun h => by cases h⟩
    · simp only [if_true]
      rw [temp_dead_reg _ t _ (List.getElem?_set_self (by simpa [set_temp, tcg_out] using htl))
        (by exact hf) (by exact hreg) (by rw [hrr]; simpa [set_temp, tcg_out] using hlt)]
      rw [returns_of_eq _ _ _ rfl]
      simp only [set_temp, tcg_out, List.set_set]
      refine ⟨_, List.getElem?_set_self htl, rfl, rfl, hma, rfl, hrr, rfl, ?_,
        fun _ => ⟨rfl, rfl⟩, fun h => by cases h⟩
      rw [hrr]
      exact List.getElem?_set_self hlt

/-- C26: for `tcg_reg_alloc_movi` with destination `args[0] = a0`, a temp of the context,
and value `args[1] = val`.
On a `fixed_reg` destination one host movi into the fixed register is emitted and nothing
else changes (no constant is recorded).
On a destination that is not `fixed_reg` and whose sync bit is clear no host code is
emitted: the destination gets `val`, becomes CONST, or dead (MEM for a global or a local
temp, else DEAD) if its dead bit is set, and the register it owned is released.
If the sync bit is set and `tcg_reg_alloc`, called on the state with the constant
recorded, returns a register, and the temp has a slot or the frame has room for one, then
`tcg_reg_alloc_movi` returns; the register is an available register outside
`reserved_regs`; after what `tcg_reg_alloc` emitted come one host movi of `val` into the
register and one store of the register to the slot of the temp; the temp is left
`mem_coherent` with its slot allocated, in REG state owning the register, or dead with
the register released if its dead bit is set. -/
theorem movi_alloc_spec (cfg : Config) (s : TCGContext) (args : List TCGArg) (da sa : Nat)
    (a0 val : Nat) (ots : TCGTemp)
    (h0 : args[0]? = some a0) (h1 : args[1]? = some val) (ht : s.temps[a0]? = some ots) :
    (ots.fixed_reg = true →
      tcg_reg_alloc_movi cfg s args da sa
        = Except.ok (tcg_out cfg s (HostInsn.movi ots.type ots.reg val)))
    ∧ (ots.fixed_reg = false → NEED_SYNC_ARG sa 0 = false →
        (ots.val_type = TCGTempVal.REG → ots.reg < s.reg_to_temp.length) →
        tcg_reg_alloc_movi cfg s args da sa
          = Except.ok { s with
              temps := s.temps.set a0 { ots with
                val_type := if IS_DEAD_ARG da 0 = true then
                    (if a0 < s.nb_globals ∨ ots.temp_local = true then TCGTempVal.MEM
                     else TCGTempVal.DEAD)
                  else TCGTempVal.CONST,
                val := val },
              reg_to_temp := if ots.val_type = TCGTempVal.REG
                then s.reg_to_temp.set ots.reg (-1) else s.reg_to_temp })
    ∧ (ots.fixed_reg = false → NEED_SYNC_ARG sa 0 = true →
        (ots.val_type = TCGTempVal.REG → ots.reg < s.reg_to_temp.length) →
        ∀ (s1 : TCGContext) (reg : Nat),
        tcg_reg_alloc cfg { s with
            temps := s.temps.set a0 { ots with val_type := TCGTempVal.CONST, val := val },
            reg_to_temp := if ots.val_type = TCGTempVal.REG
              then s.reg_to_temp.set ots.reg (-1) else s.reg_to_temp }
          (cfg.tcg_target_available_regs ots.type) s.reserved_regs = Except.ok (s1, reg) →
        (ots.mem_allocated = true
          ∨ ¬ (s1.current_frame_offset + cfg.sizeof_tcg_target_long - 1
                - Int.emod (s1.current_frame_offset + cfg.sizeof_tcg_target_long - 1)
                    cfg.sizeof_tcg_target_long) + cfg.sizeof_tcg_target_long > s1.frame_end) →
        tcg_regset_test_reg (cfg.tcg_target_available_regs ots.type) reg = true
        ∧ tcg_regset_test_reg s.reserved_regs reg = false
        ∧ Returns (tcg_reg_alloc_movi cfg s args da sa) (fun s2 =>
            ∃ ts2, s2.temps[a0]? = some ts2
              ∧ s2.out = s1.out ++ [HostInsn.movi ots.type reg val,
                  HostInsn.st ots.type reg ts2.mem_reg ts2.mem_offset]
              ∧ ts2.mem_coherent = true ∧ ts2.mem_allocated = true ∧ ts2.val = val
              ∧ ts2.reg = reg
              ∧ ts2.val_type = (if IS_DEAD_ARG da 0 = true then
                  (if a0 < s.nb_globals ∨ ots.temp_local = true then TCGTempVal.MEM
                   else TCGTempVal.DEAD) else TCGTempVal.REG)
              ∧ s2.reg_to_temp[reg]? = some (if IS_DEAD_ARG da 0 = true then (-1 : Int)
                  else (a0 : Int))
              ∧ (ots.mem_allocated = true →
                  ts2.mem_reg = ots.mem_reg ∧ ts2.mem_offset = ots.mem_offset)
              ∧ (ots.mem_allocated = false →
                  ts2.mem_reg = s1.frame_reg
                  ∧ ts2.mem_offset = s1.current_frame_offset + cfg.sizeof_tcg_target_long - 1
                      - Int.emod (s1.current_frame_offset + cfg.sizeof_tcg_target_long - 1)
                          cfg.sizeof_tcg_target_long))) := by
  have htl := getElem?_lt_length _ _ _ ht
  refine ⟨fun hf => movi_fixed cfg s args da sa a0 val ots h0 h1 ht hf, ?_, ?_⟩
  · intro hf hs hr
    rw [movi_stages cfg s args da sa a0 val ots h0 h1 ht hf hr]
    simp only [hs, Bool.false_eq_true, if_false, except_ok_bind]
    cases hd : IS_DEAD_ARG da 0
    · simp only [Bool.false_eq_true, if_false]
      rfl
    · simp only [if_true]
      rw [temp_dead_not_reg _ a0 { ots with val_type := TCGTempVal.CONST, val := val }
        (List.getElem?_set_self htl) hf (by intro h; cases h)]
      simp only [List.set_set]
  · intro hf hs hr s1 reg hal hslot
    obtain ⟨k1, k2, k3, k4, S, k5, q1, q2, q3, q4, q5, q6, q7⟩ := temp_sync_const cfg _ s1 a0 reg
      { ots with val_type := TCGTempVal.CONST, val := val } s.reserved_regs
      (List.getElem?_set_self htl) hf rfl hal
    have ns : s1.nb_globals = s.nb_globals := by
      refine (post_def _ _).mp (tcg_reg_alloc_frame cfg _ _ _
        (fun p => p.1.nb_globals = s.nb_globals) ?_) (s1, reg) hal
      intro a ha
      have hc := congrArg TCGContext.nb_globals ha
      exact hc
    refine ⟨k3, k4, ?_⟩
    rw [movi_stages cfg s args da sa a0 val ots h0 h1 ht hf hr]
    simp only [hs, if_true]
    rw [k5]
    have htl1 := getElem?_lt_length _ _ _ k1
    have := sync_then_dead cfg S a0 reg
      { ots with val_type := TCGTempVal.REG, val := val, reg := reg, mem_coherent := false }
      (IS_DEAD_ARG da 0)
      (by rw [q2]; exact List.getElem?_set_self k2)
      (by rw [q1]; exact List.getElem?_set_self htl1) rfl rfl rfl hf
      (by rw [q5, q6]; exact hslot)
    apply returns_mono _ _ _ this
    rintro a ⟨ts2, e1, e2, e3, e4, e5, e6, e7, e8, e9, e10⟩
    refine ⟨ts2, e1, ?_, e3, e4, e5, e6, ?_, e8, e9, ?_⟩
    · rw [e2, q3]
      simp only [List.append_assoc, List.singleton_append]
    · rw [e7, q4, ns]
    · rw [← q5, ← q7]
      exact e10

theorem movi_alloc_spec_witness :
    tcg_reg_alloc_movi exCfg (exSpill 8) [1, 5] 0 0 = Except.ok exMoviConst
    ∧ tcg_reg_alloc exCfg exMoviConst (exCfg.tcg_target_available_regs TCGType.I32)
        (exSpill 8).reserved_regs = Except.ok (exMoviConst, 0)
    ∧ Returns (tcg_reg_alloc_movi exCfg (exSpill 8) [1, 5] 0 1) (fun s2 =>
        s2.out = [HostInsn.movi TCGType.I32 0 5, HostInsn.st TCGType.I32 0 7 56]) :=
  ⟨(movi_alloc_spec exCfg (exSpill 8) [1, 5] 0 0 1 5
      { exTemp false 0 with val_type := TCGTempVal.REG } rfl rfl rfl).2.1 rfl rfl
      (fun _ => by decide),
   by decide,
   returns_mono _ _ _
     ((movi_alloc_spec exCfg (exSpill 8) [1, 5] 0 1 1 5
        { exTemp false 0 with val_type := TCGTempVal.REG } rfl rfl rfl).2.2 rfl rfl
        (fun _ => by decide) exMoviConst 0 (by decide) (Or.inr (by decide))).2.2
     (fun a h => by
       obtain ⟨ts2, _, e2, _, _, _, _, _, _, _, e10⟩ := h
       obtain ⟨m1, m2⟩ := e10 rfl
       rw [e2, m1, m2]
       decide)⟩


/-! ### What the register allocator keeps of each temp -/

theorem ev_refl (s : TCGContext) : Ev s s := by
  refine ⟨rfl, rfl, rfl, ?_⟩
  intro i t0 ts h0 h1
  rw [h0] at h1
  cases h1
  exact ⟨rfl, rfl, rfl, rfl, fun h => h, fun _ h => h⟩

theorem rel_of_ev (s0 b : TCGContext) (i : Nat) (ts : TCGTemp)
    (hr : b.temps[i]? = some ts) (hb : Ev s0 b) : Rel s0 i ts :=
  ⟨fun t0 h0 => hb.le i t0 ts h0 hr⟩

theorem rel_upd (s0 : TCGContext) (i : Nat) (ts ts1 : TCGTemp) (h : Rel s0 i ts)
    (h1 : ts1.fixed_reg = ts.fixed_reg) (h2 : ts1.temp_local = ts.temp_local)
    (h3 : ts1.type = ts.type) (h4 : ts1.base_type = ts.base_type)
    (h5 : ts.mem_allocated = true → ts1.mem_allocated = true)
    (h6 : i < s0.nb_globals → ts1.val_type = TCGTempVal.DEAD →
      ts.val_type = TCGTempVal.DEAD) : Rel s0 i ts1 := by
  constructor
  intro t0 h0
  obtain ⟨a1, a2, a3, a4, a5, a6⟩ := h.le t0 h0
  exact ⟨h1.trans a1, h2.trans a2, h3.trans a3, h4.trans a4, fun x => h5 (a5 x),
    fun x y => a6 x (h6 x y)⟩

theorem rel_mk (s0 : TCGContext) (i : Nat) (ts : TCGTemp) (vt : TCGTempVal) (reg val mr : Nat)
    (mo : Int) (mc ma : Bool) (h : Rel s0 i ts)
    (h5 : ts.mem_allocated = true → ma = true)
    (h6 : i < s0.nb_globals → vt = TCGTempVal.DEAD → ts.val_type = TCGTempVal.DEAD) :
    Rel s0 i { base_type := ts.base_type, type := ts.type, val_type := vt, reg := reg,
               val := val, mem_reg := mr, mem_offset := mo, fixed_reg := ts.fixed_reg,
               mem_coherent := mc, mem_allocated := ma, temp_local := ts.temp_local,
               temp_allocated := ts.temp_allocated } :=
  rel_upd s0 i ts _ h rfl rfl rfl rfl h5 h6

theorem ev_set_temp (s0 a : TCGContext) (i : Nat) (ts1 : TCGTemp)
    (ha : Ev s0 a) (hr : Rel s0 i ts1) : Ev s0 (set_temp a i ts1) := by
  obtain ⟨e1, e2, e3, e4⟩ := ha
  refine ⟨e1, e2, ?_, ?_⟩
  · simp only [set_temp, List.length_set]
    exact e3
  · intro j t0 ts h0 h1
    simp only [set_temp] at h1
    by_cases hij : i = j
    · subst hij
      have hlt : i < a.temps.length := by
        rw [e3]
        exact getElem?_lt_length _ _ _ h0
      rw [List.getElem?_set_self hlt] at h1
      cases h1
      exact hr.le t0 h0
    · rw [List.getElem?_set_ne hij] at h1
      exact e4 j t0 ts h0 h1

theorem ev_tcg_out (cfg : Config) (s0 a : TCGContext) (i : HostInsn) (ha : Ev s0 a) :
    Ev s0 (tcg_out cfg a i) := ⟨ha.globals, ha.ntemps, ha.len, ha.le⟩

theorem ev_regs (s0 a : TCGContext) (r : List Int) (ha : Ev s0 a) :
    Ev s0 { a with reg_to_temp := r } := ⟨ha.globals, ha.ntemps, ha.len, ha.le⟩

theorem ev_cfo (s0 a : TCGContext) (x : Int) (ha : Ev s0 a) :
    Ev s0 { a with current_frame_offset := x } := ⟨ha.globals, ha.ntemps, ha.len, ha.le⟩

theorem ev_trans (s0 s1 s2 : TCGContext) (h1 : Ev s0 s1) (h2 : Ev s1 s2) : Ev s0 s2 := by
  obtain ⟨a1, a2, a3, a4⟩ := h1
  obtain ⟨b1, b2, b3, b4⟩ := h2
  refine ⟨b1.trans a1, b2.trans a2, b3.trans a3, ?_⟩
  intro i t0 ts h0 hts
  have hlt : i < s1.temps.length := by
    rw [a3]
    exact getElem?_lt_length _ _ _ h0
  obtain ⟨c1, c2, c3, c4, c5, c6⟩ := a4 i t0 _ h0 (List.getElem?_eq_getElem hlt)
  obtain ⟨d1, d2, d3, d4, d5, d6⟩ := b4 i _ ts (List.getElem?_eq_getElem hlt) hts
  rw [a1] at d6
  exact ⟨d1.trans c1, d2.trans c2, d3.trans c3, d4.trans c4, fun x => d5 (c5 x),
    fun x y => c6 x (d6 x y)⟩

theorem set_reg_to_temp_ev (s0 s : TCGContext) (r : Nat) (v : Int) (hs : Ev s0 s)
    (Q : TCGContext → Prop) (h : ∀ a, Ev s0 a → Q a) : Post (set_reg_to_temp s r v) Q := by
  unfold set_reg_to_temp
  simp only [post_bind_iff, post_pure_iff, post_wr_iff]
  intro _
  exact h _ (ev_regs _ _ _ hs)

theorem temp_allocate_frame_ev (cfg : Config) (s0 s : TCGContext) (t : Nat) (hs : Ev s0 s)
    (Q : TCGContext → Prop) (h : ∀ a, Ev s0 a → Q a) :
    Post (temp_allocate_frame cfg s t) Q := by
  unfold temp_allocate_frame
  simp only [post_bind_iff, post_pure_iff, post_throw_iff, post_ite_iff, post_rd_iff]
  intro ts hts
  refine ⟨fun _ => trivial, fun _ => ?_⟩
  apply h
  apply ev_cfo
  apply ev_set_temp _ _ _ _ hs
  exact rel_upd _ _ _ _ (rel_of_ev _ _ _ _ hts hs) rfl rfl rfl rfl (fun _ => rfl)
    (fun _ x => x)


theorem tcg_reg_sync_ev (cfg : Config) (s0 s : TCGContext) (reg : Nat) (hs : Ev s0 s)
    (Q : TCGContext → Prop) (h : ∀ a, Ev s0 a → Q a) :
    Post (tcg_reg_sync cfg s reg) Q := by
  unfold tcg_reg_sync
  simp only [post_bind_iff, post_pure_iff, post_throw_iff, post_ite_iff, post_rd_iff,
    post_rdi_iff, post_wr_iff, post_rdo_iff]
  repeat' first
    | intro _
    | apply And.intro
    | exact True.intro
    | apply temp_allocate_frame_ev cfg s0
    | apply h
    | assumption
    | apply ev_tcg_out
    | apply ev_set_temp
    | (apply rel_mk; apply rel_of_ev; assumption; rotate_left;
       (intro hx; first | exact hx | rfl);
       (intro _ hx; first | exact hx | cases hx))

theorem tcg_reg_free_ev (cfg : Config) (s0 s : TCGContext) (reg : Nat) (hs : Ev s0 s)
    (Q : TCGContext → Prop) (h : ∀ a, Ev s0 a → Q a) :
    Post (tcg_reg_free cfg s reg) Q := by
  unfold tcg_reg_free
  simp only [post_bind_iff, post_pure_iff, post_throw_iff, post_ite_iff, post_rd_iff,
    post_rdi_iff]
  intro temp _
  refine ⟨fun _ => ?_, fun _ => h _ hs⟩
  apply tcg_reg_sync_ev cfg s0 s reg hs
  intro a ha _ ts hts
  apply set_reg_to_temp_ev s0
  · apply ev_set_temp _ _ _ _ ha
    exact rel_upd _ _ _ _ (rel_of_ev _ _ _ _ hts ha) rfl rfl rfl rfl (fun x => x)
      (fun _ x => by cases x)
  · exact h

theorem tcg_reg_alloc_ev (cfg : Config) (s0 s : TCGContext) (reg1 reg2 : TCGRegSet)
    (hs : Ev s0 s) (Q : TCGContext × Nat → Prop) (h : ∀ a, Ev s0 a.1 → Q a) :
    Post (tcg_reg_alloc cfg s reg1 reg2) Q := by
  unfold tcg_reg_alloc
  simp only [post_bind_iff, post_pure_iff, post_throw_iff, post_ite_iff, post_rd_iff,
    post_rdi_iff]
  rw [post_def]
  intro r _
  cases r with
  | some reg =>
    simp only [post_pure_iff]
    exact h _ hs
  | none =>
    simp only []
    split
    · simp only [post_bind_iff, post_pure_iff]
      apply tcg_reg_free_ev cfg s0 s _ hs
      intro a ha
      exact h _ ha
    · simp only [post_throw_iff]

theorem temp_dead_leaf (s0 a : TCGContext) (temp : Nat) (ts : TCGTemp) (ha : Ev s0 a)
    (hr : Rel s0 temp ts) :
    ((decide (temp < a.nb_globals) || ts.temp_local) = true →
      Ev s0 (set_temp a temp { ts with val_type := TCGTempVal.MEM }))
    ∧ (¬ (decide (temp < a.nb_globals) || ts.temp_local) = true →
      Ev s0 (set_temp a temp { ts with val_type := TCGTempVal.DEAD })) := by
  constructor
  · intro _
    apply ev_set_temp _ _ _ _ ha
    exact rel_upd _ _ _ _ hr rfl rfl rfl rfl (fun x => x) (fun _ x => by cases x)
  · intro hc
    apply ev_set_temp _ _ _ _ ha
    refine rel_upd _ _ _ _ hr rfl rfl rfl rfl (fun x => x) ?_
    intro hlt _
    exfalso
    apply hc
    rw [ha.globals]
    simp [hlt]

theorem temp_dead_ev (s0 s : TCGContext) (temp : Nat) (hs : Ev s0 s)
    (Q : TCGContext → Prop) (h : ∀ a, Ev s0 a → Q a) :
    Post (temp_dead s temp) Q := by
  unfold temp_dead
  simp only [post_bind_iff, post_pure_iff, post_throw_iff, post_ite_iff, post_rd_iff]
  intro ts hts
  have hr := rel_of_ev _ _ _ _ hts hs
  refine ⟨fun _ => ⟨fun _ => ?_, fun _ => ?_⟩, fun _ => h _ hs⟩
  · apply set_reg_to_temp_ev s0 s _ _ hs
    intro a ha
    exact ⟨fun hc => h _ ((temp_dead_leaf s0 a temp ts ha hr).1 hc),
      fun hc => h _ ((temp_dead_leaf s0 a temp ts ha hr).2 hc)⟩
  · exact ⟨fun hc => h _ ((temp_dead_leaf s0 s temp ts hs hr).1 hc),
      fun hc => h _ ((temp_dead_leaf s0 s temp ts hs hr).2 hc)⟩

theorem temp_sync_ev (cfg : Config) (s0 s : TCGContext) (temp : Nat) (ar : TCGRegSet)
    (hs : Ev s0 s) (Q : TCGContext → Prop) (h : ∀ a, Ev s0 a → Q a) :
    Post (temp_sync cfg s temp ar) Q := by
  unfold temp_sync
  simp only [post_bind_iff, post_pure_iff, post_throw_iff, post_ite_iff, post_rd_iff,
    post_rdi_iff]
  intro ts _
  refine ⟨fun _ => ?_, fun _ => h _ hs⟩
  cases ts.val_type <;>
    simp only [post_bind_iff, post_pure_iff, post_throw_iff, post_ite_iff, post_rd_iff]
  · exact h _ hs
  · exact tcg_reg_sync_ev cfg s0 s _ hs Q h
  · exact h _ hs
  · apply tcg_reg_alloc_ev cfg s0 s _ _ hs
    intro p hp ts1 hts1
    apply set_reg_to_temp_ev s0
    · apply ev_set_temp _ _ _ _ hp
      exact rel_upd _ _ _ _ (rel_of_ev _ _ _ _ hts1 hp) rfl rfl rfl rfl (fun x => x)
        (fun _ x => by cases x)
    · intro a ha
      exact tcg_reg_sync_ev cfg s0 _ _ (ev_tcg_out cfg s0 a _ ha) Q h

theorem tcg_reg_alloc_movi_ev (cfg : Config) (s0 s : TCGContext) (args : List TCGArg)
    (da sa : Nat) (hs : Ev s0 s) (Q : TCGContext → Prop) (h : ∀ a, Ev s0 a → Q a) :
    Post (tcg_reg_alloc_movi cfg s args da sa) Q := by
  unfold tcg_reg_alloc_movi
  simp only [post_bind_iff, post_pure_iff, post_throw_iff, post_ite_iff, post_rd_iff,
    post_rdi_iff, post_wr_iff, post_rdo_iff]
  repeat' first
    | intro _
    | apply And.intro
    | exact True.intro
    | apply temp_sync_ev cfg s0
    | apply temp_dead_ev s0
    | apply set_reg_to_temp_ev s0
    | apply h
    | assumption
    | apply ev_tcg_out
    | apply ev_set_temp
    | (apply rel_mk; apply rel_of_ev; assumption; rotate_left;
       (intro hx; first | exact hx | rfl);
       (intro _ hx; first | exact hx | cases hx))

/-- `tcg_reg_alloc_mov` on a source that needs no load is its second part -/
theorem mov_no_load (cfg : Config) (s : TCGContext) (args : List TCGArg) (da sa : Nat)
    (a0 a1 : Nat) (ots ts : TCGTemp)
    (h0 : args[0]? = some a0) (h1 : args[1]? = some a1)
    (hots : s.temps[a0]? = some ots) (hts : s.temps[a1]? = some ts)
    (hc : (((NEED_SYNC_ARG sa 0 || ots.fixed_reg) && ts.val_type != TCGTempVal.REG)
      || ts.val_type == TCGTempVal.MEM) = false) :
    tcg_reg_alloc_mov cfg s args da sa
      = mov_finish cfg s a0 a1 ots.type s.reserved_regs da sa := by
  unfold tcg_reg_alloc_mov
  rw [rd_of_getElem? _ _ _ h0, except_ok_bind, rd_of_getElem? _ _ _ h1, except_ok_bind]
  simp only []
  rw [rd_of_getElem? _ _ _ hots, except_ok_bind, rd_of_getElem? _ _ _ hts, except_ok_bind]
  rw [if_neg (by rw [hc]; decide)]
  rfl

/-- `tcg_reg_alloc_mov` on a source that is loaded first: the load, then the second
part -/
theorem mov_with_load (cfg : Config) (s : TCGContext) (args : List TCGArg) (da sa : Nat)
    (a0 a1 : Nat) (ots ts : TCGTemp)
    (h0 : args[0]? = some a0) (h1 : args[1]? = some a1)
    (hots : s.temps[a0]? = some ots) (hts : s.temps[a1]? = some ts)
    (hc : (((NEED_SYNC_ARG sa 0 || ots.fixed_reg) && ts.val_type != TCGTempVal.REG)
      || ts.val_type == TCGTempVal.MEM) = true) :
    tcg_reg_alloc_mov cfg s args da sa
      = mov_load cfg s a1 ts.type s.reserved_regs
          >>= fun s1 => mov_finish cfg s1 a0 a1 ots.type s.reserved_regs da sa := by
  unfold tcg_reg_alloc_mov mov_load
  rw [rd_of_getElem? _ _ _ h0, except_ok_bind, rd_of_getElem? _ _ _ h1, except_ok_bind]
  simp only []
  rw [rd_of_getElem? _ _ _ hots, except_ok_bind, rd_of_getElem? _ _ _ hts, except_ok_bind]
  rw [if_pos hc]
  simp only [bind_assoc, pure_bind]
  rfl

theorem post_const {α : Type} (x : Except Fault α) (P : Prop) (h : P) :
    Post x (fun _ => P) := by
  rw [post_def]
  intro _ _
  exact h

/-- when `tcg_reg_alloc_mov` returns, its two arguments are temps of the context -/
theorem mov_reads (cfg : Config) (s : TCGContext) (args : List TCGArg) (da sa : Nat)
    (r : TCGContext) (hr : tcg_reg_alloc_mov cfg s args da sa = Except.ok r) :
    ∃ a0 a1 ots ts, args[0]? = some a0 ∧ args[1]? = some a1
      ∧ s.temps[a0]? = some ots ∧ s.temps[a1]? = some ts := by
  have : Post (tcg_reg_alloc_mov cfg s args da sa) (fun _ =>
      ∃ a0 a1 ots ts, args[0]? = some a0 ∧ args[1]? = some a1
        ∧ s.temps[a0]? = some ots ∧ s.temps[a1]? = some ts) := by
    unfold tcg_reg_alloc_mov
    rw [post_bind_iff, post_rd_iff]
    intro a0 h0
    rw [post_bind_iff, post_rd_iff]
    intro a1 h1
    simp only []
    rw [post_bind_iff, post_rd_iff]
    intro ots hots
    rw [post_bind_iff, post_rd_iff]
    intro ts hts
    exact post_const _ _ ⟨a0, a1, ots, ts, h0, h1, hots, hts⟩
  exact (post_def _ _).mp this r hr

theorem mov_load_ev (cfg : Config) (s0 s : TCGContext) (a1 : TCGArg) (itype : TCGType)
    (ar : TCGRegSet) (hs : Ev s0 s) (Q : TCGContext → Prop) (h : ∀ a, Ev s0 a → Q a) :
    Post (mov_load cfg s a1 itype ar) Q := by
  unfold mov_load
  simp only [post_bind_iff, post_pure_iff, post_rd_iff]
  apply tcg_reg_alloc_ev cfg s0 s _ _ hs
  intro p hp x hx
  have hrel := rel_of_ev _ _ _ _ hx hp
  by_cases c1 : (x.val_type == TCGTempVal.MEM) = true
  · simp only [if_pos c1]
    apply set_reg_to_temp_ev s0 _ _ _ (ev_tcg_out cfg s0 _ _ hp)
    intro a ha
    apply h
    apply ev_set_temp _ _ _ _ ha
    exact rel_upd _ _ _ _ hrel rfl rfl rfl rfl (fun y => y) (fun _ y => by cases y)
  · by_cases c2 : (x.val_type == TCGTempVal.CONST) = true
    · simp only [if_neg c1, if_pos c2]
      apply set_reg_to_temp_ev s0 _ _ _ (ev_tcg_out cfg s0 _ _ hp)
      intro a ha
      apply h
      apply ev_set_temp _ _ _ _ ha
      exact rel_upd _ _ _ _ hrel rfl rfl rfl rfl (fun y => y) (fun _ y => by cases y)
    · simp only [if_neg c1, if_neg c2]
      apply set_reg_to_temp_ev s0 _ _ _ hp
      intro a ha
      apply h
      apply ev_set_temp _ _ _ _ ha
      exact rel_upd _ _ _ _ hrel rfl rfl rfl rfl (fun y => y) (fun _ y => by cases y)

set_option maxHeartbeats 4000000 in
theorem mov_finish_ev (cfg : Config) (s0 s : TCGContext) (a0 a1 : TCGArg) (otype : TCGType)
    (ar : TCGRegSet) (da sa : Nat) (hs : Ev s0 s) (Q : TCGContext → Prop)
    (h : ∀ a, Ev s0 a → Q a) :
    Post (mov_finish cfg s a0 a1 otype ar da sa) Q := by
  unfold mov_finish
  simp only [post_bind_iff, post_pure_iff, post_throw_iff, post_ite_iff, post_rd_iff,
    post_rdi_iff, post_wr_iff, post_rdo_iff]
  repeat' first
    | intro _
    | apply And.intro
    | exact True.intro
    | apply tcg_reg_alloc_ev cfg s0
    | apply tcg_reg_sync_ev cfg s0
    | apply temp_allocate_frame_ev cfg s0
    | apply temp_dead_ev s0
    | apply set_reg_to_temp_ev s0
    | apply h
    | assumption
    | apply ev_tcg_out
    | apply ev_set_temp
    | (apply rel_mk; apply rel_of_ev; assumption; rotate_left;
       (intro hx; first | exact hx | rfl);
       (intro _ hx; first | exact hx | cases hx))
    | simp only [post_bind_iff, post_pure_iff, post_throw_iff, post_ite_iff, post_rd_iff]
    | split

theorem tcg_reg_alloc_mov_ev (cfg : Config) (s0 s : TCGContext) (args : List TCGArg)
    (da sa : Nat) (hs : Ev s0 s) (Q : TCGContext → Prop) (h : ∀ a, Ev s0 a → Q a) :
    Post (tcg_reg_alloc_mov cfg s args da sa) Q := by
  rw [post_def]
  intro r hr
  obtain ⟨a0, a1, ots, ts, h0, h1, hots, hts⟩ := mov_reads cfg s args da sa r hr
  cases hc : (((NEED_SYNC_ARG sa 0 || ots.fixed_reg) && ts.val_type != TCGTempVal.REG)
      || ts.val_type == TCGTempVal.MEM)
  · rw [mov_no_load cfg s args da sa a0 a1 ots ts h0 h1 hots hts hc] at hr
    exact (post_def _ _).mp (mov_finish_ev cfg s0 s a0 a1 _ _ da sa hs Q h) r hr
  · rw [mov_with_load cfg s args da sa a0 a1 ots ts h0 h1 hots hts hc] at hr
    have : Post (mov_load cfg s a1 ts.type s.reserved_regs
        >>= fun s1 => mov_finish cfg s1 a0 a1 ots.type s.reserved_regs da sa) Q := by
      rw [post_bind_iff]
      apply mov_load_ev cfg s0 s a1 _ _ hs
      intro s1 h1'
      exact mov_finish_ev cfg s0 s1 a0 a1 _ _ da sa h1' Q h
    exact (post_def _ _).mp this r hr

set_option maxHeartbeats 4000000 in
theorem alloc_op_input_ev (cfg : Config) (s0 : TCGContext) (df : TCGOpDef) (args : List TCGArg)
    (da : Nat) (acc : OpAcc) (k : Nat) (hs : Ev s0 acc.s) (Q : OpAcc → Prop)
    (h : ∀ a, Ev s0 a.s → Q a) :
    Post (alloc_op_input cfg df args da acc k) Q := by
  unfold alloc_op_input
  simp only [post_bind_iff, post_pure_iff, post_throw_iff, post_ite_iff, post_rd_iff,
    post_rdi_iff, post_wr_iff, post_rdo_iff]
  repeat' first
    | intro _
    | apply And.intro
    | exact True.intro
    | apply tcg_reg_alloc_ev cfg s0
    | apply set_reg_to_temp_ev s0
    | apply ialias_clash_frame
    | apply h
    | assumption
    | apply ev_tcg_out
    | apply ev_set_temp
    | (apply rel_mk; apply rel_of_ev; assumption; rotate_left;
       (intro hx; first | exact hx | rfl);
       (intro _ hx; first | exact hx | cases hx))
    | simp only [post_bind_iff, post_pure_iff, post_throw_iff, post_ite_iff, post_rd_iff]
    | split

set_option maxHeartbeats 4000000 in
theorem alloc_op_output_ev (cfg : Config) (s0 : TCGContext) (df : TCGOpDef) (args : List TCGArg)
    (acc : OpAcc) (k : Nat) (hs : Ev s0 acc.s) (Q : OpAcc → Prop)
    (h : ∀ a, Ev s0 a.s → Q a) :
    Post (alloc_op_output cfg df args acc k) Q := by
  unfold alloc_op_output
  simp only [post_bind_iff, post_pure_iff, post_throw_iff, post_ite_iff, post_rd_iff,
    post_rdi_iff, post_wr_iff, post_rdo_iff]
  repeat' first
    | intro _
    | apply And.intro
    | exact True.intro
    | apply tcg_reg_alloc_ev cfg s0
    | apply set_reg_to_temp_ev s0
    | apply h
    | assumption
    | apply ev_tcg_out
    | apply ev_set_temp
    | (apply rel_mk; apply rel_of_ev; assumption; rotate_left;
       (intro hx; first | exact hx | rfl);
       (intro _ hx; first | exact hx | cases hx))
    | simp only [post_bind_iff, post_pure_iff, post_throw_iff, post_ite_iff, post_rd_iff]
    | split

theorem dead_inputs_ev (s0 s : TCGContext) (args : List TCGArg) (da no ni : Nat)
    (hs : Ev s0 s) (Q : TCGContext → Prop) (h : ∀ a, Ev s0 a → Q a) :
    Post (dead_inputs s args da no ni) Q := by
  unfold dead_inputs
  apply post_foldlM_cont _ _ (fun a => Ev s0 a) Q s hs
  · intro a i _ ha
    simp only [post_bind_iff, post_pure_iff, post_ite_iff, post_rd_iff]
    refine ⟨fun _ x _ => temp_dead_ev s0 a x ha _ (fun b hb => hb), fun _ => ha⟩
  · exact h

theorem clobber_regs_ev (cfg : Config) (s0 s : TCGContext) (hs : Ev s0 s)
    (Q : TCGContext → Prop) (h : ∀ a, Ev s0 a → Q a) :
    Post (clobber_regs cfg s) Q := by
  unfold clobber_regs
  apply post_foldlM_cont _ _ (fun a => Ev s0 a) Q s hs
  · intro a i _ ha
    simp only [post_pure_iff, post_ite_iff]
    exact ⟨fun _ => tcg_reg_free_ev cfg s0 a i ha _ (fun b hb => hb), fun _ => ha⟩
  · exact h

theorem tcg_reg_alloc_op_args_ev (cfg : Config) (s0 s : TCGContext) (df : TCGOpDef)
    (args : List TCGArg) (da : Nat) (hs : Ev s0 s) (Q : OpAcc → Prop)
    (h : ∀ a, Ev s0 a.s → Q a) :
    Post (tcg_reg_alloc_op_args cfg s df args da) Q := by
  have outs : ∀ (acc : OpAcc), Ev s0 acc.s →
      Post ((List.range df.nb_oargs).foldlM (alloc_op_output cfg df args) acc) Q := by
    intro acc hacc
    apply post_foldlM_cont _ _ (fun a => Ev s0 a.s) _ _ hacc
    · intro a i _ ha
      exact alloc_op_output_ev cfg s0 df args a i ha _ (fun b hb => hb)
    · exact h
  unfold tcg_reg_alloc_op_args
  simp only [post_bind_iff]
  rw [post_def]
  intro na _
  apply post_foldlM_cont _ _ (fun a => Ev s0 a.s) _ _ hs
  · intro a i _ ha
    exact alloc_op_input_ev cfg s0 df args da a i ha _ (fun b hb => hb)
  · intro acc hacc
    apply dead_inputs_ev s0 _ _ _ _ _ hacc
    intro s1 h1
    simp only [post_bind_iff, post_pure_iff, post_ite_iff]
    refine ⟨fun _ => ?_, fun _ => ?_⟩
    · apply tcg_reg_alloc_bb_end_frame
      exact h _ h1
    · refine ⟨fun _ => ?_, fun _ => ?_⟩
      · apply clobber_regs_ev cfg s0 _ h1
        intro s2 h2
        refine ⟨fun _ => ?_, fun _ => ?_⟩
        · apply sync_globals_frame
          exact outs _ h2
        · exact outs _ h2
      · refine ⟨fun _ => ?_, fun _ => ?_⟩
        · apply sync_globals_frame
          exact outs _ h1
        · exact outs _ h1

theorem tcg_out_reloc_ev (s0 s : TCGContext) (cp ty l : Nat) (ad : Int) (hs : Ev s0 s)
    (Q : TCGContext → Prop) (h : ∀ a, Ev s0 a → Q a) :
    Post (tcg_out_reloc s cp ty l ad) Q := by
  unfold tcg_out_reloc
  simp only [post_bind_iff, post_pure_iff, post_throw_iff, post_ite_iff, post_rd_iff]
  intro lab _
  constructor
  · intro _
    split
    · simp only [post_pure_iff]
      exact h _ ⟨hs.globals, hs.ntemps, hs.len, hs.le⟩
    · simp only [post_throw_iff]
  · intro _
    split
    · simp only [post_pure_iff]
      exact h _ ⟨hs.globals, hs.ntemps, hs.len, hs.le⟩
    · simp only [post_throw_iff]

theorem tcg_out_op_ev (cfg : Config) (s0 s : TCGContext) (opc : TCGOpcode)
    (na : List (Option TCGArg)) (ca : List (Option Nat)) (hs : Ev s0 s)
    (Q : TCGContext → Prop) (h : ∀ a, Ev s0 a → Q a) :
    Post (tcg_out_op cfg s opc na ca) Q := by
  unfold tcg_out_op
  apply post_foldlM_cont _ _ (fun a => Ev s0 a) Q _ (ev_tcg_out cfg s0 s _ hs)
  · intro a i _ ha
    exact tcg_out_reloc_ev s0 a _ _ _ _ ha _ (fun b hb => hb)
  · exact h

theorem alloc_op_finish_ev (cfg : Config) (s0 : TCGContext) (args : List TCGArg)
    (na : List (Option TCGArg)) (da sa : Nat) (s : TCGContext) (i : Nat) (hs : Ev s0 s)
    (Q : TCGContext → Prop) (h : ∀ a, Ev s0 a → Q a) :
    Post (alloc_op_finish cfg args na da sa s i) Q := by
  unfold alloc_op_finish
  simp only [post_bind_iff, post_pure_iff, post_throw_iff, post_ite_iff, post_rd_iff,
    post_rdi_iff, post_wr_iff, post_rdo_iff]
  repeat' first
    | intro _
    | apply And.intro
    | exact True.intro
    | apply tcg_reg_sync_ev cfg s0
    | apply temp_dead_ev s0
    | apply h
    | assumption
    | apply ev_tcg_out
    | apply ev_set_temp
    | (apply rel_mk; apply rel_of_ev; assumption; rotate_left;
       (intro hx; first | exact hx | rfl);
       (intro _ hx; first | exact hx | cases hx))
    | simp only [post_bind_iff, post_pure_iff, post_throw_iff, post_ite_iff, post_rd_iff]
    | split

theorem tcg_reg_alloc_op_ev (cfg : Config) (s0 s : TCGContext) (df : TCGOpDef)
    (opc : TCGOpcode) (args : List TCGArg) (da sa : Nat) (hs : Ev s0 s)
    (Q : TCGContext → Prop) (h : ∀ a, Ev s0 a → Q a) :
    Post (tcg_reg_alloc_op cfg s df opc args da sa) Q := by
  unfold tcg_reg_alloc_op
  simp only [post_bind_iff]
  apply tcg_reg_alloc_op_args_ev cfg s0 s df args da hs
  intro acc hacc
  apply tcg_out_op_ev cfg s0 _ _ _ _ hacc
  intro s1 h1
  apply post_foldlM_cont _ _ (fun a => Ev s0 a) Q _ h1
  · intro a i _ ha
    exact alloc_op_finish_ev cfg s0 args _ da sa a i ha _ (fun b hb => hb)
  · exact h

theorem call_stack_arg_ev (cfg : Config) (s0 : TCGContext) (args : List TCGArg) (no : Nat)
    (p : TCGContext × Int) (i : Nat) (hs : Ev s0 p.1) (Q : TCGContext × Int → Prop)
    (h : ∀ a, Ev s0 a.1 → Q a) :
    Post (call_stack_arg cfg args no p i) Q := by
  unfold call_stack_arg
  simp only [post_bind_iff, post_pure_iff, post_throw_iff, post_ite_iff, post_rd_iff,
    post_rdi_iff, post_wr_iff, post_rdo_iff]
  repeat' first
    | intro _
    | apply And.intro
    | exact True.intro
    | apply tcg_reg_alloc_ev cfg s0
    | apply h
    | assumption
    | apply ev_tcg_out
    | apply ev_set_temp
    | (apply rel_mk; apply rel_of_ev; assumption; rotate_left;
       (intro hx; first | exact hx | rfl);
       (intro _ hx; first | exact hx | cases hx))
    | simp only [post_bind_iff, post_pure_iff, post_throw_iff, post_ite_iff, post_rd_iff]
    | split

theorem call_reg_arg_ev (cfg : Config) (s0 : TCGContext) (args : List TCGArg) (no : Nat)
    (p : TCGContext × TCGRegSet) (i : Nat) (hs : Ev s0 p.1)
    (Q : TCGContext × TCGRegSet → Prop) (h : ∀ a, Ev s0 a.1 → Q a) :
    Post (call_reg_arg cfg args no p i) Q := by
  unfold call_reg_arg
  simp only [post_bind_iff, post_pure_iff, post_throw_iff, post_ite_iff, post_rd_iff,
    post_rdi_iff, post_wr_iff, post_rdo_iff]
  repeat' first
    | intro _
    | apply And.intro
    | exact True.intro
    | apply tcg_reg_free_ev cfg s0
    | apply h
    | assumption
    | apply ev_tcg_out
    | apply ev_set_temp
    | (apply rel_mk; apply rel_of_ev; assumption; rotate_left;
       (intro hx; first | exact hx | rfl);
       (intro _ hx; first | exact hx | cases hx))
    | simp only [post_bind_iff, post_pure_iff, post_throw_iff, post_ite_iff, post_rd_iff]
    | split

theorem call_clobber_globals_ev (cfg : Config) (s0 s : TCGContext) (args : List TCGArg)
    (da no ni fl : Nat) (ar : TCGRegSet) (hs : Ev s0 s)
    (Q : TCGContext → Prop) (h : ∀ a, Ev s0 a → Q a) :
    Post (call_clobber_globals cfg s args da no ni fl ar) Q := by
  unfold call_clobber_globals
  simp only [post_bind_iff]
  apply dead_inputs_ev s0 _ _ _ _ _ hs
  intro s1 h1
  apply clobber_regs_ev cfg s0 _ h1
  intro s2 h2
  simp only [post_pure_iff, post_ite_iff]
  refine ⟨fun _ => h _ h2, fun _ => ⟨fun _ => ?_, fun _ => ?_⟩⟩
  · exact sync_globals_frame _ _ _ (h _ h2)
  · exact save_globals_frame _ _ _ (h _ h2)

theorem call_output_ev (cfg : Config) (s0 : TCGContext) (args : List TCGArg) (da sa : Nat)
    (s : TCGContext) (i : Nat) (hs : Ev s0 s)
    (Q : TCGContext → Prop) (h : ∀ a, Ev s0 a → Q a) :
    Post (call_output cfg args da sa s i) Q := by
  unfold call_output
  simp only [post_bind_iff, post_pure_iff, post_throw_iff, post_ite_iff, post_rd_iff,
    post_rdi_iff, post_wr_iff, post_rdo_iff]
  repeat' first
    | intro _
    | apply And.intro
    | exact True.intro
    | apply tcg_reg_sync_ev cfg s0
    | apply temp_dead_ev s0
    | apply set_reg_to_temp_ev s0
    | apply h
    | assumption
    | apply ev_tcg_out
    | apply ev_set_temp
    | (apply rel_mk; apply rel_of_ev; assumption; rotate_left;
       (intro hx; first | exact hx | rfl);
       (intro _ hx; first | exact hx | cases hx))
    | simp only [post_bind_iff, post_pure_iff, post_throw_iff, post_ite_iff, post_rd_iff]
    | split

theorem tcg_reg_alloc_call_setup_ev (cfg : Config) (s0 s : TCGContext) (no ni : Nat)
    (args : List TCGArg) (da : Nat) (hs : Ev s0 s)
    (Q : TCGContext → Prop) (h : ∀ a, Ev s0 a → Q a) :
    Post (tcg_reg_alloc_call_setup cfg s no ni args da) Q := by
  unfold tcg_reg_alloc_call_setup
  simp only [post_bind_iff, post_pure_iff, post_throw_iff, post_ite_iff, post_rd_iff]
  intro fl _
  refine ⟨fun _ => True.intro, fun _ => ?_⟩
  apply post_foldlM_cont _ _ (fun a => Ev s0 a.1) _ _ hs
  · intro a i _ ha
    exact call_stack_arg_ev cfg s0 args no a i ha _ (fun b hb => hb)
  · intro p hp
    apply post_foldlM_cont _ _ (fun a => Ev s0 a.1) _ _ hp
    · intro a i _ ha
      exact call_reg_arg_ev cfg s0 args no a i ha _ (fun b hb => hb)
    · intro q hq
      exact call_clobber_globals_ev cfg s0 _ _ _ _ _ _ _ hq Q h

theorem tcg_reg_alloc_call_ev (cfg : Config) (s0 s : TCGContext) (no ni : Nat)
    (args : List TCGArg) (da sa : Nat) (hs : Ev s0 s)
    (Q : TCGContext → Prop) (h : ∀ a, Ev s0 a → Q a) :
    Post (tcg_reg_alloc_call cfg s no ni args da sa) Q := by
  unfold tcg_reg_alloc_call
  simp only [post_bind_iff, post_rd_iff]
  intro fa _
  apply tcg_reg_alloc_call_setup_ev cfg s0 s no ni args da hs
  intro s1 h1
  apply post_foldlM_cont _ _ (fun a => Ev s0 a) _ _ (ev_tcg_out cfg s0 s1 _ h1)
  · intro a i _ ha
    exact call_output_ev cfg s0 args da sa a i ha _ (fun b hb => hb)
  · exact h

/-! ### Globals are never dead, and slots are kept -/

theorem start_temp (cfg : Config) (s : TCGContext) (i : Nat) (ts : TCGTemp)
    (h : (tcg_reg_alloc_start cfg s).temps[i]? = some ts) :
    ∃ t0, s.temps[i]? = some t0
      ∧ ts = (if i < s.nb_globals then
          { t0 with val_type := if t0.fixed_reg then TCGTempVal.REG else TCGTempVal.MEM }
        else if i < s.nb_temps then
          { t0 with val_type := if t0.temp_local then TCGTempVal.MEM else TCGTempVal.DEAD,
                    mem_allocated := false, fixed_reg := false }
        else t0) := by
  have hlen : (tcg_reg_alloc_start cfg s).temps.length = s.temps.length := by
    simp [tcg_reg_alloc_start]
  have hlt : i < s.temps.length := by
    rw [← hlen]
    exact getElem?_lt_length _ _ _ h
  refine ⟨s.temps[i], List.getElem?_eq_getElem hlt, ?_⟩
  simp only [tcg_reg_alloc_start, List.getElem?_map, List.getElem?_range hlt, Option.map_some',
    Option.some.injEq] at h
  rw [← h]
  have : s.temps.getD i default = s.temps[i] := by
    rw [List.getD_eq_getElem?_getD, List.getElem?_eq_getElem hlt]
    rfl
  simp only [this]

theorem start_globals_live (cfg : Config) (s : TCGContext) :
    GlobalsLive (tcg_reg_alloc_start cfg s) := by
  intro i ts hi hts
  obtain ⟨t0, _, e⟩ := start_temp cfg s i ts hts
  have hi' : i < s.nb_globals := hi
  rw [if_pos hi'] at e
  rw [e]
  cases t0.fixed_reg <;> simp

theorem globals_of_ev (s a : TCGContext) (h : Ev s a) (hg : GlobalsLive s) : GlobalsLive a := by
  intro i ts hi hts
  have hlt : i < s.temps.length := by
    rw [← h.len]
    exact getElem?_lt_length _ _ _ hts
  have h0 := List.getElem?_eq_getElem hlt
  rw [h.globals] at hi
  obtain ⟨_, _, _, _, _, c6⟩ := h.le i _ ts h0 hts
  intro hd
  exact hg i _ hi h0 (c6 hi hd)

theorem slots_of_ev (s a : TCGContext) (h : Ev s a) : SlotsKept s a := by
  intro i ts hts hm
  have hlt : i < a.temps.length := by
    rw [h.len]
    exact getElem?_lt_length _ _ _ hts
  have h1 := List.getElem?_eq_getElem hlt
  obtain ⟨_, _, _, _, c5, _⟩ := h.le i ts _ hts h1
  exact ⟨_, h1, c5 hm⟩

/-- C23: globals are never DEAD.  In the context that `tcg_reg_alloc_start` leaves every
temp with index below `nb_globals` is in REG state (a `fixed_reg` global) or in MEM
state.  If no global of `s` is DEAD, then no global is DEAD in the context returned by
`temp_dead`, `tcg_reg_free`, `temp_sync`, `tcg_reg_alloc_movi`, `tcg_reg_alloc_mov`,
`tcg_reg_alloc_op` or `tcg_reg_alloc_call` on `s`, whatever their arguments.  And
`temp_dead` on a `fixed_reg` global returns the context unchanged, while on a global that
is not `fixed_reg` (whose register, if it is in one, is a host register) it returns a
context in which the global is in MEM state and otherwise as before. -/
theorem globals_never_dead (cfg : Config) (s0 s : TCGContext) (hg : GlobalsLive s) :
    (∀ i ts, i < (tcg_reg_alloc_start cfg s0).nb_globals →
      (tcg_reg_alloc_start cfg s0).temps[i]? = some ts →
      ts.val_type = TCGTempVal.REG ∨ ts.val_type = TCGTempVal.MEM)
    ∧ (∀ t s1, temp_dead s t = Except.ok s1 → GlobalsLive s1)
    ∧ (∀ r s1, tcg_reg_free cfg s r = Except.ok s1 → GlobalsLive s1)
    ∧ (∀ t ar s1, temp_sync cfg s t ar = Except.ok s1 → GlobalsLive s1)
    ∧ (∀ args da sa s1, tcg_reg_alloc_movi cfg s args da sa = Except.ok s1 → GlobalsLive s1)
    ∧ (∀ args da sa s1, tcg_reg_alloc_mov cfg s args da sa = Except.ok s1 → GlobalsLive s1)
    ∧ (∀ df opc args da sa s1, tcg_reg_alloc_op cfg s df opc args da sa = Except.ok s1 →
        GlobalsLive s1)
    ∧ (∀ no ni args da sa s1, tcg_reg_alloc_call cfg s no ni args da sa = Except.ok s1 →
        GlobalsLive s1)
    ∧ (∀ t ts, t < s.nb_globals → s.temps[t]? = some ts →
        (ts.fixed_reg = true → temp_dead s t = Except.ok s)
        ∧ (ts.fixed_reg = false →
            (ts.val_type = TCGTempVal.REG → ts.reg < s.reg_to_temp.length) →
            ∃ s1, temp_dead s t = Except.ok s1
              ∧ s1.temps[t]? = some { ts with val_type := TCGTempVal.MEM })) := by
  have key : ∀ a, Ev s a → GlobalsLive a := fun a ha => globals_of_ev s a ha hg
  refine ⟨?_, ?_, ?_, ?_, ?_, ?_, ?_, ?_, ?_⟩
  · intro i ts hi hts
    obtain ⟨t0, _, e⟩ := start_temp cfg s0 i ts hts
    have hi' : i < s0.nb_globals := hi
    rw [if_pos hi'] at e
    rw [e]
    cases t0.fixed_reg <;> simp
  · intro t s1 h
    exact (post_def _ _).mp (temp_dead_ev s s t (ev_refl s) _ key) s1 h
  · intro r s1 h
    exact (post_def _ _).mp (tcg_reg_free_ev cfg s s r (ev_refl s) _ key) s1 h
  · intro t ar s1 h
    exact (post_def _ _).mp (temp_sync_ev cfg s s t ar (ev_refl s) _ key) s1 h
  · intro args da sa s1 h
    exact (post_def _ _).mp (tcg_reg_alloc_movi_ev cfg s s args da sa (ev_refl s) _ key) s1 h
  · intro args da sa s1 h
    exact (post_def _ _).mp (tcg_reg_alloc_mov_ev cfg s s args da sa (ev_refl s) _ key) s1 h
  · intro df opc args da sa s1 h
    exact (post_def _ _).mp
      (tcg_reg_alloc_op_ev cfg s s df opc args da sa (ev_refl s) _ key) s1 h
  · intro no ni args da sa s1 h
    exact (post_def _ _).mp
      (tcg_reg_alloc_call_ev cfg s s no ni args da sa (ev_refl s) _ key) s1 h
  · intro t ts ht hts
    have htl := getElem?_lt_length _ _ _ hts
    refine ⟨fun hf => temp_dead_fixed s t ts hts hf, fun hf hr => ?_⟩
    by_cases hv : ts.val_type = TCGTempVal.REG
    · refine ⟨_, temp_dead_reg s t ts hts hf hv (hr hv), ?_⟩
      simp only [List.getElem?_set_self htl, ht, true_or, if_true]
    · refine ⟨_, temp_dead_not_reg s t ts hts hf hv, ?_⟩
      simp only [List.getElem?_set_self htl, ht, true_or, if_true]

theorem globals_never_dead_witness :
    GlobalsLive (tcg_reg_alloc_start exCfg exLocal)
    ∧ tcg_reg_alloc_movi exCfg (tcg_reg_alloc_start exCfg exLocal) [1, 5] 0 0
        = Except.ok { tcg_reg_alloc_start exCfg exLocal with
            temps := [{ exTemp true 5 with val_type := TCGTempVal.REG },
                      { exTemp false 0 with val_type := TCGTempVal.CONST, val := 5 },
                      { exTemp false 0 with temp_local := true, val_type := TCGTempVal.MEM }] }
    ∧ GlobalsLive { tcg_reg_alloc_start exCfg exLocal with
            temps := [{ exTemp true 5 with val_type := TCGTempVal.REG },
                      { exTemp false 0 with val_type := TCGTempVal.CONST, val := 5 },
                      { exTemp false 0 with temp_local := true, val_type := TCGTempVal.MEM }] } :=
  ⟨start_globals_live exCfg exLocal, by decide,
   (globals_never_dead exCfg exLocal (tcg_reg_alloc_start exCfg exLocal)
      (start_globals_live exCfg exLocal)).2.2.2.2.1 [1, 5] 0 0 _ (by decide)⟩

theorem temp_allocate_frame_has_slot (cfg : Config) (s : TCGContext) (k : Nat) :
    Post (temp_allocate_frame cfg s k)
      (fun a => ∃ ts0 : TCGTemp, a.temps[k]? = some ts0 ∧ ts0.mem_allocated = true) := by
  unfold temp_allocate_frame
  simp only [post_bind_iff, post_pure_iff, post_throw_iff, post_ite_iff, post_rd_iff]
  intro x hx
  refine ⟨fun _ => trivial, fun _ => ?_⟩
  simp only [set_temp]
  rw [List.getElem?_set_self (getElem?_lt_length _ _ _ hx)]
  exact ⟨_, rfl, rfl⟩

/-- `tcg_reg_sync` on a register whose owner is neither coherent with memory nor
`fixed_reg` leaves the owner with a slot in the frame -/
theorem tcg_reg_sync_slot (cfg : Config) (s : TCGContext) (reg : Nat) :
    Post (tcg_reg_sync cfg s reg) (fun a => ∀ (temp : Int) (ts : TCGTemp),
      s.reg_to_temp[reg]? = some temp → s.temps[temp.toNat]? = some ts →
      ts.mem_coherent = false → ts.fixed_reg = false →
      ∃ ts1 : TCGTemp, a.temps[temp.toNat]? = some ts1 ∧ ts1.mem_allocated = true) := by
  unfold tcg_reg_sync
  simp only [post_bind_iff, post_pure_iff, post_throw_iff, post_ite_iff, post_rd_iff,
    post_rdi_iff]
  intro temp htemp _ x hx
  refine ⟨fun _ => trivial, fun _ => ?_⟩
  have fin : ∀ (a : TCGContext) (y : TCGTemp), a.temps[temp.toNat]? = some y →
      y.mem_allocated = true →
      ∀ (temp1 : Int) (ts : TCGTemp), s.reg_to_temp[reg]? = some temp1 →
        s.temps[temp1.toNat]? = some ts → ts.mem_coherent = false → ts.fixed_reg = false →
        ∃ ts1 : TCGTemp,
          (set_temp a temp.toNat { y with mem_coherent := true }).temps[temp1.toNat]?
            = some ts1 ∧ ts1.mem_allocated = true := by
    intro a y hy hm temp1 ts h1 _ _ _
    rw [htemp] at h1
    cases h1
    simp only [set_temp]
    rw [List.getElem?_set_self (getElem?_lt_length _ _ _ hy)]
    exact ⟨_, rfl, hm⟩
  refine ⟨fun _ => ⟨fun _ => ?_, fun hm => ?_⟩, fun hc => ?_⟩
  · apply post_mono _ _ _ (temp_allocate_frame_has_slot cfg s temp.toNat)
    rintro a ⟨ts0, h0, hm0⟩
    intro y hy z hz
    rw [h0] at hy
    cases hy
    have hz1 : a.temps[temp.toNat]? = some z := hz
    exact fin (tcg_out cfg a _) z hz1 (by rw [h0] at hz1; cases hz1; exact hm0)
  · intro y hy z hz
    have hz1 : s.temps[temp.toNat]? = some z := hz
    rw [hx] at hy hz1
    cases hy
    cases hz1
    refine fin (tcg_out cfg s _) x hx ?_
    cases hma : x.mem_allocated
    · rw [hma] at hm
      exact absurd rfl hm
    · rfl
  · intro y hy temp1 ts h1 h2 h3 h4
    rw [htemp] at h1
    cases h1
    rw [hx] at h2
    cases h2
    rw [h3, h4] at hc
    exact absurd rfl hc

/-- `tcg_reg_free` on a register whose owner is neither coherent with memory nor
`fixed_reg` leaves the owner in MEM state with a slot in the frame -/
theorem tcg_reg_free_slot (cfg : Config) (s : TCGContext) (reg : Nat) :
    Post (tcg_reg_free cfg s reg) (fun a => ∀ (temp : Int) (ts : TCGTemp),
      s.reg_to_temp[reg]? = some temp → temp ≠ -1 → s.temps[temp.toNat]? = some ts →
      ts.mem_coherent = false → ts.fixed_reg = false →
      ∃ ts1 : TCGTemp, a.temps[temp.toNat]? = some ts1
        ∧ ts1.val_type = TCGTempVal.MEM ∧ ts1.mem_allocated = true) := by
  unfold tcg_reg_free
  simp only [post_bind_iff, post_pure_iff, post_ite_iff, post_rd_iff]
  intro temp htemp
  refine ⟨fun _ => ?_, fun hc => ?_⟩
  · apply post_mono _ _ _ (tcg_reg_sync_slot cfg s reg)
    intro a ha
    simp only [post_rdi_iff, set_reg_to_temp, post_bind_iff, post_wr_iff, post_pure_iff]
    intro _ tq htq _ temp1 ts h1 _ h2 h3 h4
    obtain ⟨ts1, e1, m1⟩ := ha temp1 ts h1 h2 h3 h4
    rw [htemp] at h1
    cases h1
    rw [e1] at htq
    cases htq
    simp only [set_temp]
    rw [List.getElem?_set_self (getElem?_lt_length _ _ _ e1)]
    exact ⟨_, rfl, rfl, m1⟩
  · intro temp1 ts h1 hne
    rw [htemp] at h1
    cases h1
    exfalso
    apply hc
    exact bne_iff_ne.mpr hne

/-- C24: the slot of a temp in MEM state.  No allocator step clears `mem_allocated`: in
the context returned by `temp_dead`, `tcg_reg_free`, `tcg_reg_alloc_movi`,
`tcg_reg_alloc_mov`, `tcg_reg_alloc_op` or `tcg_reg_alloc_call` every temp that had
`mem_allocated = 1` before still has it.  A temp that `tcg_reg_free` spills from a
register, being neither coherent with memory nor `fixed_reg`, ends in MEM state with
`mem_allocated = 1`.  In the context that `tcg_reg_alloc_start` leaves, a global keeps the
`mem_allocated` it had, and every other temp below `nb_temps` has `mem_allocated = 0` and
is in MEM state exactly when it is a local temp. -/
theorem mem_allocated_kept (cfg : Config) (s : TCGContext) :
    (∀ t s1, temp_dead s t = Except.ok s1 → SlotsKept s s1)
    ∧ (∀ r s1, tcg_reg_free cfg s r = Except.ok s1 → SlotsKept s s1)
    ∧ (∀ args da sa s1, tcg_reg_alloc_movi cfg s args da sa = Except.ok s1 → SlotsKept s s1)
    ∧ (∀ args da sa s1, tcg_reg_alloc_mov cfg s args da sa = Except.ok s1 → SlotsKept s s1)
    ∧ (∀ df opc args da sa s1, tcg_reg_alloc_op cfg s df opc args da sa = Except.ok s1 →
        SlotsKept s s1)
    ∧ (∀ no ni args da sa s1, tcg_reg_alloc_call cfg s no ni args da sa = Except.ok s1 →
        SlotsKept s s1)
    ∧ (∀ r s1 (temp : Int) (ts : TCGTemp), tcg_reg_free cfg s r = Except.ok s1 →
        s.reg_to_temp[r]? = some temp → temp ≠ -1 → s.temps[temp.toNat]? = some ts →
        ts.mem_coherent = false → ts.fixed_reg = false →
        ∃ ts1 : TCGTemp, s1.temps[temp.toNat]? = some ts1
          ∧ ts1.val_type = TCGTempVal.MEM ∧ ts1.mem_allocated = true)
    ∧ (∀ (i : Nat) (ts : TCGTemp), (tcg_reg_alloc_start cfg s).temps[i]? = some ts →
        ∃ t0 : TCGTemp, s.temps[i]? = some t0
          ∧ (i < s.nb_globals → ts.mem_allocated = t0.mem_allocated)
          ∧ (s.nb_globals ≤ i → i < s.nb_temps →
              ts.mem_allocated = false
              ∧ (ts.val_type = TCGTempVal.MEM ↔ t0.temp_local = true))) := by
  have key : ∀ a, Ev s a → SlotsKept s a := fun a ha => slots_of_ev s a ha
  refine ⟨?_, ?_, ?_, ?_, ?_, ?_, ?_, ?_⟩
  · intro t s1 h
    exact (post_def _ _).mp (temp_dead_ev s s t (ev_refl s) _ key) s1 h
  · intro r s1 h
    exact (post_def _ _).mp (tcg_reg_free_ev cfg s s r (ev_refl s) _ key) s1 h
  · intro args da sa s1 h
    exact (post_def _ _).mp (tcg_reg_alloc_movi_ev cfg s s args da sa (ev_refl s) _ key) s1 h
  · intro args da sa s1 h
    exact (post_def _ _).mp (tcg_reg_alloc_mov_ev cfg s s args da sa (ev_refl s) _ key) s1 h
  · intro df opc args da sa s1 h
    exact (post_def _ _).mp
      (tcg_reg_alloc_op_ev cfg s s df opc args da sa (ev_refl s) _ key) s1 h
  · intro no ni args da sa s1 h
    exact (post_def _ _).mp
      (tcg_reg_alloc_call_ev cfg s s no ni args da sa (ev_refl s) _ key) s1 h
  · intro r s1 temp ts h
    exact (post_def _ _).mp (tcg_reg_free_slot cfg s r) s1 h temp ts
  · intro i ts hts
    obtain ⟨t0, h0, e⟩ := start_temp cfg s i ts hts
    refine ⟨t0, h0, fun hi => ?_, fun h1 h2 => ?_⟩
    · rw [if_pos hi] at e
      rw [e]
    · rw [if_neg (Nat.not_lt.mpr h1), if_pos h2] at e
      rw [e]
      cases t0.temp_local <;> simp

/-- The claim C24 as it stands fails: in the context that `tcg_reg_alloc_start` leaves for
`exLocal` the local temp 2 is in MEM state and has `mem_allocated = 0`. -/
theorem mem_allocated_kept_counterexample :
    ∃ ts : TCGTemp, (tcg_reg_alloc_start exCfg exLocal).temps[2]? = some ts
      ∧ ts.val_type = TCGTempVal.MEM ∧ ts.mem_allocated = false :=
  ⟨_, rfl, rfl, rfl⟩

theorem mem_allocated_kept_witness :
    SlotsKept exLocal { exLocal with
      temps := [exTemp true 5, exTemp false 0,
                { exTemp false 0 with temp_local := true, val_type := TCGTempVal.MEM }] } :=
  (mem_allocated_kept exCfg exLocal).1 2 _ (by decide)


/-! ### The move from a source that dies -/

theorem host_movs_append_one (out : List HostInsn) (i : HostInsn)
    (h : ∀ t d r, i ≠ HostInsn.mov t d r) : host_movs (out ++ [i]) = host_movs out := by
  unfold host_movs
  rw [List.filter_append]
  cases i with
  | mov t d r => exact absurd rfl (h t d r)
  | _ => simp [List.filter]

theorem temp_allocate_frame_movs (cfg : Config) (s : TCGContext) (k : Nat)
    (M : List HostInsn) (h : host_movs s.out = M) :
    Post (temp_allocate_frame cfg s k) (fun a => host_movs a.out = M) := by
  unfold temp_allocate_frame
  simp only [post_bind_iff, post_pure_iff, post_throw_iff, post_ite_iff, post_rd_iff]
  intro x _
  exact ⟨fun _ => trivial, fun _ => h⟩

theorem tcg_reg_sync_movs (cfg : Config) (s : TCGContext) (reg : Nat)
    (M : List HostInsn) (h : host_movs s.out = M) :
    Post (tcg_reg_sync cfg s reg) (fun a => host_movs a.out = M) := by
  unfold tcg_reg_sync
  simp only [post_bind_iff, post_pure_iff, post_throw_iff, post_ite_iff, post_rd_iff,
    post_rdi_iff]
  intro temp _ _ x _
  refine ⟨fun _ => trivial, fun _ => ?_⟩
  refine ⟨fun _ => ⟨fun _ => ?_, fun _ => ?_⟩, fun _ => ?_⟩
  · apply post_mono _ _ _ (temp_allocate_frame_movs cfg s _ M h)
    intro a ha y _ z _
    simp only [set_temp, tcg_out]
    rw [host_movs_append_one _ _ (by intro t d r hh; cases hh)]
    exact ha
  · intro y _ z _
    simp only [set_temp, tcg_out]
    rw [host_movs_append_one _ _ (by intro t d r hh; cases hh)]
    exact h
  · intro y _
    exact h

theorem tcg_reg_free_movs (cfg : Config) (s : TCGContext) (reg : Nat)
    (M : List HostInsn) (h : host_movs s.out = M) :
    Post (tcg_reg_free cfg s reg) (fun a => host_movs a.out = M) := by
  unfold tcg_reg_free
  simp only [post_bind_iff, post_pure_iff, post_ite_iff, post_rd_iff]
  intro temp _
  refine ⟨fun _ => ?_, fun _ => h⟩
  apply post_mono _ _ _ (tcg_reg_sync_movs cfg s reg M h)
  intro a ha
  simp only [post_rdi_iff, set_reg_to_temp, post_bind_iff, post_wr_iff, post_pure_iff]
  intro _ tq _ _
  exact ha

theorem tcg_reg_alloc_movs (cfg : Config) (s : TCGContext) (reg1 reg2 : TCGRegSet)
    (M : List HostInsn) (h : host_movs s.out = M) :
    Post (tcg_reg_alloc cfg s reg1 reg2) (fun p => host_movs p.1.out = M) := by
  unfold tcg_reg_alloc
  simp only [post_bind_iff]
  rw [post_def]
  intro o _
  cases o with
  | some r =>
    simp only [post_pure_iff]
    exact h
  | none =>
    simp only []
    cases hsp : reg_alloc_spill (tcg_regset_andnot reg1 reg2) cfg.tcg_target_reg_alloc_order with
    | none => simp only [post_throw_iff]
    | some r =>
      simp only [post_bind_iff, post_pure_iff]
      exact tcg_reg_free_movs cfg s r M h

theorem post_and {α : Type} (x : Except Fault α) (P Q : α → Prop)
    (hp : Post x P) (hq : Post x Q) : Post x (fun a => P a ∧ Q a) := by
  rw [post_def] at hp hq ⊢
  exact fun a ha => ⟨hp a ha, hq a ha⟩

theorem mov_load_movs (cfg : Config) (s : TCGContext) (a1 : TCGArg) (itype : TCGType)
    (ar : TCGRegSet) (M : List HostInsn) (h : host_movs s.out = M) :
    Post (mov_load cfg s a1 itype ar) (fun a => host_movs a.out = M
      ∧ ∃ t1 : TCGTemp, a.temps[a1]? = some t1 ∧ t1.val_type = TCGTempVal.REG) := by
  unfold mov_load
  simp only [post_bind_iff, post_pure_iff, post_rd_iff]
  apply post_mono _ _ _ (tcg_reg_alloc_movs cfg s _ _ M h)
  intro p hp x hx
  have hlt := getElem?_lt_length _ _ _ hx
  by_cases c1 : (x.val_type == TCGTempVal.MEM) = true
  · simp only [if_pos c1, set_reg_to_temp, post_bind_iff, post_wr_iff, post_pure_iff]
    intro _
    simp only [set_temp, tcg_out]
    rw [host_movs_append_one _ _ (by intro t d r hh; cases hh),
      List.getElem?_set_self hlt]
    exact ⟨hp, _, rfl, rfl⟩
  · by_cases c2 : (x.val_type == TCGTempVal.CONST) = true
    · simp only [if_neg c1, if_pos c2, set_reg_to_temp, post_bind_iff, post_wr_iff,
        post_pure_iff]
      intro _
      simp only [set_temp, tcg_out]
      rw [host_movs_append_one _ _ (by intro t d r hh; cases hh),
        List.getElem?_set_self hlt]
      exact ⟨hp, _, rfl, rfl⟩
    · simp only [if_neg c1, if_neg c2, set_reg_to_temp, post_bind_iff, post_wr_iff,
        post_pure_iff]
      intro _
      simp only [set_temp]
      rw [List.getElem?_set_self hlt]
      exact ⟨hp, _, rfl, rfl⟩

theorem temp_allocate_frame_stays (cfg : Config) (s : TCGContext) (t : Nat) (o : TCGTemp)
    (ho : s.temps[t]? = some o) :
    Post (temp_allocate_frame cfg s t) (fun a => a.reg_to_temp = s.reg_to_temp
      ∧ (∀ k, k ≠ t → a.temps[k]? = s.temps[k]?)
      ∧ ∃ o2 : TCGTemp, a.temps[t]? = some o2 ∧ o2.val_type = o.val_type ∧ o2.reg = o.reg) := by
  unfold temp_allocate_frame
  simp only [post_bind_iff, post_pure_iff, post_throw_iff, post_ite_iff, post_rd_iff]
  intro x hx
  rw [ho] at hx
  cases hx
  refine ⟨fun _ => trivial, fun _ => ⟨rfl, fun k hk => ?_, ?_⟩⟩
  · simp only [set_temp]
    exact List.getElem?_set_ne (Ne.symm hk)
  · simp only [set_temp]
    rw [List.getElem?_set_self (getElem?_lt_length _ _ _ ho)]
    exact ⟨_, rfl, rfl, rfl⟩

/-- `tcg_reg_sync` changes neither `reg_to_temp` nor any temp but the owner of the
register, which keeps its state and its register -/
theorem tcg_reg_sync_stays (cfg : Config) (s : TCGContext) (reg t : Nat) (o : TCGTemp)
    (hr : s.reg_to_temp[reg]? = some (t : Int)) (ho : s.temps[t]? = some o) :
    Post (tcg_reg_sync cfg s reg) (fun a => a.reg_to_temp = s.reg_to_temp
      ∧ (∀ k, k ≠ t → a.temps[k]? = s.temps[k]?)
      ∧ ∃ o2 : TCGTemp, a.temps[t]? = some o2 ∧ o2.val_type = o.val_type ∧ o2.reg = o.reg) := by
  unfold tcg_reg_sync
  simp only [post_bind_iff, post_pure_iff, post_throw_iff, post_ite_iff, post_rd_iff,
    post_rdi_iff]
  intro temp htemp _ x hx
  rw [hr] at htemp
  cases htemp
  simp only [Int.toNat_ofNat] at hx ⊢
  rw [ho] at hx
  cases hx
  have fin : ∀ (a : TCGContext) (y : TCGTemp), a.reg_to_temp = s.reg_to_temp →
      (∀ k, k ≠ t → a.temps[k]? = s.temps[k]?) → a.temps[t]? = some y →
      y.val_type = o.val_type → y.reg = o.reg →
      (set_temp a t { y with mem_coherent := true }).reg_to_temp = s.reg_to_temp
      ∧ (∀ k, k ≠ t → (set_temp a t { y with mem_coherent := true }).temps[k]? = s.temps[k]?)
      ∧ ∃ o2 : TCGTemp, (set_temp a t { y with mem_coherent := true }).temps[t]? = some o2
          ∧ o2.val_type = o.val_type ∧ o2.reg = o.reg := by
    intro a y h1 h2 h3 h4 h5
    refine ⟨h1, fun k hk => ?_, ?_⟩
    · simp only [set_temp]
      rw [List.getElem?_set_ne (Ne.symm hk)]
      exact h2 k hk
    · simp only [set_temp]
      rw [List.getElem?_set_self (getElem?_lt_length _ _ _ h3)]
      exact ⟨_, rfl, h4, h5⟩
  refine ⟨fun _ => trivial, fun _ => ?_⟩
  refine ⟨fun _ => ⟨fun _ => ?_, fun _ => ?_⟩, fun _ => ?_⟩
  · apply post_mono _ _ _ (temp_allocate_frame_stays cfg s t o ho)
    rintro a ⟨h1, h2, o2, h3, h4, h5⟩
    intro y hy z hz
    have hz1 : a.temps[t]? = some z := hz
    rw [h3] at hz1
    cases hz1
    exact fin (tcg_out cfg a _) o2 h1 h2 h3 h4 h5
  · intro y hy z hz
    have hz1 : s.temps[t]? = some z := hz
    rw [ho] at hz1
    cases hz1
    exact fin (tcg_out cfg s _) o rfl (fun _ _ => rfl) ho rfl rfl
  · intro y hy
    rw [ho] at hy
    cases hy
    exact fin s o rfl (fun _ _ => rfl) ho rfl rfl

/-- `temp_dead` on a temp that is not `fixed_reg`, when it returns -/
theorem temp_dead_post (s : TCGContext) (t : Nat) (ts : TCGTemp)
    (ht : s.temps[t]? = some ts) (hf : ts.fixed_reg = false) :
    Post (temp_dead s t) (fun a => a.out = s.out ∧ a.nb_globals = s.nb_globals
      ∧ a.temps = s.temps.set t { ts with
          val_type := if t < s.nb_globals ∨ ts.temp_local = true then TCGTempVal.MEM
                      else TCGTempVal.DEAD }
      ∧ a.reg_to_temp.length = s.reg_to_temp.length) := by
  by_cases hv : ts.val_type = TCGTempVal.REG
  · by_cases hr : ts.reg < s.reg_to_temp.length
    · rw [temp_dead_reg s t ts ht hf hv hr, post_ok_iff]
      exact ⟨rfl, rfl, rfl, List.length_set _ _ _⟩
    · rw [post_def]
      intro a ha
      exfalso
      unfold temp_dead at ha
      rw [rd_of_getElem? _ _ _ ht, except_ok_bind] at ha
      simp only [hf, Bool.not_false, if_true, hv, beq_self_eq_true, set_reg_to_temp,
        wr_oob _ _ _ (Nat.le_of_not_lt hr), except_error_bind] at ha
      cases ha
  · rw [temp_dead_not_reg s t ts ht hf hv, post_ok_iff]
    exact ⟨rfl, rfl, rfl, rfl⟩

/-- the end of the renaming branch of `tcg_reg_alloc_mov`, from the call of `temp_dead` on
the source -/
theorem mov_rename_tail (cfg : Config) (s y : TCGContext) (a0 a1 : TCGArg) (sa : Nat)
    (ots ts : TCGTemp) (hne : a0 ≠ a1)
    (hy0 : y.temps[a0]? = some ots) (hy1 : y.temps[a1]? = some ts)
    (hout : y.out = s.out) (hg : y.nb_globals = s.nb_globals)
    (htf : ts.fixed_reg = false) :
    Post (do
        let y2 ← temp_dead (set_temp y a0 { ots with reg := ts.reg }) a1
        let o ← rd y2.temps a0
        let s4 ← set_reg_to_temp
          (set_temp y2 a0 { o with val_type := TCGTempVal.REG, mem_coherent := false })
          o.reg (a0 : Int)
        if NEED_SYNC_ARG sa 0 then tcg_reg_sync cfg s4 o.reg else pure s4)
      (fun a =>
        host_movs a.out = host_movs s.out
        ∧ a.reg_to_temp[ts.reg]? = some (a0 : Int)
        ∧ (∃ o2 : TCGTemp, a.temps[a0]? = some o2 ∧ o2.val_type = TCGTempVal.REG
            ∧ o2.reg = ts.reg)
        ∧ a.temps[a1]? = some { ts with
            val_type := if a1 < s.nb_globals ∨ ts.temp_local = true then TCGTempVal.MEM
                        else TCGTempVal.DEAD }) := by
  have hl0 := getElem?_lt_length _ _ _ hy0
  have hl1 := getElem?_lt_length _ _ _ hy1
  have h1 : (set_temp y a0 { ots with reg := ts.reg }).temps[a1]? = some ts := by
    simp only [set_temp]
    rw [List.getElem?_set_ne hne]
    exact hy1
  simp only [post_bind_iff]
  apply post_mono _ _ _ (temp_dead_post _ a1 ts h1 htf)
  rintro y2 ⟨e1, e2, e3, e4⟩
  rw [post_rd_iff]
  intro o ho
  rw [e3] at ho
  simp only [set_temp] at ho
  rw [List.getElem?_set_ne (Ne.symm hne), List.getElem?_set_self hl0] at ho
  cases ho
  have hl2 : a0 < y2.temps.length := by
    rw [e3]
    simp only [set_temp, List.length_set]
    exact hl0
  have hl3 : a1 < y2.temps.length := by
    rw [e3]
    simp only [set_temp, List.length_set]
    exact hl1
  have hy21 : y2.temps[a1]? = some { ts with
      val_type := if a1 < s.nb_globals ∨ ts.temp_local = true then TCGTempVal.MEM
                  else TCGTempVal.DEAD } := by
    rw [e3]
    simp only [set_temp]
    rw [List.getElem?_set_self (by simp only [List.length_set]; exact hl1)]
    simp only [hg]
  have hout2 : host_movs y2.out = host_movs s.out := by
    rw [e1]
    simp only [set_temp]
    rw [hout]
  simp only [set_reg_to_temp, post_bind_iff, post_wr_iff, post_pure_iff]
  intro hlt
  rw [post_ite_iff]
  refine ⟨fun _ => ?_, fun _ => ?_⟩
  · refine post_mono _ _ _ (post_and _ _ _ (tcg_reg_sync_movs cfg _ ts.reg _ hout2)
      (tcg_reg_sync_stays cfg _ ts.reg a0 _ (List.getElem?_set_self hlt)
        (List.getElem?_set_self hl2))) ?_
    rintro a ⟨m1, r1, k1, o2, t1, t2, t3⟩
    refine ⟨m1, ?_, ⟨o2, t1, t2, t3⟩, ?_⟩
    · rw [r1]
      exact List.getElem?_set_self hlt
    · rw [k1 a1 (Ne.symm hne)]
      simp only [set_temp]
      rw [List.getElem?_set_ne hne]
      exact hy21
  · rw [post_pure_iff]
    refine ⟨hout2, List.getElem?_set_self hlt, ⟨_, List.getElem?_set_self hl2, rfl, rfl⟩, ?_⟩
    simp only [set_temp]
    rw [List.getElem?_set_ne hne]
    exact hy21

/-- the second part of `tcg_reg_alloc_mov` when the source is in a register and dies, and
neither temp is `fixed_reg`: the register changes hands -/
theorem mov_finish_rename (cfg : Config) (s : TCGContext) (a0 a1 : TCGArg) (otype : TCGType)
    (regs : TCGRegSet) (da sa : Nat) (ots ts : TCGTemp) (hne : a0 ≠ a1)
    (hots : s.temps[a0]? = some ots) (hts : s.temps[a1]? = some ts)
    (hd1 : IS_DEAD_ARG da 1 = true) (hd0 : IS_DEAD_ARG da 0 = false)
    (hof : ots.fixed_reg = false) (htf : ts.fixed_reg = false)
    (hreg : ts.val_type = TCGTempVal.REG) :
    Post (mov_finish cfg s a0 a1 otype regs da sa) (fun a =>
      host_movs a.out = host_movs s.out
      ∧ a.reg_to_temp[ts.reg]? = some (a0 : Int)
      ∧ (∃ o2 : TCGTemp, a.temps[a0]? = some o2 ∧ o2.val_type = TCGTempVal.REG
          ∧ o2.reg = ts.reg)
      ∧ a.temps[a1]? = some { ts with
          val_type := if a1 < s.nb_globals ∨ ts.temp_local = true then TCGTempVal.MEM
                      else TCGTempVal.DEAD }) := by
  have c1 : (IS_DEAD_ARG da 0 && !ots.fixed_reg) = false := by rw [hd0]; rfl
  have c2 : (ts.val_type == TCGTempVal.CONST) = false := by rw [hreg]; rfl
  have c3 : (ts.val_type != TCGTempVal.REG) = false := by rw [hreg]; rfl
  have c4 : (IS_DEAD_ARG da 1 && !ts.fixed_reg && !ots.fixed_reg) = true := by
    rw [hd1, htf, hof]; rfl
  unfold mov_finish
  rw [rd_of_getElem? _ _ _ hots, except_ok_bind, rd_of_getElem? _ _ _ hts, except_ok_bind]
  simp only [c1, c2, c3, c4, Bool.false_eq_true, if_false, if_true]
  rw [post_bind_iff, post_pure_iff, post_ite_iff]
  refine ⟨fun _ => ?_, fun _ => ?_⟩
  · rw [post_bind_iff]
    simp only [set_reg_to_temp, post_bind_iff, post_wr_iff, post_pure_iff]
    intro _
    have := mov_rename_tail cfg s { s with reg_to_temp := s.reg_to_temp.set ots.reg (-1) }
      a0 a1 sa ots ts hne hots hts rfl rfl htf
    simp only [set_reg_to_temp, post_bind_iff, post_wr_iff, post_pure_iff] at this
    exact this
  · rw [post_bind_iff, post_pure_iff]
    exact mov_rename_tail cfg s s a0 a1 sa ots ts hne hots hts rfl rfl htf

/-- the end of the renaming branch returns, and emits nothing, when the destination needs
no sync and the register of the source is a host register -/
theorem mov_rename_tail_returns (cfg : Config) (y : TCGContext) (a0 a1 : TCGArg) (sa : Nat)
    (ots ts : TCGTemp) (hne : a0 ≠ a1)
    (hy0 : y.temps[a0]? = some ots) (hy1 : y.temps[a1]? = some ts)
    (htf : ts.fixed_reg = false) (hreg : ts.val_type = TCGTempVal.REG)
    (hr : ts.reg < y.reg_to_temp.length) (hsa : NEED_SYNC_ARG sa 0 = false) :
    ∃ a, (do
        let y2 ← temp_dead (set_temp y a0 { ots with reg := ts.reg }) a1
        let o ← rd y2.temps a0
        let s4 ← set_reg_to_temp
          (set_temp y2 a0 { o with val_type := TCGTempVal.REG, mem_coherent := false })
          o.reg (a0 : Int)
        if NEED_SYNC_ARG sa 0 then tcg_reg_sync cfg s4 o.reg else pure s4) = Except.ok a
      ∧ a.out = y.out := by
  have hl0 := getElem?_lt_length _ _ _ hy0
  have h1 : (set_temp y a0 { ots with reg := ts.reg }).temps[a1]? = some ts := by
    simp only [set_temp]
    rw [List.getElem?_set_ne hne]
    exact hy1
  have hr1 : ts.reg < (set_temp y a0 { ots with reg := ts.reg }).reg_to_temp.length := hr
  rw [temp_dead_reg _ a1 ts h1 htf hreg hr1, except_ok_bind]
  simp only [set_temp]
  rw [rd_of_getElem? _ _ { ots with reg := ts.reg } (by
    rw [List.getElem?_set_ne (Ne.symm hne), List.getElem?_set_self hl0]), except_ok_bind]
  simp only [set_reg_to_temp]
  rw [wr_ok _ _ _ (by simp only [List.length_set]; exact hr), except_ok_bind]
  simp only [hsa, Bool.false_eq_true, if_false]
  exact ⟨_, rfl, rfl⟩

/-- C25: the renaming move.  In `tcg_reg_alloc_mov` of a destination `a0` and another temp
`a1` as source, when the source is flagged dead, is in a register or in memory, and is not
`fixed_reg`, and the destination is not `fixed_reg` and not flagged dead: whenever the
function returns, it has emitted no host register-to-register move, the destination is in
REG state in a register `r` whose `reg_to_temp` entry names the destination, the source
has that register and is in MEM state if it is a global or a local temp and DEAD otherwise,
and `r` is the register the source was in if it was in one.  If moreover the source was
in a host register, the destination needs no sync and, when in a register, is in a host
register, then the function returns and emits no instruction at all. -/
theorem mov_rename (cfg : Config) (s : TCGContext) (args : List TCGArg) (da sa : Nat)
    (a0 a1 : TCGArg) (ots ts : TCGTemp)
    (h0 : args[0]? = some a0) (h1 : args[1]? = some a1) (hne : a0 ≠ a1)
    (hots : s.temps[a0]? = some ots) (hts : s.temps[a1]? = some ts)
    (hd1 : IS_DEAD_ARG da 1 = true) (hd0 : IS_DEAD_ARG da 0 = false)
    (hof : ots.fixed_reg = false) (htf : ts.fixed_reg = false)
    (hv : ts.val_type = TCGTempVal.REG ∨ ts.val_type = TCGTempVal.MEM) :
    (∀ a, tcg_reg_alloc_mov cfg s args da sa = Except.ok a →
      host_movs a.out = host_movs s.out
      ∧ ∃ (r : Nat) (o2 t2 : TCGTemp), a.reg_to_temp[r]? = some (a0 : Int)
          ∧ a.temps[a0]? = some o2 ∧ o2.val_type = TCGTempVal.REG ∧ o2.reg = r
          ∧ a.temps[a1]? = some t2 ∧ t2.reg = r
          ∧ t2.val_type = (if a1 < s.nb_globals ∨ ts.temp_local = true then TCGTempVal.MEM
                           else TCGTempVal.DEAD)
          ∧ (ts.val_type = TCGTempVal.REG → r = ts.reg))
    ∧ (ts.val_type = TCGTempVal.REG → NEED_SYNC_ARG sa 0 = false →
        ts.reg < s.reg_to_temp.length →
        (ots.val_type = TCGTempVal.REG → ots.reg < s.reg_to_temp.length) →
        ∃ a, tcg_reg_alloc_mov cfg s args da sa = Except.ok a ∧ a.out = s.out) := by
  constructor
  · rcases hv with hreg | hmem
    · have hc : (((NEED_SYNC_ARG sa 0 || ots.fixed_reg) && ts.val_type != TCGTempVal.REG)
          || ts.val_type == TCGTempVal.MEM) = false := by
        rw [hreg]
        simp
      rw [mov_no_load cfg s args da sa a0 a1 ots ts h0 h1 hots hts hc]
      intro a ha
      obtain ⟨m, r1, ⟨o2, e1, e2, e3⟩, e4⟩ := (post_def _ _).mp
        (mov_finish_rename cfg s a0 a1 ots.type s.reserved_regs da sa ots ts hne hots hts
          hd1 hd0 hof htf hreg) a ha
      exact ⟨m, ts.reg, o2, _, r1, e1, e2, e3, e4, rfl, rfl, fun _ => rfl⟩
    · have hc : (((NEED_SYNC_ARG sa 0 || ots.fixed_reg) && ts.val_type != TCGTempVal.REG)
          || ts.val_type == TCGTempVal.MEM) = true := by
        rw [hmem]
        simp
      rw [mov_with_load cfg s args da sa a0 a1 ots ts h0 h1 hots hts hc]
      rw [← post_def, post_bind_iff]
      refine post_mono _ _ _ (post_and _ _ _
        (mov_load_movs cfg s a1 ts.type s.reserved_regs _ rfl)
        (mov_load_ev cfg s s a1 ts.type s.reserved_regs (ev_refl s) (Ev s) (fun _ h => h))) ?_
      rintro s1 ⟨⟨m1, t1, ht1, hreg1⟩, hev⟩
      have hl0 : a0 < s1.temps.length := by
        rw [hev.len]
        exact getElem?_lt_length _ _ _ hots
      have ho1 := List.getElem?_eq_getElem hl0
      obtain ⟨f0, _, _, _, _, _⟩ := hev.le a0 ots _ hots ho1
      obtain ⟨f1, l1, _, _, _, _⟩ := hev.le a1 ts t1 hts ht1
      refine post_mono _ _ _ (mov_finish_rename cfg s1 a0 a1 ots.type s.reserved_regs da sa
        _ t1 hne ho1 ht1 hd1 hd0 (by rw [f0]; exact hof) (by rw [f1]; exact htf) hreg1) ?_
      rintro a ⟨m, r1, ⟨o2, e1, e2, e3⟩, e4⟩
      refine ⟨m.trans m1, t1.reg, o2, _, r1, e1, e2, e3, e4, rfl, ?_, fun h => ?_⟩
      · simp only [hev.globals, l1]
      · rw [hmem] at h
        cases h
  · intro hreg hsa hr hor
    have hc : (((NEED_SYNC_ARG sa 0 || ots.fixed_reg) && ts.val_type != TCGTempVal.REG)
        || ts.val_type == TCGTempVal.MEM) = false := by
      rw [hreg]
      simp
    rw [mov_no_load cfg s args da sa a0 a1 ots ts h0 h1 hots hts hc]
    have c1 : (IS_DEAD_ARG da 0 && !ots.fixed_reg) = false := by rw [hd0]; rfl
    have c2 : (ts.val_type == TCGTempVal.CONST) = false := by rw [hreg]; rfl
    have c3 : (ts.val_type != TCGTempVal.REG) = false := by rw [hreg]; rfl
    have c4 : (IS_DEAD_ARG da 1 && !ts.fixed_reg && !ots.fixed_reg) = true := by
      rw [hd1, htf, hof]; rfl
    unfold mov_finish
    rw [rd_of_getElem? _ _ _ hots, except_ok_bind, rd_of_getElem? _ _ _ hts, except_ok_bind]
    simp only [c1, c2, c3, c4, Bool.false_eq_true, if_false, if_true]
    by_cases ho : ots.val_type = TCGTempVal.REG
    · have ho1 : (ots.val_type == TCGTempVal.REG) = true := by rw [ho]; rfl
      simp only [ho1, if_true, set_reg_to_temp]
      rw [wr_ok _ _ _ (hor ho)]
      exact mov_rename_tail_returns cfg { s with reg_to_temp := s.reg_to_temp.set ots.reg (-1) }
        a0 a1 sa ots ts hne hots hts htf hreg
        (by simp only [List.length_set]; exact hr) hsa
    · have ho1 : (ots.val_type == TCGTempVal.REG) = false := by
        simp only [beq_eq_false_iff_ne, ne_eq]
        exact ho
      simp only [ho1, Bool.false_eq_true, if_false]
      exact mov_rename_tail_returns cfg s a0 a1 sa ots ts hne hots hts htf hreg hr hsa

theorem mov_rename_witness :
    ∃ a, tcg_reg_alloc_mov exCfg exRename [2, 1] 2 0 = Except.ok a ∧ a.out = exRename.out :=
  (mov_rename exCfg exRename [2, 1] 2 0 2 1 (exTemp false 3)
    { exTemp false 0 with val_type := TCGTempVal.REG } rfl rfl (by decide) rfl rfl
    (by decide) (by decide) rfl rfl (Or.inl rfl)).2 rfl (by decide) (by decide)
    (by intro h; cases h)

/-- The claim C25 as it stands fails for a source that is `fixed_reg`: in `exRename` the
global, bound to host register 5 and in it, is flagged dead as the source of a move to the
scratch temp 2; the destination is given the free register 1 and a host move from register 5
is emitted. -/
theorem mov_rename_counterexample :
    ∃ a, tcg_reg_alloc_mov exCfg exRename [2, 0] 2 0 = Except.ok a
      ∧ a.out = exRename.out ++ [HostInsn.mov TCGType.I32 1 5]
      ∧ a.temps[2]? = some { exTemp false 1 with
          val_type := TCGTempVal.REG }
      ∧ a.temps[0]? = some { exTemp true 5 with val_type := TCGTempVal.REG } := by
  refine ⟨_, rfl, ?_, ?_, ?_⟩ <;> decide

/-! ### The stack arguments of a helper call -/

/-- an argument in memory, on the stack: a register is allocated, the argument is loaded
into it and stored at the offset of the slot -/
theorem call_stack_arg_mem (cfg : Config) (args : List TCGArg) (no : Nat)
    (p : TCGContext × Int) (i : Nat) (arg : TCGArg) (ts : TCGTemp) (s0 : TCGContext)
    (reg : Nat) (hup : cfg.TCG_TARGET_STACK_GROWSUP = false)
    (ha : args[no + i]? = some arg) (hd : arg ≠ cfg.TCG_CALL_DUMMY_ARG)
    (ht : p.1.temps[arg]? = some ts) (hm : ts.val_type = TCGTempVal.MEM)
    (hal : tcg_reg_alloc cfg p.1 (cfg.tcg_target_available_regs ts.type) p.1.reserved_regs
      = Except.ok (s0, reg)) :
    call_stack_arg cfg args no p i
      = Except.ok (tcg_out cfg
          (tcg_out cfg s0 (HostInsn.ld ts.type reg ts.mem_reg ts.mem_offset))
          (HostInsn.st ts.type reg cfg.TCG_REG_CALL_STACK p.2),
        p.2 + (cfg.sizeof_tcg_target_long : Int)) := by
  have hne : (arg != cfg.TCG_CALL_DUMMY_ARG) = true := by simpa using hd
  have ht0 : s0.temps[arg]? = some ts :=
    ((post_def _ _).mp (tcg_reg_alloc_ok cfg p.1 _ _ arg ts ht (by rw [hm]; intro h; cases h))
      (s0, reg) hal).2.2.2
  unfold call_stack_arg
  simp only [rd_of_getElem? _ _ _ ha, except_ok_bind, hup, Bool.false_eq_true, if_false,
    hne, if_true, rd_of_getElem? _ _ _ ht, hm, hal, rd_of_getElem? _ _ _ ht0, pure_bind]
  rfl

/-- a constant argument, on the stack: a register is allocated, the constant is loaded
into it and stored at the offset of the slot -/
theorem call_stack_arg_const (cfg : Config) (args : List TCGArg) (no : Nat)
    (p : TCGContext × Int) (i : Nat) (arg : TCGArg) (ts : TCGTemp) (s0 : TCGContext)
    (reg : Nat) (hup : cfg.TCG_TARGET_STACK_GROWSUP = false)
    (ha : args[no + i]? = some arg) (hd : arg ≠ cfg.TCG_CALL_DUMMY_ARG)
    (ht : p.1.temps[arg]? = some ts) (hm : ts.val_type = TCGTempVal.CONST)
    (hal : tcg_reg_alloc cfg p.1 (cfg.tcg_target_available_regs ts.type) p.1.reserved_regs
      = Except.ok (s0, reg)) :
    call_stack_arg cfg args no p i
      = Except.ok (tcg_out cfg
          (tcg_out cfg s0 (HostInsn.movi ts.type reg ts.val))
          (HostInsn.st ts.type reg cfg.TCG_REG_CALL_STACK p.2),
        p.2 + (cfg.sizeof_tcg_target_long : Int)) := by
  have hne : (arg != cfg.TCG_CALL_DUMMY_ARG) = true := by simpa using hd
  have ht0 : s0.temps[arg]? = some ts :=
    ((post_def _ _).mp (tcg_reg_alloc_ok cfg p.1 _ _ arg ts ht (by rw [hm]; intro h; cases h))
      (s0, reg) hal).2.2.2
  unfold call_stack_arg
  simp only [rd_of_getElem? _ _ _ ha, except_ok_bind, hup, Bool.false_eq_true, if_false,
    hne, if_true, rd_of_getElem? _ _ _ ht, hm, hal, rd_of_getElem? _ _ _ ht0, pure_bind]
  rfl

/-- an argument that is dead, on the stack: the function aborts -/
theorem call_stack_arg_dead (cfg : Config) (args : List TCGArg) (no : Nat)
    (p : TCGContext × Int) (i : Nat) (arg : TCGArg) (ts : TCGTemp)
    (ha : args[no + i]? = some arg) (hd : arg ≠ cfg.TCG_CALL_DUMMY_ARG)
    (ht : p.1.temps[arg]? = some ts) (hm : ts.val_type = TCGTempVal.DEAD) :
    call_stack_arg cfg args no p i = Except.error Fault.abort := by
  have hne : (arg != cfg.TCG_CALL_DUMMY_ARG) = true := by simpa using hd
  unfold call_stack_arg
  simp only [rd_of_getElem? _ _ _ ha, except_ok_bind, hne, if_true, rd_of_getElem? _ _ _ ht, hm]
  rfl

/-- the loop over the stack arguments, cut at the input `n + j` -/
theorem call_stack_fold_split {α : Type} (f : α → Nat → Except Fault α) (n k j : Nat)
    (hj : j < k) (p : α) :
    (List.range' n k).foldlM f p
      = (List.range' n j).foldlM f p >>= fun q =>
          f q (n + j) >>= fun r => (List.range' (n + j + 1) (k - j - 1)).foldlM f r := by
  have e : List.range' n k = List.range' n j ++ (n + j) :: List.range' (n + j + 1) (k - j - 1) := by
    have h1 : k = ((k - j - 1) + 1) + j := by omega
    conv_lhs => rw [h1]
    rw [← List.range'_append_1, List.range'_succ]
  rw [e, List.foldlM_append]
  simp only [List.foldlM_cons]

/-- a register argument that is dead: the function aborts -/
theorem call_reg_arg_dead (cfg : Config) (args : List TCGArg) (no : Nat)
    (p : TCGContext × TCGRegSet) (i : Nat) (arg : TCGArg) (reg : Nat) (s1 : TCGContext)
    (ts : TCGTemp) (ha : args[no + i]? = some arg) (hd : arg ≠ cfg.TCG_CALL_DUMMY_ARG)
    (hr : cfg.tcg_target_call_iarg_regs[i]? = some reg)
    (hf : tcg_reg_free cfg p.1 reg = Except.ok s1)
    (ht : s1.temps[arg]? = some ts) (hm : ts.val_type = TCGTempVal.DEAD) :
    call_reg_arg cfg args no p i = Except.error Fault.abort := by
  have hne : (arg != cfg.TCG_CALL_DUMMY_ARG) = true := by simpa using hd
  unfold call_reg_arg
  simp only [rd_of_getElem? _ _ _ ha, except_ok_bind, hne, if_true, rd_of_getElem? _ _ _ hr,
    hf, rd_of_getElem? _ _ _ ht, hm]
  rfl

/-- C36, amended.  On a host whose stack does not grow up: the number of arguments passed
in registers is the smaller of `nb_iargs` and the number of `tcg_target_call_iarg_regs`;
`tcg_reg_alloc_call` aborts if the size of the remaining arguments, rounded up to
`TCG_TARGET_STACK_ALIGN`, exceeds `TCG_STATIC_CALL_ARGS_SIZE`; the input `j` at or above
that number is handled with the stack offset
`TCG_TARGET_CALL_STACK_OFFSET + (j - nb_regs) * sizeof(tcg_target_long)`, an argument in
a register being stored there by one store from `TCG_REG_CALL_STACK`; an input below that
number is placed in `tcg_target_call_iarg_regs[j]`, freed first, by a move (none if it is
there already), a load or a load of its constant; and an input slot holding
`TCG_CALL_DUMMY_ARG` emits nothing, while its stack slot or its register is passed over.
A stack argument that is in memory, or a constant, is first put in a register that
`tcg_reg_alloc` returns, by a load or a load of the constant, and that register is stored
at the offset of the slot; a stack or register argument in DEAD state makes the function
abort.  The loop over the stack arguments is the loop up to the input `j`, then the step
of the input `j`, which starts at the offset above, then the loop over the inputs that
follow. -/
theorem call_args_layout (cfg : Config) (s : TCGContext) (no ni : Nat) (args : List TCGArg)
    (dead_args : Nat) (fl : TCGArg)
    (hup : cfg.TCG_TARGET_STACK_GROWSUP = false)
    (hfl : args[no + ni + 1]? = some fl) :
    (if cfg.tcg_target_call_iarg_regs.length > ni then ni
      else cfg.tcg_target_call_iarg_regs.length) = min ni cfg.tcg_target_call_iarg_regs.length
    ∧ ((ni - min ni cfg.tcg_target_call_iarg_regs.length) * cfg.sizeof_tcg_target_long
          + cfg.TCG_TARGET_STACK_ALIGN - 1
        - ((ni - min ni cfg.tcg_target_call_iarg_regs.length) * cfg.sizeof_tcg_target_long
            + cfg.TCG_TARGET_STACK_ALIGN - 1) % cfg.TCG_TARGET_STACK_ALIGN
          > cfg.TCG_STATIC_CALL_ARGS_SIZE →
        tcg_reg_alloc_call_setup cfg s no ni args dead_args = Except.error Fault.abort)
    ∧ (∀ j, min ni cfg.tcg_target_call_iarg_regs.length ≤ j →
        Post ((List.range' (min ni cfg.tcg_target_call_iarg_regs.length)
                (j - min ni cfg.tcg_target_call_iarg_regs.length)).foldlM
              (call_stack_arg cfg args no) (s, cfg.TCG_TARGET_CALL_STACK_OFFSET))
          (fun q => q.2 = cfg.TCG_TARGET_CALL_STACK_OFFSET
            + ((j - min ni cfg.tcg_target_call_iarg_regs.length : Nat) : Int)
              * (cfg.sizeof_tcg_target_long : Int)))
    ∧ (∀ (p : TCGContext × Int) (j : Nat),
        args[no + j]? = some cfg.TCG_CALL_DUMMY_ARG →
        call_stack_arg cfg args no p j
          = Except.ok (p.1, p.2 + (cfg.sizeof_tcg_target_long : Int)))
    ∧ (∀ (p : TCGContext × Int) (j : Nat) (arg : TCGArg) (ts : TCGTemp),
        args[no + j]? = some arg → arg ≠ cfg.TCG_CALL_DUMMY_ARG →
        p.1.temps[arg]? = some ts → ts.val_type = TCGTempVal.REG →
        call_stack_arg cfg args no p j
          = Except.ok (tcg_out cfg p.1
              (HostInsn.st ts.type ts.reg cfg.TCG_REG_CALL_STACK p.2),
            p.2 + (cfg.sizeof_tcg_target_long : Int)))
    ∧ (∀ (p : TCGContext × TCGRegSet) (j : Nat),
        args[no + j]? = some cfg.TCG_CALL_DUMMY_ARG →
        call_reg_arg cfg args no p j = Except.ok p)
    ∧ (∀ (p : TCGContext × TCGRegSet) (j : Nat) (arg : TCGArg),
        args[no + j]? = some arg → arg ≠ cfg.TCG_CALL_DUMMY_ARG →
        Post (call_reg_arg cfg args no p j) (fun q =>
          ∃ reg s1 ts, cfg.tcg_target_call_iarg_regs[j]? = some reg
            ∧ tcg_reg_free cfg p.1 reg = Except.ok s1 ∧ s1.temps[arg]? = some ts
            ∧ q.2 = tcg_regset_set_reg p.2 reg
            ∧ ((ts.val_type = TCGTempVal.REG ∧ ts.reg = reg ∧ q.1 = s1)
              ∨ (ts.val_type = TCGTempVal.REG ∧ ts.reg ≠ reg
                  ∧ q.1 = tcg_out cfg s1 (HostInsn.mov ts.type reg ts.reg))
              ∨ (ts.val_type = TCGTempVal.MEM
                  ∧ q.1 = tcg_out cfg s1 (HostInsn.ld ts.type reg ts.mem_reg ts.mem_offset))
              ∨ (ts.val_type = TCGTempVal.CONST
                  ∧ q.1 = tcg_out cfg s1 (HostInsn.movi ts.type reg ts.val)))))
    ∧ (∀ (p : TCGContext × Int) (j : Nat) (arg : TCGArg) (ts : TCGTemp) (s0 : TCGContext)
        (reg : Nat),
        args[no + j]? = some arg → arg ≠ cfg.TCG_CALL_DUMMY_ARG →
        p.1.temps[arg]? = some ts → ts.val_type = TCGTempVal.MEM →
        tcg_reg_alloc cfg p.1 (cfg.tcg_target_available_regs ts.type) p.1.reserved_regs
          = Except.ok (s0, reg) →
        call_stack_arg cfg args no p j
          = Except.ok (tcg_out cfg
              (tcg_out cfg s0 (HostInsn.ld ts.type reg ts.mem_reg ts.mem_offset))
              (HostInsn.st ts.type reg cfg.TCG_REG_CALL_STACK p.2),
            p.2 + (cfg.sizeof_tcg_target_long : Int)))
    ∧ (∀ (p : TCGContext × Int) (j : Nat) (arg : TCGArg) (ts : TCGTemp) (s0 : TCGContext)
        (reg : Nat),
        args[no + j]? = some arg → arg ≠ cfg.TCG_CALL_DUMMY_ARG →
        p.1.temps[arg]? = some ts → ts.val_type = TCGTempVal.CONST →
        tcg_reg_alloc cfg p.1 (cfg.tcg_target_available_regs ts.type) p.1.reserved_regs
          = Except.ok (s0, reg) →
        call_stack_arg cfg args no p j
          = Except.ok (tcg_out cfg
              (tcg_out cfg s0 (HostInsn.movi ts.type reg ts.val))
              (HostInsn.st ts.type reg cfg.TCG_REG_CALL_STACK p.2),
            p.2 + (cfg.sizeof_tcg_target_long : Int)))
    ∧ (∀ (p : TCGContext × Int) (j : Nat) (arg : TCGArg) (ts : TCGTemp),
        args[no + j]? = some arg → arg ≠ cfg.TCG_CALL_DUMMY_ARG →
        p.1.temps[arg]? = some ts → ts.val_type = TCGTempVal.DEAD →
        call_stack_arg cfg args no p j = Except.error Fault.abort)
    ∧ (∀ (p : TCGContext × TCGRegSet) (j : Nat) (arg : TCGArg) (reg : Nat) (s1 : TCGContext)
        (ts : TCGTemp),
        args[no + j]? = some arg → arg ≠ cfg.TCG_CALL_DUMMY_ARG →
        cfg.tcg_target_call_iarg_regs[j]? = some reg →
        tcg_reg_free cfg p.1 reg = Except.ok s1 →
        s1.temps[arg]? = some ts → ts.val_type = TCGTempVal.DEAD →
        call_reg_arg cfg args no p j = Except.error Fault.abort)
    ∧ (∀ j, min ni cfg.tcg_target_call_iarg_regs.length ≤ j → j < ni →
        (List.range' (min ni cfg.tcg_target_call_iarg_regs.length)
            (ni - min ni cfg.tcg_target_call_iarg_regs.length)).foldlM
          (call_stack_arg cfg args no) (s, cfg.TCG_TARGET_CALL_STACK_OFFSET)
        = (List.range' (min ni cfg.tcg_target_call_iarg_regs.length)
              (j - min ni cfg.tcg_target_call_iarg_regs.length)).foldlM
            (call_stack_arg cfg args no) (s, cfg.TCG_TARGET_CALL_STACK_OFFSET)
          >>= fun q => call_stack_arg cfg args no q j
          >>= fun r => (List.range' (j + 1) (ni - j - 1)).foldlM
            (call_stack_arg cfg args no) r) := by
  have hmin : (if cfg.tcg_target_call_iarg_regs.length > ni then ni
      else cfg.tcg_target_call_iarg_regs.length) = min ni cfg.tcg_target_call_iarg_regs.length := by
    split <;> omega
  refine ⟨hmin, ?_, ?_, ?_, ?_, ?_, ?_, ?_, ?_, ?_, ?_, ?_⟩
  · intro hbig
    unfold tcg_reg_alloc_call_setup
    simp only [rd_of_getElem? _ _ _ hfl, except_ok_bind, hmin]
    rw [if_pos hbig]
    rfl
  · intro j _
    have := call_stack_fold_offset cfg args no hup (min ni cfg.tcg_target_call_iarg_regs.length)
      (j - min ni cfg.tcg_target_call_iarg_regs.length) (s, cfg.TCG_TARGET_CALL_STACK_OFFSET)
    exact this
  · intro p j ha
    exact call_stack_arg_dummy cfg args no p j hup ha
  · intro p j arg ts ha hd ht hr
    exact call_stack_arg_reg cfg args no p j arg ts hup ha hd ht hr
  · intro p j ha
    exact call_reg_arg_dummy cfg args no p j ha
  · intro p j arg ha hd
    exact call_reg_arg_place cfg args no p j arg ha hd
  · intro p j arg ts s0 reg ha hd ht hm hal
    exact call_stack_arg_mem cfg args no p j arg ts s0 reg hup ha hd ht hm hal
  · intro p j arg ts s0 reg ha hd ht hm hal
    exact call_stack_arg_const cfg args no p j arg ts s0 reg hup ha hd ht hm hal
  · intro p j arg ts ha hd ht hm
    exact call_stack_arg_dead cfg args no p j arg ts ha hd ht hm
  · intro p j arg reg s1 ts ha hd hr hf ht hm
    exact call_reg_arg_dead cfg args no p j arg reg s1 ts ha hd hr hf ht hm
  · intro j h1 h2
    have := call_stack_fold_split (call_stack_arg cfg args no)
      (min ni cfg.tcg_target_call_iarg_regs.length)
      (ni - min ni cfg.tcg_target_call_iarg_regs.length)
      (j - min ni cfg.tcg_target_call_iarg_regs.length) (by omega)
      (s, cfg.TCG_TARGET_CALL_STACK_OFFSET)
    have e1 : min ni cfg.tcg_target_call_iarg_regs.length
        + (j - min ni cfg.tcg_target_call_iarg_regs.length) = j := by omega
    have e2 : ni - min ni cfg.tcg_target_call_iarg_regs.length
        - (j - min ni cfg.tcg_target_call_iarg_regs.length) - 1 = ni - j - 1 := by omega
    rw [e1, e2] at this
    exact this

theorem call_args_layout_witness :
    exCfg.TCG_TARGET_STACK_GROWSUP = false
    ∧ exCallStackArgs[0 + 6 + 1]? = some 0x70
    ∧ min 6 exCfg.tcg_target_call_iarg_regs.length = 2
    ∧ call_stack_arg exCfg exCallStackArgs 0 (exCallStack, 0) 2
        = Except.ok (tcg_out exCfg exCallStack (HostInsn.st TCGType.I32 3 7 0), 8)
    ∧ call_stack_arg exCfg exCallStackArgs 0 (exCallStack, 8) 3 = Except.ok (exCallStack, 16)
    ∧ call_stack_arg exCfg exCallStackArgs 0 (exCallStack, 16) 4
        = Except.ok (tcg_out exCfg (tcg_out exCfg exCallStack (HostInsn.ld TCGType.I32 0 6 40))
            (HostInsn.st TCGType.I32 0 7 16), 24)
    ∧ call_stack_arg exCfg exCallStackArgs 0 (exCallStack, 24) 5
        = Except.ok (tcg_out exCfg (tcg_out exCfg exCallStack (HostInsn.movi TCGType.I32 0 9))
            (HostInsn.st TCGType.I32 0 7 24), 32)
    ∧ (tcg_reg_alloc_call_setup exCfg exCallStack 0 6 exCallStackArgs 0).map (fun s => s.out)
        = Except.ok [HostInsn.st TCGType.I32 3 7 0,
            HostInsn.ld TCGType.I32 0 6 40, HostInsn.st TCGType.I32 0 7 16,
            HostInsn.movi TCGType.I32 0 9, HostInsn.st TCGType.I32 0 7 24,
            HostInsn.mov TCGType.I32 0 3, HostInsn.ld TCGType.I32 1 6 40] :=
  have h := call_args_layout exCfg exCallStack 0 6 exCallStackArgs 0 0x70 rfl rfl
  ⟨rfl, rfl, by decide,
   h.2.2.2.2.1 (exCallStack, 0) 2 1 _ rfl (by decide) rfl rfl,
   h.2.2.2.1 (exCallStack, 8) 3 rfl,
   h.2.2.2.2.2.2.2.1 (exCallStack, 16) 4 2 _ exCallStack 0 rfl (by decide) rfl rfl (by decide),
   h.2.2.2.2.2.2.2.2.1 (exCallStack, 24) 5 3 _ exCallStack 0 rfl (by decide) rfl rfl
     (by decide),
   by decide⟩


/-! ### The loop of `tcg_gen_code` and the high-water mark -/

theorem gen_op_buf_kept (cfg : Config) (s : TCGContext) (n : Int) (oi : Nat)
    (r : TCGContext × Int) (h : gen_op cfg s n oi = Except.ok r) :
    core r.1 = core s ∧ s.code_ptr ≤ r.1.code_ptr :=
  ⟨(post_def _ _).mp (gen_op_frame cfg s n oi (fun a => core a.1 = core s) (fun _ h => h)) r h,
   (post_def _ _).mp (gen_op_mono cfg s n oi (fun a => s.code_ptr ≤ a.1.code_ptr)
     (fun _ h => h)) r h⟩

/-- the loop of `tcg_gen_code` hands the ops of the list to the switch in list order -/
theorem gen_loop_eq (cfg : Config) :
    ∀ (fuel : Nat) (s : TCGContext) (n : Int) (oi : Int) (l : List Nat),
      walk_next s.gen_op_buf fuel oi = some l →
      gen_loop cfg fuel s n oi = gen_ops cfg l s n := by
  intro fuel
  induction fuel with
  | zero =>
    intro s n oi l h
    unfold walk_next at h
    by_cases hoi : oi < 0
    · rw [if_pos hoi] at h
      cases h
      unfold gen_loop gen_ops
      rw [if_pos hoi]
    · rw [if_neg hoi] at h
      cases h
  | succ fuel ih =>
    intro s n oi l h
    unfold walk_next at h
    by_cases hoi : oi < 0
    · rw [if_pos hoi] at h
      cases h
      unfold gen_loop gen_ops
      rw [if_pos hoi]
    · rw [if_neg hoi] at h
      cases hb : s.gen_op_buf[oi.toNat]? with
      | none =>
        rw [hb] at h
        cases h
      | some op =>
        rw [hb] at h
        simp only [Option.map_eq_some'] at h
        obtain ⟨l1, hl1, rfl⟩ := h
        unfold gen_loop
        rw [if_neg hoi, rd_of_getElem? _ _ _ hb, except_ok_bind]
        unfold gen_ops
        cases hg : gen_op cfg s n oi.toNat with
        | error e => rfl
        | ok r =>
          simp only [except_ok_bind]
          by_cases hov : r.1.code_ptr > r.1.code_gen_highwater
          · rw [if_pos hov, if_pos hov]
          · rw [if_neg hov, if_neg hov]
            apply ih
            have hc := congrArg TCGContext.gen_op_buf (gen_op_buf_kept cfg s n _ r hg).1
            have hc1 : r.1.gen_op_buf = s.gen_op_buf := hc
            rw [hc1]
            exact hl1

theorem gen_ops_cons (cfg : Config) (oi : Nat) (l : List Nat) (s : TCGContext) (n : Int) :
    gen_ops cfg (oi :: l) s n
      = gen_op cfg s n oi >>= fun r =>
          if r.1.code_ptr > r.1.code_gen_highwater then pure (GenLoop.overflow r.1)
          else gen_ops cfg l r.1 r.2 := rfl

theorem gen_ops_append (cfg : Config) (l1 l2 : List Nat) :
    ∀ (s : TCGContext) (n : Int),
      gen_ops cfg (l1 ++ l2) s n
        = gen_ops cfg l1 s n >>= fun r => match r with
            | GenLoop.overflow s5 => pure (GenLoop.overflow s5)
            | GenLoop.done sk nk => gen_ops cfg l2 sk nk := by
  induction l1 with
  | nil =>
    intro s n
    rfl
  | cons oi t ih =>
    intro s n
    rw [List.cons_append, gen_ops_cons, gen_ops_cons]
    cases hg : gen_op cfg s n oi with
    | error e => rfl
    | ok r =>
      simp only [except_ok_bind]
      by_cases hov : r.1.code_ptr > r.1.code_gen_highwater
      · rw [if_pos hov, if_pos hov]
        rfl
      · rw [if_neg hov, if_neg hov]
        exact ih r.1 r.2

/-- the loop stops at the first op that leaves `code_ptr` above the high-water mark -/
theorem gen_ops_overflow_iff (cfg : Config) (l : List Nat) :
    ∀ (s : TCGContext) (n : Int) (s5 : TCGContext),
      gen_ops cfg l s n = Except.ok (GenLoop.overflow s5)
        ↔ ∃ (l1 : List Nat) (oi : Nat) (l2 : List Nat) (sk : TCGContext) (nk nk1 : Int),
            l = l1 ++ oi :: l2 ∧ gen_ops cfg l1 s n = Except.ok (GenLoop.done sk nk)
            ∧ gen_op cfg sk nk oi = Except.ok (s5, nk1)
            ∧ s5.code_ptr > s5.code_gen_highwater := by
  intro s n s5
  constructor
  · induction l generalizing s n with
    | nil =>
      intro h
      cases h
    | cons oi t ih =>
      intro h
      unfold gen_ops at h
      cases hg : gen_op cfg s n oi with
      | error e =>
        rw [hg] at h
        cases h
      | ok r =>
        rw [hg] at h
        simp only [except_ok_bind] at h
        by_cases hov : r.1.code_ptr > r.1.code_gen_highwater
        · rw [if_pos hov] at h
          cases h
          exact ⟨[], oi, t, s, n, r.2, rfl, rfl, hg, hov⟩
        · rw [if_neg hov] at h
          obtain ⟨l1, oj, l2, sk, nk, nk1, e, h1, h2, h3⟩ := ih r.1 r.2 h
          refine ⟨oi :: l1, oj, l2, sk, nk, nk1, by rw [e]; rfl, ?_, h2, h3⟩
          unfold gen_ops
          rw [hg]
          simp only [except_ok_bind]
          rw [if_neg hov]
          exact h1
  · rintro ⟨l1, oi, l2, sk, nk, nk1, e, h1, h2, h3⟩
    rw [e, gen_ops_append, h1]
    simp only [except_ok_bind]
    unfold gen_ops
    rw [h2]
    simp only [except_ok_bind]
    rw [if_pos h3]
    rfl

/-- a run of the loop to the end of the list has handed each op of the list to the
switch, none of them leaving `code_ptr` above the high-water mark -/
theorem gen_ops_done_all (cfg : Config) (l1 : List Nat) (oi : Nat) (l2 : List Nat)
    (s : TCGContext) (n : Int) (s5 : TCGContext) (n5 : Int)
    (h : gen_ops cfg (l1 ++ oi :: l2) s n = Except.ok (GenLoop.done s5 n5)) :
    ∃ (sk : TCGContext) (nk : Int) (r : TCGContext × Int),
      gen_ops cfg l1 s n = Except.ok (GenLoop.done sk nk)
      ∧ gen_op cfg sk nk oi = Except.ok r
      ∧ ¬ r.1.code_ptr > r.1.code_gen_highwater
      ∧ gen_ops cfg l2 r.1 r.2 = Except.ok (GenLoop.done s5 n5) := by
  rw [gen_ops_append] at h
  cases h1 : gen_ops cfg l1 s n with
  | error e =>
    rw [h1] at h
    cases h
  | ok r1 =>
    rw [h1] at h
    simp only [except_ok_bind] at h
    cases r1 with
    | overflow sk =>
      cases h
    | done sk nk =>
      simp only [] at h
      unfold gen_ops at h
      cases hg : gen_op cfg sk nk oi with
      | error e =>
        rw [hg] at h
        cases h
      | ok r =>
        rw [hg] at h
        simp only [except_ok_bind] at h
        by_cases hov : r.1.code_ptr > r.1.code_gen_highwater
        · rw [if_pos hov] at h
          cases h
        · rw [if_neg hov] at h
          exact ⟨sk, nk, r, rfl, hg, hov, h⟩

theorem gen_ops_inv (cfg : Config) (l : List Nat) :
    ∀ (s : TCGContext) (n : Int) (r : GenLoop), gen_ops cfg l s n = Except.ok r →
      core r.ctx = core s ∧ s.code_ptr ≤ r.ctx.code_ptr := by
  induction l with
  | nil =>
    intro s n r h
    cases h
    exact ⟨rfl, Nat.le_refl _⟩
  | cons oi t ih =>
    intro s n r h
    unfold gen_ops at h
    cases hg : gen_op cfg s n oi with
    | error e =>
      rw [hg] at h
      cases h
    | ok p =>
      rw [hg] at h
      simp only [except_ok_bind] at h
      obtain ⟨k1, k2⟩ := gen_op_buf_kept cfg s n oi p hg
      by_cases hov : p.1.code_ptr > p.1.code_gen_highwater
      · rw [if_pos hov] at h
        cases h
        exact ⟨k1, k2⟩
      · rw [if_neg hov] at h
        obtain ⟨j1, j2⟩ := ih p.1 p.2 r h
        exact ⟨j1.trans k1, Nat.le_trans k2 j2⟩

theorem tcg_gen_code_eq (cfg : Config) (s : TCGContext) (gen_code_buf : Nat)
    (s1 : TCGContext) (l : List Nat)
    (hl : tcg_liveness_analysis cfg (cfg.tcg_optimize s) = some s1)
    (hw : walk_next s1.gen_op_buf s1.gen_op_buf.length s1.gen_first_op_idx = some l) :
    tcg_gen_code cfg s gen_code_buf
      = gen_ops cfg l (gen_entry cfg s1 gen_code_buf) (-1) >>= gen_finish cfg := by
  unfold tcg_gen_code
  simp only [hl]
  have hw1 : walk_next (gen_entry cfg s1 gen_code_buf).gen_op_buf
      (gen_entry cfg s1 gen_code_buf).gen_op_buf.length
      (gen_entry cfg s1 gen_code_buf).gen_first_op_idx = some l := hw
  have := gen_loop_eq cfg _ (gen_entry cfg s1 gen_code_buf) (-1) _ l hw1
  show (gen_loop cfg (gen_entry cfg s1 gen_code_buf).gen_op_buf.length
      (gen_entry cfg s1 gen_code_buf) (-1) (gen_entry cfg s1 gen_code_buf).gen_first_op_idx
      >>= _) = _
  rw [this]
  rfl

/-- C9: the high-water mark in `tcg_gen_code`.  When the liveness pass returns and the
traversal of the op list along `next` ends, giving the list `l` of ops: `tcg_gen_code` hands
the ops of `l` to its switch in list order, up to and including the first op that leaves
`code_ptr` strictly above `code_gen_highwater`.  It returns -1 exactly when there is such
an op; it then returns the context that op left, no later op having been processed and
`tcg_out_tb_finalize` not having been called.  Otherwise every op of `l` has been
processed in order, none leaving `code_ptr` above the mark, and `tcg_gen_code` records the
end of the last instruction, calls `tcg_out_tb_finalize` and returns the size
`code_ptr - code_buf`, which is not negative. -/
theorem gen_code_highwater (cfg : Config) (s : TCGContext) (gen_code_buf : Nat)
    (s1 : TCGContext) (l : List Nat)
    (hl : tcg_liveness_analysis cfg (cfg.tcg_optimize s) = some s1)
    (hw : walk_next s1.gen_op_buf s1.gen_op_buf.length s1.gen_first_op_idx = some l) :
    tcg_gen_code cfg s gen_code_buf
      = (gen_ops cfg l (gen_entry cfg s1 gen_code_buf) (-1) >>= gen_finish cfg)
    ∧ (∀ v s2, tcg_gen_code cfg s gen_code_buf = Except.ok (v, s2) →
        (v = -1 ↔ gen_ops cfg l (gen_entry cfg s1 gen_code_buf) (-1)
          = Except.ok (GenLoop.overflow s2)))
    ∧ (∀ s5, gen_ops cfg l (gen_entry cfg s1 gen_code_buf) (-1)
          = Except.ok (GenLoop.overflow s5)
        ↔ ∃ (l1 : List Nat) (oi : Nat) (l2 : List Nat) (sk : TCGContext) (nk nk1 : Int),
            l = l1 ++ oi :: l2
            ∧ gen_ops cfg l1 (gen_entry cfg s1 gen_code_buf) (-1)
                = Except.ok (GenLoop.done sk nk)
            ∧ gen_op cfg sk nk oi = Except.ok (s5, nk1)
            ∧ s5.code_ptr > s5.code_gen_highwater)
    ∧ (∀ s5, gen_ops cfg l (gen_entry cfg s1 gen_code_buf) (-1)
          = Except.ok (GenLoop.overflow s5) →
        tcg_gen_code cfg s gen_code_buf = Except.ok (-1, s5)
        ∧ s5.out.filter (fun i => i == HostInsn.tb_finalize)
            = s1.out.filter (fun i => i == HostInsn.tb_finalize))
    ∧ (∀ s5 n, gen_ops cfg l (gen_entry cfg s1 gen_code_buf) (-1)
          = Except.ok (GenLoop.done s5 n) →
        (∀ l1 oi l2, l = l1 ++ oi :: l2 →
          ∃ (sk : TCGContext) (nk : Int) (r : TCGContext × Int),
            gen_ops cfg l1 (gen_entry cfg s1 gen_code_buf) (-1)
              = Except.ok (GenLoop.done sk nk)
            ∧ gen_op cfg sk nk oi = Except.ok r
            ∧ ¬ r.1.code_ptr > r.1.code_gen_highwater
            ∧ gen_ops cfg l2 r.1 r.2 = Except.ok (GenLoop.done s5 n))
        ∧ (0 ≤ n → n.toNat < s5.gen_insn_end_off.length →
            tcg_gen_code cfg s gen_code_buf
              = Except.ok (((s5.code_ptr + cfg.insn_size HostInsn.tb_finalize : Nat) : Int)
                    - (s5.code_buf : Int),
                  tcg_out cfg { s5 with gen_insn_end_off :=
                    s5.gen_insn_end_off.set n.toNat (s5.code_ptr - s5.code_buf) }
                    HostInsn.tb_finalize))
        ∧ (∀ v s2, tcg_gen_code cfg s gen_code_buf = Except.ok (v, s2) →
            v = (s2.code_ptr : Int) - (s2.code_buf : Int) ∧ 0 ≤ v
            ∧ s2.out = s5.out ++ [HostInsn.tb_finalize])) := by
  have heq := tcg_gen_code_eq cfg s gen_code_buf s1 l hl hw
  have hdone : ∀ s5 n, gen_ops cfg l (gen_entry cfg s1 gen_code_buf) (-1)
      = Except.ok (GenLoop.done s5 n) →
      ∀ v s2, tcg_gen_code cfg s gen_code_buf = Except.ok (v, s2) →
        v = (s2.code_ptr : Int) - (s2.code_buf : Int) ∧ 0 ≤ v
        ∧ s2.out = s5.out ++ [HostInsn.tb_finalize] := by
    intro s5 n h v s2 hr
    obtain ⟨hc, hm⟩ := gen_ops_inv cfg l _ _ _ h
    have hb : s5.code_buf = gen_code_buf := congrArg TCGContext.code_buf hc
    have hp : gen_code_buf ≤ s5.code_ptr := by
      refine Nat.le_trans ?_ hm
      show gen_code_buf ≤ gen_code_buf + _
      exact Nat.le_add_right _ _
    rw [heq, h, except_ok_bind] at hr
    unfold gen_finish at hr
    by_cases hn : n < 0
    · simp only [if_pos hn] at hr
      cases hr
    · by_cases hlt : n.toNat < s5.gen_insn_end_off.length
      · simp only [if_neg hn, wr_ok _ _ _ hlt, pure_bind, except_ok_bind] at hr
        cases hr
        refine ⟨rfl, ?_, rfl⟩
        simp only [tcg_out]
        rw [hb]
        omega
      · simp only [if_neg hn, wr_oob _ _ _ (Nat.le_of_not_lt hlt), pure_bind,
          except_error_bind] at hr
        cases hr
  refine ⟨heq, ?_, ?_, ?_, ?_⟩
  · intro v s2 hr
    constructor
    · intro hv
      cases hg : gen_ops cfg l (gen_entry cfg s1 gen_code_buf) (-1) with
      | error e =>
        rw [heq, hg] at hr
        cases hr
      | ok r =>
        cases r with
        | overflow s5 =>
          rw [heq, hg, except_ok_bind] at hr
          cases hr
          rfl
        | done s5 n =>
          have := (hdone s5 n hg v s2 hr).2.1
          omega
    · intro hg
      rw [heq, hg, except_ok_bind] at hr
      cases hr
      rfl
  · intro s5
    exact gen_ops_overflow_iff cfg l _ _ s5
  · intro s5 hg
    refine ⟨by rw [heq, hg]; rfl, ?_⟩
    obtain ⟨hc, _⟩ := gen_ops_inv cfg l _ _ _ hg
    have := congrArg TCGContext.out hc
    simp only [core, coreL, GenLoop.ctx, gen_entry, tcg_out, tcg_reg_alloc_start] at this
    rw [this, List.filter_append]
    simp
  · intro s5 n hg
    refine ⟨?_, ?_, hdone s5 n hg⟩
    · intro l1 oi l2 e
      rw [e] at hg
      exact gen_ops_done_all cfg l1 oi l2 _ _ s5 n hg
    · intro hn hlt
      rw [heq, hg, except_ok_bind]
      unfold gen_finish
      simp only [if_neg (not_lt.mpr hn), wr_ok _ _ _ hlt, pure_bind, except_ok_bind]
      simp only [tcg_out]
      rfl

theorem gen_code_highwater_witness :
    tcg_liveness_analysis exCfg (exCfg.tcg_optimize exMoviFull)
      = some ((tcg_liveness_analysis exCfg exMoviFull).getD exMoviFull)
    ∧ walk_next ((tcg_liveness_analysis exCfg exMoviFull).getD exMoviFull).gen_op_buf
        ((tcg_liveness_analysis exCfg exMoviFull).getD exMoviFull).gen_op_buf.length
        ((tcg_liveness_analysis exCfg exMoviFull).getD exMoviFull).gen_first_op_idx
      = some [0, 2]
    ∧ tcg_gen_code exCfg exMoviFull 0
      = (gen_ops exCfg [0, 2]
          (gen_entry exCfg ((tcg_liveness_analysis exCfg exMoviFull).getD exMoviFull) 0) (-1)
        >>= gen_finish exCfg)
    ∧ (tcg_gen_code exCfg exMoviFull 0).map (fun r => (r.1, r.2.out))
      = Except.ok (-1, [HostInsn.tb_init])
    ∧ (tcg_gen_code exCfg exMoviDead 0).map (fun r => (r.1, r.2.out))
      = Except.ok (12, [HostInsn.tb_init, HostInsn.op (TCGOpcode.other 0) [some 0, none, none, none]
            [none, none, none, none],
          HostInsn.tb_finalize]) :=
  ⟨by decide, by decide,
   (gen_code_highwater exCfg exMoviFull 0
      ((tcg_liveness_analysis exCfg exMoviFull).getD exMoviFull) [0, 2]
      (by decide) (by decide)).1,
   by decide, by decide⟩

/-! ### Labels that have their value keep it -/

theorem labLe_refl (s : TCGContext) : LabLe s s :=
  ⟨rfl, fun _ _ h _ => h⟩

theorem labLe_trans (s a b : TCGContext) (h1 : LabLe s a) (h2 : LabLe a b) : LabLe s b :=
  ⟨h2.len.trans h1.len, fun i lab hi hv => h2.keep i lab (h1.keep i lab hi hv) hv⟩

theorem labLe_of_eq (s a : TCGContext) (h : a.labels = s.labels) : LabLe s a :=
  ⟨by rw [h], fun i lab hi _ => by rw [h]; exact hi⟩

theorem labLe_of_coreL (s a : TCGContext) (h : coreL a = coreL s) : LabLe s a :=
  labLe_of_eq s a (show (coreL a).labels = (coreL s).labels from congrArg TCGContext.labels h)

theorem tcg_out_reloc_lab (s : TCGContext) (cp ty l : Nat) (ad : Int) :
    Post (tcg_out_reloc s cp ty l ad) (LabLe s) := by
  unfold tcg_out_reloc
  simp only [post_bind_iff, post_rd_iff]
  intro lab hlab
  have hlt := getElem?_lt_length _ _ _ hlab
  by_cases hv : lab.has_value = true
  · rw [if_pos hv]
    cases lab.u with
    | value v =>
      simp only [post_pure_iff]
      exact labLe_of_eq _ _ rfl
    | first_reloc rs => simp only [post_throw_iff]
  · rw [if_neg hv]
    cases lab.u with
    | value v => simp only [post_throw_iff]
    | first_reloc rs =>
      simp only [post_pure_iff]
      refine ⟨List.length_set _ _ _, fun i lab1 hi hv1 => ?_⟩
      have hne : l ≠ i := by
        intro e
        rw [← e, hlab] at hi
        cases hi
        exact hv hv1
      show (s.labels.set l _)[i]? = some lab1
      rw [List.getElem?_set_ne hne]
      exact hi

/-- `tcg_out_label` gives the label its value and leaves the labels that have theirs -/
theorem tcg_out_label_lab (s : TCGContext) (l ptr : Nat) :
    Post (tcg_out_label s l ptr) (fun a => LabLe s a
      ∧ a.labels[l]? = some { has_value := true, u := TCGLabelU.value ptr }) := by
  unfold tcg_out_label
  simp only [post_bind_iff, post_rd_iff]
  intro lab hlab
  have hlt := getElem?_lt_length _ _ _ hlab
  by_cases hv : lab.has_value = true
  · simp only [if_pos hv, post_bind_iff, post_throw_iff]
  · simp only [if_neg hv, post_bind_iff, post_pure_iff]
    cases lab.u with
    | value v => simp only [post_throw_iff]
    | first_reloc rs =>
      simp only [post_pure_iff]
      refine ⟨⟨List.length_set _ _ _, fun i lab1 hi hv1 => ?_⟩, List.getElem?_set_self hlt⟩
      have hne : l ≠ i := by
        intro e
        rw [← e, hlab] at hi
        cases hi
        exact hv hv1
      show (s.labels.set l _)[i]? = some lab1
      rw [List.getElem?_set_ne hne]
      exact hi

theorem tcg_out_op_lab (cfg : Config) (s : TCGContext) (opc : TCGOpcode)
    (na : List (Option TCGArg)) (ca : List (Option Nat)) :
    Post (tcg_out_op cfg s opc na ca) (LabLe s) := by
  unfold tcg_out_op
  apply post_foldlM_cont _ _ (fun a => LabLe s a) _ (tcg_out cfg s (HostInsn.op opc na ca))
    (labLe_of_eq s (tcg_out cfg s (HostInsn.op opc na ca)) rfl)
  · intro a i _ ha
    exact post_mono _ _ _ (tcg_out_reloc_lab a _ _ _ _) (fun b hb => labLe_trans _ _ _ ha hb)
  · exact fun _ h => h

theorem tcg_reg_alloc_op_lab (cfg : Config) (s : TCGContext) (df : TCGOpDef)
    (opc : TCGOpcode) (args : List TCGArg) (da sa : Nat) :
    Post (tcg_reg_alloc_op cfg s df opc args da sa) (LabLe s) := by
  unfold tcg_reg_alloc_op
  simp only [post_bind_iff]
  apply tcg_reg_alloc_op_args_frame
  intro acc hacc
  refine post_mono _ _ _ (tcg_out_op_lab cfg acc.s opc acc.new_args acc.const_args) ?_
  intro s1 h1
  have h2 : LabLe s s1 := labLe_trans _ _ _ (labLe_of_coreL _ _ hacc) h1
  apply post_foldlM_cont _ _ (fun a => LabLe s a) _ _ h2
  · intro a i _ ha
    apply alloc_op_finish_frame
    intro b hb
    exact labLe_trans _ _ _ ha (labLe_of_coreL _ _ hb)
  · exact fun _ h => h

theorem gen_insn_start_lab (cfg : Config) (s : TCGContext) (args : List TCGArg) (n : Int) :
    Post (gen_insn_start cfg s args n) (fun r => r.1.labels = s.labels) := by
  unfold gen_insn_start
  simp only [post_bind_iff, post_pure_iff, post_ite_iff, post_wr_iff]
  have loop : ∀ (s1 : TCGContext) (m : Int), s1.labels = s.labels →
      Post ((List.range cfg.TARGET_INSN_START_WORDS).foldlM (fun (s : TCGContext) i => do
        let a ← if cfg.TARGET_LONG_WIDER then do
            let hi ← rd args (i * 2 + 1)
            let lo ← rd args (i * 2)
            pure ((hi <<< 32) ||| lo)
          else rd args i
        let row ← rdi s.gen_insn_data m
        let row ← wr row i a
        let d ← wr s.gen_insn_data m.toNat row
        pure { s with gen_insn_data := d }) s1) (fun a => a.labels = s.labels) := by
    intro s1 m h1
    apply post_foldlM_cont _ _ (fun a => a.labels = s.labels) _ _ h1
    · intro a i _ ha
      simp only [post_bind_iff, post_pure_iff, post_throw_iff, post_ite_iff, post_rd_iff,
        post_rdi_iff, post_wr_iff]
      repeat' first
        | intro _
        | apply And.intro
        | exact ha
    · exact fun _ h => h
  refine ⟨fun _ _ => ?_, fun _ => ?_⟩
  · exact loop _ _ rfl
  · exact loop _ _ rfl

theorem gen_op_lab (cfg : Config) (s : TCGContext) (n : Int) (oi : Nat) :
    Post (gen_op cfg s n oi) (fun r => LabLe s r.1) := by
  unfold gen_op
  simp only [post_bind_iff, post_rd_iff]
  intro op _ da _ sa _
  split <;> simp only [post_bind_iff, post_pure_iff, post_throw_iff, post_ite_iff,
    post_rd_iff]
  · apply tcg_reg_alloc_mov_frame
    intro a ha
    apply check_regs_frame
    exact labLe_of_coreL _ _ ha
  · apply tcg_reg_alloc_mov_frame
    intro a ha
    apply check_regs_frame
    exact labLe_of_coreL _ _ ha
  · apply tcg_reg_alloc_movi_frame
    intro a ha
    apply check_regs_frame
    exact labLe_of_coreL _ _ ha
  · apply tcg_reg_alloc_movi_frame
    intro a ha
    apply check_regs_frame
    exact labLe_of_coreL _ _ ha
  · refine post_mono _ _ _ (gen_insn_start_lab cfg s _ n) ?_
    intro a ha
    apply check_regs_frame
    exact labLe_of_eq _ _ ha
  · intro a _
    apply temp_dead_frame
    intro b hb
    apply check_regs_frame
    exact labLe_of_coreL _ _ hb
  · apply tcg_reg_alloc_bb_end_frame
    intro l _
    refine post_mono _ _ _ (tcg_out_label_lab s l s.code_ptr) ?_
    intro b hb
    apply check_regs_frame
    exact hb.1
  · apply tcg_reg_alloc_call_frame
    intro a ha
    apply check_regs_frame
    exact labLe_of_coreL _ _ ha
  · refine ⟨fun _ => True.intro, fun _ => ?_⟩
    refine post_mono _ _ _ (tcg_reg_alloc_op_lab cfg s _ _ _ _ _) ?_
    intro a ha
    apply check_regs_frame
    exact ha

/-- the op `set_label` gives the label it names its value -/
theorem gen_op_set_label (cfg : Config) (s : TCGContext) (n : Int) (oi : Nat) :
    Post (gen_op cfg s n oi) (fun r => ∀ (op : TCGOp) (lbl : TCGArg),
      s.gen_op_buf[oi]? = some op → op.opc = TCGOpcode.set_label → 0 ≤ op.args →
      s.gen_opparam_buf[op.args.toNat]? = some lbl →
      ∃ ptr, r.1.labels[lbl]? = some { has_value := true, u := TCGLabelU.value ptr }) := by
  unfold gen_op
  simp only [post_bind_iff, post_rd_iff]
  intro op hop da _ sa _
  by_cases hsl : op.opc = TCGOpcode.set_label
  · simp only [hsl, post_bind_iff, post_pure_iff, post_rd_iff]
    apply tcg_reg_alloc_bb_end_frame
    intro l hl
    refine post_mono _ _ _ (tcg_out_label_lab s l s.code_ptr) ?_
    intro b hb
    apply check_regs_frame
    intro op1 lbl hop1 _ h0 harg
    rw [hop] at hop1
    cases hop1
    rw [if_pos h0, List.getElem?_drop, Nat.add_zero, harg] at hl
    cases hl
    exact ⟨_, hb.2⟩
  · rw [post_def]
    intro r _ op1 lbl hop1 hopc _ _
    rw [hop] at hop1
    cases hop1
    exact absurd hopc hsl

theorem gen_ops_lab (cfg : Config) (l : List Nat) :
    ∀ (s : TCGContext) (n : Int) (r : GenLoop), gen_ops cfg l s n = Except.ok r →
      LabLe s r.ctx := by
  induction l with
  | nil =>
    intro s n r h
    cases h
    exact labLe_refl s
  | cons oi t ih =>
    intro s n r h
    rw [gen_ops_cons] at h
    cases hg : gen_op cfg s n oi with
    | error e =>
      rw [hg] at h
      cases h
    | ok p =>
      rw [hg] at h
      simp only [except_ok_bind] at h
      have k1 := (post_def _ _).mp (gen_op_lab cfg s n oi) p hg
      by_cases hov : p.1.code_ptr > p.1.code_gen_highwater
      · rw [if_pos hov] at h
        cases h
        exact k1
      · rw [if_neg hov] at h
        exact labLe_trans _ _ _ k1 (ih p.1 p.2 r h)

/-- C10, amended.  When the liveness pass returns and the traversal of the op list ends,
giving the list `l`: an op handed to the switch of `tcg_gen_code` leaves every label that
has its value as it is; and after `tcg_gen_code` has returned a size, every label that a
`set_label` op of `l` names has its value, and so carries no list of relocations. -/
theorem labels_after_gen_code (cfg : Config) (s : TCGContext) (gen_code_buf : Nat)
    (s1 : TCGContext) (l : List Nat)
    (hl : tcg_liveness_analysis cfg (cfg.tcg_optimize s) = some s1)
    (hw : walk_next s1.gen_op_buf s1.gen_op_buf.length s1.gen_first_op_idx = some l) :
    (∀ (s0 : TCGContext) (n : Int) (oi : Nat) (r : TCGContext × Int),
      gen_op cfg s0 n oi = Except.ok r → LabLe s0 r.1)
    ∧ (∀ (v : Int) (s2 : TCGContext), tcg_gen_code cfg s gen_code_buf = Except.ok (v, s2) →
        v ≠ -1 →
        ∀ (oi : Nat) (op : TCGOp) (lbl : TCGArg), oi ∈ l → s1.gen_op_buf[oi]? = some op →
          op.opc = TCGOpcode.set_label → 0 ≤ op.args →
          s1.gen_opparam_buf[op.args.toNat]? = some lbl →
          ∃ ptr, s2.labels[lbl]? = some { has_value := true, u := TCGLabelU.value ptr }) := by
  refine ⟨fun s0 n oi r h => (post_def _ _).mp (gen_op_lab cfg s0 n oi) r h, ?_⟩
  intro v s2 hr hv oi op lbl hoi hop hopc h0 harg
  rw [tcg_gen_code_eq cfg s gen_code_buf s1 l hl hw] at hr
  cases hg : gen_ops cfg l (gen_entry cfg s1 gen_code_buf) (-1) with
  | error e =>
    rw [hg] at hr
    cases hr
  | ok r =>
    rw [hg, except_ok_bind] at hr
    cases r with
    | overflow s5 =>
      cases hr
      exact absurd rfl hv
    | done s5 n =>
      obtain ⟨l1, l2, e⟩ := List.append_of_mem hoi
      rw [e] at hg
      obtain ⟨sk, nk, p, g1, g2, _, g4⟩ := gen_ops_done_all cfg l1 oi l2 _ _ s5 n hg
      have hc := (gen_ops_inv cfg l1 _ _ _ g1).1
      have hb0 := congrArg TCGContext.gen_op_buf hc
      have hb : sk.gen_op_buf = s1.gen_op_buf := hb0
      have hp0 := congrArg TCGContext.gen_opparam_buf hc
      have hp : sk.gen_opparam_buf = s1.gen_opparam_buf := hp0
      obtain ⟨ptr, hptr⟩ := (post_def _ _).mp (gen_op_set_label cfg sk nk oi) p g2 op lbl
        (by rw [hb]; exact hop) hopc h0 (by rw [hp]; exact harg)
      have h5 : s5.labels[lbl]? = some { has_value := true, u := TCGLabelU.value ptr } :=
        (gen_ops_lab cfg l2 p.1 p.2 _ g4).keep lbl _ hptr rfl
      refine ⟨ptr, ?_⟩
      unfold gen_finish at hr
      by_cases hn : n < 0
      · simp only [if_pos hn] at hr
        cases hr
      · by_cases hlt : n.toNat < s5.gen_insn_end_off.length
        · simp only [if_neg hn, wr_ok _ _ _ hlt, pure_bind, except_ok_bind] at hr
          cases hr
          exact h5
        · simp only [if_neg hn, wr_oob _ _ _ (Nat.le_of_not_lt hlt), pure_bind,
            except_error_bind] at hr
          cases hr

/-- The claim C10 as it stands fails: `exBranch` is a branch to a label that no
`set_label` op places; `tcg_gen_code` returns the size 12 and the label is left without
a value, with the relocation of the branch on its list. -/
theorem labels_after_gen_code_counterexample :
    (tcg_gen_code exCfg exBranch 0).map (fun r => (r.1, r.2.labels))
      = Except.ok (12, [{ has_value := false, u := TCGLabelU.first_reloc [⟨0, 4, 0⟩] }]) := by
  decide

theorem labels_after_gen_code_witness :
    (tcg_gen_code exCfg exBranchLabel 0).map (fun r => (r.1, r.2.labels))
      = Except.ok (16, [{ has_value := true, u := TCGLabelU.value 8 }])
    ∧ ∃ ptr, (((tcg_gen_code exCfg exBranchLabel 0).toOption.getD (0, exBranchLabel)).2).labels[0]?
        = some { has_value := true, u := TCGLabelU.value ptr } :=
  ⟨by decide,
   (labels_after_gen_code exCfg exBranchLabel 0
      ((tcg_liveness_analysis exCfg exBranchLabel).getD exBranchLabel) [0, 1, 2, 3]
      (by decide) (by decide)).2 16
      (((tcg_gen_code exCfg exBranchLabel 0).toOption.getD (0, exBranchLabel)).2)
      (by decide) (by decide) 2 (exOp TCGOpcode.set_label 2 1 3) 0 (by decide) (by decide)
      rfl (by decide) (by decide)⟩


/-! ### The registers that a call clobbers -/

theorem post_all {α : Type} (x : Except Fault α) (P : α → Prop) (h : ∀ a, P a) :
    Post x P := by
  rw [post_def]
  exact fun a _ => h a

theorem temp_allocate_frame_regs (cfg : Config) (s : TCGContext) (k : Nat) :
    Post (temp_allocate_frame cfg s k) (fun a => a.reg_to_temp = s.reg_to_temp) := by
  unfold temp_allocate_frame
  simp only [post_bind_iff, post_pure_iff, post_throw_iff, post_ite_iff, post_rd_iff]
  intro x _
  exact ⟨fun _ => trivial, fun _ => rfl⟩

theorem tcg_reg_sync_regs (cfg : Config) (s : TCGContext) (reg : Nat) :
    Post (tcg_reg_sync cfg s reg) (fun a => a.reg_to_temp = s.reg_to_temp) := by
  unfold tcg_reg_sync
  simp only [post_bind_iff, post_pure_iff, post_throw_iff, post_ite_iff, post_rd_iff,
    post_rdi_iff]
  intro temp _ _ x _
  refine ⟨fun _ => trivial, fun _ => ?_⟩
  refine ⟨fun _ => ⟨fun _ => ?_, fun _ => ?_⟩, fun _ => ?_⟩
  · apply post_mono _ _ _ (temp_allocate_frame_regs cfg s _)
    intro a ha y _ z _
    exact ha
  · intro y _ z _
    rfl
  · intro y _
    rfl

/-- `tcg_reg_free` leaves the other entries of `reg_to_temp` as they are and puts the
owner of the register, if there is one, in MEM state -/
theorem tcg_reg_free_regs (cfg : Config) (s : TCGContext) (reg : Nat) :
    Post (tcg_reg_free cfg s reg) (fun a =>
      (∀ r, r ≠ reg → a.reg_to_temp[r]? = s.reg_to_temp[r]?)
      ∧ ∀ t : Nat, s.reg_to_temp[reg]? = some (t : Int) →
          ∃ ts1 : TCGTemp, a.temps[t]? = some ts1 ∧ ts1.val_type = TCGTempVal.MEM) := by
  unfold tcg_reg_free
  simp only [post_bind_iff, post_pure_iff, post_ite_iff, post_rd_iff]
  intro temp htemp
  refine ⟨fun _ => ?_, fun hc => ⟨fun _ _ => trivial, fun t ht => ?_⟩⟩
  · apply post_mono _ _ _ (tcg_reg_sync_regs cfg s reg)
    intro a ha
    simp only [post_rdi_iff, set_reg_to_temp, post_bind_iff, post_wr_iff, post_pure_iff]
    intro _ tq htq _
    refine ⟨fun r hr => ?_, fun t ht => ?_⟩
    · simp only [set_temp]
      rw [List.getElem?_set_ne (Ne.symm hr), ha]
    · rw [htemp] at ht
      cases ht
      simp only [set_temp, Int.toNat_ofNat] at htq ⊢
      rw [List.getElem?_set_self (getElem?_lt_length _ _ _ htq)]
      exact ⟨_, rfl, rfl⟩
  · rw [htemp] at ht
    cases ht
    exfalso
    apply hc
    simp only [bne_iff_ne, ne_eq]
    omega

/-- The loop over the registers that a call clobbers, after the registers below `k`:
those of them that a call clobbers have no owner, the entries of `reg_to_temp` from `k` on
are as in `s`, and the temps that owned a clobbered register below `k` in `s` are in MEM
state. -/
theorem clobber_regs_inv (cfg : Config) (s : TCGContext) :
    Post (clobber_regs cfg s) (fun a =>
      (∀ r, r < cfg.TCG_TARGET_NB_REGS →
        tcg_regset_test_reg cfg.tcg_target_call_clobber_regs r = true →
        a.reg_to_temp[r]? = some (-1))
      ∧ (∀ (r t : Nat), r < cfg.TCG_TARGET_NB_REGS →
        tcg_regset_test_reg cfg.tcg_target_call_clobber_regs r = true →
        s.reg_to_temp[r]? = some (t : Int) →
        ∃ ts1 : TCGTemp, a.temps[t]? = some ts1 ∧ ts1.val_type = TCGTempVal.MEM)) := by
  unfold clobber_regs
  refine post_mono _ _ _ (post_foldlM_range _ (fun k a =>
      (∀ r, r < k → tcg_regset_test_reg cfg.tcg_target_call_clobber_regs r = true →
        a.reg_to_temp[r]? = some (-1))
      ∧ (∀ r, k ≤ r → a.reg_to_temp[r]? = s.reg_to_temp[r]?)
      ∧ (∀ (r t : Nat), r < k →
        tcg_regset_test_reg cfg.tcg_target_call_clobber_regs r = true →
        s.reg_to_temp[r]? = some (t : Int) →
        ∃ ts1 : TCGTemp, a.temps[t]? = some ts1 ∧ ts1.val_type = TCGTempVal.MEM))
      cfg.TCG_TARGET_NB_REGS s ?h0 ?hstep) ?fin
  case h0 =>
    exact ⟨fun r hr => absurd hr (Nat.not_lt_zero r), fun _ _ => rfl,
      fun r t hr => absurd hr (Nat.not_lt_zero r)⟩
  case fin =>
    rintro a ⟨i1, _, i3⟩
    exact ⟨i1, i3⟩
  case hstep =>
    rintro k a hk ⟨i1, i2, i3⟩
    by_cases ht : tcg_regset_test_reg cfg.tcg_target_call_clobber_regs k = true
    · simp only [if_pos ht]
      rw [post_def]
      intro b hb
      have f1 := (post_def _ _).mp (tcg_reg_free_no_owner cfg a k) b hb
      obtain ⟨f2, f3⟩ := (post_def _ _).mp (tcg_reg_free_regs cfg a k) b hb
      refine ⟨fun r hr htr => ?_, fun r hr => ?_, fun r t hr htr hst => ?_⟩
      · by_cases e : r = k
        · rw [e]
          exact f1
        · rw [f2 r e]
          exact i1 r (by omega) htr
      · rw [f2 r (by omega)]
        exact i2 r (by omega)
      · by_cases e : r = k
        · subst e
          exact f3 t (by rw [i2 r (Nat.le_refl r)]; exact hst)
        · obtain ⟨ts1, h1, h2⟩ := i3 r t (by omega) htr hst
          exact ⟨ts1, (post_def _ _).mp (tcg_reg_free_keeps cfg a k t ts1 h1
            (by rw [h2]; intro h; cases h)) b hb, h2⟩
    · simp only [if_neg ht, post_pure_iff]
      refine ⟨fun r hr htr => ?_, fun r hr => i2 r (by omega), fun r t hr htr hst => ?_⟩
      · by_cases e : r = k
        · rw [e] at htr
          exact absurd htr ht
        · exact i1 r (by omega) htr
      · by_cases e : r = k
        · rw [e] at htr
          exact absurd htr ht
        · exact i3 r t (by omega) htr hst

theorem temp_allocate_frame_out (cfg : Config) (s : TCGContext) (k : Nat) :
    Post (temp_allocate_frame cfg s k) (fun a => a.out = s.out
      ∧ ∃ ts0 : TCGTemp, a.temps[k]? = some ts0 ∧ ts0.mem_allocated = true) := by
  unfold temp_allocate_frame
  simp only [post_bind_iff, post_pure_iff, post_throw_iff, post_ite_iff, post_rd_iff]
  intro x hx
  refine ⟨fun _ => trivial, fun _ => ⟨rfl, ?_⟩⟩
  simp only [set_temp]
  rw [List.getElem?_set_self (getElem?_lt_length _ _ _ hx)]
  exact ⟨_, rfl, rfl⟩

/-- `tcg_reg_sync` emits nothing when the owner of the register is coherent with memory
or `fixed_reg`, and otherwise one store of the register to the slot of the owner -/
theorem tcg_reg_sync_out (cfg : Config) (s : TCGContext) (reg : Nat) :
    Post (tcg_reg_sync cfg s reg) (fun a => ∀ (t : Nat) (ts : TCGTemp),
      s.reg_to_temp[reg]? = some (t : Int) → s.temps[t]? = some ts →
      ((ts.mem_coherent = true ∨ ts.fixed_reg = true) → a.out = s.out)
      ∧ (ts.mem_coherent = false → ts.fixed_reg = false →
          ∃ ts1 : TCGTemp, a.temps[t]? = some ts1 ∧ ts1.mem_allocated = true
            ∧ a.out = s.out ++ [HostInsn.st ts1.type reg ts1.mem_reg ts1.mem_offset])) := by
  unfold tcg_reg_sync
  simp only [post_bind_iff, post_pure_iff, post_throw_iff, post_ite_iff, post_rd_iff,
    post_rdi_iff]
  intro temp htemp _ x hx
  refine ⟨fun _ => trivial, fun _ => ?_⟩
  refine ⟨fun hc => ⟨fun _ => ?_, fun hm => ?_⟩, fun hc => ?_⟩
  · apply post_mono _ _ _ (temp_allocate_frame_out cfg s temp.toNat)
    rintro a ⟨ho, ts0, h0, hm0⟩
    intro y hy z hz t ts ht hts
    rw [htemp] at ht
    cases ht
    simp only [Int.toNat_ofNat] at hx hy hz h0
    rw [hts] at hx
    cases hx
    rw [h0] at hy
    cases hy
    have hz1 : a.temps[t]? = some z := hz
    rw [h0] at hz1
    cases hz1
    refine ⟨fun h => ?_, fun _ _ => ?_⟩
    · exfalso
      rcases h with h | h <;> simp [h] at hc
    · simp only [set_temp, tcg_out, Int.toNat_ofNat]
      rw [List.getElem?_set_self (getElem?_lt_length _ _ _ h0), ho]
      exact ⟨_, rfl, hm0, rfl⟩
  · intro y hy z hz t ts ht hts
    rw [htemp] at ht
    cases ht
    simp only [Int.toNat_ofNat] at hx hy hz
    rw [hts] at hx
    cases hx
    rw [hts] at hy
    cases hy
    have hz1 : s.temps[t]? = some z := hz
    rw [hts] at hz1
    cases hz1
    refine ⟨fun h => ?_, fun _ _ => ?_⟩
    · exfalso
      rcases h with h | h <;> simp [h] at hc
    · simp only [set_temp, tcg_out, Int.toNat_ofNat]
      rw [List.getElem?_set_self (getElem?_lt_length _ _ _ hts)]
      refine ⟨_, rfl, ?_, rfl⟩
      simpa using hm
  · intro y hy t ts ht hts
    rw [htemp] at ht
    cases ht
    simp only [Int.toNat_ofNat] at hx hy
    rw [hts] at hx
    cases hx
    refine ⟨fun _ => rfl, fun h1 h2 => ?_⟩
    exfalso
    rw [h1, h2] at hc
    exact hc rfl

/-- `tcg_reg_free` emits nothing when the owner of the register is coherent with memory
or `fixed_reg`, and otherwise one store of the register to the slot of the owner -/
theorem tcg_reg_free_out (cfg : Config) (s : TCGContext) (reg : Nat) :
    Post (tcg_reg_free cfg s reg) (fun a => ∀ (t : Nat) (ts : TCGTemp),
      s.reg_to_temp[reg]? = some (t : Int) → s.temps[t]? = some ts →
      ((ts.mem_coherent = true ∨ ts.fixed_reg = true) → a.out = s.out)
      ∧ (ts.mem_coherent = false → ts.fixed_reg = false →
          ∃ ts1 : TCGTemp, a.temps[t]? = some ts1 ∧ ts1.mem_allocated = true
            ∧ a.out = s.out ++ [HostInsn.st ts1.type reg ts1.mem_reg ts1.mem_offset])) := by
  unfold tcg_reg_free
  simp only [post_bind_iff, post_pure_iff, post_ite_iff, post_rd_iff]
  intro temp htemp
  refine ⟨fun _ => ?_, fun hc => ?_⟩
  · apply post_mono _ _ _ (tcg_reg_sync_out cfg s reg)
    intro a ha
    simp only [post_rdi_iff, set_reg_to_temp, post_bind_iff, post_wr_iff, post_pure_iff]
    intro _ tq htq _ t ts ht hts
    obtain ⟨k1, k2⟩ := ha t ts ht hts
    rw [htemp] at ht
    cases ht
    simp only [Int.toNat_ofNat] at htq
    refine ⟨fun h => k1 h, fun h1 h2 => ?_⟩
    obtain ⟨ts1, e1, e2, e3⟩ := k2 h1 h2
    rw [e1] at htq
    cases htq
    simp only [set_temp, Int.toNat_ofNat]
    rw [List.getElem?_set_self (getElem?_lt_length _ _ _ e1)]
    exact ⟨_, rfl, e2, e3⟩
  · intro t ts ht _
    rw [htemp] at ht
    cases ht
    exfalso
    apply hc
    simp only [bne_iff_ne, ne_eq]
    omega

theorem temp_dead_out (s : TCGContext) (t : Nat) :
    Post (temp_dead s t) (fun a => a.out = s.out) := by
  unfold temp_dead
  simp only [post_bind_iff, post_pure_iff, post_ite_iff, post_rd_iff, set_reg_to_temp,
    post_wr_iff]
  intro ts _
  repeat' first
    | intro _
    | apply And.intro
    | exact True.intro
    | rfl

/-- C8, amended.  `tcg_reg_alloc_call` is the set-up of the call, the call, then the loop
over the outputs.  When the set-up returns, at the point where `tcg_out_call` is emitted,
every register below `TCG_TARGET_NB_REGS` that a call clobbers has no owner.  The loop
over the clobbered registers leaves every temp that owned such a register when the loop
started in MEM state; each `tcg_reg_free` of that loop emits nothing when the owner is
coherent with memory or `fixed_reg`, and otherwise one store of the register to the slot
of the owner; `temp_dead`, which releases an input flagged dead before that loop, emits
nothing.  After the loop the globals are left alone when the flags hold
`TCG_CALL_NO_READ_GLOBALS`, handed to `sync_globals` when they hold
`TCG_CALL_NO_WRITE_GLOBALS` only, and to `save_globals` otherwise; both return the context
unchanged when they return. -/
theorem call_clobber_state (cfg : Config) (s : TCGContext) (no ni : Nat)
    (args : List TCGArg) (da sa : Nat) :
    (tcg_reg_alloc_call cfg s no ni args da sa
      = (rd args (no + ni) >>= fun f =>
          tcg_reg_alloc_call_setup cfg s no ni args da >>= fun s1 =>
            (List.range no).foldlM (call_output cfg args da sa)
              (tcg_out cfg s1 (HostInsn.call f))))
    ∧ (∀ s1, tcg_reg_alloc_call_setup cfg s no ni args da = Except.ok s1 →
        ∀ r, r < cfg.TCG_TARGET_NB_REGS →
          tcg_regset_test_reg cfg.tcg_target_call_clobber_regs r = true →
          s1.reg_to_temp[r]? = some (-1))
    ∧ (∀ s0 s1, clobber_regs cfg s0 = Except.ok s1 →
        ∀ (r t : Nat), r < cfg.TCG_TARGET_NB_REGS →
          tcg_regset_test_reg cfg.tcg_target_call_clobber_regs r = true →
          s0.reg_to_temp[r]? = some (t : Int) →
          ∃ ts1 : TCGTemp, s1.temps[t]? = some ts1 ∧ ts1.val_type = TCGTempVal.MEM)
    ∧ (∀ (s0 : TCGContext) (r : Nat) (a : TCGContext) (t : Nat) (ts : TCGTemp),
        tcg_reg_free cfg s0 r = Except.ok a →
        s0.reg_to_temp[r]? = some (t : Int) → s0.temps[t]? = some ts →
        ((ts.mem_coherent = true ∨ ts.fixed_reg = true) → a.out = s0.out)
        ∧ (ts.mem_coherent = false → ts.fixed_reg = false →
            ∃ ts1 : TCGTemp, a.temps[t]? = some ts1 ∧ ts1.mem_allocated = true
              ∧ a.out = s0.out ++ [HostInsn.st ts1.type r ts1.mem_reg ts1.mem_offset]))
    ∧ (∀ (s0 : TCGContext) (t : Nat) (a : TCGContext),
        temp_dead s0 t = Except.ok a → a.out = s0.out)
    ∧ (∀ (s0 : TCGContext) (flags : Nat) (ar : TCGRegSet),
        call_clobber_globals cfg s0 args da no ni flags ar
          = (dead_inputs s0 args da no ni >>= fun sA =>
              clobber_regs cfg sA >>= fun sB =>
                if flag flags cfg.TCG_CALL_NO_READ_GLOBALS then pure sB
                else if flag flags cfg.TCG_CALL_NO_WRITE_GLOBALS then sync_globals sB ar
                else save_globals sB ar))
    ∧ (∀ (s0 : TCGContext) (ar : TCGRegSet) (a : TCGContext),
        sync_globals s0 ar = Except.ok a → a = s0)
    ∧ (∀ (s0 : TCGContext) (ar : TCGRegSet) (a : TCGContext),
        save_globals s0 ar = Except.ok a → a = s0) := by
  refine ⟨rfl, ?_, ?_, ?_, ?_, fun _ _ _ => rfl, ?_, ?_⟩
  · rw [← post_def]
    unfold tcg_reg_alloc_call_setup call_clobber_globals
    simp only [post_bind_iff, post_ite_iff, post_throw_iff, post_pure_iff]
    apply post_all
    intro flags
    refine ⟨fun _ => trivial, fun _ => ?_⟩
    apply post_all
    intro p
    apply post_all
    intro q
    apply post_all
    intro sA
    refine post_mono _ _ _ (clobber_regs_inv cfg sA) ?_
    rintro sB ⟨i1, _⟩
    refine ⟨fun _ => i1, fun _ => ⟨fun _ => ?_, fun _ => ?_⟩⟩
    · exact sync_globals_frame sB _ _ i1
    · exact save_globals_frame sB _ _ i1
  · intro s0 s1 h
    exact ((post_def _ _).mp (clobber_regs_inv cfg s0) s1 h).2
  · intro s0 r a t ts h
    exact (post_def _ _).mp (tcg_reg_free_out cfg s0 r) a h t ts
  · intro s0 t a h
    exact (post_def _ _).mp (temp_dead_out s0 t) a h
  · intro s0 ar a h
    exact (post_def _ _).mp (sync_globals_frame s0 ar (fun a => a = s0) rfl) a h
  · intro s0 ar a h
    exact (post_def _ _).mp (save_globals_frame s0 ar (fun a => a = s0) rfl) a h

/-- The claim C8 as it stands fails: in `exCallDies` the temp 1 is in the register 2, which
a call clobbers, and is the input, flagged dead, of a call.  At the point where
`tcg_out_call` is emitted the temp is in DEAD state, not MEM, and the only instruction
emitted is the move of the argument to its register: no store. -/
theorem call_clobber_state_counterexample :
    tcg_regset_test_reg exCfg.tcg_target_call_clobber_regs 2 = true
    ∧ exCallDies.reg_to_temp[2]? = some 1
    ∧ (tcg_reg_alloc_call_setup exCfg exCallDies 0 1 [1, 0xf000, 0x70] 1).map
        (fun s => (s.out, s.temps.map (fun t => t.val_type), s.reg_to_temp))
      = Except.ok ([HostInsn.mov TCGType.I32 0 2], [TCGTempVal.REG, TCGTempVal.DEAD],
          [-1, -1, -1, -1, -1, -1, -1, -1]) := by
  refine ⟨by decide, by decide, by decide⟩

theorem call_clobber_state_witness :
    (tcg_reg_alloc_call_setup exCfg exCallDies 0 1 [1, 0xf000, 0x70] 0).map
        (fun s => (s.out, s.temps.map (fun t => t.val_type)))
      = Except.ok ([HostInsn.mov TCGType.I32 0 2, HostInsn.st TCGType.I32 2 7 0],
          [TCGTempVal.REG, TCGTempVal.MEM])
    ∧ ((tcg_reg_alloc_call_setup exCfg exCallDies 0 1 [1, 0xf000, 0x70] 0).toOption.getD
        exCallDies).reg_to_temp[2]? = some (-1) :=
  ⟨by decide,
   (call_clobber_state exCfg exCallDies 0 1 [1, 0xf000, 0x70] 0 0).2.1
     ((tcg_reg_alloc_call_setup exCfg exCallDies 0 1 [1, 0xf000, 0x70] 0).toOption.getD
        exCallDies) (by decide) 2 (by decide) (by decide)⟩


/-! ### The owners of the host registers -/

theorem sameOwn_refl (s : TCGContext) : SameOwn s s := ⟨rfl, rfl, fun _ => rfl⟩

end TCG
